import Mathlib

/-!
# GLSL IR to TGSI lowering and buffer-access offsets

A shallow embedding of `st_glsl_to_tgsi.cpp` (register model, instruction
emission, the local optimizer passes) and of `lower_buffer_access.cpp`
(offset computation), followed by theorems about them.

Conventions of the embedding:

* C `int` fields that hold register indices are `Int`; bitfields
  (`writemask`, `dead_mask`, `swizzle`) are `Nat` and are only combined with
  the bit operations the source uses.
* Nullable pointers are explicit (`st_src_reg_ptr.NULL`), pointers into the
  instruction list are positions in that list.
* A failed `assert`, an out-of-bounds table access and `exit(1)` are `none`.
-/

set_option autoImplicit false

/-! ## Enumerations declared outside the translated files -/

/-- Modelled from the spec: `enum glsl_base_type` of `glsl_types.h` (not part of
the translated sources), with the enumerators the translated code names. -/
inductive glsl_base_type
  | GLSL_TYPE_UINT
  | GLSL_TYPE_INT
  | GLSL_TYPE_FLOAT
  | GLSL_TYPE_DOUBLE
  | GLSL_TYPE_BOOL
  | GLSL_TYPE_SAMPLER
  | GLSL_TYPE_IMAGE
  | GLSL_TYPE_ATOMIC_UINT
  | GLSL_TYPE_STRUCT
  | GLSL_TYPE_INTERFACE
  | GLSL_TYPE_ARRAY
  | GLSL_TYPE_VOID
  | GLSL_TYPE_SUBROUTINE
  | GLSL_TYPE_ERROR
  deriving DecidableEq, Repr

open glsl_base_type

/-- Modelled from the spec: `gl_register_file` of `mtypes.h` (not part of the
translated sources), with `PROGRAM_IMMEDIATE` standing for `PROGRAM_FILE_MAX`
as `st_glsl_to_tgsi.cpp` defines it. -/
inductive gl_register_file
  | PROGRAM_TEMPORARY
  | PROGRAM_ARRAY
  | PROGRAM_INPUT
  | PROGRAM_OUTPUT
  | PROGRAM_STATE_VAR
  | PROGRAM_CONSTANT
  | PROGRAM_UNIFORM
  | PROGRAM_WRITE_ONLY
  | PROGRAM_ADDRESS
  | PROGRAM_SAMPLER
  | PROGRAM_SYSTEM_VALUE
  | PROGRAM_UNDEFINED
  | PROGRAM_IMMEDIATE
  deriving DecidableEq, Repr

open gl_register_file

/-- Modelled from the spec: the `TGSI_OPCODE_*` constants of `p_shader_tokens.h`
(not part of the translated sources) that `st_glsl_to_tgsi.cpp` names, directly
or through the token pasting of `get_opcode`. -/
inductive tgsi_opcode
  | TGSI_OPCODE_ARL | TGSI_OPCODE_MOV | TGSI_OPCODE_RCP | TGSI_OPCODE_RSQ
  | TGSI_OPCODE_SQRT | TGSI_OPCODE_MUL | TGSI_OPCODE_ADD | TGSI_OPCODE_DP3
  | TGSI_OPCODE_DP4 | TGSI_OPCODE_MIN | TGSI_OPCODE_MAX | TGSI_OPCODE_SLT
  | TGSI_OPCODE_SGE | TGSI_OPCODE_MAD | TGSI_OPCODE_SUB | TGSI_OPCODE_LRP
  | TGSI_OPCODE_FMA | TGSI_OPCODE_FRC | TGSI_OPCODE_FLR | TGSI_OPCODE_ROUND
  | TGSI_OPCODE_EX2 | TGSI_OPCODE_LG2 | TGSI_OPCODE_POW | TGSI_OPCODE_ABS
  | TGSI_OPCODE_COS | TGSI_OPCODE_DDX | TGSI_OPCODE_DDY | TGSI_OPCODE_KILL
  | TGSI_OPCODE_SEQ | TGSI_OPCODE_SIN | TGSI_OPCODE_SNE | TGSI_OPCODE_TEX
  | TGSI_OPCODE_TXD | TGSI_OPCODE_TXP | TGSI_OPCODE_UARL | TGSI_OPCODE_CAL
  | TGSI_OPCODE_RET | TGSI_OPCODE_SSG | TGSI_OPCODE_CMP | TGSI_OPCODE_SCS
  | TGSI_OPCODE_TXB | TGSI_OPCODE_DIV | TGSI_OPCODE_DP2 | TGSI_OPCODE_TXL
  | TGSI_OPCODE_BRK | TGSI_OPCODE_IF | TGSI_OPCODE_UIF | TGSI_OPCODE_ELSE
  | TGSI_OPCODE_ENDIF | TGSI_OPCODE_DDX_FINE | TGSI_OPCODE_DDY_FINE
  | TGSI_OPCODE_CEIL | TGSI_OPCODE_I2F | TGSI_OPCODE_NOT | TGSI_OPCODE_TRUNC
  | TGSI_OPCODE_SHL | TGSI_OPCODE_AND | TGSI_OPCODE_OR | TGSI_OPCODE_MOD
  | TGSI_OPCODE_XOR | TGSI_OPCODE_TXF | TGSI_OPCODE_TXQ | TGSI_OPCODE_CONT
  | TGSI_OPCODE_EMIT | TGSI_OPCODE_ENDPRIM | TGSI_OPCODE_BGNLOOP
  | TGSI_OPCODE_BGNSUB | TGSI_OPCODE_ENDLOOP | TGSI_OPCODE_ENDSUB
  | TGSI_OPCODE_TXQS | TGSI_OPCODE_NOP | TGSI_OPCODE_FSEQ | TGSI_OPCODE_FSGE
  | TGSI_OPCODE_FSLT | TGSI_OPCODE_FSNE | TGSI_OPCODE_KILL_IF | TGSI_OPCODE_END
  | TGSI_OPCODE_F2I | TGSI_OPCODE_IDIV | TGSI_OPCODE_IMAX | TGSI_OPCODE_IMIN
  | TGSI_OPCODE_INEG | TGSI_OPCODE_ISGE | TGSI_OPCODE_ISHR | TGSI_OPCODE_ISLT
  | TGSI_OPCODE_F2U | TGSI_OPCODE_U2F | TGSI_OPCODE_UADD | TGSI_OPCODE_UDIV
  | TGSI_OPCODE_UMAD | TGSI_OPCODE_UMAX | TGSI_OPCODE_UMIN | TGSI_OPCODE_UMOD
  | TGSI_OPCODE_UMUL | TGSI_OPCODE_USEQ | TGSI_OPCODE_USGE | TGSI_OPCODE_USHR
  | TGSI_OPCODE_USLT | TGSI_OPCODE_USNE | TGSI_OPCODE_TXB2 | TGSI_OPCODE_TXL2
  | TGSI_OPCODE_TEX2 | TGSI_OPCODE_TG4 | TGSI_OPCODE_LODQ | TGSI_OPCODE_UCMP
  | TGSI_OPCODE_IABS | TGSI_OPCODE_ISSG | TGSI_OPCODE_BARRIER
  | TGSI_OPCODE_IMUL_HI | TGSI_OPCODE_UMUL_HI | TGSI_OPCODE_IBFE
  | TGSI_OPCODE_UBFE | TGSI_OPCODE_BFI | TGSI_OPCODE_BREV | TGSI_OPCODE_POPC
  | TGSI_OPCODE_LSB | TGSI_OPCODE_IMSB | TGSI_OPCODE_UMSB
  | TGSI_OPCODE_INTERP_CENTROID | TGSI_OPCODE_INTERP_SAMPLE
  | TGSI_OPCODE_INTERP_OFFSET | TGSI_OPCODE_F2D | TGSI_OPCODE_D2F
  | TGSI_OPCODE_DABS | TGSI_OPCODE_DNEG | TGSI_OPCODE_DADD | TGSI_OPCODE_DMUL
  | TGSI_OPCODE_DMAX | TGSI_OPCODE_DMIN | TGSI_OPCODE_DSLT | TGSI_OPCODE_DSGE
  | TGSI_OPCODE_DSEQ | TGSI_OPCODE_DSNE | TGSI_OPCODE_DRCP | TGSI_OPCODE_DSQRT
  | TGSI_OPCODE_DMAD | TGSI_OPCODE_DFRAC | TGSI_OPCODE_DLDEXP
  | TGSI_OPCODE_DFRACEXP | TGSI_OPCODE_D2I | TGSI_OPCODE_I2D | TGSI_OPCODE_D2U
  | TGSI_OPCODE_U2D | TGSI_OPCODE_DRSQ | TGSI_OPCODE_DTRUNC | TGSI_OPCODE_DCEIL
  | TGSI_OPCODE_DFLR | TGSI_OPCODE_DROUND | TGSI_OPCODE_DSSG | TGSI_OPCODE_DFMA
  | TGSI_OPCODE_LAST
  deriving DecidableEq, Repr

open tgsi_opcode

/-- Modelled from the spec: the fields of `struct tgsi_opcode_info`
(`tgsi_info.h`, not part of the translated sources) that the translated code
reads.  The table `tgsi_get_opcode_info` itself is a parameter wherever an
instruction is created. -/
structure tgsi_opcode_info where
  num_dst : Nat
  num_src : Nat
  is_tex : Bool
  is_branch : Bool
  deriving DecidableEq, Repr

/-! ## Swizzle and write-mask macros (`prog_instruction.h`) -/

/-- Modelled from the spec: `SWIZZLE_X` .. `SWIZZLE_W` of `prog_instruction.h`. -/
def SWIZZLE_X : Nat := 0
/-- Modelled from the spec: `SWIZZLE_Y` of `prog_instruction.h`. -/
def SWIZZLE_Y : Nat := 1
/-- Modelled from the spec: `SWIZZLE_Z` of `prog_instruction.h`. -/
def SWIZZLE_Z : Nat := 2
/-- Modelled from the spec: `SWIZZLE_W` of `prog_instruction.h`. -/
def SWIZZLE_W : Nat := 3

/-- Modelled from the spec: macro `MAKE_SWIZZLE4(a,b,c,d)` of
`prog_instruction.h`, three bits per channel, channel 0 lowest. -/
def MAKE_SWIZZLE4 (a b c d : Nat) : Nat :=
  (a <<< 0) ||| (b <<< 3) ||| (c <<< 6) ||| (d <<< 9)

/-- Modelled from the spec: macro `GET_SWZ(swz, idx)` of `prog_instruction.h`. -/
def GET_SWZ (swz idx : Nat) : Nat := (swz >>> (idx * 3)) &&& 0x7

/-- Modelled from the spec: `SWIZZLE_XYZW` (that is also `SWIZZLE_NOOP`). -/
def SWIZZLE_XYZW : Nat := MAKE_SWIZZLE4 SWIZZLE_X SWIZZLE_Y SWIZZLE_Z SWIZZLE_W
/-- Modelled from the spec: `SWIZZLE_NOOP` of `prog_instruction.h`. -/
def SWIZZLE_NOOP : Nat := MAKE_SWIZZLE4 SWIZZLE_X SWIZZLE_Y SWIZZLE_Z SWIZZLE_W
/-- Modelled from the spec: `SWIZZLE_XXXX` of `prog_instruction.h`. -/
def SWIZZLE_XXXX : Nat := MAKE_SWIZZLE4 SWIZZLE_X SWIZZLE_X SWIZZLE_X SWIZZLE_X
/-- Modelled from the spec: `SWIZZLE_YYYY` of `prog_instruction.h`. -/
def SWIZZLE_YYYY : Nat := MAKE_SWIZZLE4 SWIZZLE_Y SWIZZLE_Y SWIZZLE_Y SWIZZLE_Y
/-- Modelled from the spec: `SWIZZLE_ZZZZ` of `prog_instruction.h`. -/
def SWIZZLE_ZZZZ : Nat := MAKE_SWIZZLE4 SWIZZLE_Z SWIZZLE_Z SWIZZLE_Z SWIZZLE_Z
/-- Modelled from the spec: `SWIZZLE_WWWW` of `prog_instruction.h`. -/
def SWIZZLE_WWWW : Nat := MAKE_SWIZZLE4 SWIZZLE_W SWIZZLE_W SWIZZLE_W SWIZZLE_W

/-- Modelled from the spec: `WRITEMASK_X` of `prog_instruction.h`. -/
def WRITEMASK_X : Nat := 0x1
/-- Modelled from the spec: `WRITEMASK_Y` of `prog_instruction.h`. -/
def WRITEMASK_Y : Nat := 0x2
/-- Modelled from the spec: `WRITEMASK_XY` of `prog_instruction.h`. -/
def WRITEMASK_XY : Nat := 0x3
/-- Modelled from the spec: `WRITEMASK_Z` of `prog_instruction.h`. -/
def WRITEMASK_Z : Nat := 0x4
/-- Modelled from the spec: `WRITEMASK_W` of `prog_instruction.h`. -/
def WRITEMASK_W : Nat := 0x8
/-- Modelled from the spec: `WRITEMASK_ZW` of `prog_instruction.h`. -/
def WRITEMASK_ZW : Nat := 0xc
/-- Modelled from the spec: `WRITEMASK_XYZW` of `prog_instruction.h`. -/
def WRITEMASK_XYZW : Nat := 0xf

/-- Modelled from the spec: `COND_TR` of `prog_instruction.h`. -/
def COND_TR : Nat := 8

/-- The C operator `~` on an `int` (two's complement). -/
def int_not (n : Int) : Int := -n - 1

/-- The C expression `a & ~b` on non-negative 32-bit `int` bitfields. -/
def and_not (a b : Nat) : Nat := a &&& (0xFFFFFFFF ^^^ b)

/-! ## Registers (`st_src_reg`, `st_dst_reg`) -/

mutual
/-- Class `st_src_reg`; `reladdr` and `reladdr2` are nullable pointers to further
source registers. -/
inductive st_src_reg
  | mk (file : gl_register_file) (index : Int) (index2D : Int) (swizzle : Nat)
      (negate : Int) (type : glsl_base_type)
      (reladdr : st_src_reg_ptr) (reladdr2 : st_src_reg_ptr)
      (has_index2 : Bool) (double_reg2 : Bool) (array_id : Nat)
/-- A nullable `st_src_reg *`. -/
inductive st_src_reg_ptr
  | NULL
  | ptr (r : st_src_reg)
end

deriving instance DecidableEq for st_src_reg, st_src_reg_ptr

namespace st_src_reg_ptr

/-- The test `p != NULL`. -/
def isSet : st_src_reg_ptr → Bool
  | NULL => false
  | ptr _ => true

end st_src_reg_ptr

namespace st_src_reg

def file : st_src_reg → gl_register_file
  | mk f _ _ _ _ _ _ _ _ _ _ => f
def index : st_src_reg → Int
  | mk _ i _ _ _ _ _ _ _ _ _ => i
def index2D : st_src_reg → Int
  | mk _ _ i _ _ _ _ _ _ _ _ => i
def swizzle : st_src_reg → Nat
  | mk _ _ _ s _ _ _ _ _ _ _ => s
def negate : st_src_reg → Int
  | mk _ _ _ _ n _ _ _ _ _ _ => n
def type : st_src_reg → glsl_base_type
  | mk _ _ _ _ _ t _ _ _ _ _ => t
def reladdr : st_src_reg → st_src_reg_ptr
  | mk _ _ _ _ _ _ r _ _ _ _ => r
def reladdr2 : st_src_reg → st_src_reg_ptr
  | mk _ _ _ _ _ _ _ r _ _ _ => r
def has_index2 : st_src_reg → Bool
  | mk _ _ _ _ _ _ _ _ h _ _ => h
def double_reg2 : st_src_reg → Bool
  | mk _ _ _ _ _ _ _ _ _ d _ => d
def array_id : st_src_reg → Nat
  | mk _ _ _ _ _ _ _ _ _ _ a => a

def set_file (r : st_src_reg) (v : gl_register_file) : st_src_reg :=
  mk v r.index r.index2D r.swizzle r.negate r.type r.reladdr r.reladdr2
    r.has_index2 r.double_reg2 r.array_id
def set_index (r : st_src_reg) (v : Int) : st_src_reg :=
  mk r.file v r.index2D r.swizzle r.negate r.type r.reladdr r.reladdr2
    r.has_index2 r.double_reg2 r.array_id
def set_index2D (r : st_src_reg) (v : Int) : st_src_reg :=
  mk r.file r.index v r.swizzle r.negate r.type r.reladdr r.reladdr2
    r.has_index2 r.double_reg2 r.array_id
def set_swizzle (r : st_src_reg) (v : Nat) : st_src_reg :=
  mk r.file r.index r.index2D v r.negate r.type r.reladdr r.reladdr2
    r.has_index2 r.double_reg2 r.array_id
def set_negate (r : st_src_reg) (v : Int) : st_src_reg :=
  mk r.file r.index r.index2D r.swizzle v r.type r.reladdr r.reladdr2
    r.has_index2 r.double_reg2 r.array_id
def set_type (r : st_src_reg) (v : glsl_base_type) : st_src_reg :=
  mk r.file r.index r.index2D r.swizzle r.negate v r.reladdr r.reladdr2
    r.has_index2 r.double_reg2 r.array_id
def set_reladdr (r : st_src_reg) (v : st_src_reg_ptr) : st_src_reg :=
  mk r.file r.index r.index2D r.swizzle r.negate r.type v r.reladdr2
    r.has_index2 r.double_reg2 r.array_id
def set_reladdr2 (r : st_src_reg) (v : st_src_reg_ptr) : st_src_reg :=
  mk r.file r.index r.index2D r.swizzle r.negate r.type r.reladdr v
    r.has_index2 r.double_reg2 r.array_id
def set_has_index2 (r : st_src_reg) (v : Bool) : st_src_reg :=
  mk r.file r.index r.index2D r.swizzle r.negate r.type r.reladdr r.reladdr2
    v r.double_reg2 r.array_id
def set_double_reg2 (r : st_src_reg) (v : Bool) : st_src_reg :=
  mk r.file r.index r.index2D r.swizzle r.negate r.type r.reladdr r.reladdr2
    r.has_index2 v r.array_id
def set_array_id (r : st_src_reg) (v : Nat) : st_src_reg :=
  mk r.file r.index r.index2D r.swizzle r.negate r.type r.reladdr r.reladdr2
    r.has_index2 r.double_reg2 v

end st_src_reg

/-- Class `st_dst_reg`. -/
structure st_dst_reg where
  file : gl_register_file
  index : Int
  index2D : Int
  writemask : Nat
  cond_mask : Nat
  type : glsl_base_type
  reladdr : st_src_reg_ptr
  reladdr2 : st_src_reg_ptr
  has_index2 : Bool
  array_id : Nat
  deriving DecidableEq

/-- Constructor `st_src_reg(gl_register_file file, int index, int type)`. -/
def st_src_reg.ofType (file : gl_register_file) (index : Int) (type : glsl_base_type) :
    st_src_reg :=
  .mk file index 0 SWIZZLE_XYZW 0 type .NULL .NULL false false 0

/-- Constructor `st_src_reg(gl_register_file file, int index, int type, int index2D)`. -/
def st_src_reg.ofType2D (file : gl_register_file) (index : Int) (type : glsl_base_type)
    (index2D : Int) : st_src_reg :=
  .mk file index index2D SWIZZLE_XYZW 0 type .NULL .NULL false false 0

/-- Default constructor `st_src_reg()`. -/
def st_src_reg.default : st_src_reg :=
  .mk PROGRAM_UNDEFINED 0 0 0 0 GLSL_TYPE_ERROR .NULL .NULL false false 0

/-- Constructor `st_src_reg(st_dst_reg reg)`. -/
def st_src_reg.ofDst (reg : st_dst_reg) : st_src_reg :=
  .mk reg.file reg.index reg.index2D SWIZZLE_XYZW 0 reg.type reg.reladdr reg.reladdr2
    reg.has_index2 false reg.array_id

/-- Constructor `st_dst_reg(gl_register_file file, int writemask, int type, int index)`. -/
def st_dst_reg.ofIndex (file : gl_register_file) (writemask : Nat) (type : glsl_base_type)
    (index : Int) : st_dst_reg :=
  ⟨file, index, 0, writemask, COND_TR, type, .NULL, .NULL, false, 0⟩

/-- Constructor `st_dst_reg(gl_register_file file, int writemask, int type)`. -/
def st_dst_reg.ofType (file : gl_register_file) (writemask : Nat) (type : glsl_base_type) :
    st_dst_reg :=
  ⟨file, 0, 0, writemask, COND_TR, type, .NULL, .NULL, false, 0⟩

/-- Default constructor `st_dst_reg()`. -/
def st_dst_reg.default : st_dst_reg :=
  ⟨PROGRAM_UNDEFINED, 0, 0, 0, COND_TR, GLSL_TYPE_ERROR, .NULL, .NULL, false, 0⟩

/-- Constructor `st_dst_reg(st_src_reg reg)`. -/
def st_dst_reg.ofSrc (reg : st_src_reg) : st_dst_reg :=
  ⟨reg.file, reg.index, reg.index2D, WRITEMASK_XYZW, COND_TR, reg.type, reg.reladdr,
    reg.reladdr2, reg.has_index2, reg.array_id⟩

/-- Static `undef_src`. -/
def undef_src : st_src_reg := st_src_reg.ofType PROGRAM_UNDEFINED 0 GLSL_TYPE_ERROR
/-- Static `undef_dst` (its write-mask argument is `SWIZZLE_NOOP` in the source). -/
def undef_dst : st_dst_reg := st_dst_reg.ofType PROGRAM_UNDEFINED SWIZZLE_NOOP GLSL_TYPE_ERROR

/-- Static `address_reg`. -/
def address_reg : st_dst_reg := st_dst_reg.ofIndex PROGRAM_ADDRESS WRITEMASK_X GLSL_TYPE_FLOAT 0
/-- Static `address_reg2`. -/
def address_reg2 : st_dst_reg := st_dst_reg.ofIndex PROGRAM_ADDRESS WRITEMASK_X GLSL_TYPE_FLOAT 1
/-- Static `sampler_reladdr`. -/
def sampler_reladdr : st_dst_reg :=
  st_dst_reg.ofIndex PROGRAM_ADDRESS WRITEMASK_X GLSL_TYPE_FLOAT 2

/-- Function `swizzle_for_size`; the assertion `1 <= size <= 4` fails with `none`. -/
def swizzle_for_size (size : Int) : Option Nat :=
  if size = 1 then some (MAKE_SWIZZLE4 SWIZZLE_X SWIZZLE_X SWIZZLE_X SWIZZLE_X)
  else if size = 2 then some (MAKE_SWIZZLE4 SWIZZLE_X SWIZZLE_Y SWIZZLE_Y SWIZZLE_Y)
  else if size = 3 then some (MAKE_SWIZZLE4 SWIZZLE_X SWIZZLE_Y SWIZZLE_Z SWIZZLE_Z)
  else if size = 4 then some (MAKE_SWIZZLE4 SWIZZLE_X SWIZZLE_Y SWIZZLE_Z SWIZZLE_W)
  else none

/-! ## Opcode selection (`get_opcode`) -/

/-- Macro `case5(c, f, i, u, d)` of `get_opcode`. -/
def case5 (type : glsl_base_type) (f i u d : tgsi_opcode) : tgsi_opcode :=
  if type = GLSL_TYPE_DOUBLE then d
  else if type = GLSL_TYPE_INT then i
  else if type = GLSL_TYPE_UINT then u
  else f

/-- Macro `case4(c, f, i, u)` of `get_opcode`. -/
def case4 (type : glsl_base_type) (f i u : tgsi_opcode) : tgsi_opcode :=
  if type = GLSL_TYPE_INT then i
  else if type = GLSL_TYPE_UINT then u
  else f

/-- Macro `case3(f, i, u)`. -/
def case3 (type : glsl_base_type) (f i u : tgsi_opcode) : tgsi_opcode := case4 type f i u
/-- Macro `case4d(f, i, u, d)`. -/
def case4d (type : glsl_base_type) (f i u d : tgsi_opcode) : tgsi_opcode := case5 type f i u d
/-- Macro `case3fid(f, i, d)`. -/
def case3fid (type : glsl_base_type) (f i d : tgsi_opcode) : tgsi_opcode := case5 type f i i d
/-- Macro `case2fi(f, i)`. -/
def case2fi (type : glsl_base_type) (f i : tgsi_opcode) : tgsi_opcode := case4 type f i i
/-- Macro `case2iu(i, u)`. -/
def case2iu (type : glsl_base_type) (i u : tgsi_opcode) : tgsi_opcode :=
  case4 type TGSI_OPCODE_LAST i u

/-- Macro `casecomp(c, f, i, u, d)` of `get_opcode`. -/
def casecomp (native_integers : Bool) (type : glsl_base_type) (c f i u d : tgsi_opcode) :
    tgsi_opcode :=
  if type = GLSL_TYPE_DOUBLE then d
  else if type = GLSL_TYPE_INT ∨ type = GLSL_TYPE_SUBROUTINE then i
  else if type = GLSL_TYPE_UINT then u
  else if native_integers then f
  else c

/-- The `switch (op)` of `get_opcode`. -/
def get_opcode_switch (native_integers : Bool) (type : glsl_base_type) :
    tgsi_opcode → tgsi_opcode
  | TGSI_OPCODE_ADD => case3fid type TGSI_OPCODE_ADD TGSI_OPCODE_UADD TGSI_OPCODE_DADD
  | TGSI_OPCODE_MUL => case3fid type TGSI_OPCODE_MUL TGSI_OPCODE_UMUL TGSI_OPCODE_DMUL
  | TGSI_OPCODE_MAD => case3fid type TGSI_OPCODE_MAD TGSI_OPCODE_UMAD TGSI_OPCODE_DMAD
  | TGSI_OPCODE_FMA => case3fid type TGSI_OPCODE_FMA TGSI_OPCODE_UMAD TGSI_OPCODE_DFMA
  | TGSI_OPCODE_DIV => case3 type TGSI_OPCODE_DIV TGSI_OPCODE_IDIV TGSI_OPCODE_UDIV
  | TGSI_OPCODE_MAX =>
      case4d type TGSI_OPCODE_MAX TGSI_OPCODE_IMAX TGSI_OPCODE_UMAX TGSI_OPCODE_DMAX
  | TGSI_OPCODE_MIN =>
      case4d type TGSI_OPCODE_MIN TGSI_OPCODE_IMIN TGSI_OPCODE_UMIN TGSI_OPCODE_DMIN
  | TGSI_OPCODE_MOD => case2iu type TGSI_OPCODE_MOD TGSI_OPCODE_UMOD
  | TGSI_OPCODE_SEQ =>
      casecomp native_integers type TGSI_OPCODE_SEQ TGSI_OPCODE_FSEQ TGSI_OPCODE_USEQ
        TGSI_OPCODE_USEQ TGSI_OPCODE_DSEQ
  | TGSI_OPCODE_SNE =>
      casecomp native_integers type TGSI_OPCODE_SNE TGSI_OPCODE_FSNE TGSI_OPCODE_USNE
        TGSI_OPCODE_USNE TGSI_OPCODE_DSNE
  | TGSI_OPCODE_SGE =>
      casecomp native_integers type TGSI_OPCODE_SGE TGSI_OPCODE_FSGE TGSI_OPCODE_ISGE
        TGSI_OPCODE_USGE TGSI_OPCODE_DSGE
  | TGSI_OPCODE_SLT =>
      casecomp native_integers type TGSI_OPCODE_SLT TGSI_OPCODE_FSLT TGSI_OPCODE_ISLT
        TGSI_OPCODE_USLT TGSI_OPCODE_DSLT
  | TGSI_OPCODE_ISHR => case2iu type TGSI_OPCODE_ISHR TGSI_OPCODE_USHR
  | TGSI_OPCODE_SSG => case3fid type TGSI_OPCODE_SSG TGSI_OPCODE_ISSG TGSI_OPCODE_DSSG
  | TGSI_OPCODE_ABS => case3fid type TGSI_OPCODE_ABS TGSI_OPCODE_IABS TGSI_OPCODE_DABS
  | TGSI_OPCODE_IBFE => case2iu type TGSI_OPCODE_IBFE TGSI_OPCODE_UBFE
  | TGSI_OPCODE_IMSB => case2iu type TGSI_OPCODE_IMSB TGSI_OPCODE_UMSB
  | TGSI_OPCODE_IMUL_HI => case2iu type TGSI_OPCODE_IMUL_HI TGSI_OPCODE_UMUL_HI
  | TGSI_OPCODE_SQRT => case3fid type TGSI_OPCODE_SQRT TGSI_OPCODE_SQRT TGSI_OPCODE_DSQRT
  | TGSI_OPCODE_RCP => case3fid type TGSI_OPCODE_RCP TGSI_OPCODE_RCP TGSI_OPCODE_DRCP
  | TGSI_OPCODE_RSQ => case3fid type TGSI_OPCODE_RSQ TGSI_OPCODE_RSQ TGSI_OPCODE_DRSQ
  | TGSI_OPCODE_FRC => case3fid type TGSI_OPCODE_FRC TGSI_OPCODE_FRC TGSI_OPCODE_DFRAC
  | TGSI_OPCODE_TRUNC => case3fid type TGSI_OPCODE_TRUNC TGSI_OPCODE_TRUNC TGSI_OPCODE_DTRUNC
  | TGSI_OPCODE_CEIL => case3fid type TGSI_OPCODE_CEIL TGSI_OPCODE_CEIL TGSI_OPCODE_DCEIL
  | TGSI_OPCODE_FLR => case3fid type TGSI_OPCODE_FLR TGSI_OPCODE_FLR TGSI_OPCODE_DFLR
  | TGSI_OPCODE_ROUND => case3fid type TGSI_OPCODE_ROUND TGSI_OPCODE_ROUND TGSI_OPCODE_DROUND
  | op => op

/-- The operand type that `get_opcode` dispatches on. -/
def get_opcode_type (native_integers : Bool) (src0 src1 : st_src_reg) : glsl_base_type :=
  if src0.type = GLSL_TYPE_DOUBLE ∨ src1.type = GLSL_TYPE_DOUBLE then GLSL_TYPE_DOUBLE
  else if src0.type = GLSL_TYPE_FLOAT ∨ src1.type = GLSL_TYPE_FLOAT then GLSL_TYPE_FLOAT
  else if native_integers then
    (if src0.type = GLSL_TYPE_BOOL then GLSL_TYPE_INT else src0.type)
  else GLSL_TYPE_FLOAT

/-- Method `glsl_to_tgsi_visitor::get_opcode`.  The four assertions on the source
types and the final `assert(op != TGSI_OPCODE_LAST)` fail with `none`.  The
parameters `ir` (unused in the body) and `dst` are kept. -/
def get_opcode (native_integers : Bool) (op : tgsi_opcode) (_dst : st_dst_reg)
    (src0 src1 : st_src_reg) : Option tgsi_opcode :=
  if op = TGSI_OPCODE_MOV then some op
  else if src0.type = GLSL_TYPE_ARRAY ∨ src0.type = GLSL_TYPE_STRUCT
      ∨ src1.type = GLSL_TYPE_ARRAY ∨ src1.type = GLSL_TYPE_STRUCT then none
  else
    let op1 := get_opcode_switch native_integers (get_opcode_type native_integers src0 src1) op
    if op1 = TGSI_OPCODE_LAST then none else some op1

/-! ## GLSL types (`glsl_types.h`) -/

/-- Modelled from the spec: `enum glsl_matrix_layout` of `glsl_types.h`. -/
inductive glsl_matrix_layout
  | GLSL_MATRIX_LAYOUT_INHERITED
  | GLSL_MATRIX_LAYOUT_COLUMN_MAJOR
  | GLSL_MATRIX_LAYOUT_ROW_MAJOR
  deriving DecidableEq, Repr

open glsl_matrix_layout

/-- Modelled from the spec: `enum glsl_interface_packing` of `glsl_types.h`. -/
inductive glsl_interface_packing
  | GLSL_INTERFACE_PACKING_STD140
  | GLSL_INTERFACE_PACKING_SHARED
  | GLSL_INTERFACE_PACKING_PACKED
  | GLSL_INTERFACE_PACKING_STD430
  deriving DecidableEq, Repr

open glsl_interface_packing

mutual
/-- Modelled from the spec: `struct glsl_type` of `glsl_types.h` (not part of the
translated sources), with the members the translated code reads: `base_type`,
`vector_elements`, `matrix_columns`, `length` and the union `fields`. -/
inductive glsl_type
  | mk (base_type : glsl_base_type) (vector_elements : Nat) (matrix_columns : Nat)
      (length : Nat) (fields : glsl_type_fields)
/-- The union `glsl_type::fields`: nothing, `fields.array` or `fields.structure`. -/
inductive glsl_type_fields
  | empty
  | array (element : glsl_type)
  | structure (members : glsl_struct_fields)
/-- An array of `glsl_struct_field` (`name`, `type`, `matrix_layout`, `offset`). -/
inductive glsl_struct_fields
  | nil
  | cons (name : String) (type : glsl_type) (matrix_layout : glsl_matrix_layout)
      (offset : Int) (rest : glsl_struct_fields)
end

deriving instance DecidableEq for glsl_type, glsl_type_fields, glsl_struct_fields

namespace glsl_type

def base_type : glsl_type → glsl_base_type
  | mk b _ _ _ _ => b
def vector_elements : glsl_type → Nat
  | mk _ v _ _ _ => v
def matrix_columns : glsl_type → Nat
  | mk _ _ m _ _ => m
def length : glsl_type → Nat
  | mk _ _ _ l _ => l
def fields : glsl_type → glsl_type_fields
  | mk _ _ _ _ f => f

/-- Modelled from the spec: `glsl_type::is_numeric` range test
`GLSL_TYPE_UINT <= base_type <= GLSL_TYPE_BOOL` used by `is_scalar`/`is_vector`. -/
def base_is_basic (t : glsl_type) : Bool :=
  t.base_type = GLSL_TYPE_UINT ∨ t.base_type = GLSL_TYPE_INT ∨ t.base_type = GLSL_TYPE_FLOAT
    ∨ t.base_type = GLSL_TYPE_DOUBLE ∨ t.base_type = GLSL_TYPE_BOOL

/-- Modelled from the spec: `glsl_type::is_scalar`. -/
def is_scalar (t : glsl_type) : Bool := t.vector_elements = 1 ∧ t.base_is_basic
/-- Modelled from the spec: `glsl_type::is_vector`. -/
def is_vector (t : glsl_type) : Bool :=
  t.vector_elements > 1 ∧ t.matrix_columns = 1 ∧ t.base_is_basic
/-- Modelled from the spec: `glsl_type::is_matrix`. -/
def is_matrix (t : glsl_type) : Bool := t.matrix_columns > 1
/-- Modelled from the spec: `glsl_type::is_array`. -/
def is_array (t : glsl_type) : Bool := t.base_type = GLSL_TYPE_ARRAY
/-- Modelled from the spec: `glsl_type::is_record`. -/
def is_record (t : glsl_type) : Bool := t.base_type = GLSL_TYPE_STRUCT
/-- Modelled from the spec: `glsl_type::is_interface`. -/
def is_interface (t : glsl_type) : Bool := t.base_type = GLSL_TYPE_INTERFACE
/-- Modelled from the spec: `glsl_type::is_double`. -/
def is_double (t : glsl_type) : Bool := t.base_type = GLSL_TYPE_DOUBLE
/-- Modelled from the spec: `glsl_type::is_64bit` (doubles are the only 64-bit base
type of the enumeration above). -/
def is_64bit (t : glsl_type) : Bool := t.base_type = GLSL_TYPE_DOUBLE
/-- Modelled from the spec: `glsl_type::is_float`. -/
def is_float (t : glsl_type) : Bool := t.base_type = GLSL_TYPE_FLOAT
/-- Modelled from the spec: `glsl_type::is_boolean`. -/
def is_boolean (t : glsl_type) : Bool := t.base_type = GLSL_TYPE_BOOL

/-- Modelled from the spec: `glsl_type::get_instance(base_type, rows, columns)` for
scalars, vectors and matrices. -/
def get_instance (base_type : glsl_base_type) (rows columns : Nat) : glsl_type :=
  mk base_type rows columns 0 .empty

/-- Modelled from the spec: `glsl_type::get_array_instance(element, length)`. -/
def get_array_instance (element : glsl_type) (length : Nat) : glsl_type :=
  mk GLSL_TYPE_ARRAY 0 0 length (.array element)

/-- Modelled from the spec: `glsl_type::float_type`. -/
def float_type : glsl_type := get_instance GLSL_TYPE_FLOAT 1 1
/-- Modelled from the spec: `glsl_type::vec3_type`. -/
def vec3_type : glsl_type := get_instance GLSL_TYPE_FLOAT 3 1
/-- Modelled from the spec: `glsl_type::vec4_type`. -/
def vec4_type : glsl_type := get_instance GLSL_TYPE_FLOAT 4 1
/-- Modelled from the spec: `glsl_type::int_type`. -/
def int_type : glsl_type := get_instance GLSL_TYPE_INT 1 1
/-- Modelled from the spec: `glsl_type::uint_type`. -/
def uint_type : glsl_type := get_instance GLSL_TYPE_UINT 1 1
/-- Modelled from the spec: `glsl_type::uvec4_type`. -/
def uvec4_type : glsl_type := get_instance GLSL_TYPE_UINT 4 1
/-- Modelled from the spec: `glsl_type::bool_type`. -/
def bool_type : glsl_type := get_instance GLSL_TYPE_BOOL 1 1
/-- Modelled from the spec: `glsl_type::double_type`. -/
def double_type : glsl_type := get_instance GLSL_TYPE_DOUBLE 1 1
/-- Modelled from the spec: `glsl_type::dvec2_type`. -/
def dvec2_type : glsl_type := get_instance GLSL_TYPE_DOUBLE 2 1

end glsl_type

namespace glsl_struct_fields

/-- Number of members stored. -/
def count : glsl_struct_fields → Nat
  | nil => 0
  | cons _ _ _ _ rest => rest.count + 1

end glsl_struct_fields

/-! ## `type_size` -/

/-- The conversion of an `int` argument to an `unsigned` parameter. -/
def int_to_unsigned (i : Int) : Nat := (i % 2 ^ 32).toNat

/-- The conversion of a 32-bit `unsigned` value to `int`: the value with the
same bits in two's complement. -/
def unsigned_to_int (n : Nat) : Int :=
  if n % 2 ^ 32 < 2 ^ 31 then ((n % 2 ^ 32 : Nat) : Int)
  else ((n % 2 ^ 32 : Nat) : Int) - 2 ^ 32

/-- The sum of two `int` values; an overflow is undefined behaviour and `none`. -/
def int_add (a b : Int) : Option Int :=
  if -(2 ^ 31) ≤ a + b ∧ a + b < 2 ^ 31 then some (a + b) else none

mutual
/-- Function `type_size` of `st_glsl_to_tgsi.cpp`.  The assertions (array of
length 0, invalid base type) fail with `none`, as does a `fields` union that
does not hold what the base type requires.  The product of the array case is
the C expression `type_size(...) * type->length` of an `int` and an `unsigned`:
it is computed in 32-bit unsigned arithmetic and converted back to `int`. -/
def type_size : glsl_type → Option Int
  | .mk base_type vector_elements matrix_columns length fields =>
    match base_type with
    | GLSL_TYPE_UINT | GLSL_TYPE_INT | GLSL_TYPE_FLOAT | GLSL_TYPE_BOOL =>
        if matrix_columns > 1 then some matrix_columns else some 1
    | GLSL_TYPE_DOUBLE =>
        if matrix_columns > 1 then
          (if vector_elements ≤ 2 then some matrix_columns else some (matrix_columns * 2))
        else
          (if vector_elements ≤ 2 then some 1 else some 2)
    | GLSL_TYPE_ARRAY =>
        if length > 0 then
          match fields with
          | .array element =>
              (type_size element).map (fun n => unsigned_to_int (int_to_unsigned n * length))
          | _ => none
        else none
    | GLSL_TYPE_STRUCT =>
        match fields with
        | .structure members => type_size_members members length 0
        | _ => none
    | GLSL_TYPE_SAMPLER | GLSL_TYPE_IMAGE | GLSL_TYPE_SUBROUTINE => some 1
    | GLSL_TYPE_ATOMIC_UINT | GLSL_TYPE_INTERFACE | GLSL_TYPE_VOID | GLSL_TYPE_ERROR => none
/-- The loop `for (i = 0; i < type->length; i++) size += type_size(...)` of the
struct case, over the next `n` members, from the value `size`. -/
def type_size_members : glsl_struct_fields → Nat → Int → Option Int
  | _, 0, size => some size
  | .nil, _ + 1, _ => none
  | .cons _ type _ _ rest, n + 1, size =>
      match type_size type with
      | none => none
      | some a =>
        match int_add size a with
        | none => none
        | some size1 => type_size_members rest n size1
end

mutual
/-- Function `type_has_array_or_matrix`. -/
def type_has_array_or_matrix : glsl_type → Bool
  | .mk base_type _ matrix_columns length fields =>
    if base_type = GLSL_TYPE_ARRAY ∨ matrix_columns > 1 then true
    else if base_type = GLSL_TYPE_STRUCT then
      match fields with
      | .structure members => type_has_array_or_matrix_members members length
      | _ => false
    else false
/-- The loop over the first `n` struct members of `type_has_array_or_matrix`. -/
def type_has_array_or_matrix_members : glsl_struct_fields → Nat → Bool
  | _, 0 => false
  | .nil, _ + 1 => false
  | .cons _ type _ _ rest, n + 1 =>
      if type_has_array_or_matrix type then true
      else type_has_array_or_matrix_members rest n
end

/-! ## The IR tree (`ir.h`) -/

/-- Modelled from the spec: `enum ir_variable_mode` of `ir.h`. -/
inductive ir_variable_mode
  | ir_var_auto
  | ir_var_uniform
  | ir_var_shader_storage
  | ir_var_shader_shared
  | ir_var_shader_in
  | ir_var_shader_out
  | ir_var_function_in
  | ir_var_function_out
  | ir_var_function_inout
  | ir_var_const_in
  | ir_var_system_value
  | ir_var_temporary
  deriving DecidableEq, Repr

open ir_variable_mode

/-- Modelled from the spec: `gl_shader_stage` of `shader_enums.h`. -/
inductive gl_shader_stage
  | MESA_SHADER_VERTEX
  | MESA_SHADER_TESS_CTRL
  | MESA_SHADER_TESS_EVAL
  | MESA_SHADER_GEOMETRY
  | MESA_SHADER_FRAGMENT
  | MESA_SHADER_COMPUTE
  deriving DecidableEq, Repr

open gl_shader_stage

/-- Modelled from the spec: class `ir_variable` of `ir.h` with the members the
translated code reads.  `id` stands for the address of the object (variables
are compared by pointer); `in_interface` says whether `interface_type` is set. -/
structure ir_variable where
  id : Nat
  name : String
  type : glsl_type
  mode : ir_variable_mode
  location : Int
  index : Int
  patch : Bool
  matrix_layout : glsl_matrix_layout
  in_interface : Bool
  deriving DecidableEq

/-- Modelled from the spec: `ir_variable::is_in_buffer_block`. -/
def ir_variable.is_in_buffer_block (var : ir_variable) : Bool :=
  (var.mode = ir_var_uniform ∨ var.mode = ir_var_shader_storage) ∧ var.in_interface

/-- Modelled from the spec: `enum ir_expression_operation` of `ir.h`, with the
operations `st_glsl_to_tgsi.cpp` names. -/
inductive ir_expression_operation
  | ir_unop_bit_not | ir_unop_logic_not | ir_unop_neg | ir_unop_abs | ir_unop_sign
  | ir_unop_rcp | ir_unop_rsq | ir_unop_sqrt | ir_unop_exp | ir_unop_log
  | ir_unop_exp2 | ir_unop_log2 | ir_unop_f2i | ir_unop_f2u | ir_unop_i2f
  | ir_unop_f2b | ir_unop_b2f | ir_unop_i2b | ir_unop_b2i | ir_unop_u2f
  | ir_unop_i2u | ir_unop_u2i | ir_unop_d2f | ir_unop_f2d | ir_unop_d2i
  | ir_unop_i2d | ir_unop_d2u | ir_unop_u2d | ir_unop_d2b
  | ir_unop_bitcast_i2f | ir_unop_bitcast_f2i | ir_unop_bitcast_u2f
  | ir_unop_bitcast_f2u | ir_unop_any | ir_unop_trunc | ir_unop_ceil
  | ir_unop_floor | ir_unop_fract | ir_unop_round_even | ir_unop_sin | ir_unop_cos
  | ir_unop_dFdx | ir_unop_dFdx_coarse | ir_unop_dFdx_fine | ir_unop_dFdy
  | ir_unop_dFdy_coarse | ir_unop_dFdy_fine | ir_unop_pack_snorm_2x16
  | ir_unop_pack_snorm_4x8 | ir_unop_pack_unorm_2x16 | ir_unop_pack_unorm_4x8
  | ir_unop_pack_half_2x16 | ir_unop_unpack_snorm_2x16 | ir_unop_unpack_snorm_4x8
  | ir_unop_unpack_unorm_2x16 | ir_unop_unpack_unorm_4x8 | ir_unop_unpack_half_2x16
  | ir_unop_unpack_half_2x16_split_x | ir_unop_unpack_half_2x16_split_y
  | ir_unop_bitfield_reverse | ir_unop_bit_count | ir_unop_find_msb | ir_unop_find_lsb
  | ir_unop_saturate | ir_unop_pack_double_2x32 | ir_unop_unpack_double_2x32
  | ir_unop_frexp_sig | ir_unop_frexp_exp | ir_unop_noise
  | ir_unop_interpolate_at_centroid | ir_unop_get_buffer_size
  | ir_unop_ssbo_unsized_array_length | ir_unop_subroutine_to_int
  | ir_binop_add | ir_binop_sub | ir_binop_mul | ir_binop_imul_high | ir_binop_div
  | ir_binop_carry | ir_binop_borrow | ir_binop_mod | ir_binop_less | ir_binop_greater
  | ir_binop_lequal | ir_binop_gequal | ir_binop_equal | ir_binop_nequal
  | ir_binop_all_equal | ir_binop_any_nequal | ir_binop_lshift | ir_binop_rshift
  | ir_binop_bit_and | ir_binop_bit_xor | ir_binop_bit_or | ir_binop_logic_and
  | ir_binop_logic_xor | ir_binop_logic_or | ir_binop_dot | ir_binop_min | ir_binop_max
  | ir_binop_pow | ir_binop_pack_half_2x16_split | ir_binop_bfm | ir_binop_ubo_load
  | ir_binop_ldexp | ir_binop_vector_extract | ir_binop_interpolate_at_offset
  | ir_binop_interpolate_at_sample | ir_triop_fma | ir_triop_lrp | ir_triop_csel
  | ir_triop_bfi | ir_triop_bitfield_extract | ir_triop_vector_insert
  | ir_quadop_bitfield_insert | ir_quadop_vector
  deriving DecidableEq, Repr

open ir_expression_operation

/-- Modelled from the spec: `struct ir_swizzle_mask` of `ir.h`. -/
structure ir_swizzle_mask where
  x : Nat
  y : Nat
  z : Nat
  w : Nat
  num_components : Nat
  has_duplicates : Bool
  deriving DecidableEq, Repr

mutual
/-- Modelled from the spec: the `ir_rvalue` classes of `ir.h` that the translated
code visits.  Every node carries `id` (its address; instructions remember the
node they come from by pointer) and its `type`; a variable dereference has the
type of its variable.  A constant carries its components as 32-bit words
(`value.u`). -/
inductive ir_rvalue
  | dereference_variable (id : Nat) (var : ir_variable)
  | dereference_array (id : Nat) (type : glsl_type) (array : ir_rvalue)
      (array_index : ir_rvalue)
  | dereference_record (id : Nat) (type : glsl_type) (record : ir_rvalue) (field : String)
  | swizzle (id : Nat) (type : glsl_type) (val : ir_rvalue) (mask : ir_swizzle_mask)
  | expression (id : Nat) (type : glsl_type) (operation : ir_expression_operation)
      (operands : ir_rvalue_list)
  | constant (id : Nat) (type : glsl_type) (value : List Nat)
/-- The operand array `ir_expression::operands` up to `get_num_operands()`. -/
inductive ir_rvalue_list
  | nil
  | cons (head : ir_rvalue) (tail : ir_rvalue_list)
end

deriving instance DecidableEq for ir_rvalue, ir_rvalue_list

namespace ir_rvalue

/-- The address of the node. -/
def id : ir_rvalue → Nat
  | dereference_variable i _ => i
  | dereference_array i _ _ _ => i
  | dereference_record i _ _ _ => i
  | swizzle i _ _ _ => i
  | expression i _ _ _ => i
  | constant i _ _ => i

/-- Member `ir_rvalue::type`. -/
def type : ir_rvalue → glsl_type
  | dereference_variable _ var => var.type
  | dereference_array _ t _ _ => t
  | dereference_record _ t _ _ => t
  | swizzle _ t _ _ => t
  | expression _ t _ _ => t
  | constant _ t _ => t

/-- Method `ir_instruction::as_expression` as a test. -/
def is_expression : ir_rvalue → Bool
  | expression _ _ _ _ => true
  | _ => false

/-- Method `ir_rvalue::variable_referenced`. -/
def variable_referenced : ir_rvalue → Option ir_variable
  | dereference_variable _ var => some var
  | dereference_array _ _ array _ => variable_referenced array
  | dereference_record _ _ record _ => variable_referenced record
  | swizzle _ _ val _ => variable_referenced val
  | expression _ _ _ _ => none
  | constant _ _ _ => none

end ir_rvalue

/-! ## Instructions and the visitor state -/

/-- Class `glsl_to_tgsi_instruction`.  The arrays `dst[2]`, `src[4]` and
`tex_offsets[4]` are spelled out; `ir` and `function` are nullable pointers
(the address of the IR node, the identifier of the function entry); `info` is the
opcode-info record the instruction points to. -/
structure glsl_to_tgsi_instruction where
  op : tgsi_opcode
  dst0 : st_dst_reg
  dst1 : st_dst_reg
  src0 : st_src_reg
  src1 : st_src_reg
  src2 : st_src_reg
  src3 : st_src_reg
  ir : Option Nat
  cond_update : Bool
  saturate : Bool
  sampler : st_src_reg
  sampler_array_size : Int
  tex_target : Int
  tex_type : glsl_base_type
  tex_shadow : Bool
  tex_offsets0 : st_src_reg
  tex_offsets1 : st_src_reg
  tex_offsets2 : st_src_reg
  tex_offsets3 : st_src_reg
  tex_offset_num_offset : Nat
  dead_mask : Nat
  function : Option Nat
  info : tgsi_opcode_info
  deriving DecidableEq

namespace glsl_to_tgsi_instruction

/-- Element `dst[j]`; out of bounds is `none`. -/
def dst (inst : glsl_to_tgsi_instruction) : Nat → Option st_dst_reg
  | 0 => some inst.dst0
  | 1 => some inst.dst1
  | _ => none

/-- Element `src[j]`; out of bounds is `none`. -/
def src (inst : glsl_to_tgsi_instruction) : Nat → Option st_src_reg
  | 0 => some inst.src0
  | 1 => some inst.src1
  | 2 => some inst.src2
  | 3 => some inst.src3
  | _ => none

/-- Element `tex_offsets[j]`; out of bounds is `none`. -/
def tex_offsets (inst : glsl_to_tgsi_instruction) : Nat → Option st_src_reg
  | 0 => some inst.tex_offsets0
  | 1 => some inst.tex_offsets1
  | 2 => some inst.tex_offsets2
  | 3 => some inst.tex_offsets3
  | _ => none

/-- Assignment `dst[j] = r`. -/
def set_dst (inst : glsl_to_tgsi_instruction) (j : Nat) (r : st_dst_reg) :
    glsl_to_tgsi_instruction :=
  match j with
  | 0 => { inst with dst0 := r }
  | 1 => { inst with dst1 := r }
  | _ => inst

/-- Assignment `src[j] = r`. -/
def set_src (inst : glsl_to_tgsi_instruction) (j : Nat) (r : st_src_reg) :
    glsl_to_tgsi_instruction :=
  match j with
  | 0 => { inst with src0 := r }
  | 1 => { inst with src1 := r }
  | 2 => { inst with src2 := r }
  | 3 => { inst with src3 := r }
  | _ => inst

/-- Assignment `tex_offsets[j] = r`. -/
def set_tex_offsets (inst : glsl_to_tgsi_instruction) (j : Nat) (r : st_src_reg) :
    glsl_to_tgsi_instruction :=
  match j with
  | 0 => { inst with tex_offsets0 := r }
  | 1 => { inst with tex_offsets1 := r }
  | 2 => { inst with tex_offsets2 := r }
  | 3 => { inst with tex_offsets3 := r }
  | _ => inst

end glsl_to_tgsi_instruction

/-- Function `num_inst_dst_regs`. -/
def num_inst_dst_regs (op : glsl_to_tgsi_instruction) : Nat := op.info.num_dst

/-- Function `num_inst_src_regs` (unsigned arithmetic: `num_src - 1` wraps at 0). -/
def num_inst_src_regs (op : glsl_to_tgsi_instruction) : Nat :=
  if op.info.is_tex then (op.info.num_src + 2 ^ 32 - 1) % 2 ^ 32 else op.info.num_src

/-- Class `variable_storage`; `var` is the address of the variable. -/
structure variable_storage where
  file : gl_register_file
  index : Int
  var : Nat
  array_id : Nat
  deriving DecidableEq

/-- Modelled from the spec: the GL data type tags (`GL_FLOAT`, ...) that
`immediate_storage::type` holds. -/
inductive gl_datatype
  | GL_FLOAT | GL_DOUBLE | GL_INT | GL_UNSIGNED_INT | GL_BOOL
  deriving DecidableEq, Repr

open gl_datatype

/-- Class `immediate_storage`: `size32` 32-bit words and their type. -/
structure immediate_storage where
  values : List Nat
  size32 : Nat
  type : gl_datatype
  deriving DecidableEq

/-- Struct `array_decl`. -/
structure array_decl where
  mesa_index : Nat
  array_id : Nat
  array_size : Nat
  deriving DecidableEq

/-- Struct `rename_reg_pair`. -/
structure rename_reg_pair where
  old_reg : Int
  new_reg : Int
  deriving DecidableEq

/-- Modelled from the spec: the program targets `prog->Target` is compared with. -/
inductive gl_program_target
  | GL_VERTEX_PROGRAM_ARB
  | GL_FRAGMENT_PROGRAM_ARB
  | GL_GEOMETRY_PROGRAM_NV
  | GL_TESS_CONTROL_PROGRAM_NV
  | GL_TESS_EVALUATION_PROGRAM_NV
  | GL_COMPUTE_PROGRAM_NV
  deriving DecidableEq, Repr

open gl_program_target

/-- Struct `glsl_to_tgsi_visitor`: the members the translated methods use.  The
fields `prog_Target`, `shader_Stage` and `options_EmitNoIndirectTemp` stand for
`prog->Target`, `shader->Stage` and `options->EmitNoIndirectTemp`; the exec
lists are lists, the instruction list in program order (`variables_` is the
member `variables`). -/
structure glsl_to_tgsi_visitor where
  prog_Target : gl_program_target
  shader_Stage : gl_shader_stage
  options_EmitNoIndirectTemp : Bool
  next_temp : Int
  array_sizes : List Int
  max_num_arrays : Nat
  next_array : Nat
  input_arrays : List array_decl
  output_arrays : List array_decl
  num_address_regs : Int
  indirect_addr_consts : Bool
  native_integers : Bool
  have_sqrt : Bool
  have_fma : Bool
  result : st_src_reg
  variables_ : List variable_storage
  immediates : List immediate_storage
  num_immediates : Nat
  instructions : List glsl_to_tgsi_instruction
  deriving DecidableEq

/-- Constructor `glsl_to_tgsi_visitor::glsl_to_tgsi_visitor()`, followed by the
assignments of `prog`, `shader`, `options` and `native_integers` that
`get_mesa_program` makes before lowering. -/
def glsl_to_tgsi_visitor.init (target : gl_program_target) (stage : gl_shader_stage)
    (emit_no_indirect_temp native_integers : Bool) : glsl_to_tgsi_visitor where
  prog_Target := target
  shader_Stage := stage
  options_EmitNoIndirectTemp := emit_no_indirect_temp
  next_temp := 1
  array_sizes := []
  max_num_arrays := 0
  next_array := 0
  input_arrays := []
  output_arrays := []
  num_address_regs := 0
  indirect_addr_consts := false
  native_integers := native_integers
  have_sqrt := false
  have_fma := false
  result := st_src_reg.default
  variables_ := []
  immediates := []
  num_immediates := 0
  instructions := []

/-! ## Constants and temporaries -/

/-- The comparison loop of `add_constant` for one list position: the entries from
here on hold the `remaining` words of `values`, four per entry.  Walking past the
end of the list counts as a mismatch. -/
def immediate_matches (datatype : gl_datatype) :
    List immediate_storage → List Nat → Nat → Bool
  | _, _, 0 => true
  | [], _, _ + 1 => false
  | e :: es, values, remaining + 1 =>
      let slot_size := min (remaining + 1) 4
      if e.type ≠ datatype ∨ e.size32 ≠ slot_size then false
      else if e.values.take slot_size ≠ values.take slot_size then false
      else immediate_matches datatype es (values.drop 4) (remaining + 1 - slot_size)

/-- The search loop of `add_constant`: the index of the first position that
matches, if any. -/
def find_immediate (datatype : gl_datatype) (values : List Nat) (size32 : Nat) :
    List immediate_storage → Nat → Option Nat
  | [], _ => none
  | e :: es, index =>
      if immediate_matches datatype (e :: es) values size32 then some index
      else find_immediate datatype values size32 es (index + 1)

/-- The loop of `add_constant` that appends the value, four words per entry. -/
def new_immediates (datatype : gl_datatype) : List Nat → Nat → Nat → List immediate_storage
  | _, 0, _ => []
  | _, _, 0 => []
  | values, remaining + 1, fuel + 1 =>
      let slot_size := min (remaining + 1) 4
      ⟨values.take slot_size, slot_size, datatype⟩
        :: new_immediates datatype (values.drop 4) (remaining + 1 - slot_size) fuel

/-- Method `add_constant` for `PROGRAM_IMMEDIATE`; the `PROGRAM_CONSTANT` branch
calls into the parameter list of the program, which lies outside the translated
sources, and any other file fails the assertion: both are `none`. -/
def add_constant (v : glsl_to_tgsi_visitor) (file : gl_register_file) (values : List Nat)
    (size : Nat) (datatype : gl_datatype) : Option (Int × glsl_to_tgsi_visitor) :=
  if file ≠ PROGRAM_IMMEDIATE then none
  else
    let size32 := size * (if datatype = GL_DOUBLE then 2 else 1)
    match find_immediate datatype values size32 v.immediates 0 with
    | some index => some (index, v)
    | none =>
        let added := new_immediates datatype values size32 size32
        some (v.immediates.length,
          { v with immediates := v.immediates ++ added,
                   num_immediates := v.num_immediates + added.length })

/-- Method `st_src_reg_for_float`; the argument is the IEEE-754 bit pattern of the
float. -/
def st_src_reg_for_float (v : glsl_to_tgsi_visitor) (val_bits : Nat) :
    Option (st_src_reg × glsl_to_tgsi_visitor) :=
  let src := st_src_reg.ofType PROGRAM_IMMEDIATE (-1) GLSL_TYPE_FLOAT
  match add_constant v src.file [val_bits] 1 GL_FLOAT with
  | some (index, v1) => some (src.set_index index, v1)
  | none => none

/-- Method `st_src_reg_for_int`; the argument is the two's complement word. -/
def st_src_reg_for_int (v : glsl_to_tgsi_visitor) (val_bits : Nat) :
    Option (st_src_reg × glsl_to_tgsi_visitor) :=
  let src := st_src_reg.ofType PROGRAM_IMMEDIATE (-1) GLSL_TYPE_INT
  if v.native_integers = false then none
  else
    match add_constant v src.file [val_bits] 1 GL_INT with
    | some (index, v1) => some (src.set_index index, v1)
    | none => none

/-- The IEEE-754 single precision bit pattern of `1.0`. -/
def float_bits_one : Nat := 0x3F800000
/-- The IEEE-754 single precision bit pattern of `0.0`. -/
def float_bits_zero : Nat := 0

/-- Method `get_temp`.  The table `array_sizes` grows by 32 entries as in the
source; the assertion of `swizzle_for_size` and a failing `type_size` are
`none`. -/
def get_temp (v : glsl_to_tgsi_visitor) (type : glsl_type) :
    Option (st_src_reg × glsl_to_tgsi_visitor) :=
  let src := st_src_reg.default
  let src := src.set_type (if v.native_integers then type.base_type else GLSL_TYPE_FLOAT)
  let src := src.set_reladdr .NULL
  let src := src.set_negate 0
  match type_size type with
  | none => none
  | some size =>
    let r : st_src_reg × glsl_to_tgsi_visitor :=
      if (!v.options_EmitNoIndirectTemp) && type_has_array_or_matrix type then
        let max_num_arrays :=
          if v.next_array ≥ v.max_num_arrays then v.max_num_arrays + 32 else v.max_num_arrays
        ((src.set_file PROGRAM_ARRAY).set_index ((v.next_array <<< 16 ||| 0x8000 : Nat) : Int),
          { v with max_num_arrays := max_num_arrays,
                   array_sizes := v.array_sizes.take v.next_array ++ [size],
                   next_array := v.next_array + 1 })
      else
        ((src.set_file PROGRAM_TEMPORARY).set_index v.next_temp,
          { v with next_temp := v.next_temp + size })
    if type.is_array || type.is_record then
      some (r.1.set_swizzle SWIZZLE_NOOP, r.2)
    else
      match swizzle_for_size type.vector_elements with
      | some swz => some (r.1.set_swizzle swz, r.2)
      | none => none

/-! ## Instruction emission (`emit_asm`) -/

/-- The type of `emit_asm` (eight-operand overload): the new visitor state and the
returned instruction pointer, a position in the instruction list or `NULL`. -/
abbrev emit_asm_fn :=
  Option Nat → tgsi_opcode → st_dst_reg → st_dst_reg → st_src_reg → st_src_reg →
    st_src_reg → st_src_reg → glsl_to_tgsi_visitor →
    Option (glsl_to_tgsi_visitor × Option Nat)

/-- Method `emit_arl`, with the `emit_asm` it calls as a parameter. -/
def emit_arl_with (emit : emit_asm_fn) (_ir : Option Nat) (dst : st_dst_reg)
    (src0 : st_src_reg) (v : glsl_to_tgsi_visitor) : Option glsl_to_tgsi_visitor :=
  let op :=
    if src0.type = GLSL_TYPE_INT ∨ src0.type = GLSL_TYPE_UINT then TGSI_OPCODE_UARL
    else TGSI_OPCODE_ARL
  if dst.file ≠ PROGRAM_ADDRESS then none
  else
    let v1 :=
      if dst.index ≥ v.num_address_regs then { v with num_address_regs := dst.index + 1 }
      else v
    (emit none op dst undef_dst src0 undef_src undef_src undef_src v1).map Prod.fst

/-- The call `emit_arl(ir, dst, *p)` guarded by `if (p)`. -/
def emit_arl_ptr (emit : emit_asm_fn) (ir : Option Nat) (dst : st_dst_reg)
    (p : st_src_reg_ptr) (v : glsl_to_tgsi_visitor) : Option glsl_to_tgsi_visitor :=
  match p with
  | .NULL => some v
  | .ptr r => emit_arl_with emit ir dst r v

/-- Method `reladdr_to_temp`, with the `emit_asm` it calls as a parameter; returns
the updated `*reg` and `*num_reladdr`. -/
def reladdr_to_temp_with (emit : emit_asm_fn) (ir : Option Nat) (reg : st_src_reg)
    (num_reladdr : Int) (v : glsl_to_tgsi_visitor) :
    Option (st_src_reg × Int × glsl_to_tgsi_visitor) :=
  if !reg.reladdr.isSet && !reg.reladdr2.isSet then some (reg, num_reladdr, v)
  else
    match emit_arl_ptr emit ir address_reg reg.reladdr v with
    | none => none
    | some v1 =>
      match emit_arl_ptr emit ir address_reg2 reg.reladdr2 v1 with
      | none => none
      | some v2 =>
        if num_reladdr ≠ 1 then
          match get_temp v2 glsl_type.vec4_type with
          | none => none
          | some (temp, v3) =>
            match emit ir TGSI_OPCODE_MOV (st_dst_reg.ofSrc temp) undef_dst reg
                undef_src undef_src undef_src v3 with
            | none => none
            | some (v4, _) => some (temp, num_reladdr - 1, v4)
        else some (reg, num_reladdr - 1, v2)

/-- The C conversion of a condition to `int`. -/
def bool_to_int (b : Bool) : Int := if b then 1 else 0

/-- One pass of the double-processing loop of `emit_asm` over an instruction, for
the channel `i` found by `u_bit_scan`; `inst0` is the instruction as first
emitted (it supplies `initial_dst_*` and `initial_src_*`), `dinst` the copy being
rewritten and `op` the resolved opcode. -/
def emit_asm_split (op : tgsi_opcode) (inst0 dinst : glsl_to_tgsi_instruction) (i : Nat) :
    glsl_to_tgsi_instruction :=
  let new_dst (d initial : st_dst_reg) : st_dst_reg :=
    if d.type = GLSL_TYPE_DOUBLE then
      { d with writemask := if i &&& 1 ≠ 0 then WRITEMASK_ZW else WRITEMASK_XY,
               index := if i > 1 then initial.index + 1 else initial.index }
    else
      { d with writemask := initial.writemask &&& (1 <<< i) }
  let d0 := new_dst dinst.dst0 inst0.dst0
  let d1 := new_dst dinst.dst1 inst0.dst1
  let new_src (s initial : st_src_reg) : st_src_reg :=
    let swz := GET_SWZ initial.swizzle i
    if s.type = GLSL_TYPE_DOUBLE then
      let s1 := s.set_index initial.index
      let s2 := if swz > 1 then (s1.set_double_reg2 true).set_index (s1.index + 1) else s1
      if swz &&& 1 ≠ 0 then
        s2.set_swizzle (MAKE_SWIZZLE4 SWIZZLE_Z SWIZZLE_W SWIZZLE_Z SWIZZLE_W)
      else
        s2.set_swizzle (MAKE_SWIZZLE4 SWIZZLE_X SWIZZLE_Y SWIZZLE_X SWIZZLE_Y)
    else if op = TGSI_OPCODE_F2D ∨ op = TGSI_OPCODE_DLDEXP
        ∨ (op = TGSI_OPCODE_UCMP ∧ d0.type = GLSL_TYPE_DOUBLE) then
      s.set_swizzle (MAKE_SWIZZLE4 swz swz swz swz)
    else s
  { dinst with
    dst0 := d0, dst1 := d1,
    src0 := new_src dinst.src0 inst0.src0,
    src1 := new_src dinst.src1 inst0.src1,
    src2 := new_src dinst.src2 inst0.src2,
    src3 := new_src dinst.src3 inst0.src3 }

/-- The channels `u_bit_scan` returns for a 32-bit mask, lowest first. -/
def bit_scan_list (writemask : Nat) : List Nat :=
  (List.range 32).filter (fun i => writemask &&& (1 <<< i) ≠ 0)

/-- The double-processing section of `emit_asm`: `done` is the instruction list
before `inst` was pushed.  The first channel rewrites `inst` in place, each
further channel pushes a rewritten copy of (the rewritten) `inst`.  Returns the
list and the returned pointer (`NULL` when the loop never ran). -/
def emit_asm_double (op : tgsi_opcode) (done : List glsl_to_tgsi_instruction)
    (inst : glsl_to_tgsi_instruction) : List glsl_to_tgsi_instruction × Option Nat :=
  if inst.dst0.type = GLSL_TYPE_DOUBLE ∨ inst.dst1.type = GLSL_TYPE_DOUBLE
      ∨ inst.src0.type = GLSL_TYPE_DOUBLE then
    let writemask :=
      if inst.dst0.file = PROGRAM_UNDEFINED then inst.dst1.writemask else inst.dst0.writemask
    match bit_scan_list writemask with
    | [] => (done ++ [inst], none)
    | i :: rest =>
      let first := emit_asm_split op inst inst i
      let all := done ++ first :: rest.map (fun k => emit_asm_split op inst first k)
      (all, some (all.length - 1))
  else (done ++ [inst], some done.length)

/-- The update of `indirect_addr_consts` in `emit_asm`; `none` is the failed
assertion that immediates have no indirect addressing. -/
def emit_asm_indirect (dst : st_dst_reg) (inst : glsl_to_tgsi_instruction)
    (flag : Bool) : Option Bool :=
  let file_case (file : gl_register_file) (flag : Bool) : Option Bool :=
    if file = PROGRAM_STATE_VAR ∨ file = PROGRAM_CONSTANT ∨ file = PROGRAM_UNIFORM then some true
    else if file = PROGRAM_IMMEDIATE then none
    else some flag
  if dst.reladdr.isSet || dst.reladdr2.isSet then file_case dst.file flag
  else
    let step (s : st_src_reg) (flag : Option Bool) : Option Bool :=
      match flag with
      | none => none
      | some f => if s.reladdr.isSet then file_case s.file f else some f
    step inst.src3 (step inst.src2 (step inst.src1 (step inst.src0 (some flag))))

/-- The instruction `emit_asm` allocates (zeroed, members default-constructed)
and fills in before pushing it. -/
def new_instruction (info : tgsi_opcode → tgsi_opcode_info) (ir : Option Nat)
    (op : tgsi_opcode) (dst dst1 : st_dst_reg) (src0 src1 src2 src3 : st_src_reg) :
    glsl_to_tgsi_instruction :=
  { op := op, dst0 := dst, dst1 := dst1,
    src0 := src0, src1 := src1, src2 := src2, src3 := src3,
    ir := ir, cond_update := false, saturate := false,
    sampler := st_src_reg.default, sampler_array_size := 0, tex_target := 0,
    tex_type := GLSL_TYPE_FLOAT, tex_shadow := false,
    tex_offsets0 := st_src_reg.default, tex_offsets1 := st_src_reg.default,
    tex_offsets2 := st_src_reg.default, tex_offsets3 := st_src_reg.default,
    tex_offset_num_offset := 0, dead_mask := 0, function := none,
    info := info op }

/-- The body of `emit_asm` (eight-operand overload), with the `emit_asm` that
`emit_arl` and `reladdr_to_temp` call as a parameter; `info` is the table
`tgsi_get_opcode_info`.  A failed assertion is `none`. -/
def emit_asm_body (info : tgsi_opcode → tgsi_opcode_info) (emit : emit_asm_fn) : emit_asm_fn :=
  fun ir op dst dst1 src0 src1 src2 src3 v =>
  match get_opcode v.native_integers op dst src0 src1 with
  | none => none
  | some op =>
    let num_reladdr : Int :=
      bool_to_int (dst.reladdr.isSet || dst.reladdr2.isSet)
        + bool_to_int (dst1.reladdr.isSet || dst1.reladdr2.isSet)
        + bool_to_int (src0.reladdr.isSet || src0.reladdr2.isSet)
        + bool_to_int (src1.reladdr.isSet || src1.reladdr2.isSet)
        + bool_to_int (src2.reladdr.isSet || src2.reladdr2.isSet)
        + bool_to_int (src3.reladdr.isSet || src3.reladdr2.isSet)
    match reladdr_to_temp_with emit ir src3 num_reladdr v with
    | none => none
    | some (src3, num_reladdr, v) =>
    match reladdr_to_temp_with emit ir src2 num_reladdr v with
    | none => none
    | some (src2, num_reladdr, v) =>
    match reladdr_to_temp_with emit ir src1 num_reladdr v with
    | none => none
    | some (src1, num_reladdr, v) =>
    match reladdr_to_temp_with emit ir src0 num_reladdr v with
    | none => none
    | some (src0, num_reladdr, v) =>
    let after_dst : Option (Int × glsl_to_tgsi_visitor) :=
      if dst.reladdr.isSet || dst.reladdr2.isSet then
        match emit_arl_ptr emit ir address_reg dst.reladdr v with
        | none => none
        | some v1 =>
          match emit_arl_ptr emit ir address_reg2 dst.reladdr2 v1 with
          | none => none
          | some v2 => some (num_reladdr - 1, v2)
      else some (num_reladdr, v)
    match after_dst with
    | none => none
    | some (num_reladdr, v) =>
    let after_dst1 : Option (Int × glsl_to_tgsi_visitor) :=
      if dst1.reladdr.isSet then
        match emit_arl_ptr emit ir address_reg dst1.reladdr v with
        | none => none
        | some v1 => some (num_reladdr - 1, v1)
      else some (num_reladdr, v)
    match after_dst1 with
    | none => none
    | some (num_reladdr, v) =>
    if num_reladdr ≠ 0 then none
    else
      let inst := new_instruction info ir op dst dst1 src0 src1 src2 src3
      match emit_asm_indirect dst inst v.indirect_addr_consts with
      | none => none
      | some flag =>
        let r := emit_asm_double op v.instructions inst
        some ({ v with indirect_addr_consts := flag, instructions := r.1 }, r.2)

/-- The method `emit_asm` unfolded `fuel` times along the chain of `reladdr`
pointers of its operands. -/
def emit_asm_fuel (info : tgsi_opcode → tgsi_opcode_info) : Nat → emit_asm_fn
  | 0 => fun _ _ _ _ _ _ _ _ _ => none
  | fuel + 1 => emit_asm_body info (emit_asm_fuel info fuel)

mutual
/-- Length of the longest chain of `reladdr`/`reladdr2` pointers below a register. -/
def st_src_reg.reladdr_depth : st_src_reg → Nat
  | .mk _ _ _ _ _ _ reladdr reladdr2 _ _ _ =>
      max (st_src_reg_ptr.reladdr_depth reladdr) (st_src_reg_ptr.reladdr_depth reladdr2)
/-- Length of the longest chain of pointers starting with this one. -/
def st_src_reg_ptr.reladdr_depth : st_src_reg_ptr → Nat
  | .NULL => 0
  | .ptr r => st_src_reg.reladdr_depth r + 1
end

/-- Method `emit_asm` (eight-operand overload).  Each level of relative addressing
costs at most two nested calls (the `MOV` of `reladdr_to_temp`, then the `ARL`),
so the recursion is unfolded twice per level of the deepest operand. -/
def emit_asm (info : tgsi_opcode → tgsi_opcode_info) : emit_asm_fn :=
  fun ir op dst dst1 src0 src1 src2 src3 v =>
  let depth :=
    max (max (max dst.reladdr.reladdr_depth dst.reladdr2.reladdr_depth)
          (max dst1.reladdr.reladdr_depth dst1.reladdr2.reladdr_depth))
      (max (max src0.reladdr_depth src1.reladdr_depth)
          (max src2.reladdr_depth src3.reladdr_depth))
  emit_asm_fuel info (2 * depth + 1) ir op dst dst1 src0 src1 src2 src3 v

/-- Method `emit_asm` (seven-operand overload, `dst1 = undef_dst`). -/
def emit_asm1 (info : tgsi_opcode → tgsi_opcode_info) (ir : Option Nat) (op : tgsi_opcode)
    (dst : st_dst_reg) (src0 src1 src2 src3 : st_src_reg) (v : glsl_to_tgsi_visitor) :
    Option (glsl_to_tgsi_visitor × Option Nat) :=
  emit_asm info ir op dst undef_dst src0 src1 src2 src3 v

/-- Method `emit_arl`. -/
def emit_arl (info : tgsi_opcode → tgsi_opcode_info) (ir : Option Nat) (dst : st_dst_reg)
    (src0 : st_src_reg) (v : glsl_to_tgsi_visitor) : Option glsl_to_tgsi_visitor :=
  emit_arl_with (emit_asm info) ir dst src0 v

/-! ## Lowering of rvalues -/

/-- Constructor `st_src_reg(gl_register_file file, int index, const glsl_type *type)`
for a non-null type; the assertion of `swizzle_for_size` fails with `none`. -/
def st_src_reg.ofGlslType (file : gl_register_file) (index : Int) (type : glsl_type) :
    Option st_src_reg :=
  if type.is_scalar || type.is_vector || type.is_matrix then
    match swizzle_for_size type.vector_elements with
    | some swz => some (.mk file index 0 swz 0 type.base_type .NULL .NULL false false 0)
    | none => none
  else some (.mk file index 0 SWIZZLE_XYZW 0 type.base_type .NULL .NULL false false 0)

/-- Method `find_variable_storage`. -/
def find_variable_storage (v : glsl_to_tgsi_visitor) (var : ir_variable) :
    Option variable_storage :=
  v.variables_.find? (fun entry => entry.var = var.id)

/-- Function `is_inout_array`: the result and `*is_2d`.  The element type of a
non-array `fields` union is `none`. -/
def is_inout_array (stage : gl_shader_stage) (var : ir_variable) : Option (Bool × Bool) :=
  if (stage = MESA_SHADER_VERTEX ∧ var.mode = ir_var_shader_in)
      ∨ (stage = MESA_SHADER_FRAGMENT ∧ var.mode = ir_var_shader_out) then
    some (false, false)
  else if ((stage = MESA_SHADER_GEOMETRY ∧ var.mode = ir_var_shader_in)
      ∨ (stage = MESA_SHADER_TESS_EVAL ∧ var.mode = ir_var_shader_in)
      ∨ stage = MESA_SHADER_TESS_CTRL) ∧ var.patch = false then
    if !var.type.is_array then some (false, false)
    else
      match var.type.fields with
      | .array type => some (type.is_array || type.is_matrix, true)
      | _ => none
  else some (var.type.is_array || var.type.is_matrix, false)

/-- The `array_size` that `visit(ir_dereference_variable *)` records for an
input or output array. -/
def inout_array_size (var : ir_variable) (is_2d : Bool) : Option Int :=
  if is_2d then
    match var.type.fields with
    | .array type => type_size type
    | _ => none
  else type_size var.type

/-- Method `visit(ir_dereference_variable *)`.  `exit(1)` (no storage could be
made) and the failed assertions are `none`. -/
def visit_dereference_variable (var : ir_variable) (v : glsl_to_tgsi_visitor) :
    Option glsl_to_tgsi_visitor :=
  let found : Option (variable_storage × glsl_to_tgsi_visitor) :=
    match find_variable_storage v var with
    | some entry => some (entry, v)
    | none =>
      match var.mode with
      | ir_var_uniform =>
          let entry : variable_storage := ⟨PROGRAM_UNIFORM, var.location, var.id, 0⟩
          some (entry, { v with variables_ := v.variables_ ++ [entry] })
      | ir_var_shader_in =>
          if var.location = -1 then none
          else
            match is_inout_array v.shader_Stage var with
            | none => none
            | some (true, is_2d) =>
              match inout_array_size var is_2d with
              | none => none
              | some size =>
                let decl : array_decl :=
                  ⟨var.location.toNat, v.input_arrays.length + 1, size.toNat⟩
                let entry : variable_storage :=
                  ⟨PROGRAM_INPUT, var.location, var.id, decl.array_id⟩
                some (entry, { v with input_arrays := v.input_arrays ++ [decl],
                                       variables_ := v.variables_ ++ [entry] })
            | some (false, _) =>
              let entry : variable_storage := ⟨PROGRAM_INPUT, var.location, var.id, 0⟩
              some (entry, { v with variables_ := v.variables_ ++ [entry] })
      | ir_var_shader_out =>
          if var.location = -1 then none
          else
            match is_inout_array v.shader_Stage var with
            | none => none
            | some (true, is_2d) =>
              match inout_array_size var is_2d with
              | none => none
              | some size =>
                let decl : array_decl :=
                  ⟨var.location.toNat, v.output_arrays.length + 1, size.toNat⟩
                let entry : variable_storage :=
                  ⟨PROGRAM_OUTPUT, var.location, var.id, decl.array_id⟩
                some (entry, { v with output_arrays := v.output_arrays ++ [decl],
                                       variables_ := v.variables_ ++ [entry] })
            | some (false, _) =>
              let entry : variable_storage :=
                ⟨PROGRAM_OUTPUT, var.location + var.index, var.id, 0⟩
              some (entry, { v with variables_ := v.variables_ ++ [entry] })
      | ir_var_system_value =>
          some (⟨PROGRAM_SYSTEM_VALUE, var.location, var.id, 0⟩, v)
      | ir_var_auto | ir_var_temporary =>
          match get_temp v var.type with
          | none => none
          | some (src, v1) =>
            let entry : variable_storage := ⟨src.file, src.index, var.id, 0⟩
            some (entry, { v1 with variables_ := v1.variables_ ++ [entry] })
      | _ => none
  match found with
  | none => none
  | some (entry, v1) =>
    match st_src_reg.ofGlslType entry.file entry.index var.type with
    | none => none
    | some r =>
      let r := r.set_array_id entry.array_id
      let r := if v1.native_integers = false then r.set_type GLSL_TYPE_FLOAT else r
      some { v1 with result := r }

/-- The rewriting of the swizzle in `visit(ir_swizzle *)` after the value has been
visited; the two assertions fail with `none`. -/
def visit_swizzle_tail (type : glsl_type) (mask : ir_swizzle_mask)
    (v : glsl_to_tgsi_visitor) : Option glsl_to_tgsi_visitor :=
  let src := v.result
  if src.file = PROGRAM_UNDEFINED then none
  else if type.vector_elements = 0 then none
  else
    let n := type.vector_elements
    let s0 := GET_SWZ src.swizzle mask.x
    let s1 := if 1 < n then GET_SWZ src.swizzle mask.y else s0
    let s2 := if 2 < n then GET_SWZ src.swizzle mask.z else s1
    let s3 := if 3 < n then GET_SWZ src.swizzle mask.w else s2
    some { v with result := src.set_swizzle (MAKE_SWIZZLE4 s0 s1 s2 s3) }

/-- The loop of `visit(ir_dereference_record *)` that adds up the sizes of the
members before `field`, over the first `n` members. -/
def record_field_offset (field : String) : glsl_struct_fields → Nat → Option Int
  | _, 0 => some 0
  | .nil, _ + 1 => none
  | .cons name type _ _ rest, n + 1 =>
      if name = field then some 0
      else
        match type_size type, record_field_offset field rest n with
        | some a, some b => some (a + b)
        | _, _ => none

/-- The part of `visit(ir_dereference_record *)` after the record has been
visited; `struct_type` is `ir->record->type`, `type` is `ir->type`. -/
def visit_dereference_record_tail (struct_type type : glsl_type) (field : String)
    (v : glsl_to_tgsi_visitor) : Option glsl_to_tgsi_visitor :=
  let offset : Option Int :=
    if struct_type.length = 0 then some 0
    else
      match struct_type.fields with
      | .structure members => record_field_offset field members struct_type.length
      | _ => none
  match offset with
  | none => none
  | some offset =>
    let swz : Option Nat :=
      if type.is_scalar || type.is_vector then swizzle_for_size type.vector_elements
      else some SWIZZLE_NOOP
    match swz with
    | none => none
    | some swz =>
      let r := v.result.set_swizzle swz
      let r := r.set_index (r.index + offset)
      some { v with result := r.set_type type.base_type }

/-- The statements of `try_emit_mad` after the three operands have been visited. -/
def try_emit_mad_tail (info : tgsi_opcode → tgsi_opcode_info) (ir : Nat) (type : glsl_type)
    (a b c : st_src_reg) (v : glsl_to_tgsi_visitor) : Option glsl_to_tgsi_visitor :=
  match get_temp v type with
  | none => none
  | some (result, v1) =>
    let v2 := { v1 with result := result }
    let result_dst := { st_dst_reg.ofSrc result with
      writemask := (1 <<< type.vector_elements) - 1 }
    (emit_asm1 info (some ir) TGSI_OPCODE_MAD result_dst a b c undef_src v2).map Prod.fst

/-- The statements of `try_emit_mad_for_and_not` after the two operands have been
visited. -/
def try_emit_mad_for_and_not_tail (info : tgsi_opcode → tgsi_opcode_info) (ir : Nat)
    (type : glsl_type) (a b : st_src_reg) (v : glsl_to_tgsi_visitor) :
    Option glsl_to_tgsi_visitor :=
  let b := b.set_negate (int_not b.negate)
  match get_temp v type with
  | none => none
  | some (result, v1) =>
    let v2 := { v1 with result := result }
    (emit_asm1 info (some ir) TGSI_OPCODE_MAD (st_dst_reg.ofSrc result) a b a undef_src
      v2).map Prod.fst

/-- Assignment `inst->saturate = true` through the pointer `emit_asm` returned;
a null pointer is `none`. -/
def set_saturate (r : glsl_to_tgsi_visitor × Option Nat) (saturate : Bool) :
    Option glsl_to_tgsi_visitor :=
  match r.2 with
  | none => none
  | some pos =>
    some { r.1 with instructions :=
      r.1.instructions.modify (fun inst => { inst with saturate := saturate }) pos }

/-- The `switch (ir->operation)` of `visit(ir_expression *)` for the operations
this development covers; every other operation is `none`.  `op` holds the
lowered operands, `operand0_type` is `ir->operands[0]->type`.  Returns the final
`result_src` and the visitor. -/
def visit_expression_switch (info : tgsi_opcode → tgsi_opcode_info) (ir : Nat)
    (operation : ir_expression_operation) (op : List st_src_reg)
    (result_src : st_src_reg) (result_dst : st_dst_reg) (v : glsl_to_tgsi_visitor) :
    Option (st_src_reg × glsl_to_tgsi_visitor) :=
  let op0 := op.getD 0 st_src_reg.default
  let op1 := op.getD 1 st_src_reg.default
  let op2 := op.getD 2 st_src_reg.default
  let emit (opcode : tgsi_opcode) (s0 s1 s2 : st_src_reg) (v : glsl_to_tgsi_visitor) :
      Option (st_src_reg × glsl_to_tgsi_visitor) :=
    (emit_asm1 info (some ir) opcode result_dst s0 s1 s2 undef_src v).map
      (fun r => (result_src, r.1))
  match operation with
  | ir_unop_logic_not =>
      if result_dst.type ≠ GLSL_TYPE_FLOAT then
        emit TGSI_OPCODE_NOT op0 undef_src undef_src v
      else
        match st_src_reg_for_float v float_bits_one with
        | none => none
        | some (one, v1) =>
          emit TGSI_OPCODE_ADD (op0.set_negate (int_not op0.negate)) one undef_src v1
  | ir_unop_neg =>
      if result_dst.type = GLSL_TYPE_INT ∨ result_dst.type = GLSL_TYPE_UINT then
        emit TGSI_OPCODE_INEG op0 undef_src undef_src v
      else if result_dst.type = GLSL_TYPE_DOUBLE then
        emit TGSI_OPCODE_DNEG op0 undef_src undef_src v
      else some (op0.set_negate (int_not op0.negate), v)
  | ir_unop_abs => emit TGSI_OPCODE_ABS op0 undef_src undef_src v
  | ir_unop_sign => emit TGSI_OPCODE_SSG op0 undef_src undef_src v
  | ir_unop_saturate =>
      match emit_asm1 info (some ir) TGSI_OPCODE_MOV result_dst op0 undef_src undef_src
          undef_src v with
      | none => none
      | some r => (set_saturate r true).map (fun v1 => (result_src, v1))
  | ir_unop_trunc => emit TGSI_OPCODE_TRUNC op0 undef_src undef_src v
  | ir_unop_ceil => emit TGSI_OPCODE_CEIL op0 undef_src undef_src v
  | ir_unop_floor => emit TGSI_OPCODE_FLR op0 undef_src undef_src v
  | ir_unop_round_even => emit TGSI_OPCODE_ROUND op0 undef_src undef_src v
  | ir_unop_fract => emit TGSI_OPCODE_FRC op0 undef_src undef_src v
  | ir_binop_add => emit TGSI_OPCODE_ADD op0 op1 undef_src v
  | ir_binop_sub => emit TGSI_OPCODE_SUB op0 op1 undef_src v
  | ir_binop_mul => emit TGSI_OPCODE_MUL op0 op1 undef_src v
  | ir_binop_less => emit TGSI_OPCODE_SLT op0 op1 undef_src v
  | ir_binop_greater => emit TGSI_OPCODE_SLT op1 op0 undef_src v
  | ir_binop_lequal => emit TGSI_OPCODE_SGE op1 op0 undef_src v
  | ir_binop_gequal => emit TGSI_OPCODE_SGE op0 op1 undef_src v
  | ir_binop_equal => emit TGSI_OPCODE_SEQ op0 op1 undef_src v
  | ir_binop_nequal => emit TGSI_OPCODE_SNE op0 op1 undef_src v
  | ir_binop_min => emit TGSI_OPCODE_MIN op0 op1 undef_src v
  | ir_binop_max => emit TGSI_OPCODE_MAX op0 op1 undef_src v
  | ir_binop_logic_xor =>
      if v.native_integers then emit TGSI_OPCODE_XOR op0 op1 undef_src v
      else emit TGSI_OPCODE_SNE op0 op1 undef_src v
  | ir_binop_logic_or =>
      if v.native_integers then emit TGSI_OPCODE_OR op0 op1 undef_src v
      else
        match emit_asm1 info (some ir) TGSI_OPCODE_ADD result_dst op0 op1 undef_src
            undef_src v with
        | none => none
        | some r =>
          if r.1.prog_Target = GL_FRAGMENT_PROGRAM_ARB then
            (set_saturate r true).map (fun v1 => (result_src, v1))
          else
            match st_src_reg_for_float r.1 float_bits_zero with
            | none => none
            | some (zero, v1) =>
              emit TGSI_OPCODE_SLT (result_src.set_negate (int_not result_src.negate)) zero
                undef_src v1
  | ir_binop_logic_and =>
      if v.native_integers then emit TGSI_OPCODE_AND op0 op1 undef_src v
      else emit TGSI_OPCODE_MUL op0 op1 undef_src v
  | ir_triop_lrp => emit TGSI_OPCODE_LRP op2 op1 op0 v
  | ir_triop_fma =>
      if v.have_fma then emit TGSI_OPCODE_FMA op0 op1 op2 v
      else emit TGSI_OPCODE_MAD op0 op1 op2 v
  | _ => none

/-- The part of `visit(ir_expression *)` after the operand loop: storage for the
result, the switch, and `this->result = result_src`.  `first_operand` says
whether `ir->operands[0]` exists (it is dereferenced for `vector_elements`). -/
def visit_expression_tail (info : tgsi_opcode → tgsi_opcode_info) (ir : Nat)
    (type : glsl_type) (operation : ir_expression_operation) (first_operand : Bool)
    (op : List st_src_reg) (v : glsl_to_tgsi_visitor) : Option glsl_to_tgsi_visitor :=
  if first_operand = false then none
  else
    let v := { v with result := v.result.set_file PROGRAM_UNDEFINED }
    match get_temp v type with
    | none => none
    | some (result_src, v1) =>
      let result_dst := { st_dst_reg.ofSrc result_src with
        writemask := (1 <<< type.vector_elements) - 1 }
      match visit_expression_switch info ir operation op result_src result_dst v1 with
      | none => none
      | some (result_src, v2) => some { v2 with result := result_src }

namespace ir_rvalue_list

/-- Element `operands[k]`; a null operand is `none`. -/
def get? : ir_rvalue_list → Nat → Option ir_rvalue
  | nil, _ => none
  | cons head _, 0 => some head
  | cons _ tail, k + 1 => get? tail k

end ir_rvalue_list

mutual
/-- Height of an rvalue tree (a leaf has height 0). -/
def ir_rvalue.depth : ir_rvalue → Nat
  | .dereference_variable _ _ => 0
  | .dereference_array _ _ array array_index => max array.depth array_index.depth + 1
  | .dereference_record _ _ record _ => record.depth + 1
  | .swizzle _ _ val _ => val.depth + 1
  | .expression _ _ _ operands => operands.depth + 1
  | .constant _ _ _ => 0
/-- Largest height among the operands. -/
def ir_rvalue_list.depth : ir_rvalue_list → Nat
  | .nil => 0
  | .cons head tail => max head.depth tail.depth
end

/-- The type of `ir->accept(this)` on an rvalue. -/
abbrev visit_fn := ir_rvalue → glsl_to_tgsi_visitor → Option glsl_to_tgsi_visitor

/-- The operand loop of `visit(ir_expression *)`, with `accept` as a parameter:
`exit(1)` when an operand produced no result and the assertion that no operand
is a matrix are `none`. -/
def visit_operands (visit : visit_fn) :
    ir_rvalue_list → glsl_to_tgsi_visitor →
      Option (List st_src_reg × glsl_to_tgsi_visitor)
  | .nil, v => some ([], v)
  | .cons operand rest, v =>
      match visit operand { v with result := v.result.set_file PROGRAM_UNDEFINED } with
      | none => none
      | some v1 =>
        if v1.result.file = PROGRAM_UNDEFINED then none
        else if operand.type.is_matrix then none
        else
          match visit_operands visit rest v1 with
          | none => none
          | some (ops, v2) => some (v1.result :: ops, v2)

/-- Method `try_emit_mad`, with `accept` as a parameter.  The result is `none` when
the source would dereference a null operand or fail an assertion, `some none`
when it returns `false` and `some (some v)` when it returns `true`. -/
def try_emit_mad (info : tgsi_opcode → tgsi_opcode_info) (visit : visit_fn)
    (ir : Nat) (type : glsl_type) (operands : ir_rvalue_list) (mul_operand : Nat)
    (v : glsl_to_tgsi_visitor) : Option (Option glsl_to_tgsi_visitor) :=
  let nonmul_operand := 1 - mul_operand
  match operands.get? mul_operand with
  | none => none
  | some (.expression _ _ operation expr_operands) =>
    if operation ≠ ir_binop_mul then some none
    else
      match expr_operands.get? 0, expr_operands.get? 1, operands.get? nonmul_operand with
      | some e0, some e1, some other =>
        match visit e0 v with
        | none => none
        | some va =>
          match visit e1 va with
          | none => none
          | some vb =>
            match visit other vb with
            | none => none
            | some vc =>
              (try_emit_mad_tail info ir type va.result vb.result vc.result vc).map some
      | _, _, _ => none
  | some _ => some none

/-- Method `try_emit_mad_for_and_not`, with `accept` as a parameter; the result is
as for `try_emit_mad`. -/
def try_emit_mad_for_and_not (info : tgsi_opcode → tgsi_opcode_info) (visit : visit_fn)
    (ir : Nat) (type : glsl_type) (operands : ir_rvalue_list) (try_operand : Nat)
    (v : glsl_to_tgsi_visitor) : Option (Option glsl_to_tgsi_visitor) :=
  let other_operand := 1 - try_operand
  match operands.get? try_operand with
  | none => none
  | some (.expression _ _ operation expr_operands) =>
    if operation ≠ ir_unop_logic_not then some none
    else
      match operands.get? other_operand, expr_operands.get? 0 with
      | some other, some e0 =>
        match visit other v with
        | none => none
        | some va =>
          match visit e0 va with
          | none => none
          | some vb =>
            (try_emit_mad_for_and_not_tail info ir type va.result vb.result vb).map some
      | _, _ => none
  | some _ => some none

/-- Method `visit(ir_expression *)`, with `accept` as a parameter. -/
def visit_expression (info : tgsi_opcode → tgsi_opcode_info) (visit : visit_fn)
    (ir : Nat) (type : glsl_type) (operation : ir_expression_operation)
    (operands : ir_rvalue_list) (v : glsl_to_tgsi_visitor) : Option glsl_to_tgsi_visitor :=
  let generic (v : glsl_to_tgsi_visitor) : Option glsl_to_tgsi_visitor :=
    if operation = ir_quadop_vector then none
    else
      match visit_operands visit operands v with
      | none => none
      | some (op, v1) =>
        visit_expression_tail info ir type operation (operands.get? 0).isSome op v1
  let and_not (v : glsl_to_tgsi_visitor) : Option glsl_to_tgsi_visitor :=
    if v.native_integers = false ∧ operation = ir_binop_logic_and then
      match try_emit_mad_for_and_not info visit ir type operands 1 v with
      | none => none
      | some (some v1) => some v1
      | some none =>
        match try_emit_mad_for_and_not info visit ir type operands 0 v with
        | none => none
        | some (some v1) => some v1
        | some none => generic v
    else generic v
  if operation = ir_binop_add then
    match try_emit_mad info visit ir type operands 1 v with
    | none => none
    | some (some v1) => some v1
    | some none =>
      match try_emit_mad info visit ir type operands 0 v with
      | none => none
      | some (some v1) => some v1
      | some none => and_not v
  else and_not v

/-- One level of `ir->accept(this)` on an rvalue, with the `accept` of the children
as a parameter: the `visit` methods for `ir_dereference_variable`, `ir_swizzle`,
`ir_dereference_record` and `ir_expression`.  `ir_dereference_array` and
`ir_constant` are outside the covered subset and are `none`. -/
def visit_rvalue_body (info : tgsi_opcode → tgsi_opcode_info) (visit : visit_fn) : visit_fn
  | .dereference_variable _ var, v => visit_dereference_variable var v
  | .dereference_array _ _ _ _, _ => none
  | .constant _ _ _, _ => none
  | .swizzle _ type val mask, v =>
      match visit val v with
      | none => none
      | some v1 => visit_swizzle_tail type mask v1
  | .dereference_record _ type record field, v =>
      match visit record v with
      | none => none
      | some v1 => visit_dereference_record_tail record.type type field v1
  | .expression id type operation operands, v =>
      visit_expression info visit id type operation operands v

/-- The call `ir->accept(this)` unfolded to `fuel` levels of the tree. -/
def visit_rvalue_fuel (info : tgsi_opcode → tgsi_opcode_info) : Nat → visit_fn
  | 0 => fun _ _ => none
  | fuel + 1 => visit_rvalue_body info (visit_rvalue_fuel info fuel)

/-- The call `ir->accept(this)` on an rvalue: the recursion of the visitor follows
the tree, so it is unfolded once more than the tree is high. -/
def visit_rvalue (info : tgsi_opcode → tgsi_opcode_info) : visit_fn :=
  fun ir v => visit_rvalue_fuel info (ir.depth + 1) ir v

/-! ## The condition of a conditional assignment -/

/-- Modelled from the spec: `ir_rvalue::is_zero` (`ir.cpp`, not part of the
translated sources): a scalar or vector constant all of whose components are
zero, a float component being zero as `0.0` or as `-0.0`; every other rvalue is
not zero. -/
def ir_rvalue.is_zero : ir_rvalue → Bool
  | .constant _ type value =>
      (type.is_scalar || type.is_vector) && decide (type.vector_elements ≤ value.length)
        && (value.take type.vector_elements).all (fun w =>
              decide (w = 0) || (type.is_float && decide (w = 0x80000000)))
  | _ => false

/-- The choice of `process_move_condition` without native integers: `src_ir`,
`negate` and `switch_order` for the condition `ir`. -/
def process_move_condition_choice (ir : ir_rvalue) : ir_rvalue × Bool × Bool :=
  match ir with
  | .expression _ _ operation (.cons operand0 (.cons operand1 .nil)) =>
    let picked : Option (ir_rvalue × Bool) :=
      if operand0.is_zero then some (operand1, true)
      else if operand1.is_zero then some (operand0, false)
      else none
    match picked with
    | some (src_ir, zero_on_left) =>
      match operation with
      | ir_binop_less => (src_ir, zero_on_left, false)
      | ir_binop_greater => (src_ir, !zero_on_left, false)
      | ir_binop_lequal => (src_ir, !zero_on_left, true)
      | ir_binop_gequal => (src_ir, zero_on_left, true)
      | _ => (ir, true, false)
    | none => (ir, true, false)
  | _ => (ir, true, false)

/-- The choice of `process_move_condition` with native integers: `src_ir` and
`switch_order` for the condition `ir`. -/
def process_move_condition_native (ir : ir_rvalue) : ir_rvalue × Bool :=
  match ir with
  | .expression _ _ operation (.cons operand0 (.cons operand1 .nil)) =>
    let type := operand0.type.base_type
    if type = GLSL_TYPE_INT ∨ type = GLSL_TYPE_UINT ∨ type = GLSL_TYPE_BOOL then
      if operation = ir_binop_equal then
        if operand0.is_zero then (operand1, true)
        else if operand1.is_zero then (operand0, true)
        else (ir, false)
      else if operation = ir_binop_nequal then
        if operand0.is_zero then (operand1, false)
        else if operand1.is_zero then (operand0, false)
        else (ir, false)
      else (ir, false)
    else (ir, false)
  | _ => (ir, false)

/-- Method `process_move_condition`: the return value `switch_order` and the visitor
behind the call, whose `result` is the first operand for the `CMP`. -/
def process_move_condition (info : tgsi_opcode → tgsi_opcode_info) (ir : ir_rvalue)
    (v : glsl_to_tgsi_visitor) : Option (Bool × glsl_to_tgsi_visitor) :=
  if v.native_integers then
    (visit_rvalue info (process_move_condition_native ir).1 v).map
      (fun v1 => ((process_move_condition_native ir).2, v1))
  else
    match visit_rvalue info (process_move_condition_choice ir).1 v with
    | none => none
    | some v1 =>
      let v2 :=
        if (process_move_condition_choice ir).2.1 then
          { v1 with result := v1.result.set_negate (int_not v1.result.negate) }
        else v1
      some ((process_move_condition_choice ir).2.2, v2)

/-! ## Lowering of statements -/

/-- Modelled from the spec: the statement classes of `ir.h` whose `visit` methods
are translated: `ir_assignment` (`lhs`, `rhs`, `condition`, `write_mask`) and
`ir_discard` (`condition`); `id` is the address of the node. -/
inductive ir_statement
  | assignment (id : Nat) (lhs : ir_rvalue) (rhs : ir_rvalue) (condition : Option ir_rvalue)
      (write_mask : Nat)
  | discard (id : Nat) (condition : Option ir_rvalue)
  deriving DecidableEq

/-- The type of `emit_block_mov`: the updated `*l`, `*r` and visitor. -/
abbrev emit_block_mov_fn :=
  glsl_type → st_dst_reg → st_src_reg → glsl_to_tgsi_visitor →
    Option (st_dst_reg × st_src_reg × glsl_to_tgsi_visitor)

/-- A loop that calls `emit_block_mov` once per listed type. -/
def emit_block_mov_loop (emit : emit_block_mov_fn) :
    List glsl_type → st_dst_reg → st_src_reg → glsl_to_tgsi_visitor →
      Option (st_dst_reg × st_src_reg × glsl_to_tgsi_visitor)
  | [], l, r, v => some (l, r, v)
  | type :: rest, l, r, v =>
      match emit type l r v with
      | none => none
      | some (l1, r1, v1) => emit_block_mov_loop emit rest l1 r1 v1

/-- The types of the first `n` members of a struct; `none` if there are fewer. -/
def glsl_struct_fields.types : glsl_struct_fields → Nat → Option (List glsl_type)
  | _, 0 => some []
  | .nil, _ + 1 => none
  | .cons _ type _ _ rest, n + 1 => (rest.types n).map (fun ts => type :: ts)

/-- The body of `emit_block_mov`, with the recursive call as a parameter; `cond` is
the pair of `*cond` and `cond_swap`, or `none` for a null `cond`. -/
def emit_block_mov_body (info : tgsi_opcode → tgsi_opcode_info) (emit : emit_block_mov_fn)
    (ir : Nat) (cond : Option (st_src_reg × Bool)) : emit_block_mov_fn :=
  fun type l r v =>
  if type.base_type = GLSL_TYPE_STRUCT then
    match type.fields with
    | .structure members =>
      match members.types type.length with
      | some ts => emit_block_mov_loop emit ts l r v
      | none => none
    | _ => if type.length = 0 then some (l, r, v) else none
  else if type.is_array then
    match type.fields with
    | .array element => emit_block_mov_loop emit (List.replicate type.length element) l r v
    | _ => if type.length = 0 then some (l, r, v) else none
  else if type.is_matrix then
    let vec_type := glsl_type.get_instance GLSL_TYPE_FLOAT type.vector_elements 1
    emit_block_mov_loop emit (List.replicate type.matrix_columns vec_type) l r v
  else if !(type.is_scalar || type.is_vector) then none
  else
    let r := r.set_type type.base_type
    let emitted : Option (glsl_to_tgsi_visitor × Option Nat) :=
      match cond with
      | some (cond, cond_swap) =>
        match swizzle_for_size type.vector_elements with
        | none => none
        | some swz =>
          let l_src := (st_src_reg.ofDst l).set_swizzle swz
          emit_asm1 info (some ir)
            (if v.native_integers then TGSI_OPCODE_UCMP else TGSI_OPCODE_CMP) l cond
            (if cond_swap then l_src else r) (if cond_swap then r else l_src) undef_src v
      | none => emit_asm1 info (some ir) TGSI_OPCODE_MOV l r undef_src undef_src undef_src v
    match emitted with
    | none => none
    | some (v1, _) => some ({ l with index := l.index + 1 }, r.set_index (r.index + 1), v1)

/-- The method `emit_block_mov` unfolded to `fuel` levels of the type. -/
def emit_block_mov_fuel (info : tgsi_opcode → tgsi_opcode_info) (ir : Nat)
    (cond : Option (st_src_reg × Bool)) : Nat → emit_block_mov_fn
  | 0 => fun _ _ _ _ => none
  | fuel + 1 => emit_block_mov_body info (emit_block_mov_fuel info ir cond fuel) ir cond

mutual
/-- Nesting depth of a type (a scalar or vector has depth 0). -/
def glsl_type.depth : glsl_type → Nat
  | .mk _ _ _ _ fields => glsl_type_fields.depth fields + 1
/-- Nesting depth below the `fields` union. -/
def glsl_type_fields.depth : glsl_type_fields → Nat
  | .empty => 0
  | .array element => glsl_type.depth element
  | .structure members => glsl_struct_fields.depth members
/-- Largest nesting depth among the members. -/
def glsl_struct_fields.depth : glsl_struct_fields → Nat
  | .nil => 0
  | .cons _ type _ _ rest => max (glsl_type.depth type) (glsl_struct_fields.depth rest)
end

/-- Method `emit_block_mov`: the recursion follows the type (one more level for
the column vectors of a matrix). -/
def emit_block_mov (info : tgsi_opcode → tgsi_opcode_info) (ir : Nat)
    (cond : Option (st_src_reg × Bool)) : emit_block_mov_fn :=
  fun type l r v => emit_block_mov_fuel info ir cond (type.depth + 2) type l r v

/-- Method `ir_instruction::as_dereference` as a test. -/
def ir_rvalue.is_dereference : ir_rvalue → Bool
  | .dereference_variable _ _ => true
  | .dereference_array _ _ _ _ => true
  | .dereference_record _ _ _ _ => true
  | _ => false

/-- Function `get_assignment_lhs`; the two assertions fail with `none`. -/
def get_assignment_lhs (info : tgsi_opcode → tgsi_opcode_info) (ir : ir_rvalue)
    (v : glsl_to_tgsi_visitor) : Option (st_dst_reg × glsl_to_tgsi_visitor) :=
  if !ir.is_dereference then none
  else
    let array_ok : Bool :=
      match ir with
      | .dereference_array _ _ array _ => !array.type.is_vector
      | _ => true
    if !array_ok then none
    else
      match visit_rvalue info ir v with
      | none => none
      | some v1 => some (st_dst_reg.ofSrc v1.result, v1)

/-- The swizzle that `visit(ir_assignment *)` gives the right-hand side for a
non-zero write-mask: the channels of `r` in write order, the first enabled
channel elsewhere. -/
def assignment_swizzle (writemask : Nat) (r_swizzle : Nat) : Nat :=
  let enabled (i : Nat) : Bool := writemask &&& (1 <<< i) ≠ 0
  let first_enabled_chan :=
    if enabled 0 then GET_SWZ r_swizzle 0
    else if enabled 1 then GET_SWZ r_swizzle 1
    else if enabled 2 then GET_SWZ r_swizzle 2
    else if enabled 3 then GET_SWZ r_swizzle 3
    else 0
  let c0 := 0
  let s0 := if enabled 0 then GET_SWZ r_swizzle c0 else first_enabled_chan
  let c1 := if enabled 0 then c0 + 1 else c0
  let s1 := if enabled 1 then GET_SWZ r_swizzle c1 else first_enabled_chan
  let c2 := if enabled 1 then c1 + 1 else c1
  let s2 := if enabled 2 then GET_SWZ r_swizzle c2 else first_enabled_chan
  let c3 := if enabled 2 then c2 + 1 else c2
  let s3 := if enabled 3 then GET_SWZ r_swizzle c3 else first_enabled_chan
  MAKE_SWIZZLE4 s0 s1 s2 s3

/-- Method `visit(ir_assignment *)`.  The failed assertions are `none`. -/
def visit_assignment (info : tgsi_opcode → tgsi_opcode_info) (id : Nat)
    (lhs rhs : ir_rvalue) (condition : Option ir_rvalue) (write_mask : Nat)
    (v : glsl_to_tgsi_visitor) : Option glsl_to_tgsi_visitor :=
  match visit_rvalue info rhs v with
  | none => none
  | some v1 =>
    let r := v1.result
    match get_assignment_lhs info lhs v1 with
    | none => none
    | some (l, v2) =>
      let masked : Option (st_dst_reg × st_src_reg) :=
        if write_mask = 0 then
          if lhs.type.is_scalar || lhs.type.is_vector then none
          else some ({ l with writemask := WRITEMASK_XYZW }, r)
        else if lhs.type.is_scalar && !lhs.type.is_double
            && (match lhs.variable_referenced with
                | some var => decide (var.mode = ir_var_shader_out)
                | none => false) then
          some ({ l with writemask := WRITEMASK_XYZW }, r)
        else
          some ({ l with writemask := write_mask },
            r.set_swizzle (assignment_swizzle write_mask r.swizzle))
      match masked with
      | none => none
      | some (l, r) =>
        if l.file = PROGRAM_UNDEFINED ∨ r.file = PROGRAM_UNDEFINED then none
        else
          match condition with
          | some cond =>
            match process_move_condition info cond v2 with
            | none => none
            | some (switch_order, v3) =>
              (emit_block_mov info id (some (v3.result, switch_order)) lhs.type l r v3).map
                (fun x => x.2.2)
          | none =>
            match v2.instructions.getLast? with
            | some inst =>
              if rhs.is_expression ∧ inst.ir = some rhs.id ∧ type_size lhs.type = some 1
                  ∧ l.writemask = inst.dst0.writemask then
                match emit_asm1 info (some id) inst.op l inst.src0 inst.src1 inst.src2
                    inst.src3 v2 with
                | none => none
                | some (_, none) => none
                | some (v3, some new_pos) =>
                  let old_pos := v2.instructions.length - 1
                  let insts1 := v3.instructions.modify
                    (fun new_inst => { new_inst with saturate := inst.saturate }) new_pos
                  let insts2 := insts1.modify
                    (fun old_inst => { old_inst with dead_mask := old_inst.dst0.writemask }) old_pos
                  some { v3 with instructions := insts2 }
              else
                (emit_block_mov info id none rhs.type l r v2).map (fun x => x.2.2)
            | none => (emit_block_mov info id none rhs.type l r v2).map (fun x => x.2.2)

/-- Method `visit(ir_discard *)`. -/
def visit_discard (info : tgsi_opcode → tgsi_opcode_info) (id : Nat)
    (condition : Option ir_rvalue) (v : glsl_to_tgsi_visitor) :
    Option glsl_to_tgsi_visitor :=
  match condition with
  | some cond =>
    match visit_rvalue info cond v with
    | none => none
    | some v1 =>
      let converted : Option (st_src_reg × glsl_to_tgsi_visitor) :=
        if v1.native_integers then
          match get_temp v1 cond.type with
          | none => none
          | some (temp, v2) =>
            match st_src_reg_for_float v2 float_bits_one with
            | none => none
            | some (one, v3) =>
              match emit_asm1 info (some id) TGSI_OPCODE_AND (st_dst_reg.ofSrc temp)
                  v1.result one undef_src undef_src v3 with
              | none => none
              | some (v4, _) => some (temp, v4)
        else some (v1.result, v1)
      match converted with
      | none => none
      | some (condition, v5) =>
        let condition := condition.set_negate (int_not condition.negate)
        (emit_asm1 info (some id) TGSI_OPCODE_KILL_IF undef_dst condition undef_src
          undef_src undef_src v5).map Prod.fst
  | none =>
    (emit_asm1 info (some id) TGSI_OPCODE_KILL undef_dst undef_src undef_src undef_src
      undef_src v).map Prod.fst

/-- The call `ir->accept(this)` on a statement. -/
def visit_statement (info : tgsi_opcode → tgsi_opcode_info) :
    ir_statement → glsl_to_tgsi_visitor → Option glsl_to_tgsi_visitor
  | .assignment id lhs rhs condition write_mask, v =>
      visit_assignment info id lhs rhs condition write_mask v
  | .discard id condition, v => visit_discard info id condition v

/-! ## Tables indexed by register number -/

/-- Read of `a[i]` for a C `int` index; out of bounds is `none`. -/
def arr_get {α : Type} (a : List α) (i : Int) : Option α :=
  if 0 ≤ i then a[i.toNat]? else none

/-- Write `a[i] = x` for a C `int` index; out of bounds is `none`. -/
def arr_set {α : Type} (a : List α) (i : Int) (x : α) : Option (List α) :=
  if 0 ≤ i ∧ i.toNat < a.length then some (a.set i.toNat x) else none

/-- The loop `for (j = 0; j < n; j++) s = f(j, s)` with a body that can fail. -/
def loop_range {σ : Type} (n : Nat) (f : Nat → σ → Option σ) (s : σ) : Option σ :=
  (List.range n).foldlM (fun s j => f j s) s

/-- A pass over a table that rewrites every element from its index and value. -/
def map_idx_from {α β : Type} (f : Nat → α → β) : List α → Nat → List β
  | [], _ => []
  | x :: xs, k => f k x :: map_idx_from f xs (k + 1)

/-! ## `rename_temp_registers` -/

/-- The inner loop `for (k = 0; k < num_renames; k++) if (index == renames[k].old_reg)
index = renames[k].new_reg` of `rename_temp_registers`. -/
def rename_index (renames : List rename_reg_pair) (index : Int) : Int :=
  renames.foldl (fun idx p => if idx = p.old_reg then p.new_reg else idx) index

/-- The body of `rename_temp_registers` for one instruction; an operand slot beyond
the arrays of the instruction is `none`. -/
def rename_temp_registers_inst (renames : List rename_reg_pair)
    (inst : glsl_to_tgsi_instruction) : Option glsl_to_tgsi_instruction :=
  let srcs := loop_range (num_inst_src_regs inst) (fun j inst =>
    match inst.src j with
    | none => none
    | some r =>
      if r.file = PROGRAM_TEMPORARY then
        some (inst.set_src j (r.set_index (rename_index renames r.index)))
      else some inst) inst
  match srcs with
  | none => none
  | some inst1 =>
    let offs := loop_range inst1.tex_offset_num_offset (fun j inst =>
      match inst.tex_offsets j with
      | none => none
      | some r =>
        if r.file = PROGRAM_TEMPORARY then
          some (inst.set_tex_offsets j (r.set_index (rename_index renames r.index)))
        else some inst) inst1
    match offs with
    | none => none
    | some inst2 =>
      loop_range (num_inst_dst_regs inst2) (fun j inst =>
        match inst.dst j with
        | none => none
        | some r =>
          if r.file = PROGRAM_TEMPORARY then
            some (inst.set_dst j { r with index := rename_index renames r.index })
          else some inst) inst2

/-- Method `rename_temp_registers` on the instruction list. -/
def rename_temp_registers (renames : List rename_reg_pair) :
    List glsl_to_tgsi_instruction → Option (List glsl_to_tgsi_instruction)
  | [] => some []
  | inst :: rest =>
      match rename_temp_registers_inst renames inst, rename_temp_registers renames rest with
      | some inst1, some rest1 => some (inst1 :: rest1)
      | _, _ => none

/-! ## Live-range tables -/

/-- The loop state of `get_first_temp_read` and
`get_last_temp_read_first_temp_write`: `depth`, `loop_start` and the counter
`i`. -/
structure loop_tracker where
  depth : Int
  loop_start : Int
  i : Nat
  deriving DecidableEq

/-- The end of the loop body of `get_first_temp_read`: the update of `depth` and
`loop_start` for `BGNLOOP` / `ENDLOOP`, the assertion `depth >= 0` (`none`) and
`i++`. -/
def loop_tracker.advance (t : loop_tracker) (op : tgsi_opcode) : Option loop_tracker :=
  let t1 : loop_tracker :=
    if op = TGSI_OPCODE_BGNLOOP then
      { t with depth := t.depth + 1, loop_start := if t.depth = 0 then t.i else t.loop_start }
    else if op = TGSI_OPCODE_ENDLOOP then
      { t with depth := t.depth - 1, loop_start := if t.depth - 1 = 0 then -1 else t.loop_start }
    else t
  if t1.depth < 0 then none else some { t1 with i := t1.i + 1 }

/-- The statement `if (first_reads[index] == -1) first_reads[index] = value`. -/
def set_if_unset (table : List Int) (index value : Int) : Option (List Int) :=
  match arr_get table index with
  | none => none
  | some cur => if cur = -1 then arr_set table index value else some table

/-- The body of `get_first_temp_read` for one instruction, before the loop
bookkeeping. -/
def get_first_temp_read_inst (t : loop_tracker) (inst : glsl_to_tgsi_instruction)
    (first_reads : List Int) : Option (List Int) :=
  let value : Int := if t.depth = 0 then t.i else t.loop_start
  let srcs := loop_range (num_inst_src_regs inst) (fun j first_reads =>
    match inst.src j with
    | none => none
    | some r =>
      if r.file = PROGRAM_TEMPORARY then set_if_unset first_reads r.index value
      else some first_reads) first_reads
  match srcs with
  | none => none
  | some first_reads1 =>
    loop_range inst.tex_offset_num_offset (fun j first_reads =>
      match inst.tex_offsets j with
      | none => none
      | some r =>
        if r.file = PROGRAM_TEMPORARY then set_if_unset first_reads r.index value
        else some first_reads) first_reads1

/-- The loop of `get_first_temp_read` from a given loop state. -/
def get_first_temp_read_from :
    List glsl_to_tgsi_instruction → loop_tracker → List Int → Option (List Int)
  | [], _, first_reads => some first_reads
  | inst :: rest, t, first_reads =>
      match get_first_temp_read_inst t inst first_reads with
      | none => none
      | some first_reads1 =>
        match t.advance inst.op with
        | none => none
        | some t1 => get_first_temp_read_from rest t1 first_reads1

/-- Method `get_first_temp_read`. -/
def get_first_temp_read (instructions : List glsl_to_tgsi_instruction)
    (first_reads : List Int) : Option (List Int) :=
  get_first_temp_read_from instructions ⟨0, -1, 0⟩ first_reads

/-- The body of `get_last_temp_read_first_temp_write` for one instruction, before
the loop bookkeeping. -/
def get_last_temp_read_first_temp_write_inst (t : loop_tracker)
    (inst : glsl_to_tgsi_instruction) (tables : List Int × List Int) :
    Option (List Int × List Int) :=
  let read_value : Int := if t.depth = 0 then t.i else -2
  let write_value : Int := if t.depth = 0 then t.i else t.loop_start
  let srcs := loop_range (num_inst_src_regs inst) (fun j last_reads =>
    match inst.src j with
    | none => none
    | some r =>
      if r.file = PROGRAM_TEMPORARY then arr_set last_reads r.index read_value
      else some last_reads) tables.1
  match srcs with
  | none => none
  | some last_reads1 =>
    let dsts := loop_range (num_inst_dst_regs inst) (fun j first_writes =>
      match inst.dst j with
      | none => none
      | some r =>
        if r.file = PROGRAM_TEMPORARY then set_if_unset first_writes r.index write_value
        else some first_writes) tables.2
    match dsts with
    | none => none
    | some first_writes1 =>
      let offs := loop_range inst.tex_offset_num_offset (fun j last_reads =>
        match inst.tex_offsets j with
        | none => none
        | some r =>
          if r.file = PROGRAM_TEMPORARY then arr_set last_reads r.index read_value
          else some last_reads) last_reads1
      match offs with
      | none => none
      | some last_reads2 => some (last_reads2, first_writes1)

/-- The loop `for (k = 0; k < next_temp; k++) if (last_reads[k] == -2) last_reads[k] = i`
that closes an outermost loop; it fails if the table is shorter than
`next_temp`. -/
def close_loop_reads (next_temp : Int) (i : Nat) (last_reads : List Int) :
    Option (List Int) :=
  if next_temp.toNat ≤ last_reads.length then
    some (map_idx_from (fun k x => if k < next_temp.toNat ∧ x = -2 then (i : Int) else x)
      last_reads 0)
  else none

/-- The loop of `get_last_temp_read_first_temp_write` from a given loop state. -/
def get_last_temp_read_first_temp_write_from (next_temp : Int) :
    List glsl_to_tgsi_instruction → loop_tracker → List Int × List Int →
      Option (List Int × List Int)
  | [], _, tables => some tables
  | inst :: rest, t, tables =>
      match get_last_temp_read_first_temp_write_inst t inst tables with
      | none => none
      | some (last_reads, first_writes) =>
        let closed : Option (List Int) :=
          if inst.op = TGSI_OPCODE_ENDLOOP ∧ t.depth - 1 = 0 then
            close_loop_reads next_temp t.i last_reads
          else some last_reads
        match closed, t.advance inst.op with
        | some last_reads1, some t1 =>
            get_last_temp_read_first_temp_write_from next_temp rest t1
              (last_reads1, first_writes)
        | _, _ => none

/-- Method `get_last_temp_read_first_temp_write`: the tables `last_reads` and
`first_writes`. -/
def get_last_temp_read_first_temp_write (next_temp : Int)
    (instructions : List glsl_to_tgsi_instruction) (last_reads first_writes : List Int) :
    Option (List Int × List Int) :=
  get_last_temp_read_first_temp_write_from next_temp instructions ⟨0, -1, 0⟩
    (last_reads, first_writes)

/-! ## `merge_registers` and `renumber_registers` -/

/-- The loop state of `merge_registers`: the two tables and the renames recorded
so far (in recording order). -/
structure merge_state where
  last_reads : List Int
  first_writes : List Int
  renames : List rename_reg_pair
  deriving DecidableEq

/-- The body of the inner loop of `merge_registers` for the pair `(i, j)`. -/
def merge_registers_inner (i j : Nat) (st : merge_state) : Option merge_state :=
  match arr_get st.last_reads j, arr_get st.first_writes j,
      arr_get st.last_reads i, arr_get st.first_writes i with
  | some lr_j, some fw_j, some lr_i, some fw_i =>
    if lr_j < 0 ∨ fw_j < 0 then some st
    else if fw_i ≤ fw_j ∧ lr_i ≤ fw_j then
      match arr_set st.last_reads i lr_j with
      | none => none
      | some last_reads1 =>
        match arr_set st.first_writes j (-1), arr_set last_reads1 j (-1) with
        | some first_writes2, some last_reads2 =>
          some { last_reads := last_reads2, first_writes := first_writes2,
                 renames := st.renames ++ [⟨j, i⟩] }
        | _, _ => none
    else some st
  | _, _, _, _ => none

/-- The body of the outer loop of `merge_registers` for the register `i`. -/
def merge_registers_outer (next_temp : Nat) (i : Nat) (st : merge_state) :
    Option merge_state :=
  match arr_get st.last_reads i, arr_get st.first_writes i with
  | some lr_i, some fw_i =>
    if lr_i < 0 ∨ fw_i < 0 then some st
    else loop_range next_temp (fun j st => merge_registers_inner i j st) st
  | _, _ => none

/-- The renames `merge_registers` records, with the tables it starts from; the
instruction list is rewritten from them by `rename_temp_registers`. -/
def merge_registers_renames (next_temp : Int)
    (instructions : List glsl_to_tgsi_instruction) : Option (List rename_reg_pair) :=
  let n := next_temp.toNat
  match get_last_temp_read_first_temp_write next_temp instructions
      (List.replicate n (-1)) (List.replicate n (-1)) with
  | none => none
  | some (last_reads, first_writes) =>
    (loop_range n (fun i st => merge_registers_outer n i st)
      ⟨last_reads, first_writes, []⟩).map (fun st => st.renames)

/-- Method `merge_registers`. -/
def merge_registers (v : glsl_to_tgsi_visitor) : Option glsl_to_tgsi_visitor :=
  match merge_registers_renames v.next_temp v.instructions with
  | none => none
  | some renames =>
    (rename_temp_registers renames v.instructions).map
      (fun insts => { v with instructions := insts })

/-- The second loop of `renumber_registers`: the renames and `new_index`. -/
def renumber_registers_renames (first_reads : List Int) :
    Option (List rename_reg_pair × Int) :=
  loop_range first_reads.length (fun i (st : List rename_reg_pair × Int) =>
    match arr_get first_reads i with
    | none => none
    | some fr =>
      if fr < 0 then some st
      else if (i : Int) ≠ st.2 then some (st.1 ++ [⟨i, st.2⟩], st.2 + 1)
      else some (st.1, st.2 + 1)) ([], 0)

/-- Method `renumber_registers`. -/
def renumber_registers (v : glsl_to_tgsi_visitor) : Option glsl_to_tgsi_visitor :=
  match get_first_temp_read v.instructions (List.replicate v.next_temp.toNat (-1)) with
  | none => none
  | some first_reads =>
    match renumber_registers_renames first_reads with
    | none => none
    | some (renames, new_index) =>
      (rename_temp_registers renames v.instructions).map
        (fun insts => { v with instructions := insts, next_temp := new_index })

/-! ## `copy_propagate` -/

/-- The loop state of `copy_propagate`: the table `acp` (positions of `MOV`
instructions in the list), `acp_level`, `level`, and the instructions already
processed (rewritten, in program order). -/
structure acp_state where
  acp : List (Option Nat)
  acp_level : List Int
  level : Int
  done : List glsl_to_tgsi_instruction

/-- The loop `for (i = 0; i < 4; i++)` of `copy_propagate` that looks up the four
swizzled channels of a source: `some (some first)` when all four have an entry
whose `MOV` reads the same register (`good`), `some none` when not, `none` on an
access outside the table or a failed assertion. -/
def copy_propagate_lookup (st : acp_state) (src : st_src_reg) :
    Nat → Nat → Option glsl_to_tgsi_instruction → Option (Option glsl_to_tgsi_instruction)
  | 0, _, first => some first
  | fuel + 1, i, first =>
      let acp_base := src.index * 4
      let src_chan := GET_SWZ src.swizzle i
      match arr_get st.acp (acp_base + src_chan) with
      | none => none
      | some none => some none
      | some (some pos) =>
        match st.done[pos]?, arr_get st.acp_level (acp_base + src_chan) with
        | some copy_chan, some lvl =>
          if ¬ lvl ≤ st.level then none
          else
            match first with
            | none => copy_propagate_lookup st src fuel (i + 1) (some copy_chan)
            | some f =>
              if f.src0.file ≠ copy_chan.src0.file ∨ f.src0.index ≠ copy_chan.src0.index
                  ∨ f.src0.double_reg2 ≠ copy_chan.src0.double_reg2
                  ∨ f.src0.index2D ≠ copy_chan.src0.index2D then some none
              else copy_propagate_lookup st src fuel (i + 1) (some f)
        | _, _ => none

/-- The channel `GET_SWZ(copy_inst->src[0].swizzle, src_chan)` that the rewritten
swizzle gets at position `i`. -/
def copy_propagate_channel (st : acp_state) (src : st_src_reg) (i : Nat) : Option Nat :=
  let src_chan := GET_SWZ src.swizzle i
  match arr_get st.acp (src.index * 4 + src_chan) with
  | some (some pos) =>
    match st.done[pos]? with
    | some copy_inst => some (GET_SWZ copy_inst.src0.swizzle src_chan)
    | none => none
  | _ => none

/-- The body of the loop `for (r = 0; r < 3; r++)` of `copy_propagate` for one
source operand. -/
def copy_propagate_src (st : acp_state) (src : st_src_reg) : Option st_src_reg :=
  if src.file ≠ PROGRAM_TEMPORARY ∨ src.reladdr.isSet ∨ src.reladdr2.isSet then some src
  else
    match copy_propagate_lookup st src 4 0 none with
    | none => none
    | some none => some src
    | some (some first) =>
      match copy_propagate_channel st src 0, copy_propagate_channel st src 1,
          copy_propagate_channel st src 2, copy_propagate_channel st src 3 with
      | some c0, some c1, some c2, some c3 =>
        let swizzle := 0 ||| (c0 <<< (3 * 0)) ||| (c1 <<< (3 * 1)) ||| (c2 <<< (3 * 2))
          ||| (c3 <<< (3 * 3))
        some (.mk first.src0.file first.src0.index first.src0.index2D swizzle src.negate
          src.type src.reladdr src.reladdr2 first.src0.has_index2 first.src0.double_reg2
          first.src0.array_id)
      | _, _, _, _ => none

/-- The `default` case of the switch of `copy_propagate` for one destination:
the entries invalidated by the write. -/
def copy_propagate_clear (done : List glsl_to_tgsi_instruction) (dst : st_dst_reg)
    (acp : List (Option Nat)) : Option (List (Option Nat)) :=
  if dst.file = PROGRAM_TEMPORARY ∧ dst.reladdr.isSet then
    some (acp.map (fun _ => none))
  else if dst.file = PROGRAM_OUTPUT ∧ dst.reladdr.isSet then
    some (acp.map (fun e =>
      match e with
      | none => none
      | some pos =>
        match done[pos]? with
        | some mov => if mov.src0.file = PROGRAM_OUTPUT then none else some pos
        | none => some pos))
  else if dst.file = PROGRAM_TEMPORARY ∨ dst.file = PROGRAM_OUTPUT then
    let cleared : Option (List (Option Nat)) :=
      if dst.file = PROGRAM_TEMPORARY then
        loop_range 4 (fun c acp =>
          if dst.writemask &&& (1 <<< c) ≠ 0 then arr_set acp (4 * dst.index + c) none
          else some acp) acp
      else some acp
    match cleared with
    | none => none
    | some acp1 =>
      some (map_idx_from (fun k e =>
        match e with
        | none => none
        | some pos =>
          match done[pos]? with
          | some mov =>
            let src_chan := GET_SWZ mov.src0.swizzle (k % 4)
            if mov.src0.file = dst.file ∧ mov.src0.index = dst.index
                ∧ dst.writemask &&& (1 <<< src_chan) ≠ 0 then none
            else some pos
          | none => some pos) acp1 0)
  else some acp

/-- The test `If this is a copy, add it to the ACP` of `copy_propagate`. -/
def copy_propagate_is_copy (inst : glsl_to_tgsi_instruction) : Bool :=
  inst.op = TGSI_OPCODE_MOV ∧ inst.dst0.file = PROGRAM_TEMPORARY
    ∧ ¬ (inst.dst0.file = inst.src0.file ∧ inst.dst0.index = inst.src0.index)
    ∧ inst.dst0.reladdr.isSet = false ∧ inst.dst0.reladdr2.isSet = false
    ∧ inst.saturate = false ∧ inst.src0.file ≠ PROGRAM_ARRAY
    ∧ inst.src0.reladdr.isSet = false ∧ inst.src0.reladdr2.isSet = false
    ∧ inst.src0.negate = 0

/-- The body of the loop of `copy_propagate` for one instruction. -/
def copy_propagate_step (next_temp : Int) (st : acp_state)
    (inst : glsl_to_tgsi_instruction) : Option acp_state :=
  if ¬ (inst.dst0.file ≠ PROGRAM_TEMPORARY ∨ inst.dst0.index < next_temp) then none
  else
    match copy_propagate_src st inst.src0 with
    | none => none
    | some s0 =>
    match copy_propagate_src st inst.src1 with
    | none => none
    | some s1 =>
    match copy_propagate_src st inst.src2 with
    | none => none
    | some s2 =>
    let inst := { inst with src0 := s0, src1 := s1, src2 := s2 }
    let pos := st.done.length
    let switched : Option acp_state :=
      if inst.op = TGSI_OPCODE_BGNLOOP ∨ inst.op = TGSI_OPCODE_ENDLOOP then
        some { st with acp := st.acp.map (fun _ => none) }
      else if inst.op = TGSI_OPCODE_IF ∨ inst.op = TGSI_OPCODE_UIF then
        some { st with level := st.level + 1 }
      else if inst.op = TGSI_OPCODE_ENDIF ∨ inst.op = TGSI_OPCODE_ELSE then
        some { st with
          acp := List.zipWith (fun e lvl =>
            match e with
            | none => none
            | some p => if lvl ≥ st.level then none else some p) st.acp st.acp_level,
          level := if inst.op = TGSI_OPCODE_ENDIF then st.level - 1 else st.level }
      else
        match copy_propagate_clear st.done inst.dst0 st.acp with
        | none => none
        | some acp1 =>
          match copy_propagate_clear st.done inst.dst1 acp1 with
          | none => none
          | some acp2 => some { st with acp := acp2 }
    match switched with
    | none => none
    | some st1 =>
      let added : Option acp_state :=
        if copy_propagate_is_copy inst then
          loop_range 4 (fun i st =>
            if inst.dst0.writemask &&& (1 <<< i) ≠ 0 then
              match arr_set st.acp (4 * inst.dst0.index + i) (some pos),
                  arr_set st.acp_level (4 * inst.dst0.index + i) st.level with
              | some acp1, some lvl1 => some { st with acp := acp1, acp_level := lvl1 }
              | _, _ => none
            else some st) st1
        else some st1
      added.map (fun st2 => { st2 with done := st2.done ++ [inst] })

/-- The loop of `copy_propagate` over the instructions still to process. -/
def copy_propagate_from (next_temp : Int) :
    List glsl_to_tgsi_instruction → acp_state → Option acp_state
  | [], st => some st
  | inst :: rest, st =>
      match copy_propagate_step next_temp st inst with
      | none => none
      | some st1 => copy_propagate_from next_temp rest st1

/-- Method `copy_propagate` on the instruction list. -/
def copy_propagate_list (next_temp : Int) (instructions : List glsl_to_tgsi_instruction) :
    Option (List glsl_to_tgsi_instruction) :=
  let n := next_temp.toNat * 4
  (copy_propagate_from next_temp instructions
    ⟨List.replicate n none, List.replicate n 0, 0, []⟩).map (fun st => st.done)

/-- Method `copy_propagate`. -/
def copy_propagate (v : glsl_to_tgsi_visitor) : Option glsl_to_tgsi_visitor :=
  (copy_propagate_list v.next_temp v.instructions).map
    (fun insts => { v with instructions := insts })

/-! ## `eliminate_dead_code` -/

/-- The loop state of the scan of `eliminate_dead_code`: the table `writes`
(positions in the instruction list), `write_level`, `level`, and the
`dead_mask` of every instruction of the list (the only member the scan
changes). -/
structure dce_state where
  writes : List (Option Nat)
  write_level : List Int
  level : Int
  dead_masks : List Nat
  deriving DecidableEq

/-- The channels `src_chans` read through a swizzle. -/
def src_chans (swizzle : Nat) : Nat :=
  (1 <<< GET_SWZ swizzle 0) ||| (1 <<< GET_SWZ swizzle 1) ||| (1 <<< GET_SWZ swizzle 2)
    ||| (1 <<< GET_SWZ swizzle 3)

/-- The effect on `writes` of one operand read by an instruction (a source or a
texture offset) in the `default` case of the scan. -/
def dce_read (src : st_src_reg) (writes : List (Option Nat)) : Option (List (Option Nat)) :=
  if src.file = PROGRAM_TEMPORARY ∧ src.reladdr.isSet then
    some (writes.map (fun _ => none))
  else if src.file = PROGRAM_TEMPORARY then
    loop_range 4 (fun c writes =>
      if src_chans src.swizzle &&& (1 <<< c) ≠ 0 then arr_set writes (4 * src.index + c) none
      else some writes) writes
  else some writes

/-- The `default` case of the scan: all four sources, then the texture offsets in
use. -/
def dce_reads (inst : glsl_to_tgsi_instruction) (writes : List (Option Nat)) :
    Option (List (Option Nat)) :=
  match dce_read inst.src0 writes with
  | none => none
  | some w0 =>
  match dce_read inst.src1 w0 with
  | none => none
  | some w1 =>
  match dce_read inst.src2 w1 with
  | none => none
  | some w2 =>
  match dce_read inst.src3 w2 with
  | none => none
  | some w3 =>
    loop_range inst.tex_offset_num_offset (fun i writes =>
      match inst.tex_offsets i with
      | none => none
      | some off => dce_read off writes) w3

/-- The statement `writes[...]->dead_mask |= (1 << c)` on the instruction at
position `pos`. -/
def mark_dead (dead_masks : List Nat) (pos c : Nat) : List Nat :=
  dead_masks.modify (fun m => m ||| (1 <<< c)) pos

/-- The recording of one destination channel `c` of the instruction at position
`pos` in the scan. -/
def dce_write_chan (pos : Nat) (dst : st_dst_reg) (c : Nat) (st : dce_state) :
    Option dce_state :=
  if dst.writemask &&& (1 <<< c) ≠ 0 then
    match arr_get st.writes (4 * dst.index + c), arr_get st.write_level (4 * dst.index + c) with
    | some prev, some lvl =>
      let record (dead_masks : List Nat) : Option dce_state :=
        match arr_set st.writes (4 * dst.index + c) (some pos),
            arr_set st.write_level (4 * dst.index + c) st.level with
        | some writes1, some levels1 =>
          some { st with writes := writes1, write_level := levels1, dead_masks := dead_masks }
        | _, _ => none
      match prev with
      | some q => if lvl < st.level then some st else record (mark_dead st.dead_masks q c)
      | none => record st.dead_masks
    | _, _ => none
  else some st

/-- The recording of one destination of the instruction at position `pos`. -/
def dce_write (pos : Nat) (dst : st_dst_reg) (st : dce_state) : Option dce_state :=
  if dst.file = PROGRAM_TEMPORARY ∧ dst.reladdr.isSet = false then
    loop_range 4 (fun c st => dce_write_chan pos dst c st) st
  else some st

/-- The body of the scan loop of `eliminate_dead_code` for the instruction at
position `pos`. -/
def dce_step (next_temp : Int) (pos : Nat) (inst : glsl_to_tgsi_instruction)
    (st : dce_state) : Option dce_state :=
  if ¬ (inst.dst0.file ≠ PROGRAM_TEMPORARY ∨ inst.dst0.index < next_temp) then none
  else
    let switched : Option dce_state :=
      if inst.op = TGSI_OPCODE_BGNLOOP ∨ inst.op = TGSI_OPCODE_ENDLOOP
          ∨ inst.op = TGSI_OPCODE_CONT ∨ inst.op = TGSI_OPCODE_BRK then
        some { st with writes := st.writes.map (fun _ => none) }
      else if inst.op = TGSI_OPCODE_ENDIF ∨ inst.op = TGSI_OPCODE_ELSE then
        some { st with
          write_level := List.zipWith (fun w lvl =>
            match w with
            | none => lvl
            | some _ => if lvl = st.level then st.level - 1 else lvl) st.writes st.write_level,
          level := if inst.op = TGSI_OPCODE_ENDIF then st.level - 1 else st.level }
      else
        let st1 :=
          if inst.op = TGSI_OPCODE_IF ∨ inst.op = TGSI_OPCODE_UIF then
            { st with level := st.level + 1 }
          else st
        (dce_reads inst st1.writes).map (fun w => { st1 with writes := w })
    match switched with
    | none => none
    | some st2 =>
      match dce_write pos inst.dst0 st2 with
      | none => none
      | some st3 => dce_write pos inst.dst1 st3

/-- The scan loop of `eliminate_dead_code` from position `pos` on. -/
def dce_scan (next_temp : Int) :
    List glsl_to_tgsi_instruction → Nat → dce_state → Option dce_state
  | [], _, st => some st
  | inst :: rest, pos, st =>
      match dce_step next_temp pos inst st with
      | none => none
      | some st1 => dce_scan next_temp rest (pos + 1) st1

/-- The loop `Anything still in the write array at this point is dead code`. -/
def dce_mark_remaining : List (Option Nat) → Nat → List Nat → List Nat
  | [], _, dead_masks => dead_masks
  | w :: ws, k, dead_masks =>
      match w with
      | some pos => dce_mark_remaining ws (k + 1) (mark_dead dead_masks pos (k % 4))
      | none => dce_mark_remaining ws (k + 1) dead_masks

/-- The final loop of `eliminate_dead_code` for one instruction with its final
dead mask: `none` when the instruction is removed, else the instruction with
its (possibly narrowed) write-mask. -/
def dce_sweep_inst (inst : glsl_to_tgsi_instruction) (dead_mask : Nat) :
    Option glsl_to_tgsi_instruction :=
  let inst := { inst with dead_mask := dead_mask }
  if inst.dead_mask = 0 ∨ inst.dst0.writemask = 0 then some inst
  else if and_not inst.dst0.writemask inst.dead_mask = 0 then none
  else if inst.dst0.type = GLSL_TYPE_DOUBLE then
    if inst.dead_mask = WRITEMASK_XY ∨ inst.dead_mask = WRITEMASK_ZW then
      some { inst with dst0 :=
        { inst.dst0 with writemask := and_not inst.dst0.writemask inst.dead_mask } }
    else some inst
  else
    some { inst with dst0 :=
      { inst.dst0 with writemask := and_not inst.dst0.writemask inst.dead_mask } }

/-- The final loop of `eliminate_dead_code`: the remaining list and `removed`. -/
def dce_sweep : List glsl_to_tgsi_instruction → List Nat →
    List glsl_to_tgsi_instruction × Nat
  | inst :: rest, dead_mask :: masks =>
      let r := dce_sweep rest masks
      match dce_sweep_inst inst dead_mask with
      | some inst1 => (inst1 :: r.1, r.2)
      | none => (r.1, r.2 + 1)
  | insts, _ => (insts, 0)

/-- Method `eliminate_dead_code` on the instruction list: the new list and the
return value `removed`. -/
def eliminate_dead_code_list (next_temp : Int)
    (instructions : List glsl_to_tgsi_instruction) :
    Option (List glsl_to_tgsi_instruction × Nat) :=
  let n := next_temp.toNat * 4
  match dce_scan next_temp instructions 0
      ⟨List.replicate n none, List.replicate n 0, 0, instructions.map (fun i => i.dead_mask)⟩ with
  | none => none
  | some st =>
    some (dce_sweep instructions (dce_mark_remaining st.writes 0 st.dead_masks))

/-- Method `eliminate_dead_code`: the visitor after the pass and the return
value. -/
def eliminate_dead_code (v : glsl_to_tgsi_visitor) : Option (glsl_to_tgsi_visitor × Nat) :=
  (eliminate_dead_code_list v.next_temp v.instructions).map
    (fun r => ({ v with instructions := r.1 }, r.2))

/-- The driver loop `while (v->eliminate_dead_code());` of `get_mesa_program`,
run at most `fuel` times: the visitor after the last run, or `none` if a run
fails or the last run allowed still removed something. -/
def eliminate_dead_code_loop : Nat → glsl_to_tgsi_visitor → Option glsl_to_tgsi_visitor
  | 0, _ => none
  | fuel + 1, v =>
      match eliminate_dead_code v with
      | none => none
      | some (v1, removed) =>
        if removed = 0 then some v1 else eliminate_dead_code_loop fuel v1

/-! ## Concrete inputs used by the examples -/

/-- An opcode-info table for the examples: every opcode has one destination and
two sources. -/
def example_info : tgsi_opcode → tgsi_opcode_info := fun _ => ⟨1, 2, false, false⟩

/-- A scalar bool uniform `b` at location 0. -/
def example_bool_uniform : ir_variable :=
  ⟨1, "b", glsl_type.bool_type, ir_var_uniform, 0, 0, false, GLSL_MATRIX_LAYOUT_INHERITED, false⟩

/-- The condition `b`. -/
def example_condition : ir_rvalue := .dereference_variable 2 example_bool_uniform

/-- A fresh fragment-shader visitor without native integers. -/
def example_visitor_float : glsl_to_tgsi_visitor :=
  glsl_to_tgsi_visitor.init GL_FRAGMENT_PROGRAM_ARB MESA_SHADER_FRAGMENT false false

/-- A fresh fragment-shader visitor with native integers. -/
def example_visitor_native : glsl_to_tgsi_visitor :=
  glsl_to_tgsi_visitor.init GL_FRAGMENT_PROGRAM_ARB MESA_SHADER_FRAGMENT false true

/-- An instruction of the examples: one destination, `nsrc` sources, no texture
offsets, empty dead mask. -/
def example_inst (op : tgsi_opcode) (dst : st_dst_reg) (src0 src1 : st_src_reg)
    (nsrc : Nat) : glsl_to_tgsi_instruction :=
  { op := op, dst0 := dst, dst1 := undef_dst, src0 := src0, src1 := src1,
    src2 := undef_src, src3 := undef_src, ir := none, cond_update := false,
    saturate := false, sampler := st_src_reg.default, sampler_array_size := 0,
    tex_target := 0, tex_type := GLSL_TYPE_FLOAT, tex_shadow := false,
    tex_offsets0 := st_src_reg.default, tex_offsets1 := st_src_reg.default,
    tex_offsets2 := st_src_reg.default, tex_offsets3 := st_src_reg.default,
    tex_offset_num_offset := 0, dead_mask := 0, function := none,
    info := ⟨1, nsrc, false, false⟩ }

/-- The source operand `TEMP[i]` (float, swizzle XYZW). -/
def example_temp (i : Int) : st_src_reg :=
  st_src_reg.ofType PROGRAM_TEMPORARY i GLSL_TYPE_FLOAT

/-- The source operand `IN[i]` (float, swizzle XYZW). -/
def example_input (i : Int) : st_src_reg :=
  st_src_reg.ofType PROGRAM_INPUT i GLSL_TYPE_FLOAT

/-- The destination `TEMP[i].xyzw`. -/
def example_temp_dst (i : Int) : st_dst_reg :=
  st_dst_reg.ofIndex PROGRAM_TEMPORARY WRITEMASK_XYZW GLSL_TYPE_FLOAT i

/-- The destination `OUT[i].xyzw`. -/
def example_output_dst (i : Int) : st_dst_reg :=
  st_dst_reg.ofIndex PROGRAM_OUTPUT WRITEMASK_XYZW GLSL_TYPE_FLOAT i

/-- The list `MOV TEMP[0], IN[0]; MOV TEMP[1], TEMP[0]`: a copy whose only reader
is itself dead. -/
def example_dead_chain : List glsl_to_tgsi_instruction :=
  [example_inst TGSI_OPCODE_MOV (example_temp_dst 0) (example_input 0) undef_src 1,
   example_inst TGSI_OPCODE_MOV (example_temp_dst 1) (example_temp 0) undef_src 1]

/-- The list
`MOV TEMP[0], IN[0]; MOV OUT[0], TEMP[1]; MOV TEMP[2], IN[1];
ADD OUT[1], TEMP[0], TEMP[2]; MOV TEMP[1], IN[2]`:
`TEMP[1]` is read before its only write, `TEMP[0]` is live until the `ADD`. -/
def example_merge_input : List glsl_to_tgsi_instruction :=
  [example_inst TGSI_OPCODE_MOV (example_temp_dst 0) (example_input 0) undef_src 1,
   example_inst TGSI_OPCODE_MOV (example_output_dst 0) (example_temp 1) undef_src 1,
   example_inst TGSI_OPCODE_MOV (example_temp_dst 2) (example_input 1) undef_src 1,
   example_inst TGSI_OPCODE_ADD (example_output_dst 1) (example_temp 0) (example_temp 2) 2,
   example_inst TGSI_OPCODE_MOV (example_temp_dst 1) (example_input 2) undef_src 1]

/-- The list `example_merge_input` after `merge_registers`: every temporary has
become `TEMP[0]`, and the `ADD` reads `IN[1]` twice. -/
def example_merge_output : List glsl_to_tgsi_instruction :=
  [example_inst TGSI_OPCODE_MOV (example_temp_dst 0) (example_input 0) undef_src 1,
   example_inst TGSI_OPCODE_MOV (example_output_dst 0) (example_temp 0) undef_src 1,
   example_inst TGSI_OPCODE_MOV (example_temp_dst 0) (example_input 1) undef_src 1,
   example_inst TGSI_OPCODE_ADD (example_output_dst 1) (example_temp 0) (example_temp 0) 2,
   example_inst TGSI_OPCODE_MOV (example_temp_dst 0) (example_input 2) undef_src 1]

/-- A visitor holding the given instruction list, with `next_temp` temporaries. -/
def example_visitor_with (next_temp : Int) (instructions : List glsl_to_tgsi_instruction) :
    glsl_to_tgsi_visitor :=
  { example_visitor_float with next_temp := next_temp, instructions := instructions }

/-- The register `visit(ir_dereference_variable *)` builds for a float vec4
variable stored at `file[index]` with the given `array_id`. -/
def vec4_register (file : gl_register_file) (index : Int) (array_id : Nat) : st_src_reg :=
  .mk file index 0 SWIZZLE_XYZW 0 GLSL_TYPE_FLOAT .NULL .NULL false false array_id

/-- A float vec4 variable that `visit(ir_dereference_variable *)` can give
storage: a uniform, a located shader input or output, a system value or a local. -/
def is_float_vec4_variable (var : ir_variable) : Prop :=
  var.type = glsl_type.vec4_type ∧
    (var.mode = ir_var_uniform ∨ (var.mode = ir_var_shader_in ∧ var.location ≠ -1)
      ∨ (var.mode = ir_var_shader_out ∧ var.location ≠ -1) ∨ var.mode = ir_var_system_value
      ∨ var.mode = ir_var_auto ∨ var.mode = ir_var_temporary)

instance (var : ir_variable) : Decidable (is_float_vec4_variable var) := by
  unfold is_float_vec4_variable; infer_instance

/-- The entry `entry` of the list `variables` is the storage of one of the
variables `vars`, in the register file of its mode; a temporary lies below
`next_temp`. -/
def storage_ok (vars : List ir_variable) (next_temp : Int) (entry : variable_storage) : Prop :=
  ∃ y ∈ vars, y.id = entry.var ∧
    ((y.mode = ir_var_uniform ∧ entry.file = PROGRAM_UNIFORM)
      ∨ (y.mode = ir_var_shader_in ∧ entry.file = PROGRAM_INPUT)
      ∨ (y.mode = ir_var_shader_out ∧ entry.file = PROGRAM_OUTPUT)
      ∨ ((y.mode = ir_var_auto ∨ y.mode = ir_var_temporary)
          ∧ entry.file = PROGRAM_TEMPORARY ∧ 0 ≤ entry.index ∧ entry.index < next_temp))

/-- The register `r` is the one the list `storage` binds the float vec4
variable `var` to: the register of its entry, or for a system value (which gets
no entry) the register of its location. -/
def is_register_of (storage : List variable_storage) (var : ir_variable)
    (r : st_src_reg) : Prop :=
  (∃ entry, storage.find? (fun entry => entry.var = var.id) = some entry ∧
      r = vec4_register entry.file entry.index entry.array_id)
    ∨ (var.mode = ir_var_system_value ∧
        r = vec4_register PROGRAM_SYSTEM_VALUE var.location 0)

/-- The register the visitor gives a variable: the result of dereferencing it. -/
def register_of (v : glsl_to_tgsi_visitor) (var : ir_variable) : Option st_src_reg :=
  (visit_dereference_variable var v).map (fun v1 => v1.result)

/-- The assignment `result = a * b + c` on four variables, all components
written; the five `ir` nodes have the given addresses. -/
def mad_assignment (ids : Nat × Nat × Nat × Nat × Nat × Nat × Nat)
    (a b c result : ir_variable) : ir_statement :=
  .assignment ids.1 (.dereference_variable ids.2.1 result)
    (.expression ids.2.2.1 glsl_type.vec4_type ir_binop_add
      (.cons (.expression ids.2.2.2.1 glsl_type.vec4_type ir_binop_mul
          (.cons (.dereference_variable ids.2.2.2.2.1 a)
            (.cons (.dereference_variable ids.2.2.2.2.2.1 b) .nil)))
        (.cons (.dereference_variable ids.2.2.2.2.2.2 c) .nil)))
    none WRITEMASK_XYZW

/-- A register operand read or written by the scan of `eliminate_dead_code` stays
inside the tables: a directly addressed temporary has an index in
`0 .. next_temp - 1`. -/
def temp_in_bounds (next_temp : Int) (file : gl_register_file) (reladdr : st_src_reg_ptr)
    (index : Int) : Prop :=
  file = PROGRAM_TEMPORARY → reladdr.isSet = false → 0 ≤ index ∧ index < next_temp

/-- Every operand of the instruction stays inside the tables of
`eliminate_dead_code`, the texture offsets in use exist, and the assertion on
the first destination holds. -/
def inst_in_bounds (next_temp : Int) (inst : glsl_to_tgsi_instruction) : Prop :=
  temp_in_bounds next_temp inst.src0.file inst.src0.reladdr inst.src0.index ∧
  temp_in_bounds next_temp inst.src1.file inst.src1.reladdr inst.src1.index ∧
  temp_in_bounds next_temp inst.src2.file inst.src2.reladdr inst.src2.index ∧
  temp_in_bounds next_temp inst.src3.file inst.src3.reladdr inst.src3.index ∧
  (∀ j, j < inst.tex_offset_num_offset → ∃ off, inst.tex_offsets j = some off ∧
    temp_in_bounds next_temp off.file off.reladdr off.index) ∧
  temp_in_bounds next_temp inst.dst0.file inst.dst0.reladdr inst.dst0.index ∧
  temp_in_bounds next_temp inst.dst1.file inst.dst1.reladdr inst.dst1.index ∧
  (inst.dst0.file = PROGRAM_TEMPORARY → inst.dst0.index < next_temp)

/-- Invariant of the scan of `eliminate_dead_code` relative to a set `Q` of
instruction positions and the dead masks `dead_masks0` the scan started from:
the tables have `n` entries, `writes` only holds positions in `Q`, the dead
masks outside `Q` are untouched and a full dead mask stays full. -/
def dce_inv (Q : Nat → Prop) (n : Nat) (dead_masks0 : List Nat) (st : dce_state) : Prop :=
  st.writes.length = n ∧ st.write_level.length = n ∧
  (∀ e ∈ st.writes, ∀ q, e = some q → Q q) ∧
  st.dead_masks.length = dead_masks0.length ∧
  (∀ p : Nat, ¬ Q p → st.dead_masks[p]? = dead_masks0[p]?) ∧
  (∀ p : Nat, dead_masks0[p]? = some WRITEMASK_XYZW →
    st.dead_masks[p]? = some WRITEMASK_XYZW)

/-- A uniform float vec4 `a` at location 0. -/
def example_mad_a : ir_variable :=
  ⟨11, "a", glsl_type.vec4_type, ir_var_uniform, 0, 0, false, GLSL_MATRIX_LAYOUT_INHERITED, false⟩

/-- A shader input float vec4 `b` at location 3. -/
def example_mad_b : ir_variable :=
  ⟨12, "b", glsl_type.vec4_type, ir_var_shader_in, 3, 0, false, GLSL_MATRIX_LAYOUT_INHERITED,
    false⟩

/-- A local float vec4 `c`. -/
def example_mad_c : ir_variable :=
  ⟨13, "c", glsl_type.vec4_type, ir_var_temporary, -1, 0, false, GLSL_MATRIX_LAYOUT_INHERITED,
    false⟩

/-- A shader output float vec4 `result` at location 5. -/
def example_mad_result : ir_variable :=
  ⟨14, "result", glsl_type.vec4_type, ir_var_shader_out, 5, 0, false,
    GLSL_MATRIX_LAYOUT_INHERITED, false⟩

/-- The temporaries an instruction reads: the indices of its source operands in
use and of its texture offsets in use that lie in the temporary file. -/
def inst_temps_read (inst : glsl_to_tgsi_instruction) : List Int :=
  (((List.range (num_inst_src_regs inst)).filterMap inst.src)
      ++ ((List.range inst.tex_offset_num_offset).filterMap inst.tex_offsets)).filterMap
    (fun r => if r.file = PROGRAM_TEMPORARY then some r.index else none)

/-- The temporaries read by at least one instruction of the list (with
repetitions). -/
def temps_read (instructions : List glsl_to_tgsi_instruction) : List Int :=
  instructions.flatMap inst_temps_read

/-- Invariant of the table `first_reads` relative to the set `P` of temporaries
read so far: `n` entries, each `-1` or a position, and non-negative exactly at
the temporaries in `P`, which all lie inside the table. -/
def first_reads_inv (n : Nat) (P : Int → Prop) (first_reads : List Int) : Prop :=
  first_reads.length = n ∧ (∀ x ∈ first_reads, x = -1 ∨ 0 ≤ x) ∧
  (∀ k : Nat, k < n → (0 ≤ first_reads.getD k (-1) ↔ P k)) ∧
  (∀ a, P a → 0 ≤ a ∧ a.toNat < n)

/-- The number of temporaries below `i` that are read according to the table
`first_reads`: the new index `renumber_registers` gives register `i`. -/
def first_reads_rank (first_reads : List Int) (i : Nat) : Nat :=
  (List.range i).countP (fun k => decide (0 ≤ first_reads.getD k (-1)))

/-- The list
`MOV TEMP[3], IN[0]; MOV OUT[0], TEMP[3]; MOV TEMP[1], IN[1]; ADD OUT[1], TEMP[1], TEMP[3]`:
of four temporaries only `TEMP[1]` and `TEMP[3]` are read. -/
def example_renumber_input : List glsl_to_tgsi_instruction :=
  [example_inst TGSI_OPCODE_MOV (example_temp_dst 3) (example_input 0) undef_src 1,
   example_inst TGSI_OPCODE_MOV (example_output_dst 0) (example_temp 3) undef_src 1,
   example_inst TGSI_OPCODE_MOV (example_temp_dst 1) (example_input 1) undef_src 1,
   example_inst TGSI_OPCODE_ADD (example_output_dst 1) (example_temp 1) (example_temp 3) 2]

/-- The list `example_renumber_input` after `renumber_registers`: `TEMP[1]` has
become `TEMP[0]` and `TEMP[3]` has become `TEMP[1]`. -/
def example_renumber_output : List glsl_to_tgsi_instruction :=
  [example_inst TGSI_OPCODE_MOV (example_temp_dst 1) (example_input 0) undef_src 1,
   example_inst TGSI_OPCODE_MOV (example_output_dst 0) (example_temp 1) undef_src 1,
   example_inst TGSI_OPCODE_MOV (example_temp_dst 0) (example_input 1) undef_src 1,
   example_inst TGSI_OPCODE_ADD (example_output_dst 1) (example_temp 0) (example_temp 1) 2]

/-! ## A semantics of straight-line instruction lists -/

/-- The contents of the register files: the 32-bit word in channel `c` of the
register `file[index2D][index]`. -/
abbrev register_state := gl_register_file → Int → Int → Nat → Nat

/-- The parts of the meaning of an instruction that the translated code does not
fix: what a `negate` mask does to a channel that is read (`modify`), what an
operand with relative addressing reads (`indirect`), and the words an
instruction computes for channel `c` of destination `d` from the register
contents and the words its first three operands read (`compute`, given the
instruction without these operands). -/
structure instruction_semantics where
  modify : Int → Nat → Nat → Nat
  indirect : register_state → st_src_reg → Nat → Nat
  compute : glsl_to_tgsi_instruction → register_state → (Nat → Nat → Nat) → Nat → Nat → Nat

/-- Temporaries are one-dimensional: the second index of a register counts only
outside the temporary file. -/
def register_index2D (file : gl_register_file) (index2D : Int) : Int :=
  if file = PROGRAM_TEMPORARY then 0 else index2D

/-- The word an instruction reads in channel `i` of a source operand: the
swizzled channel of the register (or what relative addressing selects), passed
through the `negate` mask. -/
def read_operand (sem : instruction_semantics) (state : register_state) (src : st_src_reg)
    (i : Nat) : Nat :=
  sem.modify src.negate i
    (if src.reladdr.isSet ∨ src.reladdr2.isSet then sem.indirect state src i
     else state src.file src.index (register_index2D src.file src.index2D)
       (GET_SWZ src.swizzle i))

/-- The register contents after a directly addressed write of `words` through
the write-mask of `dst`; the undefined destination writes nothing. -/
def write_register (state : register_state) (dst : st_dst_reg) (words : Nat → Nat) :
    register_state :=
  if dst.file = PROGRAM_UNDEFINED ∨ dst.reladdr.isSet ∨ dst.reladdr2.isSet then state
  else fun file index index2D c =>
    if file = dst.file ∧ index = dst.index
        ∧ index2D = register_index2D dst.file dst.index2D
        ∧ c < 4 ∧ dst.writemask &&& (1 <<< c) ≠ 0 then words c
    else state file index index2D c

/-- The instruction without the three operands `copy_propagate` may rewrite. -/
def erase_operands (inst : glsl_to_tgsi_instruction) : glsl_to_tgsi_instruction :=
  { inst with src0 := undef_src, src1 := undef_src, src2 := undef_src }

/-- The words the first three operands of an instruction read in their four
channels. -/
def operand_words (sem : instruction_semantics) (state : register_state)
    (inst : glsl_to_tgsi_instruction) (r i : Nat) : Nat :=
  if i < 4 then
    match r with
    | 0 => read_operand sem state inst.src0 i
    | 1 => read_operand sem state inst.src1 i
    | 2 => read_operand sem state inst.src2 i
    | _ => 0
  else 0

/-- The register contents after one instruction without control flow: both
destinations receive the words computed from the contents before it. -/
def execute (sem : instruction_semantics) (state : register_state)
    (inst : glsl_to_tgsi_instruction) : register_state :=
  let words := sem.compute (erase_operands inst) state (operand_words sem state inst)
  write_register (write_register state inst.dst0 (words 0)) inst.dst1 (words 1)

/-- The register contents after a list of instructions without control flow. -/
def execute_list (sem : instruction_semantics) (state : register_state)
    (instructions : List glsl_to_tgsi_instruction) : register_state :=
  instructions.foldl (execute sem) state

/-- The conditions on an instruction list under which `copy_propagate` is shown
sound: no branch or loop instruction, no relative addressing in a destination,
and the shape of the lists the visitor emits: a write outside the temporaries
and outputs goes to no register file from which a `MOV` of the list copies (a
`MOV` whose source is in the array file is never entered into the table, so
arrays may be written and copied from), a `MOV` has no second destination, and
the swizzles of directly addressed temporary operands select the channels x, y,
z, w. -/
def copy_propagate_input_ok (instructions : List glsl_to_tgsi_instruction) : Prop :=
  ∀ inst ∈ instructions,
    (inst.op ≠ TGSI_OPCODE_BGNLOOP ∧ inst.op ≠ TGSI_OPCODE_ENDLOOP ∧ inst.op ≠ TGSI_OPCODE_IF
      ∧ inst.op ≠ TGSI_OPCODE_UIF ∧ inst.op ≠ TGSI_OPCODE_ELSE
      ∧ inst.op ≠ TGSI_OPCODE_ENDIF) ∧
    (∀ d ∈ [inst.dst0, inst.dst1],
      d.reladdr.isSet = false ∧ d.reladdr2.isSet = false ∧
      (d.file = PROGRAM_TEMPORARY ∨ d.file = PROGRAM_OUTPUT ∨ d.file = PROGRAM_UNDEFINED
        ∨ ∀ m ∈ instructions, m.op = TGSI_OPCODE_MOV → m.src0.file ≠ PROGRAM_ARRAY →
          m.src0.file ≠ d.file)) ∧
    (inst.op = TGSI_OPCODE_MOV → inst.dst1.file = PROGRAM_UNDEFINED) ∧
    (∀ s ∈ [inst.src0, inst.src1, inst.src2],
      s.file = PROGRAM_TEMPORARY → s.reladdr.isSet = false → s.reladdr2.isSet = false →
        ∀ i, i < 4 → GET_SWZ s.swizzle i < 4)

/-- The semantics copies through `MOV`: a zero `negate` mask changes nothing and
an unsaturated `MOV` computes for its first destination the words its first
operand reads. -/
def semantics_copies (sem : instruction_semantics) : Prop :=
  (∀ i word, sem.modify 0 i word = word) ∧
  (∀ inst state words c, inst.op = TGSI_OPCODE_MOV → inst.saturate = false →
    sem.compute inst state words 0 c = words 0 c)

/-- Invariant of `copy_propagate` against the register contents `state`: every
entry of the table `acp` points at a processed `MOV` whose source is directly
addressed, not negated and in a file some `MOV` of the input reads, and the
channel of the temporary the entry stands for holds the word of the source
channel of that `MOV`. -/
def acp_inv (instructions : List glsl_to_tgsi_instruction) (st : acp_state)
    (state : register_state) : Prop :=
  ∀ k pos, st.acp[k]? = some (some pos) →
    ∃ mov, st.done[pos]? = some mov ∧ mov.src0.reladdr.isSet = false
      ∧ mov.src0.reladdr2.isSet = false ∧ mov.src0.negate = 0
      ∧ (∃ m ∈ instructions, m.op = TGSI_OPCODE_MOV ∧ m.src0.file ≠ PROGRAM_ARRAY
        ∧ m.src0.file = mov.src0.file)
      ∧ state PROGRAM_TEMPORARY ((k / 4 : Nat) : Int) 0 (k % 4)
          = state mov.src0.file mov.src0.index
              (register_index2D mov.src0.file mov.src0.index2D)
              (GET_SWZ mov.src0.swizzle (k % 4))

/-- Agreement of a rewritten instruction list with the original one from the
register contents `state` on: every instruction reads in each channel of its
first three operands the words the original operands read, and computes the
same register contents. -/
def copy_propagate_agrees (sem : instruction_semantics) :
    register_state → List glsl_to_tgsi_instruction → List glsl_to_tgsi_instruction → Prop
  | _, [], [] => True
  | state, inst :: rest, inst1 :: rest1 =>
      (∀ i, i < 4 →
        read_operand sem state inst1.src0 i = read_operand sem state inst.src0 i
        ∧ read_operand sem state inst1.src1 i = read_operand sem state inst.src1 i
        ∧ read_operand sem state inst1.src2 i = read_operand sem state inst.src2 i)
      ∧ execute sem state inst1 = execute sem state inst
      ∧ copy_propagate_agrees sem (execute sem state inst) rest rest1
  | _, _, _ => False

/-- The register indices `copy_propagate` uses to index its tables lie inside
them: the temporaries written and the directly addressed temporaries read have
an index from 0 to `next_temp - 1`. -/
def copy_propagate_in_bounds (next_temp : Int)
    (instructions : List glsl_to_tgsi_instruction) : Prop :=
  ∀ inst ∈ instructions,
    (∀ d ∈ [inst.dst0, inst.dst1],
      d.file = PROGRAM_TEMPORARY → 0 ≤ d.index ∧ d.index < next_temp) ∧
    (∀ s ∈ [inst.src0, inst.src1, inst.src2],
      s.file = PROGRAM_TEMPORARY → s.reladdr.isSet = false → s.reladdr2.isSet = false →
        0 ≤ s.index ∧ s.index < next_temp)

/-- The shape of the loop state of `copy_propagate` outside branches: both tables
have four entries per temporary and every level is zero. -/
def acp_shape (next_temp : Int) (st : acp_state) : Prop :=
  st.acp.length = next_temp.toNat * 4 ∧ st.acp_level.length = next_temp.toNat * 4
    ∧ st.level = 0 ∧ ∀ (k : Nat) (lvl : Int), st.acp_level[k]? = some lvl → lvl ≤ 0

/-- A semantics for the examples: a set bit of `negate` flips the sign bit of the
channel it covers, relative addressing reads zero and every instruction copies
the words of its first operand. -/
def example_copy_semantics : instruction_semantics :=
  { modify := fun negate i word =>
      if (negate.toNat >>> i) % 2 = 1 then word ^^^ 0x80000000 else word,
    indirect := fun _ _ _ => 0,
    compute := fun _ _ words _ c => words 0 c }

/-- Register contents for the examples: every channel of every input register
holds 7, all other channels hold 0. -/
def example_copy_state : register_state :=
  fun file _ _ _ => if file = PROGRAM_INPUT then 7 else 0

/-- The list `MOV TEMP[0], IN[0]; MOV OUT[0], TEMP[0]`. -/
def example_copy_input : List glsl_to_tgsi_instruction :=
  [example_inst TGSI_OPCODE_MOV (example_temp_dst 0) (example_input 0) undef_src 1,
   example_inst TGSI_OPCODE_MOV (example_output_dst 0) (example_temp 0) undef_src 1]

/-- The list `MOV TEMP[0], IN[0]; MOV OUT[0], IN[0]`. -/
def example_copy_output : List glsl_to_tgsi_instruction :=
  [example_inst TGSI_OPCODE_MOV (example_temp_dst 0) (example_input 0) undef_src 1,
   example_inst TGSI_OPCODE_MOV (example_output_dst 0) (example_input 0) undef_src 1]

/-- The source operand `ADDR[0]` (float, swizzle XYZW). -/
def example_address : st_src_reg :=
  st_src_reg.ofType PROGRAM_ADDRESS 0 GLSL_TYPE_FLOAT

/-- The list `MOV TEMP[0], ADDR[0]; ARL ADDR[0], IN[0]; MOV OUT[0], TEMP[0]`: the
address register is copied and then overwritten. -/
def example_address_input : List glsl_to_tgsi_instruction :=
  [example_inst TGSI_OPCODE_MOV (example_temp_dst 0) example_address undef_src 1,
   example_inst TGSI_OPCODE_ARL
     (st_dst_reg.ofIndex PROGRAM_ADDRESS WRITEMASK_XYZW GLSL_TYPE_FLOAT 0)
     (example_input 0) undef_src 1,
   example_inst TGSI_OPCODE_MOV (example_output_dst 0) (example_temp 0) undef_src 1]

/-- The list `MOV TEMP[0], ADDR[0]; ARL ADDR[0], IN[0]; MOV OUT[0], ADDR[0]`. -/
def example_address_output : List glsl_to_tgsi_instruction :=
  [example_inst TGSI_OPCODE_MOV (example_temp_dst 0) example_address undef_src 1,
   example_inst TGSI_OPCODE_ARL
     (st_dst_reg.ofIndex PROGRAM_ADDRESS WRITEMASK_XYZW GLSL_TYPE_FLOAT 0)
     (example_input 0) undef_src 1,
   example_inst TGSI_OPCODE_MOV (example_output_dst 0) example_address undef_src 1]

/-- The list `MOV TEMP[0], ARRAY[32768]; MOV ARRAY[32768], IN[0];
MOV OUT[0], TEMP[0]`: an array element is copied and then overwritten. -/
def example_array_copy : List glsl_to_tgsi_instruction :=
  [example_inst TGSI_OPCODE_MOV (example_temp_dst 0)
     (st_src_reg.ofType PROGRAM_ARRAY 32768 GLSL_TYPE_FLOAT) undef_src 1,
   example_inst TGSI_OPCODE_MOV
     (st_dst_reg.ofIndex PROGRAM_ARRAY WRITEMASK_XYZW GLSL_TYPE_FLOAT 32768)
     (example_input 0) undef_src 1,
   example_inst TGSI_OPCODE_MOV (example_output_dst 0) (example_temp 0) undef_src 1]

/-- The selector of result channel `i` in a swizzle mask: the members `x`, `y`,
`z`, `w` that the `switch (i)` of `visit(ir_swizzle *)` reads. -/
def swizzle_mask_component (mask : ir_swizzle_mask) (i : Nat) : Nat :=
  match i with
  | 0 => mask.x
  | 1 => mask.y
  | 2 => mask.z
  | _ => mask.w

/-- A uniform float vec4 `p` at location 2. -/
def example_swizzle_var : ir_variable :=
  ⟨41, "p", glsl_type.vec4_type, ir_var_uniform, 2, 0, false, GLSL_MATRIX_LAYOUT_INHERITED,
    false⟩

/-- The value `p.wzyx`. -/
def example_swizzle_inner : ir_rvalue :=
  .swizzle 43 glsl_type.vec4_type (.dereference_variable 42 example_swizzle_var)
    ⟨3, 2, 1, 0, 4, false⟩

/-- The register `visit(ir_dereference_variable *)` returns for a variable of
type `type` bound to the storage `entry`: the tail of the method after `entry`
has been found or made. -/
def storage_register (entry : variable_storage) (type : glsl_type) (native_integers : Bool) :
    Option st_src_reg :=
  (st_src_reg.ofGlslType entry.file entry.index type).map (fun r =>
    if native_integers = false then (r.set_array_id entry.array_id).set_type GLSL_TYPE_FLOAT
    else r.set_array_id entry.array_id)

/-- The system value `gl_VertexID`-like variable at location 5. -/
def example_system_value : ir_variable :=
  ⟨51, "gl_VertexID", glsl_type.int_type, ir_var_system_value, 5, 0, false,
    GLSL_MATRIX_LAYOUT_INHERITED, false⟩

/-- A local `mat4` variable. -/
def example_local_matrix : ir_variable :=
  ⟨52, "m", glsl_type.get_instance GLSL_TYPE_FLOAT 4 4, ir_var_auto, -1, 0, false,
    GLSL_MATRIX_LAYOUT_INHERITED, false⟩

/-- The visitor after the first dereference of the local `m` in a fresh visitor
(the fresh visitor itself should the dereference fail). -/
def example_local_matrix_visitor : glsl_to_tgsi_visitor :=
  (visit_dereference_variable example_local_matrix example_visitor_float).getD
    example_visitor_float

/-- The dead masks of the instructions once the scan loop of
`eliminate_dead_code` has processed the first `k` instructions of the list. -/
def dce_scan_masks (next_temp : Int) (instructions : List glsl_to_tgsi_instruction)
    (k : Nat) : Option (List Nat) :=
  let n := next_temp.toNat * 4
  (dce_scan next_temp (instructions.take k) 0
    ⟨List.replicate n none, List.replicate n 0, 0,
      instructions.map (fun i => i.dead_mask)⟩).map (fun st => st.dead_masks)

/-- An instruction without operands (`BGNLOOP`, `ENDLOOP`, `BRK`, ...). -/
def example_control (op : tgsi_opcode) : glsl_to_tgsi_instruction :=
  { example_inst op undef_dst undef_src undef_src 0 with info := ⟨0, 0, false, false⟩ }

/-- The list `BGNLOOP; BRK; ENDLOOP; MOV TEMP[0], IN[0]; MOV OUT[0], IN[1]`: the
temporary written after the loop is never read. -/
def example_after_loop : List glsl_to_tgsi_instruction :=
  [example_control TGSI_OPCODE_BGNLOOP, example_control TGSI_OPCODE_BRK,
   example_control TGSI_OPCODE_ENDLOOP,
   example_inst TGSI_OPCODE_MOV (example_temp_dst 0) (example_input 0) undef_src 1,
   example_inst TGSI_OPCODE_MOV (example_output_dst 0) (example_input 1) undef_src 1]

/-- The list `IF IN[2]; ENDIF; MOV TEMP[0], IN[0]; MOV OUT[0], TEMP[0].xxxx`: only
the channel x of the temporary written after the branch is read. -/
def example_after_branch : List glsl_to_tgsi_instruction :=
  [{ example_inst TGSI_OPCODE_IF undef_dst (example_input 2) undef_src 1 with
      info := ⟨0, 1, false, false⟩ },
   example_control TGSI_OPCODE_ENDIF,
   example_inst TGSI_OPCODE_MOV (example_temp_dst 0) (example_input 0) undef_src 1,
   example_inst TGSI_OPCODE_MOV (example_output_dst 0)
     ((example_temp 0).set_swizzle SWIZZLE_XXXX) undef_src 1]

/-- The list `MOV TEMP[0], IN[0]; BGNLOOP; MOV TEMP[0], IN[1]; ENDLOOP;
MOV OUT[0], TEMP[0]`: the temporary is written before the loop and again inside
it. -/
def example_before_loop : List glsl_to_tgsi_instruction :=
  [example_inst TGSI_OPCODE_MOV (example_temp_dst 0) (example_input 0) undef_src 1,
   example_control TGSI_OPCODE_BGNLOOP,
   example_inst TGSI_OPCODE_MOV (example_temp_dst 0) (example_input 1) undef_src 1,
   example_control TGSI_OPCODE_ENDLOOP,
   example_inst TGSI_OPCODE_MOV (example_output_dst 0) (example_temp 0) undef_src 1]

/-! ## `shrink_array_declarations` -/

/-- Modelled from the spec: macro `BITFIELD64_BIT(b)`, that is `(GLbitfield64)1 << (b)`;
a shift by 64 or more is undefined and `none`. -/
def BITFIELD64_BIT (b : Nat) : Option Nat :=
  if b < 64 then some (1 <<< b) else none

/-- The test of `shrink_array_declarations` whether element `j` of a declaration
that starts at `mesa_index` is used: a bit of `patch_usage_mask` from
`VARYING_SLOT_PATCH0` (the parameter `patch0`; `shader_enums.h` is not part of
the translated sources) on, a bit of `usage_mask` below.  The sums are unsigned
32-bit. -/
def slot_in_use (patch0 usage_mask patch_usage_mask : Nat) (mesa_index j : Nat) :
    Option Bool :=
  if mesa_index ≥ patch0 then
    (BITFIELD64_BIT ((mesa_index - patch0 + j) % 2 ^ 32)).map
      (fun bit => decide (patch_usage_mask &&& bit ≠ 0))
  else
    (BITFIELD64_BIT ((mesa_index + j) % 2 ^ 32)).map
      (fun bit => decide (usage_mask &&& bit ≠ 0))

/-- The loop `Shrink the beginning` of `shrink_array_declarations` for one
declaration, by recursion on `array_size`, which every iteration that does not
leave the loop decrements (`j` is 0 at every test). -/
def shrink_beginning (patch0 usage_mask patch_usage_mask array_id : Nat) :
    Nat → Nat → Option array_decl
  | mesa_index, 0 => some ⟨mesa_index, array_id, 0⟩
  | mesa_index, array_size + 1 =>
      match slot_in_use patch0 usage_mask patch_usage_mask mesa_index 0 with
      | none => none
      | some true => some ⟨mesa_index, array_id, array_size + 1⟩
      | some false =>
          shrink_beginning patch0 usage_mask patch_usage_mask array_id
            ((mesa_index + 1) % 2 ^ 32) array_size

/-- The loop `Shrink the end` of `shrink_array_declarations` for one
declaration: the final `array_size`.  `j` is unsigned, so the condition
`j >= 0` always holds and the loop ends only at a used element; it is unfolded
at most `fuel` times, and running out of `fuel` is `none`. -/
def shrink_end (patch0 usage_mask patch_usage_mask mesa_index : Nat) :
    Nat → Nat → Nat → Option Nat
  | 0, _, _ => none
  | fuel + 1, array_size, j =>
      match slot_in_use patch0 usage_mask patch_usage_mask mesa_index j with
      | none => none
      | some true => some array_size
      | some false =>
          shrink_end patch0 usage_mask patch_usage_mask mesa_index fuel
            ((array_size + 2 ^ 32 - 1) % 2 ^ 32) ((j + 2 ^ 32 - 1) % 2 ^ 32)

/-- The body of the loop over the declarations of `shrink_array_declarations`. -/
def shrink_array_declaration (patch0 usage_mask patch_usage_mask fuel : Nat)
    (decl : array_decl) : Option array_decl :=
  match shrink_beginning patch0 usage_mask patch_usage_mask decl.array_id decl.mesa_index
      decl.array_size with
  | none => none
  | some d =>
    (shrink_end patch0 usage_mask patch_usage_mask d.mesa_index fuel d.array_size
      ((d.array_size + 2 ^ 32 - 1) % 2 ^ 32)).map (fun size => { d with array_size := size })

/-- Function `shrink_array_declarations` on the first `count` declarations of
`arrays`; a `count` beyond the end of the array is `none`. -/
def shrink_array_declarations (patch0 fuel : Nat) :
    List array_decl → Nat → Nat → Nat → Option (List array_decl)
  | arrays, 0, _, _ => some arrays
  | [], _ + 1, _, _ => none
  | decl :: rest, count + 1, usage_mask, patch_usage_mask =>
      match shrink_array_declaration patch0 usage_mask patch_usage_mask fuel decl with
      | none => none
      | some d =>
        (shrink_array_declarations patch0 fuel rest count usage_mask patch_usage_mask).map
          (fun ds => d :: ds)

/-- Whether the slot `slot` counts as used for a declaration: for a declaration
of patch varyings the bit `slot - patch0` of `patch_usage_mask`, else the bit
`slot` of `usage_mask`. -/
def slot_used (patch0 usage_mask patch_usage_mask : Nat) (patch : Bool) (slot : Nat) : Bool :=
  if patch then decide (patch_usage_mask &&& (1 <<< (slot - patch0)) ≠ 0)
  else decide (usage_mask &&& (1 <<< slot) ≠ 0)

/-- A declaration the masks can describe: its range `mesa_index ..
mesa_index + array_size - 1` lies either below `patch0` and below 64, or from
`patch0` on with patch slots below 64 (and inside the unsigned range). -/
def decl_in_range (patch0 : Nat) (patch : Bool) (mesa_index array_size : Nat) : Prop :=
  (patch = false ∧ mesa_index + array_size ≤ patch0 ∧ mesa_index + array_size ≤ 64)
  ∨ (patch = true ∧ patch0 ≤ mesa_index ∧ mesa_index - patch0 + array_size ≤ 64
      ∧ mesa_index + array_size < 2 ^ 32)

/-- Two declarations for the examples: slots 10 .. 13 of the ordinary varyings
and slots 66 .. 68, which are patch varyings when `patch0` is 64. -/
def example_array_decls : List array_decl := [⟨10, 1, 4⟩, ⟨66, 2, 3⟩]

/-! ## `merge_two_dsts` -/

/-- The test of the search loop of `merge_two_dsts`: the first sources of `inst`
and `inst2` have the same file, index, type and swizzle. -/
def merge_two_dsts_match (inst inst2 : glsl_to_tgsi_instruction) : Bool :=
  inst.src0.file = inst2.src0.file ∧ inst.src0.index = inst2.src0.index
    ∧ inst.src0.type = inst2.src0.type ∧ inst.src0.swizzle = inst2.src0.swizzle

/-- The search loop `do { ... inst2 = inst2->next; } while (inst2)` of
`merge_two_dsts` over the instructions that follow `inst`: the position of the
first one that matches.  When none matches the loop goes on to compare the tail
sentinel of the list, which is not an instruction: `none`. -/
def merge_two_dsts_search (inst : glsl_to_tgsi_instruction) :
    List glsl_to_tgsi_instruction → Option Nat
  | [] => none
  | inst2 :: rest =>
      if merge_two_dsts_match inst inst2 then some 0
      else (merge_two_dsts_search inst rest).map (fun k => k + 1)

/-- The loop of `merge_two_dsts` from the instruction at the head of the list on.
The loop visits every instruction once, so it is unfolded as many times as the
list is long.  Modelled from the spec: `foreach_in_list_safe` of `list.h` keeps
a pointer to the next node while the body runs; when the body removes and
deletes that very node the loop continues from freed memory: `none`. -/
def merge_two_dsts_from :
    Nat → List glsl_to_tgsi_instruction → Option (List glsl_to_tgsi_instruction)
  | _, [] => some []
  | 0, _ :: _ => none
  | n + 1, inst :: rest =>
      if num_inst_dst_regs inst ≠ 2 then
        (merge_two_dsts_from n rest).map (fun l => inst :: l)
      else if inst.dst0.file ≠ PROGRAM_UNDEFINED ∧ inst.dst1.file ≠ PROGRAM_UNDEFINED then
        (merge_two_dsts_from n rest).map (fun l => inst :: l)
      else
        match merge_two_dsts_search inst rest with
        | none => none
        | some k =>
          match rest[k]? with
          | none => none
          | some inst2 =>
            let merged : glsl_to_tgsi_instruction × Bool :=
              if inst.dst0.file = PROGRAM_UNDEFINED then ({ inst with dst0 := inst2.dst0 }, true)
              else if inst.dst1.file = PROGRAM_UNDEFINED then
                ({ inst with dst1 := inst2.dst1 }, true)
              else (inst, false)
            if merged.2 then
              if k = 0 then none
              else (merge_two_dsts_from n (rest.eraseIdx k)).map (fun l => merged.1 :: l)
            else (merge_two_dsts_from n rest).map (fun l => merged.1 :: l)

/-- Method `merge_two_dsts` on the instruction list. -/
def merge_two_dsts_list (instructions : List glsl_to_tgsi_instruction) :
    Option (List glsl_to_tgsi_instruction) :=
  merge_two_dsts_from instructions.length instructions

/-- Method `merge_two_dsts`. -/
def merge_two_dsts (v : glsl_to_tgsi_visitor) : Option glsl_to_tgsi_visitor :=
  (merge_two_dsts_list v.instructions).map (fun insts => { v with instructions := insts })

/-- A `DFRACEXP` of the examples: two destinations, one source. -/
def example_dfracexp (dst0 dst1 : st_dst_reg) (src : st_src_reg) : glsl_to_tgsi_instruction :=
  { example_inst TGSI_OPCODE_DFRACEXP dst0 src undef_src 1 with
      dst1 := dst1, info := ⟨2, 1, false, false⟩ }

/-- The source operand `IN[0]` of type double. -/
def example_double_input : st_src_reg :=
  st_src_reg.ofType PROGRAM_INPUT 0 GLSL_TYPE_DOUBLE

/-- The list `DFRACEXP TEMP[0], -, IN[0]; MOV OUT[0], TEMP[0];
DFRACEXP TEMP[1], -, IN[0]; MOV OUT[1], TEMP[1]`: the significand of `IN[0]` is
computed twice, into different temporaries. -/
def example_two_significands : List glsl_to_tgsi_instruction :=
  [example_dfracexp (example_temp_dst 0) undef_dst example_double_input,
   example_inst TGSI_OPCODE_MOV (example_output_dst 0) (example_temp 0) undef_src 1,
   example_dfracexp (example_temp_dst 1) undef_dst example_double_input,
   example_inst TGSI_OPCODE_MOV (example_output_dst 1) (example_temp 1) undef_src 1]

/-- The list `DFRACEXP TEMP[0], -, IN[0]; MOV OUT[0], TEMP[0]; MOV OUT[1], IN[0]`:
a `MOV` reads the source of the `DFRACEXP`. -/
def example_significand_and_copy : List glsl_to_tgsi_instruction :=
  [example_dfracexp (example_temp_dst 0) undef_dst example_double_input,
   example_inst TGSI_OPCODE_MOV (example_output_dst 0) (example_temp 0) undef_src 1,
   example_inst TGSI_OPCODE_MOV (example_output_dst 1) example_double_input undef_src 1]

/-- The list `DFRACEXP TEMP[0], -, IN[0]; MOV OUT[0], TEMP[0];
DFRACEXP -, TEMP[1], IN[0]; MOV OUT[1], TEMP[1]`: significand and exponent of
`IN[0]`. -/
def example_significand_exponent : List glsl_to_tgsi_instruction :=
  [example_dfracexp (example_temp_dst 0) undef_dst example_double_input,
   example_inst TGSI_OPCODE_MOV (example_output_dst 0) (example_temp 0) undef_src 1,
   example_dfracexp undef_dst (example_temp_dst 1) example_double_input,
   example_inst TGSI_OPCODE_MOV (example_output_dst 1) (example_temp 1) undef_src 1]

/-! ## Labels (`compile_tgsi_instruction`, `st_translate_program`) -/

/-- Class `function_entry` with the members the translation to TGSI reads; `id`
stands for the address of the entry (the member `function` of an instruction
holds it). -/
structure function_entry where
  id : Nat
  sig_id : Int
  deriving DecidableEq

/-- Struct `label`. -/
structure label where
  branch_target : Nat
  token : Nat
  deriving DecidableEq

/-- The functions of `tgsi_ureg.c` (not part of the translated sources) that the
emission of instructions and the label fix-up call, over the program under
construction `ureg`: `ureg_get_instruction_number`, the emitters `ureg_insn` and
`ureg_tex_insn` (one parameter: the translated operands are not modelled),
`ureg_label_insn` with the value it stores in `*label_token`, and
`ureg_fixup_label`. -/
structure ureg_functions (ureg : Type) where
  ureg_get_instruction_number : ureg → Nat
  ureg_insn : ureg → glsl_to_tgsi_instruction → ureg
  ureg_label_insn : ureg → glsl_to_tgsi_instruction → ureg × Nat
  ureg_fixup_label : ureg → Nat → Nat → ureg

/-- Struct `st_translate` with the members labels depend on: `ureg`, the array
`labels` up to `labels_count` and the array `insn` up to `insn_count`. -/
structure st_translate (ureg : Type) where
  ureg : ureg
  labels : List label
  insn : List Nat

/-- Function `set_insn_start` (the `realloc` succeeds). -/
def set_insn_start {ureg : Type} (t : st_translate ureg) (start : Nat) : st_translate ureg :=
  { t with insn := t.insn ++ [start] }

/-- Function `compile_tgsi_instruction` as far as labels go: an instruction with
a label gets a new entry of `labels` with the branch target (`sig_id` of the
called function for `CAL`, converted to `unsigned`, else 0) and the token
`ureg_label_insn` returns; any other instruction is emitted.  The assertion
`num_dst == 0` and a `CAL` without function entry are `none`. -/
def compile_tgsi_instruction {ureg : Type} (fns : ureg_functions ureg)
    (function_signatures : List function_entry) (t : st_translate ureg)
    (inst : glsl_to_tgsi_instruction) : Option (st_translate ureg) :=
  if inst.op = TGSI_OPCODE_BGNLOOP ∨ inst.op = TGSI_OPCODE_CAL ∨ inst.op = TGSI_OPCODE_ELSE
      ∨ inst.op = TGSI_OPCODE_ENDLOOP ∨ inst.op = TGSI_OPCODE_IF
      ∨ inst.op = TGSI_OPCODE_UIF then
    if num_inst_dst_regs inst ≠ 0 then none
    else
      let branch_target : Option Nat :=
        if inst.op = TGSI_OPCODE_CAL then
          match inst.function with
          | none => none
          | some f =>
            (function_signatures.find? (fun entry => entry.id = f)).map
              (fun entry => (entry.sig_id % 2 ^ 32).toNat)
        else some 0
      match branch_target with
      | none => none
      | some target =>
        let r := fns.ureg_label_insn t.ureg inst
        some { t with ureg := r.1, labels := t.labels ++ [⟨target, r.2⟩] }
  else some { t with ureg := fns.ureg_insn t.ureg inst }

/-- The loop `Emit each instruction in turn` of `st_translate_program`. -/
def st_translate_emit {ureg : Type} (fns : ureg_functions ureg)
    (function_signatures : List function_entry) :
    List glsl_to_tgsi_instruction → st_translate ureg → Option (st_translate ureg)
  | [], t => some t
  | inst :: rest, t =>
      match compile_tgsi_instruction fns function_signatures
          (set_insn_start t (fns.ureg_get_instruction_number t.ureg)) inst with
      | none => none
      | some t1 => st_translate_emit fns function_signatures rest t1

/-- The loop `Fix up all emitted labels` of `st_translate_program` over the
labels not yet fixed: the program, and the calls of `ureg_fixup_label` made (label
token and instruction number).  An index outside `insn` is `none`. -/
def st_translate_fixup {ureg : Type} (fns : ureg_functions ureg) (insn : List Nat) :
    List label → ureg → Option (ureg × List (Nat × Nat))
  | [], u => some (u, [])
  | l :: rest, u =>
      match insn[l.branch_target]? with
      | none => none
      | some address =>
        (st_translate_fixup fns insn rest (fns.ureg_fixup_label u l.token address)).map
          (fun r => (r.1, (l.token, address) :: r.2))

/-- The two loops of `st_translate_program` that emit the instructions and fix up
the labels, started from the program `u`: the final program, the array `insn`
and the calls of `ureg_fixup_label` made. -/
def st_translate_labels {ureg : Type} (fns : ureg_functions ureg)
    (function_signatures : List function_entry)
    (instructions : List glsl_to_tgsi_instruction) (u : ureg) :
    Option (ureg × List Nat × List (Nat × Nat)) :=
  match st_translate_emit fns function_signatures instructions ⟨u, [], []⟩ with
  | none => none
  | some t =>
    (st_translate_fixup fns t.insn t.labels t.ureg).map (fun r => (r.1, t.insn, r.2))

/-- Modelled from the spec: a program under construction that only counts the
instructions emitted; the label token of an instruction is its instruction
number and a fix-up changes nothing that is counted. -/
def example_ureg : ureg_functions Nat :=
  { ureg_get_instruction_number := fun u => u,
    ureg_insn := fun u _ => u + 1,
    ureg_label_insn := fun u _ => (u + 1, u),
    ureg_fixup_label := fun u _ _ => u }

/-- The function entry of the examples: the first signature called (`sig_id` 1). -/
def example_function : function_entry := ⟨61, 1⟩

/-- The list `MOV TEMP[0], IN[0]; CAL f; MOV OUT[0], TEMP[1]; BGNSUB f;
MOV TEMP[1], TEMP[0]; RET; ENDSUB f`: `main` calls `f`, whose body follows. -/
def example_call : List glsl_to_tgsi_instruction :=
  [example_inst TGSI_OPCODE_MOV (example_temp_dst 0) (example_input 0) undef_src 1,
   { example_control TGSI_OPCODE_CAL with function := some 61 },
   example_inst TGSI_OPCODE_MOV (example_output_dst 0) (example_temp 1) undef_src 1,
   { example_control TGSI_OPCODE_BGNSUB with function := some 61 },
   example_inst TGSI_OPCODE_MOV (example_temp_dst 1) (example_temp 0) undef_src 1,
   example_control TGSI_OPCODE_RET,
   { example_control TGSI_OPCODE_ENDSUB with function := some 61 }]

/-! ## `simplify_cmp` -/

/-- Function `get_src_arg_mask`; a failing `assert(coord < 4)` is `none`. -/
def get_src_arg_mask (dst : st_dst_reg) (src : st_src_reg) : Option Nat :=
  loop_range 4 (fun comp read_mask =>
    let coord := GET_SWZ src.swizzle comp
    if coord < 4 then
      if dst.writemask &&& (1 <<< comp) ≠ 0 ∧ coord ≤ SWIZZLE_W then
        some (read_mask ||| (1 <<< coord))
      else some read_mask
    else none) 0

/-- The tables `tempWrites` (its length is `tempWritesSize`) and `outputWrites` of
`simplify_cmp`. -/
structure simplify_cmp_state where
  tempWrites : List Nat
  outputWrites : List Nat
  deriving DecidableEq

/-- The test of `simplify_cmp` that ends the loop: relative addressing of a
destination or flow control. -/
def simplify_cmp_gives_up (info : tgsi_opcode → tgsi_opcode_info)
    (inst : glsl_to_tgsi_instruction) : Bool :=
  inst.dst0.reladdr.isSet || inst.dst0.reladdr2.isSet ||
  inst.dst1.reladdr.isSet || inst.dst1.reladdr2.isSet ||
  (info inst.op).is_branch ||
  decide (inst.op = TGSI_OPCODE_BGNSUB) ||
  decide (inst.op = TGSI_OPCODE_CONT) ||
  decide (inst.op = TGSI_OPCODE_END) ||
  decide (inst.op = TGSI_OPCODE_ENDSUB) ||
  decide (inst.op = TGSI_OPCODE_RET)

/-- The last statement of the loop body of `simplify_cmp`: a `CMP` that is the
first write of its destination and whose third source is the destination becomes
a `MOV` of its second source.  The conjuncts are evaluated from left to right, so
`get_src_arg_mask` runs only when the ones before it hold. -/
def simplify_cmp_rewrite (inst : glsl_to_tgsi_instruction) (prevWriteMask : Nat) :
    Option glsl_to_tgsi_instruction :=
  if inst.op = TGSI_OPCODE_CMP
      ∧ inst.dst0.writemask &&& prevWriteMask = 0
      ∧ inst.src2.file = inst.dst0.file
      ∧ inst.src2.index = inst.dst0.index then
    match get_src_arg_mask inst.dst0 inst.src2 with
    | none => none
    | some mask =>
        if inst.dst0.writemask = mask then
          some { inst with op := TGSI_OPCODE_MOV, src0 := inst.src1 }
        else some inst
  else some inst

/-- The constant `inc` of `simplify_cmp`: the number of words by which
`tempWrites` grows. -/
def simplify_cmp_inc : Nat := 4096

/-- The loop of `simplify_cmp` over the instructions still to process.  The result
is the whole remaining list: after `break`, and after the `return` taken when
`realloc` fails (`realloc_ok size` tells whether a table of `size` words can be
allocated), the instructions not yet visited are unchanged.  A failing assert and
an access outside a table are `none`. -/
def simplify_cmp_from (info : tgsi_opcode → tgsi_opcode_info) (realloc_ok : Nat → Bool) :
    List glsl_to_tgsi_instruction → simplify_cmp_state →
      Option (List glsl_to_tgsi_instruction)
  | [], _ => some []
  | inst :: rest, st =>
      if simplify_cmp_gives_up info inst then some (inst :: rest)
      else if inst.dst0.file = PROGRAM_OUTPUT then
        if inst.dst0.index < st.outputWrites.length then
          match arr_get st.outputWrites inst.dst0.index with
          | none => none
          | some prevWriteMask =>
          match arr_set st.outputWrites inst.dst0.index
              (prevWriteMask ||| inst.dst0.writemask) with
          | none => none
          | some outputWrites =>
          match simplify_cmp_rewrite inst prevWriteMask with
          | none => none
          | some inst1 =>
              (simplify_cmp_from info realloc_ok rest
                { st with outputWrites := outputWrites }).map (fun l => inst1 :: l)
        else none
      else if inst.dst0.file = PROGRAM_TEMPORARY then
        if inst.dst0.index ≥ st.tempWrites.length ∧
            realloc_ok (st.tempWrites.length + simplify_cmp_inc) = false then
          some (inst :: rest)
        else
          let tempWrites :=
            if inst.dst0.index ≥ st.tempWrites.length then
              st.tempWrites ++ List.replicate simplify_cmp_inc 0
            else st.tempWrites
          match arr_get tempWrites inst.dst0.index with
          | none => none
          | some prevWriteMask =>
          match arr_set tempWrites inst.dst0.index
              (prevWriteMask ||| inst.dst0.writemask) with
          | none => none
          | some tempWrites1 =>
          match simplify_cmp_rewrite inst prevWriteMask with
          | none => none
          | some inst1 =>
              (simplify_cmp_from info realloc_ok rest
                { st with tempWrites := tempWrites1 }).map (fun l => inst1 :: l)
      else
        (simplify_cmp_from info realloc_ok rest st).map (fun l => inst :: l)

/-- Method `simplify_cmp` on the instruction list; `varying_slot_tess_max` is the
value of `VARYING_SLOT_TESS_MAX` (`shader_enums.h`), the size of `outputWrites`. -/
def simplify_cmp_list (info : tgsi_opcode → tgsi_opcode_info) (realloc_ok : Nat → Bool)
    (varying_slot_tess_max : Nat) (instructions : List glsl_to_tgsi_instruction) :
    Option (List glsl_to_tgsi_instruction) :=
  simplify_cmp_from info realloc_ok instructions
    ⟨[], List.replicate varying_slot_tess_max 0⟩

/-- Method `simplify_cmp`. -/
def simplify_cmp (info : tgsi_opcode → tgsi_opcode_info) (realloc_ok : Nat → Bool)
    (varying_slot_tess_max : Nat) (v : glsl_to_tgsi_visitor) :
    Option glsl_to_tgsi_visitor :=
  (simplify_cmp_list info realloc_ok varying_slot_tess_max v.instructions).map
    (fun insts => { v with instructions := insts })

/-- The arity invariant of an instruction with respect to an opcode table: the
recorded opcode info is the table's entry for the opcode, and every source slot
from the recorded number of sources on is undefined. -/
def arity_invariant (info : tgsi_opcode → tgsi_opcode_info)
    (inst : glsl_to_tgsi_instruction) : Prop :=
  inst.info = info inst.op ∧
  ∀ j r, num_inst_src_regs inst ≤ j → inst.src j = some r → r.file = PROGRAM_UNDEFINED

/-- Modelled from the spec: the entries of the table `tgsi_get_opcode_info`
(`tgsi_info.c`) used by the example: `MOV` has one source, `CMP` three, any other
opcode is given two; one destination each, no texture, no branch. -/
def example_opcode_table : tgsi_opcode → tgsi_opcode_info
  | TGSI_OPCODE_MOV => ⟨1, 1, false, false⟩
  | TGSI_OPCODE_CMP => ⟨1, 3, false, false⟩
  | _ => ⟨1, 2, false, false⟩

/-- The instruction `CMP TEMP[0], IN[0], IN[1], TEMP[0]`. -/
def example_conditional_write : glsl_to_tgsi_instruction :=
  { example_inst TGSI_OPCODE_CMP (example_temp_dst 0) (example_input 0) (example_input 1) 3
    with src2 := example_temp 0 }

/-- The instruction `example_conditional_write` with the opcode `MOV` and the
first source `IN[1]`, every other member (the recorded opcode info and the
sources 1 to 3 among them) as before. -/
def example_rewritten_write : glsl_to_tgsi_instruction :=
  { example_conditional_write with op := TGSI_OPCODE_MOV, src0 := example_input 1 }

/-! ## The value of `MAD(a, -b, a)` -/

/-- Modelled from the spec: `NEGATE_XYZW` of `prog_instruction.h`. -/
def NEGATE_XYZW : Int := 0xf

/-- The test `(src_reg->negate & 0xf) == NEGATE_XYZW` of `translate_src`, under
which the operand is translated with `ureg_negate`; on a two's-complement `int`
the low four bits are the remainder modulo 16. -/
def translate_src_negates (src : st_src_reg) : Bool := src.negate % 16 = NEGATE_XYZW

/-- Modelled from the spec: the value a source operand contributes for a channel
that holds `x` in the register: `-x` when `translate_src` negates the operand,
else `x`. -/
def operand_value {α : Type} [Neg α] (src : st_src_reg) (x : α) : α :=
  if translate_src_negates src then -x else x

/-- Modelled from the spec: the value `src0 * src1 + src2` that the TGSI
instruction `MAD` stores in a channel. -/
def mad_value (x y z : Int) : Int := x * y + z

/-- A second scalar bool uniform `c`, at location 1. -/
def example_other_uniform : ir_variable :=
  ⟨3, "c", glsl_type.bool_type, ir_var_uniform, 1, 0, false, GLSL_MATRIX_LAYOUT_INHERITED, false⟩

/-- The expression `b && !c` (`swapped = false`) or `!c && b` (`swapped = true`) on
the two bool uniforms. -/
def example_and_not (swapped : Bool) : ir_rvalue :=
  let a := example_condition
  let not_b : ir_rvalue :=
    .expression 5 glsl_type.bool_type ir_unop_logic_not
      (.cons (.dereference_variable 4 example_other_uniform) .nil)
  .expression 6 glsl_type.bool_type ir_binop_logic_and
    (if swapped then .cons not_b (.cons a .nil) else .cons a (.cons not_b .nil))

/-- The logical channels of a four-channel write-mask, in ascending order. -/
def writemask_channels (writemask : Nat) : List Nat :=
  (List.range 4).filter (fun i => writemask.testBit i)

/-- The destination `TEMP[i]` of type double with the logical write-mask
`writemask`. -/
def example_double_dst (i : Int) (writemask : Nat) : st_dst_reg :=
  st_dst_reg.ofIndex PROGRAM_TEMPORARY writemask GLSL_TYPE_DOUBLE i

/-- The `MOV` recorded in the table `acp` of `copy_propagate` for the channel
`chan` of the temporary `index`: the instruction `acp[4 * index + chan]`. -/
def recorded_copy (st : acp_state) (index : Int) (chan : Nat) :
    Option glsl_to_tgsi_instruction :=
  match arr_get st.acp (index * 4 + chan) with
  | some (some pos) => st.done[pos]?
  | _ => none

/-- Two recorded `MOV`s read the same source register, as `copy_propagate` compares
them: file, index, `double_reg2` and `index2D` of the first source. -/
def same_source (first copy_chan : glsl_to_tgsi_instruction) : Prop :=
  first.src0.file = copy_chan.src0.file ∧ first.src0.index = copy_chan.src0.index
    ∧ first.src0.double_reg2 = copy_chan.src0.double_reg2
    ∧ first.src0.index2D = copy_chan.src0.index2D

instance (first copy_chan : glsl_to_tgsi_instruction) :
    Decidable (same_source first copy_chan) := by
  unfold same_source
  infer_instance

/-- A table of `copy_propagate` for one temporary: the channels x and y of
`TEMP[0]` were copied by the instruction at position 0, the channels z and w by
the instruction at position 1, both at level 0. -/
def example_acp_state : acp_state :=
  { acp := [some 0, some 0, some 1, some 1], acp_level := [0, 0, 0, 0], level := 0,
    done :=
      [example_inst TGSI_OPCODE_MOV { example_temp_dst 0 with writemask := WRITEMASK_XY }
          ((example_input 3).set_swizzle (MAKE_SWIZZLE4 SWIZZLE_W SWIZZLE_Z SWIZZLE_Y SWIZZLE_X))
          undef_src 1,
       example_inst TGSI_OPCODE_MOV { example_temp_dst 0 with writemask := WRITEMASK_ZW }
          ((example_input 3).set_swizzle SWIZZLE_XXXX) undef_src 1] }

/-- The change of the nesting level `level` of `copy_propagate` by one instruction:
`IF` and `UIF` open a conditional, `ENDIF` closes one. -/
def block_level_step (op : tgsi_opcode) : Int :=
  if op = TGSI_OPCODE_IF ∨ op = TGSI_OPCODE_UIF then 1
  else if op = TGSI_OPCODE_ENDIF then -1
  else 0

/-- The nesting level of conditionals in front of position `k` of an instruction
list. -/
def block_level (instructions : List glsl_to_tgsi_instruction) (k : Nat) : Int :=
  (instructions.take k).foldl (fun level inst => level + block_level_step inst.op) 0

/-- The instructions strictly between the positions `a` and `c` are an arm of a
conditional: position `a` holds the `IF`, `UIF` or `ELSE` that opens the arm,
position `c` an `ELSE` or `ENDIF` in front of which the nesting level is the one
behind the opening instruction, and in between the nesting level never is
below it (the conditionals inside the arm are closed inside the arm). -/
def is_arm (instructions : List glsl_to_tgsi_instruction) (a c : Nat) : Prop :=
  a < c
  ∧ (∃ inst, instructions[a]? = some inst
      ∧ (inst.op = TGSI_OPCODE_IF ∨ inst.op = TGSI_OPCODE_UIF ∨ inst.op = TGSI_OPCODE_ELSE))
  ∧ (∃ inst, instructions[c]? = some inst
      ∧ (inst.op = TGSI_OPCODE_ELSE ∨ inst.op = TGSI_OPCODE_ENDIF))
  ∧ block_level instructions c = block_level instructions (a + 1)
  ∧ ∀ k, a < k → k < c → block_level instructions (a + 1) ≤ block_level instructions k

/-- The state of `copy_propagate` in front of position `k`: the tables after the
first `k` instructions have been processed.  The source operands of the
instruction at position `k` are rewritten with this state. -/
def copy_propagate_state (next_temp : Int) (instructions : List glsl_to_tgsi_instruction)
    (k : Nat) : Option acp_state :=
  copy_propagate_from next_temp (instructions.take k)
    ⟨List.replicate (next_temp.toNat * 4) none, List.replicate (next_temp.toNat * 4) 0, 0, []⟩

/-- The rewriting of the operand `src` with the state `st` looks at the `MOV` at
position `pos` of the instruction list: the table entry of one of the four
channels the operand selects is this `MOV`. -/
def copy_propagate_consults (st : acp_state) (src : st_src_reg) (pos : Nat) : Prop :=
  ∃ i, i < 4 ∧ arr_get st.acp (src.index * 4 + GET_SWZ src.swizzle i) = some (some pos)

/-- The list `IF IN[2]; MOV TEMP[0], IN[0]; ELSE; MOV OUT[0], TEMP[0]; ENDIF;
BGNLOOP; MOV OUT[1], TEMP[0]; ENDLOOP`: the temporary is copied in the then-arm and
read in the else-arm and in a loop behind the conditional. -/
def example_arms : List glsl_to_tgsi_instruction :=
  [{ example_control TGSI_OPCODE_IF with src0 := example_input 2 },
   example_inst TGSI_OPCODE_MOV (example_temp_dst 0) (example_input 0) undef_src 1,
   example_control TGSI_OPCODE_ELSE,
   example_inst TGSI_OPCODE_MOV (example_output_dst 0) (example_temp 0) undef_src 1,
   example_control TGSI_OPCODE_ENDIF,
   example_control TGSI_OPCODE_BGNLOOP,
   example_inst TGSI_OPCODE_MOV (example_output_dst 1) (example_temp 0) undef_src 1,
   example_control TGSI_OPCODE_ENDLOOP]

/-! ## The value selected by a conditional move -/

/-- Modelled from the spec: a value of the IEEE 754 binary32 format, the format of
a float channel, by its fields: the sign bit, the biased exponent (8 bits) and
the fraction (23 bits). -/
structure ieee_float where
  sign : Bool
  exponent : Fin 256
  fraction : Fin 8388608
  deriving DecidableEq

namespace ieee_float

/-- A NaN: the exponent is all ones and the fraction is not zero. -/
def is_nan (x : ieee_float) : Bool := x.exponent = 255 && x.fraction ≠ 0

/-- A zero of either sign: exponent and fraction are zero. -/
def is_zero (x : ieee_float) : Bool := x.exponent = 0 && x.fraction = 0

/-- The comparison `x < 0`: false for a NaN and for the zeros. -/
def lt_zero (x : ieee_float) : Bool := !x.is_nan && x.sign && !x.is_zero

/-- The comparison `0 < x`: false for a NaN and for the zeros. -/
def zero_lt (x : ieee_float) : Bool := !x.is_nan && !x.sign && !x.is_zero

/-- The comparison `x <= 0`: false for a NaN, true for the zeros. -/
def le_zero (x : ieee_float) : Bool := !x.is_nan && (x.sign || x.is_zero)

/-- The comparison `0 <= x`: false for a NaN, true for the zeros. -/
def zero_le (x : ieee_float) : Bool := !x.is_nan && (!x.sign || x.is_zero)

/-- The negation of a float flips its sign bit. -/
def negated (x : ieee_float) : ieee_float := { x with sign := !x.sign }

end ieee_float

instance : Neg ieee_float := ⟨ieee_float.negated⟩

instance : InvolutiveNeg ieee_float :=
  ⟨fun x => by cases x; simp [Neg.neg, ieee_float.negated]⟩

/-- Modelled from the spec: the operand the TGSI instruction `CMP` selects for a
channel in which its first operand has the float value `c`: the second operand
when `c < 0`, else the third (also when `c` is a NaN). -/
def cmp_select {β : Type} (c : ieee_float) (src1 src2 : β) : β :=
  if c.lt_zero then src1 else src2

/-- The truth value of a comparison of the float `a` with zero: `a op 0` for
`zero_on_left = false`, `0 op a` for `zero_on_left = true`, with `op` one of `<`, `>`,
`<=`, `>=` (every other operation counts as false).  Every comparison with a NaN
is false. -/
def comparison_with_zero (operation : ir_expression_operation) (zero_on_left : Bool)
    (a : ieee_float) : Bool :=
  match operation, zero_on_left with
  | ir_binop_less, false => a.lt_zero
  | ir_binop_less, true => a.zero_lt
  | ir_binop_greater, false => a.zero_lt
  | ir_binop_greater, true => a.lt_zero
  | ir_binop_lequal, false => a.le_zero
  | ir_binop_lequal, true => a.zero_le
  | ir_binop_gequal, false => a.zero_le
  | ir_binop_gequal, true => a.le_zero
  | _, _ => false

/-- The float 5.0. -/
def example_float_five : ieee_float := ⟨false, 129, 2097152⟩

/-- A quiet NaN. -/
def example_float_nan : ieee_float := ⟨false, 255, 4194304⟩

/-- The condition `a op zero` (`zero_on_left = false`) or `zero op a`
(`zero_on_left = true`) as an expression of type bool. -/
def comparison_expression (id : Nat) (operation : ir_expression_operation)
    (zero_on_left : Bool) (a zero : ir_rvalue) : ir_rvalue :=
  .expression id glsl_type.bool_type operation
    (if zero_on_left then .cons zero (.cons a .nil) else .cons a (.cons zero .nil))

/-- A float uniform `x` at location 2. -/
def example_float_uniform : ir_variable :=
  ⟨8, "x", glsl_type.float_type, ir_var_uniform, 2, 0, false, GLSL_MATRIX_LAYOUT_INHERITED,
    false⟩

/-- A float uniform `y` at location 3. -/
def example_new_value : ir_variable :=
  ⟨9, "y", glsl_type.float_type, ir_var_uniform, 3, 0, false, GLSL_MATRIX_LAYOUT_INHERITED,
    false⟩

/-- A local float variable `t`. -/
def example_float_local : ir_variable :=
  ⟨10, "t", glsl_type.float_type, ir_var_auto, 0, 0, false, GLSL_MATRIX_LAYOUT_INHERITED,
    false⟩

/-- The conditional assignment `if (x <= 0.0) t = y;`, the form the lowering of
branches produces. -/
def example_conditional_assignment : ir_statement :=
  .assignment 45 (.dereference_variable 44 example_float_local)
    (.dereference_variable 43 example_new_value)
    (some (comparison_expression 42 ir_binop_lequal false
      (.dereference_variable 40 example_float_uniform)
      (.constant 41 glsl_type.float_type [0])))
    1

/-! ## An assignment retargeted onto a comparison of doubles -/

/-- A uniform `dvec2` named `dv` at location 2. -/
def example_double_vector : ir_variable :=
  ⟨60, "dv", glsl_type.dvec2_type, ir_var_uniform, 2, 0, false, GLSL_MATRIX_LAYOUT_INHERITED,
    false⟩

/-- A uniform `double` named `dw` at location 4. -/
def example_double_scalar : ir_variable :=
  ⟨61, "dw", glsl_type.double_type, ir_var_uniform, 4, 0, false, GLSL_MATRIX_LAYOUT_INHERITED,
    false⟩

/-- A local `bool` named `t`. -/
def example_bool_local : ir_variable :=
  ⟨62, "t", glsl_type.bool_type, ir_var_auto, 0, 0, false, GLSL_MATRIX_LAYOUT_INHERITED,
    false⟩

/-- The expression `dv.y < dw`. -/
def example_double_comparison : ir_rvalue :=
  .expression 66 glsl_type.bool_type ir_binop_less
    (.cons (.swizzle 64 glsl_type.double_type (.dereference_variable 63 example_double_vector)
        ⟨1, 0, 0, 0, 1, false⟩)
      (.cons (.dereference_variable 65 example_double_scalar) .nil))

/-- The assignment `t = dv.y < dw;`. -/
def example_double_assignment : ir_statement :=
  .assignment 68 (.dereference_variable 67 example_bool_local) example_double_comparison none 1

/-! ## `emit_scalar` -/

/-- The inner loop `for (j = i + 1; j < 4; j++)` of `emit_scalar`: the value of
`this_mask` behind it. -/
def emit_scalar_mask (done_mask src0_swizzle src1_swizzle i : Nat) : Nat :=
  (List.range' (i + 1) (3 - i)).foldl
    (fun this_mask j =>
      if done_mask &&& (1 <<< j) = 0
          ∧ GET_SWZ src0_swizzle j = GET_SWZ src0_swizzle i
          ∧ GET_SWZ src1_swizzle j = GET_SWZ src1_swizzle i then
        this_mask ||| (1 <<< j)
      else this_mask)
    (1 <<< i)

/-- One pass of the outer loop of `emit_scalar` for the channel `i`, on the pair of
`done_mask` (as a 32-bit word) and the visitor. -/
def emit_scalar_step (info : tgsi_opcode → tgsi_opcode_info) (ir : Option Nat)
    (op : tgsi_opcode) (dst : st_dst_reg) (orig_src0 orig_src1 : st_src_reg) (i : Nat)
    (s : Nat × glsl_to_tgsi_visitor) : Option (Nat × glsl_to_tgsi_visitor) :=
  if s.1 &&& (1 <<< i) ≠ 0 then some s
  else
    let src0_swiz := GET_SWZ orig_src0.swizzle i
    let src1_swiz := GET_SWZ orig_src1.swizzle i
    let this_mask := emit_scalar_mask s.1 orig_src0.swizzle orig_src1.swizzle i
    let src0 := orig_src0.set_swizzle (MAKE_SWIZZLE4 src0_swiz src0_swiz src0_swiz src0_swiz)
    let src1 := orig_src1.set_swizzle (MAKE_SWIZZLE4 src1_swiz src1_swiz src1_swiz src1_swiz)
    match emit_asm1 info ir op { dst with writemask := this_mask } src0 src1 undef_src
        undef_src s.2 with
    | none => none
    | some (v1, _) => some (s.1 ||| this_mask, v1)

/-- Method `emit_scalar` (two sources); `done_mask` starts as `~dst.writemask`. -/
def emit_scalar (info : tgsi_opcode → tgsi_opcode_info) (ir : Option Nat)
    (op : tgsi_opcode) (dst : st_dst_reg) (orig_src0 orig_src1 : st_src_reg)
    (v : glsl_to_tgsi_visitor) : Option glsl_to_tgsi_visitor :=
  (loop_range 4 (emit_scalar_step info ir op dst orig_src0 orig_src1)
    ((dst.writemask % 2 ^ 32) ^^^ 0xFFFFFFFF, v)).map Prod.snd

/-- Method `emit_scalar` (one source): the second source is `undef_src` with the
swizzle `SWIZZLE_XXXX`. -/
def emit_scalar1 (info : tgsi_opcode → tgsi_opcode_info) (ir : Option Nat)
    (op : tgsi_opcode) (dst : st_dst_reg) (src0 : st_src_reg) (v : glsl_to_tgsi_visitor) :
    Option glsl_to_tgsi_visitor :=
  emit_scalar info ir op dst src0 (undef_src.set_swizzle SWIZZLE_XXXX) v

/-- What `emit_scalar` guarantees for an instruction it emits for the destination
`dst` and the sources `orig_src0`, `orig_src1`: the instruction is the resolved
opcode on `dst` with its own write-mask and on the two sources with one channel
replicated, and that channel is the channel the original swizzle selects for
every channel written. -/
def emit_scalar_inst (info : tgsi_opcode → tgsi_opcode_info) (ir : Option Nat)
    (op1 : tgsi_opcode) (dst : st_dst_reg) (orig_src0 orig_src1 : st_src_reg)
    (inst : glsl_to_tgsi_instruction) : Prop :=
  ∃ c0 c1, c0 < 8 ∧ c1 < 8
    ∧ inst = new_instruction info ir op1 { dst with writemask := inst.dst0.writemask }
        undef_dst (orig_src0.set_swizzle (MAKE_SWIZZLE4 c0 c0 c0 c0))
        (orig_src1.set_swizzle (MAKE_SWIZZLE4 c1 c1 c1 c1)) undef_src undef_src
    ∧ ∀ k, k < 4 → inst.dst0.writemask &&& (1 <<< k) ≠ 0 →
        GET_SWZ inst.src0.swizzle k = GET_SWZ orig_src0.swizzle k
        ∧ GET_SWZ inst.src1.swizzle k = GET_SWZ orig_src1.swizzle k

/-- The source `IN[0].xxyy`. -/
def example_scalar_source : st_src_reg :=
  (example_input 0).set_swizzle (MAKE_SWIZZLE4 SWIZZLE_X SWIZZLE_X SWIZZLE_Y SWIZZLE_Y)

/-! ## `dst_register` -/

/-- Function `dst_register`, case `PROGRAM_ARRAY`: the array number
`array = index >> 16` that selects `t->arrays[array]` and the offset
`(int)(index & 0xFFFF) - 0x8000` passed to `ureg_dst_array_offset`; the assertion
`array < t->num_temp_arrays` fails with `none`. -/
def dst_register_array (num_temp_arrays index : Nat) : Option (Nat × Int) :=
  let array := index >>> 16
  if array < num_temp_arrays then
    some (array, ((index &&& 0xFFFF : Nat) : Int) - 0x8000)
  else none

/-- A local `float[3]` variable type. -/
def example_array_type : glsl_type :=
  glsl_type.get_array_instance glsl_type.float_type 3

/-- The one-instruction list `DFRACEXP OUT[0].x, TEMP[0].x, IN[0]`: both
destinations are defined, the first is an output, the second a temporary that
nothing reads. -/
def example_output_and_dead_temp : List glsl_to_tgsi_instruction :=
  [example_dfracexp (st_dst_reg.ofIndex PROGRAM_OUTPUT WRITEMASK_X GLSL_TYPE_FLOAT 0)
    (st_dst_reg.ofIndex PROGRAM_TEMPORARY WRITEMASK_X GLSL_TYPE_FLOAT 0) example_double_input]

/-- The list `DFRACEXP TEMP[0].x, TEMP[1].x, IN[0]; MOV OUT[0], TEMP[0].xxxx`: the
first destination of the first instruction is read, the second is not. -/
def example_live_and_dead_temp : List glsl_to_tgsi_instruction :=
  [example_dfracexp (st_dst_reg.ofIndex PROGRAM_TEMPORARY WRITEMASK_X GLSL_TYPE_FLOAT 0)
    (st_dst_reg.ofIndex PROGRAM_TEMPORARY WRITEMASK_X GLSL_TYPE_FLOAT 1) example_double_input,
   example_inst TGSI_OPCODE_MOV (example_output_dst 0)
    ((example_temp 0).set_swizzle SWIZZLE_XXXX) undef_src 1]

/-- The list `MOV TEMP[1], IN[0]; MOV TEMP[0], IN[1]; MOV TEMP[3], IN[2];
MOV OUT[0], TEMP[1]`: `TEMP[1]` is written and read, `TEMP[0]` and `TEMP[3]` are
only written. -/
def example_written_only : List glsl_to_tgsi_instruction :=
  [example_inst TGSI_OPCODE_MOV (example_temp_dst 1) (example_input 0) undef_src 1,
   example_inst TGSI_OPCODE_MOV (example_temp_dst 0) (example_input 1) undef_src 1,
   example_inst TGSI_OPCODE_MOV (example_temp_dst 3) (example_input 2) undef_src 1,
   example_inst TGSI_OPCODE_MOV (example_output_dst 0) (example_temp 1) undef_src 1]

/-- The constant `inc` of the growth step of `dst_register`. -/
def dst_register_inc : Nat := 4096

/-- Function `dst_register`, case `PROGRAM_TEMPORARY`.  The table `t->temps` holds
`temps_size` entries, `none` for an undefined `ureg_dst`; `realloc_ok` says whether
`realloc` succeeds and `decl` is the register `ureg_DECL_local_temporary` returns
(`tgsi_ureg.c` is not part of the translated sources).  The result is the
returned register (`none` for `ureg_dst_undef()`) with the table, or `none` when
`t->temps[index]` is read beyond the end of the table. -/
def dst_register_temporary {α : Type} (realloc_ok : Bool) (decl : α)
    (temps : List (Option α)) (index : Nat) : Option (Option α × List (Option α)) :=
  let grown : Option (List (Option α)) :=
    if index ≥ temps.length then
      if realloc_ok then some (temps ++ List.replicate dst_register_inc none) else none
    else some temps
  match grown with
  | none => some (none, [])
  | some temps1 =>
    match temps1[index]? with
    | none => none
    | some none => some (some decl, temps1.set index (some decl))
    | some (some d) => some (some d, temps1)

/-- A list of renames in which no register that is the old register of a rename
to a different register is the new register of a later rename. -/
def renames_resolved (renames : List rename_reg_pair) : Prop :=
  renames.Pairwise (fun p q => p.old_reg ≠ p.new_reg → q.new_reg ≠ p.old_reg)

/-- The register `index` counts as unused in the table `first_writes` of
`merge_registers`: its entry is negative. -/
def merge_unused (first_writes : List Int) (index : Int) : Prop :=
  ∃ x, arr_get first_writes index = some x ∧ x < 0

/-- The list `MOV TEMP[1], IN[0]; MOV OUT[0], TEMP[1]; MOV TEMP[0], IN[1];
MOV OUT[1], TEMP[0]; MOV TEMP[2], IN[2]; MOV OUT[2], TEMP[2]`: three temporaries
with disjoint live ranges, `TEMP[1]` first. -/
def example_rename_chain : List glsl_to_tgsi_instruction :=
  [example_inst TGSI_OPCODE_MOV (example_temp_dst 1) (example_input 0) undef_src 1,
   example_inst TGSI_OPCODE_MOV (example_output_dst 0) (example_temp 1) undef_src 1,
   example_inst TGSI_OPCODE_MOV (example_temp_dst 0) (example_input 1) undef_src 1,
   example_inst TGSI_OPCODE_MOV (example_output_dst 1) (example_temp 0) undef_src 1,
   example_inst TGSI_OPCODE_MOV (example_temp_dst 2) (example_input 2) undef_src 1,
   example_inst TGSI_OPCODE_MOV (example_output_dst 2) (example_temp 2) undef_src 1]

/-- The list `example_rename_chain` after `merge_registers`, which records the
renames 2 to 0 and then 0 to 1: every temporary has become `TEMP[1]`. -/
def example_rename_chain_output : List glsl_to_tgsi_instruction :=
  [example_inst TGSI_OPCODE_MOV (example_temp_dst 1) (example_input 0) undef_src 1,
   example_inst TGSI_OPCODE_MOV (example_output_dst 0) (example_temp 1) undef_src 1,
   example_inst TGSI_OPCODE_MOV (example_temp_dst 1) (example_input 1) undef_src 1,
   example_inst TGSI_OPCODE_MOV (example_output_dst 1) (example_temp 1) undef_src 1,
   example_inst TGSI_OPCODE_MOV (example_temp_dst 1) (example_input 2) undef_src 1,
   example_inst TGSI_OPCODE_MOV (example_output_dst 2) (example_temp 1) undef_src 1]

/-! ## Loops in the live-range tables -/

/-- The loop nesting depth behind a list of instructions: the number of `BGNLOOP`
minus the number of `ENDLOOP`. -/
def loop_depth (pre : List glsl_to_tgsi_instruction) : Int :=
  (pre.countP (fun inst => decide (inst.op = TGSI_OPCODE_BGNLOOP)) : Int)
    - (pre.countP (fun inst => decide (inst.op = TGSI_OPCODE_ENDLOOP)) : Int)

/-- The instruction at position `s` of `pre` is the `BGNLOOP` of the outermost loop
that is open behind `pre`: the depth in front of it is 0 and the depth in front of
every later position, up to the end of `pre`, is positive. -/
def outermost_loop_start (pre : List glsl_to_tgsi_instruction) (s : Nat) : Prop :=
  pre[s]?.map (fun inst => inst.op) = some TGSI_OPCODE_BGNLOOP
  ∧ loop_depth (pre.take s) = 0
  ∧ ∀ q, s < q → q ≤ pre.length → 0 < loop_depth (pre.take q)

/-- The instruction at position `e` of `l` is the `ENDLOOP` that closes the outermost
loop around position `p`: the depth in front of every position from `p` to `e` is
positive and the depth behind `e` is 0. -/
def outermost_loop_end (l : List glsl_to_tgsi_instruction) (p e : Nat) : Prop :=
  p ≤ e ∧ l[e]?.map (fun inst => inst.op) = some TGSI_OPCODE_ENDLOOP
  ∧ loop_depth (l.take (e + 1)) = 0
  ∧ ∀ q, p ≤ q → q ≤ e → 0 < loop_depth (l.take q)

/-- The temporaries an instruction writes: the indices of its destinations in use
that lie in the temporary file. -/
def inst_temps_written (inst : glsl_to_tgsi_instruction) : List Int :=
  ((List.range (num_inst_dst_regs inst)).filterMap inst.dst).filterMap
    (fun r => if r.file = PROGRAM_TEMPORARY then some r.index else none)

/-- Position `p` holds the first instruction of `l` that has `a` among the
temporaries `S` gives for it. -/
def first_occurrence (S : glsl_to_tgsi_instruction → List Int)
    (l : List glsl_to_tgsi_instruction) (a : Int) (p : Nat) : Prop :=
  ∃ inst, l[p]? = some inst ∧ a ∈ S inst ∧ ∀ q i, q < p → l[q]? = some i → a ∉ S i

/-- Position `p` holds the last instruction of `l` that has `a` among the
temporaries `S` gives for it. -/
def last_occurrence (S : glsl_to_tgsi_instruction → List Int)
    (l : List glsl_to_tgsi_instruction) (a : Int) (p : Nat) : Prop :=
  ∃ inst, l[p]? = some inst ∧ a ∈ S inst ∧ ∀ q i, p < q → l[q]? = some i → a ∉ S i

/-- The entry the tables of first reads and first writes get for an access whose
instructions in front are `pre`: the position of the access outside loops, the
position of the `BGNLOOP` of the outermost loop inside one. -/
def recorded_first (pre : List glsl_to_tgsi_instruction) (v : Int) : Prop :=
  (loop_depth pre = 0 ∧ v = (pre.length : Int))
  ∨ (0 < loop_depth pre ∧ ∃ s : Nat, v = (s : Int) ∧ outermost_loop_start pre s)

/-- The entry the table of last reads gets for a read at position `p` of the
list `l`: the position of the read outside loops, the position of the `ENDLOOP`
that closes the outermost loop inside one. -/
def recorded_last (l : List glsl_to_tgsi_instruction) (p : Nat) (v : Int) : Prop :=
  (loop_depth (l.take p) = 0 ∧ v = (p : Int))
  ∨ (0 < loop_depth (l.take p) ∧ ∃ e : Nat, v = (e : Int) ∧ outermost_loop_end l p e)

/-- The loop state of the live-range scans behind the instructions `pre`: the
counter, the depth, and inside a loop the position of the outermost `BGNLOOP`. -/
def loop_tracker_at (pre : List glsl_to_tgsi_instruction) (t : loop_tracker) : Prop :=
  t.i = pre.length ∧ t.depth = loop_depth pre ∧ 0 ≤ t.depth
  ∧ (0 < t.depth → ∃ s : Nat, t.loop_start = (s : Int) ∧ outermost_loop_start pre s)

/-- The list `MOV TEMP[0], IN[0]; BGNLOOP; BGNLOOP; MOV TEMP[1], TEMP[0]; ENDLOOP;
MOV OUT[0], TEMP[1]; ENDLOOP; MOV OUT[1], TEMP[1]`: `TEMP[0]` is read and `TEMP[1]`
is written first inside the inner loop. -/
def example_nested_loops : List glsl_to_tgsi_instruction :=
  [example_inst TGSI_OPCODE_MOV (example_temp_dst 0) (example_input 0) undef_src 1,
   example_control TGSI_OPCODE_BGNLOOP,
   example_control TGSI_OPCODE_BGNLOOP,
   example_inst TGSI_OPCODE_MOV (example_temp_dst 1) (example_temp 0) undef_src 1,
   example_control TGSI_OPCODE_ENDLOOP,
   example_inst TGSI_OPCODE_MOV (example_output_dst 0) (example_temp 1) undef_src 1,
   example_control TGSI_OPCODE_ENDLOOP,
   example_inst TGSI_OPCODE_MOV (example_output_dst 1) (example_temp 1) undef_src 1]

/-- The effect on a table of the statements `if (C (table[a])) table[a] = value` for
the indices `a` in `S`, all of which lie inside the table: `table1` is `table`
with the entries of `S` that satisfy `C` set to `value`. -/
def table_update (C : Option Int → Prop) (value : Int) (S : Int → Prop)
    (table table1 : List Int) : Prop :=
  table1.length = table.length
  ∧ (∀ a, S a → ∃ x, arr_get table a = some x)
  ∧ (∀ a, S a → C (arr_get table a) → arr_get table1 a = some value)
  ∧ (∀ a, ¬ (S a ∧ C (arr_get table a)) → arr_get table1 a = arr_get table a)

/-- Invariant of a table of first accesses behind the instructions `pre`, for the
temporaries `S` gives per instruction: the entry of a temporary not accessed yet
is `-1`, and the entry of one accessed is a position, the one `recorded_first`
describes for its first access. -/
def first_table_inv (S : glsl_to_tgsi_instruction → List Int)
    (pre : List glsl_to_tgsi_instruction) (table : List Int) : Prop :=
  (∀ a, (∀ i ∈ pre, a ∉ S i) → ∀ x, arr_get table a = some x → x = -1)
  ∧ ∀ a p, first_occurrence S pre a p →
      ∃ v, arr_get table a = some v ∧ 0 ≤ v ∧ recorded_first (pre.take p) v

/-- Invariant of the table of last reads behind the instructions `pre`: `n`
entries; the entry of a temporary not read yet is `-1`; the entry of one whose
last read so far is at `p` is `p` outside loops, the position of the closing
`ENDLOOP` of the outermost loop around `p` once it is closed, and `-2` while
that loop is open. -/
def last_table_inv (n : Nat) (pre : List glsl_to_tgsi_instruction) (table : List Int) :
    Prop :=
  table.length = n
  ∧ (∀ a, (∀ i ∈ pre, a ∉ inst_temps_read i) → ∀ x, arr_get table a = some x → x = -1)
  ∧ ∀ a p, last_occurrence inst_temps_read pre a p →
      ∃ v, arr_get table a = some v
        ∧ ((loop_depth (pre.take p) = 0 ∧ v = (p : Int))
          ∨ (0 < loop_depth (pre.take p) ∧ ∃ e : Nat, v = (e : Int) ∧ outermost_loop_end pre p e)
          ∨ (0 < loop_depth (pre.take p) ∧ v = -2
              ∧ ∀ q, p ≤ q → q ≤ pre.length → 0 < loop_depth (pre.take q)))

/-- The instruction `inst1` is the instruction `inst` up to what the final loop of
`eliminate_dead_code` changes in an instruction it keeps: the dead mask and the
write-mask of the first destination. -/
def dce_narrowed (inst inst1 : glsl_to_tgsi_instruction) : Prop :=
  ∃ dead_mask writemask : Nat,
    inst1 = { inst with dead_mask := dead_mask,
                        dst0 := { inst.dst0 with writemask := writemask } }

/-- The opcodes that have a case of their own in the scan of
`eliminate_dead_code`: the loop and branch opcodes. -/
def dce_control_flow (op : tgsi_opcode) : Prop :=
  op = TGSI_OPCODE_BGNLOOP ∨ op = TGSI_OPCODE_ENDLOOP ∨ op = TGSI_OPCODE_CONT
    ∨ op = TGSI_OPCODE_BRK ∨ op = TGSI_OPCODE_ENDIF ∨ op = TGSI_OPCODE_ELSE
    ∨ op = TGSI_OPCODE_IF ∨ op = TGSI_OPCODE_UIF

/-- A straight-line instruction for `eliminate_dead_code`: no control-flow opcode,
no relative addressing on a source, on a texture offset in use or on the first
destination, an undefined second destination, and an empty dead mask. -/
def dce_straight_line (inst : glsl_to_tgsi_instruction) : Prop :=
  ¬ dce_control_flow inst.op ∧
  inst.src0.reladdr.isSet = false ∧ inst.src1.reladdr.isSet = false ∧
  inst.src2.reladdr.isSet = false ∧ inst.src3.reladdr.isSet = false ∧
  (∀ j off, j < inst.tex_offset_num_offset → inst.tex_offsets j = some off →
    off.reladdr.isSet = false) ∧
  inst.dst0.reladdr.isSet = false ∧
  inst.dst1.file = PROGRAM_UNDEFINED ∧
  inst.dead_mask = 0

/-- The operand `src` reads channel `c` of the temporary `index`: it lies in the
temporary file at that index and a component of its swizzle selects `c`. -/
def src_reads_chan (src : st_src_reg) (index : Int) (c : Nat) : Prop :=
  src.file = PROGRAM_TEMPORARY ∧ src.index = index ∧ ∃ i, i < 4 ∧ GET_SWZ src.swizzle i = c

/-- The instruction reads channel `c` of the temporary `index` through one of its
four source slots or a texture offset in use. -/
def inst_reads_chan (inst : glsl_to_tgsi_instruction) (index : Int) (c : Nat) : Prop :=
  src_reads_chan inst.src0 index c ∨ src_reads_chan inst.src1 index c
    ∨ src_reads_chan inst.src2 index c ∨ src_reads_chan inst.src3 index c
    ∨ ∃ j off, j < inst.tex_offset_num_offset ∧ inst.tex_offsets j = some off
        ∧ src_reads_chan off index c

/-- The first destination of the instruction is the temporary `index` and its
write-mask holds channel `c`. -/
def inst_writes_chan (inst : glsl_to_tgsi_instruction) (index : Int) (c : Nat) : Prop :=
  inst.dst0.file = PROGRAM_TEMPORARY ∧ inst.dst0.index = index
    ∧ inst.dst0.writemask.testBit c = true

/-- Channel `c` of the instruction at position `p` is dead in the list: the
instruction writes channel `c` of a temporary, and every later instruction that
reads this channel of this temporary comes after another instruction, later
than `p`, that writes it. -/
def dce_dead_channel (instructions : List glsl_to_tgsi_instruction) (p c : Nat) : Prop :=
  ∃ inst, instructions[p]? = some inst ∧ inst.dst0.file = PROGRAM_TEMPORARY
    ∧ inst.dst0.writemask.testBit c = true
    ∧ ∀ q inst_q, p < q → instructions[q]? = some inst_q →
        inst_reads_chan inst_q inst.dst0.index c →
        ∃ p1 inst1, p < p1 ∧ p1 < q ∧ instructions[p1]? = some inst1
          ∧ inst_writes_chan inst1 inst.dst0.index c

/-- The instruction at position `p` writes channel `c` of the temporary `r` and no
later instruction of the list reads it. -/
def dce_unread (instructions : List glsl_to_tgsi_instruction) (p : Nat) (r : Int)
    (c : Nat) : Prop :=
  ∃ inst, instructions[p]? = some inst ∧ inst_writes_chan inst r c
    ∧ ∀ q inst_q, p < q → instructions[q]? = some inst_q → ¬ inst_reads_chan inst_q r c

/-- The instruction at position `p` writes channel `c` of a temporary, a later
instruction at `p1` writes it again, and no instruction after `p` up to `p1`
reads it. -/
def dce_shadowed (instructions : List glsl_to_tgsi_instruction) (p c : Nat) : Prop :=
  c < 4 ∧ ∃ inst, instructions[p]? = some inst ∧ inst.dst0.file = PROGRAM_TEMPORARY
    ∧ inst.dst0.writemask.testBit c = true
    ∧ ∃ p1 inst1, p < p1 ∧ instructions[p1]? = some inst1
        ∧ inst_writes_chan inst1 inst.dst0.index c
        ∧ ∀ q inst_q, p < q → q ≤ p1 → instructions[q]? = some inst_q →
            ¬ inst_reads_chan inst_q inst.dst0.index c

/-- Invariant of the scan of `eliminate_dead_code` on straight-line code, after
the instructions `pre`: the level is 0, an entry of `writes` is the last write of
its channel and nothing has read the channel since, and a dead bit is set only
for a channel that was written again before it was read. -/
def dce_straight_inv (pre : List glsl_to_tgsi_instruction) (st : dce_state) : Prop :=
  st.level = 0 ∧ (∀ (k : Int) (lvl : Int), arr_get st.write_level k = some lvl → lvl = 0) ∧
  (∀ (r : Int) (c p : Nat), c < 4 → arr_get st.writes (4 * r + (c : Int)) = some (some p) →
    dce_unread pre p r c) ∧
  (∀ p m c : Nat, st.dead_masks[p]? = some m → m.testBit c = true → dce_shadowed pre p c)

/-- Invariant of the loop over the channels of the first destination of `inst`,
the instruction after `pre`, before channel `j`: as `dce_straight_inv` for the
list with `inst`, and `writes` holds `inst` only for channels below `j`. -/
def dce_straight_write_inv (pre : List glsl_to_tgsi_instruction)
    (inst : glsl_to_tgsi_instruction) (j : Nat) (st : dce_state) : Prop :=
  st.level = 0 ∧ (∀ (k : Int) (lvl : Int), arr_get st.write_level k = some lvl → lvl = 0) ∧
  (∀ (r : Int) (c p : Nat), c < 4 → arr_get st.writes (4 * r + (c : Int)) = some (some p) →
    dce_unread (pre ++ [inst]) p r c ∧ (p = pre.length → c < j)) ∧
  (∀ p m c : Nat, st.dead_masks[p]? = some m → m.testBit c = true →
    dce_shadowed (pre ++ [inst]) p c)

/-- The destination is the directly addressed temporary `index` and its
write-mask holds channel `c`. -/
def dst_writes_chan (dst : st_dst_reg) (index : Int) (c : Nat) : Prop :=
  dst.file = PROGRAM_TEMPORARY ∧ dst.reladdr.isSet = false ∧ dst.index = index
    ∧ dst.writemask.testBit c = true

/-- One of the two destinations of the instruction is the directly addressed
temporary `index` with channel `c` in its write-mask. -/
def inst_writes_either (inst : glsl_to_tgsi_instruction) (index : Int) (c : Nat) : Prop :=
  dst_writes_chan inst.dst0 index c ∨ dst_writes_chan inst.dst1 index c

/-- Channel `c` of a destination of the instruction at position `p` is dead in the
list: one of its two destinations is a directly addressed temporary with
channel `c` in its write-mask, and every later instruction that reads this
channel of this temporary comes after another instruction, later than `p`, that
writes it. -/
def dce_dead_destination (instructions : List glsl_to_tgsi_instruction) (p c : Nat) : Prop :=
  ∃ inst r, instructions[p]? = some inst ∧ inst_writes_either inst r c
    ∧ ∀ q inst_q, p < q → instructions[q]? = some inst_q → inst_reads_chan inst_q r c →
        ∃ p1 inst1, p < p1 ∧ p1 < q ∧ instructions[p1]? = some inst1
          ∧ inst_writes_either inst1 r c

/-- The instruction at position `p` writes channel `c` of the temporary `r` through
one of its destinations and no later instruction of the list reads it. -/
def dce_unread_either (instructions : List glsl_to_tgsi_instruction) (p : Nat) (r : Int)
    (c : Nat) : Prop :=
  ∃ inst, instructions[p]? = some inst ∧ inst_writes_either inst r c
    ∧ ∀ q inst_q, p < q → instructions[q]? = some inst_q → ¬ inst_reads_chan inst_q r c

/-- The instruction at position `p` writes channel `c` of a temporary through one
of its destinations, a later instruction at `p1` writes it again, and no
instruction after `p` up to `p1` reads it. -/
def dce_shadowed_either (instructions : List glsl_to_tgsi_instruction) (p c : Nat) : Prop :=
  c < 4 ∧ ∃ inst r, instructions[p]? = some inst ∧ inst_writes_either inst r c
    ∧ ∃ p1 inst1, p < p1 ∧ instructions[p1]? = some inst1 ∧ inst_writes_either inst1 r c
        ∧ ∀ q inst_q, p < q → q ≤ p1 → instructions[q]? = some inst_q →
            ¬ inst_reads_chan inst_q r c

/-- The instructions `eliminate_dead_code` is given: the dead mask is empty, at
most one of the two destinations is defined (every emission passes `undef_dst`
for one of them, `DFRACEXP` included, and `merge_two_dsts` runs after the
pass), and an `ELSE` or `ENDIF`, whose operands the scan does not look at,
reads no temporary. -/
def dce_input_ok (inst : glsl_to_tgsi_instruction) : Prop :=
  inst.dead_mask = 0
  ∧ (inst.dst0.file = PROGRAM_UNDEFINED ∨ inst.dst1.file = PROGRAM_UNDEFINED)
  ∧ (inst.op = TGSI_OPCODE_ENDIF ∨ inst.op = TGSI_OPCODE_ELSE →
      ∀ (r : Int) (c : Nat), ¬ inst_reads_chan inst r c)

/-- Invariant of the scan of `eliminate_dead_code` after the instructions `pre`: an
entry of `writes` is a write of its channel that nothing has read since, and a
dead bit is set only for a channel that was written again before it was read. -/
def dce_general_inv (pre : List glsl_to_tgsi_instruction) (st : dce_state) : Prop :=
  (∀ (r : Int) (c p : Nat), c < 4 → arr_get st.writes (4 * r + (c : Int)) = some (some p) →
    dce_unread_either pre p r c) ∧
  (∀ p m c : Nat, st.dead_masks[p]? = some m → m.testBit c = true →
    dce_shadowed_either pre p c)

/-- Invariant of the loop over the channels of a destination of `inst`, the
instruction after `pre`, before channel `j`: as `dce_general_inv` for the list
with `inst`, and `writes` holds `inst` only for channels below `j`. -/
def dce_general_write_inv (pre : List glsl_to_tgsi_instruction)
    (inst : glsl_to_tgsi_instruction) (j : Nat) (st : dce_state) : Prop :=
  (∀ (r : Int) (c p : Nat), c < 4 → arr_get st.writes (4 * r + (c : Int)) = some (some p) →
    dce_unread_either (pre ++ [inst]) p r c ∧ (p = pre.length → c < j)) ∧
  (∀ p m c : Nat, st.dead_masks[p]? = some m → m.testBit c = true →
    dce_shadowed_either (pre ++ [inst]) p c)


/-- The instruction that the double processing of `emit_asm` makes, for channel
`i`, of `DFRACEXP -, TEMP[0], IN[0]` (the exponent of a `dvec4` into an integer
temporary): the undefined first destination keeps bit `i` of its write-mask, the
second destination is channel `i` of the temporary, and the source is the pair
of channels of `IN[index]` named by `swizzle`. -/
def example_exponent (i : Nat) (index : Int) (swizzle : Nat) (double_reg2 : Bool) :
    glsl_to_tgsi_instruction :=
  example_dfracexp { undef_dst with writemask := undef_dst.writemask &&& (1 <<< i) }
    (st_dst_reg.ofIndex PROGRAM_TEMPORARY (1 <<< i) GLSL_TYPE_INT 0)
    (.mk PROGRAM_INPUT index 0 swizzle 0 GLSL_TYPE_DOUBLE .NULL .NULL false double_reg2 0)

/-- The four instructions `emit_asm` builds for the exponent of a `dvec4`, one per
channel. -/
def example_exponent_instructions : List glsl_to_tgsi_instruction :=
  [example_exponent 0 0 (MAKE_SWIZZLE4 SWIZZLE_X SWIZZLE_Y SWIZZLE_X SWIZZLE_Y) false,
   example_exponent 1 0 (MAKE_SWIZZLE4 SWIZZLE_Z SWIZZLE_W SWIZZLE_Z SWIZZLE_W) false,
   example_exponent 2 1 (MAKE_SWIZZLE4 SWIZZLE_X SWIZZLE_Y SWIZZLE_X SWIZZLE_Y) true,
   example_exponent 3 1 (MAKE_SWIZZLE4 SWIZZLE_Z SWIZZLE_W SWIZZLE_Z SWIZZLE_W) true]

/-- The exponent instructions followed by `MOV OUT[0], TEMP[0].xxxx`, which reads
the first exponent only. -/
def example_exponents : List glsl_to_tgsi_instruction :=
  example_exponent_instructions
    ++ [example_inst TGSI_OPCODE_MOV (example_output_dst 0)
      ((example_temp 0).set_swizzle SWIZZLE_XXXX) undef_src 1]

/-! ## `lower_buffer_access` -/

/-- Modelled from the spec: the layout methods of `glsl_type`
(`std140_base_alignment`, `std140_size`, `std430_base_alignment`, `std430_size`,
`std430_array_stride`) that `setup_buffer_access` calls; their bodies are not
part of the translated sources, so they are parameters. -/
structure glsl_type_layout where
  std140_base_alignment : glsl_type → Bool → Nat
  std140_size : glsl_type → Bool → Nat
  std430_base_alignment : glsl_type → Bool → Nat
  std430_size : glsl_type → Bool → Nat
  std430_array_stride : glsl_type → Bool → Nat

/-- Modelled from the spec: `glsl_align(a, align)` of `glsl_types.h`,
`(a + align - 1) / align * align` in `unsigned` arithmetic; the division by zero
is `none`. -/
def glsl_align (a align : Nat) : Option Nat :=
  if align = 0 then none
  else some ((a + align + 2 ^ 32 - 1) % 2 ^ 32 / align * align % 2 ^ 32)

mutual
/-- Modelled from the spec: `glsl_type::without_array`; an array type whose union
does not hold an element type is returned as it is. -/
def glsl_type.without_array : glsl_type → glsl_type
  | .mk base_type vector_elements matrix_columns length fields =>
    if base_type = GLSL_TYPE_ARRAY then
      match glsl_type_fields.without_array fields with
      | some t => t
      | none => .mk base_type vector_elements matrix_columns length fields
    else .mk base_type vector_elements matrix_columns length fields
/-- The element type of `fields.array` without its array levels. -/
def glsl_type_fields.without_array : glsl_type_fields → Option glsl_type
  | .array element => some (glsl_type.without_array element)
  | _ => none
end

/-- The first member named `name` among the first `n` members: its type, matrix
layout and offset. -/
def glsl_struct_fields.find (name : String) :
    glsl_struct_fields → Nat → Option (glsl_type × glsl_matrix_layout × Int)
  | _, 0 => none
  | .nil, _ + 1 => none
  | .cons field_name type matrix_layout offset rest, n + 1 =>
      if field_name = name then some (type, matrix_layout, offset)
      else glsl_struct_fields.find name rest n

/-- Modelled from the spec: `type->fields.structure[type->field_index(name)]` for a
struct or interface type; a negative `field_index` is `none`. -/
def glsl_type.field (t : glsl_type) (name : String) :
    Option (glsl_type × glsl_matrix_layout × Int) :=
  if t.is_record ∨ t.is_interface then
    match t.fields with
    | .structure members => members.find name t.length
    | _ => none
  else none

/-- The loop of `is_dereferenced_thing_row_major` from the node `ir` with the
current value of `matrix`; `deref_is_record` is
`deref->type->without_array()->is_record()` and `deref_var` is
`deref->variable_referenced()` for the dereference the function was called on.
The failed assertions are `none`. -/
def is_dereferenced_thing_row_major_from (deref_is_record : Bool)
    (deref_var : Option ir_variable) : ir_rvalue → Bool → Option Bool
  | .dereference_array _ type array _, matrix =>
      is_dereferenced_thing_row_major_from deref_is_record deref_var array
        (matrix || type.without_array.is_matrix)
  | .dereference_record _ type record field, matrix =>
      let matrix := matrix || type.without_array.is_matrix
      match record.type.field field with
      | none => none
      | some (_, GLSL_MATRIX_LAYOUT_INHERITED, _) =>
          is_dereferenced_thing_row_major_from deref_is_record deref_var record matrix
      | some (_, GLSL_MATRIX_LAYOUT_COLUMN_MAJOR, _) => some false
      | some (_, GLSL_MATRIX_LAYOUT_ROW_MAJOR, _) => some (matrix || deref_is_record)
  | .dereference_variable _ var, matrix =>
      let matrix := matrix || var.type.without_array.is_matrix
      match var.matrix_layout with
      | GLSL_MATRIX_LAYOUT_INHERITED =>
          match deref_var with
          | none => none
          | some v =>
            if (v.is_in_buffer_block && !matrix) || decide (v.mode = ir_var_shader_shared)
            then some false else none
      | GLSL_MATRIX_LAYOUT_COLUMN_MAJOR => some false
      | GLSL_MATRIX_LAYOUT_ROW_MAJOR => some (matrix || deref_is_record)
  | _, _ => some false

/-- Method `lower_buffer_access::is_dereferenced_thing_row_major`. -/
def is_dereferenced_thing_row_major (deref : ir_rvalue) : Option Bool :=
  is_dereferenced_thing_row_major_from deref.type.without_array.is_record
    deref.variable_referenced deref false

/-- One term `mul(array_index, ir_constant(array_stride))` that
`setup_buffer_access` adds to `*offset`: the index expression, whether it was
wrapped in `i2u`, and the stride. -/
structure buffer_offset_term where
  array_index : ir_rvalue
  converted : Bool
  array_stride : Nat
  deriving DecidableEq

/-- The out-parameters of `setup_buffer_access`: `*offset` as the list of terms
added to `ir_constant(0u)` (in the order they are added), `*const_offset`,
`*row_major`, `*matrix_columns` and `*struct_field` (the struct type and the
position of the field it points to). -/
structure buffer_access where
  offset : List buffer_offset_term
  const_offset : Nat
  row_major : Bool
  matrix_columns : Nat
  struct_field : Option (glsl_type × Nat)
  deriving DecidableEq

/-- The loop over the members of the struct in the `ir_type_dereference_record`
case of `setup_buffer_access`, from member `i` on with the current
`intra_struct_offset`: the final `intra_struct_offset` and the position of the
member found (if the loop reached it).  The temporary `field_deref` is built
with address 0. -/
def intra_struct_offset_from (layout : glsl_type_layout) (packing : glsl_interface_packing)
    (record : ir_rvalue) (field : String) :
    glsl_struct_fields → Nat → Nat → Nat → Option (Nat × Option Nat)
  | _, 0, _, intra => some (intra, none)
  | .nil, _ + 1, _, _ => none
  | .cons name type _ offset rest, n + 1, i, intra =>
      match is_dereferenced_thing_row_major (.dereference_record 0 type record name) with
      | none => none
      | some field_row_major =>
        let field_align :=
          if packing = GLSL_INTERFACE_PACKING_STD430 then
            layout.std430_base_alignment type field_row_major
          else layout.std140_base_alignment type field_row_major
        let intra := if offset ≠ -1 then (offset % 2 ^ 32).toNat else intra
        match glsl_align intra field_align with
        | none => none
        | some intra =>
          if name = field then some (intra, some i)
          else
            let size :=
              if packing = GLSL_INTERFACE_PACKING_STD430 then
                layout.std430_size type field_row_major
              else layout.std140_size type field_row_major
            let intra := (intra + size) % 2 ^ 32
            let padded : Option Nat :=
              if type.without_array.is_record then glsl_align intra field_align
              else some intra
            match padded with
            | none => none
            | some intra =>
              intra_struct_offset_from layout packing record field rest n (i + 1) intra

/-- The loop `while (deref)` of `setup_buffer_access` from a non-null `deref`.
`constant_index` stands for `constant_expression_value` on the (possibly
converted) array index: the component `value.u[0]` of the constant, or `none`.
The failed assertions are `none`. -/
def setup_buffer_access_from (layout : glsl_type_layout)
    (constant_index : ir_rvalue → Option Nat) (packing : glsl_interface_packing)
    (want_struct_field : Bool) : ir_rvalue → buffer_access → Option buffer_access
  | .dereference_variable _ _, st => some st
  | .dereference_array id type array array_index, st =>
      let continue_with (st : buffer_access) : Option buffer_access :=
        if array.is_dereference then
          setup_buffer_access_from layout constant_index packing want_struct_field array st
        else some st
      let indexed (array_stride : Nat) (st : buffer_access) : Option buffer_access :=
        let converted : Bool := array_index.type.base_type = GLSL_TYPE_INT
        match constant_index array_index with
        | some u =>
            continue_with { st with
              const_offset := (st.const_offset + array_stride * u % 2 ^ 32) % 2 ^ 32 }
        | none =>
            continue_with { st with
              offset := st.offset ++ [⟨array_index, converted, array_stride⟩] }
      if array.type.is_vector then
        indexed (if array.type.is_64bit then 8 else 4) st
      else if array.type.is_matrix && st.row_major then
        indexed (if array.type.is_64bit then 8 else 4)
          { st with matrix_columns := array.type.matrix_columns }
      else if type.without_array.is_interface then continue_with st
      else
        match is_dereferenced_thing_row_major
            (.dereference_array id type array array_index) with
        | none => none
        | some array_row_major =>
          if packing = GLSL_INTERFACE_PACKING_STD430 then
            indexed (layout.std430_array_stride type array_row_major) st
          else
            match glsl_align (layout.std140_size type array_row_major) 16 with
            | none => none
            | some array_stride => indexed array_stride st
  | .dereference_record _ _ record field, st =>
      let struct_type := record.type
      let members : Option glsl_struct_fields :=
        if struct_type.length = 0 then some .nil
        else
          match struct_type.fields with
          | .structure members => some members
          | _ => none
      match members with
      | none => none
      | some members =>
        match intra_struct_offset_from layout packing record field members struct_type.length
            0 0 with
        | none => none
        | some (intra_struct_offset, found) =>
          let st := { st with
            const_offset := (st.const_offset + intra_struct_offset) % 2 ^ 32,
            struct_field :=
              match found with
              | some i => if want_struct_field then some (struct_type, i) else st.struct_field
              | none => st.struct_field }
          if record.is_dereference then
            setup_buffer_access_from layout constant_index packing want_struct_field record st
          else some st
  | .swizzle _ _ val mask, st =>
      if mask.num_components ≠ 1 then none
      else
        let st := { st with const_offset := (st.const_offset + mask.x * 4 % 2 ^ 32) % 2 ^ 32 }
        if val.is_dereference then
          setup_buffer_access_from layout constant_index packing want_struct_field val st
        else some st
  | _, _ => none

/-- Method `lower_buffer_access::setup_buffer_access`: `const_offset` and
`struct_field` are the values the caller initialised the out-parameters with,
`want_struct_field` says whether the pointer `struct_field` is non-null. -/
def setup_buffer_access (layout : glsl_type_layout)
    (constant_index : ir_rvalue → Option Nat) (deref : ir_rvalue) (const_offset : Nat)
    (struct_field : Option (glsl_type × Nat)) (want_struct_field : Bool)
    (packing : glsl_interface_packing) : Option buffer_access :=
  match is_dereferenced_thing_row_major deref with
  | none => none
  | some row_major =>
    setup_buffer_access_from layout constant_index packing want_struct_field deref
      ⟨[], const_offset, row_major, 1, struct_field⟩

/-- Modelled from the spec: the std140 base alignment of a scalar or vector (`N`,
`2N` or `4N` with `N` the size of a component); every other type counts 16. -/
def example_alignment (t : glsl_type) : Nat :=
  if t.is_scalar then (if t.is_64bit then 8 else 4)
  else if t.is_vector then
    (if t.vector_elements = 2 then 2 else 4) * (if t.is_64bit then 8 else 4)
  else 16

/-- Modelled from the spec: the std140 size of a scalar or vector
(`components * N`); every other type counts 16. -/
def example_basic_size (t : glsl_type) : Nat :=
  if t.is_scalar || t.is_vector then t.vector_elements * (if t.is_64bit then 8 else 4)
  else 16

/-- Modelled from the spec: the std140 size of the members of a struct of scalars
and vectors, each placed at its alignment. -/
def example_members_size : glsl_struct_fields → Nat → Nat
  | .nil, size => size
  | .cons _ type _ _ rest, size =>
      example_members_size rest
        ((size + example_alignment type - 1) / example_alignment type * example_alignment type
          + example_basic_size type)

/-- Modelled from the spec: the std140 size of a scalar, a vector or a struct of
them (rounded up to 16). -/
def example_size (t : glsl_type) : Nat :=
  if t.is_record then
    match t.fields with
    | .structure members => (example_members_size members 0 + 15) / 16 * 16
    | _ => 16
  else example_basic_size t

/-- The layout of the examples: the std140 values above, whatever the
majorness; the std430 members repeat them. -/
def example_layout : glsl_type_layout :=
  { std140_base_alignment := fun t _ => example_alignment t,
    std140_size := fun t _ => example_size t,
    std430_base_alignment := fun t _ => example_alignment t,
    std430_size := fun t _ => example_size t,
    std430_array_stride := fun t _ => example_size t }

/-- The struct type `struct S { vec3 a; float b; }`. -/
def example_struct_type : glsl_type :=
  .mk GLSL_TYPE_STRUCT 0 0 2
    (.structure (.cons "a" glsl_type.vec3_type GLSL_MATRIX_LAYOUT_INHERITED (-1)
      (.cons "b" glsl_type.float_type GLSL_MATRIX_LAYOUT_INHERITED (-1) .nil)))

/-- A member `s` of type `S` of a uniform block. -/
def example_block_struct : ir_variable :=
  ⟨21, "s", example_struct_type, ir_var_uniform, 0, 0, false, GLSL_MATRIX_LAYOUT_INHERITED,
    true⟩

/-- A member `t` of type `S[4]` of a uniform block. -/
def example_block_array : ir_variable :=
  ⟨22, "t", glsl_type.get_array_instance example_struct_type 4, ir_var_uniform, 0, 0, false,
    GLSL_MATRIX_LAYOUT_INHERITED, true⟩

/-- The constant `3u`. -/
def example_index : ir_rvalue := .constant 23 glsl_type.uint_type [3]

/-- The folding of index expressions used by the examples: an `ir_constant` is
its first component, nothing else is constant. -/
def example_constant_index : ir_rvalue → Option Nat
  | .constant _ _ (u :: _) => some u
  | _ => none

/-- The matrix-layout annotations met on the way from a dereference outward to
its root: one for every struct field selected and, last, the one of the root
variable; `none` if a selected field does not exist in the struct type. -/
def dereference_layouts : ir_rvalue → Option (List glsl_matrix_layout)
  | .dereference_array _ _ array _ => dereference_layouts array
  | .dereference_record _ _ record field =>
      match record.type.field field, dereference_layouts record with
      | some (_, layout, _), some rest => some (layout :: rest)
      | _, _ => none
  | .dereference_variable _ var => some [var.matrix_layout]
  | _ => some []

/-- Whether a node on the way from a dereference outward to its root has a
matrix type (arrays looked through). -/
def dereference_has_matrix : ir_rvalue → Bool
  | .dereference_array _ type array _ =>
      type.without_array.is_matrix || dereference_has_matrix array
  | .dereference_record _ type record _ =>
      type.without_array.is_matrix || dereference_has_matrix record
  | .dereference_variable _ var => var.type.without_array.is_matrix
  | _ => false

/-- The struct type `struct M { vec3 a; layout(row_major) mat4 m; }`. -/
def example_matrix_struct_type : glsl_type :=
  .mk GLSL_TYPE_STRUCT 0 0 2
    (.structure (.cons "a" glsl_type.vec3_type GLSL_MATRIX_LAYOUT_INHERITED (-1)
      (.cons "m" (glsl_type.get_instance GLSL_TYPE_FLOAT 4 4) GLSL_MATRIX_LAYOUT_ROW_MAJOR (-1)
        .nil)))

/-- A member `u` of type `M[4]` of a uniform block, annotated column-major. -/
def example_matrix_block_array : ir_variable :=
  ⟨31, "u", glsl_type.get_array_instance example_matrix_struct_type 4, ir_var_uniform, 0, 0,
    false, GLSL_MATRIX_LAYOUT_COLUMN_MAJOR, true⟩

/-- The struct type `struct N { layout(column_major) mat4 m; }`. -/
def example_column_struct_type : glsl_type :=
  .mk GLSL_TYPE_STRUCT 0 0 1
    (.structure (.cons "m" (glsl_type.get_instance GLSL_TYPE_FLOAT 4 4)
      GLSL_MATRIX_LAYOUT_COLUMN_MAJOR (-1) .nil))

/-- A member `w` of type `N` of a uniform block, annotated row-major. -/
def example_column_block_struct : ir_variable :=
  ⟨36, "w", example_column_struct_type, ir_var_uniform, 0, 0, false,
    GLSL_MATRIX_LAYOUT_ROW_MAJOR, true⟩

/-- The dereference `w.m`. -/
def example_column_deref : ir_rvalue :=
  .dereference_record 38 (glsl_type.get_instance GLSL_TYPE_FLOAT 4 4)
    (.dereference_variable 37 example_column_block_struct) "m"

/-- A dereference path with another index at its interface-instance steps: every
array step that indexes something that is neither a vector nor a matrix and
whose element is (an array of) interface blocks gets `index` as its array index;
everything else, the addresses of the nodes included, is kept. -/
def with_instance_index (index : ir_rvalue) : ir_rvalue → ir_rvalue
  | .dereference_array id type array array_index =>
      .dereference_array id type (with_instance_index index array)
        (if !array.type.is_vector && !array.type.is_matrix
            && type.without_array.is_interface then index
         else array_index)
  | .dereference_record id type record field =>
      .dereference_record id type (with_instance_index index record) field
  | .swizzle id type val mask => .swizzle id type (with_instance_index index val) mask
  | r => r

/-- The interface block type `B { vec3 a; float b; }`. -/
def example_interface_type : glsl_type :=
  .mk GLSL_TYPE_INTERFACE 0 0 2
    (.structure (.cons "a" glsl_type.vec3_type GLSL_MATRIX_LAYOUT_INHERITED (-1)
      (.cons "b" glsl_type.float_type GLSL_MATRIX_LAYOUT_INHERITED (-1) .nil)))

/-- The instance array `blocks[4]` of the uniform block `B`. -/
def example_instances : ir_variable :=
  ⟨24, "blocks", glsl_type.get_array_instance example_interface_type 4, ir_var_uniform, 0, 0,
    false, GLSL_MATRIX_LAYOUT_INHERITED, true⟩

/-- The dereference `blocks[index].b`. -/
def example_instance_member (index : ir_rvalue) : ir_rvalue :=
  .dereference_record 33 glsl_type.float_type
    (.dereference_array 32 example_interface_type
      (.dereference_variable 31 example_instances) index) "b"

/-- A non-constant index: the dereference of an `int` variable `i`. -/
def example_runtime_index : ir_rvalue :=
  .dereference_variable 34
    ⟨25, "i", glsl_type.int_type, ir_var_auto, 0, 0, false, GLSL_MATRIX_LAYOUT_INHERITED,
      false⟩

/-- The base types a register element can have (float, int, uint, bool, double). -/
def is_element_type (t : glsl_base_type) : Prop :=
  t = GLSL_TYPE_FLOAT ∨ t = GLSL_TYPE_INT ∨ t = GLSL_TYPE_UINT ∨ t = GLSL_TYPE_BOOL
    ∨ t = GLSL_TYPE_DOUBLE

instance (t : glsl_base_type) : Decidable (is_element_type t) := by
  unfold is_element_type; infer_instance

/-- The float, int, uint and double variants (in this order) of the sixteen
opcodes that have all of them, as the opcode-selection rule lists them. -/
def spec_opcode_variants :
    tgsi_opcode → Option (tgsi_opcode × tgsi_opcode × tgsi_opcode × tgsi_opcode)
  | TGSI_OPCODE_ADD => some (TGSI_OPCODE_ADD, TGSI_OPCODE_UADD, TGSI_OPCODE_UADD, TGSI_OPCODE_DADD)
  | TGSI_OPCODE_MUL => some (TGSI_OPCODE_MUL, TGSI_OPCODE_UMUL, TGSI_OPCODE_UMUL, TGSI_OPCODE_DMUL)
  | TGSI_OPCODE_MAD => some (TGSI_OPCODE_MAD, TGSI_OPCODE_UMAD, TGSI_OPCODE_UMAD, TGSI_OPCODE_DMAD)
  | TGSI_OPCODE_FMA => some (TGSI_OPCODE_FMA, TGSI_OPCODE_UMAD, TGSI_OPCODE_UMAD, TGSI_OPCODE_DFMA)
  | TGSI_OPCODE_MAX => some (TGSI_OPCODE_MAX, TGSI_OPCODE_IMAX, TGSI_OPCODE_UMAX, TGSI_OPCODE_DMAX)
  | TGSI_OPCODE_MIN => some (TGSI_OPCODE_MIN, TGSI_OPCODE_IMIN, TGSI_OPCODE_UMIN, TGSI_OPCODE_DMIN)
  | TGSI_OPCODE_SSG => some (TGSI_OPCODE_SSG, TGSI_OPCODE_ISSG, TGSI_OPCODE_ISSG, TGSI_OPCODE_DSSG)
  | TGSI_OPCODE_ABS => some (TGSI_OPCODE_ABS, TGSI_OPCODE_IABS, TGSI_OPCODE_IABS, TGSI_OPCODE_DABS)
  | TGSI_OPCODE_SQRT =>
      some (TGSI_OPCODE_SQRT, TGSI_OPCODE_SQRT, TGSI_OPCODE_SQRT, TGSI_OPCODE_DSQRT)
  | TGSI_OPCODE_RCP => some (TGSI_OPCODE_RCP, TGSI_OPCODE_RCP, TGSI_OPCODE_RCP, TGSI_OPCODE_DRCP)
  | TGSI_OPCODE_RSQ => some (TGSI_OPCODE_RSQ, TGSI_OPCODE_RSQ, TGSI_OPCODE_RSQ, TGSI_OPCODE_DRSQ)
  | TGSI_OPCODE_FRC => some (TGSI_OPCODE_FRC, TGSI_OPCODE_FRC, TGSI_OPCODE_FRC, TGSI_OPCODE_DFRAC)
  | TGSI_OPCODE_TRUNC =>
      some (TGSI_OPCODE_TRUNC, TGSI_OPCODE_TRUNC, TGSI_OPCODE_TRUNC, TGSI_OPCODE_DTRUNC)
  | TGSI_OPCODE_CEIL =>
      some (TGSI_OPCODE_CEIL, TGSI_OPCODE_CEIL, TGSI_OPCODE_CEIL, TGSI_OPCODE_DCEIL)
  | TGSI_OPCODE_FLR => some (TGSI_OPCODE_FLR, TGSI_OPCODE_FLR, TGSI_OPCODE_FLR, TGSI_OPCODE_DFLR)
  | TGSI_OPCODE_ROUND =>
      some (TGSI_OPCODE_ROUND, TGSI_OPCODE_ROUND, TGSI_OPCODE_ROUND, TGSI_OPCODE_DROUND)
  | _ => none

/-- The four comparison opcodes with their dedicated float comparison. -/
def spec_float_comparison : tgsi_opcode → Option tgsi_opcode
  | TGSI_OPCODE_SEQ => some TGSI_OPCODE_FSEQ
  | TGSI_OPCODE_SNE => some TGSI_OPCODE_FSNE
  | TGSI_OPCODE_SGE => some TGSI_OPCODE_FSGE
  | TGSI_OPCODE_SLT => some TGSI_OPCODE_FSLT
  | _ => none

/-! # Theorems -/

/-- The switch of `get_opcode` on an opcode with four variants is `case5`
on these variants, and none of them is `TGSI_OPCODE_LAST`. -/
theorem get_opcode_switch_variants (native_integers : Bool) (type : glsl_base_type)
    (op f i u d : tgsi_opcode) (hv : spec_opcode_variants op = some (f, i, u, d)) :
    get_opcode_switch native_integers type op = case5 type f i u d
      ∧ op ≠ TGSI_OPCODE_MOV ∧ f ≠ TGSI_OPCODE_LAST ∧ i ≠ TGSI_OPCODE_LAST
      ∧ u ≠ TGSI_OPCODE_LAST ∧ d ≠ TGSI_OPCODE_LAST := by
  cases op <;> simp only [spec_opcode_variants, reduceCtorEq, Option.some.injEq,
    Prod.mk.injEq] at hv
  all_goals
    obtain ⟨rfl, rfl, rfl, rfl⟩ := hv
    simp [get_opcode_switch, case3fid, case4d]

/-- C1: for each of the sixteen opcodes with float/int/uint/double variants and
every pair of operand element types (the second operand may also be the
undefined operand of a unary operation), `get_opcode` selects the double variant
if either operand is double, otherwise the float variant if either is float,
otherwise with native integers the integer variant of the first operand's type
(bool counted as int) and without them the float variant; and for every opcode
the result is the same for any destination and any operands of the same two
types. -/
theorem get_opcode_priority (native_integers : Bool) (op f i u d : tgsi_opcode)
    (dst : st_dst_reg) (src0 src1 : st_src_reg)
    (hv : spec_opcode_variants op = some (f, i, u, d))
    (h0 : is_element_type src0.type)
    (h1 : src1.type ≠ GLSL_TYPE_ARRAY ∧ src1.type ≠ GLSL_TYPE_STRUCT) :
    get_opcode native_integers op dst src0 src1 =
        some (if src0.type = GLSL_TYPE_DOUBLE ∨ src1.type = GLSL_TYPE_DOUBLE then d
          else if src0.type = GLSL_TYPE_FLOAT ∨ src1.type = GLSL_TYPE_FLOAT then f
          else if native_integers = true then
            (if src0.type = GLSL_TYPE_UINT then u else i)
          else f)
      ∧ ∀ (op' : tgsi_opcode) (dst' dst'' : st_dst_reg) (a a' b b' : st_src_reg),
          a.type = a'.type → b.type = b'.type →
          get_opcode native_integers op' dst' a b = get_opcode native_integers op' dst'' a' b' := by
  refine ⟨?_, ?_⟩
  · obtain ⟨h1a, h1s⟩ := h1
    obtain ⟨hsw, hmov, hf, hi, hu, hd⟩ :=
      get_opcode_switch_variants native_integers
        (get_opcode_type native_integers src0 src1) op f i u d hv
    unfold get_opcode
    rw [hsw]
    unfold get_opcode_type case5
    generalize src0.type = t0 at *
    generalize src1.type = t1 at *
    unfold is_element_type at h0
    rcases h0 with rfl | rfl | rfl | rfl | rfl <;> cases t1 <;> cases native_integers <;>
      simp_all
  · intro op' dst' dst'' a a' b b' ha hb
    unfold get_opcode get_opcode_type
    rw [ha, hb]

theorem get_opcode_priority_witness :
    spec_opcode_variants TGSI_OPCODE_MAX
        = some (TGSI_OPCODE_MAX, TGSI_OPCODE_IMAX, TGSI_OPCODE_UMAX, TGSI_OPCODE_DMAX)
      ∧ get_opcode true TGSI_OPCODE_MAX undef_dst
          (st_src_reg.ofType PROGRAM_TEMPORARY 1 GLSL_TYPE_UINT)
          (st_src_reg.ofType PROGRAM_TEMPORARY 2 GLSL_TYPE_INT) = some TGSI_OPCODE_UMAX :=
  ⟨by decide, (get_opcode_priority true TGSI_OPCODE_MAX TGSI_OPCODE_MAX TGSI_OPCODE_IMAX
      TGSI_OPCODE_UMAX TGSI_OPCODE_DMAX undef_dst
      (st_src_reg.ofType PROGRAM_TEMPORARY 1 GLSL_TYPE_UINT)
      (st_src_reg.ofType PROGRAM_TEMPORARY 2 GLSL_TYPE_INT)
      (by decide) (by decide) (by decide)).1⟩

/-- C2: for the comparison opcodes SEQ, SNE, SGE and SLT and operands that pass
the type assertions of `get_opcode` (neither is an array or a struct): without
native integers and with neither operand double the opcode is returned
unchanged; with native integers and an operand float (none double) the result
is the dedicated float comparison FSEQ, FSNE, FSGE or FSLT. -/
theorem get_opcode_comparison (op fop : tgsi_opcode) (dst : st_dst_reg)
    (src0 src1 : st_src_reg)
    (hc : spec_float_comparison op = some fop)
    (h0 : src0.type ≠ GLSL_TYPE_ARRAY ∧ src0.type ≠ GLSL_TYPE_STRUCT)
    (h1 : src1.type ≠ GLSL_TYPE_ARRAY ∧ src1.type ≠ GLSL_TYPE_STRUCT)
    (hd : src0.type ≠ GLSL_TYPE_DOUBLE ∧ src1.type ≠ GLSL_TYPE_DOUBLE) :
    get_opcode false op dst src0 src1 = some op
      ∧ (src0.type = GLSL_TYPE_FLOAT ∨ src1.type = GLSL_TYPE_FLOAT →
          get_opcode true op dst src0 src1 = some fop) := by
  obtain ⟨h0a, h0s⟩ := h0
  obtain ⟨h1a, h1s⟩ := h1
  obtain ⟨hd0, hd1⟩ := hd
  unfold get_opcode get_opcode_type
  generalize src0.type = t0 at *
  generalize src1.type = t1 at *
  cases op <;> simp only [spec_float_comparison, reduceCtorEq, Option.some.injEq] at hc
  all_goals
    subst hc
    cases t0 <;> cases t1 <;>
      first
        | exact absurd rfl h0a
        | exact absurd rfl h0s
        | exact absurd rfl h1a
        | exact absurd rfl h1s
        | exact absurd rfl hd0
        | exact absurd rfl hd1
        | decide

theorem get_opcode_comparison_witness :
    get_opcode false TGSI_OPCODE_SGE undef_dst
        (st_src_reg.ofType PROGRAM_TEMPORARY 1 GLSL_TYPE_INT)
        (st_src_reg.ofType PROGRAM_INPUT 0 GLSL_TYPE_FLOAT) = some TGSI_OPCODE_SGE
      ∧ get_opcode true TGSI_OPCODE_SGE undef_dst
        (st_src_reg.ofType PROGRAM_TEMPORARY 1 GLSL_TYPE_INT)
        (st_src_reg.ofType PROGRAM_INPUT 0 GLSL_TYPE_FLOAT) = some TGSI_OPCODE_FSGE :=
  ⟨(get_opcode_comparison TGSI_OPCODE_SGE TGSI_OPCODE_FSGE undef_dst
      (st_src_reg.ofType PROGRAM_TEMPORARY 1 GLSL_TYPE_INT)
      (st_src_reg.ofType PROGRAM_INPUT 0 GLSL_TYPE_FLOAT)
      (by decide) (by decide) (by decide) (by decide)).1,
   (get_opcode_comparison TGSI_OPCODE_SGE TGSI_OPCODE_FSGE undef_dst
      (st_src_reg.ofType PROGRAM_TEMPORARY 1 GLSL_TYPE_INT)
      (st_src_reg.ofType PROGRAM_INPUT 0 GLSL_TYPE_FLOAT)
      (by decide) (by decide) (by decide) (by decide)).2 (Or.inr (by decide))⟩

/-! ## Facts about `emit_asm` -/

/-- A register without relative addressing has pointer depth 0. -/
theorem reladdr_depth_of_null (r : st_src_reg) (h1 : r.reladdr = .NULL)
    (h2 : r.reladdr2 = .NULL) : r.reladdr_depth = 0 := by
  cases r
  simp only [st_src_reg.reladdr, st_src_reg.reladdr2] at h1 h2
  subst h1 h2
  simp [st_src_reg.reladdr_depth, st_src_reg_ptr.reladdr_depth]

/-- `reladdr_to_temp` leaves a register without relative addressing alone. -/
theorem reladdr_to_temp_of_null (emit : emit_asm_fn) (ir : Option Nat) (r : st_src_reg)
    (n : Int) (v : glsl_to_tgsi_visitor) (h1 : r.reladdr = .NULL) (h2 : r.reladdr2 = .NULL) :
    reladdr_to_temp_with emit ir r n v = some (r, n, v) := by
  simp [reladdr_to_temp_with, h1, h2, st_src_reg_ptr.isSet]

/-- Without relative addressing in any operand, `emit_asm` resolves the opcode,
pushes the new instruction and runs the double processing; nothing else of the
visitor changes. -/
theorem emit_asm_no_reladdr (info : tgsi_opcode → tgsi_opcode_info) (ir : Option Nat)
    (op : tgsi_opcode) (dst dst1 : st_dst_reg) (src0 src1 src2 src3 : st_src_reg)
    (v : glsl_to_tgsi_visitor)
    (hd : dst.reladdr = .NULL ∧ dst.reladdr2 = .NULL)
    (hd1 : dst1.reladdr = .NULL ∧ dst1.reladdr2 = .NULL)
    (h0 : src0.reladdr = .NULL ∧ src0.reladdr2 = .NULL)
    (h1 : src1.reladdr = .NULL ∧ src1.reladdr2 = .NULL)
    (h2 : src2.reladdr = .NULL ∧ src2.reladdr2 = .NULL)
    (h3 : src3.reladdr = .NULL ∧ src3.reladdr2 = .NULL) :
    emit_asm info ir op dst dst1 src0 src1 src2 src3 v =
      (get_opcode v.native_integers op dst src0 src1).map (fun op1 =>
        let r := emit_asm_double op1 v.instructions
          (new_instruction info ir op1 dst dst1 src0 src1 src2 src3)
        ({ v with instructions := r.1 }, r.2)) := by
  unfold emit_asm
  rw [reladdr_depth_of_null src0 h0.1 h0.2, reladdr_depth_of_null src1 h1.1 h1.2,
    reladdr_depth_of_null src2 h2.1 h2.2, reladdr_depth_of_null src3 h3.1 h3.2]
  simp only [hd.1, hd.2, hd1.1, hd1.2, st_src_reg_ptr.reladdr_depth, Nat.max_self,
    Nat.mul_zero, Nat.zero_add, emit_asm_fuel, emit_asm_body]
  cases hop : get_opcode v.native_integers op dst src0 src1 with
  | none => simp
  | some op1 =>
    simp only [Option.map_some']
    rw [reladdr_to_temp_of_null _ _ src3 _ _ h3.1 h3.2]
    simp only []
    rw [reladdr_to_temp_of_null _ _ src2 _ _ h2.1 h2.2]
    simp only []
    rw [reladdr_to_temp_of_null _ _ src1 _ _ h1.1 h1.2]
    simp only []
    rw [reladdr_to_temp_of_null _ _ src0 _ _ h0.1 h0.2]
    simp [st_src_reg_ptr.isSet, bool_to_int, emit_asm_indirect, new_instruction, h0.1, h1.1,
      h2.1, h3.1, h0.2, h1.2, h2.2, h3.2, hd.1, hd.2, hd1.1, hd1.2, emit_arl_ptr]

/-- The channels scanned for the logical write-mask XY are 0 and 1. -/
theorem bit_scan_list_xy : bit_scan_list WRITEMASK_XY = [0, 1] := by decide

/-- C4 (as stated, refuted): emitting a double-precision addition into a dvec2
destination (logical write-mask XY) of temporary 1 produces two instructions on
that register, and the second one has destination write-mask ZW. -/
theorem emit_asm_dvec2_counterexample :
    (emit_asm1 (fun _ => ⟨1, 2, false, false⟩) none TGSI_OPCODE_ADD
        (st_dst_reg.ofIndex PROGRAM_TEMPORARY WRITEMASK_XY GLSL_TYPE_DOUBLE 1)
        (st_src_reg.ofType PROGRAM_TEMPORARY 2 GLSL_TYPE_DOUBLE)
        (st_src_reg.ofType PROGRAM_TEMPORARY 3 GLSL_TYPE_DOUBLE) undef_src undef_src
        (glsl_to_tgsi_visitor.init GL_VERTEX_PROGRAM_ARB MESA_SHADER_VERTEX false true)).map
      (fun r => r.1.instructions.map (fun inst => (inst.dst0.index, inst.dst0.writemask)))
      = some [(1, WRITEMASK_XY), (1, WRITEMASK_ZW)] := by
  decide

/-! ## Projections of rewritten registers -/

@[simp]
theorem st_src_reg.file_set_file (r : st_src_reg) (x : gl_register_file) :
    (r.set_file x).file = x := by
  cases r; rfl

@[simp]
theorem st_src_reg.index_set_file (r : st_src_reg) (x : gl_register_file) :
    (r.set_file x).index = r.index := by
  cases r; rfl

@[simp]
theorem st_src_reg.index2D_set_file (r : st_src_reg) (x : gl_register_file) :
    (r.set_file x).index2D = r.index2D := by
  cases r; rfl

@[simp]
theorem st_src_reg.swizzle_set_file (r : st_src_reg) (x : gl_register_file) :
    (r.set_file x).swizzle = r.swizzle := by
  cases r; rfl

@[simp]
theorem st_src_reg.negate_set_file (r : st_src_reg) (x : gl_register_file) :
    (r.set_file x).negate = r.negate := by
  cases r; rfl

@[simp]
theorem st_src_reg.type_set_file (r : st_src_reg) (x : gl_register_file) :
    (r.set_file x).type = r.type := by
  cases r; rfl

@[simp]
theorem st_src_reg.reladdr_set_file (r : st_src_reg) (x : gl_register_file) :
    (r.set_file x).reladdr = r.reladdr := by
  cases r; rfl

@[simp]
theorem st_src_reg.reladdr2_set_file (r : st_src_reg) (x : gl_register_file) :
    (r.set_file x).reladdr2 = r.reladdr2 := by
  cases r; rfl

@[simp]
theorem st_src_reg.has_index2_set_file (r : st_src_reg) (x : gl_register_file) :
    (r.set_file x).has_index2 = r.has_index2 := by
  cases r; rfl

@[simp]
theorem st_src_reg.double_reg2_set_file (r : st_src_reg) (x : gl_register_file) :
    (r.set_file x).double_reg2 = r.double_reg2 := by
  cases r; rfl

@[simp]
theorem st_src_reg.array_id_set_file (r : st_src_reg) (x : gl_register_file) :
    (r.set_file x).array_id = r.array_id := by
  cases r; rfl

@[simp]
theorem st_src_reg.file_set_index (r : st_src_reg) (x : Int) :
    (r.set_index x).file = r.file := by
  cases r; rfl

@[simp]
theorem st_src_reg.index_set_index (r : st_src_reg) (x : Int) :
    (r.set_index x).index = x := by
  cases r; rfl

@[simp]
theorem st_src_reg.index2D_set_index (r : st_src_reg) (x : Int) :
    (r.set_index x).index2D = r.index2D := by
  cases r; rfl

@[simp]
theorem st_src_reg.swizzle_set_index (r : st_src_reg) (x : Int) :
    (r.set_index x).swizzle = r.swizzle := by
  cases r; rfl

@[simp]
theorem st_src_reg.negate_set_index (r : st_src_reg) (x : Int) :
    (r.set_index x).negate = r.negate := by
  cases r; rfl

@[simp]
theorem st_src_reg.type_set_index (r : st_src_reg) (x : Int) :
    (r.set_index x).type = r.type := by
  cases r; rfl

@[simp]
theorem st_src_reg.reladdr_set_index (r : st_src_reg) (x : Int) :
    (r.set_index x).reladdr = r.reladdr := by
  cases r; rfl

@[simp]
theorem st_src_reg.reladdr2_set_index (r : st_src_reg) (x : Int) :
    (r.set_index x).reladdr2 = r.reladdr2 := by
  cases r; rfl

@[simp]
theorem st_src_reg.has_index2_set_index (r : st_src_reg) (x : Int) :
    (r.set_index x).has_index2 = r.has_index2 := by
  cases r; rfl

@[simp]
theorem st_src_reg.double_reg2_set_index (r : st_src_reg) (x : Int) :
    (r.set_index x).double_reg2 = r.double_reg2 := by
  cases r; rfl

@[simp]
theorem st_src_reg.array_id_set_index (r : st_src_reg) (x : Int) :
    (r.set_index x).array_id = r.array_id := by
  cases r; rfl

@[simp]
theorem st_src_reg.file_set_index2D (r : st_src_reg) (x : Int) :
    (r.set_index2D x).file = r.file := by
  cases r; rfl

@[simp]
theorem st_src_reg.index_set_index2D (r : st_src_reg) (x : Int) :
    (r.set_index2D x).index = r.index := by
  cases r; rfl

@[simp]
theorem st_src_reg.index2D_set_index2D (r : st_src_reg) (x : Int) :
    (r.set_index2D x).index2D = x := by
  cases r; rfl

@[simp]
theorem st_src_reg.swizzle_set_index2D (r : st_src_reg) (x : Int) :
    (r.set_index2D x).swizzle = r.swizzle := by
  cases r; rfl

@[simp]
theorem st_src_reg.negate_set_index2D (r : st_src_reg) (x : Int) :
    (r.set_index2D x).negate = r.negate := by
  cases r; rfl

@[simp]
theorem st_src_reg.type_set_index2D (r : st_src_reg) (x : Int) :
    (r.set_index2D x).type = r.type := by
  cases r; rfl

@[simp]
theorem st_src_reg.reladdr_set_index2D (r : st_src_reg) (x : Int) :
    (r.set_index2D x).reladdr = r.reladdr := by
  cases r; rfl

@[simp]
theorem st_src_reg.reladdr2_set_index2D (r : st_src_reg) (x : Int) :
    (r.set_index2D x).reladdr2 = r.reladdr2 := by
  cases r; rfl

@[simp]
theorem st_src_reg.has_index2_set_index2D (r : st_src_reg) (x : Int) :
    (r.set_index2D x).has_index2 = r.has_index2 := by
  cases r; rfl

@[simp]
theorem st_src_reg.double_reg2_set_index2D (r : st_src_reg) (x : Int) :
    (r.set_index2D x).double_reg2 = r.double_reg2 := by
  cases r; rfl

@[simp]
theorem st_src_reg.array_id_set_index2D (r : st_src_reg) (x : Int) :
    (r.set_index2D x).array_id = r.array_id := by
  cases r; rfl

@[simp]
theorem st_src_reg.file_set_swizzle (r : st_src_reg) (x : Nat) :
    (r.set_swizzle x).file = r.file := by
  cases r; rfl

@[simp]
theorem st_src_reg.index_set_swizzle (r : st_src_reg) (x : Nat) :
    (r.set_swizzle x).index = r.index := by
  cases r; rfl

@[simp]
theorem st_src_reg.index2D_set_swizzle (r : st_src_reg) (x : Nat) :
    (r.set_swizzle x).index2D = r.index2D := by
  cases r; rfl

@[simp]
theorem st_src_reg.swizzle_set_swizzle (r : st_src_reg) (x : Nat) :
    (r.set_swizzle x).swizzle = x := by
  cases r; rfl

@[simp]
theorem st_src_reg.negate_set_swizzle (r : st_src_reg) (x : Nat) :
    (r.set_swizzle x).negate = r.negate := by
  cases r; rfl

@[simp]
theorem st_src_reg.type_set_swizzle (r : st_src_reg) (x : Nat) :
    (r.set_swizzle x).type = r.type := by
  cases r; rfl

@[simp]
theorem st_src_reg.reladdr_set_swizzle (r : st_src_reg) (x : Nat) :
    (r.set_swizzle x).reladdr = r.reladdr := by
  cases r; rfl

@[simp]
theorem st_src_reg.reladdr2_set_swizzle (r : st_src_reg) (x : Nat) :
    (r.set_swizzle x).reladdr2 = r.reladdr2 := by
  cases r; rfl

@[simp]
theorem st_src_reg.has_index2_set_swizzle (r : st_src_reg) (x : Nat) :
    (r.set_swizzle x).has_index2 = r.has_index2 := by
  cases r; rfl

@[simp]
theorem st_src_reg.double_reg2_set_swizzle (r : st_src_reg) (x : Nat) :
    (r.set_swizzle x).double_reg2 = r.double_reg2 := by
  cases r; rfl

@[simp]
theorem st_src_reg.array_id_set_swizzle (r : st_src_reg) (x : Nat) :
    (r.set_swizzle x).array_id = r.array_id := by
  cases r; rfl

@[simp]
theorem st_src_reg.file_set_negate (r : st_src_reg) (x : Int) :
    (r.set_negate x).file = r.file := by
  cases r; rfl

@[simp]
theorem st_src_reg.index_set_negate (r : st_src_reg) (x : Int) :
    (r.set_negate x).index = r.index := by
  cases r; rfl

@[simp]
theorem st_src_reg.index2D_set_negate (r : st_src_reg) (x : Int) :
    (r.set_negate x).index2D = r.index2D := by
  cases r; rfl

@[simp]
theorem st_src_reg.swizzle_set_negate (r : st_src_reg) (x : Int) :
    (r.set_negate x).swizzle = r.swizzle := by
  cases r; rfl

@[simp]
theorem st_src_reg.negate_set_negate (r : st_src_reg) (x : Int) :
    (r.set_negate x).negate = x := by
  cases r; rfl

@[simp]
theorem st_src_reg.type_set_negate (r : st_src_reg) (x : Int) :
    (r.set_negate x).type = r.type := by
  cases r; rfl

@[simp]
theorem st_src_reg.reladdr_set_negate (r : st_src_reg) (x : Int) :
    (r.set_negate x).reladdr = r.reladdr := by
  cases r; rfl

@[simp]
theorem st_src_reg.reladdr2_set_negate (r : st_src_reg) (x : Int) :
    (r.set_negate x).reladdr2 = r.reladdr2 := by
  cases r; rfl

@[simp]
theorem st_src_reg.has_index2_set_negate (r : st_src_reg) (x : Int) :
    (r.set_negate x).has_index2 = r.has_index2 := by
  cases r; rfl

@[simp]
theorem st_src_reg.double_reg2_set_negate (r : st_src_reg) (x : Int) :
    (r.set_negate x).double_reg2 = r.double_reg2 := by
  cases r; rfl

@[simp]
theorem st_src_reg.array_id_set_negate (r : st_src_reg) (x : Int) :
    (r.set_negate x).array_id = r.array_id := by
  cases r; rfl

@[simp]
theorem st_src_reg.file_set_type (r : st_src_reg) (x : glsl_base_type) :
    (r.set_type x).file = r.file := by
  cases r; rfl

@[simp]
theorem st_src_reg.index_set_type (r : st_src_reg) (x : glsl_base_type) :
    (r.set_type x).index = r.index := by
  cases r; rfl

@[simp]
theorem st_src_reg.index2D_set_type (r : st_src_reg) (x : glsl_base_type) :
    (r.set_type x).index2D = r.index2D := by
  cases r; rfl

@[simp]
theorem st_src_reg.swizzle_set_type (r : st_src_reg) (x : glsl_base_type) :
    (r.set_type x).swizzle = r.swizzle := by
  cases r; rfl

@[simp]
theorem st_src_reg.negate_set_type (r : st_src_reg) (x : glsl_base_type) :
    (r.set_type x).negate = r.negate := by
  cases r; rfl

@[simp]
theorem st_src_reg.type_set_type (r : st_src_reg) (x : glsl_base_type) :
    (r.set_type x).type = x := by
  cases r; rfl

@[simp]
theorem st_src_reg.reladdr_set_type (r : st_src_reg) (x : glsl_base_type) :
    (r.set_type x).reladdr = r.reladdr := by
  cases r; rfl

@[simp]
theorem st_src_reg.reladdr2_set_type (r : st_src_reg) (x : glsl_base_type) :
    (r.set_type x).reladdr2 = r.reladdr2 := by
  cases r; rfl

@[simp]
theorem st_src_reg.has_index2_set_type (r : st_src_reg) (x : glsl_base_type) :
    (r.set_type x).has_index2 = r.has_index2 := by
  cases r; rfl

@[simp]
theorem st_src_reg.double_reg2_set_type (r : st_src_reg) (x : glsl_base_type) :
    (r.set_type x).double_reg2 = r.double_reg2 := by
  cases r; rfl

@[simp]
theorem st_src_reg.array_id_set_type (r : st_src_reg) (x : glsl_base_type) :
    (r.set_type x).array_id = r.array_id := by
  cases r; rfl

@[simp]
theorem st_src_reg.file_set_reladdr (r : st_src_reg) (x : st_src_reg_ptr) :
    (r.set_reladdr x).file = r.file := by
  cases r; rfl

@[simp]
theorem st_src_reg.index_set_reladdr (r : st_src_reg) (x : st_src_reg_ptr) :
    (r.set_reladdr x).index = r.index := by
  cases r; rfl

@[simp]
theorem st_src_reg.index2D_set_reladdr (r : st_src_reg) (x : st_src_reg_ptr) :
    (r.set_reladdr x).index2D = r.index2D := by
  cases r; rfl

@[simp]
theorem st_src_reg.swizzle_set_reladdr (r : st_src_reg) (x : st_src_reg_ptr) :
    (r.set_reladdr x).swizzle = r.swizzle := by
  cases r; rfl

@[simp]
theorem st_src_reg.negate_set_reladdr (r : st_src_reg) (x : st_src_reg_ptr) :
    (r.set_reladdr x).negate = r.negate := by
  cases r; rfl

@[simp]
theorem st_src_reg.type_set_reladdr (r : st_src_reg) (x : st_src_reg_ptr) :
    (r.set_reladdr x).type = r.type := by
  cases r; rfl

@[simp]
theorem st_src_reg.reladdr_set_reladdr (r : st_src_reg) (x : st_src_reg_ptr) :
    (r.set_reladdr x).reladdr = x := by
  cases r; rfl

@[simp]
theorem st_src_reg.reladdr2_set_reladdr (r : st_src_reg) (x : st_src_reg_ptr) :
    (r.set_reladdr x).reladdr2 = r.reladdr2 := by
  cases r; rfl

@[simp]
theorem st_src_reg.has_index2_set_reladdr (r : st_src_reg) (x : st_src_reg_ptr) :
    (r.set_reladdr x).has_index2 = r.has_index2 := by
  cases r; rfl

@[simp]
theorem st_src_reg.double_reg2_set_reladdr (r : st_src_reg) (x : st_src_reg_ptr) :
    (r.set_reladdr x).double_reg2 = r.double_reg2 := by
  cases r; rfl

@[simp]
theorem st_src_reg.array_id_set_reladdr (r : st_src_reg) (x : st_src_reg_ptr) :
    (r.set_reladdr x).array_id = r.array_id := by
  cases r; rfl

@[simp]
theorem st_src_reg.file_set_reladdr2 (r : st_src_reg) (x : st_src_reg_ptr) :
    (r.set_reladdr2 x).file = r.file := by
  cases r; rfl

@[simp]
theorem st_src_reg.index_set_reladdr2 (r : st_src_reg) (x : st_src_reg_ptr) :
    (r.set_reladdr2 x).index = r.index := by
  cases r; rfl

@[simp]
theorem st_src_reg.index2D_set_reladdr2 (r : st_src_reg) (x : st_src_reg_ptr) :
    (r.set_reladdr2 x).index2D = r.index2D := by
  cases r; rfl

@[simp]
theorem st_src_reg.swizzle_set_reladdr2 (r : st_src_reg) (x : st_src_reg_ptr) :
    (r.set_reladdr2 x).swizzle = r.swizzle := by
  cases r; rfl

@[simp]
theorem st_src_reg.negate_set_reladdr2 (r : st_src_reg) (x : st_src_reg_ptr) :
    (r.set_reladdr2 x).negate = r.negate := by
  cases r; rfl

@[simp]
theorem st_src_reg.type_set_reladdr2 (r : st_src_reg) (x : st_src_reg_ptr) :
    (r.set_reladdr2 x).type = r.type := by
  cases r; rfl

@[simp]
theorem st_src_reg.reladdr_set_reladdr2 (r : st_src_reg) (x : st_src_reg_ptr) :
    (r.set_reladdr2 x).reladdr = r.reladdr := by
  cases r; rfl

@[simp]
theorem st_src_reg.reladdr2_set_reladdr2 (r : st_src_reg) (x : st_src_reg_ptr) :
    (r.set_reladdr2 x).reladdr2 = x := by
  cases r; rfl

@[simp]
theorem st_src_reg.has_index2_set_reladdr2 (r : st_src_reg) (x : st_src_reg_ptr) :
    (r.set_reladdr2 x).has_index2 = r.has_index2 := by
  cases r; rfl

@[simp]
theorem st_src_reg.double_reg2_set_reladdr2 (r : st_src_reg) (x : st_src_reg_ptr) :
    (r.set_reladdr2 x).double_reg2 = r.double_reg2 := by
  cases r; rfl

@[simp]
theorem st_src_reg.array_id_set_reladdr2 (r : st_src_reg) (x : st_src_reg_ptr) :
    (r.set_reladdr2 x).array_id = r.array_id := by
  cases r; rfl

@[simp]
theorem st_src_reg.file_set_has_index2 (r : st_src_reg) (x : Bool) :
    (r.set_has_index2 x).file = r.file := by
  cases r; rfl

@[simp]
theorem st_src_reg.index_set_has_index2 (r : st_src_reg) (x : Bool) :
    (r.set_has_index2 x).index = r.index := by
  cases r; rfl

@[simp]
theorem st_src_reg.index2D_set_has_index2 (r : st_src_reg) (x : Bool) :
    (r.set_has_index2 x).index2D = r.index2D := by
  cases r; rfl

@[simp]
theorem st_src_reg.swizzle_set_has_index2 (r : st_src_reg) (x : Bool) :
    (r.set_has_index2 x).swizzle = r.swizzle := by
  cases r; rfl

@[simp]
theorem st_src_reg.negate_set_has_index2 (r : st_src_reg) (x : Bool) :
    (r.set_has_index2 x).negate = r.negate := by
  cases r; rfl

@[simp]
theorem st_src_reg.type_set_has_index2 (r : st_src_reg) (x : Bool) :
    (r.set_has_index2 x).type = r.type := by
  cases r; rfl

@[simp]
theorem st_src_reg.reladdr_set_has_index2 (r : st_src_reg) (x : Bool) :
    (r.set_has_index2 x).reladdr = r.reladdr := by
  cases r; rfl

@[simp]
theorem st_src_reg.reladdr2_set_has_index2 (r : st_src_reg) (x : Bool) :
    (r.set_has_index2 x).reladdr2 = r.reladdr2 := by
  cases r; rfl

@[simp]
theorem st_src_reg.has_index2_set_has_index2 (r : st_src_reg) (x : Bool) :
    (r.set_has_index2 x).has_index2 = x := by
  cases r; rfl

@[simp]
theorem st_src_reg.double_reg2_set_has_index2 (r : st_src_reg) (x : Bool) :
    (r.set_has_index2 x).double_reg2 = r.double_reg2 := by
  cases r; rfl

@[simp]
theorem st_src_reg.array_id_set_has_index2 (r : st_src_reg) (x : Bool) :
    (r.set_has_index2 x).array_id = r.array_id := by
  cases r; rfl

@[simp]
theorem st_src_reg.file_set_double_reg2 (r : st_src_reg) (x : Bool) :
    (r.set_double_reg2 x).file = r.file := by
  cases r; rfl

@[simp]
theorem st_src_reg.index_set_double_reg2 (r : st_src_reg) (x : Bool) :
    (r.set_double_reg2 x).index = r.index := by
  cases r; rfl

@[simp]
theorem st_src_reg.index2D_set_double_reg2 (r : st_src_reg) (x : Bool) :
    (r.set_double_reg2 x).index2D = r.index2D := by
  cases r; rfl

@[simp]
theorem st_src_reg.swizzle_set_double_reg2 (r : st_src_reg) (x : Bool) :
    (r.set_double_reg2 x).swizzle = r.swizzle := by
  cases r; rfl

@[simp]
theorem st_src_reg.negate_set_double_reg2 (r : st_src_reg) (x : Bool) :
    (r.set_double_reg2 x).negate = r.negate := by
  cases r; rfl

@[simp]
theorem st_src_reg.type_set_double_reg2 (r : st_src_reg) (x : Bool) :
    (r.set_double_reg2 x).type = r.type := by
  cases r; rfl

@[simp]
theorem st_src_reg.reladdr_set_double_reg2 (r : st_src_reg) (x : Bool) :
    (r.set_double_reg2 x).reladdr = r.reladdr := by
  cases r; rfl

@[simp]
theorem st_src_reg.reladdr2_set_double_reg2 (r : st_src_reg) (x : Bool) :
    (r.set_double_reg2 x).reladdr2 = r.reladdr2 := by
  cases r; rfl

@[simp]
theorem st_src_reg.has_index2_set_double_reg2 (r : st_src_reg) (x : Bool) :
    (r.set_double_reg2 x).has_index2 = r.has_index2 := by
  cases r; rfl

@[simp]
theorem st_src_reg.double_reg2_set_double_reg2 (r : st_src_reg) (x : Bool) :
    (r.set_double_reg2 x).double_reg2 = x := by
  cases r; rfl

@[simp]
theorem st_src_reg.array_id_set_double_reg2 (r : st_src_reg) (x : Bool) :
    (r.set_double_reg2 x).array_id = r.array_id := by
  cases r; rfl

@[simp]
theorem st_src_reg.file_set_array_id (r : st_src_reg) (x : Nat) :
    (r.set_array_id x).file = r.file := by
  cases r; rfl

@[simp]
theorem st_src_reg.index_set_array_id (r : st_src_reg) (x : Nat) :
    (r.set_array_id x).index = r.index := by
  cases r; rfl

@[simp]
theorem st_src_reg.index2D_set_array_id (r : st_src_reg) (x : Nat) :
    (r.set_array_id x).index2D = r.index2D := by
  cases r; rfl

@[simp]
theorem st_src_reg.swizzle_set_array_id (r : st_src_reg) (x : Nat) :
    (r.set_array_id x).swizzle = r.swizzle := by
  cases r; rfl

@[simp]
theorem st_src_reg.negate_set_array_id (r : st_src_reg) (x : Nat) :
    (r.set_array_id x).negate = r.negate := by
  cases r; rfl

@[simp]
theorem st_src_reg.type_set_array_id (r : st_src_reg) (x : Nat) :
    (r.set_array_id x).type = r.type := by
  cases r; rfl

@[simp]
theorem st_src_reg.reladdr_set_array_id (r : st_src_reg) (x : Nat) :
    (r.set_array_id x).reladdr = r.reladdr := by
  cases r; rfl

@[simp]
theorem st_src_reg.reladdr2_set_array_id (r : st_src_reg) (x : Nat) :
    (r.set_array_id x).reladdr2 = r.reladdr2 := by
  cases r; rfl

@[simp]
theorem st_src_reg.has_index2_set_array_id (r : st_src_reg) (x : Nat) :
    (r.set_array_id x).has_index2 = r.has_index2 := by
  cases r; rfl

@[simp]
theorem st_src_reg.double_reg2_set_array_id (r : st_src_reg) (x : Nat) :
    (r.set_array_id x).double_reg2 = r.double_reg2 := by
  cases r; rfl

@[simp]
theorem st_src_reg.array_id_set_array_id (r : st_src_reg) (x : Nat) :
    (r.set_array_id x).array_id = x := by
  cases r; rfl

@[simp]
theorem st_src_reg.file_mk (a0 : gl_register_file) (a1 : Int) (a2 : Int) (a3 : Nat) (a4 : Int) (a5 : glsl_base_type) (a6 : st_src_reg_ptr) (a7 : st_src_reg_ptr) (a8 : Bool) (a9 : Bool) (a10 : Nat) :
    (st_src_reg.mk a0 a1 a2 a3 a4 a5 a6 a7 a8 a9 a10).file = a0 := rfl

@[simp]
theorem st_src_reg.index_mk (a0 : gl_register_file) (a1 : Int) (a2 : Int) (a3 : Nat) (a4 : Int) (a5 : glsl_base_type) (a6 : st_src_reg_ptr) (a7 : st_src_reg_ptr) (a8 : Bool) (a9 : Bool) (a10 : Nat) :
    (st_src_reg.mk a0 a1 a2 a3 a4 a5 a6 a7 a8 a9 a10).index = a1 := rfl

@[simp]
theorem st_src_reg.index2D_mk (a0 : gl_register_file) (a1 : Int) (a2 : Int) (a3 : Nat) (a4 : Int) (a5 : glsl_base_type) (a6 : st_src_reg_ptr) (a7 : st_src_reg_ptr) (a8 : Bool) (a9 : Bool) (a10 : Nat) :
    (st_src_reg.mk a0 a1 a2 a3 a4 a5 a6 a7 a8 a9 a10).index2D = a2 := rfl

@[simp]
theorem st_src_reg.swizzle_mk (a0 : gl_register_file) (a1 : Int) (a2 : Int) (a3 : Nat) (a4 : Int) (a5 : glsl_base_type) (a6 : st_src_reg_ptr) (a7 : st_src_reg_ptr) (a8 : Bool) (a9 : Bool) (a10 : Nat) :
    (st_src_reg.mk a0 a1 a2 a3 a4 a5 a6 a7 a8 a9 a10).swizzle = a3 := rfl

@[simp]
theorem st_src_reg.negate_mk (a0 : gl_register_file) (a1 : Int) (a2 : Int) (a3 : Nat) (a4 : Int) (a5 : glsl_base_type) (a6 : st_src_reg_ptr) (a7 : st_src_reg_ptr) (a8 : Bool) (a9 : Bool) (a10 : Nat) :
    (st_src_reg.mk a0 a1 a2 a3 a4 a5 a6 a7 a8 a9 a10).negate = a4 := rfl

@[simp]
theorem st_src_reg.type_mk (a0 : gl_register_file) (a1 : Int) (a2 : Int) (a3 : Nat) (a4 : Int) (a5 : glsl_base_type) (a6 : st_src_reg_ptr) (a7 : st_src_reg_ptr) (a8 : Bool) (a9 : Bool) (a10 : Nat) :
    (st_src_reg.mk a0 a1 a2 a3 a4 a5 a6 a7 a8 a9 a10).type = a5 := rfl

@[simp]
theorem st_src_reg.reladdr_mk (a0 : gl_register_file) (a1 : Int) (a2 : Int) (a3 : Nat) (a4 : Int) (a5 : glsl_base_type) (a6 : st_src_reg_ptr) (a7 : st_src_reg_ptr) (a8 : Bool) (a9 : Bool) (a10 : Nat) :
    (st_src_reg.mk a0 a1 a2 a3 a4 a5 a6 a7 a8 a9 a10).reladdr = a6 := rfl

@[simp]
theorem st_src_reg.reladdr2_mk (a0 : gl_register_file) (a1 : Int) (a2 : Int) (a3 : Nat) (a4 : Int) (a5 : glsl_base_type) (a6 : st_src_reg_ptr) (a7 : st_src_reg_ptr) (a8 : Bool) (a9 : Bool) (a10 : Nat) :
    (st_src_reg.mk a0 a1 a2 a3 a4 a5 a6 a7 a8 a9 a10).reladdr2 = a7 := rfl

@[simp]
theorem st_src_reg.has_index2_mk (a0 : gl_register_file) (a1 : Int) (a2 : Int) (a3 : Nat) (a4 : Int) (a5 : glsl_base_type) (a6 : st_src_reg_ptr) (a7 : st_src_reg_ptr) (a8 : Bool) (a9 : Bool) (a10 : Nat) :
    (st_src_reg.mk a0 a1 a2 a3 a4 a5 a6 a7 a8 a9 a10).has_index2 = a8 := rfl

@[simp]
theorem st_src_reg.double_reg2_mk (a0 : gl_register_file) (a1 : Int) (a2 : Int) (a3 : Nat) (a4 : Int) (a5 : glsl_base_type) (a6 : st_src_reg_ptr) (a7 : st_src_reg_ptr) (a8 : Bool) (a9 : Bool) (a10 : Nat) :
    (st_src_reg.mk a0 a1 a2 a3 a4 a5 a6 a7 a8 a9 a10).double_reg2 = a9 := rfl

@[simp]
theorem st_src_reg.array_id_mk (a0 : gl_register_file) (a1 : Int) (a2 : Int) (a3 : Nat) (a4 : Int) (a5 : glsl_base_type) (a6 : st_src_reg_ptr) (a7 : st_src_reg_ptr) (a8 : Bool) (a9 : Bool) (a10 : Nat) :
    (st_src_reg.mk a0 a1 a2 a3 a4 a5 a6 a7 a8 a9 a10).array_id = a10 := rfl

/-- A register is determined by its eleven members. -/
theorem st_src_reg.eta (r : st_src_reg) :
    st_src_reg.mk r.file r.index r.index2D r.swizzle r.negate r.type r.reladdr r.reladdr2
      r.has_index2 r.double_reg2 r.array_id = r := by
  cases r; rfl

/-! ## Lowering of `discard` -/

/-- Method `st_src_reg_for_float` always finds or adds the immediate and leaves
the instruction list and the flags of the visitor alone. -/
theorem st_src_reg_for_float_spec (v : glsl_to_tgsi_visitor) (bits : Nat) :
    ∃ one v1, st_src_reg_for_float v bits = some (one, v1)
      ∧ v1.instructions = v.instructions ∧ v1.native_integers = v.native_integers
      ∧ one.file = PROGRAM_IMMEDIATE ∧ one.type = GLSL_TYPE_FLOAT
      ∧ one.reladdr = .NULL ∧ one.reladdr2 = .NULL := by
  unfold st_src_reg_for_float add_constant
  simp only [st_src_reg.ofType, st_src_reg.file, ne_eq, not_true_eq_false, if_false]
  cases find_immediate GL_FLOAT [bits] (1 * if GL_FLOAT = GL_DOUBLE then 2 else 1)
      v.immediates 0 with
  | none => exact ⟨_, _, rfl, rfl, rfl, rfl, rfl, rfl, rfl⟩
  | some index => exact ⟨_, _, rfl, rfl, rfl, rfl, rfl, rfl, rfl⟩

/-- Method `get_temp` on the scalar bool type allocates the next temporary. -/
theorem get_temp_bool (v : glsl_to_tgsi_visitor) :
    ∃ temp v1, get_temp v glsl_type.bool_type = some (temp, v1)
      ∧ v1.instructions = v.instructions ∧ v1.native_integers = v.native_integers
      ∧ temp.file = PROGRAM_TEMPORARY ∧ temp.index = v.next_temp
      ∧ temp.type = (if v.native_integers then GLSL_TYPE_BOOL else GLSL_TYPE_FLOAT)
      ∧ temp.negate = 0 ∧ temp.reladdr = .NULL ∧ temp.reladdr2 = .NULL := by
  have hsz : type_size glsl_type.bool_type = some 1 := by decide
  have harr : type_has_array_or_matrix glsl_type.bool_type = false := by decide
  have hsw : swizzle_for_size glsl_type.bool_type.vector_elements
      = some (MAKE_SWIZZLE4 SWIZZLE_X SWIZZLE_X SWIZZLE_X SWIZZLE_X) := by decide
  have ha : (glsl_type.bool_type.is_array || glsl_type.bool_type.is_record) = false := by
    decide
  unfold get_temp
  simp only [hsz, harr, Bool.and_false, hsw, ha]
  refine ⟨_, _, rfl, rfl, rfl, ?_, ?_, ?_, ?_, ?_, ?_⟩ <;>
    simp [st_src_reg.default, glsl_type.bool_type, glsl_type.get_instance,
      glsl_type.base_type]

/-- An opcode that `get_opcode` does not dispatch on is returned unchanged when
the operand types pass the assertions. -/
theorem get_opcode_plain (native_integers : Bool) (op : tgsi_opcode) (dst : st_dst_reg)
    (src0 src1 : st_src_reg)
    (hop : ∀ t, get_opcode_switch native_integers t op = op) (hlast : op ≠ TGSI_OPCODE_LAST)
    (h0 : src0.type ≠ GLSL_TYPE_ARRAY ∧ src0.type ≠ GLSL_TYPE_STRUCT)
    (h1 : src1.type ≠ GLSL_TYPE_ARRAY ∧ src1.type ≠ GLSL_TYPE_STRUCT) :
    get_opcode native_integers op dst src0 src1 = some op := by
  unfold get_opcode
  simp [hop, hlast, h0.1, h0.2, h1.1, h1.2]

/-- A single instruction emitted by `emit_asm`: no operand uses relative
addressing, the opcode is not one `get_opcode` dispatches on and nothing is
double-typed, so exactly the new instruction is appended. -/
theorem emit_asm1_plain (info : tgsi_opcode → tgsi_opcode_info) (ir : Option Nat)
    (op : tgsi_opcode) (dst : st_dst_reg) (src0 src1 : st_src_reg)
    (v : glsl_to_tgsi_visitor)
    (hop : ∀ t, get_opcode_switch v.native_integers t op = op) (hlast : op ≠ TGSI_OPCODE_LAST)
    (hd : dst.reladdr = .NULL ∧ dst.reladdr2 = .NULL)
    (h0 : src0.reladdr = .NULL ∧ src0.reladdr2 = .NULL)
    (h1 : src1.reladdr = .NULL ∧ src1.reladdr2 = .NULL)
    (ht0 : src0.type ≠ GLSL_TYPE_ARRAY ∧ src0.type ≠ GLSL_TYPE_STRUCT
      ∧ src0.type ≠ GLSL_TYPE_DOUBLE)
    (ht1 : src1.type ≠ GLSL_TYPE_ARRAY ∧ src1.type ≠ GLSL_TYPE_STRUCT)
    (htd : dst.type ≠ GLSL_TYPE_DOUBLE) :
    emit_asm1 info ir op dst src0 src1 undef_src undef_src v
      = some ({ v with instructions := v.instructions
                  ++ [new_instruction info ir op dst undef_dst src0 src1 undef_src undef_src] },
          some v.instructions.length) := by
  unfold emit_asm1
  rw [emit_asm_no_reladdr info ir _ dst undef_dst src0 src1 undef_src undef_src v hd
    ⟨rfl, rfl⟩ h0 h1 ⟨rfl, rfl⟩ ⟨rfl, rfl⟩,
    get_opcode_plain _ _ _ _ _ hop hlast ⟨ht0.1, ht0.2.1⟩ ht1]
  have hu : undef_dst.type ≠ GLSL_TYPE_DOUBLE := by decide
  simp [emit_asm_double, new_instruction, htd, hu, ht0.2.2]

set_option maxHeartbeats 4000000 in
/-- C5 (as stated, refuted): with native integers, lowering `discard` with the
condition `b` (a bool uniform, lowered to `UNIFORM[0]`) ends with a KILL_IF whose
source is the temporary written by the preceding AND, not the lowered
condition. -/
theorem visit_discard_native_counterexample :
    (visit_rvalue (fun _ => ⟨1, 2, false, false⟩)
        (.dereference_variable 2 ⟨1, "b", glsl_type.bool_type, ir_var_uniform, 0, 0, false,
          GLSL_MATRIX_LAYOUT_INHERITED, false⟩)
        (glsl_to_tgsi_visitor.init GL_FRAGMENT_PROGRAM_ARB MESA_SHADER_FRAGMENT false true)).map
        (fun v => (v.result.file, v.result.index)) = some (PROGRAM_UNIFORM, 0)
      ∧ (visit_discard (fun _ => ⟨1, 2, false, false⟩) 3
        (some (.dereference_variable 2 ⟨1, "b", glsl_type.bool_type, ir_var_uniform, 0, 0, false,
          GLSL_MATRIX_LAYOUT_INHERITED, false⟩))
        (glsl_to_tgsi_visitor.init GL_FRAGMENT_PROGRAM_ARB MESA_SHADER_FRAGMENT false true)).map
        (fun v => v.instructions.map
          (fun inst => (inst.op, inst.src0.file, inst.src0.index, inst.src0.negate)))
        = some [(TGSI_OPCODE_AND, PROGRAM_UNIFORM, 0, 0),
                (TGSI_OPCODE_KILL_IF, PROGRAM_TEMPORARY, 1, -1)] := by
  constructor <;> decide

/-- C5 (amended): lowering a discard.  Without a condition exactly one
instruction is emitted, it is KILL and all its destination and source slots are
undefined.  With a condition whose lowered register has a non-double element
type and no relative addressing: if integers are not native, exactly one
instruction is appended after the condition, KILL_IF with undefined destinations
and the single source "lowered condition with its negate toggled"; if integers
are native (condition of scalar bool type), an AND of the lowered condition with
the float immediate 1.0 into a fresh temporary is appended first, and the last
instruction is KILL_IF with undefined destinations whose single source is that
temporary with its negate toggled. -/
theorem visit_discard_lowering (info : tgsi_opcode → tgsi_opcode_info) (id : Nat)
    (v : glsl_to_tgsi_visitor) :
    (∃ inst, visit_discard info id none v
          = some { v with instructions := v.instructions ++ [inst] }
        ∧ inst.op = TGSI_OPCODE_KILL ∧ inst.dst0 = undef_dst ∧ inst.dst1 = undef_dst
        ∧ inst.src0 = undef_src ∧ inst.src1 = undef_src ∧ inst.src2 = undef_src
        ∧ inst.src3 = undef_src)
    ∧ ∀ (cond : ir_rvalue) (v1 : glsl_to_tgsi_visitor),
        visit_rvalue info cond v = some v1 →
        v1.result.reladdr = .NULL ∧ v1.result.reladdr2 = .NULL →
        v1.result.type ≠ GLSL_TYPE_ARRAY ∧ v1.result.type ≠ GLSL_TYPE_STRUCT
          ∧ v1.result.type ≠ GLSL_TYPE_DOUBLE →
        (v1.native_integers = false →
          ∃ inst, visit_discard info id (some cond) v
              = some { v1 with instructions := v1.instructions ++ [inst] }
            ∧ inst.op = TGSI_OPCODE_KILL_IF ∧ inst.dst0 = undef_dst ∧ inst.dst1 = undef_dst
            ∧ inst.src0 = v1.result.set_negate (int_not v1.result.negate)
            ∧ inst.src1 = undef_src ∧ inst.src2 = undef_src ∧ inst.src3 = undef_src)
        ∧ (v1.native_integers = true → cond.type = glsl_type.bool_type →
          ∃ (temp one : st_src_reg) (v2 v3 : glsl_to_tgsi_visitor)
              (and_inst kill_inst : glsl_to_tgsi_instruction),
            get_temp v1 cond.type = some (temp, v2)
            ∧ st_src_reg_for_float v2 float_bits_one = some (one, v3)
            ∧ visit_discard info id (some cond) v
              = some { v3 with instructions := v1.instructions ++ [and_inst, kill_inst] }
            ∧ temp.file = PROGRAM_TEMPORARY ∧ temp.index = v1.next_temp
            ∧ and_inst.op = TGSI_OPCODE_AND ∧ and_inst.dst0 = st_dst_reg.ofSrc temp
            ∧ and_inst.src0 = v1.result ∧ and_inst.src1 = one
            ∧ kill_inst.op = TGSI_OPCODE_KILL_IF ∧ kill_inst.dst0 = undef_dst
            ∧ kill_inst.dst1 = undef_dst
            ∧ kill_inst.src0 = temp.set_negate (int_not temp.negate)
            ∧ kill_inst.src1 = undef_src ∧ kill_inst.src2 = undef_src
            ∧ kill_inst.src3 = undef_src) := by
  have hu1 : undef_src.type ≠ GLSL_TYPE_ARRAY ∧ undef_src.type ≠ GLSL_TYPE_STRUCT := by decide
  have hu3 : undef_src.type ≠ GLSL_TYPE_ARRAY ∧ undef_src.type ≠ GLSL_TYPE_STRUCT
      ∧ undef_src.type ≠ GLSL_TYPE_DOUBLE := by decide
  have hud : undef_dst.type ≠ GLSL_TYPE_DOUBLE := by decide
  refine ⟨?_, ?_⟩
  · refine ⟨new_instruction info (some id) TGSI_OPCODE_KILL undef_dst undef_dst undef_src
      undef_src undef_src undef_src, ?_, rfl, rfl, rfl, rfl, rfl, rfl, rfl⟩
    unfold visit_discard
    simp only []
    rw [emit_asm1_plain info (some id) TGSI_OPCODE_KILL undef_dst undef_src undef_src v
      (fun t => rfl) (by decide) ⟨rfl, rfl⟩ ⟨rfl, rfl⟩ ⟨rfl, rfl⟩ hu3 hu1 hud]
    rfl
  · intro cond v1 hv hrel hty
    refine ⟨?_, ?_⟩
    · intro hni
      refine ⟨new_instruction info (some id) TGSI_OPCODE_KILL_IF undef_dst undef_dst
        (v1.result.set_negate (int_not v1.result.negate)) undef_src undef_src undef_src,
        ?_, rfl, rfl, rfl, rfl, rfl, rfl, rfl⟩
      unfold visit_discard
      simp only [hv, hni, Bool.false_eq_true, if_false]
      rw [emit_asm1_plain info (some id) TGSI_OPCODE_KILL_IF undef_dst _ undef_src v1
        (fun t => rfl) (by decide) ⟨rfl, rfl⟩ (by simpa using hrel) ⟨rfl, rfl⟩
        (by simpa using hty) hu1 hud]
      simp [hni]
    · intro hni hbool
      obtain ⟨temp, v2, hget, hi2, hn2, hfile, hidx, htype, hneg, hr1, hr2⟩ := get_temp_bool v1
      obtain ⟨one, v3, hone, hi3, hn3, hofile, hotype, hor1, hor2⟩ :=
        st_src_reg_for_float_spec v2 float_bits_one
      rw [hni] at htype
      simp only [if_true] at htype
      have hn3' : v3.native_integers = true := by rw [hn3, hn2, hni]
      refine ⟨temp, one, v2, v3,
        new_instruction info (some id) TGSI_OPCODE_AND (st_dst_reg.ofSrc temp) undef_dst
          v1.result one undef_src undef_src,
        new_instruction info (some id) TGSI_OPCODE_KILL_IF undef_dst undef_dst
          (temp.set_negate (int_not temp.negate)) undef_src undef_src undef_src,
        by rw [hbool]; exact hget, hone, ?_, hfile, hidx, rfl, rfl, rfl, rfl, rfl, rfl, rfl,
        rfl, rfl, rfl, rfl⟩
      unfold visit_discard
      simp only [hv, hni, if_true, hbool, hget, hone]
      rw [emit_asm1_plain info (some id) TGSI_OPCODE_AND (st_dst_reg.ofSrc temp) v1.result one
        v3 (fun t => rfl) (by decide) (by simp [st_dst_reg.ofSrc, hr1, hr2]) hrel
        ⟨hor1, hor2⟩ hty (by rw [hotype]; decide)
        (by simp [st_dst_reg.ofSrc, htype])]
      simp only []
      rw [emit_asm1_plain info (some id) TGSI_OPCODE_KILL_IF undef_dst _ undef_src _
        (fun t => rfl) (by decide) ⟨rfl, rfl⟩ (by simp [hr1, hr2]) ⟨rfl, rfl⟩
        (by simp [htype]) hu1 hud]
      simp [hi3, hi2]

set_option maxHeartbeats 4000000 in
theorem visit_discard_lowering_witness :
    visit_rvalue example_info example_condition example_visitor_float
        = some ((visit_rvalue example_info example_condition example_visitor_float).getD
            example_visitor_float)
      ∧ ∃ inst, visit_discard example_info 3 (some example_condition) example_visitor_float
          = some { (visit_rvalue example_info example_condition example_visitor_float).getD
                example_visitor_float with
              instructions :=
                ((visit_rvalue example_info example_condition example_visitor_float).getD
                  example_visitor_float).instructions ++ [inst] }
        ∧ inst.op = TGSI_OPCODE_KILL_IF ∧ inst.dst0 = undef_dst ∧ inst.dst1 = undef_dst
        ∧ inst.src0 = ((visit_rvalue example_info example_condition
              example_visitor_float).getD example_visitor_float).result.set_negate
            (int_not ((visit_rvalue example_info example_condition
              example_visitor_float).getD example_visitor_float).result.negate)
        ∧ inst.src1 = undef_src ∧ inst.src2 = undef_src ∧ inst.src3 = undef_src :=
  ⟨by decide,
   ((visit_discard_lowering example_info 3 example_visitor_float).2 example_condition
      ((visit_rvalue example_info example_condition example_visitor_float).getD
        example_visitor_float)
      (by decide) (by decide) (by decide)).1 (by decide)⟩

/-! ## Dead-code elimination run twice -/

/-- The final loop of `eliminate_dead_code` removes exactly `removed`
instructions. -/
theorem dce_sweep_length (instructions : List glsl_to_tgsi_instruction) :
    ∀ dead_masks : List Nat,
      (dce_sweep instructions dead_masks).1.length + (dce_sweep instructions dead_masks).2
        = instructions.length := by
  induction instructions with
  | nil => intro dead_masks; simp [dce_sweep]
  | cons inst rest ih =>
    intro dead_masks
    cases dead_masks with
    | nil => simp [dce_sweep]
    | cons m ms =>
      have h := ih ms
      simp only [dce_sweep]
      cases dce_sweep_inst inst m <;> simp <;> omega

/-- One run of `eliminate_dead_code` shortens the list by its return value. -/
theorem eliminate_dead_code_length (v v1 : glsl_to_tgsi_visitor) (removed : Nat)
    (h : eliminate_dead_code v = some (v1, removed)) :
    v1.instructions.length + removed = v.instructions.length := by
  unfold eliminate_dead_code eliminate_dead_code_list at h
  cases hs : dce_scan v.next_temp v.instructions 0
      ⟨List.replicate (v.next_temp.toNat * 4) none, List.replicate (v.next_temp.toNat * 4) 0, 0,
        v.instructions.map (fun i => i.dead_mask)⟩ with
  | none => simp [hs] at h
  | some st =>
    simp [hs] at h
    obtain ⟨h1, h2⟩ := h
    subst h1 h2
    exact dce_sweep_length _ _

set_option maxHeartbeats 4000000 in
/-- Claim C7, counterexample: on `MOV TEMP[0], IN[0]; MOV TEMP[1], TEMP[0]` the
first run of `eliminate_dead_code` deletes the second copy and returns 1, and
the run immediately after it deletes the first copy and returns 1 again. -/
theorem eliminate_dead_code_second_run_counterexample :
    eliminate_dead_code (example_visitor_with 2 example_dead_chain)
        = some (example_visitor_with 2 (example_dead_chain.take 1), 1) ∧
      eliminate_dead_code (example_visitor_with 2 (example_dead_chain.take 1))
        = some (example_visitor_with 2 [], 1) := by
  decide

/-- Claim C7, amended: two consecutive runs of `eliminate_dead_code` that return
`r1` and `r2` leave a list of exactly `n - r1 - r2` of the `n` instructions; the
second return value is bounded by what the first run left, not by 0. -/
theorem eliminate_dead_code_twice (v v1 v2 : glsl_to_tgsi_visitor) (r1 r2 : Nat)
    (h1 : eliminate_dead_code v = some (v1, r1))
    (h2 : eliminate_dead_code v1 = some (v2, r2)) :
    v2.instructions.length + r1 + r2 = v.instructions.length ∧
      r2 ≤ v.instructions.length - r1 := by
  have e1 := eliminate_dead_code_length v v1 r1 h1
  have e2 := eliminate_dead_code_length v1 v2 r2 h2
  omega

set_option maxHeartbeats 4000000 in
/-- The two runs on `MOV TEMP[0], IN[0]; MOV TEMP[1], TEMP[0]` satisfy
`eliminate_dead_code_twice` with `r1 = r2 = 1`. -/
theorem eliminate_dead_code_twice_witness :
    (example_visitor_with 2 []).instructions.length + 1 + 1
        = (example_visitor_with 2 example_dead_chain).instructions.length ∧
      1 ≤ (example_visitor_with 2 example_dead_chain).instructions.length - 1 :=
  eliminate_dead_code_twice (example_visitor_with 2 example_dead_chain)
    (example_visitor_with 2 (example_dead_chain.take 1)) (example_visitor_with 2 []) 1 1
    (by decide) (by decide)

/-! ## `merge_registers` on overlapping live ranges -/

set_option maxHeartbeats 4000000 in
/-- Claim C8, failing input: on `example_merge_input` the tables computed by
`get_last_temp_read_first_temp_write` give `TEMP[0]` the last read 3 and
`TEMP[2]` the first write 2, yet `merge_registers` records the rename
(old = 2, new = 0) after the rename (old = 1, new = 0), whose table update
`last_reads[0] = last_reads[1]` has lowered the last read of `TEMP[0]` to 1; the
rewritten list overwrites `TEMP[0]` before the `ADD` reads it. -/
theorem merge_registers_overlap :
    get_last_temp_read_first_temp_write 3 example_merge_input
        (List.replicate 3 (-1)) (List.replicate 3 (-1)) = some ([3, 1, 3], [0, 4, 2]) ∧
      merge_registers_renames 3 example_merge_input = some [⟨1, 0⟩, ⟨2, 0⟩] ∧
      arr_get [3, 1, 3] (0 : Int) = some (3 : Int) ∧ arr_get [0, 4, 2] (2 : Int) = some (2 : Int) ∧
      ¬ ((3 : Int) ≤ 2) ∧
      merge_registers (example_visitor_with 3 example_merge_input)
        = some (example_visitor_with 3 example_merge_output) := by
  have h1 : merge_registers_renames (example_visitor_with 3 example_merge_input).next_temp
      (example_visitor_with 3 example_merge_input).instructions = some [⟨1, 0⟩, ⟨2, 0⟩] := by
    decide
  have h2 : rename_temp_registers [⟨1, 0⟩, ⟨2, 0⟩]
      (example_visitor_with 3 example_merge_input).instructions = some example_merge_output := by
    decide
  refine ⟨by decide, by decide, by decide, by decide, by decide, ?_⟩
  simp only [merge_registers, h1, h2]
  rfl

/-! ## Lowering of `result = a * b + c` -/

theorem is_inout_array_vec4 (stage : gl_shader_stage) (var : ir_variable)
    (hty : var.type = glsl_type.vec4_type) :
    ∃ is_2d, is_inout_array stage var = some (false, is_2d) := by
  have h1 : glsl_type.vec4_type.is_array = false := by decide
  have h2 : glsl_type.vec4_type.is_matrix = false := by decide
  unfold is_inout_array
  simp only [hty, h1, h2, Bool.not_false, if_true, Bool.or_false]
  split_ifs <;> exact ⟨_, rfl⟩

theorem get_temp_vec4 (v : glsl_to_tgsi_visitor) :
    get_temp v glsl_type.vec4_type
      = some (vec4_register PROGRAM_TEMPORARY v.next_temp 0,
          { v with next_temp := v.next_temp + 1 }) := by
  have hsz : type_size glsl_type.vec4_type = some 1 := by decide
  have harr : type_has_array_or_matrix glsl_type.vec4_type = false := by decide
  have hsw : swizzle_for_size glsl_type.vec4_type.vector_elements = some SWIZZLE_XYZW := by
    decide
  have ha : (glsl_type.vec4_type.is_array || glsl_type.vec4_type.is_record) = false := by
    decide
  have hb : glsl_type.vec4_type.base_type = GLSL_TYPE_FLOAT := by decide
  unfold get_temp
  simp only [hsz, harr, Bool.and_false, hsw, ha, hb]
  cases v.native_integers <;> rfl

theorem ofGlslType_vec4 (file : gl_register_file) (index : Int) :
    st_src_reg.ofGlslType file index glsl_type.vec4_type
      = some (vec4_register file index 0) := by
  have h1 : (glsl_type.vec4_type.is_scalar || glsl_type.vec4_type.is_vector
      || glsl_type.vec4_type.is_matrix) = true := by decide
  have hsw : swizzle_for_size glsl_type.vec4_type.vector_elements = some SWIZZLE_XYZW := by
    decide
  have hb : glsl_type.vec4_type.base_type = GLSL_TYPE_FLOAT := by decide
  unfold st_src_reg.ofGlslType
  simp only [h1, hsw, hb, if_true]
  rfl

/-- Dereferencing a float vec4 variable that already has storage returns the
register of its entry and changes nothing else. -/
theorem visit_dereference_variable_found (var : ir_variable) (v : glsl_to_tgsi_visitor)
    (entry : variable_storage) (hty : var.type = glsl_type.vec4_type)
    (hfind : find_variable_storage v var = some entry) :
    visit_dereference_variable var v
      = some { v with result := vec4_register entry.file entry.index entry.array_id } := by
  unfold visit_dereference_variable
  simp only [hfind, hty, ofGlslType_vec4]
  cases v.native_integers <;> rfl

/-- Dereferencing a float vec4 variable without storage: a system value gets no
entry, a local gets the next temporary, any other variable the register of its
location. -/
theorem visit_dereference_variable_new (var : ir_variable) (v : glsl_to_tgsi_visitor)
    (hvar : is_float_vec4_variable var) (hfind : find_variable_storage v var = none) :
    (var.mode = ir_var_system_value ∧
      visit_dereference_variable var v
        = some { v with result := vec4_register PROGRAM_SYSTEM_VALUE var.location 0 }) ∨
    (∃ file index,
      ((var.mode = ir_var_uniform ∧ file = PROGRAM_UNIFORM)
        ∨ (var.mode = ir_var_shader_in ∧ file = PROGRAM_INPUT)
        ∨ (var.mode = ir_var_shader_out ∧ file = PROGRAM_OUTPUT)) ∧
      visit_dereference_variable var v
        = some { v with result := vec4_register file index 0,
                        variables_ := v.variables_ ++ [⟨file, index, var.id, 0⟩] }) ∨
    ((var.mode = ir_var_auto ∨ var.mode = ir_var_temporary) ∧
      visit_dereference_variable var v
        = some { v with result := vec4_register PROGRAM_TEMPORARY v.next_temp 0,
                        variables_ := v.variables_ ++ [⟨PROGRAM_TEMPORARY, v.next_temp, var.id, 0⟩],
                        next_temp := v.next_temp + 1 }) := by
  obtain ⟨hty, hmode⟩ := hvar
  obtain ⟨is_2d, hio⟩ := is_inout_array_vec4 v.shader_Stage var hty
  rcases hmode with h | ⟨h, hl⟩ | ⟨h, hl⟩ | h | h | h
  · right; left
    refine ⟨PROGRAM_UNIFORM, var.location, Or.inl ⟨h, rfl⟩, ?_⟩
    unfold visit_dereference_variable
    simp only [hfind, h, hty, ofGlslType_vec4]
    cases v.native_integers <;> rfl
  · right; left
    refine ⟨PROGRAM_INPUT, var.location, Or.inr (Or.inl ⟨h, rfl⟩), ?_⟩
    unfold visit_dereference_variable
    simp only [hfind, h, hl, hio, if_false, hty, ofGlslType_vec4]
    cases v.native_integers <;> rfl
  · right; left
    refine ⟨PROGRAM_OUTPUT, var.location + var.index, Or.inr (Or.inr ⟨h, rfl⟩), ?_⟩
    unfold visit_dereference_variable
    simp only [hfind, h, hl, hio, if_false, hty, ofGlslType_vec4]
    cases v.native_integers <;> rfl
  · left
    refine ⟨h, ?_⟩
    unfold visit_dereference_variable
    simp only [hfind, h, hty, ofGlslType_vec4]
    cases v.native_integers <;> rfl
  · right; right
    refine ⟨Or.inl h, ?_⟩
    unfold visit_dereference_variable
    simp only [hfind, h, hty, get_temp_vec4, ofGlslType_vec4]
    cases v.native_integers <;> rfl
  · right; right
    refine ⟨Or.inr h, ?_⟩
    unfold visit_dereference_variable
    simp only [hfind, h, hty, get_temp_vec4, ofGlslType_vec4]
    cases v.native_integers <;> rfl

theorem storage_ok_mono (vars : List ir_variable) (n m : Int) (entry : variable_storage)
    (h : storage_ok vars n entry) (hnm : n ≤ m) : storage_ok vars m entry := by
  obtain ⟨y, hy, hid, hc⟩ := h
  refine ⟨y, hy, hid, ?_⟩
  rcases hc with hc | hc | hc | ⟨hm, hf, h0, h1⟩
  · exact Or.inl hc
  · exact Or.inr (Or.inl hc)
  · exact Or.inr (Or.inr (Or.inl hc))
  · exact Or.inr (Or.inr (Or.inr ⟨hm, hf, h0, by omega⟩))

theorem is_register_of_append (storage more : List variable_storage) (var : ir_variable)
    (r : st_src_reg) (h : is_register_of storage var r) :
    is_register_of (storage ++ more) var r := by
  rcases h with ⟨entry, hf, hr⟩ | h
  · left
    refine ⟨entry, ?_, hr⟩
    rw [List.find?_append, hf]
    rfl
  · exact Or.inr h

/-- One dereference of a float vec4 variable during lowering: the result
register, the new entries and the new `next_temp`. -/
theorem visit_dereference_variable_step (vars : List ir_variable) (x : ir_variable)
    (hx : x ∈ vars) (hinj : ∀ y ∈ vars, y.id = x.id → y = x)
    (hvar : is_float_vec4_variable x) (v : glsl_to_tgsi_visitor)
    (hnt : 0 ≤ v.next_temp)
    (hinv : ∀ e ∈ v.variables_, storage_ok vars v.next_temp e) :
    ∃ r vs nt,
      visit_dereference_variable x v
        = some { v with result := r, variables_ := v.variables_ ++ vs, next_temp := nt } ∧
      v.next_temp ≤ nt ∧
      (∀ e ∈ v.variables_ ++ vs, storage_ok vars nt e) ∧
      (∃ file index array_id, r = vec4_register file index array_id ∧
        file ≠ PROGRAM_UNDEFINED ∧
        (file = PROGRAM_TEMPORARY → 0 ≤ index ∧ index < nt) ∧
        (x.mode = ir_var_shader_out → file = PROGRAM_OUTPUT)) ∧
      is_register_of (v.variables_ ++ vs) x r := by
  cases hfind : find_variable_storage v x with
  | some entry =>
    have hmem : entry ∈ v.variables_ := List.mem_of_find?_eq_some hfind
    have hid : entry.var = x.id := by
      have := List.find?_some hfind
      simpa using this
    obtain ⟨y, hy, hyid, hc⟩ := hinv entry hmem
    have hyx : y = x := hinj y hy (by rw [hyid, hid])
    subst hyx
    refine ⟨vec4_register entry.file entry.index entry.array_id, [], v.next_temp, ?_, le_refl _,
      ?_, ⟨entry.file, entry.index, entry.array_id, rfl, ?_, ?_, ?_⟩, ?_⟩
    · rw [visit_dereference_variable_found y v entry hvar.1 hfind]
      simp
    · simpa using hinv
    · rcases hc with hc | hc | hc | hc <;> simp [hc]
    · rcases hc with hc | hc | hc | hc <;> simp [hc]
    · intro hout
      rcases hc with hc | hc | hc | ⟨hc | hc, _⟩
      · rw [hout] at hc; exact absurd hc.1 (by decide)
      · rw [hout] at hc; exact absurd hc.1 (by decide)
      · exact hc.2
      · rw [hout] at hc; exact absurd hc (by decide)
      · rw [hout] at hc; exact absurd hc (by decide)
    · left
      refine ⟨entry, ?_, rfl⟩
      simpa [find_variable_storage] using hfind
  | none =>
    have hnone : v.variables_.find? (fun entry => entry.var = x.id) = none := by
      simpa [find_variable_storage] using hfind
    rcases visit_dereference_variable_new x v hvar hfind with ⟨hm, hv⟩ | ⟨file, index, hc, hv⟩
        | ⟨hm, hv⟩
    · refine ⟨vec4_register PROGRAM_SYSTEM_VALUE x.location 0, [], v.next_temp, ?_, le_refl _,
        ?_, ⟨PROGRAM_SYSTEM_VALUE, x.location, 0, rfl, ?_, ?_, ?_⟩, ?_⟩
      · rw [hv]; simp
      · simpa using hinv
      · decide
      · intro h; exact absurd h (by decide)
      · intro h; rw [hm] at h; exact absurd h (by decide)
      · exact Or.inr ⟨hm, rfl⟩
    · refine ⟨vec4_register file index 0, [⟨file, index, x.id, 0⟩], v.next_temp, hv, le_refl _,
        ?_, ⟨file, index, 0, rfl, ?_, ?_, ?_⟩, ?_⟩
      · intro e he
        rcases List.mem_append.mp he with he | he
        · exact hinv e he
        · simp only [List.mem_singleton] at he
          subst he
          refine ⟨x, hx, rfl, ?_⟩
          rcases hc with hc | hc | hc
          · exact Or.inl hc
          · exact Or.inr (Or.inl hc)
          · exact Or.inr (Or.inr (Or.inl hc))
      · rcases hc with hc | hc | hc <;> simp [hc.2]
      · rcases hc with hc | hc | hc <;> simp [hc.2]
      · rcases hc with hc | hc | hc <;> simp [hc.1, hc.2]
      · left
        refine ⟨⟨file, index, x.id, 0⟩, ?_, rfl⟩
        rw [List.find?_append, hnone]
        simp
    · refine ⟨vec4_register PROGRAM_TEMPORARY v.next_temp 0,
        [⟨PROGRAM_TEMPORARY, v.next_temp, x.id, 0⟩], v.next_temp + 1, hv, by omega, ?_,
        ⟨PROGRAM_TEMPORARY, v.next_temp, 0, rfl, ?_, ?_, ?_⟩, ?_⟩
      · intro e he
        rcases List.mem_append.mp he with he | he
        · exact storage_ok_mono vars _ _ e (hinv e he) (by omega)
        · simp only [List.mem_singleton] at he
          subst he
          exact ⟨x, hx, rfl, Or.inr (Or.inr (Or.inr ⟨hm, rfl, hnt, by simp⟩))⟩
      · decide
      · intro _; exact ⟨hnt, by omega⟩
      · intro h; rcases hm with hm | hm <;> rw [hm] at h <;> exact absurd h (by decide)
      · left
        refine ⟨⟨PROGRAM_TEMPORARY, v.next_temp, x.id, 0⟩, ?_, rfl⟩
        rw [List.find?_append, hnone]
        simp

/-- The register bound to a variable is what dereferencing it returns. -/
theorem register_of_bound (vars : List ir_variable) (x : ir_variable)
    (hx : x ∈ vars) (hinj : ∀ y ∈ vars, y.id = x.id → y = x)
    (hvar : is_float_vec4_variable x) (v : glsl_to_tgsi_visitor) (r : st_src_reg)
    (hinv : ∀ e ∈ v.variables_, storage_ok vars v.next_temp e)
    (hr : is_register_of v.variables_ x r) : register_of v x = some r := by
  unfold register_of
  rcases hr with ⟨entry, hf, hr⟩ | ⟨hm, hr⟩
  · rw [visit_dereference_variable_found x v entry hvar.1 (by simpa [find_variable_storage] using hf)]
    simp [hr]
  · have hfind : find_variable_storage v x = none := by
      unfold find_variable_storage
      rw [List.find?_eq_none]
      intro e he
      obtain ⟨y, hy, hyid, hc⟩ := hinv e he
      simp only [decide_eq_true_eq]
      intro hid
      have hyx : y = x := hinj y hy (by rw [hyid, hid])
      subst hyx
      rcases hc with hc | hc | hc | hc
      · rw [hm] at hc; exact absurd hc.1 (by decide)
      · rw [hm] at hc; exact absurd hc.1 (by decide)
      · rw [hm] at hc; exact absurd hc.1 (by decide)
      · rw [hm] at hc; rcases hc.1 with h | h <;> exact absurd h (by decide)
    rcases visit_dereference_variable_new x v hvar hfind with ⟨_, hv⟩ | ⟨file, index, hc, _⟩
        | ⟨hm2, _⟩
    · rw [hv]; simp [hr]
    · rw [hm] at hc
      rcases hc with hc | hc | hc <;> exact absurd hc.1 (by decide)
    · rw [hm] at hm2
      rcases hm2 with h | h <;> exact absurd h (by decide)

theorem get_opcode_mad_float (native_integers : Bool) (dst : st_dst_reg)
    (src0 src1 : st_src_reg) (h0 : src0.type = GLSL_TYPE_FLOAT)
    (h1 : src1.type = GLSL_TYPE_FLOAT) :
    get_opcode native_integers TGSI_OPCODE_MAD dst src0 src1 = some TGSI_OPCODE_MAD := by
  unfold get_opcode get_opcode_type
  simp only [h0, h1]
  cases native_integers <;> decide

/-- A `MAD` on float vec4 registers is emitted as one instruction. -/
theorem emit_asm1_mad (info : tgsi_opcode → tgsi_opcode_info) (ir : Option Nat)
    (dst : st_dst_reg) (f0 f1 f2 : gl_register_file) (i0 i1 i2 : Int) (a0 a1 a2 : Nat)
    (v : glsl_to_tgsi_visitor)
    (hd : dst.reladdr = .NULL ∧ dst.reladdr2 = .NULL) (htd : dst.type ≠ GLSL_TYPE_DOUBLE) :
    emit_asm1 info ir TGSI_OPCODE_MAD dst (vec4_register f0 i0 a0) (vec4_register f1 i1 a1)
        (vec4_register f2 i2 a2) undef_src v
      = some ({ v with instructions := v.instructions
                  ++ [new_instruction info ir TGSI_OPCODE_MAD dst undef_dst
                        (vec4_register f0 i0 a0) (vec4_register f1 i1 a1)
                        (vec4_register f2 i2 a2) undef_src] },
          some v.instructions.length) := by
  unfold emit_asm1
  rw [emit_asm_no_reladdr info ir _ dst undef_dst (vec4_register f0 i0 a0)
    (vec4_register f1 i1 a1) (vec4_register f2 i2 a2) undef_src v hd
    ⟨rfl, rfl⟩ ⟨rfl, rfl⟩ ⟨rfl, rfl⟩ ⟨rfl, rfl⟩ ⟨rfl, rfl⟩,
    get_opcode_mad_float _ dst (vec4_register f0 i0 a0) (vec4_register f1 i1 a1) rfl rfl]
  have hu : undef_dst.type ≠ GLSL_TYPE_DOUBLE := by decide
  have h0 : (vec4_register f0 i0 a0).type ≠ GLSL_TYPE_DOUBLE := by
    show GLSL_TYPE_FLOAT ≠ GLSL_TYPE_DOUBLE
    decide
  simp [emit_asm_double, new_instruction, htd, hu, h0]

/-- Lowering `a * b + c`: `try_emit_mad` fails on the second operand (a
variable), succeeds on the first (the product) and visits `a`, `b`, `c` in this
order. -/
theorem visit_rvalue_mad (info : tgsi_opcode → tgsi_opcode_info)
    (eid mid ia ib ic : Nat) (a b c : ir_variable) (v : glsl_to_tgsi_visitor) :
    visit_rvalue info
        (.expression eid glsl_type.vec4_type ir_binop_add
          (.cons (.expression mid glsl_type.vec4_type ir_binop_mul
              (.cons (.dereference_variable ia a) (.cons (.dereference_variable ib b) .nil)))
            (.cons (.dereference_variable ic c) .nil))) v
      = match visit_dereference_variable a v with
        | none => none
        | some va =>
          match visit_dereference_variable b va with
          | none => none
          | some vb =>
            match visit_dereference_variable c vb with
            | none => none
            | some vc =>
              try_emit_mad_tail info eid glsl_type.vec4_type va.result vb.result vc.result vc := by
  simp only [visit_rvalue, ir_rvalue.depth, ir_rvalue_list.depth, visit_rvalue_fuel,
    visit_rvalue_body, visit_expression, try_emit_mad, ir_rvalue_list.get?, if_true]
  cases h1 : visit_dereference_variable a v with
  | none => simp
  | some va =>
    cases h2 : visit_dereference_variable b va with
    | none => simp [h2]
    | some vb =>
      cases h3 : visit_dereference_variable c vb with
      | none => simp [h2, h3]
      | some vc =>
        cases h4 : try_emit_mad_tail info eid glsl_type.vec4_type va.result vb.result vc.result vc <;>
          simp [h2, h3, h4]

theorem get_assignment_lhs_variable (info : tgsi_opcode → tgsi_opcode_info) (id : Nat)
    (var : ir_variable) (v : glsl_to_tgsi_visitor) :
    get_assignment_lhs info (.dereference_variable id var) v
      = (visit_dereference_variable var v).map (fun v1 => (st_dst_reg.ofSrc v1.result, v1)) := by
  simp only [get_assignment_lhs, ir_rvalue.is_dereference, visit_rvalue, ir_rvalue.depth,
    visit_rvalue_fuel, visit_rvalue_body]
  cases visit_dereference_variable var v <;> simp

theorem new_instruction_fields (info : tgsi_opcode → tgsi_opcode_info) (ir : Option Nat)
    (op : tgsi_opcode) (dst dst1 : st_dst_reg) (src0 src1 src2 src3 : st_src_reg) :
    (new_instruction info ir op dst dst1 src0 src1 src2 src3).op = op ∧
    (new_instruction info ir op dst dst1 src0 src1 src2 src3).dst0 = dst ∧
    (new_instruction info ir op dst dst1 src0 src1 src2 src3).dst1 = dst1 ∧
    (new_instruction info ir op dst dst1 src0 src1 src2 src3).src0 = src0 ∧
    (new_instruction info ir op dst dst1 src0 src1 src2 src3).src1 = src1 ∧
    (new_instruction info ir op dst dst1 src0 src1 src2 src3).src2 = src2 ∧
    (new_instruction info ir op dst dst1 src0 src1 src2 src3).src3 = src3 ∧
    (new_instruction info ir op dst dst1 src0 src1 src2 src3).ir = ir ∧
    (new_instruction info ir op dst dst1 src0 src1 src2 src3).saturate = false ∧
    (new_instruction info ir op dst dst1 src0 src1 src2 src3).dead_mask = 0 ∧
    (new_instruction info ir op dst dst1 src0 src1 src2 src3).tex_offset_num_offset = 0 :=
  ⟨rfl, rfl, rfl, rfl, rfl, rfl, rfl, rfl, rfl, rfl, rfl⟩

/-- Lowering of `result = a * b + c` from an empty instruction list: a `MAD` into
a fresh temporary, marked dead in all four channels, followed by the same `MAD`
into the register of `result`. -/
theorem visit_mad_assignment (info : tgsi_opcode → tgsi_opcode_info)
    (ids : Nat × Nat × Nat × Nat × Nat × Nat × Nat) (a b c result : ir_variable)
    (hinj : ∀ x ∈ [a, b, c, result], ∀ y ∈ [a, b, c, result], y.id = x.id → y = x)
    (ha : is_float_vec4_variable a) (hb : is_float_vec4_variable b)
    (hc : is_float_vec4_variable c) (hr : is_float_vec4_variable result)
    (hout : result.mode = ir_var_shader_out)
    (v : glsl_to_tgsi_visitor) (hempty : v.instructions = []) (hnt : 0 ≤ v.next_temp)
    (hinv : ∀ e ∈ v.variables_, storage_ok [a, b, c, result] v.next_temp e) :
    ∃ v1 ra rb rc rr k,
      visit_statement info (mad_assignment ids a b c result) v = some v1 ∧
      v1.instructions =
        [{ new_instruction info (some ids.2.2.1) TGSI_OPCODE_MAD
              { st_dst_reg.ofSrc (vec4_register PROGRAM_TEMPORARY k 0) with
                writemask := WRITEMASK_XYZW }
              undef_dst ra rb rc undef_src with dead_mask := WRITEMASK_XYZW },
          new_instruction info (some ids.1) TGSI_OPCODE_MAD (st_dst_reg.ofSrc rr) undef_dst
            ra rb rc undef_src] ∧
      0 ≤ k ∧ k < v1.next_temp ∧
      (∀ e ∈ v1.variables_, storage_ok [a, b, c, result] v1.next_temp e) ∧
      is_register_of v1.variables_ a ra ∧ is_register_of v1.variables_ b rb ∧
      is_register_of v1.variables_ c rc ∧ is_register_of v1.variables_ result rr ∧
      (∀ r ∈ [ra, rb, rc], ∃ file index array_id, r = vec4_register file index array_id ∧
        (file = PROGRAM_TEMPORARY → 0 ≤ index ∧ index < v1.next_temp)) ∧
      (∃ index array_id, rr = vec4_register PROGRAM_OUTPUT index array_id) := by
  have hma : a ∈ [a, b, c, result] := by simp
  have hmb : b ∈ [a, b, c, result] := by simp
  have hmc : c ∈ [a, b, c, result] := by simp
  have hmr : result ∈ [a, b, c, result] := by simp
  obtain ⟨ra, vsa, nta, hva, hlea, hinva, ⟨fa, ia, aa, hra, -, hta, -⟩, hbinda⟩ :=
    visit_dereference_variable_step _ a hma (hinj a hma) ha v hnt hinv
  obtain ⟨rb, vsb, ntb, hvb, hleb, hinvb, ⟨fb, ib, ab, hrb, -, htb, -⟩, hbindb⟩ :=
    visit_dereference_variable_step _ b hmb (hinj b hmb) hb
      { v with result := ra, variables_ := v.variables_ ++ vsa, next_temp := nta }
      (by show 0 ≤ nta; omega) hinva
  obtain ⟨rc, vsc, ntc, hvc, hlec, hinvc, ⟨fc, ic, ac, hrc, -, htc, -⟩, hbindc⟩ :=
    visit_dereference_variable_step _ c hmc (hinj c hmc) hc
      { v with result := rb, variables_ := v.variables_ ++ vsa ++ vsb, next_temp := ntb }
      (by show 0 ≤ ntb; simp only [] at hleb; omega) hinvb
  obtain ⟨rr, vsr, ntr, hvr, hler, hinvr, ⟨fr, ir, ar, hrr, -, -, hfr⟩, hbindr⟩ :=
    visit_dereference_variable_step _ result hmr (hinj result hmr) hr
      { v with result := vec4_register PROGRAM_TEMPORARY ntc 0,
               variables_ := v.variables_ ++ vsa ++ vsb ++ vsc, next_temp := ntc + 1,
               instructions := [new_instruction info (some ids.2.2.1) TGSI_OPCODE_MAD
                  { st_dst_reg.ofSrc (vec4_register PROGRAM_TEMPORARY ntc 0) with
                    writemask := WRITEMASK_XYZW }
                  undef_dst ra rb rc undef_src] }
      (by show 0 ≤ ntc + 1; simp only [] at hleb hlec; omega)
      (fun e he => storage_ok_mono _ _ _ e (hinvc e he) (by show ntc ≤ ntc + 1; omega))
  simp only [] at hlea hleb hlec hler hinva hinvb hinvc hinvr hbinda hbindb hbindc hbindr
  simp only [] at hva hvb hvc hvr
  have hfr2 : fr = PROGRAM_OUTPUT := hfr hout
  subst hfr2
  subst hra hrb hrc hrr
  refine ⟨{ v with result := vec4_register PROGRAM_OUTPUT ir ar,
                   variables_ := v.variables_ ++ vsa ++ vsb ++ vsc ++ vsr, next_temp := ntr,
                   instructions :=
                    [{ new_instruction info (some ids.2.2.1) TGSI_OPCODE_MAD
                          { st_dst_reg.ofSrc (vec4_register PROGRAM_TEMPORARY ntc 0) with
                            writemask := WRITEMASK_XYZW }
                          undef_dst (vec4_register fa ia aa) (vec4_register fb ib ab)
                          (vec4_register fc ic ac) undef_src with dead_mask := WRITEMASK_XYZW },
                      new_instruction info (some ids.1) TGSI_OPCODE_MAD
                        (st_dst_reg.ofSrc (vec4_register PROGRAM_OUTPUT ir ar)) undef_dst
                        (vec4_register fa ia aa) (vec4_register fb ib ab)
                        (vec4_register fc ic ac) undef_src] },
    vec4_register fa ia aa, vec4_register fb ib ab, vec4_register fc ic ac,
    vec4_register PROGRAM_OUTPUT ir ar, ntc, ?_, rfl, ?_, ?_, ?_, ?_, ?_, ?_, ?_, ?_, ?_⟩
  · have hmad := emit_asm1_mad info (some ids.2.2.1)
      { st_dst_reg.ofSrc (vec4_register PROGRAM_TEMPORARY ntc 0) with
        writemask := WRITEMASK_XYZW } fa fb fc ia ib ic aa ab ac
      { v with result := vec4_register PROGRAM_TEMPORARY ntc 0,
               variables_ := v.variables_ ++ vsa ++ vsb ++ vsc, next_temp := ntc + 1 }
      ⟨rfl, rfl⟩ (by show GLSL_TYPE_FLOAT ≠ GLSL_TYPE_DOUBLE; decide)
    have hmad2 := emit_asm1_mad info (some ids.1)
      { st_dst_reg.ofSrc (vec4_register PROGRAM_OUTPUT ir ar) with
        writemask := WRITEMASK_XYZW } fa fb fc ia ib ic aa ab ac
      { v with result := vec4_register PROGRAM_OUTPUT ir ar,
               variables_ := v.variables_ ++ vsa ++ vsb ++ vsc ++ vsr, next_temp := ntr,
               instructions := [new_instruction info (some ids.2.2.1) TGSI_OPCODE_MAD
                  { st_dst_reg.ofSrc (vec4_register PROGRAM_TEMPORARY ntc 0) with
                    writemask := WRITEMASK_XYZW }
                  undef_dst (vec4_register fa ia aa) (vec4_register fb ib ab)
                  (vec4_register fc ic ac) undef_src] }
      ⟨rfl, rfl⟩ (by show GLSL_TYPE_FLOAT ≠ GLSL_TYPE_DOUBLE; decide)
    have hsz : type_size glsl_type.vec4_type = some 1 := by decide
    have hsc : glsl_type.vec4_type.is_scalar = false := by decide
    have hve : glsl_type.vec4_type.vector_elements = 4 := by decide
    have hwm : (1 <<< glsl_type.vec4_type.vector_elements) - 1 = WRITEMASK_XYZW := by decide
    have hwz : ¬ (WRITEMASK_XYZW = 0) := by decide
    have hsw : assignment_swizzle WRITEMASK_XYZW SWIZZLE_XYZW = SWIZZLE_XYZW := by decide
    simp only [visit_statement, mad_assignment, visit_assignment, visit_rvalue_mad, hva, hvb,
      hvc, try_emit_mad_tail, get_temp_vec4, get_assignment_lhs_variable]
    simp only [hwm, hempty, List.nil_append, List.length_nil] at hmad hmad2 hvr ⊢
    rw [hmad]
    simp only [Option.map_some']
    rw [hvr]
    simp only [Option.map_some', ir_rvalue.type, hr.1, hsc, hwz, if_false, Bool.false_and,
      Bool.and_false]
    have hsw2 : (vec4_register PROGRAM_TEMPORARY ntc 0).set_swizzle
        (assignment_swizzle WRITEMASK_XYZW (vec4_register PROGRAM_TEMPORARY ntc 0).swizzle)
        = vec4_register PROGRAM_TEMPORARY ntc 0 := by
      show (vec4_register PROGRAM_TEMPORARY ntc 0).set_swizzle
        (assignment_swizzle WRITEMASK_XYZW SWIZZLE_XYZW) = _
      rw [hsw]
      rfl
    have hf1 : (vec4_register PROGRAM_TEMPORARY ntc 0).file ≠ PROGRAM_UNDEFINED := by
      show PROGRAM_TEMPORARY ≠ PROGRAM_UNDEFINED
      decide
    have hf2 : (st_dst_reg.ofSrc (vec4_register PROGRAM_OUTPUT ir ar)).file
        ≠ PROGRAM_UNDEFINED := by
      show PROGRAM_OUTPUT ≠ PROGRAM_UNDEFINED
      decide
    simp only [Bool.false_eq_true, if_false, hsw2, hf1, hf2, or_self, List.getLast?_singleton,
      ir_rvalue.is_expression, ir_rvalue.id, hsz, true_and]
    have hni := new_instruction_fields info (some ids.2.2.1) TGSI_OPCODE_MAD
      { st_dst_reg.ofSrc (vec4_register PROGRAM_TEMPORARY ntc 0) with
        writemask := WRITEMASK_XYZW } undef_dst (vec4_register fa ia aa)
      (vec4_register fb ib ab) (vec4_register fc ic ac) undef_src
    simp only [hni.1, hni.2.1, hni.2.2.2.1, hni.2.2.2.2.1, hni.2.2.2.2.2.1, hni.2.2.2.2.2.2.1,
      hni.2.2.2.2.2.2.2.1, hni.2.2.2.2.2.2.2.2.1, and_self, if_true]
    rw [hmad2]
    simp only [List.length_singleton, List.singleton_append, Nat.sub_self]
    rfl
  · show 0 ≤ ntc
    omega
  · show ntc < ntr
    omega
  · exact hinvr
  · have h := is_register_of_append _ (vsb ++ vsc ++ vsr) a _ hbinda
    simpa [List.append_assoc] using h
  · have h := is_register_of_append _ (vsc ++ vsr) b _ hbindb
    simpa [List.append_assoc] using h
  · have h := is_register_of_append _ vsr c _ hbindc
    simpa [List.append_assoc] using h
  · exact hbindr
  · intro r hr
    simp only [List.mem_cons, List.mem_singleton, List.not_mem_nil, or_false] at hr
    rcases hr with hr | hr | hr
    · exact ⟨fa, ia, aa, hr, fun h => ⟨(hta h).1, by have := (hta h).2; show ia < ntr; omega⟩⟩
    · exact ⟨fb, ib, ab, hr, fun h => ⟨(htb h).1, by have := (htb h).2; show ib < ntr; omega⟩⟩
    · exact ⟨fc, ic, ac, hr, fun h => ⟨(htc h).1, by have := (htc h).2; show ic < ntr; omega⟩⟩
  · exact ⟨ir, ar, rfl⟩

/-! ## Invariants of the scan of `eliminate_dead_code` -/

/-- A loop whose body keeps an invariant and cannot fail under it runs to the end
and keeps the invariant. -/
theorem loop_range_inv {σ : Type} (P : σ → Prop) (n : Nat) (f : Nat → σ → Option σ)
    (h : ∀ j, j < n → ∀ s, P s → ∃ s1, f j s = some s1 ∧ P s1) (s : σ) (hs : P s) :
    ∃ s1, loop_range n f s = some s1 ∧ P s1 := by
  induction n with
  | zero => exact ⟨s, by simp [loop_range], hs⟩
  | succ n ih =>
    obtain ⟨s1, h1, hp1⟩ := ih (fun j hj => h j (by omega))
    obtain ⟨s2, h2, hp2⟩ := h n (by omega) s1 hp1
    refine ⟨s2, ?_, hp2⟩
    unfold loop_range at h1 ⊢
    rw [List.range_succ, List.foldlM_append, h1]
    simpa using h2

theorem arr_set_some {α : Type} (a : List α) (i : Int) (x : α) (h0 : 0 ≤ i)
    (h1 : i.toNat < a.length) : arr_set a i x = some (a.set i.toNat x) := by
  unfold arr_set
  simp [h0, h1]

theorem arr_get_some {α : Type} (a : List α) (i : Int) (h0 : 0 ≤ i)
    (h1 : i.toNat < a.length) : ∃ x, arr_get a i = some x ∧ x ∈ a := by
  unfold arr_get
  simp only [h0, if_true]
  refine ⟨a[i.toNat], ?_, List.getElem_mem h1⟩
  simp [h1]

/-- Marking a channel dead leaves the other positions alone and a full mask full. -/
theorem mark_dead_spec (dead_masks : List Nat) (q c : Nat) (hc : c < 4) :
    (mark_dead dead_masks q c).length = dead_masks.length ∧
    (∀ p : Nat, p ≠ q → (mark_dead dead_masks q c)[p]? = dead_masks[p]?) ∧
    (∀ p : Nat, dead_masks[p]? = some WRITEMASK_XYZW →
      (mark_dead dead_masks q c)[p]? = some WRITEMASK_XYZW) := by
  unfold mark_dead
  refine ⟨by simp, ?_, ?_⟩
  · intro p hp
    exact List.getElem?_modify_ne _ _ (Ne.symm hp)
  · intro p h
    rw [List.getElem?_modify]
    by_cases hqp : q = p
    · subst hqp
      simp only [h, if_true, Option.map_some', Option.some.injEq]
      have : c = 0 ∨ c = 1 ∨ c = 2 ∨ c = 3 := by omega
      rcases this with h | h | h | h <;> subst h <;> decide
    · simp [hqp, h]

theorem table_index_in_bounds (next_temp index : Int) (c n : Nat)
    (hn : n = next_temp.toNat * 4) (h0 : 0 ≤ index) (h1 : index < next_temp) (hc : c < 4) :
    0 ≤ 4 * index + (c : Int) ∧ (4 * index + (c : Int)).toNat < n := by
  subst hn
  constructor
  · omega
  · omega

/-- An operand read by the scan only clears entries of `writes`. -/
theorem dce_read_inv (Q : Nat → Prop) (n : Nat) (next_temp : Int)
    (hn : n = next_temp.toNat * 4) (src : st_src_reg)
    (hb : temp_in_bounds next_temp src.file src.reladdr src.index)
    (writes : List (Option Nat)) (hlen : writes.length = n)
    (hQ : ∀ e ∈ writes, ∀ q, e = some q → Q q) :
    ∃ w, dce_read src writes = some w ∧ w.length = n ∧ ∀ e ∈ w, ∀ q, e = some q → Q q := by
  unfold dce_read
  by_cases hf : src.file = PROGRAM_TEMPORARY
  · by_cases hr : src.reladdr.isSet = true
    · refine ⟨writes.map (fun _ => none), by simp [hf, hr], by simp [hlen], ?_⟩
      intro e he q hq
      simp only [List.mem_map] at he
      obtain ⟨_, _, he⟩ := he
      rw [← he] at hq
      exact absurd hq (by simp)
    · have hr2 : src.reladdr.isSet = false := by simpa using hr
      obtain ⟨h0, h1⟩ := hb hf hr2
      simp only [hf, hr2, true_and, Bool.false_eq_true, if_false, if_true]
      exact loop_range_inv (fun w => w.length = n ∧ ∀ e ∈ w, ∀ q, e = some q → Q q) 4 _
        (fun c hc w hw => by
          obtain ⟨hwl, hwq⟩ := hw
          obtain ⟨hi0, hi1⟩ := table_index_in_bounds next_temp src.index c n hn h0 h1 hc
          by_cases hch : src_chans src.swizzle &&& (1 <<< c) ≠ 0
          · refine ⟨w.set (4 * src.index + (c : Int)).toNat none, ?_, by simp [hwl], ?_⟩
            · show (if src_chans src.swizzle &&& (1 <<< c) ≠ 0 then
                  arr_set w (4 * src.index + (c : Int)) none else some w) = _
              rw [if_pos hch]
              exact arr_set_some w _ none hi0 (by rw [hwl]; exact hi1)
            · intro e he q hq
              rcases List.mem_or_eq_of_mem_set he with he | he
              · exact hwq e he q hq
              · rw [he] at hq; exact absurd hq (by simp)
          · refine ⟨w, ?_, hwl, hwq⟩
            show (if src_chans src.swizzle &&& (1 <<< c) ≠ 0 then
                arr_set w (4 * src.index + (c : Int)) none else some w) = _
            rw [if_neg hch])
        writes ⟨hlen, hQ⟩
  · exact ⟨writes, by simp [hf], hlen, hQ⟩

/-- The reads of one instruction only clear entries of `writes`. -/
theorem dce_reads_inv (Q : Nat → Prop) (n : Nat) (next_temp : Int)
    (hn : n = next_temp.toNat * 4) (inst : glsl_to_tgsi_instruction)
    (hb : inst_in_bounds next_temp inst)
    (writes : List (Option Nat)) (hlen : writes.length = n)
    (hQ : ∀ e ∈ writes, ∀ q, e = some q → Q q) :
    ∃ w, dce_reads inst writes = some w ∧ w.length = n ∧ ∀ e ∈ w, ∀ q, e = some q → Q q := by
  obtain ⟨hb0, hb1, hb2, hb3, hbo, -⟩ := hb
  obtain ⟨w0, e0, l0, q0⟩ := dce_read_inv Q n next_temp hn inst.src0 hb0 writes hlen hQ
  obtain ⟨w1, e1, l1, q1⟩ := dce_read_inv Q n next_temp hn inst.src1 hb1 w0 l0 q0
  obtain ⟨w2, e2, l2, q2⟩ := dce_read_inv Q n next_temp hn inst.src2 hb2 w1 l1 q1
  obtain ⟨w3, e3, l3, q3⟩ := dce_read_inv Q n next_temp hn inst.src3 hb3 w2 l2 q2
  unfold dce_reads
  simp only [e0, e1, e2, e3]
  exact loop_range_inv (fun w => w.length = n ∧ ∀ e ∈ w, ∀ q, e = some q → Q q)
    inst.tex_offset_num_offset _
    (fun j hj w hw => by
      obtain ⟨off, ho, hbj⟩ := hbo j hj
      obtain ⟨w', e', l', q'⟩ := dce_read_inv Q n next_temp hn off hbj w hw.1 hw.2
      refine ⟨w', ?_, l', q'⟩
      show (match inst.tex_offsets j with
        | none => none
        | some off => dce_read off w) = _
      rw [ho]
      exact e')
    w3 ⟨l3, q3⟩

/-- Recording one destination channel keeps the invariant of the scan. -/
theorem dce_write_chan_inv (Q : Nat → Prop) (n : Nat) (dead_masks0 : List Nat)
    (next_temp : Int) (hn : n = next_temp.toNat * 4) (pos : Nat) (hpos : Q pos)
    (dst : st_dst_reg) (h0 : 0 ≤ dst.index) (h1 : dst.index < next_temp) (c : Nat)
    (hc : c < 4) (st : dce_state) (hst : dce_inv Q n dead_masks0 st) :
    ∃ st1, dce_write_chan pos dst c st = some st1 ∧ dce_inv Q n dead_masks0 st1 := by
  obtain ⟨hwl, hll, hq, hdl, hframe, hfull⟩ := hst
  obtain ⟨hi0, hi1⟩ := table_index_in_bounds next_temp dst.index c n hn h0 h1 hc
  unfold dce_write_chan
  by_cases hm : dst.writemask &&& (1 <<< c) ≠ 0
  · rw [if_pos hm]
    obtain ⟨prev, hprev, hmem⟩ := arr_get_some st.writes _ hi0 (by rw [hwl]; exact hi1)
    obtain ⟨lvl, hlvl, -⟩ := arr_get_some st.write_level _ hi0 (by rw [hll]; exact hi1)
    have hs1 := arr_set_some st.writes _ (some pos) hi0 (by rw [hwl]; exact hi1)
    have hs2 := arr_set_some st.write_level _ st.level hi0 (by rw [hll]; exact hi1)
    simp only [hprev, hlvl, hs1, hs2]
    have hq1 : ∀ e ∈ st.writes.set (4 * dst.index + (c : Int)).toNat (some pos),
        ∀ q, e = some q → Q q := by
      intro e he q heq
      rcases List.mem_or_eq_of_mem_set he with he | he
      · exact hq e he q heq
      · rw [he] at heq
        simp only [Option.some.injEq] at heq
        rw [← heq]; exact hpos
    cases prev with
    | none =>
      exact ⟨_, rfl, by simp [hwl], by simp [hll], hq1, hdl, hframe, hfull⟩
    | some q =>
      by_cases hlt : lvl < st.level
      · exact ⟨st, by simp [hlt], hwl, hll, hq, hdl, hframe, hfull⟩
      · have hQq : Q q := hq _ hmem q rfl
        obtain ⟨ml, mne, mfull⟩ := mark_dead_spec st.dead_masks q c hc
        refine ⟨{ st with
            writes := st.writes.set (4 * dst.index + (c : Int)).toNat (some pos),
            write_level := st.write_level.set (4 * dst.index + (c : Int)).toNat st.level,
            dead_masks := mark_dead st.dead_masks q c },
          by simp only [hlt, if_false], by simp [hwl], by simp [hll], hq1, ?_, ?_, ?_⟩
        · show (mark_dead st.dead_masks q c).length = _
          rw [ml, hdl]
        · intro p hp
          show (mark_dead st.dead_masks q c)[p]? = _
          have hpq : p ≠ q := fun h => hp (h ▸ hQq)
          rw [mne p hpq]
          exact hframe p hp
        · intro p hp
          show (mark_dead st.dead_masks q c)[p]? = _
          exact mfull p (hfull p hp)
  · exact ⟨st, by rw [if_neg hm], hwl, hll, hq, hdl, hframe, hfull⟩

/-- Recording one destination keeps the invariant of the scan. -/
theorem dce_write_inv (Q : Nat → Prop) (n : Nat) (dead_masks0 : List Nat)
    (next_temp : Int) (hn : n = next_temp.toNat * 4) (pos : Nat) (dst : st_dst_reg)
    (hpos : dst.file = PROGRAM_TEMPORARY → Q pos)
    (hb : temp_in_bounds next_temp dst.file dst.reladdr dst.index)
    (st : dce_state) (hst : dce_inv Q n dead_masks0 st) :
    ∃ st1, dce_write pos dst st = some st1 ∧ dce_inv Q n dead_masks0 st1 := by
  unfold dce_write
  by_cases h : dst.file = PROGRAM_TEMPORARY ∧ dst.reladdr.isSet = false
  · rw [if_pos h]
    obtain ⟨h0, h1⟩ := hb h.1 h.2
    exact loop_range_inv (dce_inv Q n dead_masks0) 4 _
      (fun c hc s hs =>
        dce_write_chan_inv Q n dead_masks0 next_temp hn pos (hpos h.1) dst h0 h1 c hc s hs)
      st hst
  · exact ⟨st, by rw [if_neg h], hst⟩

/-- One step of the scan keeps its invariant and cannot fail on an instruction
whose operands are in bounds. -/
theorem dce_step_inv (Q : Nat → Prop) (n : Nat) (dead_masks0 : List Nat)
    (next_temp : Int) (hn : n = next_temp.toNat * 4) (pos : Nat)
    (inst : glsl_to_tgsi_instruction) (hb : inst_in_bounds next_temp inst)
    (hpos : inst.dst0.file = PROGRAM_TEMPORARY ∨ inst.dst1.file = PROGRAM_TEMPORARY → Q pos)
    (st : dce_state) (hst : dce_inv Q n dead_masks0 st) :
    ∃ st1, dce_step next_temp pos inst st = some st1 ∧ dce_inv Q n dead_masks0 st1 := by
  have hb' := hb
  obtain ⟨-, -, -, -, -, hd0, hd1, hassert⟩ := hb'
  obtain ⟨hwl, hll, hq, hdl, hframe, hfull⟩ := hst
  have hsw : ∃ st2, (if inst.op = TGSI_OPCODE_BGNLOOP ∨ inst.op = TGSI_OPCODE_ENDLOOP
          ∨ inst.op = TGSI_OPCODE_CONT ∨ inst.op = TGSI_OPCODE_BRK then
        some { st with writes := st.writes.map (fun _ => none) }
      else if inst.op = TGSI_OPCODE_ENDIF ∨ inst.op = TGSI_OPCODE_ELSE then
        some { st with
          write_level := List.zipWith (fun w lvl =>
            match w with
            | none => lvl
            | some _ => if lvl = st.level then st.level - 1 else lvl) st.writes st.write_level,
          level := if inst.op = TGSI_OPCODE_ENDIF then st.level - 1 else st.level }
      else
        (dce_reads inst (if inst.op = TGSI_OPCODE_IF ∨ inst.op = TGSI_OPCODE_UIF then
            { st with level := st.level + 1 } else st).writes).map
          (fun w => { (if inst.op = TGSI_OPCODE_IF ∨ inst.op = TGSI_OPCODE_UIF then
            { st with level := st.level + 1 } else st) with writes := w })) = some st2
      ∧ dce_inv Q n dead_masks0 st2 := by
    by_cases h1 : inst.op = TGSI_OPCODE_BGNLOOP ∨ inst.op = TGSI_OPCODE_ENDLOOP
        ∨ inst.op = TGSI_OPCODE_CONT ∨ inst.op = TGSI_OPCODE_BRK
    · rw [if_pos h1]
      refine ⟨_, rfl, by simp [hwl], hll, ?_, hdl, hframe, hfull⟩
      intro e he q heq
      simp only [List.mem_map] at he
      obtain ⟨_, _, he⟩ := he
      rw [← he] at heq
      exact absurd heq (by simp)
    · rw [if_neg h1]
      by_cases h2 : inst.op = TGSI_OPCODE_ENDIF ∨ inst.op = TGSI_OPCODE_ELSE
      · rw [if_pos h2]
        exact ⟨_, rfl, hwl, by simp [hwl, hll], hq, hdl, hframe, hfull⟩
      · rw [if_neg h2]
        have hw : (if inst.op = TGSI_OPCODE_IF ∨ inst.op = TGSI_OPCODE_UIF then
            { st with level := st.level + 1 } else st).writes = st.writes := by
          split_ifs <;> rfl
        rw [hw]
        obtain ⟨w, hr, hl, hqw⟩ := dce_reads_inv Q n next_temp hn inst hb st.writes hwl hq
        rw [hr]
        refine ⟨_, rfl, hl, ?_, hqw, ?_, ?_, ?_⟩
        · split_ifs <;> exact hll
        · split_ifs <;> exact hdl
        · split_ifs <;> exact hframe
        · split_ifs <;> exact hfull
  obtain ⟨st2, hs2, hinv2⟩ := hsw
  obtain ⟨st3, hs3, hinv3⟩ := dce_write_inv Q n dead_masks0 next_temp hn pos inst.dst0
    (fun h => hpos (Or.inl h)) hd0 st2 hinv2
  obtain ⟨st4, hs4, hinv4⟩ := dce_write_inv Q n dead_masks0 next_temp hn pos inst.dst1
    (fun h => hpos (Or.inr h)) hd1 st3 hinv3
  refine ⟨st4, ?_, hinv4⟩
  unfold dce_step
  have ha : ¬ ¬ (inst.dst0.file ≠ PROGRAM_TEMPORARY ∨ inst.dst0.index < next_temp) := by
    intro h
    apply h
    by_cases hf : inst.dst0.file = PROGRAM_TEMPORARY
    · exact Or.inr (hassert hf)
    · exact Or.inl hf
  rw [if_neg ha]
  have key : ∀ o : Option dce_state, o = some st2 →
      (match o with
        | none => none
        | some st2 =>
          match dce_write pos inst.dst0 st2 with
          | none => none
          | some st3 => dce_write pos inst.dst1 st3) = some st4 := by
    intro o ho
    subst ho
    simp only [hs3]
    exact hs4
  exact key _ hs2

/-- The scan keeps its invariant and cannot fail on instructions whose operands
are in bounds. -/
theorem dce_scan_inv (Q : Nat → Prop) (n : Nat) (dead_masks0 : List Nat)
    (next_temp : Int) (hn : n = next_temp.toNat * 4)
    (instructions : List glsl_to_tgsi_instruction) :
    ∀ (pos : Nat) (st : dce_state),
      (∀ i inst, instructions[i]? = some inst → inst_in_bounds next_temp inst ∧
        (inst.dst0.file = PROGRAM_TEMPORARY ∨ inst.dst1.file = PROGRAM_TEMPORARY
          → Q (pos + i))) →
      dce_inv Q n dead_masks0 st →
      ∃ st1, dce_scan next_temp instructions pos st = some st1 ∧
        dce_inv Q n dead_masks0 st1 := by
  induction instructions with
  | nil => intro pos st _ hst; exact ⟨st, rfl, hst⟩
  | cons inst rest ih =>
    intro pos st hall hst
    obtain ⟨hb, hp⟩ := hall 0 inst (by simp)
    obtain ⟨st1, hs1, hinv1⟩ := dce_step_inv Q n dead_masks0 next_temp hn pos inst hb
      (by simpa using hp) st hst
    obtain ⟨st2, hs2, hinv2⟩ := ih (pos + 1) st1
      (fun i inst' hi => by
        have := hall (i + 1) inst' (by simpa using hi)
        refine ⟨this.1, fun h => ?_⟩
        have := this.2 h
        rwa [show pos + 1 + i = pos + (i + 1) by omega])
      hinv1
    exact ⟨st2, by simp only [dce_scan, hs1]; exact hs2, hinv2⟩

/-- The loop over what is left in `writes` marks only positions in `Q`. -/
theorem dce_mark_remaining_inv (Q : Nat → Prop) (writes : List (Option Nat)) :
    ∀ (k : Nat) (dead_masks : List Nat),
      (∀ e ∈ writes, ∀ q, e = some q → Q q) →
      (dce_mark_remaining writes k dead_masks).length = dead_masks.length ∧
      (∀ p : Nat, ¬ Q p → (dce_mark_remaining writes k dead_masks)[p]? = dead_masks[p]?) ∧
      (∀ p : Nat, dead_masks[p]? = some WRITEMASK_XYZW →
        (dce_mark_remaining writes k dead_masks)[p]? = some WRITEMASK_XYZW) := by
  induction writes with
  | nil => intro k dm _; exact ⟨rfl, fun _ _ => rfl, fun _ h => h⟩
  | cons w ws ih =>
    intro k dm hq
    have hq' : ∀ e ∈ ws, ∀ q, e = some q → Q q := fun e he => hq e (List.mem_cons_of_mem _ he)
    cases w with
    | none =>
      simp only [dce_mark_remaining]
      exact ih (k + 1) dm hq'
    | some pos =>
      simp only [dce_mark_remaining]
      have hQ : Q pos := hq (some pos) (List.mem_cons_self _ _) pos rfl
      obtain ⟨ml, mne, mfull⟩ := mark_dead_spec dm pos (k % 4) (Nat.mod_lt _ (by decide))
      obtain ⟨l, f, g⟩ := ih (k + 1) (mark_dead dm pos (k % 4)) hq'
      refine ⟨by rw [l, ml], ?_, ?_⟩
      · intro p hp
        rw [f p hp]
        exact mne p (fun h => hp (h ▸ hQ))
      · intro p hp
        exact g p (mfull p hp)

/-- The pass `eliminate_dead_code` cannot fail on instructions whose operands are
in bounds; the dead masks it sweeps with differ from the initial ones only at
positions of instructions that write a temporary, and a full dead mask stays
full. -/
theorem eliminate_dead_code_list_masks (Q : Nat → Prop) (next_temp : Int)
    (instructions : List glsl_to_tgsi_instruction)
    (hall : ∀ i inst, instructions[i]? = some inst → inst_in_bounds next_temp inst ∧
      (inst.dst0.file = PROGRAM_TEMPORARY ∨ inst.dst1.file = PROGRAM_TEMPORARY → Q i)) :
    ∃ dead_masks,
      eliminate_dead_code_list next_temp instructions
        = some (dce_sweep instructions dead_masks) ∧
      dead_masks.length = instructions.length ∧
      (∀ p : Nat, ¬ Q p → dead_masks[p]? = (instructions.map (fun i => i.dead_mask))[p]?) ∧
      (∀ p : Nat, (instructions.map (fun i => i.dead_mask))[p]? = some WRITEMASK_XYZW →
        dead_masks[p]? = some WRITEMASK_XYZW) := by
  have hinit : dce_inv Q (next_temp.toNat * 4) (instructions.map (fun i => i.dead_mask))
      ⟨List.replicate (next_temp.toNat * 4) none, List.replicate (next_temp.toNat * 4) 0, 0,
        instructions.map (fun i => i.dead_mask)⟩ := by
    refine ⟨by simp, by simp, ?_, rfl, fun _ _ => rfl, fun _ h => h⟩
    intro e he q hq
    rw [List.eq_of_mem_replicate he] at hq
    exact absurd hq (by simp)
  obtain ⟨st, hs, hwl, hll, hq, hdl, hframe, hfull⟩ :=
    dce_scan_inv Q (next_temp.toNat * 4) _ next_temp rfl instructions 0 _
      (fun i inst hi => by simpa using hall i inst hi) hinit
  obtain ⟨l, f, g⟩ := dce_mark_remaining_inv Q st.writes 0 st.dead_masks hq
  refine ⟨dce_mark_remaining st.writes 0 st.dead_masks, ?_, ?_, ?_, ?_⟩
  · unfold eliminate_dead_code_list
    simp only [hs]
  · rw [l, hdl]; simp
  · intro p hp
    rw [f p hp]
    exact hframe p hp
  · intro p hp
    exact g p (hfull p hp)

/-- The final loop deletes an instruction that writes XYZW and is dead in XYZW. -/
theorem dce_sweep_inst_dead (inst : glsl_to_tgsi_instruction)
    (h : inst.dst0.writemask = WRITEMASK_XYZW) :
    dce_sweep_inst inst WRITEMASK_XYZW = none := by
  have hand : and_not WRITEMASK_XYZW WRITEMASK_XYZW = 0 := by decide
  have hne : ¬ (WRITEMASK_XYZW = 0 ∨ WRITEMASK_XYZW = 0) := by decide
  unfold dce_sweep_inst
  simp only [h]
  rw [if_neg hne, if_pos hand]

/-- The final loop keeps an instruction whose dead mask stayed empty. -/
theorem dce_sweep_inst_live (inst : glsl_to_tgsi_instruction) (h : inst.dead_mask = 0) :
    dce_sweep_inst inst 0 = some inst := by
  unfold dce_sweep_inst
  simp only [true_or, if_true]
  rw [← h]

/-- The two instructions `visit_mad_assignment` describes, by their members. -/
theorem visit_mad_assignment_members (info : tgsi_opcode → tgsi_opcode_info)
    (ids : Nat × Nat × Nat × Nat × Nat × Nat × Nat) (a b c result : ir_variable)
    (hinj : ∀ x ∈ [a, b, c, result], ∀ y ∈ [a, b, c, result], y.id = x.id → y = x)
    (ha : is_float_vec4_variable a) (hb : is_float_vec4_variable b)
    (hc : is_float_vec4_variable c) (hr : is_float_vec4_variable result)
    (hout : result.mode = ir_var_shader_out)
    (v : glsl_to_tgsi_visitor) (hempty : v.instructions = []) (hnt : 0 ≤ v.next_temp)
    (hinv : ∀ e ∈ v.variables_, storage_ok [a, b, c, result] v.next_temp e) :
    ∃ v1 i0 i1 ra rb rc rr,
      visit_statement info (mad_assignment ids a b c result) v = some v1 ∧
      v1.instructions = [i0, i1] ∧
      (i0.dst0.file = PROGRAM_TEMPORARY ∧ 0 ≤ i0.dst0.index ∧ i0.dst0.index < v1.next_temp ∧
        i0.dst0.writemask = WRITEMASK_XYZW ∧ i0.dead_mask = WRITEMASK_XYZW ∧
        i0.dst1.file = PROGRAM_UNDEFINED ∧ i0.src0 = ra ∧ i0.src1 = rb ∧ i0.src2 = rc ∧
        i0.src3.file = PROGRAM_UNDEFINED ∧ i0.tex_offset_num_offset = 0) ∧
      (i1.op = TGSI_OPCODE_MAD ∧ i1.dst0 = st_dst_reg.ofSrc rr ∧ i1.dead_mask = 0 ∧
        i1.dst1.file = PROGRAM_UNDEFINED ∧ i1.src0 = ra ∧ i1.src1 = rb ∧ i1.src2 = rc ∧
        i1.src3.file = PROGRAM_UNDEFINED ∧ i1.tex_offset_num_offset = 0) ∧
      (∀ e ∈ v1.variables_, storage_ok [a, b, c, result] v1.next_temp e) ∧
      is_register_of v1.variables_ a ra ∧ is_register_of v1.variables_ b rb ∧
      is_register_of v1.variables_ c rc ∧ is_register_of v1.variables_ result rr ∧
      (∀ r ∈ [ra, rb, rc], r.file = PROGRAM_TEMPORARY → 0 ≤ r.index ∧ r.index < v1.next_temp) ∧
      rr.file = PROGRAM_OUTPUT := by
  obtain ⟨v1, ra, rb, rc, rr, k, hvis, hinsts, hk0, hk1, hinv1, hba, hbb, hbc, hbr, hregs,
      ⟨ir, ar, hrr⟩⟩ :=
    visit_mad_assignment info ids a b c result hinj ha hb hc hr hout v hempty hnt hinv
  refine ⟨v1, _, _, ra, rb, rc, rr, hvis, hinsts,
    ⟨rfl, hk0, hk1, rfl, rfl, rfl, rfl, rfl, rfl, rfl, rfl⟩,
    ⟨rfl, rfl, rfl, rfl, rfl, rfl, rfl, rfl, rfl⟩, hinv1, hba, hbb, hbc, hbr, ?_, ?_⟩
  · intro r hr hf
    obtain ⟨file, index, array_id, he, ht⟩ := hregs r hr
    subst he
    exact ht hf
  · rw [hrr]; rfl

/-- Claim C3: lowering `result = a * b + c` (all float vec4, `result` a shader
output) from a fresh visitor and then running `eliminate_dead_code` succeeds,
deletes one instruction and leaves exactly one instruction, a `MAD` whose
sources are the registers of `a`, `b`, `c` and whose destination is the register
of `result` with write-mask XYZW. -/
theorem mad_assignment_lowering (info : tgsi_opcode → tgsi_opcode_info)
    (target : gl_program_target) (stage : gl_shader_stage)
    (emit_no_indirect_temp native_integers : Bool)
    (ids : Nat × Nat × Nat × Nat × Nat × Nat × Nat) (a b c result : ir_variable)
    (hinj : ∀ x ∈ [a, b, c, result], ∀ y ∈ [a, b, c, result], y.id = x.id → y = x)
    (ha : is_float_vec4_variable a) (hb : is_float_vec4_variable b)
    (hc : is_float_vec4_variable c) (hr : is_float_vec4_variable result)
    (hout : result.mode = ir_var_shader_out) :
    ∃ v1 v2 inst ra rb rc rr,
      visit_statement info (mad_assignment ids a b c result)
        (glsl_to_tgsi_visitor.init target stage emit_no_indirect_temp native_integers)
          = some v1 ∧
      eliminate_dead_code v1 = some (v2, 1) ∧
      v2.instructions = [inst] ∧ inst.op = TGSI_OPCODE_MAD ∧
      register_of v1 a = some ra ∧ register_of v1 b = some rb ∧
      register_of v1 c = some rc ∧ register_of v1 result = some rr ∧
      inst.src0 = ra ∧ inst.src1 = rb ∧ inst.src2 = rc ∧
      inst.dst0 = st_dst_reg.ofSrc rr ∧ inst.dst0.writemask = WRITEMASK_XYZW ∧
      inst.dst0.file = PROGRAM_OUTPUT := by
  obtain ⟨v1, i0, i1, ra, rb, rc, rr, hvis, hinsts,
      ⟨h0f, h0a, h0b, h0w, h0d, h0d1, h0s0, h0s1, h0s2, h0s3, h0t⟩,
      ⟨h1op, h1d, h1dm, h1d1, h1s0, h1s1, h1s2, h1s3, h1t⟩, hinv, hba, hbb, hbc, hbr, hregs,
      hrr⟩ :=
    visit_mad_assignment_members info ids a b c result hinj ha hb hc hr hout
      (glsl_to_tgsi_visitor.init target stage emit_no_indirect_temp native_integers) rfl
      (by show (0 : Int) ≤ 1; decide) (fun e he => by cases he)
  have hma : a ∈ [a, b, c, result] := by simp
  have hmb : b ∈ [a, b, c, result] := by simp
  have hmc : c ∈ [a, b, c, result] := by simp
  have hmr : result ∈ [a, b, c, result] := by simp
  have hta := hregs ra (by simp)
  have htb := hregs rb (by simp)
  have htc := hregs rc (by simp)
  have hu : ∀ (n : Int) (f : gl_register_file) (p : st_src_reg_ptr) (i : Int),
      f = PROGRAM_UNDEFINED → temp_in_bounds n f p i :=
    fun _ _ _ _ hf h => absurd (hf ▸ h) (by decide)
  have h1f : i1.dst0.file = PROGRAM_OUTPUT := by rw [h1d]; exact hrr
  obtain ⟨dm, hdce, hlen, hframe, hfull⟩ :=
    eliminate_dead_code_list_masks (fun p => p = 0) v1.next_temp v1.instructions
      (by
        rw [hinsts]
        intro i inst hi
        match i, hi with
        | 0, hi =>
          simp only [List.getElem?_cons_zero, Option.some.injEq] at hi
          subst hi
          exact ⟨⟨fun h _ => by rw [h0s0] at h ⊢; exact hta h,
            fun h _ => by rw [h0s1] at h ⊢; exact htb h,
            fun h _ => by rw [h0s2] at h ⊢; exact htc h, hu _ _ _ _ h0s3,
            fun j hj => absurd hj (by rw [h0t]; exact Nat.not_lt_zero j),
            fun _ _ => ⟨h0a, h0b⟩, hu _ _ _ _ h0d1, fun _ => h0b⟩, fun _ => rfl⟩
        | 1, hi =>
          simp only [List.getElem?_cons_succ, List.getElem?_cons_zero, Option.some.injEq] at hi
          subst hi
          refine ⟨⟨fun h _ => by rw [h1s0] at h ⊢; exact hta h,
            fun h _ => by rw [h1s1] at h ⊢; exact htb h,
            fun h _ => by rw [h1s2] at h ⊢; exact htc h, hu _ _ _ _ h1s3,
            fun j hj => absurd hj (by rw [h1t]; exact Nat.not_lt_zero j),
            fun h => absurd (h1f ▸ h) (by decide), hu _ _ _ _ h1d1,
            fun h => absurd (h1f ▸ h) (by decide)⟩, fun h => ?_⟩
          rcases h with h | h
          · exact absurd (h1f ▸ h) (by decide)
          · exact absurd (h1d1 ▸ h) (by decide)
        | i + 2, hi => simp at hi)
  rw [hinsts] at hdce hlen hframe hfull
  have h1 : dm[1]? = some 0 := by
    rw [hframe 1 (by decide)]
    simp [h1dm]
  have h0 : dm[0]? = some WRITEMASK_XYZW := hfull 0 (by simp [h0d])
  have hdm : dm = [WRITEMASK_XYZW, 0] := by
    match dm, hlen, h0, h1 with
    | [d0, d1], _, h0, h1 =>
      simp only [List.getElem?_cons_zero, List.getElem?_cons_succ, Option.some.injEq] at h0 h1
      rw [h0, h1]
  subst hdm
  refine ⟨v1, { v1 with instructions := [i1] }, i1, ra, rb, rc, rr, hvis, ?_, rfl, h1op,
    register_of_bound _ a hma (hinj a hma) ha v1 _ hinv hba,
    register_of_bound _ b hmb (hinj b hmb) hb v1 _ hinv hbb,
    register_of_bound _ c hmc (hinj c hmc) hc v1 _ hinv hbc,
    register_of_bound _ result hmr (hinj result hmr) hr v1 _ hinv hbr,
    h1s0, h1s1, h1s2, h1d, by rw [h1d]; rfl, h1f⟩
  unfold eliminate_dead_code
  rw [hinsts, hdce]
  simp only [dce_sweep, Option.map_some']
  rw [dce_sweep_inst_dead i0 h0w, dce_sweep_inst_live i1 h1dm]

set_option maxHeartbeats 4000000 in
/-- The lowering of `result = a * b + c` for a uniform `a`, an input `b`, a local
`c` and an output `result` in a fresh fragment-shader visitor. -/
theorem mad_assignment_lowering_witness :
    ∃ v1 v2 inst ra rb rc rr,
      visit_statement example_info
          (mad_assignment (1, 2, 3, 4, 5, 6, 7) example_mad_a example_mad_b example_mad_c
            example_mad_result)
          (glsl_to_tgsi_visitor.init GL_FRAGMENT_PROGRAM_ARB MESA_SHADER_FRAGMENT false false)
        = some v1 ∧
      eliminate_dead_code v1 = some (v2, 1) ∧
      v2.instructions = [inst] ∧ inst.op = TGSI_OPCODE_MAD ∧
      register_of v1 example_mad_a = some ra ∧ register_of v1 example_mad_b = some rb ∧
      register_of v1 example_mad_c = some rc ∧ register_of v1 example_mad_result = some rr ∧
      inst.src0 = ra ∧ inst.src1 = rb ∧ inst.src2 = rc ∧
      inst.dst0 = st_dst_reg.ofSrc rr ∧ inst.dst0.writemask = WRITEMASK_XYZW ∧
      inst.dst0.file = PROGRAM_OUTPUT :=
  mad_assignment_lowering example_info GL_FRAGMENT_PROGRAM_ARB MESA_SHADER_FRAGMENT false false
    (1, 2, 3, 4, 5, 6, 7) example_mad_a example_mad_b example_mad_c example_mad_result
    (by decide) (by decide) (by decide) (by decide) (by decide) (by decide)

/-! ## `renumber_registers` -/

/-- What a loop that ran to the end establishes, from what each pass of its body
establishes. -/
theorem loop_range_some {σ : Type} (P : Nat → σ → Prop) (n : Nat) (f : Nat → σ → Option σ)
    (hstep : ∀ j, j < n → ∀ s s1, P j s → f j s = some s1 → P (j + 1) s1)
    (s s1 : σ) (h0 : P 0 s) (h : loop_range n f s = some s1) : P n s1 := by
  induction n generalizing s1 with
  | zero =>
    simp only [loop_range, List.range_zero, List.foldlM_nil] at h
    cases h
    exact h0
  | succ n ih =>
    unfold loop_range at h
    rw [List.range_succ, List.foldlM_append] at h
    cases hm : List.foldlM (fun s j => f j s) s (List.range n) with
    | none => rw [hm] at h; cases h
    | some s2 =>
      rw [hm] at h
      have h2 : f n s2 = some s1 := by simpa using h
      exact hstep n (by omega) s2 s1 (ih (fun j hj => hstep j (by omega)) s2 hm) h2

theorem mem_inst_temps_read (inst : glsl_to_tgsi_instruction) (a : Int) :
    a ∈ inst_temps_read inst ↔
      (∃ j r, j < num_inst_src_regs inst ∧ inst.src j = some r ∧ r.file = PROGRAM_TEMPORARY
        ∧ r.index = a)
      ∨ (∃ j r, j < inst.tex_offset_num_offset ∧ inst.tex_offsets j = some r
        ∧ r.file = PROGRAM_TEMPORARY ∧ r.index = a) := by
  unfold inst_temps_read
  simp only [List.mem_filterMap, List.mem_append, List.mem_range]
  constructor
  · rintro ⟨r, hr, hf⟩
    by_cases hfile : r.file = PROGRAM_TEMPORARY
    · simp only [hfile, if_true, Option.some.injEq] at hf
      rcases hr with ⟨j, hj, hs⟩ | ⟨j, hj, hs⟩
      · exact Or.inl ⟨j, r, hj, hs, hfile, hf⟩
      · exact Or.inr ⟨j, r, hj, hs, hfile, hf⟩
    · simp [hfile] at hf
  · rintro (⟨j, r, hj, hs, hfile, hi⟩ | ⟨j, r, hj, hs, hfile, hi⟩)
    · exact ⟨r, Or.inl ⟨j, hj, hs⟩, by simp [hfile, hi]⟩
    · exact ⟨r, Or.inr ⟨j, hj, hs⟩, by simp [hfile, hi]⟩

theorem first_reads_inv_congr (n : Nat) (P P1 : Int → Prop) (first_reads : List Int)
    (h : ∀ a, P a ↔ P1 a) (hinv : first_reads_inv n P first_reads) :
    first_reads_inv n P1 first_reads := by
  obtain ⟨h1, h2, h3, h4⟩ := hinv
  exact ⟨h1, h2, fun k hk => (h3 k hk).trans (h _), fun a ha => h4 a ((h a).mpr ha)⟩

/-- The statement `if (first_reads[index] == -1) first_reads[index] = value` adds
`index` to the temporaries marked as read. -/
theorem set_if_unset_inv (n : Nat) (P : Int → Prop) (first_reads first_reads1 : List Int)
    (index value : Int) (hv : 0 ≤ value) (hinv : first_reads_inv n P first_reads)
    (h : set_if_unset first_reads index value = some first_reads1) :
    first_reads_inv n (fun a => P a ∨ a = index) first_reads1 := by
  obtain ⟨h1, h2, h3, h4⟩ := hinv
  unfold set_if_unset arr_get at h
  by_cases h0 : 0 ≤ index
  · simp only [h0, if_true] at h
    cases hc : first_reads[index.toNat]? with
    | none => rw [hc] at h; cases h
    | some cur =>
      rw [hc] at h
      simp only [] at h
      have hlt : index.toNat < first_reads.length := by
        by_contra hcon
        rw [List.getElem?_eq_none (by omega)] at hc
        cases hc
      have hcur : first_reads.getD index.toNat (-1) = cur := by
        rw [List.getD_eq_getElem?_getD, hc]; rfl
      have hmem : cur ∈ first_reads := by
        rw [List.getElem?_eq_getElem hlt] at hc
        cases hc
        exact List.getElem_mem hlt
      by_cases hneg : cur = -1
      · simp only [hneg, if_true] at h
        rw [arr_set_some _ _ _ h0 hlt] at h
        cases h
        refine ⟨by simp [h1], ?_, ?_, ?_⟩
        · intro x hx
          rcases List.mem_or_eq_of_mem_set hx with hx | hx
          · exact h2 x hx
          · exact Or.inr (hx ▸ hv)
        · intro k hk
          rw [List.getD_eq_getElem?_getD, List.getElem?_set]
          by_cases hik : index.toNat = k
          · simp only [hik, if_true]
            have : k < first_reads.length := by omega
            simp only [this, if_true, Option.getD_some]
            constructor
            · intro _; right; omega
            · intro _; exact hv
          · simp only [hik, if_false]
            rw [← List.getD_eq_getElem?_getD, h3 k hk]
            constructor
            · intro hp; exact Or.inl hp
            · rintro (hp | hp)
              · exact hp
              · exfalso; apply hik; omega
        · rintro a (ha | ha)
          · exact h4 a ha
          · subst ha; exact ⟨h0, by omega⟩
      · simp only [hneg, if_false, Option.some.injEq] at h
        subst h
        have hP : P index := by
          have hk : index.toNat < n := by omega
          have := (h3 index.toNat hk).mp (by
            rw [hcur]
            rcases h2 cur hmem with hx | hx
            · exact absurd hx hneg
            · exact hx)
          rwa [Int.toNat_of_nonneg h0] at this
        exact first_reads_inv_congr n P _ _
          (fun a => ⟨fun h => Or.inl h, fun h => h.elim id (fun e => e ▸ hP)⟩)
          ⟨h1, h2, h3, h4⟩
  · simp [h0] at h

/-- One operand slot of `get_first_temp_read`: if the slot exists and the update
succeeds, the temporary in it (if any) is added to those marked as read. -/
theorem first_read_slot_inv (n : Nat) (P : Int → Prop) (value : Int) (hv : 0 ≤ value)
    (slot : Option st_src_reg) (s s1 : List Int) (hP : first_reads_inv n P s)
    (hf : (match slot with
      | none => none
      | some r =>
        if r.file = PROGRAM_TEMPORARY then set_if_unset s r.index value else some s) = some s1) :
    ∃ r, slot = some r ∧
      first_reads_inv n (fun a => P a ∨ (r.file = PROGRAM_TEMPORARY ∧ r.index = a)) s1 := by
  cases slot with
  | none => cases hf
  | some r =>
    refine ⟨r, rfl, ?_⟩
    simp only [] at hf
    by_cases hfile : r.file = PROGRAM_TEMPORARY
    · rw [if_pos hfile] at hf
      refine first_reads_inv_congr n _ _ _ ?_ (set_if_unset_inv n _ s s1 _ _ hv hP hf)
      intro a
      constructor
      · rintro (hp | he)
        · exact Or.inl hp
        · exact Or.inr ⟨hfile, he.symm⟩
      · rintro (hp | ⟨_, he⟩)
        · exact Or.inl hp
        · exact Or.inr he.symm
    · rw [if_neg hfile] at hf
      cases hf
      refine first_reads_inv_congr n _ _ _ ?_ hP
      intro a
      constructor
      · intro hp; exact Or.inl hp
      · rintro (hp | ⟨hf1, _⟩)
        · exact hp
        · exact absurd hf1 hfile

/-- A loop of `get_first_temp_read` over the operand slots `0 .. m - 1` marks the
temporaries in these slots. -/
theorem first_read_slots_inv (n : Nat) (P : Int → Prop) (value : Int) (hv : 0 ≤ value)
    (slots : Nat → Option st_src_reg) (m : Nat) (f : Nat → List Int → Option (List Int))
    (hf : ∀ j s s1, f j s = some s1 →
      (match slots j with
        | none => none
        | some r =>
          if r.file = PROGRAM_TEMPORARY then set_if_unset s r.index value else some s) = some s1)
    (s s1 : List Int) (hP : first_reads_inv n P s) (h : loop_range m f s = some s1) :
    first_reads_inv n (fun a => P a ∨ ∃ j r, j < m ∧ slots j = some r
      ∧ r.file = PROGRAM_TEMPORARY ∧ r.index = a) s1 := by
  refine loop_range_some
    (fun j fr => first_reads_inv n (fun a => P a ∨ ∃ j1 r, j1 < j ∧ slots j1 = some r
      ∧ r.file = PROGRAM_TEMPORARY ∧ r.index = a) fr) m f ?_ s s1 ?_ h
  · intro j _ s2 s3 hP2 hf2
    obtain ⟨r, hr, hinv⟩ := first_read_slot_inv n _ value hv (slots j) s2 s3 hP2 (hf j s2 s3 hf2)
    refine first_reads_inv_congr n _ _ _ ?_ hinv
    intro a
    constructor
    · rintro ((hp | ⟨j1, r1, hj1, hs1, hf1, hi1⟩) | ⟨hf1, hi1⟩)
      · exact Or.inl hp
      · exact Or.inr ⟨j1, r1, by omega, hs1, hf1, hi1⟩
      · exact Or.inr ⟨j, r, by omega, hr, hf1, hi1⟩
    · rintro (hp | ⟨j1, r1, hj1, hs1, hf1, hi1⟩)
      · exact Or.inl (Or.inl hp)
      · by_cases hjj : j1 = j
        · subst hjj
          rw [hr] at hs1
          cases hs1
          exact Or.inr ⟨hf1, hi1⟩
        · exact Or.inl (Or.inr ⟨j1, r1, by omega, hs1, hf1, hi1⟩)
  · exact first_reads_inv_congr n P _ _
      (fun a => ⟨fun h => Or.inl h, fun h => h.elim id
        (fun ⟨_, _, hj, _⟩ => absurd hj (Nat.not_lt_zero _))⟩) hP

/-- One pass of the body of `get_first_temp_read` marks the temporaries the
instruction reads. -/
theorem get_first_temp_read_inst_inv (n : Nat) (P : Int → Prop) (t : loop_tracker)
    (inst : glsl_to_tgsi_instruction) (first_reads first_reads1 : List Int)
    (ht : 0 ≤ t.depth ∧ (0 < t.depth → 0 ≤ t.loop_start))
    (hinv : first_reads_inv n P first_reads)
    (h : get_first_temp_read_inst t inst first_reads = some first_reads1) :
    first_reads_inv n (fun a => P a ∨ a ∈ inst_temps_read inst) first_reads1 := by
  have hv : 0 ≤ (if t.depth = 0 then (t.i : Int) else t.loop_start) := by
    split_ifs with h0
    · exact Int.ofNat_nonneg _
    · exact ht.2 (by omega)
  unfold get_first_temp_read_inst at h
  simp only [] at h
  split at h
  · cases h
  · next fr1 hs =>
    have h1 := first_read_slots_inv n P _ hv inst.src _ _ (fun j s s1 hf => hf)
      first_reads fr1 hinv hs
    have h2 := first_read_slots_inv n _ _ hv inst.tex_offsets _ _ (fun j s s1 hf => hf)
      fr1 first_reads1 h1 h
    refine first_reads_inv_congr n _ _ _ ?_ h2
    intro a
    rw [mem_inst_temps_read]
    constructor
    · rintro ((hp | hx) | hx)
      · exact Or.inl hp
      · exact Or.inr (Or.inl hx)
      · exact Or.inr (Or.inr hx)
    · rintro (hp | hx | hx)
      · exact Or.inl (Or.inl hp)
      · exact Or.inl (Or.inr hx)
      · exact Or.inr hx

/-- The loop bookkeeping of `get_first_temp_read` keeps `depth` non-negative and
`loop_start` a position while inside a loop. -/
theorem loop_tracker_advance_inv (t t1 : loop_tracker) (op : tgsi_opcode)
    (ht : 0 ≤ t.depth ∧ (0 < t.depth → 0 ≤ t.loop_start))
    (h : t.advance op = some t1) :
    0 ≤ t1.depth ∧ (0 < t1.depth → 0 ≤ t1.loop_start) := by
  unfold loop_tracker.advance at h
  simp only [] at h
  obtain ⟨h0, h1⟩ := ht
  have hne : ¬ (TGSI_OPCODE_ENDLOOP = TGSI_OPCODE_BGNLOOP) := by decide
  by_cases hb : op = TGSI_OPCODE_BGNLOOP
  · subst hb
    by_cases hz : t.depth = 0
    · simp only [hz, if_true] at h
      have hc : ¬ ((0 : Int) + 1 < 0) := by decide
      rw [if_neg hc] at h
      cases h
      exact ⟨by show (0 : Int) ≤ 0 + 1; decide, fun _ => Int.ofNat_nonneg _⟩
    · simp only [hz, if_true, if_false] at h
      have hc : ¬ (t.depth + 1 < 0) := by omega
      rw [if_neg hc] at h
      cases h
      exact ⟨by show 0 ≤ t.depth + 1; omega, fun _ => h1 (by omega)⟩
  · by_cases he : op = TGSI_OPCODE_ENDLOOP
    · subst he
      by_cases hz : t.depth - 1 = 0
      · simp only [hne, hz, if_true, if_false] at h
        have hc : ¬ ((0 : Int) < 0) := by decide
        rw [if_neg hc] at h
        cases h
        exact ⟨le_refl _, fun hp => absurd (show (0 : Int) < 0 from hp) (by decide)⟩
      · simp only [hne, hz, if_true, if_false] at h
        by_cases hc : t.depth - 1 < 0
        · rw [if_pos hc] at h; cases h
        · rw [if_neg hc] at h
          cases h
          exact ⟨by show 0 ≤ t.depth - 1; omega, fun _ => h1 (by omega)⟩
    · simp only [hb, he, if_false] at h
      have hc : ¬ (t.depth < 0) := by omega
      rw [if_neg hc] at h
      cases h
      exact ⟨h0, h1⟩

/-- The loop of `get_first_temp_read` marks the temporaries the instructions
read. -/
theorem get_first_temp_read_from_inv (n : Nat)
    (instructions : List glsl_to_tgsi_instruction) :
    ∀ (P : Int → Prop) (t : loop_tracker) (first_reads first_reads1 : List Int),
      (0 ≤ t.depth ∧ (0 < t.depth → 0 ≤ t.loop_start)) →
      first_reads_inv n P first_reads →
      get_first_temp_read_from instructions t first_reads = some first_reads1 →
      first_reads_inv n (fun a => P a ∨ a ∈ temps_read instructions) first_reads1 := by
  induction instructions with
  | nil =>
    intro P t fr fr1 _ hinv h
    simp only [get_first_temp_read_from, Option.some.injEq] at h
    subst h
    exact first_reads_inv_congr n P _ _
      (fun a => ⟨fun h => Or.inl h, fun h => h.elim id (fun h => by simp [temps_read] at h)⟩)
      hinv
  | cons inst rest ih =>
    intro P t fr fr1 ht hinv h
    simp only [get_first_temp_read_from] at h
    split at h
    · cases h
    · next fr2 hs =>
      split at h
      · cases h
      · next t1 hadv =>
        have h1 := get_first_temp_read_inst_inv n P t inst fr fr2 ht hinv hs
        have h2 := ih _ t1 fr2 fr1 (loop_tracker_advance_inv t t1 inst.op ht hadv) h1 h
        refine first_reads_inv_congr n _ _ _ ?_ h2
        intro a
        simp only [temps_read, List.flatMap_cons, List.mem_append]
        constructor
        · rintro ((hp | hx) | hx)
          · exact Or.inl hp
          · exact Or.inr (Or.inl hx)
          · exact Or.inr (Or.inr hx)
        · rintro (hp | hx | hx)
          · exact Or.inl (Or.inl hp)
          · exact Or.inl (Or.inr hx)
          · exact Or.inr hx

/-- The table `get_first_temp_read` fills from all `-1` is non-negative exactly at
the temporaries read, which all lie below `next_temp`. -/
theorem get_first_temp_read_spec (n : Nat) (instructions : List glsl_to_tgsi_instruction)
    (first_reads : List Int)
    (h : get_first_temp_read instructions (List.replicate n (-1)) = some first_reads) :
    first_reads_inv n (fun a => a ∈ temps_read instructions) first_reads := by
  have h0 : first_reads_inv n (fun _ => False) (List.replicate n (-1)) := by
    refine ⟨by simp, ?_, ?_, fun _ h => h.elim⟩
    · intro x hx
      exact Or.inl (List.eq_of_mem_replicate hx)
    · intro k hk
      rw [List.getD_eq_getElem?_getD, List.getElem?_replicate]
      simp [hk]
  have := get_first_temp_read_from_inv n instructions _ ⟨0, -1, 0⟩ _ first_reads
    ⟨le_refl _, fun h => absurd h (by decide)⟩ h0 h
  exact first_reads_inv_congr n _ _ _ (fun a => ⟨fun h => h.elim False.elim id, Or.inr⟩) this

theorem first_reads_rank_succ (first_reads : List Int) (i : Nat) :
    first_reads_rank first_reads (i + 1)
      = first_reads_rank first_reads i
        + (if 0 ≤ first_reads.getD i (-1) then 1 else 0) := by
  unfold first_reads_rank
  rw [List.range_succ, List.countP_append]
  by_cases h : 0 ≤ first_reads.getD i (-1) <;> simp [List.countP_cons, h]

theorem first_reads_rank_le (first_reads : List Int) (i : Nat) :
    first_reads_rank first_reads i ≤ i := by
  unfold first_reads_rank
  have := List.countP_le_length (fun k => decide (0 ≤ first_reads.getD k (-1)))
    (l := List.range i)
  simpa using this

theorem first_reads_rank_mono (first_reads : List Int) (i j : Nat) (h : i ≤ j) :
    first_reads_rank first_reads i ≤ first_reads_rank first_reads j := by
  induction j with
  | zero =>
    have : i = 0 := by omega
    subst this
    exact le_refl _
  | succ j ih =>
    by_cases hij : i = j + 1
    · subst hij; exact le_refl _
    · have := ih (by omega)
      rw [first_reads_rank_succ]
      omega

/-- The new index is strictly increasing on the temporaries that are read. -/
theorem first_reads_rank_strict (first_reads : List Int) (i j : Nat) (h : i < j)
    (hi : 0 ≤ first_reads.getD i (-1)) :
    first_reads_rank first_reads i < first_reads_rank first_reads j := by
  have h1 := first_reads_rank_succ first_reads i
  rw [if_pos hi] at h1
  have h2 := first_reads_rank_mono first_reads (i + 1) j (by omega)
  omega

/-- Every new index below the final count is taken by a temporary that is read. -/
theorem first_reads_rank_onto (first_reads : List Int) (n : Nat) :
    ∀ m, m < first_reads_rank first_reads n →
      ∃ k, k < n ∧ 0 ≤ first_reads.getD k (-1) ∧ first_reads_rank first_reads k = m := by
  induction n with
  | zero =>
    intro m hm
    simp [first_reads_rank] at hm
  | succ n ih =>
    intro m hm
    rw [first_reads_rank_succ] at hm
    by_cases hl : 0 ≤ first_reads.getD n (-1)
    · rw [if_pos hl] at hm
      by_cases hmn : m = first_reads_rank first_reads n
      · exact ⟨n, by omega, hl, hmn.symm⟩
      · obtain ⟨k, hk, hkl, hkr⟩ := ih m (by omega)
        exact ⟨k, by omega, hkl, hkr⟩
    · rw [if_neg hl] at hm
      obtain ⟨k, hk, hkl, hkr⟩ := ih m (by omega)
      exact ⟨k, by omega, hkl, hkr⟩

theorem rename_index_cons (p : rename_reg_pair) (renames : List rename_reg_pair)
    (index : Int) :
    rename_index (p :: renames) index
      = rename_index renames (if index = p.old_reg then p.new_reg else index) := by
  simp [rename_index]

/-- An index that no rename mentions as its old register is left alone. -/
theorem rename_index_not_mem (renames : List rename_reg_pair) (index : Int)
    (h : ∀ p ∈ renames, p.old_reg ≠ index) : rename_index renames index = index := by
  induction renames with
  | nil => simp [rename_index]
  | cons p ps ih =>
    rw [rename_index_cons]
    have hp : index ≠ p.old_reg := fun e => h p (List.mem_cons_self _ _) e.symm
    rw [if_neg hp]
    exact ih (fun q hq => h q (List.mem_cons_of_mem _ hq))

/-- With renames sorted by old register that all lower the index, the chain of
replacements of `rename_temp_registers` applies exactly the rename of the index. -/
theorem rename_index_mem (renames : List rename_reg_pair) (old new : Int)
    (hs : renames.Pairwise (fun p q => p.old_reg < q.old_reg))
    (hlt : ∀ p ∈ renames, p.new_reg < p.old_reg)
    (hm : (⟨old, new⟩ : rename_reg_pair) ∈ renames) :
    rename_index renames old = new := by
  induction renames with
  | nil => cases hm
  | cons p ps ih =>
    rw [rename_index_cons]
    rw [List.pairwise_cons] at hs
    rcases List.mem_cons.mp hm with hm | hm
    · subst hm
      simp only [if_true]
      apply rename_index_not_mem
      intro q hq hqo
      have h1 := hs.1 q hq
      have h2 := hlt _ (List.mem_cons_self _ _)
      simp only [] at h1 h2
      omega
    · have h1 := hs.1 _ hm
      simp only [] at h1
      have hne : old ≠ p.old_reg := by omega
      rw [if_neg hne]
      exact ih hs.2 (fun q hq => hlt q (List.mem_cons_of_mem _ hq)) hm

/-- The second loop of `renumber_registers`: the renames are sorted, lower every
index they touch, and send every temporary that is read to its rank among the
temporaries that are read; `new_index` ends as their number. -/
theorem renumber_registers_renames_spec (first_reads : List Int)
    (renames : List rename_reg_pair) (new_index : Int)
    (h : renumber_registers_renames first_reads = some (renames, new_index)) :
    new_index = (first_reads_rank first_reads first_reads.length : Int) ∧
    (∀ k : Nat, k < first_reads.length → 0 ≤ first_reads.getD k (-1) →
      rename_index renames k = (first_reads_rank first_reads k : Int)) := by
  unfold renumber_registers_renames at h
  have hJ := loop_range_some
    (fun i (st : List rename_reg_pair × Int) =>
      st.2 = (first_reads_rank first_reads i : Int) ∧
      st.1.Pairwise (fun p q => p.old_reg < q.old_reg) ∧
      (∀ p ∈ st.1, ∃ k : Nat, k < i ∧ 0 ≤ first_reads.getD k (-1) ∧ p.old_reg = k
        ∧ p.new_reg = (first_reads_rank first_reads k : Int)
        ∧ first_reads_rank first_reads k < k) ∧
      (∀ k : Nat, k < i → 0 ≤ first_reads.getD k (-1) → first_reads_rank first_reads k ≠ k →
        (⟨k, first_reads_rank first_reads k⟩ : rename_reg_pair) ∈ st.1))
    first_reads.length _ ?_ ([], 0) (renames, new_index)
    ⟨by simp [first_reads_rank], List.Pairwise.nil, fun p hp => (by cases hp),
      fun k hk => absurd hk (Nat.not_lt_zero _)⟩
    h
  swap
  · intro i hi st st1 hP hf
    obtain ⟨h1, h2, h3, h4⟩ := hP
    have hget : arr_get first_reads (i : Int) = some (first_reads.getD i (-1)) := by
      unfold arr_get
      simp [List.getD_eq_getElem?_getD, List.getElem?_eq_getElem hi]
    rw [hget] at hf
    simp only [] at hf
    have hle := first_reads_rank_le first_reads i
    by_cases hneg : first_reads.getD i (-1) < 0
    · rw [if_pos hneg] at hf
      cases hf
      have hnl : ¬ (0 ≤ first_reads.getD i (-1)) := by omega
      refine ⟨?_, h2, ?_, ?_⟩
      · rw [first_reads_rank_succ, if_neg hnl, h1]; simp
      · intro p hp
        obtain ⟨k, hk, r⟩ := h3 p hp
        exact ⟨k, by omega, r⟩
      · intro k hk hl hr
        by_cases hki : k = i
        · subst hki; exact absurd hl hnl
        · exact h4 k (by omega) hl hr
    · rw [if_neg hneg] at hf
      have hl : 0 ≤ first_reads.getD i (-1) := by omega
      by_cases hne : (i : Int) ≠ st.2
      · rw [if_pos hne] at hf
        cases hf
        have hrk : first_reads_rank first_reads i ≠ i := by
          intro e
          apply hne
          rw [h1, e]
        refine ⟨?_, ?_, ?_, ?_⟩
        · show st.2 + 1 = _
          rw [first_reads_rank_succ, if_pos hl, h1]
          push_cast
          rfl
        · show (st.1 ++ [(⟨i, st.2⟩ : rename_reg_pair)]).Pairwise _
          rw [List.pairwise_append]
          refine ⟨h2, List.pairwise_singleton _ _, ?_⟩
          intro p hp q hq
          simp only [List.mem_singleton] at hq
          subst hq
          obtain ⟨k, hk, _, ho, _⟩ := h3 p hp
          show p.old_reg < (i : Int)
          rw [ho]
          exact_mod_cast hk
        · intro p hp
          show ∃ k : Nat, _
          rcases List.mem_append.mp hp with hp | hp
          · obtain ⟨k, hk, r⟩ := h3 p hp
            exact ⟨k, by omega, r⟩
          · simp only [List.mem_singleton] at hp
            subst hp
            exact ⟨i, by omega, hl, rfl, h1, by omega⟩
        · intro k hk hkl hr
          show _ ∈ st.1 ++ [(⟨i, st.2⟩ : rename_reg_pair)]
          by_cases hki : k = i
          · subst hki
            rw [List.mem_append]
            right
            rw [h1]
            simp
          · exact List.mem_append_left _ (h4 k (by omega) hkl hr)
      · rw [if_neg hne] at hf
        cases hf
        have he : (i : Int) = st.2 := by
          by_contra hc
          exact hne hc
        refine ⟨?_, h2, ?_, ?_⟩
        · show st.2 + 1 = _
          rw [first_reads_rank_succ, if_pos hl, h1]
          push_cast
          rfl
        · intro p hp
          obtain ⟨k, hk, r⟩ := h3 p hp
          exact ⟨k, by omega, r⟩
        · intro k hk hkl hr
          by_cases hki : k = i
          · subst hki
            exfalso
            apply hr
            rw [h1] at he
            exact_mod_cast he.symm
          · exact h4 k (by omega) hkl hr
  obtain ⟨h1, h2, h3, h4⟩ := hJ
  refine ⟨h1, ?_⟩
  intro k hk hl
  have hlt : ∀ p ∈ renames, p.new_reg < p.old_reg := by
    intro p hp
    obtain ⟨k1, _, _, ho, hn, hr⟩ := h3 p hp
    rw [ho, hn]
    exact_mod_cast hr
  by_cases hr : first_reads_rank first_reads k = k
  · rw [hr]
    apply rename_index_not_mem
    intro p hp ho
    obtain ⟨k1, _, _, ho1, _, hr1⟩ := h3 p hp
    have : k1 = k := by
      rw [ho1] at ho
      exact_mod_cast ho
    subst this
    omega
  · exact rename_index_mem renames k _ h2 hlt (h4 k hk hl hr)

/-- The rewriting `rename_temp_registers` applies to one operand. -/
theorem rename_operand_spec (renames : List rename_reg_pair) (r : st_src_reg) :
    (r.set_index (rename_index renames r.index)).file = r.file ∧
    (r.set_index (rename_index renames r.index)).index = rename_index renames r.index := by
  cases r
  exact ⟨rfl, rfl⟩

theorem set_src_spec (inst : glsl_to_tgsi_instruction) (j : Nat) (r0 r : st_src_reg)
    (h : inst.src j = some r0) :
    (∀ k, (inst.set_src j r).src k = if k = j then some r else inst.src k) ∧
    (∀ k, (inst.set_src j r).tex_offsets k = inst.tex_offsets k) ∧
    (inst.set_src j r).info = inst.info ∧
    (inst.set_src j r).tex_offset_num_offset = inst.tex_offset_num_offset := by
  match j, h with
  | 0, _ =>
    refine ⟨fun k => ?_, fun k => ?_, rfl, rfl⟩
    · match k with
      | 0 | 1 | 2 | 3 | _ + 4 => rfl
    · match k with
      | 0 | 1 | 2 | 3 | _ + 4 => rfl
  | 1, _ =>
    refine ⟨fun k => ?_, fun k => ?_, rfl, rfl⟩
    · match k with
      | 0 | 1 | 2 | 3 | _ + 4 => rfl
    · match k with
      | 0 | 1 | 2 | 3 | _ + 4 => rfl
  | 2, _ =>
    refine ⟨fun k => ?_, fun k => ?_, rfl, rfl⟩
    · match k with
      | 0 | 1 | 2 | 3 | _ + 4 => rfl
    · match k with
      | 0 | 1 | 2 | 3 | _ + 4 => rfl
  | 3, _ =>
    refine ⟨fun k => ?_, fun k => ?_, rfl, rfl⟩
    · match k with
      | 0 | 1 | 2 | 3 | _ + 4 => rfl
    · match k with
      | 0 | 1 | 2 | 3 | _ + 4 => rfl
  | _ + 4, h => cases h

theorem set_tex_offsets_spec (inst : glsl_to_tgsi_instruction) (j : Nat) (r0 r : st_src_reg)
    (h : inst.tex_offsets j = some r0) :
    (∀ k, (inst.set_tex_offsets j r).tex_offsets k = if k = j then some r
      else inst.tex_offsets k) ∧
    (∀ k, (inst.set_tex_offsets j r).src k = inst.src k) ∧
    (inst.set_tex_offsets j r).info = inst.info ∧
    (inst.set_tex_offsets j r).tex_offset_num_offset = inst.tex_offset_num_offset := by
  match j, h with
  | 0, _ =>
    refine ⟨fun k => ?_, fun k => ?_, rfl, rfl⟩
    · match k with
      | 0 | 1 | 2 | 3 | _ + 4 => rfl
    · match k with
      | 0 | 1 | 2 | 3 | _ + 4 => rfl
  | 1, _ =>
    refine ⟨fun k => ?_, fun k => ?_, rfl, rfl⟩
    · match k with
      | 0 | 1 | 2 | 3 | _ + 4 => rfl
    · match k with
      | 0 | 1 | 2 | 3 | _ + 4 => rfl
  | 2, _ =>
    refine ⟨fun k => ?_, fun k => ?_, rfl, rfl⟩
    · match k with
      | 0 | 1 | 2 | 3 | _ + 4 => rfl
    · match k with
      | 0 | 1 | 2 | 3 | _ + 4 => rfl
  | 3, _ =>
    refine ⟨fun k => ?_, fun k => ?_, rfl, rfl⟩
    · match k with
      | 0 | 1 | 2 | 3 | _ + 4 => rfl
    · match k with
      | 0 | 1 | 2 | 3 | _ + 4 => rfl
  | _ + 4, h => cases h

theorem set_dst_spec (inst : glsl_to_tgsi_instruction) (j : Nat) (r : st_dst_reg) :
    (∀ k, (inst.set_dst j r).src k = inst.src k) ∧
    (∀ k, (inst.set_dst j r).tex_offsets k = inst.tex_offsets k) ∧
    (inst.set_dst j r).info = inst.info ∧
    (inst.set_dst j r).tex_offset_num_offset = inst.tex_offset_num_offset := by
  match j with
  | 0 =>
    refine ⟨fun k => ?_, fun k => ?_, rfl, rfl⟩
    · match k with
      | 0 | 1 | 2 | 3 | _ + 4 => rfl
    · match k with
      | 0 | 1 | 2 | 3 | _ + 4 => rfl
  | 1 =>
    refine ⟨fun k => ?_, fun k => ?_, rfl, rfl⟩
    · match k with
      | 0 | 1 | 2 | 3 | _ + 4 => rfl
    · match k with
      | 0 | 1 | 2 | 3 | _ + 4 => rfl
  | _ + 2 => exact ⟨fun _ => rfl, fun _ => rfl, rfl, rfl⟩

/-- The body of `rename_temp_registers` on one instruction renames the index of
every temporary in an operand slot in use and keeps the slot counts. -/
theorem rename_temp_registers_inst_spec (renames : List rename_reg_pair)
    (inst inst1 : glsl_to_tgsi_instruction)
    (h : rename_temp_registers_inst renames inst = some inst1) :
    inst1.info = inst.info ∧ inst1.tex_offset_num_offset = inst.tex_offset_num_offset ∧
    (∀ k, k < num_inst_src_regs inst → ∃ r, inst.src k = some r ∧
      inst1.src k = some (if r.file = PROGRAM_TEMPORARY
        then r.set_index (rename_index renames r.index) else r)) ∧
    (∀ k, k < inst.tex_offset_num_offset → ∃ r, inst.tex_offsets k = some r ∧
      inst1.tex_offsets k = some (if r.file = PROGRAM_TEMPORARY
        then r.set_index (rename_index renames r.index) else r)) := by
  unfold rename_temp_registers_inst at h
  simp only [] at h
  split at h
  · cases h
  · next a hs =>
    split at h
    · cases h
    · next b ht =>
      have h1 := loop_range_some
        (fun j (x : glsl_to_tgsi_instruction) =>
          x.info = inst.info ∧ x.tex_offset_num_offset = inst.tex_offset_num_offset ∧
          (∀ k, x.tex_offsets k = inst.tex_offsets k) ∧
          (∀ k, (k < j → ∃ r, inst.src k = some r ∧
              x.src k = some (if r.file = PROGRAM_TEMPORARY
                then r.set_index (rename_index renames r.index) else r)) ∧
            (¬ k < j → x.src k = inst.src k)))
        (num_inst_src_regs inst) _ ?_ inst a ⟨rfl, rfl, fun _ => rfl,
          fun k => ⟨fun hk => absurd hk (Nat.not_lt_zero _), fun _ => rfl⟩⟩ hs
      swap
      · intro j _ x x1 ⟨hi, hn, hto, hsr⟩ hf
        split at hf
        · cases hf
        · next r hr =>
          have hr0 : inst.src j = some r := by rw [← (hsr j).2 (lt_irrefl _)]; exact hr
          by_cases hfile : r.file = PROGRAM_TEMPORARY
          · rw [if_pos hfile] at hf
            cases hf
            obtain ⟨s1, s2, s3, s4⟩ := set_src_spec x j r
              (r.set_index (rename_index renames r.index)) hr
            refine ⟨s3.trans hi, s4.trans hn, fun k => (s2 k).trans (hto k), fun k => ?_⟩
            rw [s1 k]
            constructor
            · intro hk
              by_cases hkj : k = j
              · subst hkj
                exact ⟨r, hr0, by simp [hfile]⟩
              · rw [if_neg hkj]
                exact (hsr k).1 (by omega)
            · intro hk
              have hkj : k ≠ j := by omega
              rw [if_neg hkj]
              exact (hsr k).2 (by omega)
          · rw [if_neg hfile] at hf
            cases hf
            refine ⟨hi, hn, hto, fun k => ⟨fun hk => ?_, fun hk => (hsr k).2 (by omega)⟩⟩
            by_cases hkj : k = j
            · subst hkj
              exact ⟨r, hr0, by rw [if_neg hfile]; exact hr⟩
            · exact (hsr k).1 (by omega)
      obtain ⟨ai, an, ato, asr⟩ := h1
      have h2 := loop_range_some
        (fun j (x : glsl_to_tgsi_instruction) =>
          x.info = inst.info ∧ x.tex_offset_num_offset = inst.tex_offset_num_offset ∧
          (∀ k, x.src k = a.src k) ∧
          (∀ k, (k < j → ∃ r, inst.tex_offsets k = some r ∧
              x.tex_offsets k = some (if r.file = PROGRAM_TEMPORARY
                then r.set_index (rename_index renames r.index) else r)) ∧
            (¬ k < j → x.tex_offsets k = inst.tex_offsets k)))
        a.tex_offset_num_offset _ ?_ a b ⟨ai, an, fun _ => rfl,
          fun k => ⟨fun hk => absurd hk (Nat.not_lt_zero _), fun _ => ato k⟩⟩ ht
      swap
      · intro j _ x x1 ⟨hi, hn, hsr, hto⟩ hf
        split at hf
        · cases hf
        · next r hr =>
          have hr0 : inst.tex_offsets j = some r := by
            rw [← (hto j).2 (lt_irrefl _)]; exact hr
          by_cases hfile : r.file = PROGRAM_TEMPORARY
          · rw [if_pos hfile] at hf
            cases hf
            obtain ⟨s1, s2, s3, s4⟩ := set_tex_offsets_spec x j r
              (r.set_index (rename_index renames r.index)) hr
            refine ⟨s3.trans hi, s4.trans hn, fun k => (s2 k).trans (hsr k), fun k => ?_⟩
            rw [s1 k]
            constructor
            · intro hk
              by_cases hkj : k = j
              · subst hkj
                exact ⟨r, hr0, by simp [hfile]⟩
              · rw [if_neg hkj]
                exact (hto k).1 (by omega)
            · intro hk
              have hkj : k ≠ j := by omega
              rw [if_neg hkj]
              exact (hto k).2 (by omega)
          · rw [if_neg hfile] at hf
            cases hf
            refine ⟨hi, hn, hsr, fun k => ⟨fun hk => ?_, fun hk => (hto k).2 (by omega)⟩⟩
            by_cases hkj : k = j
            · subst hkj
              exact ⟨r, hr0, by rw [if_neg hfile]; exact hr⟩
            · exact (hto k).1 (by omega)
      obtain ⟨bi, bn, bsr, bto⟩ := h2
      have h3 := loop_range_some
        (fun _ (x : glsl_to_tgsi_instruction) =>
          x.info = inst.info ∧ x.tex_offset_num_offset = inst.tex_offset_num_offset ∧
          (∀ k, x.src k = b.src k) ∧ (∀ k, x.tex_offsets k = b.tex_offsets k))
        (num_inst_dst_regs b) _ ?_ b inst1 ⟨bi, bn, fun _ => rfl, fun _ => rfl⟩ h
      swap
      · intro j _ x x1 ⟨hi, hn, hsr, hto⟩ hf
        split at hf
        · cases hf
        · next r hr =>
          split_ifs at hf
          · cases hf
            obtain ⟨s1, s2, s3, s4⟩ := set_dst_spec x j
              { r with index := rename_index renames r.index }
            exact ⟨s3.trans hi, s4.trans hn, fun k => (s1 k).trans (hsr k),
              fun k => (s2 k).trans (hto k)⟩
          · cases hf
            exact ⟨hi, hn, hsr, hto⟩
      obtain ⟨ci, cn, csr, cto⟩ := h3
      refine ⟨ci, cn, fun k hk => ?_, fun k hk => ?_⟩
      · obtain ⟨r, hr, hx⟩ := (asr k).1 hk
        exact ⟨r, hr, by rw [csr k, bsr k]; exact hx⟩
      · obtain ⟨r, hr, hx⟩ := (bto k).1 (by rw [an]; exact hk)
        exact ⟨r, hr, by rw [cto k]; exact hx⟩

theorem mem_inst_temps_read_renamed (renames : List rename_reg_pair)
    (inst inst1 : glsl_to_tgsi_instruction)
    (h : rename_temp_registers_inst renames inst = some inst1) (a : Int) :
    a ∈ inst_temps_read inst1 ↔ ∃ b ∈ inst_temps_read inst, rename_index renames b = a := by
  obtain ⟨hi, hn, hsr, hto⟩ := rename_temp_registers_inst_spec renames inst inst1 h
  have hns : num_inst_src_regs inst1 = num_inst_src_regs inst := by
    unfold num_inst_src_regs
    rw [hi]
  simp only [mem_inst_temps_read, hns, hn]
  constructor
  · rintro (⟨j, r, hj, hs, hf, hx⟩ | ⟨j, r, hj, hs, hf, hx⟩)
    · obtain ⟨r0, hr0, hr1⟩ := hsr j hj
      rw [hr1] at hs
      simp only [Option.some.injEq] at hs
      subst hs
      by_cases hfile : r0.file = PROGRAM_TEMPORARY
      · simp only [hfile, if_true] at hx
        rw [(rename_operand_spec renames r0).2] at hx
        exact ⟨r0.index, Or.inl ⟨j, r0, hj, hr0, hfile, rfl⟩, hx⟩
      · simp only [hfile, if_false] at hf
    · obtain ⟨r0, hr0, hr1⟩ := hto j hj
      rw [hr1] at hs
      simp only [Option.some.injEq] at hs
      subst hs
      by_cases hfile : r0.file = PROGRAM_TEMPORARY
      · simp only [hfile, if_true] at hx
        rw [(rename_operand_spec renames r0).2] at hx
        exact ⟨r0.index, Or.inr ⟨j, r0, hj, hr0, hfile, rfl⟩, hx⟩
      · simp only [hfile, if_false] at hf
  · rintro ⟨b, (⟨j, r, hj, hs, hf, hx⟩ | ⟨j, r, hj, hs, hf, hx⟩), hb⟩
    · obtain ⟨r0, hr0, hr1⟩ := hsr j hj
      rw [hs] at hr0
      simp only [Option.some.injEq] at hr0
      subst hr0
      refine Or.inl ⟨j, _, hj, hr1, ?_, ?_⟩
      · simp only [hf, if_true]
        rw [(rename_operand_spec renames r).1]; exact hf
      · simp only [hf, if_true]
        rw [(rename_operand_spec renames r).2, hx]; exact hb
    · obtain ⟨r0, hr0, hr1⟩ := hto j hj
      rw [hs] at hr0
      simp only [Option.some.injEq] at hr0
      subst hr0
      refine Or.inr ⟨j, _, hj, hr1, ?_, ?_⟩
      · simp only [hf, if_true]
        rw [(rename_operand_spec renames r).1]; exact hf
      · simp only [hf, if_true]
        rw [(rename_operand_spec renames r).2, hx]; exact hb

/-- After `rename_temp_registers` the temporaries read are the images of the
temporaries read before. -/
theorem mem_temps_read_renamed (renames : List rename_reg_pair)
    (instructions : List glsl_to_tgsi_instruction) :
    ∀ instructions1, rename_temp_registers renames instructions = some instructions1 →
      ∀ a, a ∈ temps_read instructions1 ↔
        ∃ b ∈ temps_read instructions, rename_index renames b = a := by
  induction instructions with
  | nil =>
    intro l h a
    simp only [rename_temp_registers, Option.some.injEq] at h
    subst h
    simp [temps_read]
  | cons inst rest ih =>
    intro l h a
    simp only [rename_temp_registers] at h
    split at h
    · next inst1 rest1 h1 h2 =>
      simp only [Option.some.injEq] at h
      subst h
      simp only [temps_read, List.flatMap_cons, List.mem_append]
      rw [mem_inst_temps_read_renamed renames inst inst1 h1 a]
      have := ih rest1 h2 a
      simp only [temps_read] at this
      rw [this]
      constructor
      · rintro (⟨b, hb, e⟩ | ⟨b, hb, e⟩)
        · exact ⟨b, Or.inl hb, e⟩
        · exact ⟨b, Or.inr hb, e⟩
      · rintro ⟨b, hb | hb, e⟩
        · exact Or.inl ⟨b, hb, e⟩
        · exact Or.inr ⟨b, hb, e⟩
    · cases h

/-- The number of distinct temporaries read is the number of non-negative entries
of the table of first reads. -/
theorem temps_read_dedup_length (n : Nat) (instructions : List glsl_to_tgsi_instruction)
    (first_reads : List Int)
    (hinv : first_reads_inv n (fun a => a ∈ temps_read instructions) first_reads) :
    (temps_read instructions).dedup.length = first_reads_rank first_reads n := by
  obtain ⟨hlen, _, hiff, hbnd⟩ := hinv
  have hperm : List.Perm (temps_read instructions).dedup
      (((List.range n).filter (fun k => decide (0 ≤ first_reads.getD k (-1)))).map
        (fun k : Nat => (k : Int))) := by
    rw [List.perm_ext_iff_of_nodup (List.nodup_dedup _)
      (((List.nodup_range n).filter _).map (fun a b hab => by exact_mod_cast hab))]
    intro a
    simp only [List.mem_dedup, List.mem_map, List.mem_filter, List.mem_range,
      decide_eq_true_eq]
    constructor
    · intro ha
      obtain ⟨h0, h1⟩ := hbnd a ha
      refine ⟨a.toNat, ⟨h1, ?_⟩, Int.toNat_of_nonneg h0⟩
      rw [hiff a.toNat h1, Int.toNat_of_nonneg h0]
      exact ha
    · rintro ⟨k, ⟨hk, hl⟩, rfl⟩
      exact (hiff k hk).mp hl
  rw [hperm.length_eq, List.length_map, first_reads_rank, List.countP_eq_length_filter]

/-- Claim C9: when `renumber_registers` returns, the renames it applied map the
temporaries that are read strictly increasingly onto `0 .. next_temp - 1`, the
temporaries read afterwards are exactly these indices, and `next_temp` is the
number of distinct temporaries read. -/
theorem renumber_registers_compacts (v v1 : glsl_to_tgsi_visitor)
    (h : renumber_registers v = some v1) :
    ∃ renames,
      rename_temp_registers renames v.instructions = some v1.instructions ∧
      (∀ a ∈ temps_read v.instructions, ∀ b ∈ temps_read v.instructions, a < b →
        rename_index renames a < rename_index renames b) ∧
      (∀ k : Int, k ∈ temps_read v1.instructions ↔
        ∃ a ∈ temps_read v.instructions, rename_index renames a = k) ∧
      (∀ k : Int, k ∈ temps_read v1.instructions ↔ 0 ≤ k ∧ k < v1.next_temp) ∧
      v1.next_temp = ((temps_read v.instructions).dedup.length : Int) := by
  unfold renumber_registers at h
  split at h
  · cases h
  · next first_reads hfr =>
    split at h
    · cases h
    · next renames new_index hrn =>
      cases hren : rename_temp_registers renames v.instructions with
      | none => rw [hren] at h; cases h
      | some insts1 =>
        rw [hren] at h
        simp only [Option.map_some', Option.some.injEq] at h
        subst h
        have hinv := get_first_temp_read_spec v.next_temp.toNat v.instructions first_reads hfr
        have hinv' := hinv
        obtain ⟨hlen, _, hiff, hbnd⟩ := hinv'
        obtain ⟨hni, hmap⟩ := renumber_registers_renames_spec first_reads renames new_index hrn
        rw [hlen] at hni hmap
        have hread : ∀ a ∈ temps_read v.instructions,
            0 ≤ a ∧ a.toNat < v.next_temp.toNat ∧ 0 ≤ first_reads.getD a.toNat (-1) ∧
              rename_index renames a = (first_reads_rank first_reads a.toNat : Int) := by
          intro a ha
          obtain ⟨h0, h1⟩ := hbnd a ha
          have hl : 0 ≤ first_reads.getD a.toNat (-1) := by
            rw [hiff a.toNat h1, Int.toNat_of_nonneg h0]
            exact ha
          have := hmap a.toNat h1 hl
          rw [Int.toNat_of_nonneg h0] at this
          exact ⟨h0, h1, hl, this⟩
        have hmem := mem_temps_read_renamed renames v.instructions insts1 hren
        refine ⟨renames, hren, ?_, hmem, ?_, ?_⟩
        · intro a ha b hb hab
          obtain ⟨a0, _, al, ar⟩ := hread a ha
          obtain ⟨b0, _, _, br⟩ := hread b hb
          rw [ar, br]
          have := first_reads_rank_strict first_reads a.toNat b.toNat (by omega) al
          exact_mod_cast this
        · intro k
          show k ∈ temps_read insts1 ↔ 0 ≤ k ∧ k < new_index
          rw [hmem k, hni]
          constructor
          · rintro ⟨a, ha, rfl⟩
            obtain ⟨a0, a1, al, ar⟩ := hread a ha
            rw [ar]
            have h1 := first_reads_rank_strict first_reads a.toNat (a.toNat + 1) (by omega) al
            have h2 := first_reads_rank_mono first_reads (a.toNat + 1) v.next_temp.toNat
              (by omega)
            constructor
            · exact Int.ofNat_nonneg _
            · exact_mod_cast (by omega : first_reads_rank first_reads a.toNat
                < first_reads_rank first_reads v.next_temp.toNat)
          · rintro ⟨k0, k1⟩
            obtain ⟨m, hm, hl, hr⟩ := first_reads_rank_onto first_reads v.next_temp.toNat
              k.toNat (by omega)
            have ha : (m : Int) ∈ temps_read v.instructions := (hiff m hm).mp hl
            refine ⟨m, ha, ?_⟩
            rw [hmap m hm hl, hr]
            exact Int.toNat_of_nonneg k0
        · show new_index = _
          rw [hni, temps_read_dedup_length v.next_temp.toNat v.instructions first_reads hinv]

set_option maxHeartbeats 4000000 in
/-- On `example_renumber_input` with four temporaries, `renumber_registers`
renames `TEMP[1]` to 0 and `TEMP[3]` to 1 and sets `next_temp` to 2. -/
theorem renumber_registers_compacts_witness :
    ∃ renames,
      rename_temp_registers renames (example_visitor_with 4 example_renumber_input).instructions
        = some (example_visitor_with 2 example_renumber_output).instructions ∧
      (∀ a ∈ temps_read (example_visitor_with 4 example_renumber_input).instructions,
        ∀ b ∈ temps_read (example_visitor_with 4 example_renumber_input).instructions, a < b →
        rename_index renames a < rename_index renames b) ∧
      (∀ k : Int, k ∈ temps_read (example_visitor_with 2 example_renumber_output).instructions ↔
        ∃ a ∈ temps_read (example_visitor_with 4 example_renumber_input).instructions,
          rename_index renames a = k) ∧
      (∀ k : Int, k ∈ temps_read (example_visitor_with 2 example_renumber_output).instructions ↔
        0 ≤ k ∧ k < (example_visitor_with 2 example_renumber_output).next_temp) ∧
      (example_visitor_with 2 example_renumber_output).next_temp
        = ((temps_read (example_visitor_with 4 example_renumber_input).instructions).dedup.length
            : Int) :=
  renumber_registers_compacts (example_visitor_with 4 example_renumber_input)
    (example_visitor_with 2 example_renumber_output)
    (by
      have h1 : get_first_temp_read (example_visitor_with 4 example_renumber_input).instructions
          (List.replicate (example_visitor_with 4 example_renumber_input).next_temp.toNat (-1))
          = some [-1, 3, -1, 1] := by decide
      have h2 : renumber_registers_renames [-1, 3, -1, 1] = some ([⟨1, 0⟩, ⟨3, 1⟩], 2) := by
        decide
      have h3 : rename_temp_registers [⟨1, 0⟩, ⟨3, 1⟩]
          (example_visitor_with 4 example_renumber_input).instructions
          = some example_renumber_output := by decide
      simp only [renumber_registers, h1, h2, h3]
      rfl)

/-! ## `setup_buffer_access` on `struct S { vec3 a; float b; }` -/

/-- Claim C10: with a packing other than std430 and a layout that gives `vec3`
the base alignment 16 and the size 12, `float` the base alignment 4 and the
struct the size 16, `setup_buffer_access` adds 12 to the constant offset for
`s.b` and 0 for `s.a`, and for an array of the struct indexed by a constant `k`
it adds `16 * k` more (in 32-bit unsigned arithmetic); no run-time offset term is
produced. -/
theorem setup_buffer_access_struct_offsets (layout : glsl_type_layout)
    (constant_index : ir_rvalue → Option Nat) (packing : glsl_interface_packing)
    (s t : ir_variable) (index : ir_rvalue) (k length c0 i1 i2 i3 : Nat)
    (struct_field : Option (glsl_type × Nat)) (want_struct_field : Bool)
    (hp : packing ≠ GLSL_INTERFACE_PACKING_STD430)
    (hs : s.type = example_struct_type)
    (ht : t.type = glsl_type.get_array_instance example_struct_type length)
    (hsl : s.matrix_layout = GLSL_MATRIX_LAYOUT_INHERITED ∧ s.is_in_buffer_block = true)
    (htl : t.matrix_layout = GLSL_MATRIX_LAYOUT_INHERITED ∧ t.is_in_buffer_block = true)
    (hk : constant_index index = some k)
    (h1 : layout.std140_base_alignment glsl_type.vec3_type false = 16)
    (h2 : layout.std140_size glsl_type.vec3_type false = 12)
    (h3 : layout.std140_base_alignment glsl_type.float_type false = 4)
    (h4 : layout.std140_size example_struct_type false = 16) :
    (setup_buffer_access layout constant_index
        (.dereference_record i1 glsl_type.float_type (.dereference_variable i2 s) "b")
        c0 struct_field want_struct_field packing).map (fun r => (r.const_offset, r.offset))
      = some ((c0 + 12) % 2 ^ 32, []) ∧
    (setup_buffer_access layout constant_index
        (.dereference_record i1 glsl_type.vec3_type (.dereference_variable i2 s) "a")
        c0 struct_field want_struct_field packing).map (fun r => (r.const_offset, r.offset))
      = some (c0 % 2 ^ 32, []) ∧
    (setup_buffer_access layout constant_index
        (.dereference_record i1 glsl_type.float_type
          (.dereference_array i3 example_struct_type (.dereference_variable i2 t) index) "b")
        c0 struct_field want_struct_field packing).map (fun r => (r.const_offset, r.offset))
      = some ((c0 + 12 + 16 * k) % 2 ^ 32, []) ∧
    (setup_buffer_access layout constant_index
        (.dereference_record i1 glsl_type.vec3_type
          (.dereference_array i3 example_struct_type (.dereference_variable i2 t) index) "a")
        c0 struct_field want_struct_field packing).map (fun r => (r.const_offset, r.offset))
      = some ((c0 + 16 * k) % 2 ^ 32, []) := by
  have hf : glsl_type.float_type.without_array = glsl_type.float_type := by decide
  have hv3 : glsl_type.vec3_type.without_array = glsl_type.vec3_type := by decide
  have hst : example_struct_type.without_array = example_struct_type := by decide
  have hsr : example_struct_type.is_record = true := by decide
  have hnp : (packing = GLSL_INTERFACE_PACKING_STD430) = False := by simp [hp]
  have hfields : example_struct_type.fields
      = .structure (.cons "a" glsl_type.vec3_type GLSL_MATRIX_LAYOUT_INHERITED (-1)
          (.cons "b" glsl_type.float_type GLSL_MATRIX_LAYOUT_INHERITED (-1) .nil)) := rfl
  have hlen : example_struct_type.length = 2 := rfl
  have hfa : example_struct_type.field "a"
      = some (glsl_type.vec3_type, GLSL_MATRIX_LAYOUT_INHERITED, -1) := by decide
  have hfb : example_struct_type.field "b"
      = some (glsl_type.float_type, GLSL_MATRIX_LAYOUT_INHERITED, -1) := by decide
  have hsm : example_struct_type.is_matrix = false := by decide
  have hfm : glsl_type.float_type.is_matrix = false := by decide
  have hvm : glsl_type.vec3_type.is_matrix = false := by decide
  have hfr : glsl_type.float_type.is_record = false := by decide
  have hvr : glsl_type.vec3_type.is_record = false := by decide
  have harr : (glsl_type.get_array_instance example_struct_type length).without_array
      = example_struct_type := rfl
  have hsi : example_struct_type.is_interface = false := by decide
  have hav : (glsl_type.get_array_instance example_struct_type length).is_vector = false := rfl
  have ham : (glsl_type.get_array_instance example_struct_type length).is_matrix = false := rfl
  have hab : "a" ≠ "b" := by decide
  have hg1 : glsl_align 0 16 = some 0 := by decide
  have hg2 : glsl_align 12 4 = some 12 := by decide
  have hg3 : glsl_align 16 16 = some 16 := by decide
  refine ⟨?_, ?_, ?_, ?_⟩
  · simp [setup_buffer_access, setup_buffer_access_from, is_dereferenced_thing_row_major,
      is_dereferenced_thing_row_major_from, intra_struct_offset_from, ir_rvalue.type,
      ir_rvalue.variable_referenced, ir_rvalue.is_dereference, hs, hsl.1, hsl.2, hf, hv3,
      hst, hsr, hfields, hlen, hfa, hfb, hsm, hfm, hvm, hfr, hvr, hnp, h1, h2, h3, hab, hg1,
      hg2]
  · simp [setup_buffer_access, setup_buffer_access_from, is_dereferenced_thing_row_major,
      is_dereferenced_thing_row_major_from, intra_struct_offset_from, ir_rvalue.type,
      ir_rvalue.variable_referenced, ir_rvalue.is_dereference, hs, hsl.1, hsl.2, hf, hv3,
      hst, hsr, hfields, hlen, hfa, hfb, hsm, hfm, hvm, hfr, hvr, hnp, h1, h2, h3, hab, hg1,
      hg2]
  · simp [setup_buffer_access, setup_buffer_access_from, is_dereferenced_thing_row_major,
      is_dereferenced_thing_row_major_from, intra_struct_offset_from, ir_rvalue.type,
      ir_rvalue.variable_referenced, ir_rvalue.is_dereference, ht, htl.1, htl.2, hf, hv3,
      hst, hsr, hfields, hlen, hfa, hfb, hsm, hfm, hvm, hfr, hvr, hnp, h1, h2, h3, h4, hab,
      hg1, hg2, hg3, harr, hav, ham, hsi, hk]
  · simp [setup_buffer_access, setup_buffer_access_from, is_dereferenced_thing_row_major,
      is_dereferenced_thing_row_major_from, intra_struct_offset_from, ir_rvalue.type,
      ir_rvalue.variable_referenced, ir_rvalue.is_dereference, ht, htl.1, htl.2, hf, hv3,
      hst, hsr, hfields, hlen, hfa, hfb, hsm, hfm, hvm, hfr, hvr, hnp, h1, h2, h3, h4, hab,
      hg1, hg2, hg3, harr, hav, ham, hsi, hk]

/-- The offsets of `s.a`, `s.b`, `t[3].a` and `t[3].b` from the block offset 100
under the std140 layout of the examples. -/
theorem setup_buffer_access_struct_offsets_witness :
    (setup_buffer_access example_layout example_constant_index
        (.dereference_record 30 glsl_type.float_type
          (.dereference_variable 31 example_block_struct) "b")
        100 none false GLSL_INTERFACE_PACKING_STD140).map (fun r => (r.const_offset, r.offset))
      = some ((100 + 12) % 2 ^ 32, []) ∧
    (setup_buffer_access example_layout example_constant_index
        (.dereference_record 30 glsl_type.vec3_type
          (.dereference_variable 31 example_block_struct) "a")
        100 none false GLSL_INTERFACE_PACKING_STD140).map (fun r => (r.const_offset, r.offset))
      = some (100 % 2 ^ 32, []) ∧
    (setup_buffer_access example_layout example_constant_index
        (.dereference_record 30 glsl_type.float_type
          (.dereference_array 32 example_struct_type
            (.dereference_variable 31 example_block_array) example_index) "b")
        100 none false GLSL_INTERFACE_PACKING_STD140).map (fun r => (r.const_offset, r.offset))
      = some ((100 + 12 + 16 * 3) % 2 ^ 32, []) ∧
    (setup_buffer_access example_layout example_constant_index
        (.dereference_record 30 glsl_type.vec3_type
          (.dereference_array 32 example_struct_type
            (.dereference_variable 31 example_block_array) example_index) "a")
        100 none false GLSL_INTERFACE_PACKING_STD140).map (fun r => (r.const_offset, r.offset))
      = some ((100 + 16 * 3) % 2 ^ 32, []) :=
  setup_buffer_access_struct_offsets example_layout example_constant_index
    GLSL_INTERFACE_PACKING_STD140 example_block_struct example_block_array example_index 3 4
    100 30 31 32 none false (by decide) (by decide) (by decide) (by decide) (by decide)
    (by decide) (by decide) (by decide) (by decide) (by decide)

/-! ## Soundness of `copy_propagate` without branches -/

theorem GET_SWZ_lt (swz i : Nat) : GET_SWZ swz i < 8 := by
  unfold GET_SWZ
  exact Nat.lt_of_le_of_lt Nat.and_le_right (by decide)

theorem GET_SWZ_assembled (c0 c1 c2 c3 : Nat) (h0 : c0 < 8) (h1 : c1 < 8) (h2 : c2 < 8)
    (h3 : c3 < 8) :
    GET_SWZ (0 ||| (c0 <<< (3 * 0)) ||| (c1 <<< (3 * 1)) ||| (c2 <<< (3 * 2))
      ||| (c3 <<< (3 * 3))) 0 = c0 ∧
    GET_SWZ (0 ||| (c0 <<< (3 * 0)) ||| (c1 <<< (3 * 1)) ||| (c2 <<< (3 * 2))
      ||| (c3 <<< (3 * 3))) 1 = c1 ∧
    GET_SWZ (0 ||| (c0 <<< (3 * 0)) ||| (c1 <<< (3 * 1)) ||| (c2 <<< (3 * 2))
      ||| (c3 <<< (3 * 3))) 2 = c2 ∧
    GET_SWZ (0 ||| (c0 <<< (3 * 0)) ||| (c1 <<< (3 * 1)) ||| (c2 <<< (3 * 2))
      ||| (c3 <<< (3 * 3))) 3 = c3 := by
  have key : ∀ a b c d : Fin 8,
      GET_SWZ (0 ||| (a.1 <<< (3 * 0)) ||| (b.1 <<< (3 * 1)) ||| (c.1 <<< (3 * 2))
        ||| (d.1 <<< (3 * 3))) 0 = a.1 ∧
      GET_SWZ (0 ||| (a.1 <<< (3 * 0)) ||| (b.1 <<< (3 * 1)) ||| (c.1 <<< (3 * 2))
        ||| (d.1 <<< (3 * 3))) 1 = b.1 ∧
      GET_SWZ (0 ||| (a.1 <<< (3 * 0)) ||| (b.1 <<< (3 * 1)) ||| (c.1 <<< (3 * 2))
        ||| (d.1 <<< (3 * 3))) 2 = c.1 ∧
      GET_SWZ (0 ||| (a.1 <<< (3 * 0)) ||| (b.1 <<< (3 * 1)) ||| (c.1 <<< (3 * 2))
        ||| (d.1 <<< (3 * 3))) 3 = d.1 := by
    decide
  exact key ⟨c0, h0⟩ ⟨c1, h1⟩ ⟨c2, h2⟩ ⟨c3, h3⟩

/-- Lookup of the four channels: every channel from `i` on has an entry whose
`MOV` reads the register of the result. -/
theorem copy_propagate_lookup_spec (st : acp_state) (src : st_src_reg) (fuel : Nat) :
    ∀ (i : Nat) (first : Option glsl_to_tgsi_instruction) (res : glsl_to_tgsi_instruction),
      copy_propagate_lookup st src fuel i first = some (some res) →
      (∀ f, first = some f → res = f) ∧
      ∀ j, i ≤ j → j < i + fuel → ∃ pos mov,
        arr_get st.acp (src.index * 4 + GET_SWZ src.swizzle j) = some (some pos)
        ∧ st.done[pos]? = some mov
        ∧ res.src0.file = mov.src0.file ∧ res.src0.index = mov.src0.index
        ∧ res.src0.index2D = mov.src0.index2D := by
  induction fuel with
  | zero =>
    intro i first res h
    simp only [copy_propagate_lookup, Option.some.injEq] at h
    refine ⟨fun f hf => ?_, fun j h1 h2 => by omega⟩
    rw [hf] at h
    exact (Option.some.inj h).symm
  | succ fuel ih =>
    intro i first res h
    unfold copy_propagate_lookup at h
    simp only at h
    split at h
    · cases h
    · cases h
    · rename_i pos hpos
      split at h
      · rename_i copy_chan lvl hdone hlvl
        split at h
        · cases h
        · split at h
          · obtain ⟨hres, hall⟩ := ih _ _ _ h
            have hr := hres _ rfl
            refine ⟨fun f hf => (by cases hf), fun j h1 h2 => ?_⟩
            by_cases hj : j = i
            · subst hj
              exact ⟨pos, copy_chan, hpos, hdone, by rw [hr], by rw [hr], by rw [hr]⟩
            · exact hall j (by omega) (by omega)
          · rename_i f
            split at h
            · cases h
            · rename_i hsame
              obtain ⟨hres, hall⟩ := ih _ _ _ h
              have hr := hres _ rfl
              refine ⟨fun f1 hf => (by cases hf; exact hr), fun j h1 h2 => ?_⟩
              by_cases hj : j = i
              · subst hj
                simp only [ne_eq, not_or, not_not] at hsame
                exact ⟨pos, copy_chan, hpos, hdone, hr ▸ hsame.1, hr ▸ hsame.2.1,
                  hr ▸ hsame.2.2.2⟩
              · exact hall j (by omega) (by omega)
      · cases h

theorem copy_propagate_channel_spec (st : acp_state) (src : st_src_reg) (i c pos : Nat)
    (mov : glsl_to_tgsi_instruction)
    (hpos : arr_get st.acp (src.index * 4 + GET_SWZ src.swizzle i) = some (some pos))
    (hmov : st.done[pos]? = some mov)
    (h : copy_propagate_channel st src i = some c) :
    c = GET_SWZ mov.src0.swizzle (GET_SWZ src.swizzle i) := by
  unfold copy_propagate_channel at h
  simp only [hpos, hmov, Option.some.injEq] at h
  exact h.symm

/-- One channel of a lookup: the entry's source register holds what the
temporary channel holds. -/
theorem acp_entry_read (l : List glsl_to_tgsi_instruction) (st : acp_state)
    (state : register_state) (src : st_src_reg) (j pos : Nat)
    (mov first : glsl_to_tgsi_instruction) (hinv : acp_inv l st state)
    (hlt : GET_SWZ src.swizzle j < 4)
    (hpos : arr_get st.acp (src.index * 4 + GET_SWZ src.swizzle j) = some (some pos))
    (hmov : st.done[pos]? = some mov)
    (hsame : first.src0.file = mov.src0.file ∧ first.src0.index = mov.src0.index
      ∧ first.src0.index2D = mov.src0.index2D) :
    state first.src0.file first.src0.index
        (register_index2D first.src0.file first.src0.index2D)
        (GET_SWZ mov.src0.swizzle (GET_SWZ src.swizzle j))
      = state PROGRAM_TEMPORARY src.index 0 (GET_SWZ src.swizzle j)
    ∧ ∃ m ∈ l, m.op = TGSI_OPCODE_MOV ∧ m.src0.file ≠ PROGRAM_ARRAY
        ∧ m.src0.file = first.src0.file := by
  unfold arr_get at hpos
  split at hpos
  · rename_i h0
    obtain ⟨mov1, hm1, _, _, _, hfile, hval⟩ := hinv _ _ hpos
    rw [hmov] at hm1
    cases hm1
    have hk4 : (((src.index * 4 + (GET_SWZ src.swizzle j : Int)).toNat / 4 : Nat) : Int)
        = src.index := by omega
    have hk : (src.index * 4 + (GET_SWZ src.swizzle j : Int)).toNat % 4
        = GET_SWZ src.swizzle j := by omega
    rw [hk4, hk] at hval
    rw [hsame.1, hsame.2.1, hsame.2.2]
    exact ⟨hval.symm, hfile⟩
  · cases hpos

theorem read_operand_direct (sem : instruction_semantics) (state : register_state)
    (src : st_src_reg) (i : Nat) (hrel : src.reladdr.isSet = false)
    (hrel2 : src.reladdr2.isSet = false) :
    read_operand sem state src i = sem.modify src.negate i
      (state src.file src.index (register_index2D src.file src.index2D)
        (GET_SWZ src.swizzle i)) := by
  unfold read_operand
  simp [hrel, hrel2]

/-- Rewriting one operand keeps what it reads. -/
theorem copy_propagate_src_spec (sem : instruction_semantics)
    (l : List glsl_to_tgsi_instruction) (st : acp_state) (state : register_state)
    (src s1 : st_src_reg) (hinv : acp_inv l st state)
    (hswz : src.file = PROGRAM_TEMPORARY → src.reladdr.isSet = false →
      src.reladdr2.isSet = false → ∀ i, i < 4 → GET_SWZ src.swizzle i < 4)
    (h : copy_propagate_src st src = some s1) :
    (∀ i, i < 4 → read_operand sem state s1 i = read_operand sem state src i)
    ∧ s1.negate = src.negate ∧ s1.reladdr = src.reladdr ∧ s1.reladdr2 = src.reladdr2
    ∧ (s1.file = src.file ∨ ∃ m ∈ l, m.op = TGSI_OPCODE_MOV ∧ m.src0.file ≠ PROGRAM_ARRAY
        ∧ m.src0.file = s1.file) := by
  unfold copy_propagate_src at h
  split at h
  · cases h
    exact ⟨fun _ _ => rfl, rfl, rfl, rfl, Or.inl rfl⟩
  · rename_i hc
    simp only [ne_eq, not_or, not_not, Bool.not_eq_true] at hc
    obtain ⟨hfile, hrel, hrel2⟩ := hc
    have hsw := hswz hfile hrel hrel2
    split at h
    · cases h
    · cases h
      exact ⟨fun _ _ => rfl, rfl, rfl, rfl, Or.inl rfl⟩
    · rename_i first hlook
      obtain ⟨_, hall⟩ := copy_propagate_lookup_spec st src 4 0 none first hlook
      split at h
      · rename_i c0 c1 c2 c3 h0 h1 h2 h3
        cases h
        obtain ⟨p0, m0, hp0, hm0, hs0⟩ := hall 0 (by omega) (by omega)
        obtain ⟨p1, m1, hp1, hm1, hs1⟩ := hall 1 (by omega) (by omega)
        obtain ⟨p2, m2, hp2, hm2, hs2⟩ := hall 2 (by omega) (by omega)
        obtain ⟨p3, m3, hp3, hm3, hs3⟩ := hall 3 (by omega) (by omega)
        have e0 := copy_propagate_channel_spec st src 0 c0 p0 m0 hp0 hm0 h0
        have e1 := copy_propagate_channel_spec st src 1 c1 p1 m1 hp1 hm1 h1
        have e2 := copy_propagate_channel_spec st src 2 c2 p2 m2 hp2 hm2 h2
        have e3 := copy_propagate_channel_spec st src 3 c3 p3 m3 hp3 hm3 h3
        have r0 := acp_entry_read l st state src 0 p0 m0 first hinv (hsw 0 (by omega)) hp0 hm0 hs0
        have r1 := acp_entry_read l st state src 1 p1 m1 first hinv (hsw 1 (by omega)) hp1 hm1 hs1
        have r2 := acp_entry_read l st state src 2 p2 m2 first hinv (hsw 2 (by omega)) hp2 hm2 hs2
        have r3 := acp_entry_read l st state src 3 p3 m3 first hinv (hsw 3 (by omega)) hp3 hm3 hs3
        obtain ⟨g0, g1, g2, g3⟩ := GET_SWZ_assembled c0 c1 c2 c3
          (e0 ▸ GET_SWZ_lt _ _) (e1 ▸ GET_SWZ_lt _ _) (e2 ▸ GET_SWZ_lt _ _)
          (e3 ▸ GET_SWZ_lt _ _)
        refine ⟨?_, rfl, rfl, rfl, Or.inr r0.2⟩
        intro i hi
        rw [read_operand_direct sem state src i hrel hrel2, read_operand_direct]
        rotate_left
        · exact hrel
        · exact hrel2
        show sem.modify src.negate i (state first.src0.file first.src0.index
          (register_index2D first.src0.file first.src0.index2D)
          (GET_SWZ (0 ||| c0 <<< (3 * 0) ||| c1 <<< (3 * 1) ||| c2 <<< (3 * 2)
            ||| c3 <<< (3 * 3)) i)) = _
        congr 1
        rw [hfile]
        have hz : register_index2D PROGRAM_TEMPORARY src.index2D = 0 := by
          simp [register_index2D]
        rw [hz]
        interval_cases i
        · rw [g0, e0]; exact r0.1
        · rw [g1, e1]; exact r1.1
        · rw [g2, e2]; exact r2.1
        · rw [g3, e3]; exact r3.1
      · cases h

theorem map_idx_from_getElem? {α β : Type} (f : Nat → α → β) (l : List α) :
    ∀ (n k : Nat), (map_idx_from f l n)[k]? = (l[k]?).map (f (n + k)) := by
  induction l with
  | nil => intro n k; simp [map_idx_from]
  | cons x xs ih =>
    intro n k
    cases k with
    | zero => simp [map_idx_from]
    | succ k =>
      simp only [map_idx_from, List.getElem?_cons_succ]
      rw [ih (n + 1) k, show n + 1 + k = n + (k + 1) by omega]

/-- A write leaves alone every channel outside its register and write-mask. -/
theorem write_register_other (state : register_state) (dst : st_dst_reg)
    (words : Nat → Nat) (file : gl_register_file) (index index2D : Int) (c : Nat)
    (h : ¬ (file = dst.file ∧ index = dst.index ∧ dst.writemask &&& (1 <<< c) ≠ 0)) :
    write_register state dst words file index index2D c = state file index index2D c := by
  unfold write_register
  split
  · rfl
  · simp only
    rw [if_neg]
    rintro ⟨h1, h2, _, _, h5⟩
    exact h ⟨h1, h2, h5⟩

/-- The loop that clears the entries of the channels a temporary write covers. -/
theorem copy_propagate_clear_dst (dst : st_dst_reg) (acp acp1 : List (Option Nat))
    (h : loop_range 4 (fun c acp =>
          if dst.writemask &&& (1 <<< c) ≠ 0 then arr_set acp (4 * dst.index + c) none
          else some acp) acp = some acp1) :
    ∀ (k pos : Nat), acp1[k]? = some (some pos) → acp[k]? = some (some pos)
      ∧ ∀ c : Nat, c < 4 → dst.writemask &&& (1 <<< c) ≠ 0 →
        (k : Int) ≠ 4 * dst.index + c := by
  refine loop_range_some
    (fun j (a : List (Option Nat)) => ∀ (k pos : Nat), a[k]? = some (some pos) →
      acp[k]? = some (some pos)
      ∧ ∀ c : Nat, c < j → dst.writemask &&& (1 <<< c) ≠ 0 →
        (k : Int) ≠ 4 * dst.index + c)
    4 _ ?_ acp acp1 (fun k pos hk => ⟨hk, fun c hc => by omega⟩) h
  intro j _ s s1 hP hs k pos hk
  simp only at hs
  split at hs
  · rename_i hbit
    unfold arr_set at hs
    split at hs
    · rename_i hb
      cases hs
      by_cases hkj : (4 * dst.index + (j : Int)).toNat = k
      · subst hkj
        rw [List.getElem?_set_self hb.2] at hk
        cases hk
      · rw [List.getElem?_set_ne hkj] at hk
        obtain ⟨h1, h2⟩ := hP k pos hk
        refine ⟨h1, fun c hc hbc => ?_⟩
        by_cases hcj : c = j
        · subst hcj
          intro heq
          apply hkj
          omega
        · exact h2 c (by omega) hbc
    · cases hs
  · rename_i hbit
    cases hs
    obtain ⟨h1, h2⟩ := hP k pos hk
    refine ⟨h1, fun c hc hbc => ?_⟩
    by_cases hcj : c = j
    · subst hcj
      exact absurd hbc hbit
    · exact h2 c (by omega) hbc

/-- Clearing the table for a directly addressed write keeps the invariant
against the register contents after the write. -/
theorem copy_propagate_clear_inv (l : List glsl_to_tgsi_instruction) (st : acp_state)
    (state : register_state) (dst : st_dst_reg) (words : Nat → Nat)
    (acp1 : List (Option Nat)) (hinv : acp_inv l st state)
    (hrel : dst.reladdr.isSet = false)
    (hfile : dst.file = PROGRAM_TEMPORARY ∨ dst.file = PROGRAM_OUTPUT
      ∨ dst.file = PROGRAM_UNDEFINED
      ∨ ∀ m ∈ l, m.op = TGSI_OPCODE_MOV → m.src0.file ≠ PROGRAM_ARRAY →
          m.src0.file ≠ dst.file)
    (h : copy_propagate_clear st.done dst st.acp = some acp1) :
    acp_inv l { st with acp := acp1 } (write_register state dst words) := by
  have frame : (∀ k pos, acp1[k]? = some (some pos) → st.acp[k]? = some (some pos)
      ∧ ¬ (PROGRAM_TEMPORARY = dst.file ∧ ((k / 4 : Nat) : Int) = dst.index
          ∧ dst.writemask &&& (1 <<< (k % 4)) ≠ 0)
      ∧ ∀ mov, st.done[pos]? = some mov →
          (∃ m ∈ l, m.op = TGSI_OPCODE_MOV ∧ m.src0.file ≠ PROGRAM_ARRAY
        ∧ m.src0.file = mov.src0.file) →
          ¬ (mov.src0.file = dst.file ∧ mov.src0.index = dst.index
            ∧ dst.writemask &&& (1 <<< GET_SWZ mov.src0.swizzle (k % 4)) ≠ 0)) →
      acp_inv l { st with acp := acp1 } (write_register state dst words) := by
    intro hf k pos hk
    obtain ⟨h1, h2, h3⟩ := hf k pos hk
    obtain ⟨mov, hm, hr1, hr2, hn, hfl, hval⟩ := hinv k pos h1
    refine ⟨mov, hm, hr1, hr2, hn, hfl, ?_⟩
    rw [write_register_other _ _ _ _ _ _ _ h2,
      write_register_other _ _ _ _ _ _ _ (h3 mov hm hfl)]
    exact hval
  unfold copy_propagate_clear at h
  simp only [hrel, Bool.false_eq_true, and_false, if_false] at h
  split at h
  · rename_i hto
    apply frame
    intro k pos hk
    split at h
    · cases h
    · rename_i acp2 hcl
      cases h
      rw [map_idx_from_getElem?] at hk
      cases he : acp2[k]? with
      | none => rw [he] at hk; cases hk
      | some e =>
        rw [he] at hk
        simp only [Option.map_some', zero_add, Option.some.injEq] at hk
        cases e with
        | none => cases hk
        | some p =>
          simp only at hk
          have hsrc : p = pos ∧ ∀ mov, st.done[p]? = some mov →
              ¬ (mov.src0.file = dst.file ∧ mov.src0.index = dst.index
                ∧ dst.writemask &&& (1 <<< GET_SWZ mov.src0.swizzle (k % 4)) ≠ 0) := by
            split at hk
            · rename_i mov hmov
              split at hk
              · cases hk
              · rename_i hno
                cases hk
                refine ⟨rfl, fun mov1 hm1 => ?_⟩
                rw [hmov] at hm1
                cases hm1
                exact hno
            · rename_i hmov
              cases hk
              exact ⟨rfl, fun mov1 hm1 => by rw [hmov] at hm1; cases hm1⟩
          obtain ⟨hp, hsrc⟩ := hsrc
          subst hp
          by_cases ht : dst.file = PROGRAM_TEMPORARY
          · rw [if_pos ht] at hcl
            obtain ⟨g1, g2⟩ := copy_propagate_clear_dst dst st.acp acp2 hcl k p he
            refine ⟨g1, ?_, fun mov hm _ => hsrc mov hm⟩
            rintro ⟨_, hidx, hbit⟩
            exact g2 (k % 4) (Nat.mod_lt _ (by omega)) hbit (by omega)
          · rw [if_neg ht] at hcl
            cases hcl
            exact ⟨he, fun hh => ht hh.1.symm, fun mov hm _ => hsrc mov hm⟩
  · rename_i hto
    cases h
    simp only [not_or] at hto
    rcases hfile with hf | hf | hf | hf
    · exact absurd hf hto.1
    · exact absurd hf hto.2
    · intro k pos hk
      have hw : write_register state dst words = state := by
        unfold write_register
        rw [if_pos (Or.inl hf)]
      rw [hw]
      exact hinv k pos hk
    · apply frame
      intro k pos hk
      refine ⟨hk, fun hh => hto.1 hh.1.symm, fun mov _ hfl hh => ?_⟩
      obtain ⟨m, hm, hop, hna, hmf⟩ := hfl
      exact hf m hm hop hna (hmf.trans hh.1)

/-- Appending a processed instruction keeps the invariant. -/
theorem acp_inv_append (l : List glsl_to_tgsi_instruction) (st : acp_state)
    (state : register_state) (inst : glsl_to_tgsi_instruction) (hinv : acp_inv l st state) :
    acp_inv l { st with done := st.done ++ [inst] } state := by
  intro k pos hk
  obtain ⟨mov, hm, hrest⟩ := hinv k pos hk
  refine ⟨mov, ?_, hrest⟩
  have hlt : pos < st.done.length := by
    by_contra hge
    rw [List.getElem?_eq_none (by omega)] at hm
    cases hm
  show (st.done ++ [inst])[pos]? = some mov
  rw [List.getElem?_append_left hlt]
  exact hm

/-- What a copy leaves in the registers: the written channels of the temporary
hold the words of the source channels. -/
theorem execute_copy (sem : instruction_semantics) (hsem : semantics_copies sem)
    (state : register_state) (inst : glsl_to_tgsi_instruction)
    (hcopy : copy_propagate_is_copy inst = true)
    (hdst1 : inst.dst1.file = PROGRAM_UNDEFINED) (i : Nat) (hi : i < 4)
    (hbit : inst.dst0.writemask &&& (1 <<< i) ≠ 0) :
    execute sem state inst PROGRAM_TEMPORARY inst.dst0.index 0 i
      = execute sem state inst inst.src0.file inst.src0.index
          (register_index2D inst.src0.file inst.src0.index2D)
          (GET_SWZ inst.src0.swizzle i) := by
  simp only [copy_propagate_is_copy, decide_eq_true_eq] at hcopy
  obtain ⟨hop, hfile, hne, hr1, hr2, hsat, _, hs1, hs2, hneg⟩ := hcopy
  have hw1 : ∀ s w, write_register s inst.dst1 w = s := by
    intro s w
    unfold write_register
    rw [if_pos (Or.inl hdst1)]
  unfold execute
  simp only [hw1]
  rw [write_register_other _ _ _ inst.src0.file _ _ _
    (fun hh => hne ⟨hh.1.symm, hh.2.1.symm⟩)]
  unfold write_register
  have hu : ¬ (inst.dst0.file = PROGRAM_UNDEFINED ∨ inst.dst0.reladdr.isSet = true
      ∨ inst.dst0.reladdr2.isSet = true) := by
    rw [hfile, hr1, hr2]
    decide
  rw [if_neg hu]
  simp only
  rw [if_pos]
  swap
  · simp only [hfile, register_index2D, if_true, hi, true_and]
    exact hbit
  rw [hsem.2 _ _ _ _ (show (erase_operands inst).op = TGSI_OPCODE_MOV from hop)
    (show (erase_operands inst).saturate = false from hsat)]
  unfold operand_words
  rw [if_pos hi]
  simp only
  rw [read_operand_direct sem state inst.src0 i hs1 hs2, hneg, hsem.1]

/-- The loop that enters a copy into the table. -/
theorem copy_propagate_add_inv (l : List glsl_to_tgsi_instruction) (st st2 : acp_state)
    (state : register_state) (inst : glsl_to_tgsi_instruction) (hinv : acp_inv l st state)
    (hsrc : inst.src0.reladdr.isSet = false ∧ inst.src0.reladdr2.isSet = false
      ∧ inst.src0.negate = 0
      ∧ ∃ m ∈ l, m.op = TGSI_OPCODE_MOV ∧ m.src0.file ≠ PROGRAM_ARRAY
        ∧ m.src0.file = inst.src0.file)
    (hnew : ∀ i, i < 4 → inst.dst0.writemask &&& (1 <<< i) ≠ 0 →
      state PROGRAM_TEMPORARY inst.dst0.index 0 i
        = state inst.src0.file inst.src0.index
            (register_index2D inst.src0.file inst.src0.index2D)
            (GET_SWZ inst.src0.swizzle i))
    (h : loop_range 4 (fun i st1 =>
          if inst.dst0.writemask &&& (1 <<< i) ≠ 0 then
            match arr_set st1.acp (4 * inst.dst0.index + i) (some st.done.length),
                arr_set st1.acp_level (4 * inst.dst0.index + i) st1.level with
            | some acp1, some lvl1 => some { st1 with acp := acp1, acp_level := lvl1 }
            | _, _ => none
          else some st1) st = some st2) :
    acp_inv l { st2 with done := st2.done ++ [inst] } state := by
  have hloop := loop_range_some
    (fun j (s : acp_state) => s.done = st.done ∧ ∀ (k p : Nat), s.acp[k]? = some (some p) →
      st.acp[k]? = some (some p)
      ∨ (p = st.done.length ∧ ∃ i : Nat, i < j ∧ inst.dst0.writemask &&& (1 <<< i) ≠ 0
          ∧ (k : Int) = 4 * inst.dst0.index + i))
    4 _ ?_ st st2 ⟨rfl, fun k p hk => Or.inl hk⟩ h
  swap
  · intro j _ s s1 hP hs
    simp only at hs
    split at hs
    · rename_i hbit
      split at hs
      · rename_i acp1 lvl1 ha hl
        cases hs
        refine ⟨hP.1, fun k p hk => ?_⟩
        simp only at hk
        unfold arr_set at ha
        split at ha
        · rename_i hb
          cases ha
          by_cases hkj : (4 * inst.dst0.index + (j : Int)).toNat = k
          · subst hkj
            rw [List.getElem?_set_self hb.2] at hk
            cases hk
            exact Or.inr ⟨rfl, j, by omega, hbit, by omega⟩
          · rw [List.getElem?_set_ne hkj] at hk
            rcases hP.2 k p hk with h1 | ⟨h1, i, hi, hbi, hki⟩
            · exact Or.inl h1
            · exact Or.inr ⟨h1, i, by omega, hbi, hki⟩
        · cases ha
      · cases hs
    · cases hs
      refine ⟨hP.1, fun k p hk => ?_⟩
      rcases hP.2 k p hk with h1 | ⟨h1, i, hi, hbi, hki⟩
      · exact Or.inl h1
      · exact Or.inr ⟨h1, i, by omega, hbi, hki⟩
  obtain ⟨hdone, hacp⟩ := hloop
  intro k pos hk
  show ∃ mov, (st2.done ++ [inst])[pos]? = some mov ∧ _
  rw [hdone]
  rcases hacp k pos hk with h1 | ⟨h1, i, hi, hbi, hki⟩
  · exact acp_inv_append l st state inst hinv k pos h1
  · subst h1
    refine ⟨inst, by simp, hsrc.1, hsrc.2.1, hsrc.2.2.1, hsrc.2.2.2, ?_⟩
    have hk4 : ((k / 4 : Nat) : Int) = inst.dst0.index := by omega
    have hkm : k % 4 = i := by omega
    rw [hk4, hkm]
    exact hnew i hi hbi

/-- One iteration of `copy_propagate` on an instruction of an admissible list:
the rewritten instruction reads what the original reads, computes the same
register contents, and the invariant holds after it. -/
theorem copy_propagate_step_spec (sem : instruction_semantics)
    (hsem : semantics_copies sem) (l : List glsl_to_tgsi_instruction)
    (hok : copy_propagate_input_ok l) (next_temp : Int) (st st1 : acp_state)
    (state : register_state) (inst : glsl_to_tgsi_instruction) (hmem : inst ∈ l)
    (hinv : acp_inv l st state) (h : copy_propagate_step next_temp st inst = some st1) :
    ∃ inst1, st1.done = st.done ++ [inst1]
      ∧ (∀ i, i < 4 →
          read_operand sem state inst1.src0 i = read_operand sem state inst.src0 i
          ∧ read_operand sem state inst1.src1 i = read_operand sem state inst.src1 i
          ∧ read_operand sem state inst1.src2 i = read_operand sem state inst.src2 i)
      ∧ execute sem state inst1 = execute sem state inst
      ∧ acp_inv l st1 (execute sem state inst) := by
  obtain ⟨⟨hb1, hb2, hb3, hb4, hb5, hb6⟩, hdst, hmov1, hswz⟩ := hok inst hmem
  unfold copy_propagate_step at h
  split at h
  · cases h
  · split at h
    · cases h
    · rename_i s0 hs0
      split at h
      · cases h
      · rename_i s1 hs1
        split at h
        · cases h
        · rename_i s2 hs2
          obtain ⟨r0, n0, a0, b0, f0⟩ := copy_propagate_src_spec sem l st state inst.src0 s0
            hinv (hswz _ (by simp)) hs0
          obtain ⟨r1, _⟩ := copy_propagate_src_spec sem l st state inst.src1 s1
            hinv (hswz _ (by simp)) hs1
          obtain ⟨r2, _⟩ := copy_propagate_src_spec sem l st state inst.src2 s2
            hinv (hswz _ (by simp)) hs2
          have hex : execute sem state { inst with src0 := s0, src1 := s1, src2 := s2 }
              = execute sem state inst := by
            have hw : operand_words sem state { inst with src0 := s0, src1 := s1, src2 := s2 }
                = operand_words sem state inst := by
              funext r i
              unfold operand_words
              by_cases hi : i < 4
              · rw [if_pos hi, if_pos hi]
                match r with
                | 0 => exact r0 i hi
                | 1 => exact r1 i hi
                | 2 => exact r2 i hi
                | _ + 3 => rfl
              · rw [if_neg hi, if_neg hi]
            unfold execute
            rw [hw]
            rfl
          simp only [hb1, hb2, hb3, hb4, hb5, hb6, or_self, if_false] at h
          split at h
          · cases h
          · rename_i stc hsw
            split at hsw
            · cases hsw
            · rename_i acp1 hc1
              split at hsw
              · cases hsw
              · rename_i acp2 hc2
                cases hsw
                have hd0 := hdst inst.dst0 (by simp)
                have hd1 := hdst inst.dst1 (by simp)
                have i1 := copy_propagate_clear_inv l st state inst.dst0
                  (sem.compute (erase_operands inst) state (operand_words sem state inst) 0)
                  acp1 hinv hd0.1 hd0.2.2 hc1
                have i2 := copy_propagate_clear_inv l { st with acp := acp1 } _ inst.dst1
                  (sem.compute (erase_operands inst) state (operand_words sem state inst) 1)
                  acp2 i1 hd1.1 hd1.2.2 hc2
                have i3 : acp_inv l { st with acp := acp2 } (execute sem state inst) := i2
                refine ⟨{ inst with src0 := s0, src1 := s1, src2 := s2 }, ?_,
                  fun i hi => ⟨r0 i hi, r1 i hi, r2 i hi⟩, hex, ?_⟩
                · split at h
                  · cases hl : loop_range 4 _ _ with
                    | none => rw [hl] at h; cases h
                    | some st2 =>
                      rw [hl] at h
                      cases h
                      have hd := loop_range_some
                        (fun _ (s : acp_state) => s.done = st.done) 4 _ ?_
                        { st with acp := acp2 } st2 rfl hl
                      · simp only [hd]
                      · intro j _ s s1 hP hs
                        simp only at hs
                        split at hs
                        · split at hs
                          · cases hs
                            exact hP
                          · cases hs
                        · cases hs
                          exact hP
                  · cases h
                    rfl
                · split at h
                  · rename_i hcopy
                    cases hl : loop_range 4 _ _ with
                    | none => rw [hl] at h; cases h
                    | some st2 =>
                      rw [hl] at h
                      cases h
                      have hcp := hcopy
                      simp only [copy_propagate_is_copy, decide_eq_true_eq] at hcp
                      have hfl : ∃ m ∈ l, m.op = TGSI_OPCODE_MOV ∧ m.src0.file ≠ PROGRAM_ARRAY
        ∧ m.src0.file = s0.file := by
                        rcases f0 with hf | hf
                        · exact ⟨inst, hmem, hcp.1, hf ▸ hcp.2.2.2.2.2.2.1, hf.symm⟩
                        · exact hf
                      refine copy_propagate_add_inv l { st with acp := acp2 } st2 _
                        { inst with src0 := s0, src1 := s1, src2 := s2 } i3
                        ⟨hcp.2.2.2.2.2.2.2.1, hcp.2.2.2.2.2.2.2.2.1, hcp.2.2.2.2.2.2.2.2.2, hfl⟩
                        ?_ hl
                      intro i hi hbit
                      rw [← hex]
                      exact execute_copy sem hsem state _ hcopy (hmov1 hcp.1) i hi hbit
                  · cases h
                    exact acp_inv_append l { st with acp := acp2 } _ _ i3

theorem map_idx_from_length {α β : Type} (f : Nat → α → β) (l : List α) :
    ∀ n : Nat, (map_idx_from f l n).length = l.length := by
  induction l with
  | nil => intro n; rfl
  | cons x xs ih => intro n; simp [map_idx_from, ih]

/-- Within the tables the lookup of the four channels returns. -/
theorem copy_propagate_lookup_total (next_temp : Int) (st : acp_state)
    (src : st_src_reg) (hshape : acp_shape next_temp st)
    (hdone : ∀ (k pos : Nat), st.acp[k]? = some (some pos) → pos < st.done.length)
    (hidx : 0 ≤ src.index ∧ src.index < next_temp)
    (hswz : ∀ i, i < 4 → GET_SWZ src.swizzle i < 4) (fuel : Nat) :
    ∀ (i : Nat) (first : Option glsl_to_tgsi_instruction), i + fuel ≤ 4 →
      ∃ r, copy_propagate_lookup st src fuel i first = some r := by
  induction fuel with
  | zero => intro i first _; exact ⟨first, rfl⟩
  | succ fuel ih =>
    intro i first hi
    have hsw := hswz i (by omega)
    have h0 : 0 ≤ src.index * 4 + (GET_SWZ src.swizzle i : Int) := by omega
    have hlt : (src.index * 4 + (GET_SWZ src.swizzle i : Int)).toNat < st.acp.length := by
      rw [hshape.1]; omega
    have hlt2 : (src.index * 4 + (GET_SWZ src.swizzle i : Int)).toNat
        < st.acp_level.length := by
      rw [hshape.2.1]; omega
    unfold copy_propagate_lookup
    simp only
    have hg : arr_get st.acp (src.index * 4 + (GET_SWZ src.swizzle i : Int))
        = st.acp[(src.index * 4 + (GET_SWZ src.swizzle i : Int)).toNat]? := by
      unfold arr_get; rw [if_pos h0]
    have hg2 : arr_get st.acp_level (src.index * 4 + (GET_SWZ src.swizzle i : Int))
        = st.acp_level[(src.index * 4 + (GET_SWZ src.swizzle i : Int)).toNat]? := by
      unfold arr_get; rw [if_pos h0]
    rw [hg, hg2]
    cases he : st.acp[(src.index * 4 + (GET_SWZ src.swizzle i : Int)).toNat]? with
    | none =>
      rw [List.getElem?_eq_none_iff] at he
      omega
    | some e =>
      cases e with
      | none => exact ⟨none, rfl⟩
      | some pos =>
        have hp := hdone _ _ he
        obtain ⟨lvl, hl⟩ : ∃ lvl,
            st.acp_level[(src.index * 4 + (GET_SWZ src.swizzle i : Int)).toNat]?
              = some lvl := ⟨_, List.getElem?_eq_getElem hlt2⟩
        have hle : lvl ≤ st.level := by
          rw [hshape.2.2.1]
          exact hshape.2.2.2 _ _ hl
        simp only [List.getElem?_eq_getElem hp, hl, hle, not_true_eq_false, if_false]
        cases first with
        | none => exact ih _ _ (by omega)
        | some f =>
          simp only
          split
          · exact ⟨none, rfl⟩
          · exact ih _ _ (by omega)

/-- Within the tables the rewriting of one operand returns. -/
theorem copy_propagate_src_total (next_temp : Int) (st : acp_state)
    (src : st_src_reg) (hshape : acp_shape next_temp st)
    (hdone : ∀ (k pos : Nat), st.acp[k]? = some (some pos) → pos < st.done.length)
    (hidx : src.file = PROGRAM_TEMPORARY → src.reladdr.isSet = false →
      src.reladdr2.isSet = false → 0 ≤ src.index ∧ src.index < next_temp)
    (hswz : src.file = PROGRAM_TEMPORARY → src.reladdr.isSet = false →
      src.reladdr2.isSet = false → ∀ i, i < 4 → GET_SWZ src.swizzle i < 4) :
    ∃ s1, copy_propagate_src st src = some s1 := by
  unfold copy_propagate_src
  split
  · exact ⟨src, rfl⟩
  · rename_i hc
    simp only [ne_eq, not_or, not_not, Bool.not_eq_true] at hc
    obtain ⟨hfile, hrel, hrel2⟩ := hc
    obtain ⟨r, hr⟩ := copy_propagate_lookup_total next_temp st src hshape hdone
      (hidx hfile hrel hrel2) (hswz hfile hrel hrel2) 4 0 none (by omega)
    rw [hr]
    cases r with
    | none => exact ⟨src, rfl⟩
    | some first =>
      simp only
      obtain ⟨_, hall⟩ := copy_propagate_lookup_spec st src 4 0 none first hr
      have hch : ∀ j, j < 4 → ∃ c, copy_propagate_channel st src j = some c := by
        intro j hj
        obtain ⟨pos, mov, hp, hm, _⟩ := hall j (by omega) (by omega)
        unfold copy_propagate_channel
        simp only [hp, hm]
        exact ⟨_, rfl⟩
      obtain ⟨c0, h0⟩ := hch 0 (by omega)
      obtain ⟨c1, h1⟩ := hch 1 (by omega)
      obtain ⟨c2, h2⟩ := hch 2 (by omega)
      obtain ⟨c3, h3⟩ := hch 3 (by omega)
      rw [h0, h1, h2, h3]
      exact ⟨_, rfl⟩

/-- Within the table the clearing for one destination returns a table of the
same length. -/
theorem copy_propagate_clear_total (next_temp : Int)
    (done : List glsl_to_tgsi_instruction) (dst : st_dst_reg) (acp : List (Option Nat))
    (hlen : acp.length = next_temp.toNat * 4)
    (hidx : dst.file = PROGRAM_TEMPORARY → 0 ≤ dst.index ∧ dst.index < next_temp) :
    ∃ acp1, copy_propagate_clear done dst acp = some acp1
      ∧ acp1.length = next_temp.toNat * 4 := by
  unfold copy_propagate_clear
  split
  · exact ⟨_, rfl, by simp [hlen]⟩
  · split
    · exact ⟨_, rfl, by simp [hlen]⟩
    · split
      · by_cases ht : dst.file = PROGRAM_TEMPORARY
        · obtain ⟨acp2, h2, hl2⟩ := loop_range_inv
            (fun a : List (Option Nat) => a.length = next_temp.toNat * 4) 4
            (fun c acp =>
              if dst.writemask &&& (1 <<< c) ≠ 0 then arr_set acp (4 * dst.index + c) none
              else some acp)
            (fun j hj s hs => by
              simp only
              split
              · have hb := hidx ht
                rw [arr_set_some _ _ _ (by omega) (by rw [hs]; omega)]
                exact ⟨_, rfl, by simp [hs]⟩
              · exact ⟨s, rfl, hs⟩) acp hlen
          simp only [ht, if_true, h2]
          exact ⟨_, rfl, by rw [map_idx_from_length, hl2]⟩
        · simp only [ht, if_false]
          exact ⟨_, rfl, by rw [map_idx_from_length, hlen]⟩
      · exact ⟨acp, rfl, hlen⟩

/-- Within the tables the loop that enters a copy returns and keeps the shape of
the state. -/
theorem copy_propagate_add_total (next_temp : Int) (st : acp_state) (dst : st_dst_reg)
    (pos : Nat) (hshape : acp_shape next_temp st)
    (hb : 0 ≤ dst.index ∧ dst.index < next_temp) :
    ∃ st2, loop_range 4 (fun i st1 =>
          if dst.writemask &&& (1 <<< i) ≠ 0 then
            match arr_set st1.acp (4 * dst.index + i) (some pos),
                arr_set st1.acp_level (4 * dst.index + i) st1.level with
            | some acp1, some lvl1 => some { st1 with acp := acp1, acp_level := lvl1 }
            | _, _ => none
          else some st1) st = some st2 ∧ acp_shape next_temp st2 := by
  refine loop_range_inv (acp_shape next_temp) 4 _ ?_ st hshape
  intro j hj s hs
  split
  · rw [arr_set_some _ _ _ (by omega) (by rw [hs.1]; omega),
      arr_set_some _ _ _ (by omega) (by rw [hs.2.1]; omega)]
    refine ⟨_, rfl, by simp [hs.1], by simp [hs.2.1], hs.2.2.1, ?_⟩
    intro k lvl hk
    simp only at hk
    by_cases hkj : (4 * dst.index + (j : Int)).toNat = k
    · subst hkj
      rw [List.getElem?_set_self (by rw [hs.2.1]; omega)] at hk
      cases hk
      rw [hs.2.2.1]
    · rw [List.getElem?_set_ne hkj] at hk
      exact hs.2.2.2 k lvl hk
  · exact ⟨s, rfl, hs⟩

/-- Within the tables one iteration of `copy_propagate` outside branches
returns and keeps the shape of the state. -/
theorem copy_propagate_step_total (l : List glsl_to_tgsi_instruction)
    (hok : copy_propagate_input_ok l) (next_temp : Int)
    (hbounds : copy_propagate_in_bounds next_temp l) (st : acp_state)
    (inst : glsl_to_tgsi_instruction) (hmem : inst ∈ l) (hshape : acp_shape next_temp st)
    (hdone : ∀ (k pos : Nat), st.acp[k]? = some (some pos) → pos < st.done.length) :
    ∃ st1, copy_propagate_step next_temp st inst = some st1 ∧ acp_shape next_temp st1 := by
  obtain ⟨⟨hb1, hb2, hb3, hb4, hb5, hb6⟩, _, _, hswz⟩ := hok inst hmem
  obtain ⟨hbd, hbs⟩ := hbounds inst hmem
  obtain ⟨s0, hs0⟩ := copy_propagate_src_total next_temp st inst.src0 hshape hdone
    (hbs _ (by simp)) (hswz _ (by simp))
  obtain ⟨s1, hs1⟩ := copy_propagate_src_total next_temp st inst.src1 hshape hdone
    (hbs _ (by simp)) (hswz _ (by simp))
  obtain ⟨s2, hs2⟩ := copy_propagate_src_total next_temp st inst.src2 hshape hdone
    (hbs _ (by simp)) (hswz _ (by simp))
  obtain ⟨acp1, hc1, hl1⟩ := copy_propagate_clear_total next_temp st.done inst.dst0 st.acp
    hshape.1 (hbd _ (by simp))
  obtain ⟨acp2, hc2, hl2⟩ := copy_propagate_clear_total next_temp st.done inst.dst1 acp1
    hl1 (hbd _ (by simp))
  have hassert : inst.dst0.file ≠ PROGRAM_TEMPORARY ∨ inst.dst0.index < next_temp := by
    by_cases ht : inst.dst0.file = PROGRAM_TEMPORARY
    · exact Or.inr (hbd _ (by simp) ht).2
    · exact Or.inl ht
  have hsh2 : acp_shape next_temp { st with acp := acp2 } :=
    ⟨hl2, hshape.2.1, hshape.2.2.1, hshape.2.2.2⟩
  unfold copy_propagate_step
  rw [if_neg (not_not.mpr hassert)]
  simp only [hs0, hs1, hs2, hb1, hb2, hb3, hb4, hb5, hb6, or_self, if_false, hc1, hc2]
  split
  · rename_i hcopy
    simp only [copy_propagate_is_copy, decide_eq_true_eq] at hcopy
    have hb := hbd inst.dst0 (by simp) hcopy.2.1
    obtain ⟨st2, h2, hsh⟩ := copy_propagate_add_total next_temp { st with acp := acp2 }
      inst.dst0 st.done.length hsh2 hb
    exact ⟨{ st2 with done := st2.done ++ [{ inst with src0 := s0, src1 := s1, src2 := s2 }] },
      congrArg (Option.map _) h2, hsh⟩
  · exact ⟨_, rfl, hsh2⟩

/-- An entry of the table points into the processed instructions. -/
theorem acp_inv_done (l : List glsl_to_tgsi_instruction) (st : acp_state)
    (state : register_state) (hinv : acp_inv l st state) :
    ∀ (k pos : Nat), st.acp[k]? = some (some pos) → pos < st.done.length := by
  intro k pos hk
  obtain ⟨mov, hm, _⟩ := hinv k pos hk
  by_contra hge
  rw [List.getElem?_eq_none (by omega)] at hm
  cases hm

/-- The loop of `copy_propagate` on the rest of an admissible list returns, and
what it appends agrees with the rest. -/
theorem copy_propagate_from_spec (sem : instruction_semantics)
    (hsem : semantics_copies sem) (l : List glsl_to_tgsi_instruction)
    (hok : copy_propagate_input_ok l) (next_temp : Int)
    (hbounds : copy_propagate_in_bounds next_temp l)
    (rest : List glsl_to_tgsi_instruction) :
    ∀ (st : acp_state) (state : register_state), (∀ x ∈ rest, x ∈ l) →
      acp_shape next_temp st → acp_inv l st state →
      ∃ st1 out, copy_propagate_from next_temp rest st = some st1
        ∧ st1.done = st.done ++ out ∧ copy_propagate_agrees sem state rest out := by
  induction rest with
  | nil =>
    intro st state _ _ _
    exact ⟨st, [], rfl, by simp, trivial⟩
  | cons inst rest ih =>
    intro st state hsub hshape hinv
    obtain ⟨st2, hstep, hshape2⟩ := copy_propagate_step_total l hok next_temp hbounds st
      inst (hsub inst (by simp)) hshape (acp_inv_done l st state hinv)
    obtain ⟨inst1, hd, hreads, hex, hinv2⟩ := copy_propagate_step_spec sem hsem l hok
      next_temp st st2 state inst (hsub inst (by simp)) hinv hstep
    obtain ⟨st1, out, hfrom, hd2, hag⟩ := ih st2 (execute sem state inst)
      (fun x hx => hsub x (by simp [hx])) hshape2 hinv2
    refine ⟨st1, inst1 :: out, ?_, ?_, hreads, hex, hag⟩
    · unfold copy_propagate_from
      simp only [hstep]
      exact hfrom
    · rw [hd2, hd]
      simp

theorem copy_propagate_agrees_length (sem : instruction_semantics)
    (l : List glsl_to_tgsi_instruction) :
    ∀ (l1 : List glsl_to_tgsi_instruction) (state : register_state),
      copy_propagate_agrees sem state l l1 → l1.length = l.length := by
  induction l with
  | nil =>
    intro l1 state h
    cases l1 with
    | nil => rfl
    | cons a as => exact absurd h (by simp [copy_propagate_agrees])
  | cons inst rest ih =>
    intro l1 state h
    cases l1 with
    | nil => exact absurd h (by simp [copy_propagate_agrees])
    | cons a as =>
      simp only [copy_propagate_agrees] at h
      simp [ih as _ h.2.2]

theorem copy_propagate_agrees_list (sem : instruction_semantics)
    (l : List glsl_to_tgsi_instruction) :
    ∀ (l1 : List glsl_to_tgsi_instruction) (state : register_state),
      copy_propagate_agrees sem state l l1 →
      execute_list sem state l1 = execute_list sem state l := by
  induction l with
  | nil =>
    intro l1 state h
    cases l1 with
    | nil => rfl
    | cons a as => exact absurd h (by simp [copy_propagate_agrees])
  | cons inst rest ih =>
    intro l1 state h
    cases l1 with
    | nil => exact absurd h (by simp [copy_propagate_agrees])
    | cons a as =>
      simp only [copy_propagate_agrees] at h
      simp only [execute_list, List.foldl_cons]
      rw [h.2.1]
      exact ih as _ h.2.2

theorem copy_propagate_agrees_index (sem : instruction_semantics)
    (l : List glsl_to_tgsi_instruction) :
    ∀ (l1 : List glsl_to_tgsi_instruction) (state : register_state) (i : Nat)
      (inst inst1 : glsl_to_tgsi_instruction),
      copy_propagate_agrees sem state l l1 → l[i]? = some inst → l1[i]? = some inst1 →
      execute_list sem state (l1.take i) = execute_list sem state (l.take i)
      ∧ (∀ c, c < 4 →
          read_operand sem (execute_list sem state (l.take i)) inst1.src0 c
            = read_operand sem (execute_list sem state (l.take i)) inst.src0 c
          ∧ read_operand sem (execute_list sem state (l.take i)) inst1.src1 c
            = read_operand sem (execute_list sem state (l.take i)) inst.src1 c
          ∧ read_operand sem (execute_list sem state (l.take i)) inst1.src2 c
            = read_operand sem (execute_list sem state (l.take i)) inst.src2 c)
      ∧ execute sem (execute_list sem state (l.take i)) inst1
          = execute sem (execute_list sem state (l.take i)) inst := by
  induction l with
  | nil =>
    intro l1 state i inst inst1 _ h
    simp at h
  | cons a rest ih =>
    intro l1 state i inst inst1 hag h h1
    cases l1 with
    | nil => simp at h1
    | cons b rest1 =>
      simp only [copy_propagate_agrees] at hag
      cases i with
      | zero =>
        simp only [List.getElem?_cons_zero, Option.some.injEq] at h h1
        subst h
        subst h1
        exact ⟨rfl, hag.1, hag.2.1⟩
      | succ i =>
        simp only [List.getElem?_cons_succ] at h h1
        simp only [List.take_succ_cons, execute_list, List.foldl_cons]
        rw [hag.2.1]
        exact ih rest1 (execute sem state a) i inst inst1 hag.2.2 h h1

/-- C6: copy-propagation soundness.  On an instruction list without branch or loop
instructions and without relative addressing in a destination that has the
shape of an emitted list (temporaries below `next_temp`; no write outside the
temporaries and outputs to a register file from which a `MOV` of the list
copies, writes to arrays always allowed; no second destination on a `MOV`;
swizzles of directly addressed temporary operands that select x, y, z, w),
`copy_propagate` returns a list of the same length in which every instruction
reads, in each channel of its first three operands, the word the original
operand reads, and computes the same register contents; so both lists leave the
same register contents. -/
theorem copy_propagate_sound (sem : instruction_semantics)
    (next_temp : Int) (l : List glsl_to_tgsi_instruction)
    (hsem : semantics_copies sem) (hok : copy_propagate_input_ok l)
    (hbounds : copy_propagate_in_bounds next_temp l) :
    ∃ l1, copy_propagate_list next_temp l = some l1
    ∧ l1.length = l.length
    ∧ (∀ (state : register_state) (i : Nat) (inst inst1 : glsl_to_tgsi_instruction),
        l[i]? = some inst → l1[i]? = some inst1 →
        execute_list sem state (l1.take i) = execute_list sem state (l.take i)
        ∧ (∀ c, c < 4 →
            read_operand sem (execute_list sem state (l.take i)) inst1.src0 c
              = read_operand sem (execute_list sem state (l.take i)) inst.src0 c
            ∧ read_operand sem (execute_list sem state (l.take i)) inst1.src1 c
              = read_operand sem (execute_list sem state (l.take i)) inst.src1 c
            ∧ read_operand sem (execute_list sem state (l.take i)) inst1.src2 c
              = read_operand sem (execute_list sem state (l.take i)) inst.src2 c)
        ∧ execute sem (execute_list sem state (l.take i)) inst1
            = execute sem (execute_list sem state (l.take i)) inst)
    ∧ ∀ state : register_state, execute_list sem state l1 = execute_list sem state l := by
  have hshape : acp_shape next_temp
      ⟨List.replicate (next_temp.toNat * 4) none, List.replicate (next_temp.toNat * 4) 0,
        0, []⟩ := by
    refine ⟨by simp, by simp, rfl, fun k lvl hk => ?_⟩
    simp only [List.getElem?_replicate] at hk
    split at hk
    · cases hk
      exact le_refl _
    · cases hk
  have hinv : ∀ state : register_state, acp_inv l
      ⟨List.replicate (next_temp.toNat * 4) none, List.replicate (next_temp.toNat * 4) 0,
        0, []⟩ state := by
    intro state k pos hk
    simp only [List.getElem?_replicate] at hk
    split at hk <;> cases hk
  obtain ⟨st1, out, hfrom, hd, _⟩ := copy_propagate_from_spec sem hsem l hok next_temp
    hbounds l _ (fun _ _ _ _ => 0) (fun _ hx => hx) hshape (hinv _)
  have hag : ∀ state : register_state, copy_propagate_agrees sem state l st1.done := by
    intro state
    obtain ⟨st2, out2, hfrom2, hd2, hag2⟩ := copy_propagate_from_spec sem hsem l hok
      next_temp hbounds l _ state (fun _ hx => hx) hshape (hinv state)
    rw [hfrom] at hfrom2
    cases hfrom2
    rw [hd2]
    exact hag2
  refine ⟨st1.done, ?_,
    copy_propagate_agrees_length sem l st1.done (fun _ _ _ _ => 0) (hag _),
    fun state i inst inst1 hi hi1 =>
      copy_propagate_agrees_index sem l st1.done state i inst inst1 (hag state) hi hi1,
    fun state => copy_propagate_agrees_list sem l st1.done state (hag state)⟩
  unfold copy_propagate_list
  simp only [hfrom, Option.map_some']

/-- Witness for C6: the theorem on `MOV TEMP[0], IN[0]; MOV OUT[0], TEMP[0]`, whose
second operand is rewritten to `IN[0]`; the conditions also hold for the list
`MOV TEMP[0], ARRAY[32768]; MOV ARRAY[32768], IN[0]; MOV OUT[0], TEMP[0]`, which
copies from an array and writes it, and which `copy_propagate` leaves as it
is. -/
theorem copy_propagate_sound_witness :
    semantics_copies example_copy_semantics
    ∧ copy_propagate_input_ok example_copy_input
    ∧ copy_propagate_in_bounds 1 example_copy_input
    ∧ copy_propagate_list 1 example_copy_input = some example_copy_output
    ∧ copy_propagate_input_ok example_array_copy
    ∧ copy_propagate_in_bounds 1 example_array_copy
    ∧ copy_propagate_list 1 example_array_copy = some example_array_copy
    ∧ ∃ l1, copy_propagate_list 1 example_copy_input = some l1
      ∧ l1.length = example_copy_input.length
      ∧ (∀ (state : register_state) (i : Nat) (inst inst1 : glsl_to_tgsi_instruction),
          example_copy_input[i]? = some inst → l1[i]? = some inst1 →
          execute_list example_copy_semantics state (l1.take i)
            = execute_list example_copy_semantics state (example_copy_input.take i)
          ∧ (∀ c, c < 4 →
              read_operand example_copy_semantics
                  (execute_list example_copy_semantics state (example_copy_input.take i))
                  inst1.src0 c
                = read_operand example_copy_semantics
                  (execute_list example_copy_semantics state (example_copy_input.take i))
                  inst.src0 c
              ∧ read_operand example_copy_semantics
                  (execute_list example_copy_semantics state (example_copy_input.take i))
                  inst1.src1 c
                = read_operand example_copy_semantics
                  (execute_list example_copy_semantics state (example_copy_input.take i))
                  inst.src1 c
              ∧ read_operand example_copy_semantics
                  (execute_list example_copy_semantics state (example_copy_input.take i))
                  inst1.src2 c
                = read_operand example_copy_semantics
                  (execute_list example_copy_semantics state (example_copy_input.take i))
                  inst.src2 c)
          ∧ execute example_copy_semantics
                (execute_list example_copy_semantics state (example_copy_input.take i))
                inst1
              = execute example_copy_semantics
                (execute_list example_copy_semantics state (example_copy_input.take i))
                inst)
      ∧ ∀ state : register_state,
          execute_list example_copy_semantics state l1
            = execute_list example_copy_semantics state example_copy_input :=
  have hsem : semantics_copies example_copy_semantics :=
    ⟨fun i word => by simp [example_copy_semantics], fun _ _ _ _ _ _ => rfl⟩
  have hok : copy_propagate_input_ok example_copy_input := by
    unfold copy_propagate_input_ok
    decide
  have hbounds : copy_propagate_in_bounds 1 example_copy_input := by
    unfold copy_propagate_in_bounds
    decide
  have hok2 : copy_propagate_input_ok example_array_copy := by
    unfold copy_propagate_input_ok
    decide
  have hbounds2 : copy_propagate_in_bounds 1 example_array_copy := by
    unfold copy_propagate_in_bounds
    decide
  ⟨hsem, hok, hbounds, rfl, hok2, hbounds2, by decide!,
    copy_propagate_sound example_copy_semantics 1 example_copy_input hsem hok hbounds⟩

/-- Why the files that are written and the files that are copied from are kept
apart: a list in which a `MOV` copies from the address file, which the visitor
never emits (the address registers are only destinations of `ARL` and operands
of relative addressing).  The list `MOV TEMP[0], ADDR[0]; ARL ADDR[0], IN[0];
MOV OUT[0], TEMP[0]` has no branch or loop instruction and no relative
addressing, `copy_propagate` rewrites the operand `TEMP[0]` of the last
instruction to `ADDR[0]`, and after the first two instructions the rewritten
operand reads 7 where the original reads 0, so the output register differs. -/
theorem copy_propagate_address_counterexample :
    semantics_copies example_copy_semantics
    ∧ (∀ inst ∈ example_address_input,
        inst.op ≠ TGSI_OPCODE_BGNLOOP ∧ inst.op ≠ TGSI_OPCODE_ENDLOOP
        ∧ inst.op ≠ TGSI_OPCODE_IF ∧ inst.op ≠ TGSI_OPCODE_UIF
        ∧ inst.op ≠ TGSI_OPCODE_ELSE ∧ inst.op ≠ TGSI_OPCODE_ENDIF
        ∧ inst.dst0.reladdr.isSet = false ∧ inst.dst0.reladdr2.isSet = false
        ∧ inst.dst1.reladdr.isSet = false ∧ inst.dst1.reladdr2.isSet = false)
    ∧ copy_propagate_list 1 example_address_input = some example_address_output
    ∧ read_operand example_copy_semantics
        (execute_list example_copy_semantics example_copy_state
          (example_address_input.take 2)) example_address 0 = 7
    ∧ read_operand example_copy_semantics
        (execute_list example_copy_semantics example_copy_state
          (example_address_input.take 2)) (example_temp 0) 0 = 0
    ∧ execute_list example_copy_semantics example_copy_state example_address_output
        PROGRAM_OUTPUT 0 0 0 = 7
    ∧ execute_list example_copy_semantics example_copy_state example_address_input
        PROGRAM_OUTPUT 0 0 0 = 0 := by
  refine ⟨⟨fun i word => by simp [example_copy_semantics], fun _ _ _ _ _ _ => rfl⟩,
    by decide, rfl, by decide, by decide, by decide, by decide⟩

/-! ## Row-major inference (`is_dereferenced_thing_row_major`) -/

/-- C11: a dereference `s[i].m` of a matrix-typed struct member `m` annotated
row-major is row-major for every index `i` and every layout annotation of the
root variable `s`, and so is a column `s[i].m[c]` of it. -/
theorem row_major_member_of_element (id1 id2 id3 id4 : Nat) (s : ir_variable)
    (element mtype ctype : glsl_type) (i c : ir_rvalue) (m : String) (offset : Int)
    (hm : mtype.without_array.is_matrix = true)
    (hf : element.field m = some (mtype, GLSL_MATRIX_LAYOUT_ROW_MAJOR, offset)) :
    is_dereferenced_thing_row_major
        (.dereference_record id3 mtype
          (.dereference_array id2 element (.dereference_variable id1 s) i) m) = some true
    ∧ is_dereferenced_thing_row_major
        (.dereference_array id4 ctype
          (.dereference_record id3 mtype
            (.dereference_array id2 element (.dereference_variable id1 s) i) m) c)
        = some true := by
  constructor
  · simp [is_dereferenced_thing_row_major, is_dereferenced_thing_row_major_from,
      ir_rvalue.type, hf, hm]
  · simp [is_dereferenced_thing_row_major, is_dereferenced_thing_row_major_from,
      ir_rvalue.type, hf, hm]

theorem row_major_member_of_element_witness :
    is_dereferenced_thing_row_major
        (.dereference_record 34 (glsl_type.get_instance GLSL_TYPE_FLOAT 4 4)
          (.dereference_array 33 example_matrix_struct_type
            (.dereference_variable 32 example_matrix_block_array) example_index) "m")
      = some true
    ∧ is_dereferenced_thing_row_major
        (.dereference_array 35 glsl_type.vec4_type
          (.dereference_record 34 (glsl_type.get_instance GLSL_TYPE_FLOAT 4 4)
            (.dereference_array 33 example_matrix_struct_type
              (.dereference_variable 32 example_matrix_block_array) example_index) "m")
          example_index)
      = some true :=
  row_major_member_of_element 32 33 34 35 example_matrix_block_array
    example_matrix_struct_type (glsl_type.get_instance GLSL_TYPE_FLOAT 4 4)
    glsl_type.vec4_type example_index example_index "m" (-1) (by decide) (by decide)

/-- The walk of `is_dereferenced_thing_row_major` stops with `false` at a
column-major annotation that no other annotation precedes. -/
theorem row_major_from_column_major (b : Bool) (dv : Option ir_variable) :
    ∀ (ir : ir_rvalue) (layouts : List glsl_matrix_layout) (matrix : Bool),
      dereference_layouts ir = some layouts →
      layouts.find? (fun l => l ≠ GLSL_MATRIX_LAYOUT_INHERITED)
        = some GLSL_MATRIX_LAYOUT_COLUMN_MAJOR →
      is_dereferenced_thing_row_major_from b dv ir matrix = some false
  | .dereference_array _ type array _, layouts, matrix, h, hc => by
      simp only [dereference_layouts] at h
      simp only [is_dereferenced_thing_row_major_from]
      exact row_major_from_column_major b dv array layouts _ h hc
  | .dereference_record _ type record field, layouts, matrix, h, hc => by
      simp only [dereference_layouts] at h
      simp only [is_dereferenced_thing_row_major_from]
      cases hf : record.type.field field with
      | none => simp [hf] at h
      | some x =>
        obtain ⟨t, layout, off⟩ := x
        cases hr : dereference_layouts record with
        | none => simp [hf, hr] at h
        | some rest =>
          simp only [hf, hr, Option.some.injEq] at h
          subst h
          cases layout with
          | GLSL_MATRIX_LAYOUT_INHERITED =>
            simp only [List.find?, ne_eq, not_true_eq_false, decide_False] at hc
            exact row_major_from_column_major b dv record rest _ hr hc
          | GLSL_MATRIX_LAYOUT_COLUMN_MAJOR => rfl
          | GLSL_MATRIX_LAYOUT_ROW_MAJOR => simp [List.find?] at hc
  | .dereference_variable _ var, layouts, matrix, h, hc => by
      simp only [dereference_layouts, Option.some.injEq] at h
      subst h
      simp only [is_dereferenced_thing_row_major_from]
      cases hl : var.matrix_layout with
      | GLSL_MATRIX_LAYOUT_INHERITED => simp [List.find?, hl] at hc
      | GLSL_MATRIX_LAYOUT_COLUMN_MAJOR => rfl
      | GLSL_MATRIX_LAYOUT_ROW_MAJOR => simp [List.find?, hl] at hc
  | .swizzle _ _ _ _, layouts, matrix, h, hc => by
      simp only [dereference_layouts, Option.some.injEq] at h
      subst h
      simp at hc
  | .expression _ _ _ _, layouts, matrix, h, hc => by
      simp only [dereference_layouts, Option.some.injEq] at h
      subst h
      simp at hc
  | .constant _ _ _, layouts, matrix, h, hc => by
      simp only [dereference_layouts, Option.some.injEq] at h
      subst h
      simp at hc

/-- Without a row-major annotation on the way the walk of
`is_dereferenced_thing_row_major` never answers `true`, and it answers `false`
when the assertion on an unannotated root variable holds. -/
theorem row_major_from_default (b : Bool) (dv : Option ir_variable) :
    ∀ (ir : ir_rvalue) (layouts : List glsl_matrix_layout) (matrix : Bool),
      dereference_layouts ir = some layouts →
      GLSL_MATRIX_LAYOUT_ROW_MAJOR ∉ layouts →
      ir.variable_referenced = dv →
      is_dereferenced_thing_row_major_from b dv ir matrix ≠ some true
      ∧ ((∀ v, dv = some v →
            (v.is_in_buffer_block = true ∧ (matrix || dereference_has_matrix ir) = false)
              ∨ v.mode = ir_var_shader_shared) →
          is_dereferenced_thing_row_major_from b dv ir matrix = some false)
  | .dereference_array _ type array _, layouts, matrix, h, hr, hdv => by
      simp only [dereference_layouts] at h
      simp only [ir_rvalue.variable_referenced] at hdv
      simp only [is_dereferenced_thing_row_major_from]
      obtain ⟨h1, h2⟩ := row_major_from_default b dv array layouts
        (matrix || type.without_array.is_matrix) h hr hdv
      refine ⟨h1, fun ha => h2 (fun v hv => ?_)⟩
      rcases ha v hv with ⟨hb, hm⟩ | hs
      · left
        refine ⟨hb, ?_⟩
        simp only [dereference_has_matrix] at hm
        simpa [Bool.or_assoc] using hm
      · exact Or.inr hs
  | .dereference_record _ type record field, layouts, matrix, h, hr, hdv => by
      simp only [dereference_layouts] at h
      simp only [ir_rvalue.variable_referenced] at hdv
      simp only [is_dereferenced_thing_row_major_from]
      cases hf : record.type.field field with
      | none => simp [hf] at h
      | some x =>
        obtain ⟨t, layout, off⟩ := x
        cases hrec : dereference_layouts record with
        | none => simp [hf, hrec] at h
        | some rest =>
          simp only [hf, hrec, Option.some.injEq] at h
          subst h
          cases layout with
          | GLSL_MATRIX_LAYOUT_INHERITED =>
            obtain ⟨h1, h2⟩ := row_major_from_default b dv record rest
              (matrix || type.without_array.is_matrix) hrec
              (fun hmem => hr (List.mem_cons_of_mem _ hmem)) hdv
            refine ⟨h1, fun ha => h2 (fun v hv => ?_)⟩
            rcases ha v hv with ⟨hb, hm⟩ | hs
            · left
              refine ⟨hb, ?_⟩
              simp only [dereference_has_matrix] at hm
              simpa [Bool.or_assoc] using hm
            · exact Or.inr hs
          | GLSL_MATRIX_LAYOUT_COLUMN_MAJOR => exact ⟨by simp, fun _ => rfl⟩
          | GLSL_MATRIX_LAYOUT_ROW_MAJOR => exact absurd (List.mem_cons_self _ _) hr
  | .dereference_variable _ var, layouts, matrix, h, hr, hdv => by
      simp only [dereference_layouts, Option.some.injEq] at h
      subst h
      simp only [ir_rvalue.variable_referenced] at hdv
      subst hdv
      simp only [is_dereferenced_thing_row_major_from]
      cases hl : var.matrix_layout with
      | GLSL_MATRIX_LAYOUT_INHERITED =>
        simp only
        refine ⟨?_, fun ha => ?_⟩
        · split <;> simp
        · rcases ha var rfl with ⟨hb, hm⟩ | hs
          · simp only [dereference_has_matrix] at hm
            simp [hb, hm]
          · simp [hs]
      | GLSL_MATRIX_LAYOUT_COLUMN_MAJOR => exact ⟨by simp, fun _ => rfl⟩
      | GLSL_MATRIX_LAYOUT_ROW_MAJOR => simp [hl] at hr
  | .swizzle _ _ _ _, layouts, matrix, h, hr, hdv => by
      simp [is_dereferenced_thing_row_major_from]
  | .expression _ _ _ _, layouts, matrix, h, hr, hdv => by
      simp [is_dereferenced_thing_row_major_from]
  | .constant _ _ _, layouts, matrix, h, hr, hdv => by
      simp [is_dereferenced_thing_row_major_from]

/-- C12: on every dereference path whose struct fields all exist, if the first
annotation other than `inherited` met from the dereferenced value outward is
column-major the result of `is_dereferenced_thing_row_major` is `false`; and if
no struct field or variable on the path is annotated row-major the result is
never `true`, and it is `false` whenever the assertion on an unannotated root
variable (in a buffer block with no matrix on the path, or shared) holds. -/
theorem column_major_overrides (deref : ir_rvalue) (layouts : List glsl_matrix_layout)
    (h : dereference_layouts deref = some layouts) :
    (layouts.find? (fun l => l ≠ GLSL_MATRIX_LAYOUT_INHERITED)
        = some GLSL_MATRIX_LAYOUT_COLUMN_MAJOR →
      is_dereferenced_thing_row_major deref = some false)
    ∧ (GLSL_MATRIX_LAYOUT_ROW_MAJOR ∉ layouts →
        is_dereferenced_thing_row_major deref ≠ some true
        ∧ ((∀ v, deref.variable_referenced = some v →
              (v.is_in_buffer_block = true ∧ dereference_has_matrix deref = false)
                ∨ v.mode = ir_var_shader_shared) →
            is_dereferenced_thing_row_major deref = some false)) := by
  refine ⟨fun hc => row_major_from_column_major _ _ deref layouts false h hc, fun hr => ?_⟩
  obtain ⟨h1, h2⟩ := row_major_from_default deref.type.without_array.is_record
    deref.variable_referenced deref layouts false h hr rfl
  exact ⟨h1, fun ha => h2 (fun v hv => by simpa using ha v hv)⟩

theorem column_major_overrides_witness :
    dereference_layouts example_column_deref
      = some [GLSL_MATRIX_LAYOUT_COLUMN_MAJOR, GLSL_MATRIX_LAYOUT_ROW_MAJOR]
    ∧ [GLSL_MATRIX_LAYOUT_COLUMN_MAJOR, GLSL_MATRIX_LAYOUT_ROW_MAJOR].find?
          (fun l => l ≠ GLSL_MATRIX_LAYOUT_INHERITED)
        = some GLSL_MATRIX_LAYOUT_COLUMN_MAJOR
    ∧ is_dereferenced_thing_row_major example_column_deref = some false :=
  ⟨by decide, by decide,
    (column_major_overrides example_column_deref
      [GLSL_MATRIX_LAYOUT_COLUMN_MAJOR, GLSL_MATRIX_LAYOUT_ROW_MAJOR] (by decide)).1
      (by decide)⟩

/-! ## Lowering of swizzles -/

theorem GET_SWZ_MAKE_SWIZZLE4 (a b c d : Nat) (ha : a < 8) (hb : b < 8) (hc : c < 8)
    (hd : d < 8) :
    GET_SWZ (MAKE_SWIZZLE4 a b c d) 0 = a ∧ GET_SWZ (MAKE_SWIZZLE4 a b c d) 1 = b
    ∧ GET_SWZ (MAKE_SWIZZLE4 a b c d) 2 = c ∧ GET_SWZ (MAKE_SWIZZLE4 a b c d) 3 = d := by
  have key : ∀ a b c d : Fin 8,
      GET_SWZ (MAKE_SWIZZLE4 a.1 b.1 c.1 d.1) 0 = a.1
      ∧ GET_SWZ (MAKE_SWIZZLE4 a.1 b.1 c.1 d.1) 1 = b.1
      ∧ GET_SWZ (MAKE_SWIZZLE4 a.1 b.1 c.1 d.1) 2 = c.1
      ∧ GET_SWZ (MAKE_SWIZZLE4 a.1 b.1 c.1 d.1) 3 = d.1 := by
    decide
  exact key ⟨a, ha⟩ ⟨b, hb⟩ ⟨c, hc⟩ ⟨d, hd⟩

/-- The visit of a swizzle node is the visit of its value followed by the
rewriting of the swizzle. -/
theorem visit_rvalue_swizzle (info : tgsi_opcode → tgsi_opcode_info) (id : Nat)
    (type : glsl_type) (val : ir_rvalue) (mask : ir_swizzle_mask)
    (v : glsl_to_tgsi_visitor) :
    visit_rvalue info (.swizzle id type val mask) v
      = (visit_rvalue info val v).bind (visit_swizzle_tail type mask) := by
  show (match visit_rvalue info val v with
    | none => none
    | some v1 => visit_swizzle_tail type mask v1) = _
  cases visit_rvalue info val v <;> rfl

/-- C16: lowering a swizzle node composes the channel maps.  When the value has
been lowered to a register with swizzle `s`, the node of result arity `n >= 1`
with selectors `m0 .. m3` yields the same register with a swizzle `t` such that
`t[i] = s[m_i]` for `i < n` and `t[i] = t[n-1]` for `n <= i < 4`; nothing else of
the register (file, index, negate, ...) and nothing else of the visitor
changes. -/
theorem visit_swizzle_composes (info : tgsi_opcode → tgsi_opcode_info) (id : Nat)
    (type : glsl_type) (val : ir_rvalue) (mask : ir_swizzle_mask)
    (v v1 : glsl_to_tgsi_visitor) (hval : visit_rvalue info val v = some v1)
    (hfile : v1.result.file ≠ PROGRAM_UNDEFINED) (hn : 1 ≤ type.vector_elements) :
    ∃ t, visit_rvalue info (.swizzle id type val mask) v
        = some { v1 with result := v1.result.set_swizzle t }
      ∧ (∀ i, i < 4 → i < type.vector_elements →
          GET_SWZ t i = GET_SWZ v1.result.swizzle (swizzle_mask_component mask i))
      ∧ (∀ i, i < 4 → type.vector_elements ≤ i →
          GET_SWZ t i = GET_SWZ t (type.vector_elements - 1))
      ∧ (v1.result.set_swizzle t).file = v1.result.file
      ∧ (v1.result.set_swizzle t).index = v1.result.index
      ∧ (v1.result.set_swizzle t).negate = v1.result.negate := by
  rw [visit_rvalue_swizzle, hval]
  simp only [Option.some_bind, visit_swizzle_tail, hfile, if_false,
    show ¬ type.vector_elements = 0 by omega]
  refine ⟨_, rfl, ?_, ?_, by simp, by simp, by simp⟩
  · intro i hi hlt
    obtain ⟨g0, g1, g2, g3⟩ := GET_SWZ_MAKE_SWIZZLE4
      (GET_SWZ v1.result.swizzle mask.x)
      (if 1 < type.vector_elements then GET_SWZ v1.result.swizzle mask.y
        else GET_SWZ v1.result.swizzle mask.x)
      (if 2 < type.vector_elements then GET_SWZ v1.result.swizzle mask.z
        else if 1 < type.vector_elements then GET_SWZ v1.result.swizzle mask.y
        else GET_SWZ v1.result.swizzle mask.x)
      (if 3 < type.vector_elements then GET_SWZ v1.result.swizzle mask.w
        else if 2 < type.vector_elements then GET_SWZ v1.result.swizzle mask.z
        else if 1 < type.vector_elements then GET_SWZ v1.result.swizzle mask.y
        else GET_SWZ v1.result.swizzle mask.x)
      (GET_SWZ_lt _ _) (by split <;> exact GET_SWZ_lt _ _)
      (by split_ifs <;> exact GET_SWZ_lt _ _) (by split_ifs <;> exact GET_SWZ_lt _ _)
    interval_cases i
    · rw [g0]; rfl
    · rw [g1, if_pos hlt]; rfl
    · rw [g2, if_pos hlt]; rfl
    · rw [g3, if_pos hlt]; rfl
  · intro i hi hge
    obtain ⟨g0, g1, g2, g3⟩ := GET_SWZ_MAKE_SWIZZLE4
      (GET_SWZ v1.result.swizzle mask.x)
      (if 1 < type.vector_elements then GET_SWZ v1.result.swizzle mask.y
        else GET_SWZ v1.result.swizzle mask.x)
      (if 2 < type.vector_elements then GET_SWZ v1.result.swizzle mask.z
        else if 1 < type.vector_elements then GET_SWZ v1.result.swizzle mask.y
        else GET_SWZ v1.result.swizzle mask.x)
      (if 3 < type.vector_elements then GET_SWZ v1.result.swizzle mask.w
        else if 2 < type.vector_elements then GET_SWZ v1.result.swizzle mask.z
        else if 1 < type.vector_elements then GET_SWZ v1.result.swizzle mask.y
        else GET_SWZ v1.result.swizzle mask.x)
      (GET_SWZ_lt _ _) (by split <;> exact GET_SWZ_lt _ _)
      (by split_ifs <;> exact GET_SWZ_lt _ _) (by split_ifs <;> exact GET_SWZ_lt _ _)
    have hcases : type.vector_elements = 1 ∨ type.vector_elements = 2
        ∨ type.vector_elements = 3 := by omega
    rcases hcases with h1 | h1 | h1
    · rw [show type.vector_elements - 1 = 0 by omega, g0]
      have hi3 : i = 1 ∨ i = 2 ∨ i = 3 := by omega
      rcases hi3 with rfl | rfl | rfl
      · rw [g1]; simp [h1]
      · rw [g2]; simp [h1]
      · rw [g3]; simp [h1]
    · rw [show type.vector_elements - 1 = 1 by omega, g1]
      have hi3 : i = 2 ∨ i = 3 := by omega
      rcases hi3 with rfl | rfl
      · rw [g2]; simp [h1]
      · rw [g3]; simp [h1]
    · rw [show type.vector_elements - 1 = 2 by omega, g2]
      have hi3 : i = 3 := by omega
      subst hi3
      rw [g3]; simp [h1]

theorem visit_swizzle_composes_witness :
    visit_rvalue example_info example_swizzle_inner example_visitor_float
      = some { example_visitor_float with
          variables_ := [⟨PROGRAM_UNIFORM, 2, 41, 0⟩],
          result := (vec4_register PROGRAM_UNIFORM 2 0).set_swizzle
            (MAKE_SWIZZLE4 SWIZZLE_W SWIZZLE_Z SWIZZLE_Y SWIZZLE_X) }
    ∧ ∃ t, visit_rvalue example_info
          (.swizzle 44 (glsl_type.get_instance GLSL_TYPE_FLOAT 2 1) example_swizzle_inner
            ⟨1, 0, 0, 0, 2, false⟩) example_visitor_float
        = some { example_visitor_float with
            variables_ := [⟨PROGRAM_UNIFORM, 2, 41, 0⟩],
            result := (vec4_register PROGRAM_UNIFORM 2 0).set_swizzle t }
      ∧ GET_SWZ t 0 = SWIZZLE_Z ∧ GET_SWZ t 1 = SWIZZLE_W
      ∧ GET_SWZ t 2 = SWIZZLE_W ∧ GET_SWZ t 3 = SWIZZLE_W := by
  have hval : visit_rvalue example_info example_swizzle_inner example_visitor_float
      = some { example_visitor_float with
          variables_ := [⟨PROGRAM_UNIFORM, 2, 41, 0⟩],
          result := (vec4_register PROGRAM_UNIFORM 2 0).set_swizzle
            (MAKE_SWIZZLE4 SWIZZLE_W SWIZZLE_Z SWIZZLE_Y SWIZZLE_X) } := rfl
  obtain ⟨t, h, hlt, hge, _⟩ := visit_swizzle_composes example_info 44
    (glsl_type.get_instance GLSL_TYPE_FLOAT 2 1) example_swizzle_inner ⟨1, 0, 0, 0, 2, false⟩
    example_visitor_float _ hval (by decide) (by decide)
  refine ⟨hval, t, h, ?_, ?_, ?_, ?_⟩
  · rw [hlt 0 (by decide) (by decide)]; rfl
  · rw [hlt 1 (by decide) (by decide)]; rfl
  · rw [hge 2 (by decide) (by decide),
      show (glsl_type.get_instance GLSL_TYPE_FLOAT 2 1).vector_elements - 1 = 1 from rfl,
      hlt 1 (by decide) (by decide)]; rfl
  · rw [hge 3 (by decide) (by decide),
      show (glsl_type.get_instance GLSL_TYPE_FLOAT 2 1).vector_elements - 1 = 1 from rfl,
      hlt 1 (by decide) (by decide)]; rfl

/-! ## Slot counts (`type_size`) -/

/-- The conversions to `unsigned` and back change nothing for a product that fits
a non-negative `int`. -/
theorem unsigned_to_int_product (n : Int) (length : Nat) (hn : 0 ≤ n)
    (hfit : n * (length : Int) < 2 ^ 31) (hl : 0 < length) :
    unsigned_to_int (int_to_unsigned n * length) = (length : Int) * n := by
  obtain ⟨k, rfl⟩ := Int.eq_ofNat_of_zero_le hn
  have hp : k * length < 2 ^ 31 := by exact_mod_cast hfit
  have hk : k < 2 ^ 32 := by
    have : k ≤ k * length := Nat.le_mul_of_pos_right k hl
    omega
  have hu : int_to_unsigned (k : Int) = k := by
    unfold int_to_unsigned
    omega
  rw [hu]
  unfold unsigned_to_int
  have hmod : k * length % 2 ^ 32 = k * length := Nat.mod_eq_of_lt (by omega)
  rw [hmod, if_pos hp]
  push_cast
  ring

/-- The loop over the struct members adds up the sizes of the members, as long as
the sizes are not negative and the sum fits an `int`. -/
theorem type_size_members_sum :
    ∀ (n : Nat) (members : glsl_struct_fields) (types : List glsl_type) (sizes : List Int)
      (size : Int),
      members.types n = some types →
      types.map type_size = sizes.map some →
      (∀ s ∈ sizes, 0 ≤ s) → 0 ≤ size → size + sizes.sum < 2 ^ 31 →
      type_size_members members n size = some (size + sizes.sum) := by
  intro n
  induction n with
  | zero =>
    intro members types sizes size ht h _ _ _
    have hts : types = [] := by
      cases members <;> simp [glsl_struct_fields.types] at ht <;> exact ht
    subst hts
    have hs : sizes = [] := by
      cases sizes with
      | nil => rfl
      | cons a as => simp at h
    subst hs
    cases members <;> simp [type_size_members]
  | succ n ih =>
    intro members types sizes size ht h hpos h0 hfit
    cases members with
    | nil => simp [glsl_struct_fields.types] at ht
    | cons name type layout offset rest =>
      simp only [glsl_struct_fields.types, Option.map_eq_some'] at ht
      obtain ⟨ts, hts, rfl⟩ := ht
      cases sizes with
      | nil => simp at h
      | cons a as =>
        simp only [List.map_cons, List.cons.injEq] at h
        have ha : 0 ≤ a := hpos a (List.mem_cons_self _ _)
        have has : ∀ s ∈ as, 0 ≤ s := fun s hs => hpos s (List.mem_cons_of_mem _ hs)
        have hsum : 0 ≤ as.sum := List.sum_nonneg has
        rw [List.sum_cons] at hfit
        have hadd : int_add size a = some (size + a) := by
          unfold int_add
          rw [if_pos]
          constructor <;> omega
        rw [type_size_members, h.1]
        simp only [hadd]
        rw [ih rest ts as (size + a) hts h.2 has (by omega) (by omega), List.sum_cons]
        congr 1
        ring

/-- The slot counts of `type_size`.  A non-double scalar or vector takes 1 slot,
as do sampler, image and subroutine types; a non-double matrix takes its column
count; a double scalar or 2-component vector takes 1 slot and a 3- or
4-component vector 2; a double matrix takes its column count with at most 2
rows and twice the column count otherwise; an array of positive length takes the
product of its length and the size of its element in 32-bit arithmetic, which
is the product when that fits an `int`; a struct takes the sum of the sizes of
its members when that fits an `int`. -/
theorem type_size_reference :
    (∀ t : glsl_type,
      t.base_type = GLSL_TYPE_UINT ∨ t.base_type = GLSL_TYPE_INT
        ∨ t.base_type = GLSL_TYPE_FLOAT ∨ t.base_type = GLSL_TYPE_BOOL →
      (t.is_matrix = false → type_size t = some 1)
      ∧ (t.is_matrix = true → type_size t = some (t.matrix_columns : Int)))
    ∧ (∀ t : glsl_type,
      t.base_type = GLSL_TYPE_SAMPLER ∨ t.base_type = GLSL_TYPE_IMAGE
        ∨ t.base_type = GLSL_TYPE_SUBROUTINE → type_size t = some 1)
    ∧ (∀ t : glsl_type, t.base_type = GLSL_TYPE_DOUBLE →
      (t.is_matrix = false → t.vector_elements ≤ 2 → type_size t = some 1)
      ∧ (t.is_matrix = false → 2 < t.vector_elements → type_size t = some 2)
      ∧ (t.is_matrix = true → t.vector_elements ≤ 2 →
          type_size t = some (t.matrix_columns : Int))
      ∧ (t.is_matrix = true → 2 < t.vector_elements →
          type_size t = some (2 * (t.matrix_columns : Int))))
    ∧ (∀ (element : glsl_type) (length : Nat), 0 < length →
      type_size (glsl_type.get_array_instance element length)
        = (type_size element).map (fun n => unsigned_to_int (int_to_unsigned n * length)))
    ∧ (∀ (element : glsl_type) (length : Nat) (n : Int), 0 < length →
      type_size element = some n → 0 ≤ n → n * (length : Int) < 2 ^ 31 →
      type_size (glsl_type.get_array_instance element length) = some ((length : Int) * n))
    ∧ (∀ (vector_elements matrix_columns length : Nat) (members : glsl_struct_fields)
        (types : List glsl_type) (sizes : List Int),
      members.types length = some types →
      types.map type_size = sizes.map some →
      (∀ s ∈ sizes, 0 ≤ s) → sizes.sum < 2 ^ 31 →
      type_size (.mk GLSL_TYPE_STRUCT vector_elements matrix_columns length
          (.structure members)) = some sizes.sum) := by
  refine ⟨?_, ?_, ?_, ?_, ?_, ?_⟩
  · intro t hb
    obtain ⟨b, ve, mc, len, f⟩ := t
    simp only [glsl_type.base_type] at hb
    simp only [glsl_type.is_matrix, glsl_type.matrix_columns, decide_eq_false_iff_not,
      decide_eq_true_eq]
    rcases hb with rfl | rfl | rfl | rfl <;>
      exact ⟨fun h => by simp [type_size, h], fun h => by simp [type_size, h]⟩
  · intro t hb
    obtain ⟨b, ve, mc, len, f⟩ := t
    simp only [glsl_type.base_type] at hb
    rcases hb with rfl | rfl | rfl <;> simp [type_size]
  · intro t hb
    obtain ⟨b, ve, mc, len, f⟩ := t
    simp only [glsl_type.base_type] at hb
    subst hb
    simp only [glsl_type.is_matrix, glsl_type.matrix_columns, glsl_type.vector_elements,
      decide_eq_false_iff_not, decide_eq_true_eq]
    refine ⟨fun h h2 => by simp [type_size, h, h2], fun h h2 => ?_,
      fun h h2 => by simp [type_size, h, h2], fun h h2 => ?_⟩
    · simp [type_size, h, show ¬ ve ≤ 2 by omega]
    · simp [type_size, h, show ¬ ve ≤ 2 by omega, mul_comm]
  · intro element length hl
    simp only [glsl_type.get_array_instance, type_size, gt_iff_lt, hl, if_true]
  · intro element length n hl he hn hfit
    simp only [glsl_type.get_array_instance, type_size, gt_iff_lt, hl, if_true, he,
      Option.map_some', Option.some.injEq]
    exact unsigned_to_int_product n length hn hfit hl
  · intro ve mc length members types sizes hn h hpos hfit
    simp only [type_size]
    have := type_size_members_sum length members types sizes 0 hn h hpos (le_refl _)
      (by omega)
    rw [this, zero_add]

/-- Examples of the slot counts of `type_size`. -/
theorem type_size_reference_witness :
    type_size glsl_type.vec3_type = some 1
    ∧ type_size (glsl_type.get_instance GLSL_TYPE_FLOAT 4 4) = some 4
    ∧ type_size (glsl_type.get_instance GLSL_TYPE_DOUBLE 3 1) = some 2
    ∧ type_size (glsl_type.get_instance GLSL_TYPE_DOUBLE 3 4) = some 8
    ∧ type_size (glsl_type.get_array_instance (glsl_type.get_instance GLSL_TYPE_FLOAT 4 4) 3)
        = some 12
    ∧ type_size example_struct_type = some 2 :=
  ⟨(type_size_reference.1 glsl_type.vec3_type (by decide)).1 (by decide),
    (type_size_reference.1 (glsl_type.get_instance GLSL_TYPE_FLOAT 4 4) (by decide)).2
      (by decide),
    (type_size_reference.2.2.1 (glsl_type.get_instance GLSL_TYPE_DOUBLE 3 1) (by decide)).2.1
      (by decide) (by decide),
    (type_size_reference.2.2.1 (glsl_type.get_instance GLSL_TYPE_DOUBLE 3 4)
      (by decide)).2.2.2 (by decide) (by decide),
    type_size_reference.2.2.2.2.1 (glsl_type.get_instance GLSL_TYPE_FLOAT 4 4) 3 4
      (by decide) (by decide) (by decide) (by decide),
    type_size_reference.2.2.2.2.2 0 0 2
      (.cons "a" glsl_type.vec3_type GLSL_MATRIX_LAYOUT_INHERITED (-1)
        (.cons "b" glsl_type.float_type GLSL_MATRIX_LAYOUT_INHERITED (-1) .nil))
      [glsl_type.vec3_type, glsl_type.float_type] [1, 1] (by decide) (by decide) (by decide)
      (by decide)⟩

/-- C17: `type_size` equals the reference slot count for every type, for an array
its length times the slot count of its element.  The code computes the product
`type_size(type->fields.array) * type->length` in 32-bit unsigned arithmetic
and returns it as an `int`: for `vec4[65536]` it returns 65536, but for the
array of 65536 such arrays, whose slot count is 65536 times 65536, that is
4294967296, it returns 0; and for an array of 2147483648 `vec4` it returns the
negative number -2147483648. -/
theorem type_size_array_overflow :
    type_size (glsl_type.get_array_instance glsl_type.vec4_type 65536) = some 65536
    ∧ type_size (glsl_type.get_array_instance
        (glsl_type.get_array_instance glsl_type.vec4_type 65536) 65536) = some 0
    ∧ (65536 : Int) * 65536 = 4294967296
    ∧ type_size (glsl_type.get_array_instance glsl_type.vec4_type 2147483648)
        = some (-2147483648) := by
  refine ⟨by decide!, by decide!, by decide, by decide!⟩

/-! ## Variable storage (`visit(ir_dereference_variable *)`) -/

/-- A dereference of a variable that has a binding returns the register of the
binding and changes nothing else. -/
theorem visit_dereference_variable_bound (var : ir_variable) (v : glsl_to_tgsi_visitor)
    (entry : variable_storage) (hfind : find_variable_storage v var = some entry) :
    visit_dereference_variable var v
      = (storage_register entry var.type v.native_integers).map
          (fun r => { v with result := r }) := by
  unfold visit_dereference_variable storage_register
  simp only [hfind]
  cases st_src_reg.ofGlslType entry.file entry.index var.type with
  | none => rfl
  | some r => cases v.native_integers <;> rfl

/-- A dereference of a system value without a binding returns the register of its
location and changes nothing else: no binding is stored. -/
theorem visit_dereference_variable_system_value (var : ir_variable)
    (v : glsl_to_tgsi_visitor) (hmode : var.mode = ir_var_system_value)
    (hfind : find_variable_storage v var = none) :
    visit_dereference_variable var v
      = (storage_register ⟨PROGRAM_SYSTEM_VALUE, var.location, var.id, 0⟩ var.type
          v.native_integers).map (fun r => { v with result := r }) := by
  unfold visit_dereference_variable storage_register
  simp only [hfind, hmode]
  cases st_src_reg.ofGlslType PROGRAM_SYSTEM_VALUE var.location var.type with
  | none => rfl
  | some r => cases v.native_integers <;> rfl

/-- The tail of `visit(ir_dereference_variable *)` once the binding is known. -/
theorem visit_dereference_variable_tail (var : ir_variable) (entry : variable_storage)
    (v0 v1 : glsl_to_tgsi_visitor)
    (h : (match st_src_reg.ofGlslType entry.file entry.index var.type with
      | none => none
      | some r =>
        some { v0 with result :=
          if v0.native_integers = false then
            (r.set_array_id entry.array_id).set_type GLSL_TYPE_FLOAT
          else r.set_array_id entry.array_id }) = some v1) :
    storage_register entry var.type v0.native_integers = some v1.result
    ∧ v1 = { v0 with result := v1.result } := by
  unfold storage_register
  cases hr : st_src_reg.ofGlslType entry.file entry.index var.type with
  | none => rw [hr] at h; cases h
  | some r =>
    rw [hr] at h
    simp only [Option.some.injEq] at h
    subst h
    exact ⟨rfl, rfl⟩

theorem get_temp_frame (v v1 : glsl_to_tgsi_visitor) (type : glsl_type) (src : st_src_reg)
    (h : get_temp v type = some (src, v1)) :
    v1.variables_ = v.variables_ ∧ v1.native_integers = v.native_integers := by
  unfold get_temp at h
  simp only at h
  split at h
  · cases h
  · split at h
    · cases h
      split <;> exact ⟨rfl, rfl⟩
    · split at h
      · cases h
        split <;> exact ⟨rfl, rfl⟩
      · cases h

/-- The first dereference of a variable: a system value leaves the visitor alone
but for the result, any other variable gets one binding appended. -/
theorem visit_dereference_variable_first (var : ir_variable) (v v1 : glsl_to_tgsi_visitor)
    (hnew : find_variable_storage v var = none)
    (h : visit_dereference_variable var v = some v1) :
    ∃ entry, storage_register entry var.type v.native_integers = some v1.result
      ∧ v1.native_integers = v.native_integers
      ∧ ((var.mode = ir_var_system_value ∧ v1 = { v with result := v1.result }
            ∧ entry = ⟨PROGRAM_SYSTEM_VALUE, var.location, var.id, 0⟩)
        ∨ (var.mode ≠ ir_var_system_value ∧ entry.var = var.id
            ∧ v1.variables_ = v.variables_ ++ [entry])) := by
  unfold visit_dereference_variable at h
  simp only [hnew] at h
  split at h
  · cases h
  · rename_i entry v0 heq
    obtain ⟨h1, h2⟩ := visit_dereference_variable_tail var entry v0 v1 h
    have key : v0.native_integers = v.native_integers
        ∧ ((var.mode = ir_var_system_value ∧ v0 = v
              ∧ entry = ⟨PROGRAM_SYSTEM_VALUE, var.location, var.id, 0⟩)
          ∨ (var.mode ≠ ir_var_system_value ∧ entry.var = var.id
              ∧ v0.variables_ = v.variables_ ++ [entry])) := by
      cases hm : var.mode <;> simp only [hm] at heq
      case ir_var_uniform =>
        simp only [Option.some.injEq, Prod.mk.injEq] at heq
        obtain ⟨rfl, rfl⟩ := heq
        exact ⟨rfl, Or.inr ⟨by simp, rfl, rfl⟩⟩
      case ir_var_system_value =>
        simp only [Option.some.injEq, Prod.mk.injEq] at heq
        obtain ⟨rfl, rfl⟩ := heq
        exact ⟨rfl, Or.inl ⟨rfl, rfl, rfl⟩⟩
      case ir_var_shader_in =>
        split at heq
        · cases heq
        · split at heq
          · cases heq
          · split at heq
            · cases heq
            · simp only [Option.some.injEq, Prod.mk.injEq] at heq
              obtain ⟨rfl, rfl⟩ := heq
              exact ⟨rfl, Or.inr ⟨by simp, rfl, rfl⟩⟩
          · simp only [Option.some.injEq, Prod.mk.injEq] at heq
            obtain ⟨rfl, rfl⟩ := heq
            exact ⟨rfl, Or.inr ⟨by simp, rfl, rfl⟩⟩
      case ir_var_shader_out =>
        split at heq
        · cases heq
        · split at heq
          · cases heq
          · split at heq
            · cases heq
            · simp only [Option.some.injEq, Prod.mk.injEq] at heq
              obtain ⟨rfl, rfl⟩ := heq
              exact ⟨rfl, Or.inr ⟨by simp, rfl, rfl⟩⟩
          · simp only [Option.some.injEq, Prod.mk.injEq] at heq
            obtain ⟨rfl, rfl⟩ := heq
            exact ⟨rfl, Or.inr ⟨by simp, rfl, rfl⟩⟩
      case ir_var_auto =>
        split at heq
        · cases heq
        · rename_i src v2 hg
          obtain ⟨g1, g2⟩ := get_temp_frame v v2 var.type src hg
          simp only [Option.some.injEq, Prod.mk.injEq] at heq
          obtain ⟨rfl, rfl⟩ := heq
          exact ⟨g2, Or.inr ⟨by simp, rfl, by simp [g1]⟩⟩
      case ir_var_temporary =>
        split at heq
        · cases heq
        · rename_i src v2 hg
          obtain ⟨g1, g2⟩ := get_temp_frame v v2 var.type src hg
          simp only [Option.some.injEq, Prod.mk.injEq] at heq
          obtain ⟨rfl, rfl⟩ := heq
          exact ⟨g2, Or.inr ⟨by simp, rfl, by simp [g1]⟩⟩
      all_goals cases heq
    obtain ⟨kn, k⟩ := key
    refine ⟨entry, kn ▸ h1, by rw [h2]; exact kn, ?_⟩
    rcases k with ⟨k1, k2, k3⟩ | ⟨k1, k2, k3⟩
    · left
      refine ⟨k1, ?_, k3⟩
      rw [← k2]
      exact h2
    · right
      refine ⟨k1, k2, ?_⟩
      rw [h2]
      exact k3

/-- C18: a variable-storage binding is created once per variable on first
dereference, for every storage mode.  The code does not do so for a system
value: the case `ir_var_system_value` builds the `variable_storage` but, unlike
the cases of the four other modes, does not push it onto `this->variables`.  In
a fresh visitor the first dereference of a system value succeeds and leaves the
variable-storage list empty, so the list holds no binding for the variable
afterwards and `find_variable_storage` still finds none. -/
theorem visit_dereference_variable_system_value_counterexample :
    visit_dereference_variable example_system_value example_visitor_native
      = some { example_visitor_native with
          result := .mk PROGRAM_SYSTEM_VALUE 5 0 SWIZZLE_XXXX 0 GLSL_TYPE_INT .NULL .NULL
            false false 0 }
    ∧ ({ example_visitor_native with
          result := .mk PROGRAM_SYSTEM_VALUE 5 0 SWIZZLE_XXXX 0 GLSL_TYPE_INT .NULL .NULL
            false false 0 } : glsl_to_tgsi_visitor).variables_ = []
    ∧ find_variable_storage
        { example_visitor_native with
          result := .mk PROGRAM_SYSTEM_VALUE 5 0 SWIZZLE_XXXX 0 GLSL_TYPE_INT .NULL .NULL
            false false 0 } example_system_value = none := by
  refine ⟨rfl, rfl, rfl⟩

/-- The first dereference of a variable in the other storage modes: after the
first dereference of a variable that is not a system value the variable-storage
list holds exactly one binding for it, whereas the first dereference of a system
value stores no binding and changes nothing but the result; in both cases every
later dereference (in any state that looks up the same binding for the variable)
returns the same register and changes nothing else: no binding is added, no
array declaration recorded and no register allocated. -/
theorem visit_dereference_variable_binds_once (var : ir_variable)
    (v v1 : glsl_to_tgsi_visitor) (hnew : find_variable_storage v var = none)
    (h : visit_dereference_variable var v = some v1) :
    (var.mode ≠ ir_var_system_value →
      (v1.variables_.filter (fun e => e.var = var.id)).length = 1)
    ∧ (var.mode = ir_var_system_value → v1 = { v with result := v1.result })
    ∧ ∀ v2 : glsl_to_tgsi_visitor,
        find_variable_storage v2 var = find_variable_storage v1 var →
        v2.native_integers = v1.native_integers →
        visit_dereference_variable var v2 = some { v2 with result := v1.result } := by
  obtain ⟨entry, hreg, hnat, hcase⟩ := visit_dereference_variable_first var v v1 hnew h
  have hnone : ∀ e ∈ v.variables_, ¬ (e.var = var.id) := by
    intro e he
    have := List.find?_eq_none.mp hnew e he
    simpa using this
  rcases hcase with ⟨hm, hv1, he⟩ | ⟨hm, he, hv1⟩
  · refine ⟨fun hne => absurd hm hne, fun _ => hv1, fun v2 hf hn => ?_⟩
    have hf1 : find_variable_storage v1 var = none := by
      rw [hv1]
      exact hnew
    rw [hf1] at hf
    rw [visit_dereference_variable_system_value var v2 hm hf, hn, hnat, ← he, hreg]
    rfl
  · refine ⟨fun _ => ?_, fun hsys => absurd hsys hm, fun v2 hf hn => ?_⟩
    · rw [hv1, List.filter_append]
      have h0 : v.variables_.filter (fun e => decide (e.var = var.id)) = [] := by
        rw [List.filter_eq_nil_iff]
        intro e he'
        simpa using hnone e he'
      rw [h0]
      simp [he]
    · have hf1 : find_variable_storage v1 var = some entry := by
        unfold find_variable_storage
        rw [hv1, List.find?_append]
        have : v.variables_.find? (fun e => decide (e.var = var.id)) = none := hnew
        rw [this]
        simp [he]
      rw [hf1] at hf
      rw [visit_dereference_variable_bound var v2 entry hf, hn, hnat, hreg]
      rfl

theorem visit_dereference_variable_binds_once_witness :
    visit_dereference_variable example_local_matrix example_visitor_float
      = some example_local_matrix_visitor
    ∧ (example_local_matrix_visitor.variables_.filter
        (fun e => e.var = example_local_matrix.id)).length = 1
    ∧ visit_dereference_variable example_local_matrix example_local_matrix_visitor
      = some { example_local_matrix_visitor with
          result := example_local_matrix_visitor.result } :=
  have h : visit_dereference_variable example_local_matrix example_visitor_float
      = some example_local_matrix_visitor := rfl
  ⟨h,
    (visit_dereference_variable_binds_once example_local_matrix example_visitor_float
      example_local_matrix_visitor rfl h).1 (by decide),
    (visit_dereference_variable_binds_once example_local_matrix example_visitor_float
      example_local_matrix_visitor rfl h).2.2 example_local_matrix_visitor rfl rfl⟩

/-! ## `eliminate_dead_code` and control flow -/

/-- C13 (counterexample): the scan of `eliminate_dead_code` does not stop at a
branch or loop instruction.  All dead masks start empty; the `MOV TEMP[0], IN[0]`
after `BGNLOOP; BRK; ENDLOOP` is deleted, and the write-mask of the
`MOV TEMP[0], IN[0]` after `IF; ENDIF` is narrowed from XYZW to X. -/
theorem eliminate_dead_code_after_control_flow_counterexample :
    (∀ inst ∈ example_after_loop ++ example_after_branch, inst.dead_mask = 0)
    ∧ eliminate_dead_code_list 1 example_after_loop
      = some ([example_control TGSI_OPCODE_BGNLOOP, example_control TGSI_OPCODE_BRK,
          example_control TGSI_OPCODE_ENDLOOP,
          example_inst TGSI_OPCODE_MOV (example_output_dst 0) (example_input 1) undef_src 1],
        1)
    ∧ eliminate_dead_code_list 1 example_after_branch
      = some ([{ example_inst TGSI_OPCODE_IF undef_dst (example_input 2) undef_src 1 with
            info := ⟨0, 1, false, false⟩ },
          example_control TGSI_OPCODE_ENDIF,
          { example_inst TGSI_OPCODE_MOV
              (st_dst_reg.ofIndex PROGRAM_TEMPORARY WRITEMASK_X GLSL_TYPE_FLOAT 0)
              (example_input 0) undef_src 1 with dead_mask := 14 },
          example_inst TGSI_OPCODE_MOV (example_output_dst 0)
            ((example_temp 0).set_swizzle SWIZZLE_XXXX) undef_src 1],
        0) := by
  refine ⟨by decide, rfl, rfl⟩

theorem dce_scan_append (next_temp : Int) (a b : List glsl_to_tgsi_instruction) :
    ∀ (pos : Nat) (st : dce_state),
      dce_scan next_temp (a ++ b) pos st
        = (dce_scan next_temp a pos st).bind (dce_scan next_temp b (pos + a.length)) := by
  induction a with
  | nil => intro pos st; simp [dce_scan]
  | cons inst rest ih =>
    intro pos st
    simp only [List.cons_append, dce_scan, List.length_cons]
    cases dce_step next_temp pos inst st with
    | none => rfl
    | some st1 =>
      show dce_scan next_temp (rest ++ b) (pos + 1) st1 = _
      rw [ih (pos + 1) st1, show pos + 1 + rest.length = pos + (rest.length + 1) by omega]

/-- A loop instruction clears the table `writes` before anything else, so the
step does not depend on what the table held. -/
theorem dce_step_barrier (next_temp : Int) (pos : Nat) (bar : glsl_to_tgsi_instruction)
    (hbar : bar.op = TGSI_OPCODE_BGNLOOP ∨ bar.op = TGSI_OPCODE_ENDLOOP
      ∨ bar.op = TGSI_OPCODE_CONT ∨ bar.op = TGSI_OPCODE_BRK) (st : dce_state) :
    dce_step next_temp pos bar st
      = dce_step next_temp pos bar { st with writes := st.writes.map (fun _ => none) } := by
  unfold dce_step
  simp only [if_pos hbar, List.map_map]
  rfl

/-- C13 (amended): the scan of `eliminate_dead_code` goes on after branch and
loop instructions; what `BGNLOOP`, `ENDLOOP`, `CONT` and `BRK` do is clear the
write table.  So when the instruction at position `k` is one of them and all
operands are in bounds, the pass returns, and every instruction before position
`k` is swept with the dead mask it has when the scan reaches position `k`:
neither the instructions from `k` on nor the final loop over the write table
delete it or narrow its write-mask. -/
theorem eliminate_dead_code_barrier (next_temp : Int)
    (instructions : List glsl_to_tgsi_instruction) (k : Nat)
    (bar : glsl_to_tgsi_instruction) (hk : instructions[k]? = some bar)
    (hbar : bar.op = TGSI_OPCODE_BGNLOOP ∨ bar.op = TGSI_OPCODE_ENDLOOP
      ∨ bar.op = TGSI_OPCODE_CONT ∨ bar.op = TGSI_OPCODE_BRK)
    (hall : ∀ inst ∈ instructions, inst_in_bounds next_temp inst) :
    ∃ masks dead_masks,
      dce_scan_masks next_temp instructions k = some masks
      ∧ eliminate_dead_code_list next_temp instructions
          = some (dce_sweep instructions dead_masks)
      ∧ dead_masks.length = instructions.length
      ∧ ∀ p, p < k → dead_masks[p]? = masks[p]? := by
  have hklt : k < instructions.length := by
    by_contra hge
    rw [List.getElem?_eq_none (by omega)] at hk
    cases hk
  have hsplit : instructions = instructions.take k ++ bar :: instructions.drop (k + 1) := by
    have hd : instructions.drop k = bar :: instructions.drop (k + 1) := by
      rw [List.drop_eq_getElem_cons hklt]
      congr 1
      rw [List.getElem?_eq_getElem hklt] at hk
      exact Option.some.inj hk
    rw [← hd, List.take_append_drop]
  have hlen : (instructions.take k).length = k := by
    rw [List.length_take]; omega
  have hget : ∀ (l : List glsl_to_tgsi_instruction) (i : Nat) (x : glsl_to_tgsi_instruction),
      l[i]? = some x → x ∈ l := by
    intro l i x hi
    rw [List.getElem?_eq_some] at hi
    obtain ⟨hlt, hx⟩ := hi
    exact hx ▸ List.getElem_mem hlt
  have hmem : ∀ (l : List glsl_to_tgsi_instruction), (∀ x ∈ l, x ∈ instructions) →
      ∀ (Q : Nat → Prop) (pos : Nat), (∀ i, i < l.length → Q (pos + i)) →
      ∀ i inst, l[i]? = some inst → inst_in_bounds next_temp inst ∧
        (inst.dst0.file = PROGRAM_TEMPORARY ∨ inst.dst1.file = PROGRAM_TEMPORARY
          → Q (pos + i)) := by
    intro l hl Q pos hq i inst hi
    have hil : i < l.length := by
      by_contra hge
      rw [List.getElem?_eq_none (by omega)] at hi
      cases hi
    exact ⟨hall inst (hl inst (hget l i inst hi)), fun _ => hq i hil⟩
  have hinit : dce_inv (fun _ => True) (next_temp.toNat * 4)
      (instructions.map (fun i => i.dead_mask))
      ⟨List.replicate (next_temp.toNat * 4) none, List.replicate (next_temp.toNat * 4) 0, 0,
        instructions.map (fun i => i.dead_mask)⟩ :=
    ⟨by simp, by simp, fun _ _ _ _ => trivial, rfl, fun _ hp => absurd trivial hp,
      fun _ h => h⟩
  -- the scan of the instructions before position `k`
  obtain ⟨st1, hs1, hw1, hl1, _, hd1, _, _⟩ :=
    dce_scan_inv (fun _ => True) (next_temp.toNat * 4) _ next_temp rfl (instructions.take k)
      0 _ (hmem (instructions.take k) (fun x hx => List.mem_of_mem_take hx) (fun _ => True) 0
        (fun _ _ => trivial)) hinit
  -- from position `k` on, relative to the dead masks reached there
  have hinv1 : dce_inv (fun p => k ≤ p) (next_temp.toNat * 4) st1.dead_masks
      { st1 with writes := st1.writes.map (fun _ => none) } := by
    refine ⟨by simp [hw1], hl1, ?_, rfl, fun _ _ => rfl, fun _ h => h⟩
    intro e he q hq
    simp only [List.mem_map] at he
    obtain ⟨_, _, rfl⟩ := he
    cases hq
  obtain ⟨st2, hs2, hinv2⟩ :=
    dce_scan_inv (fun p => k ≤ p) (next_temp.toNat * 4) st1.dead_masks next_temp rfl
      (bar :: instructions.drop (k + 1)) k _
      (hmem (bar :: instructions.drop (k + 1)) (fun x hx => by
          rcases List.mem_cons.mp hx with rfl | hx
          · exact hget _ _ _ hk
          · exact List.mem_of_mem_drop hx) (fun p => k ≤ p) k (fun i _ => by omega)) hinv1
  have hs2' : dce_scan next_temp (bar :: instructions.drop (k + 1)) k st1 = some st2 := by
    simp only [dce_scan] at hs2 ⊢
    rw [dce_step_barrier next_temp k bar hbar st1]
    exact hs2
  obtain ⟨hw2, hl2, hq2, hd2, hframe2, _⟩ := hinv2
  obtain ⟨l, f, _⟩ := dce_mark_remaining_inv (fun p => k ≤ p) st2.writes 0 st2.dead_masks hq2
  have hscan : dce_scan next_temp instructions 0
      ⟨List.replicate (next_temp.toNat * 4) none, List.replicate (next_temp.toNat * 4) 0, 0,
        instructions.map (fun i => i.dead_mask)⟩ = some st2 := by
    have happ := dce_scan_append next_temp (instructions.take k)
      (bar :: instructions.drop (k + 1)) 0
      ⟨List.replicate (next_temp.toNat * 4) none, List.replicate (next_temp.toNat * 4) 0, 0,
        instructions.map (fun i => i.dead_mask)⟩
    rw [← hsplit] at happ
    rw [happ, hs1]
    simp only [Option.some_bind, hlen, zero_add]
    exact hs2'
  refine ⟨st1.dead_masks, dce_mark_remaining st2.writes 0 st2.dead_masks, ?_, ?_, ?_, ?_⟩
  · unfold dce_scan_masks
    simp only [hs1, Option.map_some']
  · unfold eliminate_dead_code_list
    simp only [hscan]
  · rw [l, hd2, hd1]; simp
  · intro p hp
    rw [f p (by omega), hframe2 p (by omega)]

theorem eliminate_dead_code_barrier_witness :
    example_before_loop[1]? = some (example_control TGSI_OPCODE_BGNLOOP)
    ∧ (∀ inst ∈ example_before_loop, inst_in_bounds 1 inst)
    ∧ eliminate_dead_code_list 1 example_before_loop = some (example_before_loop, 0)
    ∧ ∃ masks dead_masks,
        dce_scan_masks 1 example_before_loop 1 = some masks
        ∧ eliminate_dead_code_list 1 example_before_loop
            = some (dce_sweep example_before_loop dead_masks)
        ∧ dead_masks.length = example_before_loop.length
        ∧ ∀ p, p < 1 → dead_masks[p]? = masks[p]? :=
  have hall : ∀ inst ∈ example_before_loop, inst_in_bounds 1 inst := by
    intro inst hinst
    simp only [example_before_loop, List.mem_cons, List.mem_singleton, List.not_mem_nil,
      or_false] at hinst
    unfold inst_in_bounds temp_in_bounds
    rcases hinst with rfl | rfl | rfl | rfl | rfl <;>
      exact ⟨by decide, by decide, by decide, by decide,
        fun j hj => absurd hj (Nat.not_lt_zero j), by decide, by decide, by decide⟩
  ⟨rfl, hall, rfl,
    eliminate_dead_code_barrier 1 example_before_loop 1 (example_control TGSI_OPCODE_BGNLOOP)
      rfl (Or.inl rfl) hall⟩

/-! ## Shrinking of array declarations -/

theorem slot_in_use_eq (patch0 usage_mask patch_usage_mask : Nat) (patch : Bool)
    (mesa_index array_size j : Nat) (hr : decl_in_range patch0 patch mesa_index array_size)
    (hj : j < array_size) :
    slot_in_use patch0 usage_mask patch_usage_mask mesa_index j
      = some (slot_used patch0 usage_mask patch_usage_mask patch (mesa_index + j)) := by
  unfold slot_in_use slot_used BITFIELD64_BIT
  rcases hr with ⟨hp, h1, h2⟩ | ⟨hp, h1, h2, h3⟩
  · subst hp
    have hlt : ¬ mesa_index ≥ patch0 := by omega
    rw [if_neg hlt, Nat.mod_eq_of_lt (by omega), if_pos (by omega)]
    simp
  · subst hp
    rw [if_pos h1, Nat.mod_eq_of_lt (by omega), if_pos (by omega)]
    simp only [Option.map_some', if_true]
    rw [show mesa_index + j - patch0 = mesa_index - patch0 + j by omega]

/-- The loop `Shrink the beginning` stops at the first used slot. -/
theorem shrink_beginning_spec (patch0 usage_mask patch_usage_mask array_id : Nat)
    (patch : Bool) (array_size : Nat) :
    ∀ mesa_index, decl_in_range patch0 patch mesa_index array_size →
      (∃ s, mesa_index ≤ s ∧ s < mesa_index + array_size
        ∧ slot_used patch0 usage_mask patch_usage_mask patch s = true) →
      ∃ first, mesa_index ≤ first ∧ first < mesa_index + array_size
        ∧ slot_used patch0 usage_mask patch_usage_mask patch first = true
        ∧ (∀ s, mesa_index ≤ s → s < first →
            slot_used patch0 usage_mask patch_usage_mask patch s = false)
        ∧ shrink_beginning patch0 usage_mask patch_usage_mask array_id mesa_index array_size
            = some ⟨first, array_id, mesa_index + array_size - first⟩ := by
  induction array_size with
  | zero =>
    intro m _ hs
    obtain ⟨s, h1, h2, _⟩ := hs
    omega
  | succ n ih =>
    intro m hr hs
    have hu := slot_in_use_eq patch0 usage_mask patch_usage_mask patch m (n + 1) 0 hr
      (by omega)
    rw [Nat.add_zero] at hu
    cases hm : slot_used patch0 usage_mask patch_usage_mask patch m with
    | true =>
      refine ⟨m, le_refl _, by omega, hm, fun s h1 h2 => by omega, ?_⟩
      rw [shrink_beginning, hu, hm]
      simp
    | false =>
      have hr' : decl_in_range patch0 patch (m + 1) n := by
        rcases hr with ⟨hp, h1, h2⟩ | ⟨hp, h1, h2, h3⟩
        · exact Or.inl ⟨hp, by omega, by omega⟩
        · exact Or.inr ⟨hp, by omega, by omega, by omega⟩
      have hs' : ∃ s, m + 1 ≤ s ∧ s < m + 1 + n
          ∧ slot_used patch0 usage_mask patch_usage_mask patch s = true := by
        obtain ⟨s, h1, h2, h3⟩ := hs
        refine ⟨s, ?_, by omega, h3⟩
        by_contra hlt
        have : s = m := by omega
        rw [this, hm] at h3
        cases h3
      obtain ⟨first, f1, f2, f3, f4, f5⟩ := ih (m + 1) hr' hs'
      refine ⟨first, by omega, by omega, f3, fun s h1 h2 => ?_, ?_⟩
      · by_cases hsm : s = m
        · rw [hsm]; exact hm
        · exact f4 s (by omega) h2
      · have hwrap : (m + 1) % 2 ^ 32 = m + 1 := by
          apply Nat.mod_eq_of_lt
          rcases hr with ⟨_, _, h2⟩ | ⟨_, _, _, h3⟩ <;> omega
        rw [shrink_beginning, hu, hm]
        simp only
        rw [hwrap, f5]
        congr 2
        omega

/-- The loop `Shrink the end` stops at the last used slot, within `array_size`
iterations, when the first slot of the declaration is used. -/
theorem shrink_end_spec (patch0 usage_mask patch_usage_mask : Nat) (patch : Bool)
    (mesa_index : Nat) (fuel : Nat) :
    ∀ array_size j, j + 1 = array_size → array_size ≤ fuel →
      decl_in_range patch0 patch mesa_index array_size →
      slot_used patch0 usage_mask patch_usage_mask patch mesa_index = true →
      ∃ last, mesa_index ≤ last ∧ last < mesa_index + array_size
        ∧ slot_used patch0 usage_mask patch_usage_mask patch last = true
        ∧ (∀ s, last < s → s < mesa_index + array_size →
            slot_used patch0 usage_mask patch_usage_mask patch s = false)
        ∧ shrink_end patch0 usage_mask patch_usage_mask mesa_index fuel array_size j
            = some (last - mesa_index + 1) := by
  induction fuel with
  | zero => intro size j hj hf; omega
  | succ fuel ih =>
    intro size j hj hf hr hfirst
    have hu := slot_in_use_eq patch0 usage_mask patch_usage_mask patch mesa_index size j hr
      (by omega)
    cases hm : slot_used patch0 usage_mask patch_usage_mask patch (mesa_index + j) with
    | true =>
      refine ⟨mesa_index + j, by omega, by omega, hm, fun s h1 h2 => by omega, ?_⟩
      rw [shrink_end, hu, hm]
      simp only [Option.some.injEq]
      omega
    | false =>
      have hj0 : j ≠ 0 := by
        intro h0
        rw [h0, Nat.add_zero, hfirst] at hm
        cases hm
      have hsize : size < 2 ^ 32 := by
        rcases hr with ⟨_, _, h2⟩ | ⟨_, _, _, h3⟩ <;> omega
      have hr' : decl_in_range patch0 patch mesa_index (size - 1) := by
        rcases hr with ⟨hp, h1, h2⟩ | ⟨hp, h1, h2, h3⟩
        · exact Or.inl ⟨hp, by omega, by omega⟩
        · exact Or.inr ⟨hp, by omega, by omega, by omega⟩
      obtain ⟨last, l1, l2, l3, l4, l5⟩ := ih (size - 1) (j - 1) (by omega) (by omega) hr'
        hfirst
      refine ⟨last, l1, by omega, l3, fun s h1 h2 => ?_, ?_⟩
      · by_cases hs : s = mesa_index + j
        · rw [hs]; exact hm
        · exact l4 s h1 (by omega)
      · rw [shrink_end, hu, hm]
        simp only
        rw [show (size + 2 ^ 32 - 1) % 2 ^ 32 = size - 1 by omega,
          show (j + 2 ^ 32 - 1) % 2 ^ 32 = j - 1 by omega]
        exact l5

/-- One declaration with a used slot in its range is shrunk to the range from its
first to its last used slot. -/
theorem shrink_array_declaration_spec (patch0 usage_mask patch_usage_mask fuel : Nat)
    (patch : Bool) (decl : array_decl)
    (hr : decl_in_range patch0 patch decl.mesa_index decl.array_size)
    (hs : ∃ s, decl.mesa_index ≤ s ∧ s < decl.mesa_index + decl.array_size
      ∧ slot_used patch0 usage_mask patch_usage_mask patch s = true)
    (hf : decl.array_size ≤ fuel) :
    ∃ first last, decl.mesa_index ≤ first ∧ first ≤ last
      ∧ last < decl.mesa_index + decl.array_size
      ∧ slot_used patch0 usage_mask patch_usage_mask patch first = true
      ∧ slot_used patch0 usage_mask patch_usage_mask patch last = true
      ∧ (∀ s, decl.mesa_index ≤ s → s < decl.mesa_index + decl.array_size →
          slot_used patch0 usage_mask patch_usage_mask patch s = true →
          first ≤ s ∧ s ≤ last)
      ∧ shrink_array_declaration patch0 usage_mask patch_usage_mask fuel decl
          = some ⟨first, decl.array_id, last - first + 1⟩ := by
  obtain ⟨first, f1, f2, f3, f4, f5⟩ := shrink_beginning_spec patch0 usage_mask
    patch_usage_mask decl.array_id patch decl.array_size decl.mesa_index hr hs
  have hr' : decl_in_range patch0 patch first
      (decl.mesa_index + decl.array_size - first) := by
    rcases hr with ⟨hp, h1, h2⟩ | ⟨hp, h1, h2, h3⟩
    · exact Or.inl ⟨hp, by omega, by omega⟩
    · exact Or.inr ⟨hp, by omega, by omega, by omega⟩
  have hsize : decl.mesa_index + decl.array_size - first < 2 ^ 32 := by
    rcases hr with ⟨_, _, h2⟩ | ⟨_, _, _, h3⟩ <;> omega
  obtain ⟨last, l1, l2, l3, l4, l5⟩ := shrink_end_spec patch0 usage_mask patch_usage_mask
    patch first fuel (decl.mesa_index + decl.array_size - first)
    (decl.mesa_index + decl.array_size - first - 1) (by omega) (by omega) hr' f3
  refine ⟨first, last, f1, l1, by omega, f3, l3, fun s h1 h2 h3 => ?_, ?_⟩
  · constructor
    · by_contra hlt
      have := f4 s h1 (by omega)
      rw [this] at h3
      cases h3
    · by_contra hlt
      have := l4 s (by omega) (by omega)
      rw [this] at h3
      cases h3
  · unfold shrink_array_declaration
    rw [f5]
    simp only
    rw [show (decl.mesa_index + decl.array_size - first + 2 ^ 32 - 1) % 2 ^ 32
      = decl.mesa_index + decl.array_size - first - 1 by omega, l5]
    rfl

/-- C19: when every one of the first `count` declarations has a used slot inside
its range (a range the usage masks can describe), `shrink_array_declarations`
terminates (as many iterations as the largest `array_size` suffice), keeps the
other declarations, and leaves each of the first `count` declarations with the
minimal covering range: the new `mesa_index` is the first used slot of the
original range and the new last slot `mesa_index + array_size - 1` is the last
used slot of the original range. -/
theorem shrink_array_declarations_minimal (patch0 fuel usage_mask patch_usage_mask : Nat)
    (arrays : List array_decl) (count : Nat) (hcount : count ≤ arrays.length)
    (hall : ∀ decl ∈ arrays.take count, decl.array_size ≤ fuel
      ∧ ∃ s, decl.mesa_index ≤ s ∧ s < decl.mesa_index + decl.array_size
        ∧ decl_in_range patch0 (decide (patch0 ≤ decl.mesa_index)) decl.mesa_index
            decl.array_size
        ∧ slot_used patch0 usage_mask patch_usage_mask (decide (patch0 ≤ decl.mesa_index)) s
            = true) :
    ∃ out, shrink_array_declarations patch0 fuel arrays count usage_mask patch_usage_mask
        = some out
      ∧ out.length = arrays.length
      ∧ (∀ i, count ≤ i → out[i]? = arrays[i]?)
      ∧ ∀ i decl, i < count → arrays[i]? = some decl →
          ∃ new, out[i]? = some new ∧ new.array_id = decl.array_id
            ∧ decl.mesa_index ≤ new.mesa_index
            ∧ new.mesa_index + new.array_size ≤ decl.mesa_index + decl.array_size
            ∧ 1 ≤ new.array_size
            ∧ slot_used patch0 usage_mask patch_usage_mask
                (decide (patch0 ≤ decl.mesa_index)) new.mesa_index = true
            ∧ slot_used patch0 usage_mask patch_usage_mask
                (decide (patch0 ≤ decl.mesa_index)) (new.mesa_index + new.array_size - 1)
                = true
            ∧ ∀ s, decl.mesa_index ≤ s → s < decl.mesa_index + decl.array_size →
                slot_used patch0 usage_mask patch_usage_mask
                  (decide (patch0 ≤ decl.mesa_index)) s = true →
                new.mesa_index ≤ s ∧ s ≤ new.mesa_index + new.array_size - 1 := by
  induction count generalizing arrays with
  | zero =>
    refine ⟨arrays, ?_, rfl, fun _ _ => rfl, fun i decl hi => by omega⟩
    cases arrays <;> rfl
  | succ n ih =>
    cases arrays with
    | nil => simp at hcount
    | cons decl rest =>
      simp only [List.length_cons, Nat.add_le_add_iff_right] at hcount
      obtain ⟨hf, s, s1, s2, hr, hu⟩ := hall decl (by simp)
      obtain ⟨first, last, a1, a2, a3, a4, a5, a6, a7⟩ := shrink_array_declaration_spec
        patch0 usage_mask patch_usage_mask fuel _ decl hr ⟨s, s1, s2, hu⟩ hf
      obtain ⟨out, o1, o2, o3, o4⟩ := ih rest hcount
        (fun d hd => hall d (by simp only [List.take_succ_cons, List.mem_cons]; exact Or.inr hd))
      refine ⟨⟨first, decl.array_id, last - first + 1⟩ :: out, ?_, by simp [o2], ?_, ?_⟩
      · rw [shrink_array_declarations, a7]
        simp only [o1, Option.map_some']
      · intro i hi
        cases i with
        | zero => omega
        | succ i =>
          simp only [List.getElem?_cons_succ]
          exact o3 i (by omega)
      · intro i d hi hd
        cases i with
        | zero =>
          simp only [List.getElem?_cons_zero, Option.some.injEq] at hd
          subst hd
          refine ⟨⟨first, decl.array_id, last - first + 1⟩, by simp, rfl, a1, ?_, ?_, a4, ?_,
            fun s h1 h2 h3 => ?_⟩
          · show first + (last - first + 1) ≤ _
            omega
          · show 1 ≤ last - first + 1
            omega
          · show slot_used _ _ _ _ (first + (last - first + 1) - 1) = true
            rw [show first + (last - first + 1) - 1 = last by omega]
            exact a5
          · show first ≤ s ∧ s ≤ first + (last - first + 1) - 1
            have := a6 s h1 h2 h3
            omega
        | succ i =>
          simp only [List.getElem?_cons_succ] at hd ⊢
          exact o4 i d (by omega) hd

theorem shrink_array_declarations_minimal_witness :
    shrink_array_declarations 64 4 example_array_decls 2 0x1800 0x8
      = some [⟨11, 1, 2⟩, ⟨67, 2, 1⟩]
    ∧ ∃ out, shrink_array_declarations 64 4 example_array_decls 2 0x1800 0x8 = some out
      ∧ out.length = example_array_decls.length
      ∧ (∀ i, 2 ≤ i → out[i]? = example_array_decls[i]?)
      ∧ ∀ i decl, i < 2 → example_array_decls[i]? = some decl →
          ∃ new, out[i]? = some new ∧ new.array_id = decl.array_id
            ∧ decl.mesa_index ≤ new.mesa_index
            ∧ new.mesa_index + new.array_size ≤ decl.mesa_index + decl.array_size
            ∧ 1 ≤ new.array_size
            ∧ slot_used 64 0x1800 0x8 (decide (64 ≤ decl.mesa_index)) new.mesa_index = true
            ∧ slot_used 64 0x1800 0x8 (decide (64 ≤ decl.mesa_index))
                (new.mesa_index + new.array_size - 1) = true
            ∧ ∀ s, decl.mesa_index ≤ s → s < decl.mesa_index + decl.array_size →
                slot_used 64 0x1800 0x8 (decide (64 ≤ decl.mesa_index)) s = true →
                new.mesa_index ≤ s ∧ s ≤ new.mesa_index + new.array_size - 1 :=
  ⟨by decide,
    shrink_array_declarations_minimal 64 4 0x1800 0x8 example_array_decls 2 (by decide)
      (by
        intro decl hd
        simp only [example_array_decls, List.take_succ_cons, List.take_zero, List.mem_cons,
          List.mem_singleton, List.not_mem_nil, or_false] at hd
        rcases hd with rfl | rfl
        · exact ⟨by decide, 11, by decide, by decide, Or.inl (by decide), by decide⟩
        · exact ⟨by decide, 67, by decide, by decide, Or.inr (by decide), by decide⟩)⟩

/-! ## `merge_two_dsts` -/

/-- C14 (code bug): `merge_two_dsts` merges the second `DFRACEXP` of
`DFRACEXP TEMP[0], -, IN[0]; MOV OUT[0], TEMP[0]; DFRACEXP TEMP[1], -, IN[0];
MOV OUT[1], TEMP[1]` into the first and removes it, but the surviving instruction
takes over the undefined second destination of the removed one: it does not
carry the removed instruction's defined destination `TEMP[1]`, which `MOV
OUT[1], TEMP[1]` still reads.  On the pair significand/exponent the merge
does carry both destinations. -/
theorem merge_two_dsts_drops_destination :
    merge_two_dsts_list example_two_significands
      = some [example_dfracexp (example_temp_dst 0) undef_dst example_double_input,
          example_inst TGSI_OPCODE_MOV (example_output_dst 0) (example_temp 0) undef_src 1,
          example_inst TGSI_OPCODE_MOV (example_output_dst 1) (example_temp 1) undef_src 1]
    ∧ (example_dfracexp (example_temp_dst 1) undef_dst example_double_input).dst0.file
        ≠ PROGRAM_UNDEFINED
    ∧ (example_dfracexp (example_temp_dst 0) undef_dst example_double_input).dst0
        ≠ (example_dfracexp (example_temp_dst 1) undef_dst example_double_input).dst0
    ∧ (example_dfracexp (example_temp_dst 0) undef_dst example_double_input).dst1
        ≠ (example_dfracexp (example_temp_dst 1) undef_dst example_double_input).dst0
    ∧ merge_two_dsts_list example_significand_exponent
      = some [example_dfracexp (example_temp_dst 0) (example_temp_dst 1) example_double_input,
          example_inst TGSI_OPCODE_MOV (example_output_dst 0) (example_temp 0) undef_src 1,
          example_inst TGSI_OPCODE_MOV (example_output_dst 1) (example_temp 1) undef_src 1] := by
  refine ⟨rfl, by decide, by decide, by decide, rfl⟩

/-- C15 (code bug): on `DFRACEXP TEMP[0], -, IN[0]; MOV OUT[0], TEMP[0];
MOV OUT[1], IN[0]` the pass `merge_two_dsts` removes the `MOV OUT[1], IN[0]`, an
instruction with one destination and another opcode than the `DFRACEXP` it is
merged into: the search loop compares only the first sources. -/
theorem merge_two_dsts_removes_other_opcode :
    merge_two_dsts_list example_significand_and_copy
      = some [example_dfracexp (example_temp_dst 0) undef_dst example_double_input,
          example_inst TGSI_OPCODE_MOV (example_output_dst 0) (example_temp 0) undef_src 1]
    ∧ example_significand_and_copy[2]?
      = some (example_inst TGSI_OPCODE_MOV (example_output_dst 1) example_double_input
          undef_src 1)
    ∧ (example_inst TGSI_OPCODE_MOV (example_output_dst 1) example_double_input undef_src 1).op
        ≠ TGSI_OPCODE_DFRACEXP
    ∧ num_inst_dst_regs
        (example_inst TGSI_OPCODE_MOV (example_output_dst 1) example_double_input undef_src 1)
        = 1 := by
  refine ⟨rfl, rfl, by decide, rfl⟩

/-! ## Label fix-up -/

/-- The label of a `CAL` is fixed up with the entry of `insn` at the `sig_id` of
the called function. -/
theorem compile_tgsi_instruction_call {ureg : Type} (fns : ureg_functions ureg)
    (function_signatures : List function_entry) (t : st_translate ureg)
    (inst : glsl_to_tgsi_instruction) (f : Nat) (entry : function_entry)
    (hop : inst.op = TGSI_OPCODE_CAL) (hdst : num_inst_dst_regs inst = 0)
    (hf : inst.function = some f)
    (hentry : function_signatures.find? (fun entry => entry.id = f) = some entry) :
    compile_tgsi_instruction fns function_signatures t inst
      = some { t with
          ureg := (fns.ureg_label_insn t.ureg inst).1,
          labels := t.labels ++
            [⟨(entry.sig_id % 2 ^ 32).toNat, (fns.ureg_label_insn t.ureg inst).2⟩] } := by
  unfold compile_tgsi_instruction
  simp [hop, hdst, hf, hentry]

/-- The label fix-up on a list that holds a call.  In the program
`MOV TEMP[0], IN[0]; CAL f; MOV OUT[0], TEMP[1]; BGNSUB f; MOV TEMP[1], TEMP[0];
RET; ENDSUB f` with `sig_id` 1 for `f`, every instruction is emitted as one
target instruction (addresses 0 to 6), the `BGNSUB` of `f` is at address 3, and
the only fix-up, the one of the `CAL` (label token 1), writes the address 1: the
entry of `insn` at index `sig_id`, which is the address of the `CAL` itself.
Such a list is not what `visit(ir_function *)` expects to lower: calls are
inlined before the visitor runs. -/
theorem st_translate_labels_call_target :
    st_translate_labels example_ureg [example_function] example_call 0
      = some (7, [0, 1, 2, 3, 4, 5, 6], [(1, 1)])
    ∧ example_call[1]? = some { example_control TGSI_OPCODE_CAL with function := some 61 }
    ∧ example_call[3]? = some { example_control TGSI_OPCODE_BGNSUB with function := some 61 }
    ∧ [0, 1, 2, 3, 4, 5, 6][3]? = some 3
    ∧ [0, 1, 2, 3, 4, 5, 6][(example_function.sig_id % 2 ^ 32).toNat]? = some 1 := by
  refine ⟨rfl, rfl, rfl, rfl, rfl⟩

/-! ## simplify_cmp and the arity of instructions -/

/-- The first visit of a temporary by `simplify_cmp`: the table `tempWrites` is
allocated and the instruction is rewritten with an empty previous write-mask. -/
theorem simplify_cmp_from_first_temp (info : tgsi_opcode → tgsi_opcode_info)
    (realloc_ok : Nat → Bool) (inst : glsl_to_tgsi_instruction)
    (rest : List glsl_to_tgsi_instruction) (outputWrites : List Nat) (k : Nat)
    (hgo : simplify_cmp_gives_up info inst = false)
    (hfile : inst.dst0.file = PROGRAM_TEMPORARY) (hindex : inst.dst0.index = (k : Int))
    (hk : k < simplify_cmp_inc) (hok : realloc_ok simplify_cmp_inc = true) :
    simplify_cmp_from info realloc_ok (inst :: rest) ⟨[], outputWrites⟩
      = match simplify_cmp_rewrite inst 0 with
        | none => none
        | some inst1 =>
            (simplify_cmp_from info realloc_ok rest
              ⟨(List.replicate simplify_cmp_inc 0).set k inst.dst0.writemask, outputWrites⟩).map
              (fun l => inst1 :: l) := by
  rw [simplify_cmp_from]
  generalize simplify_cmp_inc = inc at hk hok ⊢
  have hget : arr_get ([] ++ List.replicate inc 0) (k : Int) = some 0 := by
    simp [arr_get, hk]
  have hset : arr_set ([] ++ List.replicate inc 0) (k : Int) (0 ||| inst.dst0.writemask)
      = some ((List.replicate inc 0).set k inst.dst0.writemask) := by
    simp [arr_set, hk]
  simp only [hgo, hfile, hindex, List.length_nil, hok, Nat.zero_add]
  simp only [show (PROGRAM_TEMPORARY = PROGRAM_OUTPUT) = False by simp, if_false, if_true,
    Bool.false_eq_true, Bool.true_eq_false, and_false, Nat.cast_zero, ge_iff_le,
    Nat.cast_nonneg, hget, hset]

/-- C21 (code bug): `simplify_cmp` rewrites `CMP TEMP[0], IN[0], IN[1], TEMP[0]`,
the first write of `TEMP[0]`, by changing the opcode to `MOV` and the first
source to `IN[1]` only.  The instruction satisfies the arity invariant before the
pass (it records the three sources of `CMP`, slot 3 is undefined); after the pass
it does not: the recorded opcode info is still that of `CMP`, so three sources
are counted for a `MOV`, and the source slots 1 and 2 still hold `IN[1]` and
`TEMP[0]`. -/
theorem simplify_cmp_keeps_cmp_info :
    arity_invariant example_opcode_table example_conditional_write
    ∧ simplify_cmp_list example_opcode_table (fun _ => true) 64 [example_conditional_write]
        = some [example_rewritten_write]
    ∧ example_rewritten_write.op = TGSI_OPCODE_MOV
    ∧ ¬ arity_invariant example_opcode_table example_rewritten_write
    ∧ example_rewritten_write.info = example_opcode_table TGSI_OPCODE_CMP
    ∧ example_rewritten_write.info ≠ example_opcode_table TGSI_OPCODE_MOV
    ∧ num_inst_src_regs example_rewritten_write = 3
    ∧ example_rewritten_write.src1 = example_input 1
    ∧ example_rewritten_write.src2 = example_temp 0
    ∧ (example_input 1).file ≠ PROGRAM_UNDEFINED
    ∧ (example_temp 0).file ≠ PROGRAM_UNDEFINED := by
  refine ⟨⟨rfl, ?_⟩, ?_, rfl, ?_, rfl, by decide, rfl, rfl, rfl, by decide, by decide⟩
  · intro j r hj hr
    have h3 : num_inst_src_regs example_conditional_write = 3 := rfl
    rw [h3] at hj
    match j, hj, hr with
    | 3, _, hr =>
      simp only [glsl_to_tgsi_instruction.src, Option.some.injEq] at hr
      subst hr; rfl
    | (n + 4), _, hr => simp [glsl_to_tgsi_instruction.src] at hr
  · rw [simplify_cmp_list,
      simplify_cmp_from_first_temp _ _ _ _ _ 0 (by rfl) (by rfl) (by rfl) (by decide) (by rfl)]
    rfl
  · intro h
    exact absurd h.1 (by decide)

/-! ## The final loop of eliminate_dead_code -/

/-- The channels of `and_not a b` are the channels of `a` that are not in `b`. -/
theorem and_not_testBit (a b c : Nat) (ha : a < 2 ^ 32) :
    (and_not a b).testBit c = (a.testBit c && !b.testBit c) := by
  unfold and_not
  rw [Nat.testBit_and, Nat.testBit_xor, show (0xFFFFFFFF : Nat) = 2 ^ 32 - 1 by norm_num,
    Nat.testBit_two_pow_sub_one]
  by_cases hc : c < 32
  · simp [hc]
  · have : a.testBit c = false :=
      Nat.testBit_lt_two_pow (lt_of_lt_of_le ha (Nat.pow_le_pow_right (by norm_num) (by omega)))
    simp [this]

/-- The test `(a & ~b) == 0` holds exactly when every channel of `a` is in `b`. -/
theorem and_not_eq_zero_iff (a b : Nat) (ha : a < 2 ^ 32) :
    and_not a b = 0 ↔ ∀ c, a.testBit c = true → b.testBit c = true := by
  constructor
  · intro h c hc
    have := and_not_testBit a b c ha
    rw [h, hc] at this
    simpa using this
  · intro h
    apply Nat.eq_of_testBit_eq
    intro c
    rw [and_not_testBit a b c ha, Nat.zero_testBit]
    cases hc : a.testBit c
    · rfl
    · simp [h c hc]

/-- C22: the final loop of `eliminate_dead_code` on an instruction with a non-empty
dead mask and a non-empty first-destination write-mask (four channels).  The
instruction is removed if and only if every channel of the write-mask is in the
dead mask.  Otherwise it stays, all its members but the write-mask of the first
destination unchanged; the new write-mask holds the channels of the old one that
are not dead, except for a first destination of type double, where this happens
only for the dead masks XY and ZW and the write-mask is unchanged for every
other dead mask. -/
theorem dce_sweep_inst_subset (inst : glsl_to_tgsi_instruction) (dead_mask : Nat)
    (hdead : dead_mask ≠ 0) (hwrite : inst.dst0.writemask ≠ 0)
    (hchannels : inst.dst0.writemask < 16) :
    (dce_sweep_inst inst dead_mask = none ↔
      ∀ c, inst.dst0.writemask.testBit c = true → dead_mask.testBit c = true)
    ∧ (∀ inst1, dce_sweep_inst inst dead_mask = some inst1 →
        ∃ writemask,
          inst1 = { inst with dead_mask := dead_mask,
                              dst0 := { inst.dst0 with writemask := writemask } }
          ∧ (inst.dst0.type ≠ GLSL_TYPE_DOUBLE ∨ dead_mask = WRITEMASK_XY
              ∨ dead_mask = WRITEMASK_ZW →
              ∀ c, writemask.testBit c
                = (inst.dst0.writemask.testBit c && !dead_mask.testBit c))
          ∧ (inst.dst0.type = GLSL_TYPE_DOUBLE → dead_mask ≠ WRITEMASK_XY →
              dead_mask ≠ WRITEMASK_ZW → writemask = inst.dst0.writemask)) := by
  have h32 : inst.dst0.writemask < 2 ^ 32 := lt_trans hchannels (by norm_num)
  have hsub := and_not_eq_zero_iff inst.dst0.writemask dead_mask h32
  refine ⟨?_, ?_⟩
  · rw [← hsub]
    unfold dce_sweep_inst
    simp only [hdead, hwrite, or_self, if_false]
    by_cases h0 : and_not inst.dst0.writemask dead_mask = 0
    · simp only [h0, if_true]
    · simp only [h0, if_false, iff_false]
      split_ifs <;> simp
  · intro inst1 h
    unfold dce_sweep_inst at h
    simp only [hdead, hwrite, or_self, if_false] at h
    by_cases h0 : and_not inst.dst0.writemask dead_mask = 0
    · simp only [h0, if_true] at h
      cases h
    · simp only [h0, if_false] at h
      by_cases hd : inst.dst0.type = GLSL_TYPE_DOUBLE
      · rw [if_pos hd] at h
        by_cases hxy : dead_mask = WRITEMASK_XY ∨ dead_mask = WRITEMASK_ZW
        · simp only [hxy, if_true, Option.some.injEq] at h
          refine ⟨and_not inst.dst0.writemask dead_mask, h.symm, ?_, ?_⟩
          · intro _ c
            exact and_not_testBit _ _ c h32
          · intro _ h1 h2
            exact absurd hxy (by simp [h1, h2])
        · simp only [hxy, if_false, Option.some.injEq] at h
          refine ⟨inst.dst0.writemask, h.symm, ?_, ?_⟩
          · intro h1
            rcases h1 with h1 | h1 | h1
            · exact absurd hd h1
            · exact absurd (Or.inl h1) hxy
            · exact absurd (Or.inr h1) hxy
          · intro _ _ _
            rfl
      · rw [if_neg hd] at h
        simp only [Option.some.injEq] at h
        refine ⟨and_not inst.dst0.writemask dead_mask, h.symm, ?_, ?_⟩
        · intro _ c
          exact and_not_testBit _ _ c h32
        · intro h1
          exact absurd h1 hd

/-- Witness for C22: `MOV TEMP[0].xyzw, IN[0]` with the dead mask XY keeps the
channels ZW. -/
theorem dce_sweep_inst_subset_witness :
    (dce_sweep_inst
        (example_inst TGSI_OPCODE_MOV (example_temp_dst 0) (example_input 0) undef_src 1)
        WRITEMASK_XY = none ↔
      ∀ c, (example_inst TGSI_OPCODE_MOV (example_temp_dst 0) (example_input 0) undef_src
          1).dst0.writemask.testBit c = true → WRITEMASK_XY.testBit c = true)
    ∧ dce_sweep_inst
        (example_inst TGSI_OPCODE_MOV (example_temp_dst 0) (example_input 0) undef_src 1)
        WRITEMASK_XY
      = some { example_inst TGSI_OPCODE_MOV
                  { example_temp_dst 0 with writemask := WRITEMASK_ZW } (example_input 0)
                  undef_src 1 with dead_mask := WRITEMASK_XY } :=
  ⟨(dce_sweep_inst_subset
      (example_inst TGSI_OPCODE_MOV (example_temp_dst 0) (example_input 0) undef_src 1)
      WRITEMASK_XY (by decide) (by decide) (by decide)).1, by rfl⟩

/-! ## setup_buffer_access and interface instance arrays -/

/-- The variable referenced does not depend on the instance index. -/
theorem variable_referenced_with_instance_index (index : ir_rvalue) :
    ∀ ir : ir_rvalue,
      (with_instance_index index ir).variable_referenced = ir.variable_referenced
  | .dereference_variable _ _ => rfl
  | .dereference_array _ _ array _ => by
      simp only [with_instance_index, ir_rvalue.variable_referenced]
      exact variable_referenced_with_instance_index index array
  | .dereference_record _ _ record _ => by
      simp only [with_instance_index, ir_rvalue.variable_referenced]
      exact variable_referenced_with_instance_index index record
  | .swizzle _ _ val _ => by
      simp only [with_instance_index, ir_rvalue.variable_referenced]
      exact variable_referenced_with_instance_index index val
  | .expression _ _ _ _ => rfl
  | .constant _ _ _ => rfl

/-- The type of a path does not depend on the instance index. -/
theorem type_with_instance_index (index : ir_rvalue) (ir : ir_rvalue) :
    (with_instance_index index ir).type = ir.type := by
  cases ir <;> rfl

/-- Whether a node is a dereference does not depend on the instance index. -/
theorem is_dereference_with_instance_index (index : ir_rvalue) (ir : ir_rvalue) :
    (with_instance_index index ir).is_dereference = ir.is_dereference := by
  cases ir <;> rfl

/-- The walk of `is_dereferenced_thing_row_major` does not read array indices. -/
theorem row_major_from_with_instance_index (index : ir_rvalue) (b : Bool)
    (dv : Option ir_variable) :
    ∀ (ir : ir_rvalue) (matrix : Bool),
      is_dereferenced_thing_row_major_from b dv (with_instance_index index ir) matrix
        = is_dereferenced_thing_row_major_from b dv ir matrix
  | .dereference_variable _ _, _ => rfl
  | .dereference_array _ _ array _, matrix => by
      simp only [with_instance_index, is_dereferenced_thing_row_major_from]
      exact row_major_from_with_instance_index index b dv array _
  | .dereference_record _ type record field, matrix => by
      simp only [with_instance_index, is_dereferenced_thing_row_major_from,
        type_with_instance_index]
      rw [row_major_from_with_instance_index index b dv record]
  | .swizzle _ _ _ _, _ => rfl
  | .expression _ _ _ _, _ => rfl
  | .constant _ _ _, _ => rfl

/-- Method `is_dereferenced_thing_row_major` does not read array indices. -/
theorem row_major_with_instance_index (index : ir_rvalue) (ir : ir_rvalue) :
    is_dereferenced_thing_row_major (with_instance_index index ir)
      = is_dereferenced_thing_row_major ir := by
  unfold is_dereferenced_thing_row_major
  rw [type_with_instance_index, variable_referenced_with_instance_index,
    row_major_from_with_instance_index]

/-- The offset of a member within its struct does not depend on the instance
index of the path to the struct. -/
theorem intra_struct_offset_with_instance_index (layout : glsl_type_layout)
    (packing : glsl_interface_packing) (index : ir_rvalue) (record : ir_rvalue)
    (field : String) :
    ∀ (members : glsl_struct_fields) (n i intra : Nat),
      intra_struct_offset_from layout packing (with_instance_index index record) field
          members n i intra
        = intra_struct_offset_from layout packing record field members n i intra
  | _, 0, _, _ => by simp only [intra_struct_offset_from]
  | .nil, _ + 1, _, _ => by simp only [intra_struct_offset_from]
  | .cons name type _ offset rest, n + 1, i, intra => by
      have h := row_major_with_instance_index index (.dereference_record 0 type record name)
      simp only [with_instance_index] at h
      simp only [intra_struct_offset_from, h]
      have ih := fun k => intra_struct_offset_with_instance_index layout packing index record
        field rest n (i + 1) k
      simp only [ih]

/-- The loop of `setup_buffer_access` does not depend on the instance index. -/
theorem setup_buffer_access_from_with_instance_index (layout : glsl_type_layout)
    (constant_index : ir_rvalue → Option Nat) (packing : glsl_interface_packing)
    (want_struct_field : Bool) (index : ir_rvalue) :
    ∀ (ir : ir_rvalue) (st : buffer_access),
      setup_buffer_access_from layout constant_index packing want_struct_field
          (with_instance_index index ir) st
        = setup_buffer_access_from layout constant_index packing want_struct_field ir st
  | .dereference_variable _ _, _ => rfl
  | .dereference_array id type array array_index, st => by
      have ih := setup_buffer_access_from_with_instance_index layout constant_index packing
        want_struct_field index array
      have hrow := row_major_with_instance_index index
        (.dereference_array id type array array_index)
      simp only [with_instance_index] at hrow
      simp only [with_instance_index, setup_buffer_access_from, type_with_instance_index,
        is_dereference_with_instance_index, ih]
      by_cases hv : array.type.is_vector = true
      · simp only [hv, Bool.not_true, Bool.false_and, Bool.false_eq_true, if_false, if_true]
      · by_cases hm : array.type.is_matrix = true
        · have hv' : array.type.is_vector = false := by simpa using hv
          simp only [hv', hm, Bool.not_true, Bool.not_false, Bool.and_false, Bool.false_and,
            Bool.true_and, Bool.false_eq_true, if_false] at hrow ⊢
          rw [hrow]
        · have hv' : array.type.is_vector = false := by simpa using hv
          have hm' : array.type.is_matrix = false := by simpa using hm
          by_cases hi : type.without_array.is_interface = true
          · simp only [hv', hm', hi, Bool.false_and, Bool.false_eq_true, if_false, if_true]
          · have hi' : type.without_array.is_interface = false := by simpa using hi
            simp only [hv', hm', hi', Bool.not_false, Bool.and_false, Bool.false_and,
              Bool.true_and, Bool.false_eq_true, if_false] at hrow ⊢
            rw [hrow]
  | .dereference_record _ _ record field, st => by
      have ih := setup_buffer_access_from_with_instance_index layout constant_index packing
        want_struct_field index record
      simp only [with_instance_index, setup_buffer_access_from, type_with_instance_index,
        is_dereference_with_instance_index, ih, intra_struct_offset_with_instance_index]
  | .swizzle _ _ val mask, st => by
      have ih := setup_buffer_access_from_with_instance_index layout constant_index packing
        want_struct_field index val
      simp only [with_instance_index, setup_buffer_access_from,
        is_dereference_with_instance_index, ih]
  | .expression _ _ _ _, _ => rfl
  | .constant _ _ _, _ => rfl

/-- C23: `setup_buffer_access` does not depend on the index of an interface
instance.  For every dereference path, every folding of index expressions to
constants and every expression `index` (constant or not), the path in which the
steps that index an array of interface-block instances use `index` gives the
same result as the path itself: the same constant offset, the same terms of the
runtime offset expression, and the same row-major flag, matrix columns and
struct field; in particular one run fails exactly when the other does. -/
theorem setup_buffer_access_instance_index (layout : glsl_type_layout)
    (constant_index : ir_rvalue → Option Nat) (deref index : ir_rvalue) (const_offset : Nat)
    (struct_field : Option (glsl_type × Nat)) (want_struct_field : Bool)
    (packing : glsl_interface_packing) :
    setup_buffer_access layout constant_index (with_instance_index index deref) const_offset
        struct_field want_struct_field packing
      = setup_buffer_access layout constant_index deref const_offset struct_field
          want_struct_field packing := by
  unfold setup_buffer_access
  rw [row_major_with_instance_index]
  cases is_dereferenced_thing_row_major deref with
  | none => rfl
  | some row_major =>
    exact setup_buffer_access_from_with_instance_index layout constant_index packing
      want_struct_field index deref _

/-- The member `b` of an instance of the block array `blocks` is at offset 12,
without a runtime term, for the constant index `3u` and for the index `i`. -/
theorem setup_buffer_access_instance_example :
    setup_buffer_access example_layout example_constant_index
        (example_instance_member example_index) 0 none false GLSL_INTERFACE_PACKING_STD140
      = some ⟨[], 12, false, 1, none⟩
    ∧ setup_buffer_access example_layout example_constant_index
        (example_instance_member example_runtime_index) 0 none false
        GLSL_INTERFACE_PACKING_STD140
      = some ⟨[], 12, false, 1, none⟩
    ∧ with_instance_index example_runtime_index (example_instance_member example_index)
      = example_instance_member example_runtime_index := by
  refine ⟨by rfl, by rfl, by rfl⟩

/-! ## The peephole for a logical and with a negated operand -/

/-- The operand loop gives the same result with an `accept` that succeeds more
often. -/
theorem visit_operands_mono (visit visit1 : visit_fn)
    (hle : ∀ x v r, visit x v = some r → visit1 x v = some r) :
    ∀ (operands : ir_rvalue_list) (v : glsl_to_tgsi_visitor)
      (r : List st_src_reg × glsl_to_tgsi_visitor),
      visit_operands visit operands v = some r → visit_operands visit1 operands v = some r
  | .nil, _, _, h => h
  | .cons operand rest, v, r, h => by
      simp only [visit_operands] at h ⊢
      cases hv : visit operand { v with result := v.result.set_file PROGRAM_UNDEFINED } with
      | none => simp [hv] at h
      | some v1 =>
        simp only [hv] at h
        simp only [hle _ _ _ hv]
        split at h
        · cases h
        · split at h
          · cases h
          · rename_i h1 h2
            simp only [h1, h2, if_false]
            cases hr : visit_operands visit rest v1 with
            | none => simp [hr] at h
            | some r1 =>
              simp only [hr] at h
              simp only [visit_operands_mono visit visit1 hle rest v1 r1 hr]
              exact h

/-- Method `try_emit_mad` gives the same result with an `accept` that succeeds more
often. -/
theorem try_emit_mad_mono (info : tgsi_opcode → tgsi_opcode_info) (visit visit1 : visit_fn)
    (hle : ∀ x v r, visit x v = some r → visit1 x v = some r)
    (ir : Nat) (type : glsl_type) (operands : ir_rvalue_list) (k : Nat)
    (v : glsl_to_tgsi_visitor) (r : Option glsl_to_tgsi_visitor)
    (h : try_emit_mad info visit ir type operands k v = some r) :
    try_emit_mad info visit1 ir type operands k v = some r := by
  unfold try_emit_mad at h ⊢
  simp only at h ⊢
  split at h
  · cases h
  · split at h
    · rename_i hop
      rw [if_pos hop]
      exact h
    · rename_i hop
      rw [if_neg hop]
      split at h
      · rename_i e0 e1 other h0 h1 h2
        cases ha : visit e0 v with
        | none => simp [ha] at h
        | some va =>
          simp only [ha] at h
          simp only [hle _ _ _ ha]
          cases hb : visit e1 va with
          | none => simp [hb] at h
          | some vb =>
            simp only [hb] at h
            simp only [hle _ _ _ hb]
            cases hc : visit other vb with
            | none => simp [hc] at h
            | some vc =>
              simp only [hc] at h
              simp only [hle _ _ _ hc]
              exact h
      · cases h
  · exact h

/-- Method `try_emit_mad_for_and_not` gives the same result with an `accept` that
succeeds more often. -/
theorem try_emit_mad_for_and_not_mono (info : tgsi_opcode → tgsi_opcode_info)
    (visit visit1 : visit_fn)
    (hle : ∀ x v r, visit x v = some r → visit1 x v = some r)
    (ir : Nat) (type : glsl_type) (operands : ir_rvalue_list) (k : Nat)
    (v : glsl_to_tgsi_visitor) (r : Option glsl_to_tgsi_visitor)
    (h : try_emit_mad_for_and_not info visit ir type operands k v = some r) :
    try_emit_mad_for_and_not info visit1 ir type operands k v = some r := by
  unfold try_emit_mad_for_and_not at h ⊢
  simp only at h ⊢
  split at h
  · cases h
  · split at h
    · rename_i hop
      rw [if_pos hop]
      exact h
    · rename_i hop
      rw [if_neg hop]
      split at h
      · rename_i other e0 h0 h1
        cases ha : visit other v with
        | none => simp [ha] at h
        | some va =>
          simp only [ha] at h
          simp only [hle _ _ _ ha]
          cases hb : visit e0 va with
          | none => simp [hb] at h
          | some vb =>
            simp only [hb] at h
            simp only [hle _ _ _ hb]
            exact h
      · cases h
  · exact h

/-- Method `visit(ir_expression *)` gives the same result with an `accept` that
succeeds more often. -/
theorem visit_expression_mono (info : tgsi_opcode → tgsi_opcode_info)
    (visit visit1 : visit_fn)
    (hle : ∀ x v r, visit x v = some r → visit1 x v = some r)
    (ir : Nat) (type : glsl_type) (operation : ir_expression_operation)
    (operands : ir_rvalue_list) (v r : glsl_to_tgsi_visitor)
    (h : visit_expression info visit ir type operation operands v = some r) :
    visit_expression info visit1 ir type operation operands v = some r := by
  have hgen : ∀ r, (if operation = ir_quadop_vector then none
      else
        match visit_operands visit operands v with
        | none => none
        | some (op, v1) =>
          visit_expression_tail info ir type operation (operands.get? 0).isSome op v1) = some r →
      (if operation = ir_quadop_vector then none
      else
        match visit_operands visit1 operands v with
        | none => none
        | some (op, v1) =>
          visit_expression_tail info ir type operation (operands.get? 0).isSome op v1)
        = some r := by
    intro r h
    split at h
    · cases h
    · rename_i hq
      rw [if_neg hq]
      cases ho : visit_operands visit operands v with
      | none => simp [ho] at h
      | some x =>
        simp only [ho] at h
        simp only [visit_operands_mono visit visit1 hle operands v x ho]
        exact h
  have hand : ∀ r, (if v.native_integers = false ∧ operation = ir_binop_logic_and then
        match try_emit_mad_for_and_not info visit ir type operands 1 v with
        | none => none
        | some (some v1) => some v1
        | some none =>
          match try_emit_mad_for_and_not info visit ir type operands 0 v with
          | none => none
          | some (some v1) => some v1
          | some none =>
            (if operation = ir_quadop_vector then none
            else
              match visit_operands visit operands v with
              | none => none
              | some (op, v1) =>
                visit_expression_tail info ir type operation (operands.get? 0).isSome op v1)
      else
        (if operation = ir_quadop_vector then none
        else
          match visit_operands visit operands v with
          | none => none
          | some (op, v1) =>
            visit_expression_tail info ir type operation (operands.get? 0).isSome op v1))
        = some r →
      (if v.native_integers = false ∧ operation = ir_binop_logic_and then
        match try_emit_mad_for_and_not info visit1 ir type operands 1 v with
        | none => none
        | some (some v1) => some v1
        | some none =>
          match try_emit_mad_for_and_not info visit1 ir type operands 0 v with
          | none => none
          | some (some v1) => some v1
          | some none =>
            (if operation = ir_quadop_vector then none
            else
              match visit_operands visit1 operands v with
              | none => none
              | some (op, v1) =>
                visit_expression_tail info ir type operation (operands.get? 0).isSome op v1)
      else
        (if operation = ir_quadop_vector then none
        else
          match visit_operands visit1 operands v with
          | none => none
          | some (op, v1) =>
            visit_expression_tail info ir type operation (operands.get? 0).isSome op v1))
        = some r := by
    intro r h
    split at h
    · rename_i hc
      rw [if_pos hc]
      cases h1 : try_emit_mad_for_and_not info visit ir type operands 1 v with
      | none => simp [h1] at h
      | some x1 =>
        simp only [try_emit_mad_for_and_not_mono info visit visit1 hle _ _ _ _ _ _ h1]
        cases x1 with
        | some v1 => simpa [h1] using h
        | none =>
          simp only [h1] at h
          cases h0 : try_emit_mad_for_and_not info visit ir type operands 0 v with
          | none => simp [h0] at h
          | some x0 =>
            simp only [try_emit_mad_for_and_not_mono info visit visit1 hle _ _ _ _ _ _ h0]
            cases x0 with
            | some v1 => simpa [h0] using h
            | none =>
              simp only [h0] at h
              exact hgen r h
    · rename_i hc
      rw [if_neg hc]
      exact hgen r h
  unfold visit_expression at h ⊢
  simp only at h ⊢
  split at h
  · rename_i hc
    rw [if_pos hc]
    cases h1 : try_emit_mad info visit ir type operands 1 v with
    | none => simp [h1] at h
    | some x1 =>
      simp only [try_emit_mad_mono info visit visit1 hle _ _ _ _ _ _ h1]
      cases x1 with
      | some v1 => simpa [h1] using h
      | none =>
        simp only [h1] at h
        cases h0 : try_emit_mad info visit ir type operands 0 v with
        | none => simp [h0] at h
        | some x0 =>
          simp only [try_emit_mad_mono info visit visit1 hle _ _ _ _ _ _ h0]
          cases x0 with
          | some v1 => simpa [h0] using h
          | none =>
            simp only [h0] at h
            exact hand r h
  · rename_i hc
    rw [if_neg hc]
    exact hand r h

/-- One level of the visitor gives the same result with an `accept` of the
children that succeeds more often. -/
theorem visit_rvalue_body_mono (info : tgsi_opcode → tgsi_opcode_info)
    (visit visit1 : visit_fn)
    (hle : ∀ x v r, visit x v = some r → visit1 x v = some r)
    (ir : ir_rvalue) (v r : glsl_to_tgsi_visitor)
    (h : visit_rvalue_body info visit ir v = some r) :
    visit_rvalue_body info visit1 ir v = some r := by
  cases ir with
  | dereference_variable id var => exact h
  | dereference_array id type array array_index => exact h
  | constant id type value => exact h
  | swizzle id type val mask =>
    simp only [visit_rvalue_body] at h ⊢
    cases hv : visit val v with
    | none => simp [hv] at h
    | some v1 =>
      simp only [hv] at h
      simp only [hle _ _ _ hv]
      exact h
  | dereference_record id type record field =>
    simp only [visit_rvalue_body] at h ⊢
    cases hv : visit record v with
    | none => simp [hv] at h
    | some v1 =>
      simp only [hv] at h
      simp only [hle _ _ _ hv]
      exact h
  | expression id type operation operands =>
    exact visit_expression_mono info visit visit1 hle id type operation operands v r h

/-- A result of the visitor unfolded to `n` levels is the result with any larger
number of levels. -/
theorem visit_rvalue_fuel_mono (info : tgsi_opcode → tgsi_opcode_info) :
    ∀ (n m : Nat), n ≤ m → ∀ (ir : ir_rvalue) (v r : glsl_to_tgsi_visitor),
      visit_rvalue_fuel info n ir v = some r → visit_rvalue_fuel info m ir v = some r
  | 0, _, _, _, _, _, h => by simp [visit_rvalue_fuel] at h
  | n + 1, 0, hnm, _, _, _, _ => by omega
  | n + 1, m + 1, hnm, ir, v, r, h => by
      simp only [visit_rvalue_fuel] at h ⊢
      exact visit_rvalue_body_mono info _ _
        (visit_rvalue_fuel_mono info n m (by omega)) ir v r h

/-- The result of `accept` on a child is the result the recursion of the parent
sees. -/
theorem visit_rvalue_child (info : tgsi_opcode → tgsi_opcode_info) (n : Nat)
    (ir : ir_rvalue) (v r : glsl_to_tgsi_visitor) (hn : ir.depth + 1 ≤ n)
    (h : visit_rvalue info ir v = some r) :
    visit_rvalue_fuel info n ir v = some r :=
  visit_rvalue_fuel_mono info _ _ hn ir v r h

/-- A `MAD` on plain float registers is emitted as one instruction. -/
theorem emit_asm1_mad_float (info : tgsi_opcode → tgsi_opcode_info) (ir : Option Nat)
    (dst : st_dst_reg) (src0 src1 src2 : st_src_reg) (v : glsl_to_tgsi_visitor)
    (hd : dst.reladdr = .NULL ∧ dst.reladdr2 = .NULL) (htd : dst.type ≠ GLSL_TYPE_DOUBLE)
    (h0 : src0.reladdr = .NULL ∧ src0.reladdr2 = .NULL)
    (h1 : src1.reladdr = .NULL ∧ src1.reladdr2 = .NULL)
    (h2 : src2.reladdr = .NULL ∧ src2.reladdr2 = .NULL)
    (ht0 : src0.type = GLSL_TYPE_FLOAT) (ht1 : src1.type = GLSL_TYPE_FLOAT) :
    emit_asm1 info ir TGSI_OPCODE_MAD dst src0 src1 src2 undef_src v
      = some ({ v with instructions := v.instructions
                  ++ [new_instruction info ir TGSI_OPCODE_MAD dst undef_dst src0 src1 src2
                        undef_src] },
          some v.instructions.length) := by
  unfold emit_asm1
  rw [emit_asm_no_reladdr info ir _ dst undef_dst src0 src1 src2 undef_src v hd
    ⟨rfl, rfl⟩ h0 h1 h2 ⟨rfl, rfl⟩, get_opcode_mad_float _ dst src0 src1 ht0 ht1]
  have hu : undef_dst.type ≠ GLSL_TYPE_DOUBLE := by decide
  have h0 : src0.type ≠ GLSL_TYPE_DOUBLE := by rw [ht0]; decide
  simp [emit_asm_double, new_instruction, htd, hu, h0]

/-- The negation `b.negate = ~b.negate` flips the test of `translate_src` when the
low four bits of the flag are all clear or all set. -/
theorem operand_value_negated {α : Type} [InvolutiveNeg α] (src : st_src_reg) (x : α)
    (h : src.negate % 16 = 0 ∨ src.negate % 16 = 15) :
    operand_value (src.set_negate (int_not src.negate)) x = - operand_value src x := by
  have hn : (src.set_negate (int_not src.negate)).negate = int_not src.negate := by
    cases src; rfl
  unfold operand_value translate_src_negates NEGATE_XYZW int_not at *
  rw [hn]
  rcases h with h | h
  · have h2 : (-src.negate - 1) % 16 = 15 := by omega
    simp [h, h2]
  · have h2 : (-src.negate - 1) % 16 = 0 := by omega
    simp [h, h2]

/-- The visit of an expression node is `visit(ir_expression *)` with the
recursion of the visitor on the operands. -/
theorem visit_rvalue_expression (info : tgsi_opcode → tgsi_opcode_info) (id : Nat)
    (type : glsl_type) (operation : ir_expression_operation) (operands : ir_rvalue_list)
    (v : glsl_to_tgsi_visitor) :
    visit_rvalue info (.expression id type operation operands) v
      = visit_expression info (visit_rvalue_fuel info (operands.depth + 1)) id type operation
          operands v := rfl

/-- Method `visit(ir_expression *)` on `a && !b` without native integers: the two
visits, then the statements of `try_emit_mad_for_and_not`. -/
theorem visit_expression_and_not (info : tgsi_opcode → tgsi_opcode_info) (visit : visit_fn)
    (id nid : Nat) (type ntype : glsl_type) (a b : ir_rvalue)
    (v va vb : glsl_to_tgsi_visitor) (hni : v.native_integers = false)
    (ha : visit a v = some va) (hb : visit b va = some vb) :
    visit_expression info visit id type ir_binop_logic_and
        (.cons a (.cons (.expression nid ntype ir_unop_logic_not (.cons b .nil)) .nil)) v
      = try_emit_mad_for_and_not_tail info id type va.result vb.result vb := by
  simp only [visit_expression, try_emit_mad_for_and_not, ir_rvalue_list.get?, hni, ha, hb]
  cases try_emit_mad_for_and_not_tail info id type va.result vb.result vb <;> simp

/-- Method `visit(ir_expression *)` on `!b && a` without native integers, `a` not
being a logical not: the visit of `a`, the visit of `b`, then the statements of
`try_emit_mad_for_and_not`. -/
theorem visit_expression_not_and (info : tgsi_opcode → tgsi_opcode_info) (visit : visit_fn)
    (id nid : Nat) (type ntype : glsl_type) (a b : ir_rvalue)
    (v va vb : glsl_to_tgsi_visitor) (hni : v.native_integers = false)
    (ha : visit a v = some va) (hb : visit b va = some vb)
    (hnot : ∀ i t ops, a ≠ .expression i t ir_unop_logic_not ops) :
    visit_expression info visit id type ir_binop_logic_and
        (.cons (.expression nid ntype ir_unop_logic_not (.cons b .nil)) (.cons a .nil)) v
      = try_emit_mad_for_and_not_tail info id type va.result vb.result vb := by
  have h1 : try_emit_mad_for_and_not info visit id type
      (.cons (.expression nid ntype ir_unop_logic_not (.cons b .nil)) (.cons a .nil)) 1 v
      = some none := by
    unfold try_emit_mad_for_and_not
    simp only [ir_rvalue_list.get?]
    cases a with
    | expression i t op ops =>
      have : op ≠ ir_unop_logic_not := fun h => hnot i t ops (by rw [h])
      simp [this]
    | _ => rfl
  simp only [visit_expression, h1, hni]
  simp only [try_emit_mad_for_and_not, ir_rvalue_list.get?, ha, hb]
  cases try_emit_mad_for_and_not_tail info id type va.result vb.result vb <;> simp

/-- C24: the peephole of `visit(ir_expression *)` for `a && !b`.  Without native
integers, when the visits of `a` and then of `b` leave plain float registers,
the expression in either operand order (`a` not being a logical not itself in
the order `!b && a`) is lowered by these two visits followed by exactly one
instruction, `MAD temp, a, b', a` into a fresh temporary, where `b'` is the
register of `b` with the negate flag complemented.  With the operands read as
`translate_src` translates them and `MAD` computing `src0 * src1 + src2`, the
value stored for `a`, `b` in {0, 1} is 1 when `a = 1` and `b = 0` and 0 otherwise.
With native integers a logical and is lowered by the generic path (operand
loop, then the opcode switch), whatever its operands. -/
theorem try_emit_mad_for_and_not_value (info : tgsi_opcode → tgsi_opcode_info)
    (id nid : Nat) (ntype : glsl_type) (a b : ir_rvalue) (v va vb : glsl_to_tgsi_visitor)
    (hni : v.native_integers = false)
    (ha : visit_rvalue info a v = some va) (hb : visit_rvalue info b va = some vb)
    (hra : va.result.reladdr = .NULL ∧ va.result.reladdr2 = .NULL)
    (hrb : vb.result.reladdr = .NULL ∧ vb.result.reladdr2 = .NULL)
    (hta : va.result.type = GLSL_TYPE_FLOAT) (htb : vb.result.type = GLSL_TYPE_FLOAT)
    (hnot : ∀ i t ops, a ≠ .expression i t ir_unop_logic_not ops) :
    (∃ temp vt,
      get_temp vb glsl_type.bool_type = some (temp, vt)
      ∧ vt.instructions = vb.instructions
      ∧ visit_rvalue info
          (.expression id glsl_type.bool_type ir_binop_logic_and
            (.cons a (.cons (.expression nid ntype ir_unop_logic_not (.cons b .nil)) .nil))) v
        = some { vt with
            result := temp,
            instructions := vb.instructions ++
              [new_instruction info (some id) TGSI_OPCODE_MAD (st_dst_reg.ofSrc temp) undef_dst
                va.result (vb.result.set_negate (int_not vb.result.negate)) va.result
                undef_src] }
      ∧ visit_rvalue info
          (.expression id glsl_type.bool_type ir_binop_logic_and
            (.cons (.expression nid ntype ir_unop_logic_not (.cons b .nil)) (.cons a .nil))) v
        = some { vt with
            result := temp,
            instructions := vb.instructions ++
              [new_instruction info (some id) TGSI_OPCODE_MAD (st_dst_reg.ofSrc temp) undef_dst
                va.result (vb.result.set_negate (int_not vb.result.negate)) va.result
                undef_src] })
    ∧ (∀ xa xb : Int,
        (operand_value va.result xa = 0 ∨ operand_value va.result xa = 1) →
        (operand_value vb.result xb = 0 ∨ operand_value vb.result xb = 1) →
        (vb.result.negate % 16 = 0 ∨ vb.result.negate % 16 = 15) →
        mad_value (operand_value va.result xa)
            (operand_value (vb.result.set_negate (int_not vb.result.negate)) xb)
            (operand_value va.result xa)
          = if operand_value va.result xa = 1 ∧ operand_value vb.result xb = 0 then 1 else 0)
    ∧ (∀ (type : glsl_type) (operands : ir_rvalue_list) (vn : glsl_to_tgsi_visitor),
        vn.native_integers = true →
        visit_rvalue info (.expression id type ir_binop_logic_and operands) vn
          = match visit_operands (visit_rvalue_fuel info (operands.depth + 1)) operands vn with
            | none => none
            | some (op, v1) =>
              visit_expression_tail info id type ir_binop_logic_and (operands.get? 0).isSome
                op v1) := by
  obtain ⟨temp, vt, hget, hinst, -, -, -, htt, -, hr1, hr2⟩ := get_temp_bool vb
  have htd : (st_dst_reg.ofSrc temp).type ≠ GLSL_TYPE_DOUBLE := by
    show temp.type ≠ GLSL_TYPE_DOUBLE
    rw [htt]
    cases vb.native_integers <;> decide
  have hnb : (vb.result.set_negate (int_not vb.result.negate)).reladdr = .NULL
      ∧ (vb.result.set_negate (int_not vb.result.negate)).reladdr2 = .NULL := by
    obtain ⟨h1, h2⟩ := hrb
    cases hres : vb.result
    rw [hres] at h1 h2
    exact ⟨h1, h2⟩
  have hnt : (vb.result.set_negate (int_not vb.result.negate)).type = GLSL_TYPE_FLOAT := by
    cases hres : vb.result
    rw [hres] at htb
    exact htb
  have htail : try_emit_mad_for_and_not_tail info id glsl_type.bool_type va.result vb.result vb
      = some { vt with
            result := temp,
            instructions := vb.instructions ++
              [new_instruction info (some id) TGSI_OPCODE_MAD (st_dst_reg.ofSrc temp) undef_dst
                va.result (vb.result.set_negate (int_not vb.result.negate)) va.result
                undef_src] } := by
    unfold try_emit_mad_for_and_not_tail
    simp only [hget]
    rw [emit_asm1_mad_float info (some id) (st_dst_reg.ofSrc temp) va.result _ va.result _
      ⟨hr1, hr2⟩ htd hra hnb hra hta hnt]
    simp only [Option.map_some', hinst]
  refine ⟨⟨temp, vt, hget, hinst, ?_, ?_⟩, ?_, ?_⟩
  · rw [visit_rvalue_expression, ← htail]
    refine visit_expression_and_not info _ id nid _ ntype a b v va vb hni
      (visit_rvalue_child info _ a v va ?_ ha) (visit_rvalue_child info _ b va vb ?_ hb)
    · simp only [ir_rvalue_list.depth, ir_rvalue.depth]; omega
    · simp only [ir_rvalue_list.depth, ir_rvalue.depth]; omega
  · rw [visit_rvalue_expression, ← htail]
    refine visit_expression_not_and info _ id nid _ ntype a b v va vb hni
      (visit_rvalue_child info _ a v va ?_ ha) (visit_rvalue_child info _ b va vb ?_ hb) hnot
    · simp only [ir_rvalue_list.depth, ir_rvalue.depth]; omega
    · simp only [ir_rvalue_list.depth, ir_rvalue.depth]; omega
  · intro xa xb hxa hxb hneg
    rw [operand_value_negated _ _ hneg]
    unfold mad_value
    rcases hxa with hxa | hxa <;> rcases hxb with hxb | hxb <;> simp [hxa, hxb]
  · intro type operands vn hvn
    rw [visit_rvalue_expression]
    simp only [visit_expression, hvn, Bool.true_eq_false, false_and, if_false,
      show (ir_binop_logic_and = ir_binop_add) = False by simp,
      show (ir_binop_logic_and = ir_quadop_vector) = False by simp]

/-- Witness for C24: `b && !c` and `!c && b` on two bool uniforms, from a fresh
visitor without native integers, are lowered to one `MAD` that reads the
register of `b`, the register of `c` with the negate flag set, and the register
of `b`. -/
theorem try_emit_mad_for_and_not_value_witness :
    ∃ v1, visit_rvalue example_info (example_and_not false) example_visitor_float = some v1
      ∧ visit_rvalue example_info (example_and_not true) example_visitor_float = some v1
      ∧ v1.instructions.map (fun inst => (inst.op, inst.src0, inst.src1, inst.src2))
        = [(TGSI_OPCODE_MAD,
            (st_src_reg.ofType PROGRAM_UNIFORM 0 GLSL_TYPE_FLOAT).set_swizzle SWIZZLE_XXXX,
            ((st_src_reg.ofType PROGRAM_UNIFORM 1 GLSL_TYPE_FLOAT).set_swizzle
              SWIZZLE_XXXX).set_negate (-1),
            (st_src_reg.ofType PROGRAM_UNIFORM 0 GLSL_TYPE_FLOAT).set_swizzle SWIZZLE_XXXX)] := by
  obtain ⟨⟨temp, vt, -, -, h1, h2⟩, -, -⟩ :=
    try_emit_mad_for_and_not_value example_info 6 5 glsl_type.bool_type example_condition
      (.dereference_variable 4 example_other_uniform) example_visitor_float
      ((visit_rvalue example_info example_condition example_visitor_float).getD
        example_visitor_float)
      ((visit_rvalue example_info (.dereference_variable 4 example_other_uniform)
        ((visit_rvalue example_info example_condition example_visitor_float).getD
          example_visitor_float)).getD example_visitor_float)
      (by rfl) (by rfl) (by rfl) (by decide) (by decide) (by rfl) (by rfl)
      (by intro i t ops h; cases h)
  exact ⟨_, h1, h2, by rfl⟩

/-! ## The double-processing section of emit_asm -/

/-- The channels `u_bit_scan` returns for a four-channel mask are its logical
channels. -/
theorem bit_scan_list_channels (writemask : Nat) (h : writemask < 16) :
    bit_scan_list writemask = writemask_channels writemask := by
  have key : ∀ m : Fin 16, bit_scan_list m.val = writemask_channels m.val := by decide
  exact key ⟨writemask, h⟩

/-- The first destination after one pass of the double-processing loop for the
channel `i`, when it is of type double. -/
theorem emit_asm_split_dst0 (op : tgsi_opcode) (inst0 dinst : glsl_to_tgsi_instruction)
    (i : Nat) (h : dinst.dst0.type = GLSL_TYPE_DOUBLE) :
    (emit_asm_split op inst0 dinst i).dst0
      = { dinst.dst0 with
          writemask := if i % 2 = 0 then WRITEMASK_XY else WRITEMASK_ZW,
          index := if i < 2 then inst0.dst0.index else inst0.dst0.index + 1 } := by
  have h1 : (i &&& 1 ≠ 0) = ¬ (i % 2 = 0) := by rw [Nat.and_one_is_mod]
  have h2 : (i > 1) = ¬ (i < 2) := by simp; omega
  simp only [emit_asm_split, h, if_true, h1, h2, ite_not]

/-- C25: double destination splitting.  For an instruction without relative
addressing whose first destination is a double register (file not undefined) at
index `r` with a non-empty logical write-mask `M` of the four channels,
`emit_asm` appends exactly one instruction per logical channel of `M`, in
ascending order, and returns the last one; the instruction for channel `i` has
the resolved opcode and the first destination with write-mask XY for even `i`
and ZW for odd `i`, at index `r` for `i < 2` and `r + 1` for `i >= 2`, its other
members unchanged. -/
theorem emit_asm_double_split (info : tgsi_opcode → tgsi_opcode_info) (ir : Option Nat)
    (op op1 : tgsi_opcode) (dst dst1 : st_dst_reg) (src0 src1 src2 src3 : st_src_reg)
    (v : glsl_to_tgsi_visitor)
    (hd : dst.reladdr = .NULL ∧ dst.reladdr2 = .NULL)
    (hd1 : dst1.reladdr = .NULL ∧ dst1.reladdr2 = .NULL)
    (h0 : src0.reladdr = .NULL ∧ src0.reladdr2 = .NULL)
    (h1 : src1.reladdr = .NULL ∧ src1.reladdr2 = .NULL)
    (h2 : src2.reladdr = .NULL ∧ src2.reladdr2 = .NULL)
    (h3 : src3.reladdr = .NULL ∧ src3.reladdr2 = .NULL)
    (hop : get_opcode v.native_integers op dst src0 src1 = some op1)
    (hty : dst.type = GLSL_TYPE_DOUBLE) (hfile : dst.file ≠ PROGRAM_UNDEFINED)
    (hmask : dst.writemask < 16)
    (hne : dst.writemask ≠ 0) :
    ∃ new : List glsl_to_tgsi_instruction,
      emit_asm info ir op dst dst1 src0 src1 src2 src3 v
        = some ({ v with instructions := v.instructions ++ new },
            some (v.instructions.length + new.length - 1))
      ∧ new.map (fun inst => inst.dst0)
        = (writemask_channels dst.writemask).map (fun i =>
            { dst with
              writemask := if i % 2 = 0 then WRITEMASK_XY else WRITEMASK_ZW,
              index := if i < 2 then dst.index else dst.index + 1 })
      ∧ new.length = (writemask_channels dst.writemask).length
      ∧ ∀ inst ∈ new, inst.op = op1 := by
  rw [emit_asm_no_reladdr info ir op dst dst1 src0 src1 src2 src3 v hd hd1 h0 h1 h2 h3, hop]
  have hcond : (new_instruction info ir op1 dst dst1 src0 src1 src2 src3).dst0.type
        = GLSL_TYPE_DOUBLE
      ∨ (new_instruction info ir op1 dst dst1 src0 src1 src2 src3).dst1.type = GLSL_TYPE_DOUBLE
      ∨ (new_instruction info ir op1 dst dst1 src0 src1 src2 src3).src0.type
        = GLSL_TYPE_DOUBLE := Or.inl hty
  have hf : ¬ (new_instruction info ir op1 dst dst1 src0 src1 src2 src3).dst0.file
      = PROGRAM_UNDEFINED := hfile
  have hw : (new_instruction info ir op1 dst dst1 src0 src1 src2 src3).dst0.writemask
      = dst.writemask := rfl
  simp only [Option.map_some', emit_asm_double, if_pos hcond, if_neg hf, hw,
    bit_scan_list_channels dst.writemask hmask]
  cases hch : writemask_channels dst.writemask with
  | nil =>
    exfalso
    have key : ∀ m : Fin 16, writemask_channels m.val = [] → m.val = 0 := by decide
    exact hne (key ⟨dst.writemask, hmask⟩ hch)
  | cons i rest =>
    simp only []
    have hfirst := emit_asm_split_dst0 op1
      (new_instruction info ir op1 dst dst1 src0 src1 src2 src3)
      (new_instruction info ir op1 dst dst1 src0 src1 src2 src3) i hty
    have hrest : ∀ k, (emit_asm_split op1
        (new_instruction info ir op1 dst dst1 src0 src1 src2 src3)
        (emit_asm_split op1 (new_instruction info ir op1 dst dst1 src0 src1 src2 src3)
          (new_instruction info ir op1 dst dst1 src0 src1 src2 src3) i) k).dst0
        = { dst with
              writemask := if k % 2 = 0 then WRITEMASK_XY else WRITEMASK_ZW,
              index := if k < 2 then dst.index else dst.index + 1 } := by
      intro k
      rw [emit_asm_split_dst0 _ _ _ _ (by rw [hfirst]; exact hty), hfirst]
      rfl
    refine ⟨emit_asm_split op1 (new_instruction info ir op1 dst dst1 src0 src1 src2 src3)
        (new_instruction info ir op1 dst dst1 src0 src1 src2 src3) i ::
      rest.map (fun k => emit_asm_split op1
        (new_instruction info ir op1 dst dst1 src0 src1 src2 src3)
        (emit_asm_split op1 (new_instruction info ir op1 dst dst1 src0 src1 src2 src3)
          (new_instruction info ir op1 dst dst1 src0 src1 src2 src3) i) k), ?_, ?_, ?_, ?_⟩
    · simp only [List.length_append, List.length_cons, List.length_map]
    · simp only [List.map_cons, List.map_map, hfirst]
      refine congrArg₂ _ rfl ?_
      apply List.map_congr_left
      intro k _
      exact hrest k
    · simp
    · intro inst hinst
      rw [List.mem_cons, List.mem_map] at hinst
      rcases hinst with rfl | ⟨k, -, rfl⟩ <;> rfl

/-- The double processing on an empty write-mask, which no caller of `emit_asm`
passes: the loop over the channels never runs, the instruction pushed before it
stays in the list unchanged and the returned pointer is null. -/
theorem emit_asm_double_empty (info : tgsi_opcode → tgsi_opcode_info) (ir : Option Nat)
    (op op1 : tgsi_opcode) (dst dst1 : st_dst_reg) (src0 src1 src2 src3 : st_src_reg)
    (v : glsl_to_tgsi_visitor)
    (hd : dst.reladdr = .NULL ∧ dst.reladdr2 = .NULL)
    (hd1 : dst1.reladdr = .NULL ∧ dst1.reladdr2 = .NULL)
    (h0 : src0.reladdr = .NULL ∧ src0.reladdr2 = .NULL)
    (h1 : src1.reladdr = .NULL ∧ src1.reladdr2 = .NULL)
    (h2 : src2.reladdr = .NULL ∧ src2.reladdr2 = .NULL)
    (h3 : src3.reladdr = .NULL ∧ src3.reladdr2 = .NULL)
    (hop : get_opcode v.native_integers op dst src0 src1 = some op1)
    (hty : dst.type = GLSL_TYPE_DOUBLE) (hfile : dst.file ≠ PROGRAM_UNDEFINED)
    (hmask : dst.writemask < 16)
    (hz : dst.writemask = 0) :
    emit_asm info ir op dst dst1 src0 src1 src2 src3 v
      = some ({ v with instructions := v.instructions
                  ++ [new_instruction info ir op1 dst dst1 src0 src1 src2 src3] },
          none) := by
  rw [emit_asm_no_reladdr info ir op dst dst1 src0 src1 src2 src3 v hd hd1 h0 h1 h2 h3, hop]
  have hcond : (new_instruction info ir op1 dst dst1 src0 src1 src2 src3).dst0.type
        = GLSL_TYPE_DOUBLE
      ∨ (new_instruction info ir op1 dst dst1 src0 src1 src2 src3).dst1.type = GLSL_TYPE_DOUBLE
      ∨ (new_instruction info ir op1 dst dst1 src0 src1 src2 src3).src0.type
        = GLSL_TYPE_DOUBLE := Or.inl hty
  have hf : ¬ (new_instruction info ir op1 dst dst1 src0 src1 src2 src3).dst0.file
      = PROGRAM_UNDEFINED := hfile
  have hw : (new_instruction info ir op1 dst dst1 src0 src1 src2 src3).dst0.writemask
      = dst.writemask := rfl
  simp only [Option.map_some', emit_asm_double, if_pos hcond, if_neg hf, hw,
    bit_scan_list_channels dst.writemask hmask]
  have hch : writemask_channels dst.writemask = [] := by rw [hz]; rfl
  simp only [hch]

/-- Witness for C25: a double addition into `TEMP[1]` with the logical
write-mask YZW gives three instructions: `TEMP[1].zw`, `TEMP[2].xy`,
`TEMP[2].zw`. -/
theorem emit_asm_double_split_witness :
    ∃ new : List glsl_to_tgsi_instruction,
      emit_asm example_info none TGSI_OPCODE_ADD (example_double_dst 1 0xe) undef_dst
          (st_src_reg.ofType PROGRAM_TEMPORARY 2 GLSL_TYPE_DOUBLE)
          (st_src_reg.ofType PROGRAM_TEMPORARY 3 GLSL_TYPE_DOUBLE) undef_src undef_src
          example_visitor_native
        = some ({ example_visitor_native with
                    instructions := example_visitor_native.instructions ++ new },
            some (example_visitor_native.instructions.length + new.length - 1))
      ∧ new.map (fun inst => (inst.dst0.index, inst.dst0.writemask))
        = [(1, WRITEMASK_ZW), (2, WRITEMASK_XY), (2, WRITEMASK_ZW)] := by
  obtain ⟨new, h, hdst, -, -⟩ :=
    (emit_asm_double_split example_info none TGSI_OPCODE_ADD TGSI_OPCODE_DADD
      (example_double_dst 1 0xe) undef_dst
      (st_src_reg.ofType PROGRAM_TEMPORARY 2 GLSL_TYPE_DOUBLE)
      (st_src_reg.ofType PROGRAM_TEMPORARY 3 GLSL_TYPE_DOUBLE) undef_src undef_src
      example_visitor_native ⟨rfl, rfl⟩ ⟨rfl, rfl⟩ ⟨rfl, rfl⟩ ⟨rfl, rfl⟩ ⟨rfl, rfl⟩ ⟨rfl, rfl⟩
      (by decide) (by rfl) (by decide) (by decide) (by decide))
  refine ⟨new, h, ?_⟩
  have := congrArg (List.map (fun d : st_dst_reg => (d.index, d.writemask))) hdst
  rw [List.map_map] at this
  exact this.trans (by decide)

/-- An evaluation of the double processing on the empty logical write-mask:
`emit_asm` leaves the one instruction it pushed (the double addition with its
empty write-mask) in the list and returns a null pointer. -/
theorem emit_asm_double_empty_counterexample :
    writemask_channels (example_double_dst 1 0).writemask = []
    ∧ (emit_asm example_info none TGSI_OPCODE_ADD (example_double_dst 1 0) undef_dst
          (st_src_reg.ofType PROGRAM_TEMPORARY 2 GLSL_TYPE_DOUBLE)
          (st_src_reg.ofType PROGRAM_TEMPORARY 3 GLSL_TYPE_DOUBLE) undef_src undef_src
          example_visitor_native).map
        (fun r => (r.1.instructions.map (fun inst =>
          (inst.op, inst.dst0.index, inst.dst0.writemask)), r.2))
      = some ([(TGSI_OPCODE_DADD, 1, 0)], none)
    ∧ example_visitor_native.instructions = [] := by
  refine ⟨by decide, by rfl, by rfl⟩

/-! ## The rewriting of a source operand by copy_propagate -/

/-- The lookup loop of `copy_propagate` from channel position `i`: when it answers
`good`, every position from `i` on has a recorded `MOV` that reads the source
register of the answer, and the answer is the `MOV` of the first position
looked at; when it answers `not good`, some position has no recorded `MOV` or one
that reads another register than the first. -/
theorem copy_propagate_lookup_good (st : acp_state) (src : st_src_reg) (fuel : Nat) :
    ∀ (i : Nat) (first r : Option glsl_to_tgsi_instruction),
      copy_propagate_lookup st src fuel i first = some r →
      (∀ res, r = some res →
        (∀ f, first = some f → res = f)
        ∧ (first = none → 0 < fuel →
            recorded_copy st src.index (GET_SWZ src.swizzle i) = some res)
        ∧ ∀ j, i ≤ j → j < i + fuel → ∃ m,
            recorded_copy st src.index (GET_SWZ src.swizzle j) = some m ∧ same_source res m)
      ∧ (r = none → (first = none → 0 < fuel) →
          ∃ j, i ≤ j ∧ j < i + fuel
            ∧ (recorded_copy st src.index (GET_SWZ src.swizzle j) = none
              ∨ ∃ m f, recorded_copy st src.index (GET_SWZ src.swizzle j) = some m
                  ∧ (first = some f
                    ∨ (first = none
                      ∧ recorded_copy st src.index (GET_SWZ src.swizzle i) = some f))
                  ∧ ¬ same_source f m)) := by
  induction fuel with
  | zero =>
    intro i first r h
    simp only [copy_propagate_lookup, Option.some.injEq] at h
    subst h
    refine ⟨fun res hres => ⟨fun f hf => ?_, fun _ h0 => absurd h0 (by omega),
      fun j h1 h2 => by omega⟩, fun hn h0 => absurd (h0 hn) (by omega)⟩
    rw [hf] at hres
    exact (Option.some.inj hres).symm
  | succ fuel ih =>
    intro i first r h
    unfold copy_propagate_lookup at h
    simp only at h
    cases hacp : arr_get st.acp (src.index * 4 + (GET_SWZ src.swizzle i : Int)) with
    | none => simp [hacp] at h
    | some e =>
      cases e with
      | none =>
        simp only [hacp, Option.some.injEq] at h
        subst h
        have hrec : recorded_copy st src.index (GET_SWZ src.swizzle i) = none := by
          simp [recorded_copy, hacp]
        exact ⟨fun res hres => (by cases hres),
          fun _ _ => ⟨i, le_refl _, (by omega), Or.inl hrec⟩⟩
      | some pos =>
        simp only [hacp] at h
        cases hdone : st.done[pos]? with
        | none => simp [hdone] at h
        | some copy_chan =>
          have hrec : recorded_copy st src.index (GET_SWZ src.swizzle i) = some copy_chan := by
            simp [recorded_copy, hacp, hdone]
          cases hlvl : arr_get st.acp_level (src.index * 4 + (GET_SWZ src.swizzle i : Int)) with
          | none => simp [hdone, hlvl] at h
          | some lvl =>
            simp only [hdone, hlvl] at h
            split at h
            · cases h
            · cases first with
              | none =>
                simp only at h
                obtain ⟨hg, hn⟩ := ih (i + 1) (some copy_chan) r h
                refine ⟨fun res hres => ?_, fun hr _ => ?_⟩
                · obtain ⟨hf, -, hall⟩ := hg res hres
                  have hres2 : res = copy_chan := hf copy_chan rfl
                  refine ⟨fun f hf => (by cases hf), fun _ _ => hres2 ▸ hrec, fun j h1 h2 => ?_⟩
                  by_cases hj : j = i
                  · subst hj
                    exact ⟨copy_chan, hrec, hres2 ▸ ⟨rfl, rfl, rfl, rfl⟩⟩
                  · exact hall j (by omega) (by omega)
                · obtain ⟨j, h1, h2, hj⟩ := hn hr (fun hc => (by cases hc))
                  refine ⟨j, (by omega), (by omega), ?_⟩
                  rcases hj with hj | ⟨m, f, hm, hf, hs⟩
                  · exact Or.inl hj
                  · refine Or.inr ⟨m, copy_chan, hm, Or.inr ⟨rfl, hrec⟩, ?_⟩
                    rcases hf with hf | ⟨hf, -⟩
                    · cases hf
                      exact hs
                    · cases hf
              | some f =>
                simp only at h
                split at h
                · rename_i hdiff
                  simp only [Option.some.injEq] at h
                  subst h
                  refine ⟨fun res hres => (by cases hres), fun _ _ => ?_⟩
                  refine ⟨i, le_refl _, (by omega), Or.inr ⟨copy_chan, f, hrec, Or.inl rfl, ?_⟩⟩
                  intro hs
                  obtain ⟨s1, s2, s3, s4⟩ := hs
                  rcases hdiff with hd | hd | hd | hd
                  · exact hd s1
                  · exact hd s2
                  · exact hd s3
                  · exact hd s4
                · rename_i hsame
                  simp only [ne_eq, not_or, not_not] at hsame
                  obtain ⟨hg, hn⟩ := ih (i + 1) (some f) r h
                  refine ⟨fun res hres => ?_, fun hr _ => ?_⟩
                  · obtain ⟨hf, -, hall⟩ := hg res hres
                    have hres2 : res = f := hf f rfl
                    refine ⟨fun f1 hf1 => (by cases hf1; exact hres2),
                      fun hc => (by cases hc), fun j h1 h2 => ?_⟩
                    by_cases hj : j = i
                    · subst hj
                      exact ⟨copy_chan, hrec,
                        hres2 ▸ ⟨hsame.1, hsame.2.1, hsame.2.2.1, hsame.2.2.2⟩⟩
                    · exact hall j (by omega) (by omega)
                  · obtain ⟨j, h1, h2, hj⟩ := hn hr (fun hc => (by cases hc))
                    refine ⟨j, (by omega), (by omega), ?_⟩
                    rcases hj with hj | ⟨m, f1, hm, hf, hs⟩
                    · exact Or.inl hj
                    · refine Or.inr ⟨m, f, hm, Or.inl rfl, ?_⟩
                      rcases hf with hf | ⟨hf, -⟩
                      · cases hf
                        exact hs
                      · cases hf

/-- The channel that the rewritten swizzle gets at position `i` is read through
the swizzle of the `MOV` recorded for the channel the operand reads there. -/
theorem copy_propagate_channel_recorded (st : acp_state) (src : st_src_reg) (i : Nat) :
    copy_propagate_channel st src i
      = (recorded_copy st src.index (GET_SWZ src.swizzle i)).map
          (fun m => GET_SWZ m.src0.swizzle (GET_SWZ src.swizzle i)) := by
  unfold copy_propagate_channel recorded_copy
  simp only
  cases arr_get st.acp (src.index * 4 + (GET_SWZ src.swizzle i : Int)) with
  | none => rfl
  | some e =>
    cases e with
    | none => rfl
    | some pos => cases hd : st.done[pos]? <;> simp [hd]

/-- The rewritten operand when the lookup answers `good` with `first`. -/
theorem copy_propagate_src_good (st : acp_state) (src s1 : st_src_reg)
    (first : glsl_to_tgsi_instruction) (m : Nat → glsl_to_tgsi_instruction)
    (hfile : src.file = PROGRAM_TEMPORARY) (hrel : src.reladdr.isSet = false)
    (hrel2 : src.reladdr2.isSet = false)
    (hlook : copy_propagate_lookup st src 4 0 none = some (some first))
    (hm : ∀ i, i < 4 → recorded_copy st src.index (GET_SWZ src.swizzle i) = some (m i))
    (h : copy_propagate_src st src = some s1) :
    first = m 0
    ∧ (∀ i, i < 4 → GET_SWZ s1.swizzle i = GET_SWZ (m i).src0.swizzle (GET_SWZ src.swizzle i))
    ∧ s1.file = (m 0).src0.file ∧ s1.index = (m 0).src0.index
    ∧ s1.index2D = (m 0).src0.index2D ∧ s1.has_index2 = (m 0).src0.has_index2
    ∧ s1.double_reg2 = (m 0).src0.double_reg2 ∧ s1.array_id = (m 0).src0.array_id
    ∧ s1.negate = src.negate ∧ s1.type = src.type ∧ s1.reladdr = src.reladdr
    ∧ s1.reladdr2 = src.reladdr2 := by
  have hfirst : first = m 0 := by
    have h0 := ((copy_propagate_lookup_good st src 4 0 none _ hlook).1 first rfl).2.1 rfl
      (by omega)
    rw [hm 0 (by omega)] at h0
    exact (Option.some.inj h0).symm
  unfold copy_propagate_src at h
  simp only [hfile, hrel, hrel2, ne_eq, not_true_eq_false, Bool.false_eq_true, or_self,
    if_false, hlook, copy_propagate_channel_recorded, hm 0 (by omega), hm 1 (by omega),
    hm 2 (by omega), hm 3 (by omega), Option.map_some', Option.some.injEq] at h
  subst h
  subst hfirst
  obtain ⟨g0, g1, g2, g3⟩ := GET_SWZ_assembled
    (GET_SWZ (m 0).src0.swizzle (GET_SWZ src.swizzle 0))
    (GET_SWZ (m 1).src0.swizzle (GET_SWZ src.swizzle 1))
    (GET_SWZ (m 2).src0.swizzle (GET_SWZ src.swizzle 2))
    (GET_SWZ (m 3).src0.swizzle (GET_SWZ src.swizzle 3))
    (GET_SWZ_lt _ _) (GET_SWZ_lt _ _) (GET_SWZ_lt _ _) (GET_SWZ_lt _ _)
  refine ⟨rfl, ?_, rfl, rfl, rfl, rfl, rfl, rfl, rfl, rfl, rfl, rfl⟩
  intro i hi
  match i, hi with
  | 0, _ => exact g0
  | 1, _ => exact g1
  | 2, _ => exact g2
  | 3, _ => exact g3

/-- C26: the rewriting of one source operand by `copy_propagate` (the body of the
loop over the sources).  If the operand is replaced, it is a temporary without
relative addressing, each of the four channels its swizzle `s` selects has a
recorded `MOV`, all of them read the same source register as the one recorded
for `s[0]`, the new file and index (and `index2D`, `has_index2`, `double_reg2`,
`array_id`) are those of that `MOV`'s source, and the new swizzle `t` has
`t[i] = (source swizzle of the MOV recorded for channel s[i])[s[i]]`; negate,
type and relative addresses are kept.  Conversely, whenever the four channels
of such an operand have recorded `MOV`s that read the same source register, the
operand gets this file, index and swizzle. -/
theorem copy_propagate_src_replaces (st : acp_state) (src s1 : st_src_reg)
    (h : copy_propagate_src st src = some s1) :
    (s1 ≠ src →
      src.file = PROGRAM_TEMPORARY ∧ src.reladdr.isSet = false ∧ src.reladdr2.isSet = false
      ∧ ∃ m : Nat → glsl_to_tgsi_instruction,
          (∀ i, i < 4 →
            recorded_copy st src.index (GET_SWZ src.swizzle i) = some (m i)
            ∧ same_source (m 0) (m i)
            ∧ GET_SWZ s1.swizzle i = GET_SWZ (m i).src0.swizzle (GET_SWZ src.swizzle i))
          ∧ s1.file = (m 0).src0.file ∧ s1.index = (m 0).src0.index
          ∧ s1.index2D = (m 0).src0.index2D ∧ s1.has_index2 = (m 0).src0.has_index2
          ∧ s1.double_reg2 = (m 0).src0.double_reg2 ∧ s1.array_id = (m 0).src0.array_id
          ∧ s1.negate = src.negate ∧ s1.type = src.type ∧ s1.reladdr = src.reladdr
          ∧ s1.reladdr2 = src.reladdr2)
    ∧ (src.file = PROGRAM_TEMPORARY → src.reladdr.isSet = false →
        src.reladdr2.isSet = false →
        ∀ m : Nat → glsl_to_tgsi_instruction,
          (∀ i, i < 4 →
            recorded_copy st src.index (GET_SWZ src.swizzle i) = some (m i)
            ∧ same_source (m 0) (m i)) →
          s1.file = (m 0).src0.file ∧ s1.index = (m 0).src0.index
          ∧ ∀ i, i < 4 →
              GET_SWZ s1.swizzle i = GET_SWZ (m i).src0.swizzle (GET_SWZ src.swizzle i)) := by
  refine ⟨fun hne => ?_, fun hfile hrel hrel2 m hm => ?_⟩
  · by_cases hc : src.file ≠ PROGRAM_TEMPORARY ∨ src.reladdr.isSet = true
        ∨ src.reladdr2.isSet = true
    · unfold copy_propagate_src at h
      rw [if_pos hc] at h
      exact absurd (Option.some.inj h).symm hne
    · simp only [ne_eq, not_or, not_not, Bool.not_eq_true] at hc
      obtain ⟨hfile, hrel, hrel2⟩ := hc
      refine ⟨hfile, hrel, hrel2, ?_⟩
      cases hlook : copy_propagate_lookup st src 4 0 none with
      | none =>
        unfold copy_propagate_src at h
        simp [hfile, hrel, hrel2, hlook] at h
      | some r =>
        cases r with
        | none =>
          unfold copy_propagate_src at h
          simp only [hfile, hrel, hrel2, ne_eq, not_true_eq_false, Bool.false_eq_true,
            or_self, if_false, hlook, Option.some.injEq] at h
          exact absurd h.symm hne
        | some first =>
          obtain ⟨-, -, hall⟩ := (copy_propagate_lookup_good st src 4 0 none _ hlook).1 first rfl
          have hrec : ∀ i, i < 4 →
              recorded_copy st src.index (GET_SWZ src.swizzle i)
                = some ((recorded_copy st src.index (GET_SWZ src.swizzle i)).getD first) := by
            intro i hi
            obtain ⟨mi, hmi, -⟩ := hall i (by omega) (by omega)
            rw [hmi]
            rfl
          obtain ⟨hf, hswz, rest⟩ := copy_propagate_src_good st src s1 first
            (fun i => (recorded_copy st src.index (GET_SWZ src.swizzle i)).getD first)
            hfile hrel hrel2 hlook hrec h
          refine ⟨fun i => (recorded_copy st src.index (GET_SWZ src.swizzle i)).getD first,
            fun i hi => ⟨hrec i hi, ?_, hswz i hi⟩, rest⟩
          obtain ⟨mi, hmi, hs⟩ := hall i (by omega) (by omega)
          simp only [← hf, hmi, Option.getD_some]
          exact hs
  · cases hlook : copy_propagate_lookup st src 4 0 none with
    | none =>
      unfold copy_propagate_src at h
      simp [hfile, hrel, hrel2, hlook] at h
    | some r =>
      cases r with
      | none =>
        exfalso
        obtain ⟨j, -, hj, hbad⟩ := (copy_propagate_lookup_good st src 4 0 none _ hlook).2 rfl
          (fun _ => by omega)
        rcases hbad with hbad | ⟨m1, f, hm1, hf, hs⟩
        · rw [(hm j (by omega)).1] at hbad
          cases hbad
        · rw [(hm j (by omega)).1] at hm1
          cases hm1
          rcases hf with hf | ⟨-, hf⟩
          · cases hf
          · rw [(hm 0 (by omega)).1] at hf
            cases hf
            exact hs (hm j (by omega)).2
      | some first =>
        obtain ⟨-, hswz, h1, h2, -⟩ := copy_propagate_src_good st src s1 first m hfile hrel
          hrel2 hlook (fun i hi => (hm i hi).1) h
        exact ⟨h1, h2, hswz⟩

/-- Witness for C26: with `TEMP[0].xy` copied from `IN[3].wzyx` and `TEMP[0].zw` from
`IN[3].xxxx`, the operand `TEMP[0].yzwx` becomes `IN[3].zxxw`. -/
theorem copy_propagate_src_replaces_witness :
    copy_propagate_src example_acp_state
        ((example_temp 0).set_swizzle (MAKE_SWIZZLE4 SWIZZLE_Y SWIZZLE_Z SWIZZLE_W SWIZZLE_X))
      = some ((example_input 3).set_swizzle
          (MAKE_SWIZZLE4 SWIZZLE_Z SWIZZLE_X SWIZZLE_X SWIZZLE_W))
    ∧ ∃ m : Nat → glsl_to_tgsi_instruction,
        (∀ i, i < 4 →
          recorded_copy example_acp_state 0 (GET_SWZ
              (MAKE_SWIZZLE4 SWIZZLE_Y SWIZZLE_Z SWIZZLE_W SWIZZLE_X) i) = some (m i)
          ∧ same_source (m 0) (m i))
        ∧ (m 0).src0.file = PROGRAM_INPUT ∧ (m 0).src0.index = 3 := by
  have h : copy_propagate_src example_acp_state
        ((example_temp 0).set_swizzle (MAKE_SWIZZLE4 SWIZZLE_Y SWIZZLE_Z SWIZZLE_W SWIZZLE_X))
      = some ((example_input 3).set_swizzle
          (MAKE_SWIZZLE4 SWIZZLE_Z SWIZZLE_X SWIZZLE_X SWIZZLE_W)) := by rfl
  obtain ⟨-, -, -, m, hm, hfile, hindex, -⟩ :=
    (copy_propagate_src_replaces example_acp_state _ _ h).1 (by decide)
  exact ⟨h, m, fun i hi => ⟨(hm i hi).1, (hm i hi).2.1⟩, hfile.symm, hindex.symm⟩

/-! ## copy_propagate across block boundaries -/

/-- The loop of `copy_propagate` over a list that ends with `inst`. -/
theorem copy_propagate_from_append (next_temp : Int) (rest : List glsl_to_tgsi_instruction) :
    ∀ (l : List glsl_to_tgsi_instruction) (st : acp_state),
      copy_propagate_from next_temp (l ++ rest) st
        = (copy_propagate_from next_temp l st).bind (copy_propagate_from next_temp rest)
  | [], st => rfl
  | inst :: l, st => by
      simp only [List.cons_append, copy_propagate_from]
      cases copy_propagate_step next_temp st inst with
      | none => rfl
      | some st1 => exact copy_propagate_from_append next_temp rest l st1

/-- The state in front of position `k + 1` is the state in front of position `k`
after the step for the instruction at position `k`. -/
theorem copy_propagate_state_succ (next_temp : Int) (l : List glsl_to_tgsi_instruction)
    (k : Nat) (inst : glsl_to_tgsi_instruction) (h : l[k]? = some inst) :
    copy_propagate_state next_temp l (k + 1)
      = (copy_propagate_state next_temp l k).bind
          (fun st => copy_propagate_step next_temp st inst) := by
  unfold copy_propagate_state
  rw [List.take_succ, h, copy_propagate_from_append]
  congr 1
  funext st
  simp only [Option.toList, copy_propagate_from]
  cases copy_propagate_step next_temp st inst <;> rfl

/-- The state in front of a position beyond the end of the list is the final one. -/
theorem copy_propagate_state_end (next_temp : Int) (l : List glsl_to_tgsi_instruction)
    (k : Nat) (h : l[k]? = none) :
    copy_propagate_state next_temp l (k + 1) = copy_propagate_state next_temp l k := by
  unfold copy_propagate_state
  rw [List.take_succ, h]
  simp

/-- The nesting level behind one more instruction. -/
theorem block_level_succ (l : List glsl_to_tgsi_instruction) (k : Nat)
    (inst : glsl_to_tgsi_instruction) (h : l[k]? = some inst) :
    block_level l (k + 1) = block_level l k + block_level_step inst.op := by
  unfold block_level
  rw [List.take_succ, h, List.foldl_append]
  rfl

/-- The entries that survive an `ELSE` or `ENDIF` were recorded at a lower level. -/
theorem acp_zipWith_entry (acp : List (Option Nat)) (acp_level : List Int) (level : Int)
    (j pos : Nat)
    (h : (List.zipWith (fun e lvl =>
            match e with
            | none => none
            | some p => if lvl ≥ level then none else some p) acp acp_level)[j]?
          = some (some pos)) :
    acp[j]? = some (some pos) ∧ ∃ lvl, acp_level[j]? = some lvl ∧ lvl < level := by
  rw [List.getElem?_zipWith] at h
  cases ha : acp[j]? with
  | none => simp [ha] at h
  | some e =>
    cases hl : acp_level[j]? with
    | none => simp [ha, hl] at h
    | some lvl =>
      simp only [ha, hl] at h
      cases e with
      | none => simp at h
      | some p =>
        simp only [Option.some.injEq] at h
        split at h
        · cases h
        · rename_i hlt
          cases h
          exact ⟨rfl, lvl, rfl, by omega⟩

/-- The `default` case of the switch of `copy_propagate` only removes entries: the
table keeps its length and every entry behind it was there before. -/
theorem copy_propagate_clear_entries (done : List glsl_to_tgsi_instruction) (dst : st_dst_reg)
    (acp acp1 : List (Option Nat)) (h : copy_propagate_clear done dst acp = some acp1) :
    acp1.length = acp.length
    ∧ ∀ (j pos : Nat), acp1[j]? = some (some pos) → acp[j]? = some (some pos) := by
  unfold copy_propagate_clear at h
  split at h
  · cases h
    refine ⟨by simp, fun j pos hj => ?_⟩
    rw [List.getElem?_map] at hj
    cases hx : acp[j]? <;> simp [hx] at hj
  · split at h
    · cases h
      refine ⟨by simp, fun j pos hj => ?_⟩
      rw [List.getElem?_map] at hj
      cases hx : acp[j]? with
      | none => simp [hx] at hj
      | some e =>
        simp only [hx, Option.map_some', Option.some.injEq] at hj
        cases e with
        | none => simp at hj
        | some p =>
          simp only at hj
          split at hj
          · split at hj
            · cases hj
            · exact congrArg some hj
          · exact congrArg some hj
    · split at h
      · have key : ∀ acp2 : List (Option Nat),
            (acp2.length = acp.length
              ∧ ∀ (j pos : Nat), acp2[j]? = some (some pos) → acp[j]? = some (some pos)) →
            (map_idx_from (fun k e =>
              match e with
              | none => none
              | some pos =>
                match done[pos]? with
                | some mov =>
                  let src_chan := GET_SWZ mov.src0.swizzle (k % 4)
                  if mov.src0.file = dst.file ∧ mov.src0.index = dst.index
                      ∧ dst.writemask &&& (1 <<< src_chan) ≠ 0 then none
                  else some pos
                | none => some pos) acp2 0).length = acp.length
            ∧ ∀ (j pos : Nat), (map_idx_from (fun k e =>
              match e with
              | none => none
              | some pos =>
                match done[pos]? with
                | some mov =>
                  let src_chan := GET_SWZ mov.src0.swizzle (k % 4)
                  if mov.src0.file = dst.file ∧ mov.src0.index = dst.index
                      ∧ dst.writemask &&& (1 <<< src_chan) ≠ 0 then none
                  else some pos
                | none => some pos) acp2 0)[j]? = some (some pos) →
              acp[j]? = some (some pos) := by
          intro acp2 ⟨hlen, hent⟩
          refine ⟨by rw [map_idx_from_length, hlen], fun j pos hj => ?_⟩
          rw [map_idx_from_getElem?] at hj
          cases hx : acp2[j]? with
          | none => simp [hx] at hj
          | some e =>
            simp only [hx, Option.map_some', Option.some.injEq] at hj
            cases e with
            | none => simp at hj
            | some p =>
              simp only at hj
              apply hent
              rw [hx]
              split at hj
              · split at hj
                · cases hj
                · exact congrArg some hj
              · exact congrArg some hj
        by_cases ht : dst.file = PROGRAM_TEMPORARY
        · rw [if_pos ht] at h
          cases hloop : loop_range 4 (fun c acp =>
              if dst.writemask &&& (1 <<< c) ≠ 0 then arr_set acp (4 * dst.index + c) none
              else some acp) acp with
          | none =>
            rw [hloop] at h
            cases h
          | some acp2 =>
            rw [hloop] at h
            have h := Option.some.inj h
            have hlen : acp2.length = acp.length := by
              refine loop_range_some (fun _ (a : List (Option Nat)) => a.length = acp.length)
                4 _ ?_ acp acp2 rfl hloop
              intro j _ s s1 hs hstep
              simp only at hstep
              split at hstep
              · unfold arr_set at hstep
                split at hstep
                · cases hstep
                  simpa using hs
                · cases hstep
              · cases hstep
                exact hs
            have hent := copy_propagate_clear_dst dst acp acp2 hloop
            subst h
            exact key acp2 ⟨hlen, fun j pos hj => (hent j pos hj).1⟩
        · rw [if_neg ht] at h
          have h := Option.some.inj h
          subst h
          exact key acp ⟨rfl, fun j pos hj => hj⟩
      · cases h
        exact ⟨rfl, fun j pos hj => hj⟩

/-- The recording of a copy in the tables: the entries behind it are the old
ones, with their levels, or the new instruction at the current level. -/
theorem copy_propagate_add_entries (dst : st_dst_reg) (pos : Nat) (st st2 : acp_state)
    (h : loop_range 4 (fun i st1 =>
          if dst.writemask &&& (1 <<< i) ≠ 0 then
            match arr_set st1.acp (4 * dst.index + i) (some pos),
                arr_set st1.acp_level (4 * dst.index + i) st1.level with
            | some acp1, some lvl1 => some { st1 with acp := acp1, acp_level := lvl1 }
            | _, _ => none
          else some st1) st = some st2) :
    st2.level = st.level ∧ st2.done = st.done ∧ st2.acp.length = st.acp.length
    ∧ st2.acp_level.length = st.acp_level.length
    ∧ ∀ (j p : Nat), st2.acp[j]? = some (some p) →
        (st.acp[j]? = some (some p) ∧ st2.acp_level[j]? = st.acp_level[j]?)
        ∨ (p = pos ∧ st2.acp_level[j]? = some st.level) := by
  refine loop_range_some
    (fun _ (s : acp_state) => s.level = st.level ∧ s.done = st.done
      ∧ s.acp.length = st.acp.length ∧ s.acp_level.length = st.acp_level.length
      ∧ ∀ (j p : Nat), s.acp[j]? = some (some p) →
          (st.acp[j]? = some (some p) ∧ s.acp_level[j]? = st.acp_level[j]?)
          ∨ (p = pos ∧ s.acp_level[j]? = some st.level))
    4 _ ?_ st st2 ⟨rfl, rfl, rfl, rfl, fun j p hj => Or.inl ⟨hj, rfl⟩⟩ h
  intro i _ s s1 ⟨hlv, hdn, hl1, hl2, hent⟩ hstep
  split at hstep
  · cases ha : arr_set s.acp (4 * dst.index + (i : Int)) (some pos) with
    | none => simp [ha] at hstep
    | some acp1 =>
      cases hl : arr_set s.acp_level (4 * dst.index + (i : Int)) s.level with
      | none => simp [ha, hl] at hstep
      | some lvl1 =>
        simp only [ha, hl, Option.some.injEq] at hstep
        subst hstep
        unfold arr_set at ha hl
        split at ha
        · rename_i hb1
          split at hl
          · rename_i hb2
            cases ha
            cases hl
            refine ⟨hlv, hdn, by simpa using hl1, by simpa using hl2, fun j p hj => ?_⟩
            simp only at hj ⊢
            by_cases hx : (4 * dst.index + (i : Int)).toNat = j
            · subst hx
              rw [List.getElem?_set_self hb1.2] at hj
              rw [List.getElem?_set_self hb2.2]
              cases hj
              exact Or.inr ⟨rfl, by rw [hlv]⟩
            · rw [List.getElem?_set_ne hx] at hj
              rw [List.getElem?_set_ne hx]
              exact hent j p hj
          · cases hl
        · cases ha
  · cases hstep
    exact ⟨hlv, hdn, hl1, hl2, hent⟩

/-- One step of `copy_propagate` on the tables: the list of processed
instructions grows by one, the level follows the conditionals, and an entry
behind the step either was there before, with its level (never across a
`BGNLOOP` or `ENDLOOP`, and across an `ELSE` or `ENDIF` only when it was recorded
below the current level), or is the instruction of the step, a `MOV`, recorded
at the current level. -/
theorem copy_propagate_step_entries (next_temp : Int) (st st1 : acp_state)
    (inst : glsl_to_tgsi_instruction) (hlen : st.acp.length = st.acp_level.length)
    (h : copy_propagate_step next_temp st inst = some st1) :
    st1.done.length = st.done.length + 1
    ∧ st1.level = st.level + block_level_step inst.op
    ∧ st1.acp.length = st1.acp_level.length
    ∧ ∀ (j p : Nat), st1.acp[j]? = some (some p) →
        (st.acp[j]? = some (some p) ∧ st1.acp_level[j]? = st.acp_level[j]?
          ∧ inst.op ≠ TGSI_OPCODE_BGNLOOP ∧ inst.op ≠ TGSI_OPCODE_ENDLOOP
          ∧ (inst.op = TGSI_OPCODE_ELSE ∨ inst.op = TGSI_OPCODE_ENDIF →
              ∃ lvl, st.acp_level[j]? = some lvl ∧ lvl < st.level))
        ∨ (p = st.done.length ∧ st1.acp_level[j]? = some st1.level
          ∧ inst.op = TGSI_OPCODE_MOV) := by
  unfold copy_propagate_step at h
  split at h
  · cases h
  · split at h
    · cases h
    · split at h
      · cases h
      · split at h
        · cases h
        · rename_i s0 _ s1 _ s2 _
          simp only at h
          -- the state behind the switch
          have hsw : ∀ sw : acp_state,
              (if inst.op = TGSI_OPCODE_BGNLOOP ∨ inst.op = TGSI_OPCODE_ENDLOOP then
                some { st with acp := st.acp.map (fun _ => none) }
              else if inst.op = TGSI_OPCODE_IF ∨ inst.op = TGSI_OPCODE_UIF then
                some { st with level := st.level + 1 }
              else if inst.op = TGSI_OPCODE_ENDIF ∨ inst.op = TGSI_OPCODE_ELSE then
                some { st with
                  acp := List.zipWith (fun e lvl =>
                    match e with
                    | none => none
                    | some p => if lvl ≥ st.level then none else some p) st.acp st.acp_level,
                  level := if inst.op = TGSI_OPCODE_ENDIF then st.level - 1 else st.level }
              else
                match copy_propagate_clear st.done inst.dst0 st.acp with
                | none => none
                | some acp1 =>
                  match copy_propagate_clear st.done inst.dst1 acp1 with
                  | none => none
                  | some acp2 => some { st with acp := acp2 }) = some sw →
              sw.done = st.done ∧ sw.acp_level = st.acp_level
              ∧ sw.level = st.level + block_level_step inst.op
              ∧ sw.acp.length = st.acp.length
              ∧ ∀ (j p : Nat), sw.acp[j]? = some (some p) →
                  st.acp[j]? = some (some p)
                  ∧ inst.op ≠ TGSI_OPCODE_BGNLOOP ∧ inst.op ≠ TGSI_OPCODE_ENDLOOP
                  ∧ (inst.op = TGSI_OPCODE_ELSE ∨ inst.op = TGSI_OPCODE_ENDIF →
                      ∃ lvl, st.acp_level[j]? = some lvl ∧ lvl < st.level) := by
            intro sw hs
            split at hs
            · cases hs
              refine ⟨rfl, rfl, ?_, by simp, fun j p hj => ?_⟩
              · rename_i hop
                rcases hop with hop | hop <;> simp [block_level_step, hop]
              · simp only [List.getElem?_map] at hj
                cases hx : st.acp[j]? <;> simp [hx] at hj
            · rename_i hloop
              simp only [not_or] at hloop
              split at hs
              · cases hs
                rename_i hop
                refine ⟨rfl, rfl, ?_, rfl, fun j p hj => ⟨hj, hloop.1, hloop.2, fun h2 => ?_⟩⟩
                · rcases hop with hop | hop <;> simp [block_level_step, hop]
                · rcases hop with hop | hop <;> rcases h2 with h2 | h2 <;>
                    rw [hop] at h2 <;> cases h2
              · rename_i hif
                simp only [not_or] at hif
                split at hs
                · cases hs
                  rename_i hop
                  refine ⟨rfl, rfl, ?_, ?_, fun j p hj => ?_⟩
                  · rcases hop with hop | hop
                    · simp [block_level_step, hop]
                      omega
                    · simp [block_level_step, hop]
                  · simp [hlen]
                  · obtain ⟨h1, h2⟩ := acp_zipWith_entry _ _ _ _ _ hj
                    exact ⟨h1, hloop.1, hloop.2, fun _ => h2⟩
                · rename_i helse
                  simp only [not_or] at helse
                  have hstep0 : block_level_step inst.op = 0 := by
                    simp [block_level_step, hif.1, hif.2, helse.1]
                  cases hc1 : copy_propagate_clear st.done inst.dst0 st.acp with
                  | none => simp [hc1] at hs
                  | some acp1 =>
                    cases hc2 : copy_propagate_clear st.done inst.dst1 acp1 with
                    | none => simp [hc1, hc2] at hs
                    | some acp2 =>
                      simp only [hc1, hc2, Option.some.injEq] at hs
                      subst hs
                      obtain ⟨hl1, he1⟩ := copy_propagate_clear_entries _ _ _ _ hc1
                      obtain ⟨hl2, he2⟩ := copy_propagate_clear_entries _ _ _ _ hc2
                      refine ⟨rfl, rfl, by simp [hstep0], by simp [hl1, hl2],
                        fun j p hj => ⟨he1 j p (he2 j p hj), hloop.1, hloop.2, fun h2 => ?_⟩⟩
                      rcases h2 with h2 | h2
                      · exact absurd h2 helse.2
                      · exact absurd h2 helse.1
          split at h
          · cases h
          · rename_i sw hswitched
            obtain ⟨hd, hlv, hlevel, hlength, hent⟩ := hsw sw hswitched
            split at h
            · rename_i hcopy
              rw [Option.map_eq_some'] at h
              obtain ⟨st2, hadd, hst1⟩ := h
              subst hst1
              obtain ⟨a1, a2, a3, a4, a5⟩ := copy_propagate_add_entries inst.dst0 st.done.length
                sw st2 hadd
              have hmov : inst.op = TGSI_OPCODE_MOV := by
                unfold copy_propagate_is_copy at hcopy
                simp only [decide_eq_true_eq] at hcopy
                exact hcopy.1
              refine ⟨by simp [a2, hd], by simp [a1, hlevel],
                by simp [a3, a4, hlength, hlv, hlen], fun j p hj => ?_⟩
              rcases a5 j p hj with ⟨b1, b2⟩ | ⟨b1, b2⟩
              · obtain ⟨h1, h2, h3, h4⟩ := hent j p b1
                exact Or.inl ⟨h1, by simp [b2, hlv], h2, h3, h4⟩
              · exact Or.inr ⟨b1, by simp [b2, a1], hmov⟩
            · simp only [Option.map_some', Option.some.injEq] at h
              subst h
              refine ⟨by simp [hd], hlevel, by simp [hlength, hlv, hlen], fun j p hj => ?_⟩
              obtain ⟨h1, h2, h3, h4⟩ := hent j p hj
              exact Or.inl ⟨h1, by simp [hlv], h2, h3, h4⟩

/-- The tables of `copy_propagate` in front of position `k`: `k` instructions are
processed, the level is the nesting level of the conditionals, and every entry
is a `MOV` at an earlier position, recorded with the nesting level in front of
it. -/
theorem copy_propagate_state_inv (next_temp : Int) (l : List glsl_to_tgsi_instruction) :
    ∀ (k : Nat), k ≤ l.length → ∀ st, copy_propagate_state next_temp l k = some st →
      st.done.length = k ∧ st.level = block_level l k
      ∧ st.acp.length = st.acp_level.length
      ∧ ∀ (j p : Nat), st.acp[j]? = some (some p) →
          p < k ∧ st.acp_level[j]? = some (block_level l p)
          ∧ ∃ inst, l[p]? = some inst ∧ inst.op = TGSI_OPCODE_MOV := by
  intro k
  induction k with
  | zero =>
    intro _ st h
    simp only [copy_propagate_state, List.take_zero, copy_propagate_from,
      Option.some.injEq] at h
    subst h
    refine ⟨rfl, rfl, by simp, fun j p hj => ?_⟩
    simp only [List.getElem?_replicate] at hj
    split at hj <;> cases hj
  | succ k ih =>
    intro hk st h
    have hlt : k < l.length := by omega
    have hget : l[k]? = some l[k] := List.getElem?_eq_getElem hlt
    rw [copy_propagate_state_succ next_temp l k _ hget] at h
    cases hprev : copy_propagate_state next_temp l k with
    | none => simp [hprev] at h
    | some st0 =>
      simp only [hprev, Option.some_bind] at h
      obtain ⟨i1, i2, i3, i4⟩ := ih (by omega) st0 hprev
      obtain ⟨s1, s2, s3, s4⟩ := copy_propagate_step_entries next_temp st0 st _ i3 h
      refine ⟨by omega, by rw [s2, i2, block_level_succ l k _ hget], s3, fun j p hj => ?_⟩
      rcases s4 j p hj with ⟨a1, a2, -⟩ | ⟨b1, b2, b3⟩
      · obtain ⟨c1, c2, c3⟩ := i4 j p a1
        exact ⟨by omega, by rw [a2, c2], c3⟩
      · subst b1
        refine ⟨by omega, ?_, l[k], by rw [i1]; exact hget, b3⟩
        rw [b2, s2, i2, i1, b3]
        simp [block_level_step]

/-- An entry that does not survive the step at position `b` is in no table behind
that position. -/
theorem copy_propagate_entry_absent (next_temp : Int) (l : List glsl_to_tgsi_instruction)
    (p b : Nat) (hpb : p < b) (hb : b < l.length)
    (hkill : ∀ st st1, copy_propagate_state next_temp l b = some st →
      copy_propagate_step next_temp st l[b] = some st1 →
      ∀ j : Nat, st1.acp[j]? ≠ some (some p)) :
    ∀ q, b < q → ∀ st, copy_propagate_state next_temp l q = some st →
      ∀ j : Nat, st.acp[j]? ≠ some (some p) := by
  intro q
  induction q with
  | zero => intro h; omega
  | succ q ih =>
    intro hq st h j
    by_cases hlt : q < l.length
    · have hget : l[q]? = some l[q] := List.getElem?_eq_getElem hlt
      rw [copy_propagate_state_succ next_temp l q _ hget] at h
      cases hprev : copy_propagate_state next_temp l q with
      | none => simp [hprev] at h
      | some st0 =>
        simp only [hprev, Option.some_bind] at h
        by_cases hqb : q = b
        · subst hqb
          exact hkill st0 st hprev h j
        · obtain ⟨i1, -, i3, -⟩ := copy_propagate_state_inv next_temp l q (by omega) st0 hprev
          obtain ⟨-, -, -, s4⟩ := copy_propagate_step_entries next_temp st0 st _ i3 h
          intro hj
          rcases s4 j p hj with ⟨a1, -⟩ | ⟨b1, -⟩
          · exact ih (by omega) st0 hprev j a1
          · omega
    · have hnone : l[q]? = none := List.getElem?_eq_none (by omega)
      rw [copy_propagate_state_end next_temp l q hnone] at h
      exact ih (by omega) st h j

/-- C27: `copy_propagate` across block boundaries.  Let `st` be the state with which
the source operands of the instruction at position `q` are rewritten, and let
`p < c < q`.  If the instruction at `p` is inside an arm of a conditional that the
`ELSE` or `ENDIF` at position `c` closes (the arm opens at some `a < p`), or if
position `c` holds a `BGNLOOP` or `ENDLOOP`, then no table entry is the instruction
at `p`: the rewriting of no operand looks at it. -/
theorem copy_propagate_block_boundaries (next_temp : Int)
    (l : List glsl_to_tgsi_instruction) (p c q : Nat) (st : acp_state)
    (hst : copy_propagate_state next_temp l q = some st) (hpc : p < c) (hcq : c < q) :
    ((∃ a, a < p ∧ is_arm l a c) →
      (∀ j : Nat, st.acp[j]? ≠ some (some p)) ∧ ∀ src, ¬ copy_propagate_consults st src p)
    ∧ ((∃ inst, l[c]? = some inst
          ∧ (inst.op = TGSI_OPCODE_BGNLOOP ∨ inst.op = TGSI_OPCODE_ENDLOOP)) →
      (∀ j : Nat, st.acp[j]? ≠ some (some p)) ∧ ∀ src, ¬ copy_propagate_consults st src p) := by
  have hcons : (∀ j : Nat, st.acp[j]? ≠ some (some p)) →
      (∀ j : Nat, st.acp[j]? ≠ some (some p)) ∧ ∀ src, ¬ copy_propagate_consults st src p := by
    intro h
    refine ⟨h, fun src hc => ?_⟩
    obtain ⟨i, -, hi⟩ := hc
    unfold arr_get at hi
    split at hi
    · exact h _ hi
    · cases hi
  refine ⟨fun harm => hcons ?_, fun hloop => hcons ?_⟩
  · obtain ⟨a, hap, -, -, ⟨closing, hclosing, hop⟩, hlevel, hbetween⟩ := harm
    have hc : c < l.length := by
      by_contra hn
      rw [List.getElem?_eq_none (by omega)] at hclosing
      cases hclosing
    have hget : l[c]? = some l[c] := List.getElem?_eq_getElem hc
    rw [hget] at hclosing
    cases hclosing
    refine copy_propagate_entry_absent next_temp l p c hpc hc ?_ q hcq st hst
    intro st0 st1 h0 h1 j hj
    obtain ⟨i1, i2, i3, i4⟩ := copy_propagate_state_inv next_temp l c (by omega) st0 h0
    obtain ⟨-, -, -, s4⟩ := copy_propagate_step_entries next_temp st0 st1 _ i3 h1
    rcases s4 j p hj with ⟨a1, -, -, -, a5⟩ | ⟨b1, -⟩
    · obtain ⟨lvl, hl, hlt⟩ := a5 hop
      obtain ⟨-, c2, -⟩ := i4 j p a1
      rw [c2] at hl
      cases hl
      have := hbetween p hap hpc
      omega
    · omega
  · obtain ⟨inst, hinst, hop⟩ := hloop
    have hc : c < l.length := by
      by_contra hn
      rw [List.getElem?_eq_none (by omega)] at hinst
      cases hinst
    have hget : l[c]? = some l[c] := List.getElem?_eq_getElem hc
    rw [hget] at hinst
    cases hinst
    refine copy_propagate_entry_absent next_temp l p c hpc hc ?_ q hcq st hst
    intro st0 st1 h0 h1 j hj
    obtain ⟨i1, -, i3, -⟩ := copy_propagate_state_inv next_temp l c (by omega) st0 h0
    obtain ⟨-, -, -, s4⟩ := copy_propagate_step_entries next_temp st0 st1 _ i3 h1
    rcases s4 j p hj with ⟨-, -, a3, a4, -⟩ | ⟨b1, -⟩
    · rcases hop with hop | hop
      · exact a3 hop
      · exact a4 hop
    · omega

/-- Witness for C27: in `example_arms` the copy of `TEMP[0]` in the then-arm
(position 1) is in no table entry when the operands of the instruction behind
the `ELSE` (position 3) are rewritten, nor behind the `BGNLOOP` (position 6), and
the pass leaves the list as it is. -/
theorem copy_propagate_block_boundaries_witness :
    (∃ st, copy_propagate_state 1 example_arms 3 = some st
      ∧ ∀ src, ¬ copy_propagate_consults st src 1)
    ∧ (∃ st, copy_propagate_state 1 example_arms 6 = some st
      ∧ ∀ src, ¬ copy_propagate_consults st src 1)
    ∧ copy_propagate_list 1 example_arms = some example_arms := by
  have h3 : (copy_propagate_state 1 example_arms 3).isSome = true := by rfl
  have h6 : (copy_propagate_state 1 example_arms 6).isSome = true := by rfl
  obtain ⟨st3, hst3⟩ := Option.isSome_iff_exists.mp h3
  obtain ⟨st6, hst6⟩ := Option.isSome_iff_exists.mp h6
  refine ⟨⟨st3, hst3, ?_⟩, ⟨st6, hst6, ?_⟩, by rfl⟩
  · refine ((copy_propagate_block_boundaries 1 example_arms 1 2 3 st3 hst3 (by decide)
      (by decide)).1 ⟨0, by decide, by decide, ⟨_, rfl, Or.inl rfl⟩,
        ⟨_, rfl, Or.inl rfl⟩, by rfl, ?_⟩).2
    intro k h1 h2
    have hk : k = 1 := by omega
    subst hk
    decide
  · exact ((copy_propagate_block_boundaries 1 example_arms 1 5 6 st6 hst6 (by decide)
      (by decide)).2 ⟨_, rfl, Or.inl rfl⟩).2

/-! ## The condition of a conditional assignment: value -/

/-- A `CMP` on registers without relative addressing and without doubles is
emitted as one instruction. -/
theorem emit_asm1_cmp (info : tgsi_opcode → tgsi_opcode_info) (ir : Option Nat)
    (dst : st_dst_reg) (src0 src1 src2 : st_src_reg) (v : glsl_to_tgsi_visitor)
    (hd : dst.reladdr = .NULL ∧ dst.reladdr2 = .NULL)
    (h0 : src0.reladdr = .NULL ∧ src0.reladdr2 = .NULL)
    (h1 : src1.reladdr = .NULL ∧ src1.reladdr2 = .NULL)
    (h2 : src2.reladdr = .NULL ∧ src2.reladdr2 = .NULL)
    (ht0 : src0.type ≠ GLSL_TYPE_ARRAY ∧ src0.type ≠ GLSL_TYPE_STRUCT
      ∧ src0.type ≠ GLSL_TYPE_DOUBLE)
    (ht1 : src1.type ≠ GLSL_TYPE_ARRAY ∧ src1.type ≠ GLSL_TYPE_STRUCT)
    (htd : dst.type ≠ GLSL_TYPE_DOUBLE) :
    emit_asm1 info ir TGSI_OPCODE_CMP dst src0 src1 src2 undef_src v
      = some ({ v with instructions := v.instructions
                  ++ [new_instruction info ir TGSI_OPCODE_CMP dst undef_dst src0 src1 src2
                        undef_src] },
          some v.instructions.length) := by
  unfold emit_asm1
  rw [emit_asm_no_reladdr info ir _ dst undef_dst src0 src1 src2 undef_src v hd
    ⟨rfl, rfl⟩ h0 h1 h2 ⟨rfl, rfl⟩,
    get_opcode_plain _ _ _ _ _ (fun t => by cases v.native_integers <;> rfl) (by decide)
      ⟨ht0.1, ht0.2.1⟩ ht1]
  have hu : undef_dst.type ≠ GLSL_TYPE_DOUBLE := by decide
  simp [emit_asm_double, new_instruction, htd, hu, ht0.2.2]

/-- The choice of `process_move_condition` for a comparison with zero. -/
theorem process_move_condition_choice_zero (id : Nat) (operation : ir_expression_operation)
    (zero_on_left : Bool) (a zero : ir_rvalue)
    (hop : operation = ir_binop_less ∨ operation = ir_binop_greater
      ∨ operation = ir_binop_lequal ∨ operation = ir_binop_gequal)
    (hzero : zero.is_zero = true) (ha : a.is_zero = false) :
    process_move_condition_choice (comparison_expression id operation zero_on_left a zero)
      = (a,
          (if operation = ir_binop_less ∨ operation = ir_binop_gequal then zero_on_left
           else !zero_on_left),
          decide (operation = ir_binop_lequal ∨ operation = ir_binop_gequal)) := by
  cases zero_on_left <;> rcases hop with h | h | h | h <;> subst h <;>
    simp [comparison_expression, process_move_condition_choice, hzero, ha]

/-- Method `emit_block_mov` with a condition, on a float scalar or vector without
native integers: one `CMP` whose second and third operands are the new value
and the old value of the destination, in the order `cond_swap` says. -/
theorem emit_block_mov_cmp (info : tgsi_opcode → tgsi_opcode_info) (id n : Nat)
    (cond : st_src_reg) (cond_swap : Bool) (l : st_dst_reg) (r : st_src_reg)
    (v : glsl_to_tgsi_visitor) (hn : 1 ≤ n ∧ n ≤ 4) (hni : v.native_integers = false)
    (hl : l.reladdr = .NULL ∧ l.reladdr2 = .NULL) (hlt : l.type = GLSL_TYPE_FLOAT)
    (hr : r.reladdr = .NULL ∧ r.reladdr2 = .NULL)
    (hc : cond.reladdr = .NULL ∧ cond.reladdr2 = .NULL) (hct : cond.type = GLSL_TYPE_FLOAT) :
    ∃ swz, swizzle_for_size n = some swz
      ∧ emit_block_mov info id (some (cond, cond_swap))
          (glsl_type.get_instance GLSL_TYPE_FLOAT n 1) l r v
        = some ({ l with index := l.index + 1 },
            (r.set_type GLSL_TYPE_FLOAT).set_index (r.index + 1),
            { v with instructions := v.instructions ++
                [new_instruction info (some id) TGSI_OPCODE_CMP l undef_dst cond
                  (if cond_swap then (st_src_reg.ofDst l).set_swizzle swz
                   else r.set_type GLSL_TYPE_FLOAT)
                  (if cond_swap then r.set_type GLSL_TYPE_FLOAT
                   else (st_src_reg.ofDst l).set_swizzle swz)
                  undef_src] }) := by
  have hsw : ∃ swz, swizzle_for_size n = some swz := by
    obtain ⟨h1, h4⟩ := hn
    have : n = 1 ∨ n = 2 ∨ n = 3 ∨ n = 4 := by omega
    rcases this with rfl | rfl | rfl | rfl <;> exact ⟨_, rfl⟩
  obtain ⟨swz, hswz⟩ := hsw
  refine ⟨swz, hswz, ?_⟩
  have hpred : (glsl_type.get_instance GLSL_TYPE_FLOAT n 1).base_type = GLSL_TYPE_FLOAT
      ∧ (glsl_type.get_instance GLSL_TYPE_FLOAT n 1).is_array = false
      ∧ (glsl_type.get_instance GLSL_TYPE_FLOAT n 1).is_matrix = false
      ∧ ((glsl_type.get_instance GLSL_TYPE_FLOAT n 1).is_scalar
          || (glsl_type.get_instance GLSL_TYPE_FLOAT n 1).is_vector) = true
      ∧ (glsl_type.get_instance GLSL_TYPE_FLOAT n 1).vector_elements = n := by
    obtain ⟨h1, h4⟩ := hn
    have : n = 1 ∨ n = 2 ∨ n = 3 ∨ n = 4 := by omega
    rcases this with rfl | rfl | rfl | rfl <;> decide
  obtain ⟨p1, p2, p3, p4, p5⟩ := hpred
  have hrt : (r.set_type GLSL_TYPE_FLOAT).reladdr = .NULL
      ∧ (r.set_type GLSL_TYPE_FLOAT).reladdr2 = .NULL := by
    simpa using hr
  have hls : ((st_src_reg.ofDst l).set_swizzle swz).reladdr = .NULL
      ∧ ((st_src_reg.ofDst l).set_swizzle swz).reladdr2 = .NULL := by
    simpa [st_src_reg.ofDst] using hl
  have hlst : ((st_src_reg.ofDst l).set_swizzle swz).type = GLSL_TYPE_FLOAT := by
    simpa [st_src_reg.ofDst] using hlt
  have hrtt : (r.set_type GLSL_TYPE_FLOAT).type = GLSL_TYPE_FLOAT := by simp
  have hemit : emit_asm1 info (some id) TGSI_OPCODE_CMP l cond
      (if cond_swap then (st_src_reg.ofDst l).set_swizzle swz else r.set_type GLSL_TYPE_FLOAT)
      (if cond_swap then r.set_type GLSL_TYPE_FLOAT else (st_src_reg.ofDst l).set_swizzle swz)
      undef_src v
      = some ({ v with instructions := v.instructions ++
          [new_instruction info (some id) TGSI_OPCODE_CMP l undef_dst cond
            (if cond_swap then (st_src_reg.ofDst l).set_swizzle swz
             else r.set_type GLSL_TYPE_FLOAT)
            (if cond_swap then r.set_type GLSL_TYPE_FLOAT
             else (st_src_reg.ofDst l).set_swizzle swz)
            undef_src] }, some v.instructions.length) := by
    cases cond_swap
    · simp only [Bool.false_eq_true, if_false]
      exact emit_asm1_cmp info (some id) l cond _ _ v hl hc hrt hls
        ⟨by rw [hct]; decide, by rw [hct]; decide, by rw [hct]; decide⟩
        ⟨by rw [hrtt]; decide, by rw [hrtt]; decide⟩ (by rw [hlt]; decide)
    · simp only [if_true]
      exact emit_asm1_cmp info (some id) l cond _ _ v hl hc hls hrt
        ⟨by rw [hct]; decide, by rw [hct]; decide, by rw [hct]; decide⟩
        ⟨by rw [hlst]; decide, by rw [hlst]; decide⟩ (by rw [hlt]; decide)
  simp only [emit_block_mov, emit_block_mov_fuel, emit_block_mov_body, p1, p2, p3, p4, p5,
    hswz, hni]
  simp only [show (GLSL_TYPE_FLOAT = GLSL_TYPE_STRUCT) = False by simp, Bool.false_eq_true,
    if_false, Bool.not_true, st_src_reg.index_set_type]
  rw [hemit]
  simp [hni]

/-- Negation keeps a NaN a NaN. -/
theorem ieee_float.is_nan_neg (x : ieee_float) : ieee_float.is_nan (-x) = x.is_nan := rfl

/-- Negation keeps a zero a zero. -/
theorem ieee_float.is_zero_neg (x : ieee_float) : ieee_float.is_zero (-x) = x.is_zero := rfl

/-- Negation flips the sign bit. -/
theorem ieee_float.sign_neg (x : ieee_float) : ieee_float.sign (-x) = !x.sign := rfl

/-- The value an operand contributes is a NaN exactly when the register holds
one. -/
theorem operand_value_is_nan (src : st_src_reg) (x : ieee_float) :
    (operand_value src x).is_nan = x.is_nan := by
  unfold operand_value
  split_ifs
  · exact ieee_float.is_nan_neg x
  · rfl

/-- The truth table of `process_move_condition`, for float values: with the
negation and the order flag it chooses for a comparison with zero, a `CMP`
selects the new value exactly when the comparison holds, unless the value is a
NaN; for a NaN the `CMP` selects its third operand, which is the new value when
the order flag is set. -/
theorem cmp_select_truth_table {β : Type}
    (operation : ir_expression_operation) (zero_on_left : Bool) (y : ieee_float)
    (new old : β)
    (hop : operation = ir_binop_less ∨ operation = ir_binop_greater
      ∨ operation = ir_binop_lequal ∨ operation = ir_binop_gequal) :
    cmp_select
        (if (if operation = ir_binop_less ∨ operation = ir_binop_gequal then zero_on_left
             else !zero_on_left) = true then -y else y)
        (if decide (operation = ir_binop_lequal ∨ operation = ir_binop_gequal) = true then old
         else new)
        (if decide (operation = ir_binop_lequal ∨ operation = ir_binop_gequal) = true then new
         else old)
      = if y.is_nan = true then
          (if operation = ir_binop_lequal ∨ operation = ir_binop_gequal then new else old)
        else if comparison_with_zero operation zero_on_left y = true then new else old := by
  unfold cmp_select comparison_with_zero ieee_float.lt_zero ieee_float.zero_lt
    ieee_float.le_zero ieee_float.zero_le
  cases zero_on_left <;> rcases hop with h | h | h | h <;> subst h <;>
    simp only [Bool.not_false, Bool.not_true, if_true, if_false, true_or, or_true, or_false,
      false_or, Bool.false_eq_true, reduceCtorEq, decide_True, decide_False, or_self,
      ieee_float.is_nan_neg, ieee_float.is_zero_neg, ieee_float.sign_neg] <;>
    cases y.is_nan <;> cases y.sign <;> cases y.is_zero <;> rfl

/-- Every comparison of a NaN with zero is false. -/
theorem comparison_with_zero_nan (operation : ir_expression_operation) (zero_on_left : Bool)
    (y : ieee_float) (h : y.is_nan = true) :
    comparison_with_zero operation zero_on_left y = false := by
  unfold comparison_with_zero ieee_float.lt_zero ieee_float.zero_lt ieee_float.le_zero
    ieee_float.zero_le
  rw [h]
  cases operation <;> cases zero_on_left <;> rfl

/-- C28 (amended): condition normalisation is value-correct for every float that
is not a NaN.  Without native integers, for a condition that compares `a` with a
zero constant by `<`, `>`, `<=` or `>=`, zero on either side,
`process_move_condition` visits `a` only and returns, as the first operand for
the `CMP`, the register of `a` or that register with the negate flag
complemented, together with the order flag, which is set for `<=` and `>=`;
`emit_block_mov` then emits, for a float scalar or vector, one `CMP` whose second
and third operands are the new value and the old value of the destination,
exchanged when the order flag is set.  For every float `x` in the channel of
the register of `a`, read as `translate_src` reads it: if `x` is not a NaN, the
operand this `CMP` selects (the second when its first operand is below zero,
else the third) is the new value when the comparison holds for the value of `a`
and the old value of the destination otherwise; if `x` is a NaN, the comparison
is false and the `CMP` selects its third operand, the old value for `<` and `>`
and the new value for `<=` and `>=`. -/
theorem process_move_condition_value
    (info : tgsi_opcode → tgsi_opcode_info) (id eid n : Nat)
    (operation : ir_expression_operation) (zero_on_left : Bool) (a zero : ir_rvalue)
    (v va : glsl_to_tgsi_visitor) (l : st_dst_reg) (r : st_src_reg)
    (hop : operation = ir_binop_less ∨ operation = ir_binop_greater
      ∨ operation = ir_binop_lequal ∨ operation = ir_binop_gequal)
    (hni : v.native_integers = false) (hzero : zero.is_zero = true)
    (ha : a.is_zero = false) (hva : visit_rvalue info a v = some va)
    (hnia : va.native_integers = false)
    (hrel : va.result.reladdr = .NULL ∧ va.result.reladdr2 = .NULL)
    (htype : va.result.type = GLSL_TYPE_FLOAT)
    (hneg : va.result.negate % 16 = 0 ∨ va.result.negate % 16 = 15)
    (hn : 1 ≤ n ∧ n ≤ 4)
    (hl : l.reladdr = .NULL ∧ l.reladdr2 = .NULL) (hlt : l.type = GLSL_TYPE_FLOAT)
    (hr : r.reladdr = .NULL ∧ r.reladdr2 = .NULL) :
    ∃ (cond old : st_src_reg) (switch_order : Bool),
      process_move_condition info (comparison_expression eid operation zero_on_left a zero) v
        = some (switch_order, { va with result := cond })
      ∧ (cond = va.result ∨ cond = va.result.set_negate (int_not va.result.negate))
      ∧ switch_order = decide (operation = ir_binop_lequal ∨ operation = ir_binop_gequal)
      ∧ old.file = l.file ∧ old.index = l.index
      ∧ emit_block_mov info id (some (cond, switch_order))
          (glsl_type.get_instance GLSL_TYPE_FLOAT n 1) l r { va with result := cond }
        = some ({ l with index := l.index + 1 },
            (r.set_type GLSL_TYPE_FLOAT).set_index (r.index + 1),
            { va with
                result := cond,
                instructions := va.instructions ++
                  [new_instruction info (some id) TGSI_OPCODE_CMP l undef_dst cond
                    (if switch_order then old else r.set_type GLSL_TYPE_FLOAT)
                    (if switch_order then r.set_type GLSL_TYPE_FLOAT else old) undef_src] })
      ∧ (∀ x : ieee_float, x.is_nan = false →
          cmp_select (operand_value cond x)
              (if switch_order then old else r.set_type GLSL_TYPE_FLOAT)
              (if switch_order then r.set_type GLSL_TYPE_FLOAT else old)
            = if comparison_with_zero operation zero_on_left (operand_value va.result x) then
                r.set_type GLSL_TYPE_FLOAT
              else old)
      ∧ ∀ x : ieee_float, x.is_nan = true →
          comparison_with_zero operation zero_on_left (operand_value va.result x) = false
          ∧ cmp_select (operand_value cond x)
              (if switch_order then old else r.set_type GLSL_TYPE_FLOAT)
              (if switch_order then r.set_type GLSL_TYPE_FLOAT else old)
            = if operation = ir_binop_lequal ∨ operation = ir_binop_gequal then
                r.set_type GLSL_TYPE_FLOAT
              else old := by
  have hchoice := process_move_condition_choice_zero eid operation zero_on_left a zero hop
    hzero ha
  have htable := fun (x : ieee_float) => cmp_select_truth_table operation zero_on_left
    (operand_value va.result x) (r.set_type GLSL_TYPE_FLOAT)
  revert hchoice htable
  generalize (if operation = ir_binop_less ∨ operation = ir_binop_gequal then zero_on_left
    else !zero_on_left) = negate
  intro hchoice htable
  have hproc : process_move_condition info
      (comparison_expression eid operation zero_on_left a zero) v
      = some (decide (operation = ir_binop_lequal ∨ operation = ir_binop_gequal),
          { va with result :=
              if negate = true then va.result.set_negate (int_not va.result.negate)
              else va.result }) := by
    unfold process_move_condition
    simp only [hni, Bool.false_eq_true, if_false, hchoice, hva]
    cases negate <;> rfl
  have hcond : (if negate = true then va.result.set_negate (int_not va.result.negate)
        else va.result) = va.result
      ∨ (if negate = true then va.result.set_negate (int_not va.result.negate)
        else va.result) = va.result.set_negate (int_not va.result.negate) := by
    cases negate
    · exact Or.inl rfl
    · exact Or.inr rfl
  have hwf : ((if negate = true then va.result.set_negate (int_not va.result.negate)
        else va.result).reladdr = .NULL
      ∧ (if negate = true then va.result.set_negate (int_not va.result.negate)
        else va.result).reladdr2 = .NULL)
      ∧ (if negate = true then va.result.set_negate (int_not va.result.negate)
        else va.result).type = GLSL_TYPE_FLOAT := by
    cases negate
    · exact ⟨hrel, htype⟩
    · cases hres : va.result
      rw [hres] at hrel htype
      exact ⟨hrel, htype⟩
  have hval : ∀ x : ieee_float,
      operand_value (if negate = true then va.result.set_negate (int_not va.result.negate)
        else va.result) x
        = if negate = true then - operand_value va.result x else operand_value va.result x := by
    intro x
    cases negate
    · rfl
    · exact operand_value_negated _ _ hneg
  obtain ⟨swz, -, hemit⟩ := emit_block_mov_cmp info id n
    (if negate = true then va.result.set_negate (int_not va.result.negate) else va.result)
    (decide (operation = ir_binop_lequal ∨ operation = ir_binop_gequal)) l r
    { va with result :=
        if negate = true then va.result.set_negate (int_not va.result.negate)
        else va.result }
    hn hnia hl hlt hr hwf.1 hwf.2
  refine ⟨_, (st_src_reg.ofDst l).set_swizzle swz, _, hproc, hcond, rfl,
    by simp [st_src_reg.ofDst], by simp [st_src_reg.ofDst], hemit, fun x hx => ?_,
    fun x hx => ⟨comparison_with_zero_nan _ _ _
      ((operand_value_is_nan va.result x).trans hx), ?_⟩⟩
  · rw [hval x, htable x _ hop, operand_value_is_nan, hx]
    rfl
  · rw [hval x, htable x _ hop, operand_value_is_nan, hx]
    rfl

/-- Witness for C28: for `x <= 0.0` on the float uniform `x` (zero on the right) the
order flag is set and, for the value 5.0 of `x`, the `CMP` that `emit_block_mov`
emits for the destination `TEMP[0]` and the new value `IN[0]` selects the old
value of the destination. -/
theorem process_move_condition_value_witness :
    ∃ (cond old : st_src_reg),
      process_move_condition example_info
          (comparison_expression 42 ir_binop_lequal false
            (.dereference_variable 40 example_float_uniform)
            (.constant 41 glsl_type.float_type [0])) example_visitor_float
        = some (true,
            { (visit_rvalue example_info (.dereference_variable 40 example_float_uniform)
                example_visitor_float).getD example_visitor_float with result := cond })
      ∧ old.file = PROGRAM_TEMPORARY ∧ old.index = 0
      ∧ cmp_select (operand_value cond example_float_five) old
          ((example_input 0).set_type GLSL_TYPE_FLOAT) = old := by
  obtain ⟨cond, old, sw, hproc, -, hsw, hfile, hindex, -, hsel, -⟩ :=
    process_move_condition_value example_info 45 42 1 ir_binop_lequal false
      (.dereference_variable 40 example_float_uniform) (.constant 41 glsl_type.float_type [0])
      example_visitor_float
      ((visit_rvalue example_info (.dereference_variable 40 example_float_uniform)
        example_visitor_float).getD example_visitor_float)
      (example_temp_dst 0) (example_input 0)
      (Or.inr (Or.inr (Or.inl rfl))) (by rfl) (by rfl) (by rfl) (by rfl) (by rfl)
      ⟨by rfl, by rfl⟩ (by rfl) (by decide) (by decide) ⟨by rfl, by rfl⟩ (by rfl)
      ⟨by rfl, by rfl⟩
  have hsw1 : sw = true := hsw.trans (by decide)
  subst hsw1
  refine ⟨cond, old, hproc, hfile, hindex, ?_⟩
  have h5 := hsel example_float_five (by decide)
  simp only [if_true] at h5
  rw [h5]
  have hv : operand_value ((visit_rvalue example_info
      (.dereference_variable 40 example_float_uniform) example_visitor_float).getD
      example_visitor_float).result example_float_five = example_float_five := by rfl
  rw [hv]
  rfl

/-- C28 (as stated, refuted): for `x <= 0.0` on the float uniform `x` and a NaN in
`x` the comparison is false, but `process_move_condition` returns the register
of `x` with the negate flag set and the order flag set, and the `CMP` of
`emit_block_mov`, whose third operand is then the new value, selects the new
value. -/
theorem process_move_condition_nan_counterexample :
    (process_move_condition example_info
        (comparison_expression 42 ir_binop_lequal false
          (.dereference_variable 40 example_float_uniform)
          (.constant 41 glsl_type.float_type [0])) example_visitor_float).map
      (fun p => (p.1, p.2.result))
      = some (true,
          st_src_reg.mk PROGRAM_UNIFORM 2 0 SWIZZLE_XXXX (-1) GLSL_TYPE_FLOAT .NULL .NULL false
            false 0)
    ∧ example_float_nan.is_nan = true
    ∧ comparison_with_zero ir_binop_lequal false example_float_nan = false
    ∧ ∀ old new : st_src_reg,
        cmp_select
          (operand_value
            (st_src_reg.mk PROGRAM_UNIFORM 2 0 SWIZZLE_XXXX (-1) GLSL_TYPE_FLOAT .NULL .NULL
              false false 0)
            example_float_nan) old new = new := by
  refine ⟨by decide!, by decide, by decide, fun old new => ?_⟩
  have h : (operand_value
      (st_src_reg.mk PROGRAM_UNIFORM 2 0 SWIZZLE_XXXX (-1) GLSL_TYPE_FLOAT .NULL .NULL false
        false 0)
      example_float_nan).lt_zero = false := by decide
  unfold cmp_select
  rw [h]
  rfl

/-! ## Retargeting an assignment onto the last instruction -/

/-- C29: retargeting changes the source of an instruction that reads a double.
Lowering `t = dv.y < dw;` (a `dvec2` uniform `dv` at location 2, a `double` uniform
`dw` at location 4, a local `bool` `t`) with native integers first emits, for the
comparison, `DSLT TEMP[1].x, UNIFORM[2].zwzw, UNIFORM[4].xyxy`; the assignment meets
every condition of the retargeting branch and appends one instruction, but that
instruction is `DSLT TEMP[2].x, UNIFORM[3].xyxy, UNIFORM[4].xyxy`: its first source
is the register behind `dv` with `double_reg2` set, not the first source of the
previous last instruction. -/
theorem visit_assignment_retarget_double :
    (visit_statement example_info example_double_assignment example_visitor_native).map
        (fun v => v.instructions.map (fun inst =>
          (inst.op, inst.ir, inst.saturate, inst.dead_mask)))
      = some [(TGSI_OPCODE_DSLT, some 66, false, 1), (TGSI_OPCODE_DSLT, some 68, false, 0)]
    ∧ (visit_statement example_info example_double_assignment example_visitor_native).map
        (fun v => v.instructions.map (fun inst =>
          (inst.dst0.file, inst.dst0.index, inst.dst0.writemask)))
      = some [(PROGRAM_TEMPORARY, 1, 1), (PROGRAM_TEMPORARY, 2, 1)]
    ∧ (visit_statement example_info example_double_assignment example_visitor_native).map
        (fun v => v.instructions.map (fun inst =>
          (inst.src0.file, inst.src0.index, inst.src0.swizzle, inst.src0.double_reg2)))
      = some
          [(PROGRAM_UNIFORM, 2, MAKE_SWIZZLE4 SWIZZLE_Z SWIZZLE_W SWIZZLE_Z SWIZZLE_W, false),
           (PROGRAM_UNIFORM, 3, MAKE_SWIZZLE4 SWIZZLE_X SWIZZLE_Y SWIZZLE_X SWIZZLE_Y, true)]
    ∧ (visit_statement example_info example_double_assignment example_visitor_native).map
        (fun v => v.instructions.map (fun inst =>
          (inst.src1.file, inst.src1.index, inst.src1.swizzle, inst.src1.double_reg2)))
      = some
          [(PROGRAM_UNIFORM, 4, MAKE_SWIZZLE4 SWIZZLE_X SWIZZLE_Y SWIZZLE_X SWIZZLE_Y, false),
           (PROGRAM_UNIFORM, 4, MAKE_SWIZZLE4 SWIZZLE_X SWIZZLE_Y SWIZZLE_X SWIZZLE_Y, false)] := by
  refine ⟨?_, ?_, ?_, ?_⟩ <;> decide!

/-! ## The write-masks of `emit_scalar` -/

/-- The test `mask & (1 << j)` reads the bit `j`. -/
theorem and_one_shiftLeft_eq_zero (d j : Nat) :
    d &&& (1 <<< j) = 0 ↔ d.testBit j = false := by
  constructor
  · intro h
    have h1 := congrArg (fun n => n.testBit j) h
    simpa [Nat.testBit_and, Nat.testBit_shiftLeft] using h1
  · intro h
    apply Nat.eq_of_testBit_eq
    intro k
    rw [Nat.testBit_and, Nat.one_shiftLeft, Nat.testBit_two_pow, Nat.zero_testBit]
    by_cases hk : j = k
    · subst hk
      simp [h]
    · simp [hk]

/-- The bits of `1 << i`. -/
theorem one_shiftLeft_testBit (i k : Nat) : (1 <<< i).testBit k = decide (i = k) := by
  rw [Nat.one_shiftLeft, Nat.testBit_two_pow]

/-- The bits of a mask accumulated by a loop that sets the bit `j` when `c j`
holds. -/
theorem foldl_or_shift_testBit (c : Nat → Prop) [DecidablePred c] (l : List Nat) (m k : Nat) :
    (l.foldl (fun this_mask j => if c j then this_mask ||| (1 <<< j) else this_mask) m).testBit k
        = true
      ↔ m.testBit k = true ∨ (k ∈ l ∧ c k) := by
  induction l generalizing m with
  | nil => simp
  | cons j rest ih =>
    rw [List.foldl_cons, ih]
    by_cases hc : c j
    · rw [if_pos hc, Nat.testBit_or, one_shiftLeft_testBit]
      by_cases hjk : j = k
      · subst hjk
        simp [hc]
      · have hkj : ¬ k = j := fun h => hjk h.symm
        simp [hjk, hkj]
    · rw [if_neg hc]
      by_cases hjk : j = k
      · subst hjk
        simp [hc]
      · have hkj : ¬ k = j := fun h => hjk h.symm
        simp [hkj]

/-- The channels of `this_mask` in `emit_scalar`: the channel `i` and every later
channel not yet done whose two source channels are those of `i`. -/
theorem emit_scalar_mask_testBit (d s0 s1 i k : Nat) (hi : i < 4) :
    (emit_scalar_mask d s0 s1 i).testBit k = true
      ↔ k = i ∨ (i < k ∧ k < 4 ∧ d.testBit k = false
            ∧ GET_SWZ s0 k = GET_SWZ s0 i ∧ GET_SWZ s1 k = GET_SWZ s1 i) := by
  unfold emit_scalar_mask
  rw [foldl_or_shift_testBit, one_shiftLeft_testBit, List.mem_range'_1,
    and_one_shiftLeft_eq_zero]
  simp only [decide_eq_true_eq]
  constructor
  · rintro (h | ⟨⟨h1, h2⟩, h3⟩)
    · exact Or.inl h.symm
    · exact Or.inr ⟨by omega, by omega, h3⟩
  · rintro (h | ⟨h1, h2, h3⟩)
    · exact Or.inl h.symm
    · exact Or.inr ⟨⟨by omega, by omega⟩, h3⟩

/-- The opcode `get_opcode` resolves depends on the types of the two sources
only. -/
theorem get_opcode_types (native_integers : Bool) (op : tgsi_opcode) (dst dst1 : st_dst_reg)
    (src0 src1 s0 s1 : st_src_reg) (h0 : s0.type = src0.type) (h1 : s1.type = src1.type) :
    get_opcode native_integers op dst1 s0 s1 = get_opcode native_integers op dst src0 src1 := by
  unfold get_opcode get_opcode_type
  rw [h0, h1]

/-- An instruction without relative addressing and without a double destination or
first source is emitted as one instruction with the resolved opcode. -/
theorem emit_asm1_resolved (info : tgsi_opcode → tgsi_opcode_info) (ir : Option Nat)
    (op op1 : tgsi_opcode) (dst : st_dst_reg) (src0 src1 : st_src_reg)
    (v : glsl_to_tgsi_visitor)
    (hop : get_opcode v.native_integers op dst src0 src1 = some op1)
    (hd : dst.reladdr = .NULL ∧ dst.reladdr2 = .NULL)
    (h0 : src0.reladdr = .NULL ∧ src0.reladdr2 = .NULL)
    (h1 : src1.reladdr = .NULL ∧ src1.reladdr2 = .NULL)
    (ht0 : src0.type ≠ GLSL_TYPE_DOUBLE) (htd : dst.type ≠ GLSL_TYPE_DOUBLE) :
    emit_asm1 info ir op dst src0 src1 undef_src undef_src v
      = some ({ v with instructions := v.instructions
                  ++ [new_instruction info ir op1 dst undef_dst src0 src1 undef_src undef_src] },
          some v.instructions.length) := by
  unfold emit_asm1
  rw [emit_asm_no_reladdr info ir _ dst undef_dst src0 src1 undef_src undef_src v hd
    ⟨rfl, rfl⟩ h0 h1 ⟨rfl, rfl⟩ ⟨rfl, rfl⟩, hop]
  have hu : undef_dst.type ≠ GLSL_TYPE_DOUBLE := by decide
  simp [emit_asm_double, new_instruction, htd, hu, ht0]

/-- A loop whose body cannot fail under an invariant that depends on the pass
runs to the end and establishes the invariant of the last pass. -/
theorem loop_range_inv_idx {σ : Type} (P : Nat → σ → Prop) (n : Nat) (f : Nat → σ → Option σ)
    (h : ∀ j, j < n → ∀ s, P j s → ∃ s1, f j s = some s1 ∧ P (j + 1) s1) (s : σ)
    (hs : P 0 s) : ∃ s1, loop_range n f s = some s1 ∧ P n s1 := by
  induction n with
  | zero => exact ⟨s, by simp [loop_range], hs⟩
  | succ n ih =>
    obtain ⟨s1, h1, hp1⟩ := ih (fun j hj => h j (by omega))
    obtain ⟨s2, h2, hp2⟩ := h n (by omega) s1 hp1
    refine ⟨s2, ?_, hp2⟩
    unfold loop_range at h1 ⊢
    rw [List.range_succ, List.foldlM_append, h1]
    simpa using h2

/-- The bits of the union of the write-masks of a list of instructions. -/
theorem foldl_or_writemask_testBit (l : List glsl_to_tgsi_instruction) (m k : Nat) :
    (l.foldl (fun m inst => m ||| inst.dst0.writemask) m).testBit k = true
      ↔ m.testBit k = true ∨ ∃ inst ∈ l, inst.dst0.writemask.testBit k = true := by
  induction l generalizing m with
  | nil => simp
  | cons a rest ih =>
    rw [List.foldl_cons, ih, Nat.testBit_or]
    simp only [Bool.or_eq_true, List.mem_cons, exists_eq_or_imp]
    tauto

/-- The bits of `~W` for a write-mask `W` of four channels. -/
theorem not_writemask_testBit (w k : Nat) (hw : w < 16) (hk : k < 4) :
    ((w % 2 ^ 32) ^^^ 0xFFFFFFFF).testBit k = !w.testBit k := by
  rw [Nat.mod_eq_of_lt (by omega), Nat.testBit_xor,
    show (0xFFFFFFFF : Nat) = 2 ^ 32 - 1 by norm_num, Nat.testBit_two_pow_sub_one]
  have : k < 32 := by omega
  simp [this]

/-- The invariant of the outer loop of `emit_scalar` in front of the pass for the
channel `j`: the visitor holds the instructions `acc` emitted so far, `done_mask`
is `~W` joined with their write-masks, every channel below `j` is done, the
write-masks are pairwise disjoint and lie in `W`, and every instruction has the
form `emit_scalar_inst`. -/
theorem emit_scalar_step_inv (info : tgsi_opcode → tgsi_opcode_info) (ir : Option Nat)
    (op op1 : tgsi_opcode) (dst : st_dst_reg) (orig_src0 orig_src1 : st_src_reg)
    (v : glsl_to_tgsi_visitor) (d0 : Nat)
    (hdt : dst.type ≠ GLSL_TYPE_DOUBLE) (h0t : orig_src0.type ≠ GLSL_TYPE_DOUBLE)
    (hd : dst.reladdr = .NULL ∧ dst.reladdr2 = .NULL)
    (h0 : orig_src0.reladdr = .NULL ∧ orig_src0.reladdr2 = .NULL)
    (h1 : orig_src1.reladdr = .NULL ∧ orig_src1.reladdr2 = .NULL)
    (hop : get_opcode v.native_integers op dst orig_src0 orig_src1 = some op1)
    (j : Nat) (hj : j < 4) (s : Nat × glsl_to_tgsi_visitor)
    (hs : ∃ acc : List glsl_to_tgsi_instruction,
      s.2 = { v with instructions := v.instructions ++ acc }
      ∧ (∀ k, s.1.testBit k = true
          ↔ d0.testBit k = true ∨ ∃ inst ∈ acc, inst.dst0.writemask.testBit k = true)
      ∧ (∀ k, k < j → s.1.testBit k = true)
      ∧ acc.Pairwise (fun a b => ∀ k,
          ¬ (a.dst0.writemask.testBit k = true ∧ b.dst0.writemask.testBit k = true))
      ∧ ∀ inst ∈ acc,
          (∀ k, inst.dst0.writemask.testBit k = true → k < 4 ∧ d0.testBit k = false)
          ∧ emit_scalar_inst info ir op1 dst orig_src0 orig_src1 inst) :
    ∃ s1, emit_scalar_step info ir op dst orig_src0 orig_src1 j s = some s1
      ∧ ∃ acc : List glsl_to_tgsi_instruction,
        s1.2 = { v with instructions := v.instructions ++ acc }
        ∧ (∀ k, s1.1.testBit k = true
            ↔ d0.testBit k = true ∨ ∃ inst ∈ acc, inst.dst0.writemask.testBit k = true)
        ∧ (∀ k, k < j + 1 → s1.1.testBit k = true)
        ∧ acc.Pairwise (fun a b => ∀ k,
            ¬ (a.dst0.writemask.testBit k = true ∧ b.dst0.writemask.testBit k = true))
        ∧ ∀ inst ∈ acc,
            (∀ k, inst.dst0.writemask.testBit k = true → k < 4 ∧ d0.testBit k = false)
            ∧ emit_scalar_inst info ir op1 dst orig_src0 orig_src1 inst := by
  obtain ⟨acc, hv, hdone, hlow, hpair, hgood⟩ := hs
  obtain ⟨d, vs⟩ := s
  simp only at hv hdone hlow
  subst hv
  unfold emit_scalar_step
  by_cases hbit : d &&& (1 <<< j) = 0
  · -- the channel is not done: one instruction is emitted
    have hdj : d.testBit j = false := (and_one_shiftLeft_eq_zero d j).mp hbit
    have hmask := fun k => emit_scalar_mask_testBit d orig_src0.swizzle orig_src1.swizzle j k hj
    have hopj : get_opcode v.native_integers op
        { dst with writemask :=
            emit_scalar_mask d orig_src0.swizzle orig_src1.swizzle j }
        (orig_src0.set_swizzle (MAKE_SWIZZLE4 (GET_SWZ orig_src0.swizzle j)
          (GET_SWZ orig_src0.swizzle j) (GET_SWZ orig_src0.swizzle j)
          (GET_SWZ orig_src0.swizzle j)))
        (orig_src1.set_swizzle (MAKE_SWIZZLE4 (GET_SWZ orig_src1.swizzle j)
          (GET_SWZ orig_src1.swizzle j) (GET_SWZ orig_src1.swizzle j)
          (GET_SWZ orig_src1.swizzle j))) = some op1 := by
      rw [get_opcode_types v.native_integers op dst _ orig_src0 orig_src1 _ _ (by simp)
        (by simp)]
      exact hop
    have hemit := emit_asm1_resolved info ir op op1
      { dst with writemask := emit_scalar_mask d orig_src0.swizzle orig_src1.swizzle j }
      (orig_src0.set_swizzle (MAKE_SWIZZLE4 (GET_SWZ orig_src0.swizzle j)
        (GET_SWZ orig_src0.swizzle j) (GET_SWZ orig_src0.swizzle j)
        (GET_SWZ orig_src0.swizzle j)))
      (orig_src1.set_swizzle (MAKE_SWIZZLE4 (GET_SWZ orig_src1.swizzle j)
        (GET_SWZ orig_src1.swizzle j) (GET_SWZ orig_src1.swizzle j)
        (GET_SWZ orig_src1.swizzle j)))
      { v with instructions := v.instructions ++ acc } hopj hd (by simpa using h0)
      (by simpa using h1) (by simpa using h0t) hdt
    simp only [hbit, ne_eq, not_true_eq_false, if_false]
    rw [hemit]
    refine ⟨_, rfl, acc ++ [new_instruction info ir op1
      { dst with writemask := emit_scalar_mask d orig_src0.swizzle orig_src1.swizzle j }
      undef_dst
      (orig_src0.set_swizzle (MAKE_SWIZZLE4 (GET_SWZ orig_src0.swizzle j)
        (GET_SWZ orig_src0.swizzle j) (GET_SWZ orig_src0.swizzle j)
        (GET_SWZ orig_src0.swizzle j)))
      (orig_src1.set_swizzle (MAKE_SWIZZLE4 (GET_SWZ orig_src1.swizzle j)
        (GET_SWZ orig_src1.swizzle j) (GET_SWZ orig_src1.swizzle j)
        (GET_SWZ orig_src1.swizzle j))) undef_src undef_src], ?_, ?_, ?_, ?_, ?_⟩
    · simp [List.append_assoc]
    · intro k
      simp only [Nat.testBit_or, Bool.or_eq_true, hdone k, List.mem_append,
        List.mem_singleton]
      constructor
      · rintro ((h | ⟨inst, hi, hk⟩) | h)
        · exact Or.inl h
        · exact Or.inr ⟨inst, Or.inl hi, hk⟩
        · exact Or.inr ⟨_, Or.inr rfl, h⟩
      · rintro (h | ⟨inst, hi | hi, hk⟩)
        · exact Or.inl (Or.inl h)
        · exact Or.inl (Or.inr ⟨inst, hi, hk⟩)
        · subst hi
          exact Or.inr hk
    · intro k hk
      rw [Nat.testBit_or, Bool.or_eq_true]
      by_cases hkj : k = j
      · exact Or.inr ((hmask k).mpr (Or.inl hkj))
      · exact Or.inl (hlow k (by omega))
    · rw [List.pairwise_append]
      refine ⟨hpair, List.pairwise_singleton _ _, ?_⟩
      intro a ha b hb k hk
      rw [List.mem_singleton] at hb
      subst hb
      have hak : d.testBit k = true := (hdone k).mpr (Or.inr ⟨a, ha, hk.1⟩)
      have hmk : (emit_scalar_mask d orig_src0.swizzle orig_src1.swizzle j).testBit k = true :=
        hk.2
      rcases (hmask k).mp hmk with h | h
      · rw [h, hdj] at hak
        cases hak
      · rw [h.2.2.1] at hak
        cases hak
    · intro inst hinst
      rw [List.mem_append, List.mem_singleton] at hinst
      rcases hinst with hinst | hinst
      · exact hgood inst hinst
      · subst hinst
        have hfree : ∀ k, (emit_scalar_mask d orig_src0.swizzle orig_src1.swizzle j).testBit k
            = true → k < 4 ∧ d.testBit k = false
              ∧ GET_SWZ orig_src0.swizzle k = GET_SWZ orig_src0.swizzle j
              ∧ GET_SWZ orig_src1.swizzle k = GET_SWZ orig_src1.swizzle j := by
          intro k hk
          rcases (hmask k).mp hk with h | h
          · subst h
            exact ⟨hj, hdj, rfl, rfl⟩
          · exact ⟨h.2.1, h.2.2.1, h.2.2.2⟩
        refine ⟨?_, ?_⟩
        · intro k hk
          have hk1 := hfree k hk
          refine ⟨hk1.1, ?_⟩
          cases hd0 : d0.testBit k
          · rfl
          · have := (hdone k).mpr (Or.inl hd0)
            rw [hk1.2.1] at this
            cases this
        · refine ⟨GET_SWZ orig_src0.swizzle j, GET_SWZ orig_src1.swizzle j, GET_SWZ_lt _ _,
            GET_SWZ_lt _ _, rfl, ?_⟩
          intro k hk4 hk
          have hk1 : (emit_scalar_mask d orig_src0.swizzle orig_src1.swizzle j).testBit k
              = true := by
            cases hb : (emit_scalar_mask d orig_src0.swizzle orig_src1.swizzle j).testBit k
            · exact absurd ((and_one_shiftLeft_eq_zero _ k).mpr hb) hk
            · rfl
          have hk2 := hfree k hk1
          have hg0 := GET_SWZ_MAKE_SWIZZLE4 _ _ _ _ (GET_SWZ_lt orig_src0.swizzle j)
            (GET_SWZ_lt orig_src0.swizzle j) (GET_SWZ_lt orig_src0.swizzle j)
            (GET_SWZ_lt orig_src0.swizzle j)
          have hg1 := GET_SWZ_MAKE_SWIZZLE4 _ _ _ _ (GET_SWZ_lt orig_src1.swizzle j)
            (GET_SWZ_lt orig_src1.swizzle j) (GET_SWZ_lt orig_src1.swizzle j)
            (GET_SWZ_lt orig_src1.swizzle j)
          have hcases : k = 0 ∨ k = 1 ∨ k = 2 ∨ k = 3 := by omega
          simp only [new_instruction, st_src_reg.swizzle_set_swizzle]
          rw [hk2.2.2.1, hk2.2.2.2]
          rcases hcases with h | h | h | h <;> subst h
          · exact ⟨hg0.1, hg1.1⟩
          · exact ⟨hg0.2.1, hg1.2.1⟩
          · exact ⟨hg0.2.2.1, hg1.2.2.1⟩
          · exact ⟨hg0.2.2.2, hg1.2.2.2⟩
  · -- the channel is done already: nothing is emitted
    have hdj : d.testBit j = true := by
      cases hb : d.testBit j
      · exact absurd ((and_one_shiftLeft_eq_zero d j).mpr hb) hbit
      · rfl
    simp only [hbit, ne_eq, not_false_eq_true, if_true]
    refine ⟨_, rfl, acc, rfl, hdone, ?_, hpair, hgood⟩
    intro k hk
    by_cases hkj : k = j
    · rw [hkj]
      exact hdj
    · exact hlow k (by omega)

/-- C30: `emit_scalar` partitions the destination.  For a destination that is not
double with a write-mask `W` of the four channels, a first source that is not
double, no relative addressing and an opcode that `get_opcode` resolves,
`emit_scalar` succeeds and appends a list of instructions whose write-masks are
pairwise disjoint and have the union `W`; every instruction is the resolved opcode
on the destination with its write-mask and on the two sources with a single
channel replicated to all four positions, and for every channel the instruction
writes the replicated channel is the channel the original swizzle of that source
selects. -/
theorem emit_scalar_partition (info : tgsi_opcode → tgsi_opcode_info) (ir : Option Nat)
    (op op1 : tgsi_opcode) (dst : st_dst_reg) (orig_src0 orig_src1 : st_src_reg)
    (v : glsl_to_tgsi_visitor)
    (hW : dst.writemask < 16)
    (hdt : dst.type ≠ GLSL_TYPE_DOUBLE) (h0t : orig_src0.type ≠ GLSL_TYPE_DOUBLE)
    (hd : dst.reladdr = .NULL ∧ dst.reladdr2 = .NULL)
    (h0 : orig_src0.reladdr = .NULL ∧ orig_src0.reladdr2 = .NULL)
    (h1 : orig_src1.reladdr = .NULL ∧ orig_src1.reladdr2 = .NULL)
    (hop : get_opcode v.native_integers op dst orig_src0 orig_src1 = some op1) :
    ∃ insts : List glsl_to_tgsi_instruction,
      emit_scalar info ir op dst orig_src0 orig_src1 v
        = some { v with instructions := v.instructions ++ insts }
      ∧ insts.Pairwise (fun a b => a.dst0.writemask &&& b.dst0.writemask = 0)
      ∧ insts.foldl (fun m inst => m ||| inst.dst0.writemask) 0 = dst.writemask
      ∧ ∀ inst ∈ insts, emit_scalar_inst info ir op1 dst orig_src0 orig_src1 inst := by
  obtain ⟨s1, hloop, acc, hv, hdone, hlow, hpair, hgood⟩ :=
    loop_range_inv_idx
      (fun j (s : Nat × glsl_to_tgsi_visitor) =>
        ∃ acc : List glsl_to_tgsi_instruction,
          s.2 = { v with instructions := v.instructions ++ acc }
          ∧ (∀ k, s.1.testBit k = true
              ↔ ((dst.writemask % 2 ^ 32) ^^^ 0xFFFFFFFF).testBit k = true
                ∨ ∃ inst ∈ acc, inst.dst0.writemask.testBit k = true)
          ∧ (∀ k, k < j → s.1.testBit k = true)
          ∧ acc.Pairwise (fun a b => ∀ k,
              ¬ (a.dst0.writemask.testBit k = true ∧ b.dst0.writemask.testBit k = true))
          ∧ ∀ inst ∈ acc,
              (∀ k, inst.dst0.writemask.testBit k = true →
                k < 4 ∧ ((dst.writemask % 2 ^ 32) ^^^ 0xFFFFFFFF).testBit k = false)
              ∧ emit_scalar_inst info ir op1 dst orig_src0 orig_src1 inst)
      4 (emit_scalar_step info ir op dst orig_src0 orig_src1)
      (fun j hj s hs =>
        emit_scalar_step_inv info ir op op1 dst orig_src0 orig_src1 v _ hdt h0t hd h0 h1 hop
          j hj s hs)
      ((dst.writemask % 2 ^ 32) ^^^ 0xFFFFFFFF, v)
      ⟨[], by simp, by simp, by simp, List.Pairwise.nil, by simp⟩
  refine ⟨acc, ?_, ?_, ?_, fun inst hinst => (hgood inst hinst).2⟩
  · unfold emit_scalar
    rw [hloop, Option.map_some', hv]
  · refine hpair.imp ?_
    intro a b hab
    apply Nat.eq_of_testBit_eq
    intro k
    rw [Nat.testBit_and, Nat.zero_testBit]
    cases ha : a.dst0.writemask.testBit k
    · rfl
    · cases hb : b.dst0.writemask.testBit k
      · rfl
      · exact absurd ⟨ha, hb⟩ (hab k)
  · apply Nat.eq_of_testBit_eq
    intro k
    have hunion := foldl_or_writemask_testBit acc 0 k
    rw [Nat.zero_testBit] at hunion
    cases hw : dst.writemask.testBit k
    · cases hu : (acc.foldl
          (fun (m : Nat) (inst : glsl_to_tgsi_instruction) => m ||| inst.dst0.writemask)
          0).testBit k
      · rfl
      · rcases hunion.mp hu with h | ⟨inst, hinst, hk⟩
        · cases h
        · have hk1 := (hgood inst hinst).1 k hk
          rw [not_writemask_testBit _ _ hW hk1.1, hw] at hk1
          exact absurd hk1.2 (by decide)
    · have hk4 : k < 4 := by
        by_contra hge
        have : dst.writemask.testBit k = false :=
          Nat.testBit_lt_two_pow (lt_of_lt_of_le hW
            (show 16 ≤ 2 ^ k from by
              calc 16 = 2 ^ 4 := by norm_num
                _ ≤ 2 ^ k := Nat.pow_le_pow_right (by norm_num) (by omega)))
        rw [this] at hw
        cases hw
      have hs := (hdone k).mp (hlow k hk4)
      rw [not_writemask_testBit _ _ hW hk4, hw] at hs
      rcases hs with h | h
      · cases h
      · exact hunion.mpr (Or.inr h)

/-- Witness for C30: `RCP TEMP[0].xyzw, IN[0].xxyy` (one-source form) is emitted as
the two instructions `RCP TEMP[0].xy, IN[0].xxxx` and `RCP TEMP[0].zw, IN[0].yyyy`. -/
theorem emit_scalar_partition_witness :
    (∃ insts : List glsl_to_tgsi_instruction,
      emit_scalar example_info none TGSI_OPCODE_RCP (example_temp_dst 0) example_scalar_source
          (undef_src.set_swizzle SWIZZLE_XXXX) example_visitor_float
        = some { example_visitor_float with
            instructions := example_visitor_float.instructions ++ insts }
      ∧ insts.Pairwise (fun a b => a.dst0.writemask &&& b.dst0.writemask = 0)
      ∧ insts.foldl (fun m inst => m ||| inst.dst0.writemask) 0 = WRITEMASK_XYZW
      ∧ ∀ inst ∈ insts,
          emit_scalar_inst example_info none TGSI_OPCODE_RCP (example_temp_dst 0)
            example_scalar_source (undef_src.set_swizzle SWIZZLE_XXXX) inst)
    ∧ (emit_scalar1 example_info none TGSI_OPCODE_RCP (example_temp_dst 0)
          example_scalar_source example_visitor_float).map
        (fun v => v.instructions.map (fun inst =>
          (inst.op, inst.dst0.writemask, inst.src0.index, inst.src0.swizzle)))
      = some
          [(TGSI_OPCODE_RCP, WRITEMASK_XY, 0,
              MAKE_SWIZZLE4 SWIZZLE_X SWIZZLE_X SWIZZLE_X SWIZZLE_X),
           (TGSI_OPCODE_RCP, WRITEMASK_ZW, 0,
              MAKE_SWIZZLE4 SWIZZLE_Y SWIZZLE_Y SWIZZLE_Y SWIZZLE_Y)] :=
  ⟨emit_scalar_partition example_info none TGSI_OPCODE_RCP TGSI_OPCODE_RCP (example_temp_dst 0)
    example_scalar_source (undef_src.set_swizzle SWIZZLE_XXXX) example_visitor_float
    (by decide) (by decide) (by decide)
    ⟨by rfl, by rfl⟩ ⟨by rfl, by rfl⟩ ⟨by rfl, by rfl⟩ (by rfl), by decide!⟩

/-! ## The index of an array register -/

/-- The index `get_temp` gives a register in the file `PROGRAM_ARRAY`. -/
theorem get_temp_array_index (v v1 : glsl_to_tgsi_visitor) (type : glsl_type)
    (src : st_src_reg) (hget : get_temp v type = some (src, v1))
    (hfile : src.file = PROGRAM_ARRAY) :
    src.index = ((v.next_array <<< 16 ||| 0x8000 : Nat) : Int) := by
  unfold get_temp at hget
  cases hsize : type_size type with
  | none => rw [hsize] at hget; cases hget
  | some size =>
    rw [hsize] at hget
    simp only at hget
    by_cases harr : ((!v.options_EmitNoIndirectTemp) && type_has_array_or_matrix type) = true
    · rw [if_pos harr] at hget
      by_cases hrec : (type.is_array || type.is_record) = true
      · rw [if_pos hrec] at hget
        have h := congrArg Prod.fst (Option.some.inj hget)
        simp only at h
        rw [← h]
        simp
      · rw [if_neg hrec] at hget
        cases hswz : swizzle_for_size type.vector_elements with
        | none => rw [hswz] at hget; cases hget
        | some swz =>
          rw [hswz] at hget
          have h := congrArg Prod.fst (Option.some.inj hget)
          simp only at h
          rw [← h]
          simp
    · rw [if_neg harr] at hget
      exfalso
      by_cases hrec : (type.is_array || type.is_record) = true
      · rw [if_pos hrec] at hget
        have h := congrArg Prod.fst (Option.some.inj hget)
        simp only at h
        rw [← h] at hfile
        simp at hfile
      · rw [if_neg hrec] at hget
        cases hswz : swizzle_for_size type.vector_elements with
        | none => rw [hswz] at hget; cases hget
        | some swz =>
          rw [hswz] at hget
          have h := congrArg Prod.fst (Option.some.inj hget)
          simp only at h
          rw [← h] at hfile
          simp at hfile

/-- The array index `a << 16 | 0x8000` plus an offset decodes to the array number
and the offset. -/
theorem dst_register_array_decode (n a : Nat) (o : Int) (ha : a < 2 ^ 15) (hn : a < n)
    (ho : -0x8000 ≤ o ∧ o < 0x8000) :
    dst_register_array n (int_to_unsigned (((a <<< 16 ||| 0x8000 : Nat) : Int) + o))
      = some (a, o) := by
  have hor : a <<< 16 ||| 0x8000 = a * 65536 + 32768 := by
    rw [Nat.shiftLeft_eq, Nat.mul_comm a (2 ^ 16),
      ← Nat.mul_add_lt_is_or (by norm_num : 0x8000 < 2 ^ 16) a]
  rw [hor]
  obtain ⟨m, hm⟩ : ∃ m : Nat, (m : Int) = 32768 + o := ⟨(32768 + o).toNat, by omega⟩
  have hm1 : m < 65536 := by omega
  have hidx : int_to_unsigned (((a * 65536 + 32768 : Nat) : Int) + o) = a * 65536 + m := by
    unfold int_to_unsigned
    have h1 : ((a * 65536 + 32768 : Nat) : Int) + o = ((a * 65536 + m : Nat) : Int) := by
      push_cast
      omega
    rw [h1]
    have h2 : (((a * 65536 + m : Nat) : Int) % 2 ^ 32) = ((a * 65536 + m : Nat) : Int) := by
      apply Int.emod_eq_of_lt
      · omega
      · have : a * 65536 + m < 2 ^ 32 := by
          have : a < 32768 := by simpa using ha
          omega
        exact_mod_cast this
    rw [h2, Int.toNat_ofNat]
  rw [hidx]
  unfold dst_register_array
  have hshift : (a * 65536 + m) >>> 16 = a := by
    rw [Nat.shiftRight_eq_div_pow]
    norm_num
    omega
  have hand : (a * 65536 + m) &&& 0xFFFF = m := by
    rw [show (0xFFFF : Nat) = 2 ^ 16 - 1 by norm_num, Nat.and_pow_two_sub_one_eq_mod]
    norm_num
    omega
  simp only [hshift, hand, hn, if_true]
  congr 2
  omega

/-- C31: array register index round trip.  For a register that `get_temp` places
in the file `PROGRAM_ARRAY` when fewer than `2^15` arrays exist, and every offset
`o` with `-0x8000 <= o < 0x8000`, the index of the register plus `o`, decoded as
`dst_register` does, is the array number `next_array` at the call and the offset
`o`; and two such indices (of any two calls of `get_temp`, with any two offsets)
are equal only if the array numbers and the offsets are equal. -/
theorem get_temp_array_round_trip (v v1 : glsl_to_tgsi_visitor) (type : glsl_type)
    (src : st_src_reg) (o : Int) (n : Nat)
    (hget : get_temp v type = some (src, v1)) (hfile : src.file = PROGRAM_ARRAY)
    (ha : v.next_array < 2 ^ 15) (hn : v.next_array < n)
    (ho : -0x8000 ≤ o ∧ o < 0x8000) :
    dst_register_array n (int_to_unsigned (src.index + o)) = some (v.next_array, o)
    ∧ ∀ (w w1 : glsl_to_tgsi_visitor) (type2 : glsl_type) (src2 : st_src_reg) (o2 : Int),
        get_temp w type2 = some (src2, w1) → src2.file = PROGRAM_ARRAY →
        w.next_array < 2 ^ 15 → -0x8000 ≤ o2 ∧ o2 < 0x8000 →
        src2.index + o2 = src.index + o → w.next_array = v.next_array ∧ o2 = o := by
  have hidx := get_temp_array_index v v1 type src hget hfile
  refine ⟨?_, ?_⟩
  · rw [hidx]
    exact dst_register_array_decode n v.next_array o ha hn ho
  · intro w w1 type2 src2 o2 hget2 hfile2 ha2 ho2 heq
    have hidx2 := get_temp_array_index w w1 type2 src2 hget2 hfile2
    have h1 := dst_register_array_decode (2 ^ 15) v.next_array o ha ha ho
    have h2 := dst_register_array_decode (2 ^ 15) w.next_array o2 ha2 ha2 ho2
    rw [← hidx] at h1
    rw [← hidx2, heq, h1] at h2
    have h3 := Option.some.inj h2
    exact ⟨(congrArg Prod.fst h3).symm, (congrArg Prod.snd h3).symm⟩

/-- Witness for C31: the first array of a fresh visitor (a local `float[3]`) with
the offset 2 decodes to array 0, offset 2. -/
theorem get_temp_array_round_trip_witness :
    dst_register_array 1
        (int_to_unsigned (((get_temp example_visitor_float example_array_type).map
          (fun r => r.1.index)).getD 0 + 2))
      = some (0, 2) := by
  have h := (get_temp_array_round_trip example_visitor_float
    ((get_temp example_visitor_float example_array_type).map (fun r => r.2)
      |>.getD example_visitor_float)
    example_array_type
    ((get_temp example_visitor_float example_array_type).map (fun r => r.1)
      |>.getD st_src_reg.default)
    2 1 (by rfl) (by rfl) (by decide) (by decide) (by decide)).1
  exact h

/-! ## Idempotence of `get_opcode` -/

/-- The `switch (op)` of `get_opcode` maps every opcode it returns to itself. -/
theorem get_opcode_switch_idempotent (native_integers : Bool) (type : glsl_base_type)
    (op : tgsi_opcode) :
    get_opcode_switch native_integers type (get_opcode_switch native_integers type op)
      = get_opcode_switch native_integers type op := by
  cases op <;> cases type <;> cases native_integers <;> rfl

/-- C33: `get_opcode` is idempotent.  Whenever `get_opcode` returns an opcode
(no assertion fails), applying `get_opcode` to that opcode with operands of the
same types (and any destination) returns the same opcode; so does the call in
`emit_asm` when an instruction already resolved is emitted again with its own
operands. -/
theorem get_opcode_idempotent (native_integers : Bool) (op op1 : tgsi_opcode)
    (dst dst2 : st_dst_reg) (src0 src1 s0 s1 : st_src_reg)
    (h : get_opcode native_integers op dst src0 src1 = some op1)
    (h0 : s0.type = src0.type) (h1 : s1.type = src1.type) :
    get_opcode native_integers op1 dst2 s0 s1 = some op1 := by
  rw [get_opcode_types native_integers op1 dst dst2 src0 src1 s0 s1 h0 h1]
  unfold get_opcode at h ⊢
  by_cases hmov : op = TGSI_OPCODE_MOV
  · rw [if_pos hmov] at h
    have hop1 : op1 = TGSI_OPCODE_MOV := by rw [← Option.some.inj h, hmov]
    rw [if_pos hop1]
  · rw [if_neg hmov] at h
    by_cases hassert : src0.type = GLSL_TYPE_ARRAY ∨ src0.type = GLSL_TYPE_STRUCT
        ∨ src1.type = GLSL_TYPE_ARRAY ∨ src1.type = GLSL_TYPE_STRUCT
    · rw [if_pos hassert] at h
      cases h
    · rw [if_neg hassert] at h ⊢
      simp only at h ⊢
      by_cases hlast : get_opcode_switch native_integers
          (get_opcode_type native_integers src0 src1) op = TGSI_OPCODE_LAST
      · rw [if_pos hlast] at h
        cases h
      · rw [if_neg hlast] at h
        have hop1 := Option.some.inj h
        rw [← hop1, get_opcode_switch_idempotent, if_neg hlast]
        by_cases hm : get_opcode_switch native_integers
            (get_opcode_type native_integers src0 src1) op = TGSI_OPCODE_MOV
        · rw [if_pos hm]
        · rw [if_neg hm]

/-- Witness for C33: `SLT` on two doubles resolves to `DSLT`, and `DSLT` on the
same operands resolves to `DSLT`. -/
theorem get_opcode_idempotent_witness :
    get_opcode true TGSI_OPCODE_SLT (example_temp_dst 0) example_double_input
        example_double_input = some TGSI_OPCODE_DSLT
    ∧ get_opcode true TGSI_OPCODE_DSLT (example_temp_dst 1) example_double_input
        example_double_input = some TGSI_OPCODE_DSLT :=
  ⟨by rfl, get_opcode_idempotent true TGSI_OPCODE_SLT TGSI_OPCODE_DSLT (example_temp_dst 0)
    (example_temp_dst 1) example_double_input example_double_input example_double_input
    example_double_input (by rfl) rfl rfl⟩

/-! ## Dead code with two destinations -/

/-- Why the lists given to `eliminate_dead_code` have at most one defined
destination per instruction: the dead mask of an instruction is shared by its
two destinations.  All dead masks start empty.  On
`DFRACEXP OUT[0].x, TEMP[0].x, IN[0]` the final loop deletes the instruction,
whose first destination is an output; on
`DFRACEXP TEMP[0].x, TEMP[1].x, IN[0]; MOV OUT[0], TEMP[0].xxxx` it deletes the
`DFRACEXP` although the `MOV` reads channel x of its first destination.  No
emission builds such an instruction: `DFRACEXP` is emitted with one destination
undefined, and `merge_two_dsts` runs after the last `eliminate_dead_code`. -/
theorem eliminate_dead_code_second_destination :
    (∀ inst ∈ example_output_and_dead_temp ++ example_live_and_dead_temp, inst.dead_mask = 0)
    ∧ eliminate_dead_code_list 1 example_output_and_dead_temp = some ([], 1)
    ∧ eliminate_dead_code_list 2 example_live_and_dead_temp
      = some ([example_inst TGSI_OPCODE_MOV (example_output_dst 0)
          ((example_temp 0).set_swizzle SWIZZLE_XXXX) undef_src 1], 1) := by
  refine ⟨by decide, by decide!, by decide!⟩

/-! ## Temporaries that are only written in `renumber_registers` -/

/-- C38: `renumber_registers` maps a temporary that is read onto the index of one
that is only written.  On `MOV TEMP[1], IN[0]; MOV TEMP[0], IN[1];
MOV TEMP[3], IN[2]; MOV OUT[0], TEMP[1]` with four temporaries the pass returns
`MOV TEMP[0], IN[0]; MOV TEMP[0], IN[1]; MOV TEMP[3], IN[2]; MOV OUT[0], TEMP[0]`
and `next_temp = 1`: the distinct temporaries 1 and 0 both have the index 0
(the output now receives `IN[1]`), and the index 3 is not below `next_temp`. -/
theorem renumber_registers_written_only :
    (renumber_registers (example_visitor_with 4 example_written_only)).map
        (fun v => (v.next_temp, v.instructions))
      = some (1,
          [example_inst TGSI_OPCODE_MOV (example_temp_dst 0) (example_input 0) undef_src 1,
           example_inst TGSI_OPCODE_MOV (example_temp_dst 0) (example_input 1) undef_src 1,
           example_inst TGSI_OPCODE_MOV (example_temp_dst 3) (example_input 2) undef_src 1,
           example_inst TGSI_OPCODE_MOV (example_output_dst 0) (example_temp 0) undef_src 1]) := by
  decide!

/-! ## The growth of the table of temporaries -/

/-- An index within `inc` entries of the end of the table is in bounds behind the
growth step of `dst_register`. -/
theorem dst_register_temporary_in_bounds {α : Type} (decl : α) (temps : List (Option α))
    (index : Nat) (h : index < temps.length + dst_register_inc) :
    ∃ r, dst_register_temporary true decl temps index = some r ∧ index < r.2.length := by
  unfold dst_register_temporary
  by_cases hge : index ≥ temps.length
  · have hlen : index < (temps ++ List.replicate dst_register_inc (none : Option α)).length := by
      rw [List.length_append, List.length_replicate]
      exact h
    simp only [hge, if_true]
    rw [List.getElem?_eq_getElem hlen]
    cases hx : (temps ++ List.replicate dst_register_inc (none : Option α))[index] with
    | none => exact ⟨_, rfl, by simpa using hlen⟩
    | some d => exact ⟨_, rfl, hlen⟩
  · have hlen : index < temps.length := by omega
    simp only [hge, if_false]
    rw [List.getElem?_eq_getElem hlen]
    cases hx : temps[index] with
    | none => exact ⟨_, rfl, by simpa using hlen⟩
    | some d => exact ⟨_, rfl, hlen⟩

/-- An index `inc` entries or more beyond the end of the table is still out of
bounds behind the growth step of `dst_register`, which adds `inc` entries once. -/
theorem dst_register_temporary_beyond {α : Type} (decl : α) (temps : List (Option α))
    (index : Nat) (h : temps.length + dst_register_inc ≤ index) :
    dst_register_temporary true decl temps index = none := by
  unfold dst_register_temporary
  have hge : index ≥ temps.length := by omega
  have hlen : (temps ++ List.replicate dst_register_inc (none : Option α)).length ≤ index := by
    rw [List.length_append, List.length_replicate]
    exact h
  simp only [hge, if_true]
  rw [List.getElem?_eq_none hlen]

/-- C39: the growth step of `dst_register` adds 4096 entries once, whatever the
index.  With an empty table, a successful `realloc` and the temporary index 5000
the table has 4096 entries behind the growth step and `t->temps[5000]` is read
beyond its end. -/
theorem dst_register_temporary_overrun :
    ([] : List (Option Nat)).length + dst_register_inc = 4096
    ∧ dst_register_temporary true 7 ([] : List (Option Nat)) 5000 = none :=
  ⟨rfl, dst_register_temporary_beyond 7 [] 5000 (by decide)⟩

/-! ## Arrays without a used slot -/

/-- C40: the loop `Shrink the end` runs past the start of an array without a used
slot.  For the declaration of the slots 10 .. 13 and a usage mask that has the
bit of slot 3 only (no slot of the array is used), with `VARYING_SLOT_PATCH0 = 64`,
`shrink_array_declarations` returns, whatever the fuel beyond the eleven passes
of the second loop, and leaves `mesa_index = 14` and `array_size = 4294967286`,
that is `0 - 10` in unsigned arithmetic: the first loop ends with `array_size = 0`,
the second starts at `j = 0 - 1`, its condition `j >= 0` holds for every unsigned
value, and it decrements `array_size` for the slots 13 down to 4 until it meets
the used slot 3 below the array. -/
theorem shrink_array_declarations_unused (fuel : Nat) :
    shrink_array_declarations 64 (fuel + 11) [⟨10, 1, 4⟩] 1 (1 <<< 3) 0
      = some [⟨14, 1, 4294967286⟩] := by
  rfl

/-- With no used slot at all the second loop of `shrink_array_declarations` never
ends at a used slot: for the declaration of slot 2 alone and empty usage masks
the counter passes slot 0 and the next test shifts by `2^32 - 1`, which is
undefined; no amount of fuel gives a result. -/
theorem shrink_array_declarations_unused_undefined (fuel : Nat) :
    shrink_array_declarations 64 fuel [⟨2, 1, 1⟩] 1 0 0 = none := by
  match fuel with
  | 0 => rfl
  | 1 => rfl
  | 2 => rfl
  | 3 => rfl
  | n + 4 => rfl

/-! ## Rename resolution in `merge_registers` -/

/-- A read of a table behind a write `a[i] = x` that succeeded. -/
theorem arr_get_arr_set {α : Type} (a a1 : List α) (i k : Int) (x : α)
    (h : arr_set a i x = some a1) :
    arr_get a1 k = if k = i then some x else arr_get a k := by
  unfold arr_set at h
  by_cases hi : 0 ≤ i ∧ i.toNat < a.length
  · rw [if_pos hi] at h
    have h1 := Option.some.inj h
    subst h1
    unfold arr_get
    by_cases hk : 0 ≤ k
    · rw [if_pos hk]
      by_cases hki : k = i
      · subst hki
        simp [hi.2]
      · have hne : i.toNat ≠ k.toNat := by omega
        rw [if_neg hki, List.getElem?_set_ne hne, if_pos hk]
    · rw [if_neg hk]
      have hki : k ≠ i := by omega
      rw [if_neg hki, if_neg hk]
  · rw [if_neg hi] at h
    cases h

/-- The chain of replacements returns the index itself or the new register of one
of the renames. -/
theorem rename_index_eq_or_mem (renames : List rename_reg_pair) (index : Int) :
    rename_index renames index = index
      ∨ ∃ p ∈ renames, rename_index renames index = p.new_reg := by
  induction renames generalizing index with
  | nil => exact Or.inl rfl
  | cons q rest ih =>
    rw [rename_index_cons]
    by_cases hq : index = q.old_reg
    · rw [if_pos hq]
      rcases ih q.new_reg with h | ⟨p, hp, h⟩
      · exact Or.inr ⟨q, List.mem_cons_self _ _, h⟩
      · exact Or.inr ⟨p, List.mem_cons_of_mem _ hp, h⟩
    · rw [if_neg hq]
      rcases ih index with h | ⟨p, hp, h⟩
      · exact Or.inl h
      · exact Or.inr ⟨p, List.mem_cons_of_mem _ hp, h⟩

/-- With resolved renames, the chain of replacements never ends at the old
register of a rename to a different register. -/
theorem rename_index_avoids (renames : List rename_reg_pair) (h : renames_resolved renames)
    (p : rename_reg_pair) (hp : p ∈ renames) (hne : p.old_reg ≠ p.new_reg) (index : Int) :
    rename_index renames index ≠ p.old_reg := by
  induction renames generalizing index with
  | nil => cases hp
  | cons q rest ih =>
    unfold renames_resolved at h
    rw [List.pairwise_cons] at h
    rw [rename_index_cons]
    rcases List.mem_cons.mp hp with hpq | hprest
    · subst hpq
      have hy : (if index = p.old_reg then p.new_reg else index) ≠ p.old_reg := by
        by_cases hi : index = p.old_reg
        · rw [if_pos hi]
          exact fun e => hne e.symm
        · rw [if_neg hi]
          exact hi
      rcases rename_index_eq_or_mem rest (if index = p.old_reg then p.new_reg else index)
        with he | ⟨r, hr, he⟩
      · rw [he]
        exact hy
      · rw [he]
        exact h.1 r hr hne
    · exact ih h.2 hprest _

/-- Appending a rename whose new register is not the old register of an earlier
rename to a different register keeps the renames resolved. -/
theorem renames_resolved_append (renames : List rename_reg_pair) (q : rename_reg_pair)
    (h : renames_resolved renames)
    (hq : ∀ p ∈ renames, p.old_reg ≠ p.new_reg → q.new_reg ≠ p.old_reg) :
    renames_resolved (renames ++ [q]) := by
  unfold renames_resolved at h ⊢
  rw [List.pairwise_append]
  refine ⟨h, List.pairwise_singleton _ _, ?_⟩
  intro p hp r hr
  rw [List.mem_singleton] at hr
  subst hr
  exact hq p hp

/-- One pass of the inner loop of `merge_registers` for the register `i`, which
is in use when the loop starts: the renames stay resolved, and the old register
of every rename to a different register differs from `i` and is unused. -/
theorem merge_registers_inner_inv (i j : Nat) (st st1 : merge_state)
    (hres : renames_resolved st.renames)
    (hold : ∀ p ∈ st.renames, p.old_reg ≠ p.new_reg →
      p.old_reg ≠ (i : Int) ∧ merge_unused st.first_writes p.old_reg)
    (h : merge_registers_inner i j st = some st1) :
    renames_resolved st1.renames
    ∧ ∀ p ∈ st1.renames, p.old_reg ≠ p.new_reg →
        p.old_reg ≠ (i : Int) ∧ merge_unused st1.first_writes p.old_reg := by
  unfold merge_registers_inner at h
  split at h
  · next lr_j fw_j lr_i fw_i _ _ _ _ =>
    split_ifs at h with h1 h2
    · cases h
      exact ⟨hres, hold⟩
    · split at h
      · cases h
      · next last_reads1 hl1 =>
        split at h
        · next first_writes2 last_reads2 hf2 hl2 =>
          cases h
          refine ⟨?_, ?_⟩
          · exact renames_resolved_append _ _ hres (fun p hp hne => ((hold p hp hne).1).symm)
          · intro p hp hne
            have hget := fun k => arr_get_arr_set st.first_writes first_writes2 (j : Int) k (-1)
              hf2
            rcases List.mem_append.mp hp with hp | hp
            · obtain ⟨hpi, x, hx, hxneg⟩ := hold p hp hne
              refine ⟨hpi, ?_⟩
              unfold merge_unused
              rw [hget]
              by_cases hpj : p.old_reg = (j : Int)
              · rw [if_pos hpj]
                exact ⟨-1, rfl, by decide⟩
              · rw [if_neg hpj]
                exact ⟨x, hx, hxneg⟩
            · rw [List.mem_singleton] at hp
              subst hp
              refine ⟨hne, ?_⟩
              unfold merge_unused
              rw [hget]
              simp
        · cases h
    · cases h
      exact ⟨hres, hold⟩
  · cases h

/-- One pass of the outer loop of `merge_registers`: the renames stay resolved and
the old register of every rename to a different register is unused. -/
theorem merge_registers_outer_inv (n i : Nat) (st st1 : merge_state)
    (hres : renames_resolved st.renames)
    (hold : ∀ p ∈ st.renames, p.old_reg ≠ p.new_reg →
      merge_unused st.first_writes p.old_reg)
    (h : merge_registers_outer n i st = some st1) :
    renames_resolved st1.renames
    ∧ ∀ p ∈ st1.renames, p.old_reg ≠ p.new_reg →
        merge_unused st1.first_writes p.old_reg := by
  unfold merge_registers_outer at h
  split at h
  · next lr_i fw_i hlr hfw =>
    split_ifs at h with h1
    · cases h
      exact ⟨hres, hold⟩
    · have hfw0 : ¬ fw_i < 0 := fun e => h1 (Or.inr e)
      have hinv := loop_range_some
        (fun _ (s : merge_state) => renames_resolved s.renames
          ∧ ∀ p ∈ s.renames, p.old_reg ≠ p.new_reg →
              p.old_reg ≠ (i : Int) ∧ merge_unused s.first_writes p.old_reg)
        n (fun j st => merge_registers_inner i j st)
        (fun j _ s s1 hs hstep => merge_registers_inner_inv i j s s1 hs.1 hs.2 hstep)
        st st1
        ⟨hres, fun p hp hne => ⟨fun e => by
            obtain ⟨x, hx, hxneg⟩ := hold p hp hne
            rw [e, hfw] at hx
            have := Option.some.inj hx
            omega, hold p hp hne⟩⟩
        h
      exact ⟨hinv.1, fun p hp hne => (hinv.2 p hp hne).2⟩
  · cases h

/-- The renames `merge_registers` records are resolved. -/
theorem merge_registers_renames_resolved (next_temp : Int)
    (instructions : List glsl_to_tgsi_instruction) (renames : List rename_reg_pair)
    (h : merge_registers_renames next_temp instructions = some renames) :
    renames_resolved renames := by
  unfold merge_registers_renames at h
  simp only at h
  split at h
  · cases h
  · next last_reads first_writes _ =>
    cases hloop : loop_range next_temp.toNat
        (fun i st => merge_registers_outer next_temp.toNat i st)
        ⟨last_reads, first_writes, []⟩ with
    | none => rw [hloop] at h; cases h
    | some st =>
      rw [hloop] at h
      simp only [Option.map_some', Option.some.injEq] at h
      subst h
      have hinv := loop_range_some
        (fun _ (s : merge_state) => renames_resolved s.renames
          ∧ ∀ p ∈ s.renames, p.old_reg ≠ p.new_reg →
              merge_unused s.first_writes p.old_reg)
        next_temp.toNat (fun i st => merge_registers_outer next_temp.toNat i st)
        (fun i _ s s1 hs hstep =>
          merge_registers_outer_inv next_temp.toNat i s s1 hs.1 hs.2 hstep)
        ⟨last_reads, first_writes, []⟩ st
        ⟨List.Pairwise.nil, fun p hp => by cases hp⟩ hloop
      exact hinv.1

/-- The destinations an assignment to a source slot leaves alone. -/
theorem set_src_dst (inst : glsl_to_tgsi_instruction) (j : Nat) (r : st_src_reg) (k : Nat) :
    (inst.set_src j r).dst k = inst.dst k := by
  match j with
  | 0 | 1 | 2 | 3 | _ + 4 =>
    match k with
    | 0 | 1 | _ + 2 => rfl

/-- The destinations an assignment to a texture offset leaves alone. -/
theorem set_tex_offsets_dst (inst : glsl_to_tgsi_instruction) (j : Nat) (r : st_src_reg)
    (k : Nat) : (inst.set_tex_offsets j r).dst k = inst.dst k := by
  match j with
  | 0 | 1 | 2 | 3 | _ + 4 =>
    match k with
    | 0 | 1 | _ + 2 => rfl

/-- The destinations behind an assignment to a destination slot that exists. -/
theorem set_dst_dst (inst : glsl_to_tgsi_instruction) (j : Nat) (r0 r : st_dst_reg)
    (h : inst.dst j = some r0) (k : Nat) :
    (inst.set_dst j r).dst k = if k = j then some r else inst.dst k := by
  match j, h with
  | 0, _ =>
    match k with
    | 0 | 1 | _ + 2 => rfl
  | 1, _ =>
    match k with
    | 0 | 1 | _ + 2 => rfl
  | _ + 2, h => cases h

/-- The body of `rename_temp_registers` on one instruction renames the index of
every temporary in a destination slot in use. -/
theorem rename_temp_registers_inst_dst (renames : List rename_reg_pair)
    (inst inst1 : glsl_to_tgsi_instruction)
    (h : rename_temp_registers_inst renames inst = some inst1) :
    ∀ k, k < num_inst_dst_regs inst → ∃ r, inst.dst k = some r ∧
      inst1.dst k = some (if r.file = PROGRAM_TEMPORARY
        then { r with index := rename_index renames r.index } else r) := by
  unfold rename_temp_registers_inst at h
  simp only [] at h
  split at h
  · cases h
  · next a hs =>
    split at h
    · cases h
    · next b ht =>
      have h1 := loop_range_some
        (fun _ (x : glsl_to_tgsi_instruction) => x.info = inst.info ∧ ∀ k, x.dst k = inst.dst k)
        (num_inst_src_regs inst) _ ?_ inst a ⟨rfl, fun _ => rfl⟩ hs
      swap
      · intro j _ x x1 ⟨hi, hd⟩ hf
        split at hf
        · cases hf
        · next r hr =>
          split_ifs at hf
          · cases hf
            exact ⟨(set_src_spec x j r _ hr).2.2.1.trans hi,
              fun k => (set_src_dst x j _ k).trans (hd k)⟩
          · cases hf
            exact ⟨hi, hd⟩
      have h2 := loop_range_some
        (fun _ (x : glsl_to_tgsi_instruction) => x.info = inst.info ∧ ∀ k, x.dst k = inst.dst k)
        a.tex_offset_num_offset _ ?_ a b h1 ht
      swap
      · intro j _ x x1 ⟨hi, hd⟩ hf
        split at hf
        · cases hf
        · next r hr =>
          split_ifs at hf
          · cases hf
            exact ⟨(set_tex_offsets_spec x j r _ hr).2.2.1.trans hi,
              fun k => (set_tex_offsets_dst x j _ k).trans (hd k)⟩
          · cases hf
            exact ⟨hi, hd⟩
      obtain ⟨bi, bd⟩ := h2
      have hnum : num_inst_dst_regs b = num_inst_dst_regs inst := by
        unfold num_inst_dst_regs
        rw [bi]
      rw [hnum] at h
      have h3 := loop_range_some
        (fun j (x : glsl_to_tgsi_instruction) =>
          ∀ k, (k < j → ∃ r, inst.dst k = some r ∧
              x.dst k = some (if r.file = PROGRAM_TEMPORARY
                then { r with index := rename_index renames r.index } else r))
            ∧ (¬ k < j → x.dst k = inst.dst k))
        (num_inst_dst_regs inst) _ ?_ b inst1
        (fun k => ⟨fun hk => absurd hk (Nat.not_lt_zero _), fun _ => bd k⟩) h
      swap
      · intro j _ x x1 hd hf
        split at hf
        · cases hf
        · next r hr =>
          have hr0 : inst.dst j = some r := by rw [← (hd j).2 (lt_irrefl _)]; exact hr
          by_cases hfile : r.file = PROGRAM_TEMPORARY
          · rw [if_pos hfile] at hf
            cases hf
            intro k
            rw [set_dst_dst x j r _ hr k]
            constructor
            · intro hk
              by_cases hkj : k = j
              · subst hkj
                exact ⟨r, hr0, by simp [hfile]⟩
              · rw [if_neg hkj]
                exact (hd k).1 (by omega)
            · intro hk
              have hkj : k ≠ j := by omega
              rw [if_neg hkj]
              exact (hd k).2 (by omega)
          · rw [if_neg hfile] at hf
            cases hf
            intro k
            refine ⟨fun hk => ?_, fun hk => (hd k).2 (by omega)⟩
            by_cases hkj : k = j
            · subst hkj
              exact ⟨r, hr0, by rw [if_neg hfile]; exact hr⟩
            · exact (hd k).1 (by omega)
      exact fun k hk => (h3 k).1 hk

/-- Every instruction of the list `rename_temp_registers` returns is the rewriting
of an instruction of the list it was given. -/
theorem rename_temp_registers_mem (renames : List rename_reg_pair)
    (instructions : List glsl_to_tgsi_instruction) :
    ∀ instructions1, rename_temp_registers renames instructions = some instructions1 →
      ∀ inst1 ∈ instructions1, ∃ inst ∈ instructions,
        rename_temp_registers_inst renames inst = some inst1 := by
  induction instructions with
  | nil =>
    intro l h inst1 hmem
    simp only [rename_temp_registers, Option.some.injEq] at h
    subst h
    cases hmem
  | cons inst rest ih =>
    intro l h inst1 hmem
    simp only [rename_temp_registers] at h
    split at h
    · next i1 rest1 h1 h2 =>
      simp only [Option.some.injEq] at h
      subst h
      rcases List.mem_cons.mp hmem with he | hin
      · subst he
        exact ⟨inst, List.mem_cons_self _ _, h1⟩
      · obtain ⟨i0, hi0, hr⟩ := ih rest1 h2 inst1 hin
        exact ⟨i0, List.mem_cons_of_mem _ hi0, hr⟩
    · cases h

/-- C37: rename resolution in `merge_registers` is complete.  When the pass
returns, it has applied the renames it recorded, and for every rename of a
register to a different register the old register no longer occurs as the index
of a temporary in a source slot, a texture offset or a destination slot in use
of any instruction; the chain of replacements of `rename_temp_registers` ends at
no such register, whatever index it starts from. -/
theorem merge_registers_resolves_renames (v v1 : glsl_to_tgsi_visitor)
    (h : merge_registers v = some v1) :
    ∃ renames, merge_registers_renames v.next_temp v.instructions = some renames
      ∧ rename_temp_registers renames v.instructions = some v1.instructions
      ∧ ∀ p ∈ renames, p.old_reg ≠ p.new_reg →
          (∀ index, rename_index renames index ≠ p.old_reg)
          ∧ ∀ inst ∈ v1.instructions,
              (∀ k r, k < num_inst_src_regs inst → inst.src k = some r →
                r.file = PROGRAM_TEMPORARY → r.index ≠ p.old_reg)
              ∧ (∀ k r, k < inst.tex_offset_num_offset → inst.tex_offsets k = some r →
                r.file = PROGRAM_TEMPORARY → r.index ≠ p.old_reg)
              ∧ (∀ k r, k < num_inst_dst_regs inst → inst.dst k = some r →
                r.file = PROGRAM_TEMPORARY → r.index ≠ p.old_reg) := by
  unfold merge_registers at h
  cases hren : merge_registers_renames v.next_temp v.instructions with
  | none => rw [hren] at h; cases h
  | some renames =>
    rw [hren] at h
    simp only at h
    cases hrw : rename_temp_registers renames v.instructions with
    | none => rw [hrw] at h; cases h
    | some insts1 =>
      rw [hrw] at h
      simp only [Option.map_some', Option.some.injEq] at h
      subst h
      have hres := merge_registers_renames_resolved v.next_temp v.instructions renames hren
      refine ⟨renames, rfl, hrw, fun p hp hne => ?_⟩
      have havoid := rename_index_avoids renames hres p hp hne
      refine ⟨havoid, fun inst1 hinst1 => ?_⟩
      obtain ⟨inst, _, hinst⟩ := rename_temp_registers_mem renames v.instructions insts1 hrw
        inst1 hinst1
      obtain ⟨hi, hn, hsr, hto⟩ := rename_temp_registers_inst_spec renames inst inst1 hinst
      have hds := rename_temp_registers_inst_dst renames inst inst1 hinst
      have hns : num_inst_src_regs inst1 = num_inst_src_regs inst := by
        unfold num_inst_src_regs
        rw [hi]
      have hnd : num_inst_dst_regs inst1 = num_inst_dst_regs inst := by
        unfold num_inst_dst_regs
        rw [hi]
      refine ⟨fun k r hk hr hfile => ?_, fun k r hk hr hfile => ?_, fun k r hk hr hfile => ?_⟩
      · obtain ⟨r0, _, hr1⟩ := hsr k (by rw [← hns]; exact hk)
        rw [hr1] at hr
        have hr2 := Option.some.inj hr
        by_cases hf0 : r0.file = PROGRAM_TEMPORARY
        · rw [if_pos hf0] at hr2
          rw [← hr2, (rename_operand_spec renames r0).2]
          exact havoid _
        · rw [if_neg hf0] at hr2
          rw [hr2] at hf0
          exact absurd hfile hf0
      · obtain ⟨r0, _, hr1⟩ := hto k (by rw [← hn]; exact hk)
        rw [hr1] at hr
        have hr2 := Option.some.inj hr
        by_cases hf0 : r0.file = PROGRAM_TEMPORARY
        · rw [if_pos hf0] at hr2
          rw [← hr2, (rename_operand_spec renames r0).2]
          exact havoid _
        · rw [if_neg hf0] at hr2
          rw [hr2] at hf0
          exact absurd hfile hf0
      · obtain ⟨r0, _, hr1⟩ := hds k (by rw [← hnd]; exact hk)
        rw [hr1] at hr
        have hr2 := Option.some.inj hr
        by_cases hf0 : r0.file = PROGRAM_TEMPORARY
        · rw [if_pos hf0] at hr2
          rw [← hr2]
          exact havoid _
        · rw [if_neg hf0] at hr2
          rw [hr2] at hf0
          exact absurd hfile hf0

/-- Witness for C37: on `example_rename_chain` with three temporaries
`merge_registers` records the renames 2 to 0 and 0 to 1 and returns
`example_rename_chain_output`, in which neither `TEMP[2]` nor `TEMP[0]` occurs. -/
theorem merge_registers_resolves_renames_witness :
    merge_registers_renames 3 example_rename_chain = some [⟨2, 0⟩, ⟨0, 1⟩]
    ∧ ∃ renames,
      merge_registers_renames (example_visitor_with 3 example_rename_chain).next_temp
          (example_visitor_with 3 example_rename_chain).instructions = some renames
      ∧ rename_temp_registers renames (example_visitor_with 3 example_rename_chain).instructions
          = some (example_visitor_with 3 example_rename_chain_output).instructions
      ∧ ∀ p ∈ renames, p.old_reg ≠ p.new_reg →
          (∀ index, rename_index renames index ≠ p.old_reg)
          ∧ ∀ inst ∈ (example_visitor_with 3 example_rename_chain_output).instructions,
              (∀ k r, k < num_inst_src_regs inst → inst.src k = some r →
                r.file = PROGRAM_TEMPORARY → r.index ≠ p.old_reg)
              ∧ (∀ k r, k < inst.tex_offset_num_offset → inst.tex_offsets k = some r →
                r.file = PROGRAM_TEMPORARY → r.index ≠ p.old_reg)
              ∧ (∀ k r, k < num_inst_dst_regs inst → inst.dst k = some r →
                r.file = PROGRAM_TEMPORARY → r.index ≠ p.old_reg) :=
  ⟨by decide!,
    merge_registers_resolves_renames (example_visitor_with 3 example_rename_chain)
      (example_visitor_with 3 example_rename_chain_output) (by decide!)⟩

/-! ## Loops in the live-range tables -/

/-- The depth behind a list extended by one instruction. -/
theorem loop_depth_snoc (pre : List glsl_to_tgsi_instruction)
    (inst : glsl_to_tgsi_instruction) :
    loop_depth (pre ++ [inst])
      = loop_depth pre
        + (if inst.op = TGSI_OPCODE_BGNLOOP then 1
           else if inst.op = TGSI_OPCODE_ENDLOOP then -1 else 0) := by
  unfold loop_depth
  rw [List.countP_append, List.countP_append]
  by_cases hb : inst.op = TGSI_OPCODE_BGNLOOP
  · have he : ¬ inst.op = TGSI_OPCODE_ENDLOOP := by rw [hb]; decide
    simp [List.countP_cons, hb]
    omega
  · by_cases he : inst.op = TGSI_OPCODE_ENDLOOP
    · simp [List.countP_cons, hb, he]
      omega
    · simp [List.countP_cons, hb, he]

/-- A prefix of a list extended at its end. -/
theorem take_snoc_of_le (pre : List glsl_to_tgsi_instruction)
    (inst : glsl_to_tgsi_instruction) (q : Nat) (hq : q ≤ pre.length) :
    (pre ++ [inst]).take q = pre.take q := by
  rw [List.take_append_of_le_length hq]

/-- The outermost open loop stays the same when an instruction is appended that
leaves the depth positive. -/
theorem outermost_loop_start_snoc (pre : List glsl_to_tgsi_instruction)
    (inst : glsl_to_tgsi_instruction) (s : Nat) (h : outermost_loop_start pre s)
    (hs : s < pre.length) (hd : 0 < loop_depth (pre ++ [inst])) :
    outermost_loop_start (pre ++ [inst]) s := by
  obtain ⟨h1, h2, h3⟩ := h
  refine ⟨?_, ?_, ?_⟩
  · rw [List.getElem?_append_left hs]
    exact h1
  · rw [take_snoc_of_le pre inst s (by omega)]
    exact h2
  · intro q hsq hq
    rw [List.length_append, List.length_singleton] at hq
    by_cases hql : q ≤ pre.length
    · rw [take_snoc_of_le pre inst q hql]
      exact h3 q hsq hql
    · have : q = (pre ++ [inst]).length := by
        rw [List.length_append, List.length_singleton]
        omega
      rw [this, List.take_length]
      exact hd

/-- The position of the outermost open `BGNLOOP` lies inside the list. -/
theorem outermost_loop_start_lt (pre : List glsl_to_tgsi_instruction) (s : Nat)
    (h : outermost_loop_start pre s) : s < pre.length := by
  obtain ⟨h1, _, _⟩ := h
  by_contra hcon
  rw [List.getElem?_eq_none (by omega)] at h1
  cases h1

/-- The loop bookkeeping of the live-range scans computes the depth and the
position of the outermost open `BGNLOOP`. -/
theorem loop_tracker_at_advance (pre : List glsl_to_tgsi_instruction)
    (inst : glsl_to_tgsi_instruction) (t t1 : loop_tracker) (ht : loop_tracker_at pre t)
    (h : t.advance inst.op = some t1) : loop_tracker_at (pre ++ [inst]) t1 := by
  obtain ⟨hi, hdep, h0, hstart⟩ := ht
  have hsn := loop_depth_snoc pre inst
  unfold loop_tracker.advance at h
  simp only [] at h
  have hne : ¬ (TGSI_OPCODE_ENDLOOP = TGSI_OPCODE_BGNLOOP) := by decide
  by_cases hb : inst.op = TGSI_OPCODE_BGNLOOP
  · rw [if_pos hb] at hsn
    have hc : ¬ (t.depth + 1 < 0) := by omega
    simp only [hb, if_true, hc, if_false, Option.some.injEq] at h
    subst h
    have hpos : 0 < loop_depth (pre ++ [inst]) := by rw [hsn]; omega
    refine ⟨by simp [hi], (by show t.depth + 1 = _; rw [hsn, hdep]),
      (by show 0 ≤ t.depth + 1; omega), fun _ => ?_⟩
    by_cases hz : t.depth = 0
    · refine ⟨pre.length, ?_, ?_, ?_, ?_⟩
      · show (if t.depth = 0 then (t.i : Int) else t.loop_start) = _
        rw [if_pos hz, hi]
      · rw [List.getElem?_append_right (le_refl _)]
        simp [hb]
      · rw [take_snoc_of_le pre inst pre.length (le_refl _), List.take_length, ← hdep]
        exact hz
      · intro q hsq hq
        rw [List.length_append, List.length_singleton] at hq
        have : q = (pre ++ [inst]).length := by
          rw [List.length_append, List.length_singleton]
          omega
        rw [this, List.take_length]
        exact hpos
    · obtain ⟨s, hs, hout⟩ := hstart (by omega)
      refine ⟨s, ?_, ?_⟩
      · show (if t.depth = 0 then (t.i : Int) else t.loop_start) = _
        rw [if_neg hz, hs]
      · exact outermost_loop_start_snoc pre inst s hout (outermost_loop_start_lt pre s hout)
          hpos
  · rw [if_neg hb] at hsn
    by_cases he : inst.op = TGSI_OPCODE_ENDLOOP
    · rw [if_pos he] at hsn
      simp only [he, hne, if_true, if_false] at h
      by_cases hc : t.depth - 1 < 0
      · simp only [hc, if_true] at h
        cases h
      · simp only [hc, if_false, Option.some.injEq] at h
        subst h
        refine ⟨by simp [hi], (by show t.depth - 1 = _; rw [hsn, hdep]; omega),
          (by show 0 ≤ t.depth - 1; omega), fun hp => ?_⟩
        have hp1 : 0 < t.depth - 1 := hp
        have hz : ¬ (t.depth - 1 = 0) := by omega
        obtain ⟨s, hs, hout⟩ := hstart (by omega)
        refine ⟨s, ?_, ?_⟩
        · show (if t.depth - 1 = 0 then (-1 : Int) else t.loop_start) = _
          rw [if_neg hz, hs]
        · exact outermost_loop_start_snoc pre inst s hout (outermost_loop_start_lt pre s hout)
            (by rw [hsn]; omega)
    · rw [if_neg he] at hsn
      have hc : ¬ (t.depth < 0) := by omega
      simp only [hb, he, if_false, hc, Option.some.injEq] at h
      subst h
      refine ⟨by simp [hi], (by show t.depth = _; rw [hsn, hdep]; omega), h0, fun hp => ?_⟩
      have hp1 : 0 < t.depth := hp
      obtain ⟨s, hs, hout⟩ := hstart hp1
      refine ⟨s, hs, ?_⟩
      exact outermost_loop_start_snoc pre inst s hout (outermost_loop_start_lt pre s hout)
        (by rw [hsn]; omega)

/-- The loop state in front of the first instruction. -/
theorem loop_tracker_at_nil : loop_tracker_at [] ⟨0, -1, 0⟩ :=
  ⟨rfl, rfl, le_refl _, fun h => absurd h (by decide)⟩

/-- The value the first-access tables record for an access in the loop state `t`
is the one `recorded_first` describes. -/
theorem recorded_first_of_tracker (pre : List glsl_to_tgsi_instruction) (t : loop_tracker)
    (ht : loop_tracker_at pre t) :
    recorded_first pre (if t.depth = 0 then (t.i : Int) else t.loop_start)
    ∧ 0 ≤ (if t.depth = 0 then (t.i : Int) else t.loop_start) := by
  obtain ⟨hi, hdep, h0, hstart⟩ := ht
  by_cases hz : t.depth = 0
  · rw [if_pos hz]
    exact ⟨Or.inl ⟨by rw [← hdep]; exact hz, by rw [hi]⟩, Int.ofNat_nonneg _⟩
  · rw [if_neg hz]
    obtain ⟨s, hs, hout⟩ := hstart (by omega)
    exact ⟨Or.inr ⟨by rw [← hdep]; omega, s, hs, hout⟩, by rw [hs]; exact Int.ofNat_nonneg _⟩

/-- A table is its own update over no index. -/
theorem table_update_empty (C : Option Int → Prop) (value : Int) (table : List Int) :
    table_update C value (fun _ => False) table table :=
  ⟨rfl, fun _ h => absurd h id, fun _ h => absurd h id, fun _ _ => rfl⟩

/-- An update over a set of indices is an update over every set with the same
elements. -/
theorem table_update_congr (C : Option Int → Prop) (value : Int) (S S1 : Int → Prop)
    (table table1 : List Int) (hS : ∀ a, S a ↔ S1 a)
    (h : table_update C value S table table1) : table_update C value S1 table table1 := by
  obtain ⟨h0, h1, h2, h3⟩ := h
  exact ⟨h0, fun a ha => h1 a ((hS a).mpr ha), fun a ha hc => h2 a ((hS a).mpr ha) hc,
    fun a ha => h3 a (fun hn => ha ⟨(hS a).mp hn.1, hn.2⟩)⟩

/-- Two updates with the same value, one after the other, are one update over the
union of the index sets. -/
theorem table_update_comp (C : Option Int → Prop) (value : Int) (S1 S2 : Int → Prop)
    (t t1 t2 : List Int) (h1 : table_update C value S1 t t1)
    (h2 : table_update C value S2 t1 t2) :
    table_update C value (fun a => S1 a ∨ S2 a) t t2 := by
  obtain ⟨a0, a1, a2, a3⟩ := h1
  obtain ⟨b0, b1, b2, b3⟩ := h2
  have hstep : ∀ a, arr_get t1 a = some value ∨ arr_get t1 a = arr_get t a := by
    intro a
    by_cases hc : S1 a ∧ C (arr_get t a)
    · exact Or.inl (a2 a hc.1 hc.2)
    · exact Or.inr (a3 a hc)
  refine ⟨b0.trans a0, ?_, ?_, ?_⟩
  · rintro a (ha | ha)
    · exact a1 a ha
    · obtain ⟨x, hx⟩ := b1 a ha
      by_cases hc : S1 a ∧ C (arr_get t a)
      · exact a1 a hc.1
      · rw [a3 a hc] at hx
        exact ⟨x, hx⟩
  · intro a ha hc
    by_cases h1 : S1 a
    · have ht1 : arr_get t1 a = some value := a2 a h1 hc
      by_cases h2 : S2 a ∧ C (arr_get t1 a)
      · exact b2 a h2.1 h2.2
      · rw [b3 a h2]
        exact ht1
    · have h2 : S2 a := ha.resolve_left h1
      have ht1 : arr_get t1 a = arr_get t a := a3 a (fun hn => h1 hn.1)
      exact b2 a h2 (by rw [ht1]; exact hc)
  · intro a hn
    have hn1 : ¬ (S1 a ∧ C (arr_get t a)) := fun h => hn ⟨Or.inl h.1, h.2⟩
    have ht1 : arr_get t1 a = arr_get t a := a3 a hn1
    have hn2 : ¬ (S2 a ∧ C (arr_get t1 a)) := by
      rw [ht1]
      exact fun h => hn ⟨Or.inr h.1, h.2⟩
    rw [b3 a hn2, ht1]

/-- The statement `if (table[index] == -1) table[index] = value` as an update. -/
theorem set_if_unset_update (table table1 : List Int) (index value : Int)
    (h : set_if_unset table index value = some table1) :
    table_update (fun o => o = some (-1)) value (fun a => a = index) table table1 := by
  unfold set_if_unset at h
  cases hcur : arr_get table index with
  | none => rw [hcur] at h; cases h
  | some cur =>
    rw [hcur] at h
    simp only at h
    by_cases hneg : cur = -1
    · rw [if_pos hneg] at h
      have hget := fun k => arr_get_arr_set table table1 index k value h
      have hlen : table1.length = table.length := by
        unfold arr_set at h
        split_ifs at h
        cases h
        simp
      refine ⟨hlen, fun a ha => ⟨cur, by rw [ha]; exact hcur⟩, fun a ha _ => ?_, fun a hn => ?_⟩
      · rw [hget a, if_pos ha]
      · have hne : ¬ a = index := fun e => hn ⟨e, by rw [e, hcur, hneg]⟩
        rw [hget a, if_neg hne]
    · rw [if_neg hneg] at h
      cases h
      refine ⟨rfl, fun a ha => ⟨cur, by rw [ha]; exact hcur⟩, fun a ha hc => ?_, fun _ _ => rfl⟩
      rw [ha, hcur] at hc
      exact absurd (Option.some.inj hc) hneg

/-- The statement `table[index] = value` as an update. -/
theorem arr_set_update (table table1 : List Int) (index value : Int)
    (h : arr_set table index value = some table1) :
    table_update (fun _ => True) value (fun a => a = index) table table1 := by
  have hget := fun k => arr_get_arr_set table table1 index k value h
  unfold arr_set at h
  split_ifs at h with hin
  cases h
  refine ⟨by simp, fun a ha => ?_, fun a ha _ => ?_, fun a hn => ?_⟩
  · rw [ha]
    unfold arr_get
    rw [if_pos hin.1, List.getElem?_eq_getElem hin.2]
    exact ⟨_, rfl⟩
  · rw [hget a, if_pos ha]
  · have hne : ¬ a = index := fun e => hn ⟨e, trivial⟩
    rw [hget a, if_neg hne]

/-- A loop over the operand slots `0 .. m - 1` that updates the table at the index
of every slot holding a temporary is one update over the temporaries in these
slots. -/
theorem slots_update {ρ : Type} (file : ρ → gl_register_file) (index : ρ → Int)
    (C : Option Int → Prop) (value : Int) (upd : List Int → Int → Int → Option (List Int))
    (hupd : ∀ tbl idx tbl1, upd tbl idx value = some tbl1 →
      table_update C value (fun a => a = idx) tbl tbl1)
    (slots : Nat → Option ρ) (m : Nat) (f : Nat → List Int → Option (List Int))
    (hf : ∀ j s s1, f j s = some s1 → ∃ r, slots j = some r
      ∧ (if file r = PROGRAM_TEMPORARY then upd s (index r) value else some s) = some s1)
    (s s1 : List Int) (h : loop_range m f s = some s1) :
    table_update C value (fun a => ∃ j r, j < m ∧ slots j = some r
      ∧ file r = PROGRAM_TEMPORARY ∧ index r = a) s s1 := by
  refine loop_range_some
    (fun k x => table_update C value (fun a => ∃ j r, j < k ∧ slots j = some r
      ∧ file r = PROGRAM_TEMPORARY ∧ index r = a) s x) m f ?_ s s1 ?_ h
  · intro j _ x x1 hx hstep
    obtain ⟨r, hslot, hm⟩ := hf j x x1 hstep
    · by_cases hfile : file r = PROGRAM_TEMPORARY
      · rw [if_pos hfile] at hm
        refine table_update_congr C value _ _ s x1 ?_
          (table_update_comp C value _ _ s x x1 hx (hupd x (index r) x1 hm))
        intro a
        constructor
        · rintro (⟨j1, r1, hj1, hs1, hf1, hi1⟩ | ha)
          · exact ⟨j1, r1, by omega, hs1, hf1, hi1⟩
          · exact ⟨j, r, by omega, hslot, hfile, ha.symm⟩
        · rintro ⟨j1, r1, hj1, hs1, hf1, hi1⟩
          by_cases hjj : j1 = j
          · subst hjj
            rw [hslot] at hs1
            cases hs1
            exact Or.inr hi1.symm
          · exact Or.inl ⟨j1, r1, by omega, hs1, hf1, hi1⟩
      · rw [if_neg hfile] at hm
        cases hm
        refine table_update_congr C value _ _ s x ?_ hx
        intro a
        constructor
        · rintro ⟨j1, r1, hj1, hs1, hf1, hi1⟩
          exact ⟨j1, r1, by omega, hs1, hf1, hi1⟩
        · rintro ⟨j1, r1, hj1, hs1, hf1, hi1⟩
          by_cases hjj : j1 = j
          · subst hjj
            rw [hslot] at hs1
            cases hs1
            exact absurd hf1 hfile
          · exact ⟨j1, r1, by omega, hs1, hf1, hi1⟩
  · exact table_update_congr C value _ _ s s
      (fun a => ⟨fun hfalse => absurd hfalse id,
        fun ⟨_, _, hj, _⟩ => absurd hj (Nat.not_lt_zero _)⟩)
      (table_update_empty C value s)

/-- The temporaries an instruction writes are those in its destination slots in
use. -/
theorem mem_inst_temps_written (inst : glsl_to_tgsi_instruction) (a : Int) :
    a ∈ inst_temps_written inst ↔
      ∃ j r, j < num_inst_dst_regs inst ∧ inst.dst j = some r ∧ r.file = PROGRAM_TEMPORARY
        ∧ r.index = a := by
  unfold inst_temps_written
  simp only [List.mem_filterMap, List.mem_range]
  constructor
  · rintro ⟨r, ⟨j, hj, hs⟩, hf⟩
    by_cases hfile : r.file = PROGRAM_TEMPORARY
    · simp only [hfile, if_true, Option.some.injEq] at hf
      exact ⟨j, r, hj, hs, hfile, hf⟩
    · simp only [hfile, if_false] at hf
      cases hf
  · rintro ⟨j, r, hj, hs, hfile, hi⟩
    exact ⟨r, ⟨j, hj, hs⟩, by simp [hfile, hi]⟩

/-- The body of `get_first_temp_read` for one instruction sets the entries that are
still `-1` of the temporaries the instruction reads. -/
theorem get_first_temp_read_inst_update (t : loop_tracker)
    (inst : glsl_to_tgsi_instruction) (first_reads first_reads1 : List Int)
    (h : get_first_temp_read_inst t inst first_reads = some first_reads1) :
    table_update (fun o => o = some (-1)) (if t.depth = 0 then (t.i : Int) else t.loop_start)
      (fun a => a ∈ inst_temps_read inst) first_reads first_reads1 := by
  unfold get_first_temp_read_inst at h
  simp only [] at h
  split at h
  · cases h
  · next fr1 hs =>
    have h1 := slots_update st_src_reg.file st_src_reg.index (fun o => o = some (-1))
      (if t.depth = 0 then (t.i : Int) else t.loop_start)
      set_if_unset (fun tbl idx tbl1 hu => set_if_unset_update tbl tbl1 idx _ hu)
      inst.src _ _ (fun j s s1 hf => by
        split at hf
        · cases hf
        · next r hr => exact ⟨r, hr, hf⟩) first_reads fr1 hs
    have h2 := slots_update st_src_reg.file st_src_reg.index (fun o => o = some (-1))
      (if t.depth = 0 then (t.i : Int) else t.loop_start)
      set_if_unset (fun tbl idx tbl1 hu => set_if_unset_update tbl tbl1 idx _ hu)
      inst.tex_offsets _ _ (fun j s s1 hf => by
        split at hf
        · cases hf
        · next r hr => exact ⟨r, hr, hf⟩) fr1 first_reads1 h
    refine table_update_congr _ _ _ _ _ _ ?_ (table_update_comp _ _ _ _ _ _ _ h1 h2)
    intro a
    rw [mem_inst_temps_read]

/-- The body of `get_last_temp_read_first_temp_write` for one instruction sets the
entries of the temporaries the instruction reads in the first table and the
entries that are still `-1` of the temporaries it writes in the second. -/
theorem get_last_temp_read_first_temp_write_inst_update (t : loop_tracker)
    (inst : glsl_to_tgsi_instruction) (tables tables1 : List Int × List Int)
    (h : get_last_temp_read_first_temp_write_inst t inst tables = some tables1) :
    table_update (fun _ => True) (if t.depth = 0 then (t.i : Int) else -2)
      (fun a => a ∈ inst_temps_read inst) tables.1 tables1.1
    ∧ table_update (fun o => o = some (-1))
        (if t.depth = 0 then (t.i : Int) else t.loop_start)
        (fun a => a ∈ inst_temps_written inst) tables.2 tables1.2 := by
  unfold get_last_temp_read_first_temp_write_inst at h
  simp only [] at h
  split at h
  · cases h
  · next lr1 hs =>
    split at h
    · cases h
    · next fw1 hd =>
      split at h
      · cases h
      · next lr2 ho =>
        cases h
        have h1 := slots_update st_src_reg.file st_src_reg.index (fun _ => True)
          (if t.depth = 0 then (t.i : Int) else -2)
          (@arr_set Int) (fun tbl idx tbl1 hu => arr_set_update tbl tbl1 idx _ hu)
          inst.src _ _ (fun j s s1 hf => by
        split at hf
        · cases hf
        · next r hr => exact ⟨r, hr, hf⟩) tables.1 lr1 hs
        have h2 := slots_update st_src_reg.file st_src_reg.index (fun _ => True)
          (if t.depth = 0 then (t.i : Int) else -2)
          (@arr_set Int) (fun tbl idx tbl1 hu => arr_set_update tbl tbl1 idx _ hu)
          inst.tex_offsets _ _ (fun j s s1 hf => by
        split at hf
        · cases hf
        · next r hr => exact ⟨r, hr, hf⟩) lr1 lr2 ho
        have h3 := slots_update st_dst_reg.file st_dst_reg.index (fun o => o = some (-1))
          (if t.depth = 0 then (t.i : Int) else t.loop_start)
          set_if_unset (fun tbl idx tbl1 hu => set_if_unset_update tbl tbl1 idx _ hu)
          inst.dst _ _ (fun j s s1 hf => by
        split at hf
        · cases hf
        · next r hr => exact ⟨r, hr, hf⟩) tables.2 fw1 hd
        refine ⟨?_, ?_⟩
        · refine table_update_congr _ _ _ _ _ _ ?_ (table_update_comp _ _ _ _ _ _ _ h1 h2)
          intro a
          rw [mem_inst_temps_read]
        · refine table_update_congr _ _ _ _ _ _ ?_ h3
          intro a
          rw [mem_inst_temps_written]

/-- A first access in a list extended by one instruction that lies in the old
list is a first access of the old list. -/
theorem first_occurrence_snoc_lt (S : glsl_to_tgsi_instruction → List Int)
    (pre : List glsl_to_tgsi_instruction) (inst : glsl_to_tgsi_instruction) (a : Int)
    (p : Nat) (h : first_occurrence S (pre ++ [inst]) a p) (hp : p < pre.length) :
    first_occurrence S pre a p := by
  obtain ⟨i0, hget, hmem, hbefore⟩ := h
  rw [List.getElem?_append_left hp] at hget
  refine ⟨i0, hget, hmem, fun q i hq hi => hbefore q i hq ?_⟩
  rw [List.getElem?_append_left (by omega)]
  exact hi

/-- A first access in a list extended by one instruction that does not lie in the
old list is an access of the new instruction, and the old list has none. -/
theorem first_occurrence_snoc_eq (S : glsl_to_tgsi_instruction → List Int)
    (pre : List glsl_to_tgsi_instruction) (inst : glsl_to_tgsi_instruction) (a : Int)
    (p : Nat) (h : first_occurrence S (pre ++ [inst]) a p) (hp : ¬ p < pre.length) :
    p = pre.length ∧ a ∈ S inst ∧ ∀ i ∈ pre, a ∉ S i := by
  obtain ⟨i0, hget, hmem, hbefore⟩ := h
  have hple : p = pre.length := by
    by_contra hne
    rw [List.getElem?_eq_none (by rw [List.length_append, List.length_singleton]; omega)]
      at hget
    cases hget
  subst hple
  rw [List.getElem?_append_right (le_refl _)] at hget
  simp only [Nat.sub_self, List.getElem?_cons_zero, Option.some.injEq] at hget
  subst hget
  refine ⟨rfl, hmem, fun i hi => ?_⟩
  obtain ⟨q, hq, hqi⟩ := List.getElem_of_mem hi
  refine hbefore q i hq ?_
  rw [List.getElem?_append_left hq, List.getElem?_eq_getElem hq, hqi]

/-- The last access in a list extended by one instruction is the new instruction
if it accesses the temporary, else the last access of the old list. -/
theorem last_occurrence_snoc (S : glsl_to_tgsi_instruction → List Int)
    (pre : List glsl_to_tgsi_instruction) (inst : glsl_to_tgsi_instruction) (a : Int)
    (p : Nat) (h : last_occurrence S (pre ++ [inst]) a p) :
    (a ∈ S inst ∧ p = pre.length)
    ∨ (a ∉ S inst ∧ p < pre.length ∧ last_occurrence S pre a p) := by
  obtain ⟨i0, hget, hmem, hafter⟩ := h
  have hlast : (pre ++ [inst])[pre.length]? = some inst := by
    rw [List.getElem?_append_right (le_refl _)]
    simp
  by_cases hp : p < pre.length
  · right
    refine ⟨hafter pre.length inst hp hlast, hp, i0, ?_, hmem, fun q i hq hi => ?_⟩
    · rw [List.getElem?_append_left hp] at hget
      exact hget
    · have hql : q < pre.length := by
        by_contra hcon
        rw [List.getElem?_eq_none (by omega)] at hi
        cases hi
      refine hafter q i hq ?_
      rw [List.getElem?_append_left hql]
      exact hi
  · left
    have hple : p = pre.length := by
      by_contra hne
      rw [List.getElem?_eq_none (by rw [List.length_append, List.length_singleton]; omega)]
        at hget
      cases hget
    subst hple
    rw [hlast] at hget
    cases hget
    exact ⟨hmem, rfl⟩

/-- One instruction of a scan keeps the invariant of a table of first accesses. -/
theorem first_table_step (S : glsl_to_tgsi_instruction → List Int)
    (pre : List glsl_to_tgsi_instruction) (inst : glsl_to_tgsi_instruction)
    (t : loop_tracker) (table table1 : List Int) (ht : loop_tracker_at pre t)
    (hinv : first_table_inv S pre table)
    (h : table_update (fun o => o = some (-1))
      (if t.depth = 0 then (t.i : Int) else t.loop_start) (fun a => a ∈ S inst)
      table table1) :
    first_table_inv S (pre ++ [inst]) table1 := by
  obtain ⟨hnever, hfirst⟩ := hinv
  obtain ⟨_, u1, u2, u3⟩ := h
  obtain ⟨hrec, hval⟩ := recorded_first_of_tracker pre t ht
  refine ⟨?_, ?_⟩
  · intro a ha x hx
    have hnot : a ∉ S inst := ha inst (by simp)
    rw [u3 a (fun hn => hnot hn.1)] at hx
    exact hnever a (fun i hi => ha i (List.mem_append_left _ hi)) x hx
  · intro a p hp
    by_cases hlt : p < pre.length
    · obtain ⟨v, hv, hv0, hvr⟩ := hfirst a p (first_occurrence_snoc_lt S pre inst a p hp hlt)
      refine ⟨v, ?_, hv0, ?_⟩
      · rw [u3 a (fun hn => by
          have := hn.2
          rw [hv] at this
          have := Option.some.inj this
          omega)]
        exact hv
      · rw [take_snoc_of_le pre inst p (by omega)]
        exact hvr
    · obtain ⟨hpe, hmem, hno⟩ := first_occurrence_snoc_eq S pre inst a p hp hlt
      subst hpe
      obtain ⟨x, hx⟩ := u1 a hmem
      have hx1 : x = -1 := hnever a hno x hx
      refine ⟨_, u2 a hmem (by rw [hx, hx1]), hval, ?_⟩
      rw [take_snoc_of_le pre inst pre.length (le_refl _), List.take_length]
      exact hrec

/-- A table of `-1` satisfies the invariant of first accesses in front of the
first instruction. -/
theorem first_table_inv_nil (S : glsl_to_tgsi_instruction → List Int) (n : Nat) :
    first_table_inv S [] (List.replicate n (-1)) := by
  refine ⟨fun a _ x hx => ?_, fun a p hp => ?_⟩
  · unfold arr_get at hx
    split_ifs at hx
    exact (List.mem_replicate.mp (List.getElem?_mem hx)).2
  · obtain ⟨i0, hget, _⟩ := hp
    simp at hget

/-- The table `get_first_temp_read` returns satisfies the invariant of first
accesses for the whole list. -/
theorem get_first_temp_read_from_table (rest : List glsl_to_tgsi_instruction) :
    ∀ (pre : List glsl_to_tgsi_instruction) (t : loop_tracker)
      (first_reads final : List Int),
      loop_tracker_at pre t → first_table_inv inst_temps_read pre first_reads →
      get_first_temp_read_from rest t first_reads = some final →
      first_table_inv inst_temps_read (pre ++ rest) final := by
  induction rest with
  | nil =>
    intro pre t fr final _ hinv h
    simp only [get_first_temp_read_from, Option.some.injEq] at h
    subst h
    rw [List.append_nil]
    exact hinv
  | cons inst rest ih =>
    intro pre t fr final ht hinv h
    simp only [get_first_temp_read_from] at h
    split at h
    · cases h
    · next fr1 hs =>
      split at h
      · cases h
      · next t1 hadv =>
        have h1 := first_table_step inst_temps_read pre inst t fr fr1 ht hinv
          (get_first_temp_read_inst_update t inst fr fr1 hs)
        have h2 := ih (pre ++ [inst]) t1 fr1 final
          (loop_tracker_at_advance pre inst t t1 ht hadv) h1 h
        rw [List.append_assoc] at h2
        exact h2

/-- The loop that closes an outermost loop replaces every `-2` of a table of
`next_temp` entries by the position of the `ENDLOOP`. -/
theorem close_loop_reads_spec (next_temp : Int) (i : Nat) (table table1 : List Int)
    (hlen : table.length = next_temp.toNat)
    (h : close_loop_reads next_temp i table = some table1) :
    table1.length = table.length
    ∧ ∀ a, arr_get table1 a = (arr_get table a).map (fun x => if x = -2 then (i : Int) else x) := by
  unfold close_loop_reads at h
  split_ifs at h
  cases h
  refine ⟨map_idx_from_length _ _ _, fun a => ?_⟩
  unfold arr_get
  by_cases ha : 0 ≤ a
  · rw [if_pos ha, if_pos ha, map_idx_from_getElem?]
    cases hx : table[a.toNat]? with
    | none => rfl
    | some x =>
      have hlt : a.toNat < table.length := by
        by_contra hcon
        rw [List.getElem?_eq_none (by omega)] at hx
        cases hx
      simp only [Option.map_some', Nat.zero_add]
      have : a.toNat < next_temp.toNat := by omega
      simp [this]
  · rw [if_neg ha, if_neg ha]
    rfl

/-- The closing `ENDLOOP` found for a read stays the closing `ENDLOOP` when an
instruction is appended. -/
theorem outermost_loop_end_snoc (pre : List glsl_to_tgsi_instruction)
    (inst : glsl_to_tgsi_instruction) (p e : Nat) (h : outermost_loop_end pre p e) :
    outermost_loop_end (pre ++ [inst]) p e := by
  obtain ⟨h1, h2, h3, h4⟩ := h
  have he : e < pre.length := by
    by_contra hcon
    rw [List.getElem?_eq_none (by omega)] at h2
    cases h2
  refine ⟨h1, ?_, ?_, fun q hq1 hq2 => ?_⟩
  · rw [List.getElem?_append_left he]
    exact h2
  · rw [take_snoc_of_le pre inst (e + 1) (by omega)]
    exact h3
  · rw [take_snoc_of_le pre inst q (by omega)]
    exact h4 q hq1 hq2

/-- One instruction of `get_last_temp_read_first_temp_write` keeps the invariant of
the table of last reads: the reads of the instruction, then the loop that closes
an outermost loop. -/
theorem last_table_step (next_temp : Int) (pre : List glsl_to_tgsi_instruction)
    (inst : glsl_to_tgsi_instruction) (t t1 : loop_tracker) (table table1 table2 : List Int)
    (ht : loop_tracker_at pre t) (hadv : t.advance inst.op = some t1)
    (hinv : last_table_inv next_temp.toNat pre table)
    (h : table_update (fun _ => True) (if t.depth = 0 then (t.i : Int) else -2)
      (fun a => a ∈ inst_temps_read inst) table table1)
    (hclose : (if inst.op = TGSI_OPCODE_ENDLOOP ∧ t.depth - 1 = 0 then
        close_loop_reads next_temp t.i table1 else some table1) = some table2) :
    last_table_inv next_temp.toNat (pre ++ [inst]) table2 := by
  obtain ⟨hlen, hnever, hlast⟩ := hinv
  obtain ⟨u0, u1, u2, u3⟩ := h
  have ht1 := loop_tracker_at_advance pre inst t t1 ht hadv
  obtain ⟨hi, hdep, h0, _⟩ := ht
  obtain ⟨_, hdep1, h01, _⟩ := ht1
  have hsn := loop_depth_snoc pre inst
  have htake : ∀ q, q ≤ pre.length → (pre ++ [inst]).take q = pre.take q :=
    fun q hq => take_snoc_of_le pre inst q hq
  have hfull : (pre ++ [inst]).take (pre.length + 1) = pre ++ [inst] := by
    rw [List.take_of_length_le (by simp)]
  have hat : (pre ++ [inst])[pre.length]? = some inst := by
    rw [List.getElem?_append_right (le_refl _)]
    simp
  by_cases hcl : inst.op = TGSI_OPCODE_ENDLOOP ∧ t.depth - 1 = 0
  · -- the instruction closes the outermost loop
    rw [if_pos hcl] at hclose
    obtain ⟨c0, c1⟩ := close_loop_reads_spec next_temp t.i table1 table2 (u0.trans hlen) hclose
    have hd0 : loop_depth (pre ++ [inst]) = 0 := by
      have hb : ¬ inst.op = TGSI_OPCODE_BGNLOOP := by rw [hcl.1]; decide
      rw [hsn, if_neg hb, if_pos hcl.1, ← hdep]
      omega
    have hpre : 0 < loop_depth pre := by rw [← hdep]; omega
    have hzero : ¬ t.depth = 0 := by omega
    refine ⟨c0.trans (u0.trans hlen), ?_, ?_⟩
    · intro a ha x hx
      have hnot : a ∉ inst_temps_read inst := ha inst (by simp)
      rw [c1 a, u3 a (fun hn => hnot hn.1)] at hx
      cases hy : arr_get table a with
      | none => rw [hy] at hx; cases hx
      | some y =>
        rw [hy] at hx
        have hy1 : y = -1 := hnever a (fun i hi => ha i (List.mem_append_left _ hi)) y hy
        simp only [Option.map_some', hy1, Option.some.injEq] at hx
        rw [← hx]
        exact if_neg (by decide)
    · intro a p hp
      rcases last_occurrence_snoc inst_temps_read pre inst a p hp with ⟨hmem, hpe⟩ | ⟨hnot, hlt, hold⟩
      · subst hpe
        refine ⟨(t.i : Int), ?_, Or.inr (Or.inl ⟨?_, pre.length, by rw [hi], ?_⟩)⟩
        · rw [c1 a, u2 a hmem trivial, if_neg hzero]
          rfl
        · rw [htake _ (le_refl _), List.take_length]
          exact hpre
        · refine ⟨le_refl _, ?_, ?_, fun q hq1 hq2 => ?_⟩
          · rw [hat]
            simp [hcl.1]
          · rw [hfull]
            exact hd0
          · have : q = pre.length := by omega
            rw [this, htake _ (le_refl _), List.take_length]
            exact hpre
      · obtain ⟨v, hv, hcases⟩ := hlast a p hold
        have hv1 : arr_get table1 a = some v := by
          rw [u3 a (fun hn => hnot hn.1)]
          exact hv
        rcases hcases with ⟨hd, hvp⟩ | ⟨hd, e, hve, hend⟩ | ⟨hd, hv2, hopen⟩
        · refine ⟨v, ?_, Or.inl ⟨by rw [htake p (by omega)]; exact hd, hvp⟩⟩
          rw [c1 a, hv1]
          have : ¬ v = -2 := by omega
          simp [this]
        · refine ⟨v, ?_, Or.inr (Or.inl ⟨by rw [htake p (by omega)]; exact hd, e, hve,
            outermost_loop_end_snoc pre inst p e hend⟩)⟩
          rw [c1 a, hv1]
          have : ¬ v = -2 := by omega
          simp [this]
        · refine ⟨(t.i : Int), ?_, Or.inr (Or.inl ⟨by rw [htake p (by omega)]; exact hd,
            pre.length, by rw [hi], ?_⟩)⟩
          · rw [c1 a, hv1, hv2]
            rfl
          · refine ⟨by omega, ?_, ?_, fun q hq1 hq2 => ?_⟩
            · rw [hat]
              simp [hcl.1]
            · rw [hfull]
              exact hd0
            · rw [htake q hq2]
              exact hopen q hq1 hq2
  · -- the instruction closes no outermost loop
    rw [if_neg hcl] at hclose
    cases hclose
    have hstay : 0 < loop_depth pre → 0 < loop_depth (pre ++ [inst]) := by
      intro hpos
      by_cases hb : inst.op = TGSI_OPCODE_BGNLOOP
      · rw [hsn, if_pos hb]
        omega
      · by_cases he : inst.op = TGSI_OPCODE_ENDLOOP
        · have hne : ¬ t.depth - 1 = 0 := fun e0 => hcl ⟨he, e0⟩
          have h2 : 0 ≤ loop_depth (pre ++ [inst]) := by rw [← hdep1]; exact h01
          rw [hsn, if_neg hb, if_pos he] at h2 ⊢
          rw [← hdep] at h2 ⊢
          omega
        · rw [hsn, if_neg hb, if_neg he]
          omega
    refine ⟨u0.trans hlen, ?_, ?_⟩
    · intro a ha x hx
      have hnot : a ∉ inst_temps_read inst := ha inst (by simp)
      rw [u3 a (fun hn => hnot hn.1)] at hx
      exact hnever a (fun i hi => ha i (List.mem_append_left _ hi)) x hx
    · intro a p hp
      rcases last_occurrence_snoc inst_temps_read pre inst a p hp with ⟨hmem, hpe⟩ | ⟨hnot, hlt, hold⟩
      · subst hpe
        refine ⟨_, u2 a hmem trivial, ?_⟩
        rw [htake _ (le_refl _), List.take_length]
        by_cases hz : t.depth = 0
        · rw [if_pos hz]
          exact Or.inl ⟨by rw [← hdep]; exact hz, by rw [hi]⟩
        · rw [if_neg hz]
          have hpre : 0 < loop_depth pre := by rw [← hdep]; omega
          refine Or.inr (Or.inr ⟨hpre, rfl, fun q hq1 hq2 => ?_⟩)
          rw [List.length_append, List.length_singleton] at hq2
          by_cases hq : q = pre.length
          · rw [hq, htake _ (le_refl _), List.take_length]
            exact hpre
          · have : q = pre.length + 1 := by omega
            rw [this, hfull]
            exact hstay hpre
      · obtain ⟨v, hv, hcases⟩ := hlast a p hold
        refine ⟨v, by rw [u3 a (fun hn => hnot hn.1)]; exact hv, ?_⟩
        rw [htake p (by omega)]
        rcases hcases with ⟨hd, hvp⟩ | ⟨hd, e, hve, hend⟩ | ⟨hd, hv2, hopen⟩
        · exact Or.inl ⟨hd, hvp⟩
        · exact Or.inr (Or.inl ⟨hd, e, hve, outermost_loop_end_snoc pre inst p e hend⟩)
        · refine Or.inr (Or.inr ⟨hd, hv2, fun q hq1 hq2 => ?_⟩)
          rw [List.length_append, List.length_singleton] at hq2
          by_cases hq : q ≤ pre.length
          · rw [htake q hq]
            exact hopen q hq1 hq
          · have : q = pre.length + 1 := by omega
            rw [this, hfull]
            exact hstay (by
              have := hopen pre.length (by omega) (le_refl _)
              rw [List.take_length] at this
              exact this)

/-- A table of `-1` satisfies the invariant of last reads in front of the first
instruction. -/
theorem last_table_inv_nil (n : Nat) : last_table_inv n [] (List.replicate n (-1)) := by
  refine ⟨List.length_replicate _ _, fun a _ x hx => ?_, fun a p hp => ?_⟩
  · unfold arr_get at hx
    split_ifs at hx
    exact (List.mem_replicate.mp (List.getElem?_mem hx)).2
  · obtain ⟨i0, hget, _⟩ := hp
    simp at hget

/-- The tables `get_last_temp_read_first_temp_write` returns satisfy the invariants
of last reads and of first writes for the whole list. -/
theorem get_last_temp_read_first_temp_write_from_tables (next_temp : Int)
    (rest : List glsl_to_tgsi_instruction) :
    ∀ (pre : List glsl_to_tgsi_instruction) (t : loop_tracker)
      (tables final : List Int × List Int),
      loop_tracker_at pre t → last_table_inv next_temp.toNat pre tables.1 →
      first_table_inv inst_temps_written pre tables.2 →
      get_last_temp_read_first_temp_write_from next_temp rest t tables = some final →
      last_table_inv next_temp.toNat (pre ++ rest) final.1
      ∧ first_table_inv inst_temps_written (pre ++ rest) final.2 := by
  induction rest with
  | nil =>
    intro pre t tables final _ hl hf h
    simp only [get_last_temp_read_first_temp_write_from, Option.some.injEq] at h
    subst h
    rw [List.append_nil]
    exact ⟨hl, hf⟩
  | cons inst rest ih =>
    intro pre t tables final ht hl hf h
    simp only [get_last_temp_read_first_temp_write_from] at h
    split at h
    · cases h
    · next last_reads first_writes hs =>
      obtain ⟨hu1, hu2⟩ := get_last_temp_read_first_temp_write_inst_update t inst tables
        (last_reads, first_writes) hs
      split at h
      · next last_reads1 t1 hclose hadv =>
        have h1 := last_table_step next_temp pre inst t t1 tables.1 last_reads last_reads1
          ht hadv hl hu1 hclose
        have h2 := first_table_step inst_temps_written pre inst t tables.2 first_writes ht hf hu2
        have h3 := ih (pre ++ [inst]) t1 (last_reads1, first_writes) final
          (loop_tracker_at_advance pre inst t t1 ht hadv) h1 h2 h
        rw [List.append_assoc] at h3
        exact h3
      · cases h

/-- C32 (amended): loops in the live-range tables.  For a list whose loops are all
closed, with the tables started at `-1` as `renumber_registers` and
`merge_registers` start them: the entry of `first_reads` for a temporary is the
position of its first read outside loops and the position of the `BGNLOOP` of the
outermost enclosing loop when that read lies in a loop; the entry of
`first_writes` is the same for its first write; the entry of `last_reads` is
the position of its last read outside loops and, when that read lies in a loop,
the position of the `ENDLOOP` that closes the outermost enclosing loop (not of
its `BGNLOOP`). -/
theorem live_range_tables_loops (next_temp : Int) (l : List glsl_to_tgsi_instruction)
    (first_reads last_reads first_writes : List Int)
    (h1 : get_first_temp_read l (List.replicate next_temp.toNat (-1)) = some first_reads)
    (h2 : get_last_temp_read_first_temp_write next_temp l
      (List.replicate next_temp.toNat (-1)) (List.replicate next_temp.toNat (-1))
      = some (last_reads, first_writes))
    (hbal : loop_depth l = 0) :
    (∀ a p, first_occurrence inst_temps_read l a p →
      ∃ v, arr_get first_reads a = some v ∧ recorded_first (l.take p) v)
    ∧ (∀ a p, first_occurrence inst_temps_written l a p →
      ∃ v, arr_get first_writes a = some v ∧ recorded_first (l.take p) v)
    ∧ (∀ a p, last_occurrence inst_temps_read l a p →
      ∃ v, arr_get last_reads a = some v ∧ recorded_last l p v) := by
  have hfr := get_first_temp_read_from_table l [] ⟨0, -1, 0⟩ _ first_reads
    loop_tracker_at_nil (first_table_inv_nil inst_temps_read next_temp.toNat) h1
  have hlw := get_last_temp_read_first_temp_write_from_tables next_temp l [] ⟨0, -1, 0⟩
    (List.replicate next_temp.toNat (-1), List.replicate next_temp.toNat (-1))
    (last_reads, first_writes) loop_tracker_at_nil (last_table_inv_nil next_temp.toNat)
    (first_table_inv_nil inst_temps_written next_temp.toNat) h2
  rw [List.nil_append] at hfr hlw
  refine ⟨fun a p hp => ?_, fun a p hp => ?_, fun a p hp => ?_⟩
  · obtain ⟨v, hv, _, hr⟩ := hfr.2 a p hp
    exact ⟨v, hv, hr⟩
  · obtain ⟨v, hv, _, hr⟩ := hlw.2.2 a p hp
    exact ⟨v, hv, hr⟩
  · obtain ⟨v, hv, hcases⟩ := hlw.1.2.2 a p hp
    refine ⟨v, hv, ?_⟩
    rcases hcases with h | h | ⟨_, _, hopen⟩
    · exact Or.inl h
    · exact Or.inr h
    · exfalso
      obtain ⟨i0, hget, _⟩ := hp
      have hpl : p < l.length := by
        by_contra hcon
        rw [List.getElem?_eq_none (by omega)] at hget
        cases hget
      have := hopen l.length (by omega) (le_refl _)
      rw [List.take_length, hbal] at this
      exact absurd this (by decide)

/-- Witness for C32 (amended): the list `example_nested_loops` with two
temporaries, whose tables are `first_reads = [1, 1]`, `last_reads = [6, 7]` and
`first_writes = [0, 1]`. -/
theorem live_range_tables_loops_witness :
    (∀ a p, first_occurrence inst_temps_read example_nested_loops a p →
      ∃ v, arr_get [1, 1] a = some v ∧ recorded_first (example_nested_loops.take p) v)
    ∧ (∀ a p, first_occurrence inst_temps_written example_nested_loops a p →
      ∃ v, arr_get [0, 1] a = some v ∧ recorded_first (example_nested_loops.take p) v)
    ∧ (∀ a p, last_occurrence inst_temps_read example_nested_loops a p →
      ∃ v, arr_get [6, 7] a = some v ∧ recorded_last example_nested_loops p v) :=
  live_range_tables_loops 2 example_nested_loops [1, 1] [6, 7] [0, 1] (by decide!)
    (by decide!) (by decide!)

/-- C32 (as stated, refuted): a read inside a loop is not recorded at the start of
the loop in the table of last reads.  In `example_nested_loops` the only read of
`TEMP[0]` is at position 3, inside the loops that start at positions 1 and 2 (the
depth in front of position 1 is 0, in front of position 3 it is 2); the table of
last reads gets 6 for it, the position of the `ENDLOOP` that closes the outer
loop, while the tables of first reads and first writes get 1. -/
theorem last_read_in_loop_counterexample :
    example_nested_loops.map inst_temps_read = [[], [], [], [0], [], [1], [], [1]]
    ∧ example_nested_loops.map (fun inst => inst.op)
      = [TGSI_OPCODE_MOV, TGSI_OPCODE_BGNLOOP, TGSI_OPCODE_BGNLOOP, TGSI_OPCODE_MOV,
          TGSI_OPCODE_ENDLOOP, TGSI_OPCODE_MOV, TGSI_OPCODE_ENDLOOP, TGSI_OPCODE_MOV]
    ∧ loop_depth (example_nested_loops.take 1) = 0
    ∧ loop_depth (example_nested_loops.take 3) = 2
    ∧ get_last_temp_read_first_temp_write 2 example_nested_loops [-1, -1] [-1, -1]
      = some ([6, 7], [0, 1])
    ∧ get_first_temp_read example_nested_loops [-1, -1] = some [1, 1] := by
  refine ⟨by decide!, by decide!, by decide!, by decide!, by decide!, by decide!⟩

/-! ## The return value of `eliminate_dead_code` and the driver loop -/

/-- An instruction the final loop of `eliminate_dead_code` keeps is the old
instruction up to its dead mask and the write-mask of its first destination. -/
theorem dce_sweep_inst_narrowed (inst inst1 : glsl_to_tgsi_instruction) (dead_mask : Nat)
    (h : dce_sweep_inst inst dead_mask = some inst1) : dce_narrowed inst inst1 := by
  unfold dce_sweep_inst at h
  simp only at h
  split_ifs at h
  · cases h
    exact ⟨dead_mask, inst.dst0.writemask, rfl⟩
  · cases h
    exact ⟨dead_mask, and_not inst.dst0.writemask dead_mask, rfl⟩
  · cases h
    exact ⟨dead_mask, inst.dst0.writemask, rfl⟩
  · cases h
    exact ⟨dead_mask, and_not inst.dst0.writemask dead_mask, rfl⟩

/-- The final loop of `eliminate_dead_code` keeps a subsequence of the list, each
instruction up to its dead mask and first write-mask. -/
theorem dce_sweep_sublist (instructions : List glsl_to_tgsi_instruction) :
    ∀ dead_masks : List Nat,
      ∃ kept, kept.Sublist instructions
        ∧ List.Forall₂ dce_narrowed kept (dce_sweep instructions dead_masks).1 := by
  induction instructions with
  | nil =>
    intro dead_masks
    exact ⟨[], List.Sublist.refl _, by simp [dce_sweep]⟩
  | cons inst rest ih =>
    intro dead_masks
    cases dead_masks with
    | nil =>
      refine ⟨inst :: rest, List.Sublist.refl _, ?_⟩
      simp only [dce_sweep]
      exact List.forall₂_same.mpr
        (fun x _ => ⟨x.dead_mask, x.dst0.writemask, rfl⟩)
    | cons m ms =>
      obtain ⟨kept, hsub, hall⟩ := ih ms
      simp only [dce_sweep]
      cases hi : dce_sweep_inst inst m with
      | none => exact ⟨kept, List.Sublist.cons _ hsub, hall⟩
      | some inst1 =>
        exact ⟨inst :: kept, List.Sublist.cons₂ _ hsub,
          List.Forall₂.cons (dce_sweep_inst_narrowed inst inst1 m hi) hall⟩

/-- What the final loop changes in an instruction does not move an operand out of
the tables. -/
theorem inst_in_bounds_narrowed (next_temp : Int) (inst inst1 : glsl_to_tgsi_instruction)
    (h : inst_in_bounds next_temp inst) (hn : dce_narrowed inst inst1) :
    inst_in_bounds next_temp inst1 := by
  obtain ⟨dead_mask, writemask, rfl⟩ := hn
  exact h

/-- The instructions of a subsequence that are changed as the final loop changes
them keep their operands inside the tables. -/
theorem inst_in_bounds_sweep (next_temp : Int)
    (instructions kept out : List glsl_to_tgsi_instruction)
    (hall : ∀ inst ∈ instructions, inst_in_bounds next_temp inst)
    (hsub : kept.Sublist instructions) (hout : List.Forall₂ dce_narrowed kept out) :
    ∀ inst ∈ out, inst_in_bounds next_temp inst := by
  induction hout with
  | nil => intro inst hinst; cases hinst
  | cons hab _ ih =>
    intro inst hinst
    rcases List.mem_cons.mp hinst with he | hin
    · subst he
      exact inst_in_bounds_narrowed next_temp _ _
        (hall _ (hsub.subset (List.mem_cons_self _ _))) hab
    · exact ih ((List.sublist_cons_self _ _).trans hsub) inst hin

/-- One run of `eliminate_dead_code` on instructions whose operands are in bounds
returns; the new list is a subsequence of the old one up to dead masks and first
write-masks, shorter by the return value, and its operands are in bounds. -/
theorem eliminate_dead_code_run (v : glsl_to_tgsi_visitor)
    (hall : ∀ inst ∈ v.instructions, inst_in_bounds v.next_temp inst) :
    ∃ v1 removed kept,
      eliminate_dead_code v = some (v1, removed)
      ∧ v1.next_temp = v.next_temp
      ∧ kept.Sublist v.instructions
      ∧ List.Forall₂ dce_narrowed kept v1.instructions
      ∧ v1.instructions.length + removed = v.instructions.length
      ∧ ∀ inst ∈ v1.instructions, inst_in_bounds v1.next_temp inst := by
  obtain ⟨dead_masks, hrun, _, _, _⟩ := eliminate_dead_code_list_masks (fun _ => True)
    v.next_temp v.instructions (fun i inst hi =>
      ⟨hall inst (List.getElem?_mem hi), fun _ => trivial⟩)
  obtain ⟨kept, hsub, hout⟩ := dce_sweep_sublist v.instructions dead_masks
  have hrun1 : eliminate_dead_code v
      = some ({ v with instructions := (dce_sweep v.instructions dead_masks).1 },
          (dce_sweep v.instructions dead_masks).2) := by
    unfold eliminate_dead_code
    rw [hrun]
    rfl
  refine ⟨_, _, kept, hrun1, rfl, hsub, hout, ?_, ?_⟩
  · exact eliminate_dead_code_length v _ _ hrun1
  · exact inst_in_bounds_sweep v.next_temp v.instructions kept _ hall hsub hout

/-- The driver loop `while (v->eliminate_dead_code());` ends within `k + 1` runs on
a list of at most `k` instructions whose operands are in bounds. -/
theorem eliminate_dead_code_loop_ends (k : Nat) :
    ∀ v : glsl_to_tgsi_visitor, v.instructions.length ≤ k →
      (∀ inst ∈ v.instructions, inst_in_bounds v.next_temp inst) →
      ∃ v2, eliminate_dead_code_loop (k + 1) v = some v2 := by
  induction k with
  | zero =>
    intro v hlen hall
    obtain ⟨v1, removed, _, hrun, _, _, _, hl, _⟩ := eliminate_dead_code_run v hall
    have hz : removed = 0 := by omega
    refine ⟨v1, ?_⟩
    simp only [eliminate_dead_code_loop, hrun, hz, if_true]
  | succ k ih =>
    intro v hlen hall
    obtain ⟨v1, removed, _, hrun, _, _, _, hl, hall1⟩ := eliminate_dead_code_run v hall
    by_cases hz : removed = 0
    · refine ⟨v1, ?_⟩
      simp only [eliminate_dead_code_loop, hrun, hz, if_true]
    · obtain ⟨v2, hv2⟩ := ih v1 (by omega) hall1
      refine ⟨v2, ?_⟩
      rw [eliminate_dead_code_loop]
      simp only [hrun, hz, if_false]
      exact hv2

/-- C34: `eliminate_dead_code` returns the number of instructions it removed.  On a
list of `n` instructions whose operands lie inside the tables the pass returns;
the new list consists of the instructions of a subsequence of the old list, in
the same order, each up to its dead mask and the write-mask of its first
destination, and its length is `n` minus the return value; and the driver loop
that repeats the pass until it returns 0 ends within `n + 1` runs. -/
theorem eliminate_dead_code_removed_count (v : glsl_to_tgsi_visitor)
    (hall : ∀ inst ∈ v.instructions, inst_in_bounds v.next_temp inst) :
    (∃ v1 removed kept,
      eliminate_dead_code v = some (v1, removed)
      ∧ kept.Sublist v.instructions
      ∧ List.Forall₂ dce_narrowed kept v1.instructions
      ∧ v1.instructions.length = v.instructions.length - removed
      ∧ removed ≤ v.instructions.length)
    ∧ ∃ v2, eliminate_dead_code_loop (v.instructions.length + 1) v = some v2 := by
  obtain ⟨v1, removed, kept, hrun, _, hsub, hout, hl, _⟩ := eliminate_dead_code_run v hall
  exact ⟨⟨v1, removed, kept, hrun, hsub, hout, by omega, by omega⟩,
    eliminate_dead_code_loop_ends v.instructions.length v (le_refl _) hall⟩

/-- Witness for C34: on `MOV TEMP[0], IN[0]; MOV TEMP[1], TEMP[0]` the first run
removes one instruction, and the driver loop ends within three runs (it needs all
three: the runs return 1, 1 and 0). -/
theorem eliminate_dead_code_removed_count_witness :
    ((∃ v1 removed kept,
      eliminate_dead_code (example_visitor_with 2 example_dead_chain) = some (v1, removed)
      ∧ kept.Sublist (example_visitor_with 2 example_dead_chain).instructions
      ∧ List.Forall₂ dce_narrowed kept v1.instructions
      ∧ v1.instructions.length
          = (example_visitor_with 2 example_dead_chain).instructions.length - removed
      ∧ removed ≤ (example_visitor_with 2 example_dead_chain).instructions.length)
    ∧ ∃ v2, eliminate_dead_code_loop
        ((example_visitor_with 2 example_dead_chain).instructions.length + 1)
        (example_visitor_with 2 example_dead_chain) = some v2)
    ∧ eliminate_dead_code_loop 2 (example_visitor_with 2 example_dead_chain) = none
    ∧ (eliminate_dead_code_loop 3 (example_visitor_with 2 example_dead_chain)).map
        (fun v => v.instructions) = some [] :=
  ⟨eliminate_dead_code_removed_count (example_visitor_with 2 example_dead_chain) (by
      intro inst hinst
      simp only [example_visitor_with, example_dead_chain, List.mem_cons, List.mem_singleton,
        List.not_mem_nil, or_false] at hinst
      unfold inst_in_bounds temp_in_bounds
      rcases hinst with rfl | rfl <;>
        exact ⟨by decide, by decide, by decide, by decide,
          fun j hj => absurd hj (Nat.not_lt_zero j), by decide, by decide, by decide⟩),
    by decide!, by decide!⟩

/-! ## Straight-line soundness of `eliminate_dead_code` -/

/-- The channel test of the scan on a swizzle: bit `c` of `src_chans` is set when a
component of the swizzle selects `c`. -/
theorem src_chans_bit (swizzle c : Nat) :
    src_chans swizzle &&& (1 <<< c) ≠ 0 ↔ ∃ i, i < 4 ∧ GET_SWZ swizzle i = c := by
  rw [Ne, and_one_shiftLeft_eq_zero, Bool.not_eq_false]
  unfold src_chans
  simp only [Nat.testBit_or, one_shiftLeft_testBit, Bool.or_eq_true, decide_eq_true_eq]
  constructor
  · rintro (((h | h) | h) | h)
    · exact ⟨0, by omega, h⟩
    · exact ⟨1, by omega, h⟩
    · exact ⟨2, by omega, h⟩
    · exact ⟨3, by omega, h⟩
  · rintro ⟨i, hi, h⟩
    have : i = 0 ∨ i = 1 ∨ i = 2 ∨ i = 3 := by omega
    rcases this with rfl | rfl | rfl | rfl
    · exact Or.inl (Or.inl (Or.inl h))
    · exact Or.inl (Or.inl (Or.inr h))
    · exact Or.inl (Or.inr h)
    · exact Or.inr h

/-- What one directly addressed operand read leaves in `writes` was there before
and is not a channel the operand reads. -/
theorem dce_read_straight (src : st_src_reg) (writes w : List (Option Nat))
    (hrel : src.reladdr.isSet = false) (h : dce_read src writes = some w) :
    ∀ (r : Int) (c p : Nat), c < 4 → arr_get w (4 * r + (c : Int)) = some (some p) →
      arr_get writes (4 * r + (c : Int)) = some (some p) ∧ ¬ src_reads_chan src r c := by
  unfold dce_read at h
  simp only [hrel, and_false, Bool.false_eq_true, if_false] at h
  by_cases hf : src.file = PROGRAM_TEMPORARY
  · rw [if_pos hf] at h
    have key := loop_range_some
      (fun j (s : List (Option Nat)) => ∀ (r : Int) (c p : Nat), c < 4 →
        arr_get s (4 * r + (c : Int)) = some (some p) →
        arr_get writes (4 * r + (c : Int)) = some (some p)
          ∧ ¬ (src.index = r ∧ c < j ∧ src_chans src.swizzle &&& (1 <<< c) ≠ 0))
      4 _ (fun j hj s s1 hP hstep => by
        intro r c p hc hg
        replace hstep : (if src_chans src.swizzle &&& (1 <<< j) ≠ 0 then
            arr_set s (4 * src.index + (j : Int)) none else some s) = some s1 := hstep
        by_cases hbit : src_chans src.swizzle &&& (1 <<< j) ≠ 0
        · rw [if_pos hbit] at hstep
          have hget := arr_get_arr_set s s1 (4 * src.index + (j : Int)) (4 * r + (c : Int))
            none hstep
          rw [hget] at hg
          by_cases hk : 4 * r + (c : Int) = 4 * src.index + (j : Int)
          · rw [if_pos hk] at hg
            cases hg
          · rw [if_neg hk] at hg
            obtain ⟨h1, h2⟩ := hP r c p hc hg
            refine ⟨h1, fun hh => ?_⟩
            obtain ⟨hr, hcj, hb⟩ := hh
            by_cases hlt : c < j
            · exact h2 ⟨hr, hlt, hb⟩
            · apply hk
              have : c = j := by omega
              rw [hr, this]
        · rw [if_neg hbit] at hstep
          cases hstep
          obtain ⟨h1, h2⟩ := hP r c p hc hg
          refine ⟨h1, fun hh => ?_⟩
          obtain ⟨hr, hcj, hb⟩ := hh
          by_cases hlt : c < j
          · exact h2 ⟨hr, hlt, hb⟩
          · have : c = j := by omega
            rw [this] at hb
            exact hbit hb)
      writes w (fun r c p _ hg => ⟨hg, fun hh => absurd hh.2.1 (Nat.not_lt_zero c)⟩) h
    intro r c p hc hg
    obtain ⟨h1, h2⟩ := key r c p hc hg
    refine ⟨h1, fun hh => ?_⟩
    obtain ⟨_, hr, hsw⟩ := hh
    exact h2 ⟨hr, hc, (src_chans_bit src.swizzle c).mpr hsw⟩
  · rw [if_neg hf] at h
    cases h
    intro r c p _ hg
    exact ⟨hg, fun hh => hf hh.1⟩

/-- What the reads of a straight-line instruction leave in `writes` was there
before and is not a channel the instruction reads. -/
theorem dce_reads_straight (inst : glsl_to_tgsi_instruction) (writes w : List (Option Nat))
    (hs : dce_straight_line inst) (h : dce_reads inst writes = some w) :
    ∀ (r : Int) (c p : Nat), c < 4 → arr_get w (4 * r + (c : Int)) = some (some p) →
      arr_get writes (4 * r + (c : Int)) = some (some p) ∧ ¬ inst_reads_chan inst r c := by
  obtain ⟨-, hr0, hr1, hr2, hr3, hro, -⟩ := hs
  unfold dce_reads at h
  cases e0 : dce_read inst.src0 writes with
  | none => simp only [e0] at h; cases h
  | some w0 =>
  cases e1 : dce_read inst.src1 w0 with
  | none => simp only [e0, e1] at h; cases h
  | some w1 =>
  cases e2 : dce_read inst.src2 w1 with
  | none => simp only [e0, e1, e2] at h; cases h
  | some w2 =>
  cases e3 : dce_read inst.src3 w2 with
  | none => simp only [e0, e1, e2, e3] at h; cases h
  | some w3 =>
  simp only [e0, e1, e2, e3] at h
  have key := loop_range_some
    (fun j (s : List (Option Nat)) => ∀ (r : Int) (c p : Nat), c < 4 →
      arr_get s (4 * r + (c : Int)) = some (some p) →
      arr_get w3 (4 * r + (c : Int)) = some (some p)
        ∧ ∀ i off, i < j → inst.tex_offsets i = some off → ¬ src_reads_chan off r c)
    inst.tex_offset_num_offset _ (fun j hj s s1 hP hstep => by
      intro r c p hc hg
      cases ho : inst.tex_offsets j with
      | none => rw [ho] at hstep; cases hstep
      | some off =>
        rw [ho] at hstep
        replace hstep : dce_read off s = some s1 := hstep
        obtain ⟨g1, g2⟩ := dce_read_straight off s s1 (hro j off hj ho) hstep r c p hc hg
        obtain ⟨g3, g4⟩ := hP r c p hc g1
        refine ⟨g3, fun i off1 hi hoff => ?_⟩
        by_cases hlt : i < j
        · exact g4 i off1 hlt hoff
        · have : i = j := by omega
          subst this
          rw [ho] at hoff
          cases hoff
          exact g2)
    w3 w (fun r c p _ hg => ⟨hg, fun i _ hi => absurd hi (Nat.not_lt_zero i)⟩) h
  intro r c p hc hg
  obtain ⟨g, hoffs⟩ := key r c p hc hg
  obtain ⟨g3, n3⟩ := dce_read_straight inst.src3 w2 w3 hr3 e3 r c p hc g
  obtain ⟨g2, n2⟩ := dce_read_straight inst.src2 w1 w2 hr2 e2 r c p hc g3
  obtain ⟨g1, n1⟩ := dce_read_straight inst.src1 w0 w1 hr1 e1 r c p hc g2
  obtain ⟨g0, n0⟩ := dce_read_straight inst.src0 writes w0 hr0 e0 r c p hc g1
  refine ⟨g0, fun hh => ?_⟩
  rcases hh with hh | hh | hh | hh | ⟨j, off, hj, ho, hh⟩
  · exact n0 hh
  · exact n1 hh
  · exact n2 hh
  · exact n3 hh
  · exact hoffs j off hj ho hh

/-- A position that holds an element lies inside the list. -/
theorem getElem?_some_lt {α : Type} (l : List α) (i : Nat) (a : α) (h : l[i]? = some a) :
    i < l.length := by
  by_contra hn
  rw [List.getElem?_eq_none (by omega)] at h
  cases h

/-- A channel written again before it was read stays so when the list grows. -/
theorem dce_shadowed_append (pre rest : List glsl_to_tgsi_instruction) (p c : Nat)
    (h : dce_shadowed pre p c) : dce_shadowed (pre ++ rest) p c := by
  obtain ⟨hc, inst, hp, hf, hw, p1, inst1, hlt, hp1, hw1, hno⟩ := h
  have hl1 := getElem?_some_lt pre p1 inst1 hp1
  refine ⟨hc, inst, ?_, hf, hw, p1, inst1, hlt, ?_, hw1, ?_⟩
  · rw [List.getElem?_append_left (by omega)]
    exact hp
  · rw [List.getElem?_append_left hl1]
    exact hp1
  · intro q iq hq hq1 hget
    rw [List.getElem?_append_left (by omega)] at hget
    exact hno q iq hq hq1 hget

/-- A write no instruction has read since stays so after an instruction that does
not read its channel. -/
theorem dce_unread_snoc (pre : List glsl_to_tgsi_instruction)
    (inst : glsl_to_tgsi_instruction) (p : Nat) (r : Int) (c : Nat)
    (h : dce_unread pre p r c) (hn : ¬ inst_reads_chan inst r c) :
    dce_unread (pre ++ [inst]) p r c := by
  obtain ⟨instp, hp, hw, hno⟩ := h
  have hl := getElem?_some_lt pre p instp hp
  refine ⟨instp, ?_, hw, ?_⟩
  · rw [List.getElem?_append_left hl]
    exact hp
  · intro q iq hq hget
    by_cases hql : q < pre.length
    · rw [List.getElem?_append_left hql] at hget
      exact hno q iq hq hget
    · have hq2 := getElem?_some_lt _ q iq hget
      simp only [List.length_append, List.length_singleton] at hq2
      have hqe : q = pre.length := by omega
      subst hqe
      rw [List.getElem?_append_right (le_refl _)] at hget
      simp only [Nat.sub_self, List.getElem?_cons_zero, Option.some.injEq] at hget
      subst hget
      exact hn

/-- The invariant of the channel loop after the table updates of one channel. -/
theorem dce_straight_record (pre : List glsl_to_tgsi_instruction)
    (inst : glsl_to_tgsi_instruction) (j : Nat) (hj : j < 4) (st : dce_state)
    (hf : inst.dst0.file = PROGRAM_TEMPORARY)
    (hbit : inst.dst0.writemask.testBit j = true)
    (hinv : dce_straight_write_inv pre inst j st)
    (writes1 : List (Option Nat)) (levels1 : List Int) (dead_masks : List Nat)
    (hs1 : arr_set st.writes (4 * inst.dst0.index + (j : Int)) (some pre.length)
      = some writes1)
    (hs2 : arr_set st.write_level (4 * inst.dst0.index + (j : Int)) st.level = some levels1)
    (hD : ∀ p m c : Nat, dead_masks[p]? = some m → m.testBit c = true →
      dce_shadowed (pre ++ [inst]) p c) :
    dce_straight_write_inv pre inst (j + 1)
      { st with writes := writes1, write_level := levels1, dead_masks := dead_masks } := by
  obtain ⟨hl, hwl, hW, -⟩ := hinv
  refine ⟨hl, ?_, ?_, hD⟩
  · intro k lvl hk
    have hget := arr_get_arr_set st.write_level levels1 _ k st.level hs2
    change arr_get levels1 k = some lvl at hk
    rw [hget] at hk
    by_cases hke : k = 4 * inst.dst0.index + (j : Int)
    · rw [if_pos hke] at hk
      cases hk
      exact hl
    · rw [if_neg hke] at hk
      exact hwl k lvl hk
  · intro r c p hc hg
    have hget := arr_get_arr_set st.writes writes1 _ (4 * r + (c : Int)) (some pre.length) hs1
    change arr_get writes1 (4 * r + (c : Int)) = some (some p) at hg
    rw [hget] at hg
    by_cases hke : 4 * r + (c : Int) = 4 * inst.dst0.index + (j : Int)
    · rw [if_pos hke] at hg
      have hp : p = pre.length := by
        simp only [Option.some.injEq] at hg
        exact hg.symm
      have hr : r = inst.dst0.index := by omega
      have hcj : c = j := by omega
      subst hp hr hcj
      refine ⟨⟨inst, ?_, ⟨hf, rfl, hbit⟩, ?_⟩, fun _ => by omega⟩
      · rw [List.getElem?_append_right (le_refl _)]
        simp
      · intro q iq hq hget2
        have := getElem?_some_lt _ q iq hget2
        simp only [List.length_append, List.length_singleton] at this
        omega
    · rw [if_neg hke] at hg
      obtain ⟨h1, h2⟩ := hW r c p hc hg
      exact ⟨h1, fun hp => by have := h2 hp; omega⟩

/-- Recording one channel of the first destination of a straight-line instruction
keeps the invariant of the channel loop. -/
theorem dce_write_chan_straight (pre : List glsl_to_tgsi_instruction)
    (inst : glsl_to_tgsi_instruction) (hf : inst.dst0.file = PROGRAM_TEMPORARY)
    (j : Nat) (hj : j < 4) (st st1 : dce_state)
    (hinv : dce_straight_write_inv pre inst j st)
    (h : dce_write_chan pre.length inst.dst0 j st = some st1) :
    dce_straight_write_inv pre inst (j + 1) st1 := by
  have hinv0 := hinv
  obtain ⟨hl, hwl, hW, hD⟩ := hinv
  unfold dce_write_chan at h
  by_cases hbit : inst.dst0.writemask &&& (1 <<< j) ≠ 0
  · rw [if_pos hbit] at h
    have htb : inst.dst0.writemask.testBit j = true := by
      rw [Ne, and_one_shiftLeft_eq_zero, Bool.not_eq_false] at hbit
      exact hbit
    cases hg : arr_get st.writes (4 * inst.dst0.index + (j : Int)) with
    | none => simp only [hg] at h; cases h
    | some prev =>
    cases hlv : arr_get st.write_level (4 * inst.dst0.index + (j : Int)) with
    | none => simp only [hg, hlv] at h; cases h
    | some lvl =>
    have hlvl : ¬ lvl < st.level := by
      rw [hwl _ lvl hlv, hl]
      decide
    cases hs1 : arr_set st.writes (4 * inst.dst0.index + (j : Int)) (some pre.length) with
    | none => cases prev <;> simp only [hg, hlv, hs1, hlvl, if_false] at h <;> cases h
    | some writes1 =>
    cases hs2 : arr_set st.write_level (4 * inst.dst0.index + (j : Int)) st.level with
    | none => cases prev <;> simp only [hg, hlv, hs1, hs2, hlvl, if_false] at h <;> cases h
    | some levels1 =>
    cases prev with
    | none =>
      simp only [hg, hlv, hs1, hs2, Option.some.injEq] at h
      subst h
      exact dce_straight_record pre inst j hj st hf htb hinv0 writes1 levels1 _ hs1 hs2 hD
    | some q =>
      simp only [hg, hlv, hs1, hs2, hlvl, if_false, Option.some.injEq] at h
      subst h
      refine dce_straight_record pre inst j hj st hf htb hinv0 writes1 levels1 _ hs1 hs2 ?_
      intro p m c hm hc
      unfold mark_dead at hm
      rw [List.getElem?_modify] at hm
      cases hp : st.dead_masks[p]? with
      | none => rw [hp] at hm; cases hm
      | some m0 =>
        rw [hp] at hm
        by_cases hqp : q = p
        · subst hqp
          replace hm : m0 ||| 1 <<< j = m := by simpa using hm
          subst hm
          rw [Nat.testBit_or, Bool.or_eq_true] at hc
          rcases hc with hc | hc
          · exact hD q m0 c hp hc
          · rw [one_shiftLeft_testBit, decide_eq_true_eq] at hc
            subst hc
            obtain ⟨⟨instq, hq, ⟨hfq, hidxq, hwq⟩, hno⟩, hne⟩ := hW inst.dst0.index j q hj hg
            have hql := getElem?_some_lt _ q instq hq
            simp only [List.length_append, List.length_singleton] at hql
            have hqlt : q < pre.length := by
              by_contra hcon
              have := hne (by omega)
              omega
            refine ⟨hj, instq, hq, hfq, hwq, pre.length, inst, hqlt, ?_, ?_, ?_⟩
            · rw [List.getElem?_append_right (le_refl _)]
              simp
            · rw [hidxq]
              exact ⟨hf, rfl, htb⟩
            · intro q1 iq h1 _ hget
              rw [hidxq]
              exact hno q1 iq h1 hget
        · replace hm : m0 = m := by simpa [hqp] using hm
          subst hm
          exact hD p m0 c hp hc
  · rw [if_neg hbit] at h
    cases h
    refine ⟨hl, hwl, ?_, hD⟩
    intro r c p hc hg
    obtain ⟨h1, h2⟩ := hW r c p hc hg
    exact ⟨h1, fun hp => by have := h2 hp; omega⟩

/-- One step of the scan on a straight-line instruction keeps the straight-line
invariant. -/
theorem dce_step_straight (next_temp : Int) (pre : List glsl_to_tgsi_instruction)
    (inst : glsl_to_tgsi_instruction) (st st1 : dce_state) (hs : dce_straight_line inst)
    (hinv : dce_straight_inv pre st)
    (h : dce_step next_temp pre.length inst st = some st1) :
    dce_straight_inv (pre ++ [inst]) st1 := by
  have hs0 := hs
  obtain ⟨hcf, -, -, -, -, -, hrel, hd1, -⟩ := hs
  obtain ⟨hl, hwl, hW, hD⟩ := hinv
  have h1 : ¬ (inst.op = TGSI_OPCODE_BGNLOOP ∨ inst.op = TGSI_OPCODE_ENDLOOP
      ∨ inst.op = TGSI_OPCODE_CONT ∨ inst.op = TGSI_OPCODE_BRK) := by
    intro hh
    apply hcf
    unfold dce_control_flow
    tauto
  have h2 : ¬ (inst.op = TGSI_OPCODE_ENDIF ∨ inst.op = TGSI_OPCODE_ELSE) := by
    intro hh
    apply hcf
    unfold dce_control_flow
    tauto
  have h3 : ¬ (inst.op = TGSI_OPCODE_IF ∨ inst.op = TGSI_OPCODE_UIF) := by
    intro hh
    apply hcf
    unfold dce_control_flow
    tauto
  unfold dce_step at h
  by_cases ha : ¬ (inst.dst0.file ≠ PROGRAM_TEMPORARY ∨ inst.dst0.index < next_temp)
  · rw [if_pos ha] at h
    cases h
  · rw [if_neg ha] at h
    simp only [h1, h2, h3, if_false] at h
    cases hr : dce_reads inst st.writes with
    | none => simp only [hr, Option.map_none'] at h; cases h
    | some w =>
      simp only [hr, Option.map_some'] at h
      have hB : dce_straight_write_inv pre inst 0 { st with writes := w } := by
        refine ⟨hl, hwl, ?_, fun p m c hm hc => dce_shadowed_append pre [inst] p c (hD p m c hm hc)⟩
        intro r c p hc hg
        obtain ⟨g1, g2⟩ := dce_reads_straight inst st.writes w hs0 hr r c p hc hg
        have hu := hW r c p hc g1
        refine ⟨dce_unread_snoc pre inst p r c hu g2, fun hp => ?_⟩
        obtain ⟨instp, hget, -⟩ := hu
        have := getElem?_some_lt pre p instp hget
        omega
      cases hw0 : dce_write pre.length inst.dst0 { st with writes := w } with
      | none => simp only [hw0] at h; cases h
      | some st3 =>
        simp only [hw0] at h
        have hd1w : dce_write pre.length inst.dst1 st3 = some st3 := by
          unfold dce_write
          rw [if_neg]
          rw [hd1]
          exact fun hh => absurd hh.1 (by decide)
        rw [hd1w] at h
        cases h
        unfold dce_write at hw0
        by_cases hf : inst.dst0.file = PROGRAM_TEMPORARY
        · rw [if_pos ⟨hf, hrel⟩] at hw0
          have key := loop_range_some (fun j s => dce_straight_write_inv pre inst j s) 4 _
            (fun j hj s s1 hP hstep => dce_write_chan_straight pre inst hf j hj s s1 hP hstep)
            _ st1 hB hw0
          exact ⟨key.1, key.2.1, fun r c p hc hg => (key.2.2.1 r c p hc hg).1, key.2.2.2⟩
        · rw [if_neg (fun hh => hf hh.1)] at hw0
          cases hw0
          exact ⟨hB.1, hB.2.1, fun r c p hc hg => (hB.2.2.1 r c p hc hg).1, hB.2.2.2⟩

/-- The scan on straight-line instructions keeps the straight-line invariant. -/
theorem dce_scan_straight (next_temp : Int) :
    ∀ (rest pre : List glsl_to_tgsi_instruction) (st st1 : dce_state),
      (∀ inst ∈ rest, dce_straight_line inst) → dce_straight_inv pre st →
      dce_scan next_temp rest pre.length st = some st1 →
      dce_straight_inv (pre ++ rest) st1 := by
  intro rest
  induction rest with
  | nil =>
    intro pre st st1 _ hinv h
    simp only [dce_scan, Option.some.injEq] at h
    subst h
    rw [List.append_nil]
    exact hinv
  | cons inst rest ih =>
    intro pre st st1 hall hinv h
    simp only [dce_scan] at h
    cases hst : dce_step next_temp pre.length inst st with
    | none => simp only [hst] at h; cases h
    | some st2 =>
      simp only [hst] at h
      have hinv2 := dce_step_straight next_temp pre inst st st2
        (hall inst (List.mem_cons_self _ _)) hinv hst
      have := ih (pre ++ [inst]) st2 st1 (fun i hi => hall i (List.mem_cons_of_mem _ hi)) hinv2
        (by simpa using h)
      simpa using this

/-- A dead bit after the loop over what is left in `writes` was set before or
belongs to an entry of `writes`. -/
theorem dce_mark_remaining_bits (writes : List (Option Nat)) :
    ∀ (k : Nat) (dead_masks : List Nat) (p m c : Nat),
      (dce_mark_remaining writes k dead_masks)[p]? = some m → m.testBit c = true →
      (∃ m0, dead_masks[p]? = some m0 ∧ m0.testBit c = true)
        ∨ ∃ i, writes[i]? = some (some p) ∧ c = (k + i) % 4 := by
  induction writes with
  | nil =>
    intro k dm p m c hm hc
    exact Or.inl ⟨m, hm, hc⟩
  | cons w ws ih =>
    intro k dm p m c hm hc
    cases w with
    | none =>
      simp only [dce_mark_remaining] at hm
      rcases ih (k + 1) dm p m c hm hc with hl | ⟨i, hi, hci⟩
      · exact Or.inl hl
      · exact Or.inr ⟨i + 1, by simpa using hi, by rw [hci]; congr 1; omega⟩
    | some pos =>
      simp only [dce_mark_remaining] at hm
      rcases ih (k + 1) (mark_dead dm pos (k % 4)) p m c hm hc with ⟨m0, hm0, hb0⟩ | ⟨i, hi, hci⟩
      · unfold mark_dead at hm0
        rw [List.getElem?_modify] at hm0
        cases hp : dm[p]? with
        | none => rw [hp] at hm0; cases hm0
        | some m1 =>
          rw [hp] at hm0
          by_cases hqp : pos = p
          · subst hqp
            replace hm0 : m1 ||| 1 <<< (k % 4) = m0 := by simpa using hm0
            subst hm0
            rw [Nat.testBit_or, Bool.or_eq_true] at hb0
            rcases hb0 with hb0 | hb0
            · exact Or.inl ⟨m1, rfl, hb0⟩
            · rw [one_shiftLeft_testBit, decide_eq_true_eq] at hb0
              exact Or.inr ⟨0, by simp, by rw [← hb0]; simp⟩
          · replace hm0 : m1 = m0 := by simpa [hqp] using hm0
            subst hm0
            exact Or.inl ⟨m1, rfl, hb0⟩
      · exact Or.inr ⟨i + 1, by simpa using hi, by rw [hci]; congr 1; omega⟩

/-- A channel written again before it was read is dead. -/
theorem dce_dead_channel_of_shadowed (instructions : List glsl_to_tgsi_instruction)
    (p c : Nat) (h : dce_shadowed instructions p c) : dce_dead_channel instructions p c := by
  obtain ⟨_, inst, hp, hf, hw, p1, inst1, hlt, hp1, hw1, hno⟩ := h
  refine ⟨inst, hp, hf, hw, fun q iq hq hget hread => ⟨p1, inst1, hlt, ?_, hp1, hw1⟩⟩
  by_contra hcon
  exact hno q iq hq (by omega) hget hread

/-- A channel no later instruction reads is dead. -/
theorem dce_dead_channel_of_unread (instructions : List glsl_to_tgsi_instruction)
    (p : Nat) (r : Int) (c : Nat) (h : dce_unread instructions p r c) :
    dce_dead_channel instructions p c := by
  obtain ⟨inst, hp, ⟨hf, hidx, hw⟩, hno⟩ := h
  refine ⟨inst, hp, hf, hw, fun q iq hq hget hread => ?_⟩
  rw [hidx] at hread
  exact absurd hread (hno q iq hq hget)

/-- The bits below 32 of `a & ~b`. -/
theorem and_not_testBit_low (a b c : Nat) (hc : c < 32) :
    (and_not a b).testBit c = (a.testBit c && !b.testBit c) := by
  unfold and_not
  rw [Nat.testBit_and, Nat.testBit_xor, show (0xFFFFFFFF : Nat) = 2 ^ 32 - 1 by norm_num,
    Nat.testBit_two_pow_sub_one]
  simp [hc]

/-- A channel that the final loop takes out of the first write-mask, by deleting
the instruction or narrowing the mask, is in the dead mask. -/
theorem dce_sweep_inst_removed (inst : glsl_to_tgsi_instruction) (dead_mask c : Nat)
    (hc : c < 32) (hw : inst.dst0.writemask.testBit c = true)
    (hrem : ∀ inst1, dce_sweep_inst inst dead_mask = some inst1 →
      inst1.dst0.writemask.testBit c = false) :
    dead_mask.testBit c = true := by
  have hbit := and_not_testBit_low inst.dst0.writemask dead_mask c hc
  rw [hw, Bool.true_and] at hbit
  unfold dce_sweep_inst at hrem
  simp only at hrem
  by_cases h1 : dead_mask = 0 ∨ inst.dst0.writemask = 0
  · have := hrem _ (if_pos h1)
    rw [hw] at this
    cases this
  · rw [if_neg h1] at hrem
    by_cases h2 : and_not inst.dst0.writemask dead_mask = 0
    · rw [h2, Nat.zero_testBit] at hbit
      simpa using hbit.symm
    · rw [if_neg h2] at hrem
      by_cases h3 : inst.dst0.type = GLSL_TYPE_DOUBLE
      · rw [if_pos h3] at hrem
        by_cases h4 : dead_mask = WRITEMASK_XY ∨ dead_mask = WRITEMASK_ZW
        · have := hrem _ (if_pos h4)
          change (and_not inst.dst0.writemask dead_mask).testBit c = false at this
          rw [this] at hbit
          simpa using hbit.symm
        · have := hrem _ (if_neg h4)
          rw [hw] at this
          cases this
      · have := hrem _ (if_neg h3)
        change (and_not inst.dst0.writemask dead_mask).testBit c = false at this
        rw [this] at hbit
        simpa using hbit.symm

/-- The scan of `eliminate_dead_code` starts in the straight-line invariant when
every dead mask is empty. -/
theorem dce_straight_inv_init (n : Nat) (instructions : List glsl_to_tgsi_instruction)
    (hdead : ∀ inst ∈ instructions, inst.dead_mask = 0) :
    dce_straight_inv []
      ⟨List.replicate n none, List.replicate n 0, 0,
        instructions.map (fun i => i.dead_mask)⟩ := by
  refine ⟨rfl, ?_, ?_, ?_⟩
  · intro k lvl hk
    unfold arr_get at hk
    split_ifs at hk
    · have := List.getElem?_mem hk
      exact List.eq_of_mem_replicate this
  · intro r c p _ hg
    unfold arr_get at hg
    split_ifs at hg
    · have := List.getElem?_mem hg
      have := List.eq_of_mem_replicate this
      cases this
  · intro p m c hm hc
    have hmem := List.getElem?_mem hm
    simp only [List.mem_map] at hmem
    obtain ⟨inst, hin, he⟩ := hmem
    rw [hdead inst hin] at he
    rw [← he, Nat.zero_testBit] at hc
    cases hc

/-- C35: straight-line soundness of `eliminate_dead_code`.  On a list of
straight-line instructions (no loop or branch opcode, no relative addressing, an
undefined second destination, an empty dead mask) whose operands lie inside the
tables, the pass returns the final loop run with dead masks `dead_masks`, and
whenever the final loop takes channel `c` (below 4) out of the write-mask of the
first destination of the instruction at position `p`, by deleting the instruction
or by narrowing the mask, that destination is a temporary whose channel `c` the
instruction writes, and every later instruction that reads channel `c` of this
temporary comes after another instruction, later than `p`, that writes it. -/
theorem eliminate_dead_code_straight_line (next_temp : Int)
    (instructions : List glsl_to_tgsi_instruction)
    (hstraight : ∀ inst ∈ instructions, dce_straight_line inst)
    (hbounds : ∀ inst ∈ instructions, inst_in_bounds next_temp inst) :
    ∃ dead_masks,
      eliminate_dead_code_list next_temp instructions
        = some (dce_sweep instructions dead_masks)
      ∧ dead_masks.length = instructions.length
      ∧ ∀ (p : Nat) (inst : glsl_to_tgsi_instruction) (dead_mask c : Nat),
          instructions[p]? = some inst → dead_masks[p]? = some dead_mask → c < 4 →
          inst.dst0.writemask.testBit c = true →
          (∀ inst1, dce_sweep_inst inst dead_mask = some inst1 →
            inst1.dst0.writemask.testBit c = false) →
          dce_dead_channel instructions p c := by
  have hinit : dce_inv (fun _ => True) (next_temp.toNat * 4)
      (instructions.map (fun i => i.dead_mask))
      ⟨List.replicate (next_temp.toNat * 4) none, List.replicate (next_temp.toNat * 4) 0, 0,
        instructions.map (fun i => i.dead_mask)⟩ :=
    ⟨by simp, by simp, fun _ _ _ _ => trivial, rfl, fun _ _ => rfl, fun _ h => h⟩
  obtain ⟨st, hscan, -, -, hq, hdl, -, -⟩ :=
    dce_scan_inv (fun _ => True) (next_temp.toNat * 4) _ next_temp rfl instructions 0 _
      (fun i inst hi => ⟨hbounds inst (List.getElem?_mem hi), fun _ => trivial⟩) hinit
  have hinv := dce_scan_straight next_temp instructions [] _ st hstraight
    (dce_straight_inv_init (next_temp.toNat * 4) instructions
      (fun inst hin => (hstraight inst hin).2.2.2.2.2.2.2.2)) hscan
  rw [List.nil_append] at hinv
  obtain ⟨-, -, hW, hD⟩ := hinv
  obtain ⟨hlen, -, -⟩ := dce_mark_remaining_inv (fun _ => True) st.writes 0 st.dead_masks hq
  refine ⟨dce_mark_remaining st.writes 0 st.dead_masks, ?_, ?_, ?_⟩
  · unfold eliminate_dead_code_list
    simp only [hscan]
  · rw [hlen, hdl, List.length_map]
  · intro p inst dead_mask c hp hm hc hwm hrem
    have hbit := dce_sweep_inst_removed inst dead_mask c (by omega) hwm hrem
    rcases dce_mark_remaining_bits st.writes 0 st.dead_masks p dead_mask c hm hbit with
      ⟨m0, hm0, hb0⟩ | ⟨i, hi, hci⟩
    · exact dce_dead_channel_of_shadowed instructions p c (hD p m0 c hm0 hb0)
    · rw [Nat.zero_add] at hci
      have hget : arr_get st.writes (4 * ((i / 4 : Nat) : Int) + ((i % 4 : Nat) : Int))
          = some (some p) := by
        unfold arr_get
        rw [if_pos (by omega), show (4 * ((i / 4 : Nat) : Int) + ((i % 4 : Nat) : Int)).toNat = i
          by omega]
        exact hi
      have := hW _ (i % 4) p (Nat.mod_lt _ (by decide)) hget
      rw [← hci] at this
      exact dce_dead_channel_of_unread instructions p _ c this

/-- Witness for C35: the list `MOV TEMP[0], IN[0]; MOV TEMP[1], TEMP[0]` with two
temporaries is straight-line code with operands in bounds; the pass deletes its
second instruction, whose destination nothing reads. -/
theorem eliminate_dead_code_straight_line_witness :
    (∃ dead_masks,
      eliminate_dead_code_list 2 example_dead_chain
        = some (dce_sweep example_dead_chain dead_masks)
      ∧ dead_masks.length = example_dead_chain.length
      ∧ ∀ (p : Nat) (inst : glsl_to_tgsi_instruction) (dead_mask c : Nat),
          example_dead_chain[p]? = some inst → dead_masks[p]? = some dead_mask → c < 4 →
          inst.dst0.writemask.testBit c = true →
          (∀ inst1, dce_sweep_inst inst dead_mask = some inst1 →
            inst1.dst0.writemask.testBit c = false) →
          dce_dead_channel example_dead_chain p c)
    ∧ eliminate_dead_code_list 2 example_dead_chain
        = some (dce_sweep example_dead_chain [0, WRITEMASK_XYZW])
    ∧ dce_sweep example_dead_chain [0, WRITEMASK_XYZW]
        = ([example_inst TGSI_OPCODE_MOV (example_temp_dst 0) (example_input 0) undef_src 1],
            1) :=
  ⟨eliminate_dead_code_straight_line 2 example_dead_chain
    (by
      intro inst hinst
      simp only [example_dead_chain, List.mem_cons, List.mem_singleton, List.not_mem_nil,
        or_false] at hinst
      unfold dce_straight_line dce_control_flow
      rcases hinst with rfl | rfl <;>
        exact ⟨by decide, by decide, by decide, by decide, by decide,
          fun j _ hj => absurd hj (Nat.not_lt_zero j), by decide, by decide, by decide⟩)
    (by
      intro inst hinst
      simp only [example_dead_chain, List.mem_cons, List.mem_singleton, List.not_mem_nil,
        or_false] at hinst
      unfold inst_in_bounds temp_in_bounds
      rcases hinst with rfl | rfl <;>
        exact ⟨by decide, by decide, by decide, by decide,
          fun j hj => absurd hj (Nat.not_lt_zero j), by decide, by decide, by decide⟩),
    by decide!, by decide!⟩

/-! ## The two instructions of a double addition into a dvec2 -/

/-- The first source of a split double instruction: the channel pair and the
register are chosen by the component of the initial swizzle for channel `i`. -/
theorem emit_asm_split_src0 (op : tgsi_opcode) (inst0 dinst : glsl_to_tgsi_instruction)
    (i : Nat) (h : dinst.src0.type = GLSL_TYPE_DOUBLE) :
    (emit_asm_split op inst0 dinst i).src0.swizzle
        = (if GET_SWZ inst0.src0.swizzle i &&& 1 ≠ 0
            then MAKE_SWIZZLE4 SWIZZLE_Z SWIZZLE_W SWIZZLE_Z SWIZZLE_W
            else MAKE_SWIZZLE4 SWIZZLE_X SWIZZLE_Y SWIZZLE_X SWIZZLE_Y)
      ∧ (emit_asm_split op inst0 dinst i).src0.index
        = (if GET_SWZ inst0.src0.swizzle i > 1 then inst0.src0.index + 1
            else inst0.src0.index)
      ∧ (emit_asm_split op inst0 dinst i).src0.file = dinst.src0.file
      ∧ (emit_asm_split op inst0 dinst i).src0.type = GLSL_TYPE_DOUBLE := by
  simp only [emit_asm_split, h, if_true]
  refine ⟨?_, ?_, ?_, ?_⟩ <;> split_ifs <;> simp [h]

/-- The second source of a split double instruction: the channel pair and the
register are chosen by the component of the initial swizzle for channel `i`. -/
theorem emit_asm_split_src1 (op : tgsi_opcode) (inst0 dinst : glsl_to_tgsi_instruction)
    (i : Nat) (h : dinst.src1.type = GLSL_TYPE_DOUBLE) :
    (emit_asm_split op inst0 dinst i).src1.swizzle
        = (if GET_SWZ inst0.src1.swizzle i &&& 1 ≠ 0
            then MAKE_SWIZZLE4 SWIZZLE_Z SWIZZLE_W SWIZZLE_Z SWIZZLE_W
            else MAKE_SWIZZLE4 SWIZZLE_X SWIZZLE_Y SWIZZLE_X SWIZZLE_Y)
      ∧ (emit_asm_split op inst0 dinst i).src1.index
        = (if GET_SWZ inst0.src1.swizzle i > 1 then inst0.src1.index + 1
            else inst0.src1.index)
      ∧ (emit_asm_split op inst0 dinst i).src1.file = dinst.src1.file
      ∧ (emit_asm_split op inst0 dinst i).src1.type = GLSL_TYPE_DOUBLE := by
  simp only [emit_asm_split, h, if_true]
  refine ⟨?_, ?_, ?_, ?_⟩ <;> split_ifs <;> simp [h]

/-- C4 (amended): emitting a double-precision addition whose destination covers 2
components (logical write-mask XY, no relative addressing) appends exactly two
DADD instructions, both on the destination register itself (never on the next
register): the first with write-mask XY (logical x), the second with write-mask
ZW (logical y).  Each of the two sources is read, in the instruction for channel
`i`, through the pair ZWZW if the component of its swizzle for channel `i` is
odd and XYXY otherwise, at its own register if that component is x or y and at
the next register if it is z or w. -/
theorem emit_asm_dvec2_pairs (info : tgsi_opcode → tgsi_opcode_info) (ir : Option Nat)
    (dst : st_dst_reg) (src0 src1 : st_src_reg) (v : glsl_to_tgsi_visitor)
    (hty : dst.type = GLSL_TYPE_DOUBLE) (hwm : dst.writemask = WRITEMASK_XY)
    (hfile : dst.file ≠ PROGRAM_UNDEFINED)
    (hs0 : src0.type = GLSL_TYPE_DOUBLE) (hs1 : src1.type = GLSL_TYPE_DOUBLE)
    (hd : dst.reladdr = .NULL ∧ dst.reladdr2 = .NULL)
    (h0 : src0.reladdr = .NULL ∧ src0.reladdr2 = .NULL)
    (h1 : src1.reladdr = .NULL ∧ src1.reladdr2 = .NULL) :
    ∃ first second : glsl_to_tgsi_instruction,
      emit_asm1 info ir TGSI_OPCODE_ADD dst src0 src1 undef_src undef_src v
          = some ({ v with instructions := v.instructions ++ [first, second] },
              some (v.instructions.length + 1))
        ∧ first.op = TGSI_OPCODE_DADD ∧ second.op = TGSI_OPCODE_DADD
        ∧ first.dst0.writemask = WRITEMASK_XY ∧ second.dst0.writemask = WRITEMASK_ZW
        ∧ first.dst0.index = dst.index ∧ second.dst0.index = dst.index
        ∧ first.dst0.file = dst.file ∧ second.dst0.file = dst.file
        ∧ first.src0.swizzle = (if GET_SWZ src0.swizzle 0 &&& 1 ≠ 0
            then MAKE_SWIZZLE4 SWIZZLE_Z SWIZZLE_W SWIZZLE_Z SWIZZLE_W
            else MAKE_SWIZZLE4 SWIZZLE_X SWIZZLE_Y SWIZZLE_X SWIZZLE_Y)
        ∧ first.src1.swizzle = (if GET_SWZ src1.swizzle 0 &&& 1 ≠ 0
            then MAKE_SWIZZLE4 SWIZZLE_Z SWIZZLE_W SWIZZLE_Z SWIZZLE_W
            else MAKE_SWIZZLE4 SWIZZLE_X SWIZZLE_Y SWIZZLE_X SWIZZLE_Y)
        ∧ second.src0.swizzle = (if GET_SWZ src0.swizzle 1 &&& 1 ≠ 0
            then MAKE_SWIZZLE4 SWIZZLE_Z SWIZZLE_W SWIZZLE_Z SWIZZLE_W
            else MAKE_SWIZZLE4 SWIZZLE_X SWIZZLE_Y SWIZZLE_X SWIZZLE_Y)
        ∧ second.src1.swizzle = (if GET_SWZ src1.swizzle 1 &&& 1 ≠ 0
            then MAKE_SWIZZLE4 SWIZZLE_Z SWIZZLE_W SWIZZLE_Z SWIZZLE_W
            else MAKE_SWIZZLE4 SWIZZLE_X SWIZZLE_Y SWIZZLE_X SWIZZLE_Y)
        ∧ first.src0.index = (if GET_SWZ src0.swizzle 0 > 1 then src0.index + 1 else src0.index)
        ∧ first.src1.index = (if GET_SWZ src1.swizzle 0 > 1 then src1.index + 1 else src1.index)
        ∧ second.src0.index = (if GET_SWZ src0.swizzle 1 > 1 then src0.index + 1 else src0.index)
        ∧ second.src1.index = (if GET_SWZ src1.swizzle 1 > 1 then src1.index + 1 else src1.index)
        ∧ first.src0.file = src0.file ∧ first.src1.file = src1.file
        ∧ second.src0.file = src0.file ∧ second.src1.file = src1.file := by
  have hop : get_opcode v.native_integers TGSI_OPCODE_ADD dst src0 src1
      = some TGSI_OPCODE_DADD := by
    simp [get_opcode, get_opcode_type, hs0, hs1, get_opcode_switch, case3fid, case5]
  unfold emit_asm1
  rw [emit_asm_no_reladdr info ir _ dst undef_dst src0 src1 undef_src undef_src v hd
    ⟨rfl, rfl⟩ h0 h1 ⟨rfl, rfl⟩ ⟨rfl, rfl⟩, hop]
  let inst := new_instruction info ir TGSI_OPCODE_DADD dst undef_dst src0 src1 undef_src
    undef_src
  refine ⟨emit_asm_split TGSI_OPCODE_DADD inst inst 0,
    emit_asm_split TGSI_OPCODE_DADD inst (emit_asm_split TGSI_OPCODE_DADD inst inst 0) 1,
    ?_, ?_⟩
  · simp only [Option.map_some', emit_asm_double, inst, new_instruction, hty, true_or, if_true,
      if_neg hfile, hwm, bit_scan_list_xy, List.map, List.length_append, List.length_cons,
      List.length_nil]
    rfl
  · have a0 := emit_asm_split_src0 TGSI_OPCODE_DADD inst inst 0 hs0
    have a1 := emit_asm_split_src1 TGSI_OPCODE_DADD inst inst 0 hs1
    have b0 := emit_asm_split_src0 TGSI_OPCODE_DADD inst
      (emit_asm_split TGSI_OPCODE_DADD inst inst 0) 1 a0.2.2.2
    have b1 := emit_asm_split_src1 TGSI_OPCODE_DADD inst
      (emit_asm_split TGSI_OPCODE_DADD inst inst 0) 1 a1.2.2.2
    refine ⟨?_, ?_, ?_, ?_, ?_, ?_, ?_, ?_, a0.1, a1.1, b0.1, b1.1, a0.2.1, a1.2.1, b0.2.1,
      b1.2.1, a0.2.2.1, a1.2.2.1, b0.2.2.1.trans a0.2.2.1, b1.2.2.1.trans a1.2.2.1⟩ <;>
      simp [inst, emit_asm_split, new_instruction, hty]

/-- Witness for C4: the addition of `TEMP[2]` and `TEMP[3]` (swizzle XYZW) into
the dvec2 `TEMP[1]`. -/
theorem emit_asm_dvec2_pairs_witness :
    ∃ first second : glsl_to_tgsi_instruction,
      emit_asm1 (fun _ => ⟨1, 2, false, false⟩) none TGSI_OPCODE_ADD
          (st_dst_reg.ofIndex PROGRAM_TEMPORARY WRITEMASK_XY GLSL_TYPE_DOUBLE 1)
          (st_src_reg.ofType PROGRAM_TEMPORARY 2 GLSL_TYPE_DOUBLE)
          (st_src_reg.ofType PROGRAM_TEMPORARY 3 GLSL_TYPE_DOUBLE) undef_src undef_src
          (glsl_to_tgsi_visitor.init GL_VERTEX_PROGRAM_ARB MESA_SHADER_VERTEX false true)
          = some ({ (glsl_to_tgsi_visitor.init GL_VERTEX_PROGRAM_ARB MESA_SHADER_VERTEX false
                true) with
              instructions :=
                (glsl_to_tgsi_visitor.init GL_VERTEX_PROGRAM_ARB MESA_SHADER_VERTEX false
                  true).instructions ++ [first, second] },
              some ((glsl_to_tgsi_visitor.init GL_VERTEX_PROGRAM_ARB MESA_SHADER_VERTEX false
                true).instructions.length + 1))
        ∧ first.op = TGSI_OPCODE_DADD ∧ second.op = TGSI_OPCODE_DADD
        ∧ first.dst0.writemask = WRITEMASK_XY ∧ second.dst0.writemask = WRITEMASK_ZW
        ∧ first.dst0.index = 1 ∧ second.dst0.index = 1
        ∧ first.dst0.file = PROGRAM_TEMPORARY ∧ second.dst0.file = PROGRAM_TEMPORARY
        ∧ first.src0.swizzle = MAKE_SWIZZLE4 SWIZZLE_X SWIZZLE_Y SWIZZLE_X SWIZZLE_Y
        ∧ first.src1.swizzle = MAKE_SWIZZLE4 SWIZZLE_X SWIZZLE_Y SWIZZLE_X SWIZZLE_Y
        ∧ second.src0.swizzle = MAKE_SWIZZLE4 SWIZZLE_Z SWIZZLE_W SWIZZLE_Z SWIZZLE_W
        ∧ second.src1.swizzle = MAKE_SWIZZLE4 SWIZZLE_Z SWIZZLE_W SWIZZLE_Z SWIZZLE_W
        ∧ first.src0.index = 2 ∧ first.src1.index = 3
        ∧ second.src0.index = 2 ∧ second.src1.index = 3
        ∧ first.src0.file = PROGRAM_TEMPORARY ∧ first.src1.file = PROGRAM_TEMPORARY
        ∧ second.src0.file = PROGRAM_TEMPORARY ∧ second.src1.file = PROGRAM_TEMPORARY :=
  emit_asm_dvec2_pairs (fun _ => ⟨1, 2, false, false⟩) none
    (st_dst_reg.ofIndex PROGRAM_TEMPORARY WRITEMASK_XY GLSL_TYPE_DOUBLE 1)
    (st_src_reg.ofType PROGRAM_TEMPORARY 2 GLSL_TYPE_DOUBLE)
    (st_src_reg.ofType PROGRAM_TEMPORARY 3 GLSL_TYPE_DOUBLE)
    (glsl_to_tgsi_visitor.init GL_VERTEX_PROGRAM_ARB MESA_SHADER_VERTEX false true)
    (by decide) (by decide) (by decide) (by decide) (by decide) (by decide) (by decide)
    (by decide)

/-! ## Dead code and the two destinations of an instruction -/

/-- What one operand read leaves in `writes` was there before and is not a channel
the operand reads; a relatively addressed temporary operand leaves nothing. -/
theorem dce_read_general (src : st_src_reg) (writes w : List (Option Nat))
    (h : dce_read src writes = some w) :
    ∀ (r : Int) (c p : Nat), c < 4 → arr_get w (4 * r + (c : Int)) = some (some p) →
      arr_get writes (4 * r + (c : Int)) = some (some p) ∧ ¬ src_reads_chan src r c := by
  by_cases hrel : src.reladdr.isSet = false
  · exact dce_read_straight src writes w hrel h
  · have hrel1 : src.reladdr.isSet = true := by simpa using hrel
    by_cases hf : src.file = PROGRAM_TEMPORARY
    · unfold dce_read at h
      rw [if_pos ⟨hf, hrel1⟩] at h
      cases h
      intro r c p _ hg
      exfalso
      unfold arr_get at hg
      split_ifs at hg
      have hmem := List.getElem?_mem hg
      simp only [List.mem_map] at hmem
      obtain ⟨_, _, he⟩ := hmem
      cases he
    · unfold dce_read at h
      rw [if_neg (fun hh => hf hh.1), if_neg hf] at h
      cases h
      intro r c p _ hg
      exact ⟨hg, fun hh => hf hh.1⟩

/-- What the reads of an instruction leave in `writes` was there before and is not
a channel the instruction reads. -/
theorem dce_reads_general (inst : glsl_to_tgsi_instruction) (writes w : List (Option Nat))
    (h : dce_reads inst writes = some w) :
    ∀ (r : Int) (c p : Nat), c < 4 → arr_get w (4 * r + (c : Int)) = some (some p) →
      arr_get writes (4 * r + (c : Int)) = some (some p) ∧ ¬ inst_reads_chan inst r c := by
  unfold dce_reads at h
  cases e0 : dce_read inst.src0 writes with
  | none => simp only [e0] at h; cases h
  | some w0 =>
  cases e1 : dce_read inst.src1 w0 with
  | none => simp only [e0, e1] at h; cases h
  | some w1 =>
  cases e2 : dce_read inst.src2 w1 with
  | none => simp only [e0, e1, e2] at h; cases h
  | some w2 =>
  cases e3 : dce_read inst.src3 w2 with
  | none => simp only [e0, e1, e2, e3] at h; cases h
  | some w3 =>
  simp only [e0, e1, e2, e3] at h
  have key := loop_range_some
    (fun j (s : List (Option Nat)) => ∀ (r : Int) (c p : Nat), c < 4 →
      arr_get s (4 * r + (c : Int)) = some (some p) →
      arr_get w3 (4 * r + (c : Int)) = some (some p)
        ∧ ∀ i off, i < j → inst.tex_offsets i = some off → ¬ src_reads_chan off r c)
    inst.tex_offset_num_offset _ (fun j hj s s1 hP hstep => by
      intro r c p hc hg
      cases ho : inst.tex_offsets j with
      | none => rw [ho] at hstep; cases hstep
      | some off =>
        rw [ho] at hstep
        replace hstep : dce_read off s = some s1 := hstep
        obtain ⟨g1, g2⟩ := dce_read_general off s s1 hstep r c p hc hg
        obtain ⟨g3, g4⟩ := hP r c p hc g1
        refine ⟨g3, fun i off1 hi hoff => ?_⟩
        by_cases hlt : i < j
        · exact g4 i off1 hlt hoff
        · have : i = j := by omega
          subst this
          rw [ho] at hoff
          cases hoff
          exact g2)
    w3 w (fun r c p _ hg => ⟨hg, fun i _ hi => absurd hi (Nat.not_lt_zero i)⟩) h
  intro r c p hc hg
  obtain ⟨g, hoffs⟩ := key r c p hc hg
  obtain ⟨g3, n3⟩ := dce_read_general inst.src3 w2 w3 e3 r c p hc g
  obtain ⟨g2, n2⟩ := dce_read_general inst.src2 w1 w2 e2 r c p hc g3
  obtain ⟨g1, n1⟩ := dce_read_general inst.src1 w0 w1 e1 r c p hc g2
  obtain ⟨g0, n0⟩ := dce_read_general inst.src0 writes w0 e0 r c p hc g1
  refine ⟨g0, fun hh => ?_⟩
  rcases hh with hh | hh | hh | hh | ⟨j, off, hj, ho, hh⟩
  · exact n0 hh
  · exact n1 hh
  · exact n2 hh
  · exact n3 hh
  · exact hoffs j off hj ho hh

/-- A channel written again before it was read stays so when the list grows. -/
theorem dce_shadowed_either_append (pre rest : List glsl_to_tgsi_instruction) (p c : Nat)
    (h : dce_shadowed_either pre p c) : dce_shadowed_either (pre ++ rest) p c := by
  obtain ⟨hc, inst, r, hp, hw, p1, inst1, hlt, hp1, hw1, hno⟩ := h
  have hl1 := getElem?_some_lt pre p1 inst1 hp1
  refine ⟨hc, inst, r, ?_, hw, p1, inst1, hlt, ?_, hw1, ?_⟩
  · rw [List.getElem?_append_left (by omega)]
    exact hp
  · rw [List.getElem?_append_left hl1]
    exact hp1
  · intro q iq hq hq1 hget
    rw [List.getElem?_append_left (by omega)] at hget
    exact hno q iq hq hq1 hget

/-- A write no instruction has read since stays so after an instruction that does
not read its channel. -/
theorem dce_unread_either_snoc (pre : List glsl_to_tgsi_instruction)
    (inst : glsl_to_tgsi_instruction) (p : Nat) (r : Int) (c : Nat)
    (h : dce_unread_either pre p r c) (hn : ¬ inst_reads_chan inst r c) :
    dce_unread_either (pre ++ [inst]) p r c := by
  obtain ⟨instp, hp, hw, hno⟩ := h
  have hl := getElem?_some_lt pre p instp hp
  refine ⟨instp, ?_, hw, ?_⟩
  · rw [List.getElem?_append_left hl]
    exact hp
  · intro q iq hq hget
    by_cases hql : q < pre.length
    · rw [List.getElem?_append_left hql] at hget
      exact hno q iq hq hget
    · have hq2 := getElem?_some_lt _ q iq hget
      simp only [List.length_append, List.length_singleton] at hq2
      have hqe : q = pre.length := by omega
      subst hqe
      rw [List.getElem?_append_right (le_refl _)] at hget
      simp only [Nat.sub_self, List.getElem?_cons_zero, Option.some.injEq] at hget
      subst hget
      exact hn

/-- The invariant of the channel loop after the table updates of one channel of
the destination `dst` of `inst`. -/
theorem dce_general_record (pre : List glsl_to_tgsi_instruction)
    (inst : glsl_to_tgsi_instruction) (dst : st_dst_reg)
    (hdst : dst = inst.dst0 ∨ dst = inst.dst1) (j : Nat) (hj : j < 4) (st : dce_state)
    (hf : dst.file = PROGRAM_TEMPORARY) (hrel : dst.reladdr.isSet = false)
    (hbit : dst.writemask.testBit j = true)
    (hinv : dce_general_write_inv pre inst j st)
    (writes1 : List (Option Nat)) (levels1 : List Int) (dead_masks : List Nat)
    (hs1 : arr_set st.writes (4 * dst.index + (j : Int)) (some pre.length) = some writes1)
    (hD : ∀ p m c : Nat, dead_masks[p]? = some m → m.testBit c = true →
      dce_shadowed_either (pre ++ [inst]) p c) :
    dce_general_write_inv pre inst (j + 1)
      { st with writes := writes1, write_level := levels1, dead_masks := dead_masks } := by
  obtain ⟨hW, -⟩ := hinv
  refine ⟨?_, hD⟩
  intro r c p hc hg
  have hget := arr_get_arr_set st.writes writes1 _ (4 * r + (c : Int)) (some pre.length) hs1
  change arr_get writes1 (4 * r + (c : Int)) = some (some p) at hg
  rw [hget] at hg
  by_cases hke : 4 * r + (c : Int) = 4 * dst.index + (j : Int)
  · rw [if_pos hke] at hg
    have hp : p = pre.length := by
      simp only [Option.some.injEq] at hg
      exact hg.symm
    have hr : r = dst.index := by omega
    have hcj : c = j := by omega
    subst hp hr hcj
    have hwr : inst_writes_either inst dst.index c := by
      rcases hdst with hd | hd
      · exact Or.inl (hd ▸ ⟨hf, hrel, rfl, hbit⟩)
      · exact Or.inr (hd ▸ ⟨hf, hrel, rfl, hbit⟩)
    refine ⟨⟨inst, ?_, hwr, ?_⟩, fun _ => by omega⟩
    · rw [List.getElem?_append_right (le_refl _)]
      simp
    · intro q iq hq hget2
      have := getElem?_some_lt _ q iq hget2
      simp only [List.length_append, List.length_singleton] at this
      omega
  · rw [if_neg hke] at hg
    obtain ⟨h1, h2⟩ := hW r c p hc hg
    exact ⟨h1, fun hp => by have := h2 hp; omega⟩

/-- Recording one channel of a destination of an instruction keeps the invariant
of the channel loop. -/
theorem dce_write_chan_general (pre : List glsl_to_tgsi_instruction)
    (inst : glsl_to_tgsi_instruction) (dst : st_dst_reg)
    (hdst : dst = inst.dst0 ∨ dst = inst.dst1)
    (hf : dst.file = PROGRAM_TEMPORARY) (hrel : dst.reladdr.isSet = false)
    (j : Nat) (hj : j < 4) (st st1 : dce_state)
    (hinv : dce_general_write_inv pre inst j st)
    (h : dce_write_chan pre.length dst j st = some st1) :
    dce_general_write_inv pre inst (j + 1) st1 := by
  have hinv0 := hinv
  obtain ⟨hW, hD⟩ := hinv
  have hskip : dce_general_write_inv pre inst (j + 1) st := by
    refine ⟨?_, hD⟩
    intro r c p hc hg
    obtain ⟨h1, h2⟩ := hW r c p hc hg
    exact ⟨h1, fun hp => by have := h2 hp; omega⟩
  unfold dce_write_chan at h
  by_cases hbit : dst.writemask &&& (1 <<< j) ≠ 0
  · rw [if_pos hbit] at h
    have htb : dst.writemask.testBit j = true := by
      rw [Ne, and_one_shiftLeft_eq_zero, Bool.not_eq_false] at hbit
      exact hbit
    cases hg : arr_get st.writes (4 * dst.index + (j : Int)) with
    | none => simp only [hg] at h; cases h
    | some prev =>
    cases hlv : arr_get st.write_level (4 * dst.index + (j : Int)) with
    | none => simp only [hg, hlv] at h; cases h
    | some lvl =>
    cases hs1 : arr_set st.writes (4 * dst.index + (j : Int)) (some pre.length) with
    | none =>
      cases prev with
      | none => simp only [hg, hlv, hs1] at h; cases h
      | some q =>
        simp only [hg, hlv, hs1] at h
        split_ifs at h
        cases h
        exact hskip
    | some writes1 =>
    cases hs2 : arr_set st.write_level (4 * dst.index + (j : Int)) st.level with
    | none =>
      cases prev with
      | none => simp only [hg, hlv, hs1, hs2] at h; cases h
      | some q =>
        simp only [hg, hlv, hs1, hs2] at h
        split_ifs at h
        cases h
        exact hskip
    | some levels1 =>
    cases prev with
    | none =>
      simp only [hg, hlv, hs1, hs2, Option.some.injEq] at h
      subst h
      exact dce_general_record pre inst dst hdst j hj st hf hrel htb hinv0 writes1 levels1 _
        hs1 hD
    | some q =>
      simp only [hg, hlv, hs1, hs2] at h
      by_cases hlt : lvl < st.level
      · rw [if_pos hlt] at h
        cases h
        exact hskip
      · rw [if_neg hlt] at h
        cases h
        refine dce_general_record pre inst dst hdst j hj st hf hrel htb hinv0 writes1 levels1 _
          hs1 ?_
        intro p m c hm hc
        unfold mark_dead at hm
        rw [List.getElem?_modify] at hm
        cases hp : st.dead_masks[p]? with
        | none => rw [hp] at hm; cases hm
        | some m0 =>
          rw [hp] at hm
          by_cases hqp : q = p
          · subst hqp
            replace hm : m0 ||| 1 <<< j = m := by simpa using hm
            subst hm
            rw [Nat.testBit_or, Bool.or_eq_true] at hc
            rcases hc with hc | hc
            · exact hD q m0 c hp hc
            · rw [one_shiftLeft_testBit, decide_eq_true_eq] at hc
              subst hc
              obtain ⟨⟨instq, hq, hwq, hno⟩, hne⟩ := hW dst.index j q hj hg
              have hql := getElem?_some_lt _ q instq hq
              simp only [List.length_append, List.length_singleton] at hql
              have hqlt : q < pre.length := by
                by_contra hcon
                have := hne (by omega)
                omega
              have hwr : inst_writes_either inst dst.index j := by
                rcases hdst with hd | hd
                · exact Or.inl (hd ▸ ⟨hf, hrel, rfl, htb⟩)
                · exact Or.inr (hd ▸ ⟨hf, hrel, rfl, htb⟩)
              refine ⟨hj, instq, dst.index, hq, hwq, pre.length, inst, hqlt, ?_, hwr, ?_⟩
              · rw [List.getElem?_append_right (le_refl _)]
                simp
              · intro q1 iq h1 _ hget
                exact hno q1 iq h1 hget
          · replace hm : m0 = m := by simpa [hqp] using hm
            subst hm
            exact hD p m0 c hp hc
  · rw [if_neg hbit] at h
    cases h
    exact hskip

/-- Recording one destination of an instruction keeps the invariant of the channel
loop, from its start to some channel; the state changes only for a
temporary. -/
theorem dce_write_general (pre : List glsl_to_tgsi_instruction)
    (inst : glsl_to_tgsi_instruction) (dst : st_dst_reg)
    (hdst : dst = inst.dst0 ∨ dst = inst.dst1) (st st1 : dce_state)
    (hinv : dce_general_write_inv pre inst 0 st)
    (h : dce_write pre.length dst st = some st1) :
    (∃ j, dce_general_write_inv pre inst j st1)
    ∧ (st1 = st ∨ dst.file = PROGRAM_TEMPORARY) := by
  unfold dce_write at h
  by_cases hc : dst.file = PROGRAM_TEMPORARY ∧ dst.reladdr.isSet = false
  · rw [if_pos hc] at h
    have key := loop_range_some (fun j s => dce_general_write_inv pre inst j s) 4 _
      (fun j hj s s1 hP hstep =>
        dce_write_chan_general pre inst dst hdst hc.1 hc.2 j hj s s1 hP hstep)
      _ st1 hinv h
    exact ⟨⟨4, key⟩, Or.inr hc.1⟩
  · rw [if_neg hc] at h
    cases h
    exact ⟨⟨0, hinv⟩, Or.inl rfl⟩

/-- One step of the scan keeps the invariant. -/
theorem dce_step_general (next_temp : Int) (pre : List glsl_to_tgsi_instruction)
    (inst : glsl_to_tgsi_instruction) (st st1 : dce_state) (hok : dce_input_ok inst)
    (hinv : dce_general_inv pre st)
    (h : dce_step next_temp pre.length inst st = some st1) :
    dce_general_inv (pre ++ [inst]) st1 := by
  obtain ⟨-, hone, hcf⟩ := hok
  replace hone : inst.dst0.file ≠ PROGRAM_TEMPORARY ∨ inst.dst1.file ≠ PROGRAM_TEMPORARY :=
    hone.imp (fun h => by rw [h]; decide) (fun h => by rw [h]; decide)
  obtain ⟨hW, hD⟩ := hinv
  have hD1 : ∀ p m c : Nat, st.dead_masks[p]? = some m → m.testBit c = true →
      dce_shadowed_either (pre ++ [inst]) p c :=
    fun p m c hm hc => dce_shadowed_either_append pre [inst] p c (hD p m c hm hc)
  have hlt : ∀ (r : Int) (c p : Nat), dce_unread_either pre p r c → ¬ (p = pre.length) := by
    intro r c p hu hp
    obtain ⟨instp, hget, -⟩ := hu
    have := getElem?_some_lt pre p instp hget
    omega
  unfold dce_step at h
  by_cases ha : ¬ (inst.dst0.file ≠ PROGRAM_TEMPORARY ∨ inst.dst0.index < next_temp)
  · rw [if_pos ha] at h
    cases h
  · rw [if_neg ha] at h
    -- the state after the `switch`
    have hB : ∀ st2 : dce_state,
        (if inst.op = TGSI_OPCODE_BGNLOOP ∨ inst.op = TGSI_OPCODE_ENDLOOP
            ∨ inst.op = TGSI_OPCODE_CONT ∨ inst.op = TGSI_OPCODE_BRK then
          some { st with writes := st.writes.map (fun _ => none) }
        else if inst.op = TGSI_OPCODE_ENDIF ∨ inst.op = TGSI_OPCODE_ELSE then
          some { st with
            write_level := List.zipWith (fun w lvl =>
              match w with
              | none => lvl
              | some _ => if lvl = st.level then st.level - 1 else lvl) st.writes
                st.write_level,
            level := if inst.op = TGSI_OPCODE_ENDIF then st.level - 1 else st.level }
        else
          (dce_reads inst (if inst.op = TGSI_OPCODE_IF ∨ inst.op = TGSI_OPCODE_UIF then
              { st with level := st.level + 1 } else st).writes).map
            (fun w => { (if inst.op = TGSI_OPCODE_IF ∨ inst.op = TGSI_OPCODE_UIF then
              { st with level := st.level + 1 } else st) with writes := w })) = some st2 →
        dce_general_write_inv pre inst 0 st2 := by
      intro st2 hsw
      by_cases h1 : inst.op = TGSI_OPCODE_BGNLOOP ∨ inst.op = TGSI_OPCODE_ENDLOOP
          ∨ inst.op = TGSI_OPCODE_CONT ∨ inst.op = TGSI_OPCODE_BRK
      · rw [if_pos h1] at hsw
        cases hsw
        refine ⟨fun r c p _ hg => ?_, hD1⟩
        exfalso
        change arr_get (st.writes.map (fun _ => none)) _ = _ at hg
        unfold arr_get at hg
        split_ifs at hg
        have hmem := List.getElem?_mem hg
        simp only [List.mem_map] at hmem
        obtain ⟨_, _, he⟩ := hmem
        cases he
      · rw [if_neg h1] at hsw
        by_cases h2 : inst.op = TGSI_OPCODE_ENDIF ∨ inst.op = TGSI_OPCODE_ELSE
        · rw [if_pos h2] at hsw
          cases hsw
          refine ⟨fun r c p hc hg => ?_, hD1⟩
          have hu := hW r c p hc hg
          exact ⟨dce_unread_either_snoc pre inst p r c hu (hcf h2 r c),
            fun hp => absurd hp (hlt r c p hu)⟩
        · rw [if_neg h2] at hsw
          have hwr : (if inst.op = TGSI_OPCODE_IF ∨ inst.op = TGSI_OPCODE_UIF then
              { st with level := st.level + 1 } else st).writes = st.writes := by
            split_ifs <;> rfl
          have hdm : (if inst.op = TGSI_OPCODE_IF ∨ inst.op = TGSI_OPCODE_UIF then
              { st with level := st.level + 1 } else st).dead_masks = st.dead_masks := by
            split_ifs <;> rfl
          rw [hwr] at hsw
          cases hr : dce_reads inst st.writes with
          | none => rw [hr] at hsw; cases hsw
          | some w =>
            rw [hr] at hsw
            simp only [Option.map_some', Option.some.injEq] at hsw
            subst hsw
            refine ⟨fun r c p hc hg => ?_, fun p m c hm hc => hD1 p m c (hdm ▸ hm) hc⟩
            obtain ⟨g1, g2⟩ := dce_reads_general inst st.writes w hr r c p hc hg
            have hu := hW r c p hc g1
            exact ⟨dce_unread_either_snoc pre inst p r c hu g2,
              fun hp => absurd hp (hlt r c p hu)⟩
    have key : ∀ o : Option dce_state, (∀ st2, o = some st2 →
          dce_general_write_inv pre inst 0 st2) →
        (match o with
          | none => none
          | some st2 =>
            match dce_write pre.length inst.dst0 st2 with
            | none => none
            | some st3 => dce_write pre.length inst.dst1 st3) = some st1 →
        dce_general_inv (pre ++ [inst]) st1 := by
      intro o ho hm
      cases o with
      | none => cases hm
      | some st2 =>
        have hB2 := ho st2 rfl
        simp only at hm
        cases hw0 : dce_write pre.length inst.dst0 st2 with
        | none => rw [hw0] at hm; cases hm
        | some st3 =>
          rw [hw0] at hm
          simp only at hm
          obtain ⟨⟨j0, hj0⟩, hch0⟩ := dce_write_general pre inst inst.dst0 (Or.inl rfl) st2 st3
            hB2 hw0
          have hfin : ∃ j, dce_general_write_inv pre inst j st1 := by
            rcases hch0 with he | hf0
            · subst he
              exact (dce_write_general pre inst inst.dst1 (Or.inr rfl) st3 st1 hB2 hm).1
            · have hf1 : inst.dst1.file ≠ PROGRAM_TEMPORARY := by
                rcases hone with h0 | h1
                · exact absurd hf0 h0
                · exact h1
              unfold dce_write at hm
              rw [if_neg (fun hh => hf1 hh.1)] at hm
              cases hm
              exact ⟨j0, hj0⟩
          obtain ⟨j, hj⟩ := hfin
          exact ⟨fun r c p hc hg => (hj.1 r c p hc hg).1, hj.2⟩
    exact key _ hB h

/-- The scan keeps the invariant. -/
theorem dce_scan_general (next_temp : Int) :
    ∀ (rest pre : List glsl_to_tgsi_instruction) (st st1 : dce_state),
      (∀ inst ∈ rest, dce_input_ok inst) → dce_general_inv pre st →
      dce_scan next_temp rest pre.length st = some st1 →
      dce_general_inv (pre ++ rest) st1 := by
  intro rest
  induction rest with
  | nil =>
    intro pre st st1 _ hinv h
    simp only [dce_scan, Option.some.injEq] at h
    subst h
    rw [List.append_nil]
    exact hinv
  | cons inst rest ih =>
    intro pre st st1 hall hinv h
    simp only [dce_scan] at h
    cases hst : dce_step next_temp pre.length inst st with
    | none => simp only [hst] at h; cases h
    | some st2 =>
      simp only [hst] at h
      have hinv2 := dce_step_general next_temp pre inst st st2
        (hall inst (List.mem_cons_self _ _)) hinv hst
      have := ih (pre ++ [inst]) st2 st1 (fun i hi => hall i (List.mem_cons_of_mem _ hi)) hinv2
        (by simpa using h)
      simpa using this

/-- A channel written again before it was read is dead. -/
theorem dce_dead_destination_of_shadowed (instructions : List glsl_to_tgsi_instruction)
    (p c : Nat) (h : dce_shadowed_either instructions p c) :
    dce_dead_destination instructions p c := by
  obtain ⟨_, inst, r, hp, hw, p1, inst1, hlt, hp1, hw1, hno⟩ := h
  refine ⟨inst, r, hp, hw, fun q iq hq hget hread => ⟨p1, inst1, hlt, ?_, hp1, hw1⟩⟩
  by_contra hcon
  exact hno q iq hq (by omega) hget hread

/-- A channel no later instruction reads is dead. -/
theorem dce_dead_destination_of_unread (instructions : List glsl_to_tgsi_instruction)
    (p : Nat) (r : Int) (c : Nat) (h : dce_unread_either instructions p r c) :
    dce_dead_destination instructions p c := by
  obtain ⟨inst, hp, hw, hno⟩ := h
  exact ⟨inst, r, hp, hw, fun q iq hq hget hread => absurd hread (hno q iq hq hget)⟩

/-- The scan of `eliminate_dead_code` starts in the invariant when every dead mask
is empty. -/
theorem dce_general_inv_init (n : Nat) (instructions : List glsl_to_tgsi_instruction)
    (hdead : ∀ inst ∈ instructions, inst.dead_mask = 0) :
    dce_general_inv []
      ⟨List.replicate n none, List.replicate n 0, 0,
        instructions.map (fun i => i.dead_mask)⟩ := by
  refine ⟨?_, ?_⟩
  · intro r c p _ hg
    unfold arr_get at hg
    split_ifs at hg
    have := List.getElem?_mem hg
    have := List.eq_of_mem_replicate this
    cases this
  · intro p m c hm hc
    have hmem := List.getElem?_mem hm
    simp only [List.mem_map] at hmem
    obtain ⟨inst, hin, he⟩ := hmem
    rw [hdead inst hin] at he
    rw [← he, Nat.zero_testBit] at hc
    cases hc

/-- C36 (amended): what `eliminate_dead_code` removes is dead, for either
destination.  On a list with empty dead masks whose operands lie inside the
tables, in which every instruction has at most one defined destination and
`ELSE` and `ENDIF` read no temporary, the pass returns the final loop run with
dead masks `dead_masks`, and whenever the final loop takes channel `c` (below 4)
out of the write-mask of the first destination of the instruction at position
`p`, by deleting the instruction or by narrowing the mask, one of the two
destinations of that instruction, the first or the second, is a directly
addressed temporary with channel `c` in its write-mask, and every later
instruction of the list that reads channel `c` of this temporary comes after
another instruction, later than `p`, that writes it.  An instruction neither of
whose destinations is a temporary is never deleted or narrowed. -/
theorem eliminate_dead_code_dead_destination (next_temp : Int)
    (instructions : List glsl_to_tgsi_instruction)
    (hok : ∀ inst ∈ instructions, dce_input_ok inst)
    (hbounds : ∀ inst ∈ instructions, inst_in_bounds next_temp inst) :
    ∃ dead_masks,
      eliminate_dead_code_list next_temp instructions
        = some (dce_sweep instructions dead_masks)
      ∧ dead_masks.length = instructions.length
      ∧ (∀ (p : Nat) (inst : glsl_to_tgsi_instruction) (dead_mask c : Nat),
          instructions[p]? = some inst → dead_masks[p]? = some dead_mask → c < 4 →
          inst.dst0.writemask.testBit c = true →
          (∀ inst1, dce_sweep_inst inst dead_mask = some inst1 →
            inst1.dst0.writemask.testBit c = false) →
          dce_dead_destination instructions p c)
      ∧ ∀ (p : Nat) (inst : glsl_to_tgsi_instruction) (dead_mask : Nat),
          instructions[p]? = some inst → dead_masks[p]? = some dead_mask →
          inst.dst0.file ≠ PROGRAM_TEMPORARY → inst.dst1.file ≠ PROGRAM_TEMPORARY →
          dce_sweep_inst inst dead_mask = some inst := by
  have hinit : dce_inv (fun _ => True) (next_temp.toNat * 4)
      (instructions.map (fun i => i.dead_mask))
      ⟨List.replicate (next_temp.toNat * 4) none, List.replicate (next_temp.toNat * 4) 0, 0,
        instructions.map (fun i => i.dead_mask)⟩ :=
    ⟨by simp, by simp, fun _ _ _ _ => trivial, rfl, fun _ _ => rfl, fun _ h => h⟩
  obtain ⟨st, hscan, -, -, hq, hdl, -, -⟩ :=
    dce_scan_inv (fun _ => True) (next_temp.toNat * 4) _ next_temp rfl instructions 0 _
      (fun i inst hi => ⟨hbounds inst (List.getElem?_mem hi), fun _ => trivial⟩) hinit
  have hinv := dce_scan_general next_temp instructions [] _ st hok
    (dce_general_inv_init (next_temp.toNat * 4) instructions
      (fun inst hin => (hok inst hin).1)) hscan
  rw [List.nil_append] at hinv
  obtain ⟨hW, hD⟩ := hinv
  obtain ⟨hlen, -, -⟩ := dce_mark_remaining_inv (fun _ => True) st.writes 0 st.dead_masks hq
  have hbits : ∀ (p dead_mask c : Nat),
      (dce_mark_remaining st.writes 0 st.dead_masks)[p]? = some dead_mask →
      dead_mask.testBit c = true → dce_dead_destination instructions p c := by
    intro p dead_mask c hm hbit
    rcases dce_mark_remaining_bits st.writes 0 st.dead_masks p dead_mask c hm hbit with
      ⟨m0, hm0, hb0⟩ | ⟨i, hi, hci⟩
    · exact dce_dead_destination_of_shadowed instructions p c (hD p m0 c hm0 hb0)
    · rw [Nat.zero_add] at hci
      have hget : arr_get st.writes (4 * ((i / 4 : Nat) : Int) + ((i % 4 : Nat) : Int))
          = some (some p) := by
        unfold arr_get
        rw [if_pos (by omega), show (4 * ((i / 4 : Nat) : Int) + ((i % 4 : Nat) : Int)).toNat = i
          by omega]
        exact hi
      have := hW _ (i % 4) p (Nat.mod_lt _ (by decide)) hget
      rw [← hci] at this
      exact dce_dead_destination_of_unread instructions p _ c this
  refine ⟨dce_mark_remaining st.writes 0 st.dead_masks, ?_, ?_, ?_, ?_⟩
  · unfold eliminate_dead_code_list
    simp only [hscan]
  · rw [hlen, hdl, List.length_map]
  · intro p inst dead_mask c hp hm hc hwm hrem
    exact hbits p dead_mask c hm (dce_sweep_inst_removed inst dead_mask c (by omega) hwm hrem)
  · intro p inst dead_mask hp hm hf0 hf1
    have hzero : dead_mask = 0 := by
      apply Nat.eq_of_testBit_eq
      intro c
      rw [Nat.zero_testBit]
      cases hb : dead_mask.testBit c with
      | false => rfl
      | true =>
        exfalso
        obtain ⟨inst1, r, hp1, hw, -⟩ := hbits p dead_mask c hm hb
        rw [hp] at hp1
        cases hp1
        rcases hw with hw | hw
        · exact hf0 hw.1
        · exact hf1 hw.1
    subst hzero
    have hd : inst.dead_mask = 0 := (hok inst (List.getElem?_mem hp)).1
    unfold dce_sweep_inst
    simp only [true_or, if_true]
    cases inst
    simp only at hd
    subst hd
    rfl


/-- Witness for C36 (amended): the theorem on the exponent instructions of a
`dvec4` followed by a `MOV` that reads the first exponent. -/
theorem eliminate_dead_code_dead_destination_witness :
    ∃ dead_masks,
      eliminate_dead_code_list 1 example_exponents
        = some (dce_sweep example_exponents dead_masks)
      ∧ dead_masks.length = example_exponents.length
      ∧ (∀ (p : Nat) (inst : glsl_to_tgsi_instruction) (dead_mask c : Nat),
          example_exponents[p]? = some inst → dead_masks[p]? = some dead_mask → c < 4 →
          inst.dst0.writemask.testBit c = true →
          (∀ inst1, dce_sweep_inst inst dead_mask = some inst1 →
            inst1.dst0.writemask.testBit c = false) →
          dce_dead_destination example_exponents p c)
      ∧ ∀ (p : Nat) (inst : glsl_to_tgsi_instruction) (dead_mask : Nat),
          example_exponents[p]? = some inst → dead_masks[p]? = some dead_mask →
          inst.dst0.file ≠ PROGRAM_TEMPORARY → inst.dst1.file ≠ PROGRAM_TEMPORARY →
          dce_sweep_inst inst dead_mask = some inst :=
  eliminate_dead_code_dead_destination 1 example_exponents
    (by
      intro inst hinst
      simp only [example_exponents, example_exponent_instructions, List.cons_append,
        List.nil_append, List.mem_cons, List.mem_singleton, List.not_mem_nil, or_false]
        at hinst
      unfold dce_input_ok
      rcases hinst with rfl | rfl | rfl | rfl | rfl <;>
        exact ⟨by decide, by decide, fun h => absurd h (by decide)⟩)
    (by
      intro inst hinst
      simp only [example_exponents, example_exponent_instructions, List.cons_append,
        List.nil_append, List.mem_cons, List.mem_singleton, List.not_mem_nil, or_false]
        at hinst
      unfold inst_in_bounds temp_in_bounds
      rcases hinst with rfl | rfl | rfl | rfl | rfl <;>
        exact ⟨by decide, by decide, by decide, by decide,
          fun j hj => absurd hj (Nat.not_lt_zero j), by decide, by decide, by decide⟩)

/-- C36 (as stated, refuted): the pass deletes an instruction whose first
destination is not a temporary.  For the exponent of a `dvec4`, `emit_asm` builds
four `DFRACEXP` instructions with an undefined first destination, whose
write-mask is bit `i` of that of `undef_dst` (so W for the fourth), and channel
`i` of the temporary as second destination.  Followed by a `MOV` that reads the
first exponent only, all dead masks being empty, the pass deletes the fourth
instruction, whose first destination is undefined, and keeps the three others,
the second and third with their dead channel recorded. -/
theorem eliminate_dead_code_exponent_counterexample :
    (emit_asm (fun _ => ⟨2, 1, false, false⟩) none TGSI_OPCODE_DFRACEXP undef_dst
        (st_dst_reg.ofIndex PROGRAM_TEMPORARY WRITEMASK_XYZW GLSL_TYPE_INT 0)
        example_double_input undef_src undef_src undef_src
        example_visitor_native).map (fun r => r.1.instructions)
      = some example_exponent_instructions
    ∧ (∀ inst ∈ example_exponents, inst.dead_mask = 0)
    ∧ (example_exponents[3]?).map
        (fun inst => (inst.dst0.file, inst.dst0.writemask, inst.dst1.file,
          inst.dst1.writemask))
      = some (PROGRAM_UNDEFINED, WRITEMASK_W, PROGRAM_TEMPORARY, WRITEMASK_W)
    ∧ eliminate_dead_code_list 1 example_exponents
      = some ([example_exponent 0 0
                (MAKE_SWIZZLE4 SWIZZLE_X SWIZZLE_Y SWIZZLE_X SWIZZLE_Y) false,
              { example_exponent 1 0
                  (MAKE_SWIZZLE4 SWIZZLE_Z SWIZZLE_W SWIZZLE_Z SWIZZLE_W) false with
                dead_mask := WRITEMASK_Y },
              { example_exponent 2 1
                  (MAKE_SWIZZLE4 SWIZZLE_X SWIZZLE_Y SWIZZLE_X SWIZZLE_Y) true with
                dead_mask := WRITEMASK_Z },
              example_inst TGSI_OPCODE_MOV (example_output_dst 0)
                ((example_temp 0).set_swizzle SWIZZLE_XXXX) undef_src 1], 1) := by
  refine ⟨by decide!, by decide, by decide, by decide!⟩
